import Mathlib

/-!
# Berkeley DB SQL adapter (`sql/adapter/btree.c`): a verification development

A shallow embedding of the parts of `btree.c` that carry the adapter's
contracts: the integer key codec, table-id allocation, the cursor tripping
protocol, cursor restore, the shared-handle registry and the transaction
chain.

Conventions of the embedding

* C `int` and `i64` values are `Int`; `u_int64_t` values are `Nat` reduced
  modulo `2 ^ 64` where the C code can wrap.  Bytes are `Nat` below 256.
* Memory reached through a `u_int8_t *` is a function `Nat → Nat` from an
  address (offset from the pointer) to the byte stored there.
* Heap objects (`BtShared`, `Btree`, `BtCursor`, `DB_TXN`, `DBC`, `DB`) live
  in stores indexed by `Nat` addresses; a C pointer is an `Option Nat`.
* Memory allocation is taken to succeed.
* Calls into the storage engine return the status the engine semantics
  gives them, unless the fault script of the world holds an injected status
  for the call.
-/

namespace BerkeleyDB

/-! ## Status codes (`sqlite3.h`, `db.h`, `errno.h`) -/

def SQLITE_OK : Int := 0
def SQLITE_ERROR : Int := 1
def SQLITE_PERM : Int := 3
def SQLITE_ABORT : Int := 4
def SQLITE_BUSY : Int := 5
def SQLITE_LOCKED : Int := 6
def SQLITE_NOMEM : Int := 7
def SQLITE_READONLY : Int := 8
def SQLITE_IOERR : Int := 10
def SQLITE_CORRUPT : Int := 11
def SQLITE_NOTFOUND : Int := 12
def SQLITE_FULL : Int := 13
def SQLITE_CANTOPEN : Int := 14
def SQLITE_EMPTY : Int := 16
def SQLITE_CONSTRAINT : Int := 19

def DB_LOCK_DEADLOCK : Int := -30993
def DB_LOCK_NOTGRANTED : Int := -30992
def DB_NOTFOUND : Int := -30988
def DB_RUNRECOVERY : Int := -30973
def DB_BUFFER_SMALL : Int := -30999

def EPERM : Int := 1
def ENOENT : Int := 2
def EIO : Int := 5
def ENOMEM : Int := 12
def EACCES : Int := 13
def EINVAL : Int := 22
def ENOSPC : Int := 28

/-- `dberr2sqlite` (btree.c:152). -/
def dberr2sqlite (err : Int) : Int :=
  if err = 0 then SQLITE_OK
  else if err = DB_LOCK_DEADLOCK then SQLITE_BUSY
  else if err = DB_LOCK_NOTGRANTED then SQLITE_BUSY
  else if err = DB_NOTFOUND then SQLITE_NOTFOUND
  else if err = DB_RUNRECOVERY then SQLITE_CORRUPT
  else if err = EACCES then SQLITE_READONLY
  else if err = EIO then SQLITE_IOERR
  else if err = EPERM then SQLITE_PERM
  else if err = ENOMEM then SQLITE_NOMEM
  else if err = ENOENT then SQLITE_CANTOPEN
  else if err = ENOSPC then SQLITE_FULL
  else SQLITE_ERROR

/-- `dberr2sqlitelocked` (btree.c:185). -/
def dberr2sqlitelocked (err : Int) : Int :=
  let rc := dberr2sqlite err
  if rc = SQLITE_BUSY then SQLITE_LOCKED else rc

/-- The macro `MAP_ERR(rc, ret)` (btree.c:137). -/
def MAP_ERR (rc ret : Int) : Int :=
  if rc ≠ SQLITE_OK then rc else if ret = 0 then SQLITE_OK else dberr2sqlite ret

/-- The macro `MAP_ERR_LOCKED(rc, ret)` (btree.c:140). -/
def MAP_ERR_LOCKED (rc ret : Int) : Int :=
  if rc ≠ SQLITE_OK then rc else if ret = 0 then SQLITE_OK else dberr2sqlitelocked ret

/-! ## Key codec -/

def CMP_INT_1BYTE_MAX : Nat := 0x7F
def CMP_INT_2BYTE_MAX : Nat := 0x407F
def CMP_INT_3BYTE_MAX : Nat := 0x20407F
def CMP_INT_4BYTE_MAX : Nat := 0x1020407F
def CMP_INT_5BYTE_MAX : Nat := 0x081020407F
def CMP_INT_6BYTE_MAX : Nat := 0x01081020407F
def CMP_INT_7BYTE_MAX : Nat := 0x0101081020407F
def CMP_INT_8BYTE_MAX : Nat := 0x010101081020407F

def CMP_INT_2BYTE_VAL : Nat := 0x80
def CMP_INT_3BYTE_VAL : Nat := 0xC0
def CMP_INT_4BYTE_VAL : Nat := 0xE0
def CMP_INT_5BYTE_VAL : Nat := 0xF0
def CMP_INT_6BYTE_VAL : Nat := 0xF8
def CMP_INT_7BYTE_VAL : Nat := 0xF9
def CMP_INT_8BYTE_VAL : Nat := 0xFA
def CMP_INT_9BYTE_VAL : Nat := 0xFB

def CMP_INT_2BYTE_MASK : Nat := 0x3F
def CMP_INT_3BYTE_MASK : Nat := 0x1F
def CMP_INT_4BYTE_MASK : Nat := 0x0F
def CMP_INT_5BYTE_MASK : Nat := 0x07

/-- Byte `k` of a 64-bit word, `k = 0` the least significant one: what
`((u_int8_t *)&i)[k]` is on a little-endian host and `[7 - k]` on a
big-endian one. -/
def byteOf (i k : Nat) : Nat := (i / 256 ^ k) % 256

/-- Modelled from the spec: `__dbsql_compress_int` is called by `encodeI64`
but not defined in `btree.c`.  It is Berkeley DB's variable-length unsigned
encoding "optimized for small magnitudes": values up to `0x7F` take one byte,
and each longer form stores, big-endian, the excess over the previous form's
maximum, the first byte carrying the length marker.  This is the list of
bytes the function writes; its return value is the length of the list. -/
def compressBytes (i : Nat) : List Nat :=
  if i ≤ CMP_INT_1BYTE_MAX then [i]
  else if i ≤ CMP_INT_2BYTE_MAX then
    let j := i - (CMP_INT_1BYTE_MAX + 1)
    [byteOf j 1 ||| CMP_INT_2BYTE_VAL, byteOf j 0]
  else if i ≤ CMP_INT_3BYTE_MAX then
    let j := i - (CMP_INT_2BYTE_MAX + 1)
    [byteOf j 2 ||| CMP_INT_3BYTE_VAL, byteOf j 1, byteOf j 0]
  else if i ≤ CMP_INT_4BYTE_MAX then
    let j := i - (CMP_INT_3BYTE_MAX + 1)
    [byteOf j 3 ||| CMP_INT_4BYTE_VAL, byteOf j 2, byteOf j 1, byteOf j 0]
  else if i ≤ CMP_INT_5BYTE_MAX then
    let j := i - (CMP_INT_4BYTE_MAX + 1)
    [byteOf j 4 ||| CMP_INT_5BYTE_VAL, byteOf j 3, byteOf j 2, byteOf j 1, byteOf j 0]
  else if i ≤ CMP_INT_6BYTE_MAX then
    let j := i - (CMP_INT_5BYTE_MAX + 1)
    [CMP_INT_6BYTE_VAL, byteOf j 4, byteOf j 3, byteOf j 2, byteOf j 1, byteOf j 0]
  else if i ≤ CMP_INT_7BYTE_MAX then
    let j := i - (CMP_INT_6BYTE_MAX + 1)
    [CMP_INT_7BYTE_VAL, byteOf j 5, byteOf j 4, byteOf j 3, byteOf j 2, byteOf j 1,
      byteOf j 0]
  else if i ≤ CMP_INT_8BYTE_MAX then
    let j := i - (CMP_INT_7BYTE_MAX + 1)
    [CMP_INT_8BYTE_VAL, byteOf j 6, byteOf j 5, byteOf j 4, byteOf j 3, byteOf j 2,
      byteOf j 1, byteOf j 0]
  else
    let j := i - (CMP_INT_8BYTE_MAX + 1)
    [CMP_INT_9BYTE_VAL, byteOf j 7, byteOf j 6, byteOf j 5, byteOf j 4, byteOf j 3,
      byteOf j 2, byteOf j 1, byteOf j 0]

/-- Writing a list of bytes into memory at offset `off`. -/
def store (buf : Nat → Nat) (off : Nat) (bs : List Nat) : Nat → Nat :=
  fun a => if off ≤ a ∧ a < off + bs.length then bs.getD (a - off) 0 else buf a

/-- `__dbsql_compress_int(buf + off, i)`: the memory after the call and the
number of bytes written. -/
def dbsql_compress_int (buf : Nat → Nat) (off : Nat) (i : Nat) : (Nat → Nat) × Int :=
  (store buf off (compressBytes i), (compressBytes i).length)

/-- The table `__db_marshaled_int_size`, indexed by the first byte. -/
def db_marshaled_int_size (c : Nat) : Nat :=
  if c < 0x80 then 1
  else if c < 0xC0 then 2
  else if c < 0xE0 then 3
  else if c < 0xF0 then 4
  else if c < 0xF8 then 5
  else if c = 0xF8 then 6
  else if c = 0xF9 then 7
  else if c = 0xFA then 8
  else if c = 0xFB then 9
  else 0xFF

/-- Modelled from the spec: `__dbsql_decompress_int`, the inverse of
`__dbsql_compress_int`, called by `decodeI64` but not defined in `btree.c`.
It reads the length from the first byte, rebuilds the stored excess from the
following bytes (most significant first) and adds the previous form's maximum
plus one, in `u_int64_t` arithmetic.  The result is the decoded value and the
number of bytes consumed. -/
def dbsql_decompress_int (buf : Nat → Nat) : Nat × Int :=
  let c := buf 0
  let len := db_marshaled_int_size c
  if len = 1 then (c, 1)
  else if len = 2 then
    (((c &&& CMP_INT_2BYTE_MASK) * 256 + buf 1 + (CMP_INT_1BYTE_MAX + 1)) % 2 ^ 64, 2)
  else if len = 3 then
    ((((c &&& CMP_INT_3BYTE_MASK) * 256 + buf 1) * 256 + buf 2 + (CMP_INT_2BYTE_MAX + 1))
      % 2 ^ 64, 3)
  else if len = 4 then
    (((((c &&& CMP_INT_4BYTE_MASK) * 256 + buf 1) * 256 + buf 2) * 256 + buf 3
      + (CMP_INT_3BYTE_MAX + 1)) % 2 ^ 64, 4)
  else if len = 5 then
    ((((((c &&& CMP_INT_5BYTE_MASK) * 256 + buf 1) * 256 + buf 2) * 256 + buf 3) * 256 + buf 4
      + (CMP_INT_4BYTE_MAX + 1)) % 2 ^ 64, 5)
  else if len = 6 then
    ((((((buf 1 * 256 + buf 2) * 256 + buf 3) * 256 + buf 4) * 256 + buf 5)
      + (CMP_INT_5BYTE_MAX + 1)) % 2 ^ 64, 6)
  else if len = 7 then
    (((((((buf 1 * 256 + buf 2) * 256 + buf 3) * 256 + buf 4) * 256 + buf 5) * 256 + buf 6)
      + (CMP_INT_6BYTE_MAX + 1)) % 2 ^ 64, 7)
  else if len = 8 then
    ((((((((buf 1 * 256 + buf 2) * 256 + buf 3) * 256 + buf 4) * 256 + buf 5) * 256 + buf 6)
      * 256 + buf 7) + (CMP_INT_7BYTE_MAX + 1)) % 2 ^ 64, 8)
  else if len = 9 then
    (((((((((buf 1 * 256 + buf 2) * 256 + buf 3) * 256 + buf 4) * 256 + buf 5) * 256 + buf 6)
      * 256 + buf 7) * 256 + buf 8) + (CMP_INT_8BYTE_MAX + 1)) % 2 ^ 64, 9)
  else (0, len)

/-- The macro `__INT64_MAX` (btree.c:231). -/
def INT64_MAX : Int := 0x7fffffff * 2 ^ 32 + 0xffffffff

/-- The C cast `(u_int64_t)num`. -/
def toU64 (num : Int) : Nat := (num % 2 ^ 64).toNat

/-- The C cast `(i64)num`. -/
def toI64 (num : Nat) : Int :=
  if num % 2 ^ 64 < 2 ^ 63 then ((num % 2 ^ 64 : Nat) : Int)
  else ((num % 2 ^ 64 : Nat) : Int) - 2 ^ 64

/-- `encodeI64` (btree.c:233): the buffer after the call and the returned
size.  `buf` is the caller's buffer before the call. -/
def encodeI64 (buf : Nat → Nat) (num : Int) : (Nat → Nat) × Int :=
  if 0 ≤ num ∧ num < INT64_MAX then
    let r := dbsql_compress_int buf 0 (toU64 (num + 1))
    (r.1, r.2 + 0)
  else if num = INT64_MAX then
    let buf1 := Function.update buf 9 1
    let r := dbsql_compress_int buf1 0 (toU64 num)
    (r.1, r.2 + 1)
  else
    let buf1 := Function.update buf 0 0
    let r := dbsql_compress_int buf1 1 (toU64 num)
    (r.1, r.2 + 1)

/-- `decodeI64` (btree.c:260). -/
def decodeI64 (data : Nat → Nat) (size : Int) : Int :=
  if data 0 = 0 then
    let r := dbsql_decompress_int (fun k => data (k + 1))
    toI64 r.1
  else
    let r := dbsql_decompress_int data
    if r.2 = size then toI64 ((r.1 + 2 ^ 64 - 1) % 2 ^ 64) else toI64 r.1

/-- The first `n` bytes of a buffer. -/
def bytesOf (buf : Nat → Nat) (n : Int) : List Nat := (List.range n.toNat).map buf

/-- Plain byte-lexicographic comparison, a proper prefix sorting first. -/
def bytesLt : List Nat → List Nat → Bool
  | [], [] => false
  | [], _ :: _ => true
  | _ :: _, [] => false
  | a :: as, b :: bs => decide (a < b) || (a == b && bytesLt as bs)

/-- The encoded key of `num`: the bytes `encodeI64` leaves in a zeroed buffer. -/
def encKey (num : Int) : List Nat :=
  bytesOf (encodeI64 (fun _ => 0) num).1 (encodeI64 (fun _ => 0) num).2

/-! ## Constants of `sqliteInt.h`, `btree.h`, `btreeInt.h` and `db.h` -/

def SQLITE_INTERNAL : Int := 2
def SQLITE_LOCKED_SHAREDCACHE : Int := 262

def TRANS_NONE : Int := 0
def TRANS_READ : Int := 1
def TRANS_WRITE : Int := 2

def LOCKMODE_NONE : Int := 0
def LOCKMODE_READ : Int := 1
def LOCKMODE_WRITE : Int := 2

def SAVEPOINT_BEGIN : Int := 0
def SAVEPOINT_RELEASE : Int := 1
def SAVEPOINT_ROLLBACK : Int := 2

def BTREE_INTKEY : Nat := 1
def BTREE_ZERODATA : Nat := 2
def BTREE_LEAFDATA : Nat := 4

def BTREE_OMIT_JOURNAL : Nat := 1
def BTREE_MEMORY : Nat := 4

def SQLITE_OPEN_READONLY : Nat := 0x1
def SQLITE_OPEN_CREATE : Nat := 0x4
def SQLITE_OPEN_TRANSIENT_DB : Nat := 0x400
def SQLITE_OPEN_SHAREDCACHE : Nat := 0x20000

def SQLITE_ReadUncommitted : Nat := 0x4000

def DB_CREATE : Nat := 0x1
def DB_THREAD : Nat := 0x20
def DB_READ_UNCOMMITTED : Nat := 0x200
def DB_RDONLY : Nat := 0x400

def MASTER_ROOT : Int := 1

/-- A C `int` result: the value wrapped to 32 bits, two's complement. -/
def wrap32 (x : Int) : Int := (x + 2 ^ 31) % 2 ^ 32 - 2 ^ 31

/-- The cursor states of `btreeInt.h`. -/
inductive CursorState where
  | CURSOR_INVALID
  | CURSOR_VALID
  | CURSOR_REQUIRESEEK
  | CURSOR_FAULT
  deriving DecidableEq

/-- The type `storage_mode_t` of `btreeInt.h`. -/
inductive storage_mode_t where
  | DB_STORE_NAMED
  | DB_STORE_TMP
  | DB_STORE_INMEM
  deriving DecidableEq

/-- The type `cleanup_mode_t` of `btreeInt.h`. -/
inductive cleanup_mode_t where
  | CLEANUP_COMMIT
  | CLEANUP_ABORT
  | CLEANUP_CLOSE
  deriving DecidableEq

/-- The positioning flags of `DBC->get` that the adapter uses. -/
inductive GetOp where
  | DB_FIRST
  | DB_LAST
  | DB_NEXT
  | DB_PREV
  | DB_SET
  | DB_SET_RANGE
  deriving DecidableEq

/-! ## Engine objects -/

/-- An engine transaction handle, `DB_TXN`: its `parent` field and whether it
was begun with `DB_TXN_FAMILY`. -/
structure DB_TXN where
  parent : Option Nat
  family : Bool
  deriving DecidableEq

/-- The rows of a physical table, in key order. -/
abbrev Rows := List (List Nat × List Nat)

/-- An engine database handle, `DB`: the physical table it is open on, its
`cur_txn` field, the flag `DB_AM_OPEN_CALLED`, and whether the adapter's
comparator `btreeCompare` was installed. -/
structure DB where
  tid : Nat
  cur_txn : Option Nat
  open_called : Bool
  general : Bool
  deriving DecidableEq

/-- An engine cursor, `DBC`: its database handle `dbp`, its transaction `txn`
and the key it is positioned on. -/
structure DBC where
  dbp : Nat
  txn : Option Nat
  pos : Option (List Nat)
  deriving DecidableEq

/-- Calls into the engine that end a transaction, a cursor, a handle or an
environment, in the order they were made. -/
inductive Event where
  | txn_begin (t : Nat) (parent : Option Nat)
  | txn_commit (t : Nat)
  | txn_abort (t : Nat)
  | dbc_close (c : Nat)
  | db_close (h : Nat)
  | env_close (e : Nat)
  | env_checkpoint (e : Nat)
  deriving DecidableEq

/-! ## Adapter objects -/

/-- The fields of `struct sqlite3` that `btree.c` reads: the attached
databases `aDb[i].pBt`, `nSavepoint`, `activeVdbeCnt` and `flags`. -/
structure sqlite3 where
  aDb : List (Option Nat)
  nSavepoint : Int
  activeVdbeCnt : Int
  flags : Nat

/-- A `DBT`: the bytes `data` points to (`none` for NULL), `size`, the flag
`DB_DBT_APPMALLOC`, and whether `app_data` holds an unpacked key. -/
structure DBT where
  data : Option (List Nat)
  size : Nat
  appmalloc : Bool
  app_data : Bool
  deriving DecidableEq

/-- An entry of the handle cache, `CACHED_DB`. -/
structure CACHED_DB where
  dbp : Option Nat
  flags : Nat
  created : Bool
  deriving DecidableEq

/-- The fields of `BtCursor` (`btreeInt.h`).  `multiData` is the bulk buffer
(`none` when `multiData.data` is NULL), `multiGetPtr` the index of the next
record to read from it and `multiPutPtr` whether the buffer is open for
appending (`none` for NULL). -/
structure BtCursor where
  pBtree : Option Nat
  tableIndex : Int
  wrFlag : Bool
  eState : CursorState
  error : Int
  lastRes : Int
  flags : Nat
  db : Nat
  dbc : Option Nat
  txn : Option Nat
  key : DBT
  data : DBT
  savedIntKey : Int
  multiData : Option Rows
  multiGetPtr : Option Nat
  multiPutPtr : Option Unit
  skipMulti : Bool
  isIncrblobHandle : Bool

/-- The fields of `Btree` (`btreeInt.h`): one per `sqlite3BtreeOpen`. -/
structure Btree where
  pBt : Option Nat
  db : Nat
  connected : Bool
  sharable : Bool
  vfsFlags : Nat
  inTrans : Int
  nSavepoint : Int
  family_txn : Option Nat
  read_txn : Option Nat
  savepoint_txn : Option Nat
  schemaLock : Option Nat
  schemaLockMode : Int
  cached_dbs : Int
  deriving DecidableEq

/-- The fields of `BtShared` (`btreeInt.h`): one per physical database.  The
list `first_cursor`/`next` is the list `cursors` of cursor addresses, the hash
`db_cache` an association list keyed by table id, and the array `meta` a
function from the slot to its `cached` flag and its `value`. -/
structure BtShared where
  nRef : Int
  dbStorage : storage_mode_t
  transactional : Bool
  resultsBuffer : Bool
  env_opened : Bool
  dbenv : Option Nat
  metadb : Option Nat
  tablesdb : Option Nat
  orig_name : Option (List Char)
  full_name : Option (List Char)
  flags : Nat
  db_oflags : Nat
  pageSize : Int
  pageSizeFixed : Bool
  last_table : Int
  uid : Nat
  cursors : List Nat
  db_cache : List (Int × CACHED_DB)
  env_oflags : Nat
  pageCount : Int
  meta : Nat → Bool × Int

/-- The state of the process: the engine (fault script, call log, handles,
physical tables), the adapter's heap and its globals.  The registry list
`g_shared_btrees`/`pNextDb` is the list of `BtShared` addresses in list
order. -/
structure World where
  faults : List Int
  events : List Event
  handles : Nat
  txns : Nat → DB_TXN
  dbhs : Nat → DB
  dbcs : Nat → DBC
  tables : Nat → Rows
  catalog : List ((Nat × Int) × Nat)
  recordLt : List Nat → List Nat → Bool
  multiBufsize : Nat
  ctx : Nat → sqlite3
  btrees : Nat → Btree
  shared : Nat → BtShared
  cursors : Nat → BtCursor
  addrs : Nat
  g_shared_btrees : List Nat
  g_tmp_env : Option Nat
  g_uid_next : Nat

def World.setBtree (w : World) (p : Nat) (b : Btree) : World :=
  { w with btrees := Function.update w.btrees p b }

def World.setShared (w : World) (a : Nat) (s : BtShared) : World :=
  { w with shared := Function.update w.shared a s }

def World.setCursor (w : World) (c : Nat) (cur : BtCursor) : World :=
  { w with cursors := Function.update w.cursors c cur }

def World.setDbc (w : World) (c : Nat) (d : DBC) : World :=
  { w with dbcs := Function.update w.dbcs c d }

def World.setDbh (w : World) (h : Nat) (d : DB) : World :=
  { w with dbhs := Function.update w.dbhs h d }

def World.log (w : World) (e : Event) : World :=
  { w with events := w.events ++ [e] }

/-- The `BtShared` a `Btree` points to.  Dereferencing NULL is undefined in C;
the embedding reads address 0 then. -/
def World.bt (w : World) (p : Nat) : BtShared := w.shared ((w.btrees p).pBt.getD 0)

/-- The address `p->pBt`. -/
def World.btAddr (w : World) (p : Nat) : Nat := (w.btrees p).pBt.getD 0

/-! ## The storage engine

Modelled from the spec (section 6): the engine is consumed through
`txnBegin`, `txnCommit/txnAbort`, `open`, `close`, `cursor`, `get/put/del`.
None of it is in `btree.c`. -/

/-- Modelled from the spec: the status of one engine call whose status the
adapter reads.  The call returns what the engine semantics gives (`sem`)
unless the fault script holds a non-zero status for it; each such call
consumes one entry of the script. -/
def World.engine (w : World) (sem : Int) : Int × World :=
  match w.faults with
  | [] => (sem, w)
  | f :: fs => (if f = 0 then sem else f, { w with faults := fs })

/-- Modelled from the spec: `DB_ENV->txn_begin(env, parent, &txn, flags)`.  On
success a new handle is returned.  The family transaction is a container: a
transaction begun under it is a top-level transaction whose `parent` field
is NULL (`sqlite3BtreeSavepoint` relies on it: it recognises the read
transaction by `txn->parent == NULL`); any other child points to its parent.
On failure the out parameter is left as it was. -/
def txn_begin (w : World) (parent : Option Nat) (family : Bool) : Int × Option Nat × World :=
  let r := w.engine 0
  if r.1 ≠ 0 then (r.1, none, r.2)
  else
    let w1 := r.2
    let t := w1.handles
    let par : Option Nat :=
      match parent with
      | none => none
      | some q => if (w1.txns q).family then none else some q
    (0, some t,
      { w1 with handles := t + 1,
                txns := (Function.update w1.txns t ({ parent := par, family := family } : DB_TXN)),
                events := w1.events ++ [Event.txn_begin t parent] })

/-- Modelled from the spec: what committing or aborting `t` does to the
database handles whose current transaction is `t`: the handle leaves the
transaction, and after an abort it is no longer open. -/
def endTxnHandles (dbhs : Nat → DB) (t : Nat) (abort : Bool) : Nat → DB :=
  fun h =>
    let d := dbhs h
    if d.cur_txn = some t then
      { d with cur_txn := none, open_called := if abort then false else d.open_called }
    else d

/-- Modelled from the spec: `DB_TXN->commit(txn, flags)`. -/
def txn_commit (w : World) (t : Nat) : Int × World :=
  let r := w.engine 0
  (r.1, { r.2 with events := (r.2.events ++ [Event.txn_commit t]),
                   dbhs := (endTxnHandles r.2.dbhs t false) })

/-- Modelled from the spec: `DB_TXN->abort(txn)`. -/
def txn_abort (w : World) (t : Nat) : Int × World :=
  let r := w.engine 0
  (r.1, { r.2 with events := (r.2.events ++ [Event.txn_abort t]),
                   dbhs := (endTxnHandles r.2.dbhs t true) })

/-- Modelled from the spec: `db_create(&dbp, env, 0)`. -/
def db_create (w : World) : Int × Option Nat × World :=
  let r := w.engine 0
  if r.1 ≠ 0 then (r.1, none, r.2)
  else
    let h := r.2.handles
    (0, some h,
      { r.2 with handles := h + 1,
                 dbhs := (Function.update r.2.dbhs h
                   ({ tid := 0, cur_txn := none, open_called := false, general := false } : DB)) })

/-- Looking a table name up in the engine's catalog. -/
def catalogFind (cat : List ((Nat × Int) × Nat)) (name : Nat × Int) : Option Nat :=
  (cat.find? (fun e => e.1 = name)).map (fun e => e.2)

/-- Modelled from the spec: `DB->open(dbp, txn, file, table, DB_BTREE, flags, 0)`.
A named table (file, table id) is found in the catalog, or created when
`DB_CREATE` is set, or the call fails with `ENOENT`; without a name the handle
gets a fresh anonymous table and `DB_CREATE` is required. -/
def db_open (w : World) (h : Nat) (txn : Option Nat) (name : Option (Nat × Int))
    (create : Bool) : Int × World :=
  let found : Option Nat := name.bind (catalogFind w.catalog)
  let sem : Int :=
    match name, found with
    | some _, some _ => 0
    | some _, none => if create then 0 else ENOENT
    | none, _ => if create then 0 else EINVAL
  let r := w.engine sem
  if r.1 ≠ 0 then (r.1, r.2)
  else
    let w1 := r.2
    let d := w1.dbhs h
    match found with
    | some tid =>
      (0, { w1 with dbhs := (Function.update w1.dbhs h
              ({ d with tid := tid, cur_txn := txn, open_called := true } : DB)) })
    | none =>
      let tid := w1.handles
      (0, { w1 with handles := tid + 1,
                    tables := (Function.update w1.tables tid []),
                    catalog := (match name with
                      | some n => w1.catalog ++ [(n, tid)]
                      | none => w1.catalog),
                    dbhs := (Function.update w1.dbhs h
                      ({ d with tid := tid, cur_txn := txn, open_called := true } : DB)) })

/-- Modelled from the spec: `DB->close(dbp, DB_NOSYNC)`. -/
def db_close (w : World) (h : Nat) : Int × World :=
  let r := w.engine 0
  (r.1, { r.2 with events := r.2.events ++ [Event.db_close h],
                   dbhs := (Function.update r.2.dbhs h
                     ({ r.2.dbhs h with open_called := false, cur_txn := none } : DB)) })

/-- Modelled from the spec: `DB->cursor(dbp, txn, &dbc, flags)`: a new cursor,
not yet positioned. -/
def db_cursor (w : World) (h : Nat) (txn : Option Nat) : Int × Option Nat × World :=
  let r := w.engine 0
  if r.1 ≠ 0 then (r.1, none, r.2)
  else
    let c := r.2.handles
    (0, some c,
      { r.2 with handles := c + 1,
                 dbcs := (Function.update r.2.dbcs c ({ dbp := h, txn := txn, pos := none } : DBC)) })

/-- Modelled from the spec: `DBC->close(dbc)`. -/
def dbc_close (w : World) (c : Nat) : Int × World :=
  let r := w.engine 0
  (r.1, { r.2 with events := r.2.events ++ [Event.dbc_close c] })

/-- The key order of the table a handle is open on: the adapter's record
comparator when `btreeCompare` was installed, plain byte order otherwise. -/
def World.keyLt (w : World) (h : Nat) : List Nat → List Nat → Bool :=
  if (w.dbhs h).general then w.recordLt else bytesLt

/-- The row a positioning flag selects, from the rows in key order. -/
def selectRow (lt : List Nat → List Nat → Bool) (rows : Rows) (pos : Option (List Nat))
    (op : GetOp) (key : List Nat) : Option (List Nat × List Nat) :=
  match op with
  | GetOp.DB_FIRST => rows.head?
  | GetOp.DB_LAST => rows.getLast?
  | GetOp.DB_NEXT =>
    match pos with
    | none => rows.head?
    | some k => rows.find? (fun r => lt k r.1)
  | GetOp.DB_PREV =>
    match pos with
    | none => rows.getLast?
    | some k => (rows.filter (fun r => lt r.1 k)).getLast?
  | GetOp.DB_SET => rows.find? (fun r => !lt r.1 key && !lt key r.1)
  | GetOp.DB_SET_RANGE => rows.find? (fun r => !lt r.1 key)

/-- Modelled from the spec: `DBC->get(dbc, &key, &data, flag)`.  On success the
cursor rests on the selected row, which is returned; when no row qualifies the
status is `DB_NOTFOUND` and the cursor stays where it was. -/
def dbc_get (w : World) (c : Nat) (op : GetOp) (key : List Nat) :
    Int × Option (List Nat × List Nat) × World :=
  let d := w.dbcs c
  let sel := selectRow (w.keyLt d.dbp) (w.tables (w.dbhs d.dbp).tid) d.pos op key
  let r := w.engine (if sel.isSome then 0 else DB_NOTFOUND)
  if r.1 ≠ 0 then (r.1, none, r.2)
  else
    match sel with
    | some row => (0, some row, r.2.setDbc c { d with pos := some row.1 })
    | none => (DB_NOTFOUND, none, r.2)

/-- The space one record takes in a bulk buffer: its bytes and four 32-bit
offsets. -/
def recordCost (r : List Nat × List Nat) : Nat := r.1.length + r.2.length + 16

/-- The longest prefix of `rows` that fits in `cap` bytes. -/
def fitPrefix : Nat → Rows → Rows
  | _, [] => []
  | cap, r :: rs => if recordCost r ≤ cap then r :: fitPrefix (cap - recordCost r) rs else []

/-- Modelled from the spec: `DBC->get` with `DB_MULTIPLE_KEY`, for `DB_FIRST`
and `DB_NEXT`: the rows from the selected one on, as many as fit in the
buffer; the cursor rests on the last one returned.  `DB_BUFFER_SMALL` when not
even one fits. -/
def dbc_get_multiple (w : World) (c : Nat) (op : GetOp) :
    Int × Rows × World :=
  let d := w.dbcs c
  let lt := w.keyLt d.dbp
  let rows := w.tables (w.dbhs d.dbp).tid
  let from_ : Rows :=
    match op, d.pos with
    | GetOp.DB_NEXT, some k => rows.filter (fun r => lt k r.1)
    | _, _ => rows
  let batch := fitPrefix (w.multiBufsize - 4) from_
  let sem : Int :=
    if from_.isEmpty then DB_NOTFOUND else if batch.isEmpty then DB_BUFFER_SMALL else 0
  let r := w.engine sem
  if r.1 ≠ 0 then (r.1, [], r.2)
  else
    match batch.getLast? with
    | some row => (0, batch, r.2.setDbc c { d with pos := some row.1 })
    | none => (DB_NOTFOUND, [], r.2)

/-- Inserting a row at its place in key order, replacing a row with an equal
key. -/
def insertRow (lt : List Nat → List Nat → Bool) (row : List Nat × List Nat) : Rows → Rows
  | [] => [row]
  | r :: rs =>
    if lt row.1 r.1 then row :: r :: rs
    else if lt r.1 row.1 then r :: insertRow lt row rs
    else row :: rs

/-- Modelled from the spec: `DBC->put(dbc, &key, &data, DB_KEYLAST)`: the row is
stored and the cursor rests on it. -/
def dbc_put (w : World) (c : Nat) (key data : List Nat) : Int × World :=
  let d := w.dbcs c
  let r := w.engine 0
  if r.1 ≠ 0 then (r.1, r.2)
  else
    let tid := (r.2.dbhs d.dbp).tid
    (0, { r.2 with tables := (Function.update r.2.tables tid
                     (insertRow (r.2.keyLt d.dbp) (key, data) (r.2.tables tid))),
                   dbcs := (Function.update r.2.dbcs c ({ d with pos := some key } : DBC)) })

/-- Modelled from the spec: `DBC->put(dbc, &key, &data, DB_CURRENT)` with a
partial `data`: bytes of the current row's value are overwritten from offset
`doff` on, the value growing when needed. -/
def dbc_put_current (w : World) (c : Nat) (doff : Nat) (bytes : List Nat) : Int × World :=
  let d := w.dbcs c
  let r := w.engine (if d.pos.isSome then 0 else EINVAL)
  if r.1 ≠ 0 then (r.1, r.2)
  else
    let tid := (r.2.dbhs d.dbp).tid
    let lt := r.2.keyLt d.dbp
    let k := d.pos.getD []
    (0, { r.2 with tables := (Function.update r.2.tables tid
            ((r.2.tables tid).map (fun row =>
              if !lt row.1 k && !lt k row.1 then
                (row.1, (row.2 ++ List.replicate (doff - row.2.length) 0).take doff ++ bytes
                  ++ row.2.drop (doff + bytes.length))
              else row))) })

/-- Modelled from the spec: `DBC->del(dbc, 0)`: the row under the cursor is
removed; the cursor keeps its place. -/
def dbc_del (w : World) (c : Nat) : Int × World :=
  let d := w.dbcs c
  let r := w.engine (if d.pos.isSome then 0 else EINVAL)
  if r.1 ≠ 0 then (r.1, r.2)
  else
    let tid := (r.2.dbhs d.dbp).tid
    let lt := r.2.keyLt d.dbp
    let k := d.pos.getD []
    (0, { r.2 with tables := (Function.update r.2.tables tid
            ((r.2.tables tid).filter (fun row => lt row.1 k || lt k row.1))) })

/-- Modelled from the spec: `DBC->cmp(dbc, other, &result, 0)`: result 0 when
both cursors rest on the same row of the same table; `EINVAL` when one of them
is not positioned. -/
def dbc_cmp (w : World) (c other : Nat) : Int × Int :=
  let d1 := w.dbcs c
  let d2 := w.dbcs other
  match d1.pos, d2.pos with
  | some k1, some k2 =>
    (0, if (w.dbhs d1.dbp).tid = (w.dbhs d2.dbp).tid ∧ k1 = k2 then 0 else 1)
  | _, _ => (EINVAL, 0)

/-- Modelled from the spec: `DB->put(dbp, txn, &multiData, NULL, DB_MULTIPLE_KEY)`:
every record of the buffer is stored. -/
def db_put_multiple (w : World) (h : Nat) (recs : Rows) : Int × World :=
  let r := w.engine 0
  if r.1 ≠ 0 then (r.1, r.2)
  else
    let tid := (r.2.dbhs h).tid
    (0, { r.2 with tables := (Function.update r.2.tables tid
            (recs.foldl (fun acc row => insertRow (r.2.keyLt h) row acc) (r.2.tables tid))) })

/-- The two functions that find, create and open the engine environment,
`btreeOpenEnvironment (p, needLock)` (btree.c:745) and
`btreePrepareEnvironment (p)` (btree.c:516).  The functions below take them as
parameters: a result stated for all `ops` holds whatever these two do, and a
result that needs something of them says so in a hypothesis on `ops`. -/
structure EnvOps where
  btreeOpenEnvironment : World → Nat → Bool → Int × World
  btreePrepareEnvironment : World → Nat → Int × World

open CursorState GetOp storage_mode_t cleanup_mode_t

/-! ## Cursors (`btree.c`) -/

/-- The macro `pIntKey`: `(pCur->flags & BTREE_INTKEY) != 0`. -/
def BtCursor.intKey (cur : BtCursor) : Bool := cur.flags &&& BTREE_INTKEY != 0

/-- The macro `pIsBuffer`: `pCur->pBtree->pBt->resultsBuffer`. -/
def World.isBuffer (w : World) (c : Nat) : Bool :=
  (w.bt ((w.cursors c).pBtree.getD 0)).resultsBuffer

/-- The macro `GET_DURABLE`. -/
def GET_DURABLE (s : BtShared) : Bool :=
  s.dbStorage = DB_STORE_NAMED ∧ s.flags &&& BTREE_OMIT_JOURNAL = 0

/-- A `DBT` after `memset(&dbt, 0, sizeof dbt)`. -/
def DBT.zero : DBT := { data := none, size := 0, appmalloc := false, app_data := false }

/-- The memory a byte string occupies, as seen through a pointer to its start. -/
def memOf (bs : List Nat) : Nat → Nat := fun k => bs.getD k 0

/-- `decodeI64(pCur->key.data, pCur->key.size)`. -/
def decodeKey (k : DBT) : Int := decodeI64 (memOf (k.data.getD [])) k.size

/-- `DBC->close` through a pointer that may be NULL (undefined in C: the
embedding gives it the status `EINVAL`). -/
def dbc_close_opt (w : World) (d : Option Nat) : Int × World :=
  match d with
  | some c => dbc_close w c
  | none => (EINVAL, w)

/-- `btreeCloseCursor` (btree.c:2161). -/
def btreeCloseCursor (w : World) (c : Nat) (listRemove : Bool) : Int × World :=
  let cur := w.cursors c
  let a := w.btAddr (cur.pBtree.getD 0)
  let w1 := w.setCursor c { cur with eState := CURSOR_INVALID }
  let r : Int × World :=
    match cur.dbc with
    | some d =>
      let r := dbc_close w1 d
      (r.1, r.2.setCursor c { r.2.cursors c with dbc := none })
    | none => (0, w1)
  let w2 := r.2
  let w3 :=
    if listRemove then
      w2.setShared a { w2.shared a with cursors := (w2.shared a).cursors.erase c }
    else w2
  let cur3 := w3.cursors c
  let key3 : DBT :=
    if cur3.key.appmalloc then { cur3.key with data := none, appmalloc := false }
    else cur3.key
  let w4 := w3.setCursor c { cur3 with key := key3, multiData := none, pBtree := none }
  (if r.1 = 0 then SQLITE_OK else dberr2sqlite r.1, w4)

/-- `sqlite3BtreeCloseCursor` (btree.c:2226); `c = none` is a NULL cursor. -/
def sqlite3BtreeCloseCursor (w : World) (c : Option Nat) : Int × World :=
  match c with
  | none => (SQLITE_OK, w)
  | some a =>
    if (w.cursors a).pBtree = none then (SQLITE_OK, w)
    else btreeCloseCursor w a true

/-- `sqlite3HashFind` on the handle cache. -/
def cacheFind (cache : List (Int × CACHED_DB)) (iTable : Int) : Option CACHED_DB :=
  (cache.find? (fun e => e.1 = iTable)).map (fun e => e.2)

/-- `sqlite3HashInsert` on the handle cache: a present entry is replaced;
inserting `none` removes the entry. -/
def cacheInsert (cache : List (Int × CACHED_DB)) (iTable : Int) (e : Option CACHED_DB) :
    List (Int × CACHED_DB) :=
  match e with
  | none => cache.filter (fun x => x.1 ≠ iTable)
  | some v =>
    if (cache.find? (fun x => x.1 = iTable)).isSome then
      cache.map (fun x => if x.1 = iTable then (iTable, v) else x)
    else cache ++ [(iTable, v)]

/-- The macro `GET_TABLENAME`: the name of table `iTable`, as the pair of the
physical file (the `BtShared`) and the table id; no name on a transient
handle. -/
def GET_TABLENAME (w : World) (a : Nat) (iTable : Int) : Option (Nat × Int) :=
  match (w.shared a).dbStorage with
  | DB_STORE_NAMED => some (a, iTable)
  | DB_STORE_INMEM => some (a, iTable)
  | DB_STORE_TMP => none

/-- The error exit of `btreeCreateDataTable` (btree.c:1964). -/
def btreeCreateDataTable_err (w : World) (dbp : Option Nat) (ret : Int) : Int × World :=
  let w1 := match dbp with
    | some h => (db_close w h).2
    | none => w
  (if ret = 0 then SQLITE_OK else dberr2sqlite ret, w1)

/-- The opening of the table in `btreeCreateDataTable` (btree.c:1899-1926), on
the new handle `h`: nothing is opened while the results are buffered;
otherwise the table of a named database that may be created is first opened
without `DB_CREATE` in the family transaction, and when that was not tried or
gave `ENOENT`, the table is opened in the savepoint transaction with the
flags of the database.  Each `DB->open` is called once.  The result is `ret`
and the world. -/
def btreeCreateDataTable_open (w : World) (p h : Nat) (iTable : Int) : Int × World :=
  let a := w.btAddr p
  let s := w.shared a
  let tableName := GET_TABLENAME w a iTable
  if !s.resultsBuffer then
    let b := w.btrees p
    let ra : Int × World :=
      if s.dbStorage = DB_STORE_NAMED ∧ s.db_oflags &&& DB_CREATE ≠ 0 then
        db_open w h b.family_txn tableName false
      else (ENOENT, w)
    if ra.1 = ENOENT then
      db_open ra.2 h (ra.2.btrees p).savepoint_txn tableName
        (s.db_oflags &&& DB_CREATE != 0)
    else ra
  else (0, w)

/-- The configuration of the new handle in `btreeCreateDataTable`
(btree.c:1865-1892): the handle is created, the comparator is installed for a
table with an even id, the page size and the durability are set.  The result
is `ret`, the new handle `dbp` and the world. -/
def btreeCreateDataTable_handle (w : World) (p : Nat) (iTable : Int) :
    Int × Option Nat × World :=
  let a := w.btAddr p
  let meta_flags : Nat := if iTable % 2 ≠ 0 then BTREE_INTKEY else 0
  let r0 := db_create w
  match r0.2.1 with
  | none => (r0.1, none, r0.2.2)
  | some h =>
    let w0 := r0.2.2
    let w1 :=
      if meta_flags &&& BTREE_INTKEY = 0 then w0.setDbh h { w0.dbhs h with general := true }
      else w0
    let r1 : Int × World := if (w1.shared a).pageSize ≠ 0 then w1.engine 0 else (0, w1)
    if r1.1 ≠ 0 then (r1.1, some h, r1.2)
    else
      let s := r1.2.shared a
      let r2 : Int × World :=
        if !s.resultsBuffer && !GET_DURABLE s then r1.2.engine 0 else (0, r1.2)
      (r2.1, some h, r2.2)

/-- `btreeCreateDataTable` (btree.c:1840).  `haveCached` tells whether
`*ppCachedDb` is non-NULL on entry; the cache entry of `iTable` is the out
parameter. -/
def btreeCreateDataTable (w : World) (p : Nat) (iTable : Int) (haveCached : Bool) :
    Int × World :=
  let a := w.btAddr p
  let meta_flags : Nat := if iTable % 2 ≠ 0 then BTREE_INTKEY else 0
  let r2 := btreeCreateDataTable_handle w p iTable
  match r2.2.1 with
  | none => btreeCreateDataTable_err r2.2.2 none r2.1
  | some h =>
    if r2.1 ≠ 0 then btreeCreateDataTable_err r2.2.2 (some h) r2.1
    else
      let r3 := btreeCreateDataTable_open r2.2.2 p h iTable
      if r3.1 ≠ 0 then btreeCreateDataTable_err r3.2 (some h) r3.1
      else
        let w3 := r3.2
        let s3 := w3.shared a
        let entry : CACHED_DB := { dbp := some h, flags := meta_flags, created := true }
        let cache :=
          if haveCached then
            s3.db_cache.map (fun x => if x.1 = iTable then (iTable, entry) else x)
          else cacheInsert s3.db_cache iTable (some entry)
        let w4 := w3.setShared a { s3 with db_cache := cache }
        let b4 := w4.btrees p
        (SQLITE_OK, w4.setBtree p { b4 with cached_dbs := b4.cached_dbs + 1 })

/-- The error exit of `sqlite3BtreeCursor` (btree.c:2127). -/
def sqlite3BtreeCursor_err (w : World) (c : Nat) (rc : Int) : Int × World :=
  let cur := w.cursors c
  let w1 :=
    match cur.dbc with
    | some d => ((dbc_close w d).2).setCursor c { (dbc_close w d).2.cursors c with dbc := none }
    | none => w
  (SQLITE_OK, w1.setCursor c { w1.cursors c with eState := CURSOR_FAULT, error := rc })

/-- The part of `sqlite3BtreeCursor` that follows the opening of the
environment (btree.c:2052-2125): the handle of the table is taken from the
cache, or created, and the engine cursor is opened on it unless the results
are buffered. -/
def sqlite3BtreeCursor_open (w0 : World) (p : Nat) (iTable : Int) (wrFlag : Bool) (c : Nat) :
    Int × World :=
  if wrFlag ∧ (w0.bt p).db_oflags &&& DB_RDONLY ≠ 0 then (SQLITE_READONLY, w0)
  else
    let w1 := w0.setCursor c { w0.cursors c with pBtree := some p, tableIndex := iTable }
    let a := w1.btAddr p
    let cached := cacheFind (w1.shared a).db_cache iTable
    let r1 : Int × World :=
      match cached with
      | none => btreeCreateDataTable w1 p iTable false
      | some e => if e.dbp = none then btreeCreateDataTable w1 p iTable true
                  else (SQLITE_OK, w1)
    if r1.1 ≠ SQLITE_OK then sqlite3BtreeCursor_err r1.2 c r1.1
    else
      let w2 := r1.2
      let e := (cacheFind (w2.shared a).db_cache iTable).getD
        { dbp := none, flags := 0, created := false }
      let b := w2.btrees p
      let txn := if wrFlag then b.savepoint_txn else b.read_txn
      let w3 := w2.setCursor c
        { w2.cursors c with db := e.dbp.getD 0, flags := e.flags, txn := txn }
      let r2 : Int × World :=
        if !(w3.shared a).resultsBuffer then
          let rc := db_cursor w3 (e.dbp.getD 0) txn
          (rc.1, rc.2.2.setCursor c
            { rc.2.2.cursors c with dbc := if rc.1 = 0 then rc.2.1 else (w3.cursors c).dbc })
        else (0, w3)
      if r2.1 ≠ 0 then sqlite3BtreeCursor_err r2.2 c (dberr2sqlite r2.1)
      else
        let w4 := r2.2
        let w5 := w4.setCursor c
          { w4.cursors c with skipMulti := true, multiData := none, wrFlag := wrFlag,
                              eState := CURSOR_INVALID, lastRes := 0 }
        let s5 := w5.shared a
        (SQLITE_OK, w5.setShared a { s5 with cursors := c :: s5.cursors })

/-- `sqlite3BtreeCursor` (btree.c:2014): opens the caller's cursor `c` on table
`iTable`. -/
def sqlite3BtreeCursor (ops : EnvOps) (w : World) (p : Nat) (iTable : Int) (wrFlag : Bool)
    (c : Nat) : Int × World :=
  let s0 := w.bt p
  if !(w.btrees p).connected ∧ s0.dbStorage ≠ DB_STORE_TMP ∧ !wrFlag ∧ !s0.env_opened then
    (SQLITE_EMPTY, w)
  else
    let r0 : Int × World :=
      if !(w.btrees p).connected ∧ !s0.resultsBuffer then ops.btreeOpenEnvironment w p true
      else (SQLITE_OK, w)
    if r0.1 ≠ SQLITE_OK then sqlite3BtreeCursor_err r0.2 c r0.1
    else sqlite3BtreeCursor_open r0.2 p iTable wrFlag c

/-- `btreeTripCursor` (btree.c:2371). -/
def btreeTripCursor (w : World) (c : Nat) (incrBlobUpdate : Bool) : Int × World :=
  let cur := w.cursors c
  let dbc := cur.dbc
  let key1 : DBT :=
    if !cur.intKey then
      { cur.key with data := some ((cur.key.data.getD []).take cur.key.size), appmalloc := true }
    else cur.key
  let w1 := w.setCursor c
    { cur with dbc := none, key := key1,
               eState := if cur.isIncrblobHandle ∧ !incrBlobUpdate then CURSOR_INVALID
                         else CURSOR_REQUIRESEEK }
  let r := dbc_close_opt w1 dbc
  (dberr2sqlite r.1, r.2.setCursor c { r.2.cursors c with multiGetPtr := none })

/-- `DBC->cmp` through pointers that may be NULL. -/
def dbc_cmp_opt (w : World) (c other : Option Nat) : Int × Int :=
  match c, other with
  | some a, some b => dbc_cmp w a b
  | _, _ => (EINVAL, 0)

/-- The loop of `btreeTripWatchers` (btree.c:2418) over the cursor list. -/
def btreeTripWatchers_loop (c : Nat) (incrBlobUpdate : Bool) : World → List Nat → Int × World
  | w, [] => (SQLITE_OK, w)
  | w, pC :: rest =>
    let cur := w.cursors c
    let o := w.cursors pC
    if pC = c ∨ cur.pBtree ≠ o.pBtree ∨ o.tableIndex ≠ cur.tableIndex
        ∨ o.eState ≠ CURSOR_VALID then
      btreeTripWatchers_loop c incrBlobUpdate w rest
    else if o.multiGetPtr = none ∧
        ((dbc_cmp_opt w cur.dbc o.dbc).1 ≠ 0 ∨ (dbc_cmp_opt w cur.dbc o.dbc).2 ≠ 0) then
      btreeTripWatchers_loop c incrBlobUpdate w rest
    else
      let r := btreeTripCursor w pC incrBlobUpdate
      if r.1 ≠ SQLITE_OK then r
      else btreeTripWatchers_loop c incrBlobUpdate r.2 rest

/-- `btreeTripWatchers` (btree.c:2408). -/
def btreeTripWatchers (w : World) (c : Nat) (incrBlobUpdate : Bool) : Int × World :=
  let a := w.btAddr ((w.cursors c).pBtree.getD 0)
  btreeTripWatchers_loop c incrBlobUpdate w (w.shared a).cursors

/-- The loop of `btreeTripAll` (btree.c:2446). -/
def btreeTripAll_loop (p : Nat) (iTable : Int) (incrBlobUpdate : Bool) :
    World → List Nat → Int × World
  | w, [] => (SQLITE_OK, w)
  | w, pC :: rest =>
    let o := w.cursors pC
    if o.tableIndex ≠ iTable ∨ o.eState ≠ CURSOR_VALID then
      btreeTripAll_loop p iTable incrBlobUpdate w rest
    else if o.pBtree ≠ some p then (SQLITE_LOCKED_SHAREDCACHE, w)
    else
      let r := btreeTripCursor w pC incrBlobUpdate
      if r.1 ≠ SQLITE_OK then r
      else btreeTripAll_loop p iTable incrBlobUpdate r.2 rest

/-- `btreeTripAll` (btree.c:2436). -/
def btreeTripAll (w : World) (p : Nat) (iTable : Int) (incrBlobUpdate : Bool) : Int × World :=
  btreeTripAll_loop p iTable incrBlobUpdate w (w.bt p).cursors

/-- Inserting a record into a sorted buffer after the records that are not
greater: one step of a stable sort. -/
def orderedInsertRow (lt : List Nat → List Nat → Bool) (row : List Nat × List Nat) : Rows → Rows
  | [] => [row]
  | r :: rs => if lt row.1 r.1 then row :: r :: rs else r :: orderedInsertRow lt row rs

/-- Modelled from the spec: `DB->sort_multiple(dbp, &multiData, NULL, DB_MULTIPLE_KEY)`
sorts the records of a bulk buffer by key; equal keys keep their order. -/
def sortRows (lt : List Nat → List Nat → Bool) (recs : Rows) : Rows :=
  recs.foldl (fun acc r => orderedInsertRow lt r acc) []

/-- `btreeLoadBufferIntoTable` (btree.c:2529). -/
def btreeLoadBufferIntoTable (ops : EnvOps) (w : World) (c : Nat) : Int × World :=
  let cur := w.cursors c
  let p := cur.pBtree.getD 0
  let a := w.btAddr p
  let temp := cur.multiData
  let w1 := (w.setCursor c { cur with multiData := none }).setShared a
    { w.shared a with resultsBuffer := false }
  let r1 := btreeCloseCursor w1 c true
  if r1.1 ≠ SQLITE_OK then (MAP_ERR r1.1 0, r1.2)
  else
    let r2 : Int × World :=
      if (r1.2.shared a).dbenv = none then ops.btreePrepareEnvironment r1.2 p
      else (SQLITE_OK, r1.2)
    if r2.1 ≠ SQLITE_OK then (MAP_ERR r2.1 0, r2.2)
    else
      let r3 := sqlite3BtreeCursor ops r2.2 p MASTER_ROOT true c
      let rc3 := if (r3.2.cursors c).eState = CURSOR_FAULT then (r3.2.cursors c).error else r3.1
      if rc3 ≠ SQLITE_OK then (MAP_ERR rc3 0, r3.2)
      else
        let w3 := r3.2.setCursor c { r3.2.cursors c with multiData := temp }
        match temp with
        | none => (MAP_ERR SQLITE_OK 0, w3)
        | some recs =>
          let cur3 := w3.cursors c
          let r4 := w3.engine 0
          if r4.1 ≠ 0 then (MAP_ERR SQLITE_OK r4.1, r4.2)
          else
            let sorted := sortRows (r4.2.keyLt cur3.db) recs
            let w4 := r4.2.setCursor c { r4.2.cursors c with multiData := some sorted }
            let r5 := db_put_multiple w4 cur3.db sorted
            (MAP_ERR SQLITE_OK r5.1, r5.2)

/-- The first part of `btreeRestoreCursorPosition` (btree.c:2466-2507): the
state checks, the reopening of the physical cursor, and the `skipMoveto`
exit.  The result is `some rc` when the function returns in this part and
`none` when it goes on to reseek. -/
def btreeRestoreOpen (ops : EnvOps) (w : World) (c : Nat) (skipMoveto : Bool) :
    Option Int × World :=
  let cur := w.cursors c
  if cur.eState = CURSOR_FAULT then (some cur.error, w)
  else if cur.pBtree = none ∨ (cur.eState = CURSOR_INVALID ∧ !skipMoveto) then
    (some SQLITE_ABORT, w)
  else
    let p := cur.pBtree.getD 0
    let r1 : Int × World :=
      if w.isBuffer c then btreeLoadBufferIntoTable ops w c
      else
        let b := w.btrees p
        let txn := if cur.wrFlag then b.savepoint_txn else b.read_txn
        let w1 := w.setCursor c { cur with txn := txn }
        let rc := db_cursor w1 cur.db txn
        (dberr2sqlite rc.1,
          rc.2.2.setCursor c
            { rc.2.2.cursors c with dbc := if rc.1 = 0 then rc.2.1 else cur.dbc })
    if r1.1 ≠ SQLITE_OK then (some r1.1, r1.2)
    else if skipMoveto then
      let cur2 := r1.2.cursors c
      let key2 : DBT :=
        if cur2.key.appmalloc then { cur2.key with data := none, appmalloc := false }
        else cur2.key
      (some SQLITE_OK, r1.2.setCursor c { cur2 with key := key2, eState := CURSOR_INVALID })
    else (none, r1.2)

/-- `DBC->get` through a pointer that may be NULL (undefined in C: the
embedding gives it the status `EINVAL`). -/
def dbc_get_opt (w : World) (d : Option Nat) (op : GetOp) (key : List Nat) :
    Int × Option (List Nat × List Nat) × World :=
  match d with
  | some c => dbc_get w c op key
  | none => (EINVAL, none, w)

/-- The key and data `DBT`s after a successful `get`. -/
def DBT.ofBytes (bs : List Nat) : DBT :=
  { data := some bs, size := bs.length, appmalloc := false, app_data := false }

/-- Modelled from the spec: the sign of `btreeCompare(pBDb, &key, &target)`,
the adapter's record comparison of a stored key against the unpacked search
key (`sqlite3VdbeRecordCompare` is not in `btree.c`). -/
def recordCompare (w : World) (key target : List Nat) : Int :=
  if w.recordLt key target then -1 else if w.recordLt target key then 1 else 0

/-- The two `get` calls of `sqlite3BtreeMovetoUnpacked` (btree.c:2293-2312):
the cursor's bulk pointers and its two `DBT`s are cleared, the search key is
set up, and the engine cursor seeks the first row not below it; when there is
none it goes to the last row.  The result is the last `ret` with the row
read. -/
def sqlite3BtreeMovetoUnpacked_get (w0 : World) (c : Nat) (pUnKey : Option (List Nat))
    (nKey : Int) : Int × Option (List Nat × List Nat) × World :=
  let cur := w0.cursors c
  let search : List Nat := if cur.intKey then encKey nKey else pUnKey.getD []
  let key1 : DBT :=
    if cur.intKey then DBT.ofBytes search
    else { DBT.zero with app_data := pUnKey.isSome }
  let w1 := w0.setCursor c
    { cur with multiGetPtr := none, multiPutPtr := none, key := key1, data := DBT.zero }
  let g1 := dbc_get_opt w1 cur.dbc DB_SET_RANGE search
  if g1.1 = DB_NOTFOUND then dbc_get_opt g1.2.2 cur.dbc DB_LAST search else g1

/-- What `sqlite3BtreeMovetoUnpacked` makes of the status `ret` of the seek
and of the row read (btree.c:2314-2338): the final `ret`, the comparison
result `res`, and the cursor's new state. -/
def sqlite3BtreeMovetoUnpacked_res (w2 : World) (c : Nat) (pUnKey : Option (List Nat))
    (nKey : Int) (ret : Int) (got : Option (List Nat × List Nat)) : Int × Int × World :=
  let cur2 := w2.cursors c
  if ret = 0 then
    let row := got.getD ([], [])
    if cur2.intKey then
      let saved := decodeKey (DBT.ofBytes row.1)
      (0, if saved = nKey then 0 else if saved < nKey then -1 else 1,
        w2.setCursor c { cur2 with key := DBT.ofBytes row.1, data := DBT.ofBytes row.2,
                                   savedIntKey := saved, eState := CURSOR_VALID })
    else
      (0, recordCompare w2 row.1 (pUnKey.getD []),
        w2.setCursor c { cur2 with key := DBT.ofBytes row.1, data := DBT.ofBytes row.2,
                                   eState := CURSOR_VALID })
  else if ret = DB_NOTFOUND then
    (0, -1, w2.setCursor c { cur2 with eState := CURSOR_INVALID })
  else
    (ret, -1, w2.setCursor c { cur2 with eState := CURSOR_FAULT, error := ret })

/-- `sqlite3BtreeMovetoUnpacked` (btree.c:2269).  `pUnKey` is the search key of
a general-keyed table, `nKey` the integer key.  The second component is the
value written to `*pRes`, if any.  The call `btreeRestoreCursorPosition(pCur, 1)`
returns inside the part `btreeRestoreOpen` of that function, `skipMoveto`
being set. -/
def sqlite3BtreeMovetoUnpacked (ops : EnvOps) (w : World) (c : Nat)
    (pUnKey : Option (List Nat)) (nKey : Int) : Int × Option Int × World :=
  let r0 : Option Int × World :=
    if (w.cursors c).dbc = none then btreeRestoreOpen ops w c true
    else (some SQLITE_OK, w)
  if r0.1 ≠ some SQLITE_OK then (r0.1.getD SQLITE_INTERNAL, none, r0.2)
  else
    let w0 := r0.2
    let cur := w0.cursors c
    if cur.eState = CURSOR_VALID ∧ cur.intKey ∧ cur.savedIntKey = nKey then
      (SQLITE_OK, some 0, w0)
    else
      let g := sqlite3BtreeMovetoUnpacked_get w0 c pUnKey nKey
      let res_w := sqlite3BtreeMovetoUnpacked_res g.2.2 c pUnKey nKey g.1 g.2.1
      let w3 := res_w.2.2
      (if res_w.1 = 0 then SQLITE_OK else dberr2sqlitelocked res_w.1, some res_w.2.1,
        w3.setCursor c { w3.cursors c with skipMulti := true })

/-- `btreeMoveto` (btree.c:2345): unpacks the key and seeks. -/
def btreeMoveto (ops : EnvOps) (w : World) (c : Nat) (pKey : Option (List Nat)) (nKey : Int) :
    Int × Option Int × World :=
  let r := sqlite3BtreeMovetoUnpacked ops w c (pKey.map (fun k => k.take nKey.toNat)) nKey
  let cur := r.2.2.cursors c
  (r.1, r.2.1, r.2.2.setCursor c { cur with key := { cur.key with app_data := false } })

/-- `btreeRestoreCursorPosition` (btree.c:2459). -/
def btreeRestoreCursorPosition (ops : EnvOps) (w : World) (c : Nat) (skipMoveto : Bool) :
    Int × World :=
  let r := btreeRestoreOpen ops w c skipMoveto
  match r.1 with
  | some rc => (rc, r.2)
  | none =>
    let cur := r.2.cursors c
    if cur.intKey then
      let m := sqlite3BtreeMovetoUnpacked ops r.2 c none cur.savedIntKey
      let cur2 := m.2.2.cursors c
      (m.1, m.2.2.setCursor c { cur2 with lastRes := m.2.1.getD cur2.lastRes })
    else
      let keyCopy := cur.key.data
      let w1 := r.2.setCursor c { cur with key := { cur.key with appmalloc := false } }
      let m := btreeMoveto ops w1 c keyCopy cur.key.size
      let cur2 := m.2.2.cursors c
      (m.1, m.2.2.setCursor c { cur2 with lastRes := m.2.1.getD cur2.lastRes })

/-- The macro `DB_MULTIPLE_KEY_NEXT` on the cursor's bulk buffer: the next
record goes to `key`/`data` and the pointer advances; at the end of the buffer
the pointer and both data pointers become NULL. -/
def multipleKeyNext (cur : BtCursor) : BtCursor :=
  match cur.multiGetPtr with
  | none => cur
  | some i =>
    match (cur.multiData.getD []).get? i with
    | some row =>
      { cur with key := { cur.key with data := some row.1, size := row.1.length },
                 data := { cur.data with data := some row.2, size := row.2.length },
                 multiGetPtr := some (i + 1) }
    | none =>
      { cur with key := { cur.key with data := none },
                 data := { cur.data with data := none },
                 multiGetPtr := none }

/-- The loop of `cursorGet` for `DB_LAST` on a buffered table (btree.c:2754):
reads to the end of the buffer, keeping the last record. -/
def multipleKeyLast (cur : BtCursor) : BtCursor :=
  match cur.multiGetPtr with
  | none => cur
  | some i =>
    match ((cur.multiData.getD []).drop i).getLast? with
    | some row =>
      { cur with key := { cur.key with data := some row.1, size := row.1.length },
                 data := { cur.data with data := some row.2, size := row.2.length },
                 multiGetPtr := none }
    | none => { cur with multiGetPtr := none }

/-- The error exit of `cursorGet` reached by `goto err` or by a failed plain
`get` (btree.c:2827-2837). -/
def cursorGet_err (w : World) (c : Nat) (ret0 : Int) : Int × Option Int × World :=
  let cur2 := w.cursors c
  let ret : Int := if ret0 = DB_NOTFOUND then 0 else ret0
  (if ret = 0 then SQLITE_OK else dberr2sqlitelocked ret, some 1,
    w.setCursor c { cur2 with key := { cur2.key with size := 0 },
                              data := { cur2.data with size := 0 },
                              eState := CURSOR_INVALID })

/-- The exit of `cursorGet` after a successful plain `get` that read `row`
(btree.c:2821-2826). -/
def cursorGet_got (w2 : World) (c : Nat) (row : List Nat × List Nat) :
    Int × Option Int × World :=
  let cur2 := w2.cursors c
  let cur3 : BtCursor :=
    { cur2 with key := { cur2.key with data := some row.1, size := row.1.length },
                data := { cur2.data with data := some row.2, size := row.2.length },
                eState := CURSOR_VALID }
  (SQLITE_OK, some 0,
    w2.setCursor c (if cur3.intKey then { cur3 with savedIntKey := decodeKey cur3.key }
                    else cur3))

/-- The tail of `cursorGet` (btree.c:2818): a plain `get`. -/
def cursorGet_single (w : World) (c : Nat) (op : GetOp) : Int × Option Int × World :=
  let w1 := w.setCursor c { w.cursors c with lastRes := 0 }
  let cur := w1.cursors c
  let g := dbc_get_opt w1 cur.dbc op (cur.key.data.getD [])
  if g.1 = 0 then cursorGet_got g.2.2 c (g.2.1.getD ([], []))
  else cursorGet_err g.2.2 c g.1

/-- The bulk read of `cursorGet` (btree.c:2772-2810): a `get` with
`DB_MULTIPLE_KEY` fills the cursor's buffer and the first record of it is
returned; when not even one record fits, the plain `get` follows. -/
def cursorGet_multiple (w1 : World) (c : Nat) (op : GetOp) : Int × Option Int × World :=
  let g := match (w1.cursors c).dbc with
    | some d => dbc_get_multiple w1 d op
    | none => (EINVAL, [], w1)
  let w2 := g.2.2
  let cur2 := w2.cursors c
  if g.1 = 0 then
    let first := multipleKeyNext
      { cur2 with multiData := some g.2.1, multiGetPtr := some 0 }
    let cur3 : BtCursor := { first with eState := CURSOR_VALID }
    (SQLITE_OK, some 0,
      w2.setCursor c (if cur3.intKey then { cur3 with savedIntKey := decodeKey cur3.key }
                      else cur3))
  else if g.1 = DB_BUFFER_SMALL then
    cursorGet_single (w2.setCursor c { cur2 with multiData := some (cur2.multiData.getD []) })
      c op
  else
    cursorGet_err (w2.setCursor c { cur2 with multiData := some (cur2.multiData.getD []) })
      c g.1

/-- The part of `cursorGet` that goes to the engine (btree.c:2772-2838): a
bulk read for `DB_FIRST`, and for `DB_NEXT` unless `skipMulti` is set; a plain
`get` otherwise. -/
def cursorGet_engine (w1 : World) (c : Nat) (op : GetOp) : Int × Option Int × World :=
  if op = DB_FIRST ∨ (op = DB_NEXT ∧ !(w1.cursors c).skipMulti) then cursorGet_multiple w1 c op
  else
    let w2 :=
      if op = DB_NEXT then w1.setCursor c { w1.cursors c with skipMulti := false } else w1
    cursorGet_single w2 c op

/-- `cursorGet` (btree.c:2722).  The second component is the value written to
`*pRes`, if any. -/
def cursorGet (w : World) (c : Nat) (op : GetOp) : Int × Option Int × World :=
  let cur := w.cursors c
  let stepped : BtCursor :=
    if op = DB_NEXT ∧ cur.multiGetPtr ≠ none then multipleKeyNext cur else cur
  let w1 := w.setCursor c stepped
  if op = DB_NEXT ∧ cur.multiGetPtr ≠ none ∧ stepped.multiGetPtr ≠ none then
    (SQLITE_OK, some 0,
      w1.setCursor c (if stepped.intKey then { stepped with savedIntKey := decodeKey stepped.key }
                      else stepped))
  else if op = DB_NEXT ∧ cur.multiGetPtr ≠ none ∧ w1.isBuffer c then
    (SQLITE_OK, some 1, w1)
  else if w1.isBuffer c ∧ op = DB_LAST then
    if stepped.multiGetPtr = none then (SQLITE_OK, some 1, w1)
    else
      let l := multipleKeyLast stepped
      (SQLITE_OK, some 0,
        w1.setCursor c (if l.intKey then { l with savedIntKey := decodeKey l.key } else l))
  else cursorGet_engine w1 c op

/-- `sqlite3BtreeFirst` (btree.c:2844). -/
def sqlite3BtreeFirst (ops : EnvOps) (w : World) (c : Nat) : Int × Option Int × World :=
  let cur := w.cursors c
  if cur.multiPutPtr ≠ none then
    if cur.eState = CURSOR_FAULT then (cur.error, none, w)
    else
      let sorted := sortRows (w.keyLt cur.db) (cur.multiData.getD [])
      cursorGet
        (w.setCursor c { cur with multiData := some sorted, multiGetPtr := some 0,
                                  multiPutPtr := none, eState := CURSOR_VALID })
        c DB_NEXT
  else
    let w1 := w.setCursor c { cur with multiGetPtr := none }
    let r : Int × World :=
      if cur.dbc = none then btreeRestoreCursorPosition ops w1 c true else (SQLITE_OK, w1)
    if r.1 ≠ SQLITE_OK then (r.1, none, r.2)
    else cursorGet r.2 c DB_FIRST

/-- `sqlite3BtreeLast` (btree.c:2881). -/
def sqlite3BtreeLast (ops : EnvOps) (w : World) (c : Nat) : Int × Option Int × World :=
  let cur := w.cursors c
  if cur.eState = CURSOR_FAULT then (cur.error, none, w)
  else if cur.pBtree ≠ none ∧ w.isBuffer c then
    if cur.multiPutPtr = none then (SQLITE_OK, some 1, w)
    else
      let sorted := sortRows (w.keyLt cur.db) (cur.multiData.getD [])
      cursorGet
        (w.setCursor c { cur with multiData := some sorted, multiGetPtr := some 0,
                                  multiPutPtr := none, eState := CURSOR_VALID })
        c DB_LAST
  else
    let r : Int × World :=
      if cur.dbc = none then btreeRestoreCursorPosition ops w c true else (SQLITE_OK, w)
    if r.1 ≠ SQLITE_OK then (r.1, none, r.2)
    else
      cursorGet (r.2.setCursor c { r.2.cursors c with multiGetPtr := none }) c DB_LAST

/-- `sqlite3BtreeNext` (btree.c:2931).  The second component is the value
written to `*pRes`, if any. -/
def sqlite3BtreeNext (ops : EnvOps) (w : World) (c : Nat) : Int × Option Int × World :=
  let cur := w.cursors c
  if cur.dbc ≠ none ∧ cur.eState = CURSOR_INVALID then (SQLITE_OK, some 1, w)
  else
    let r : Int × World :=
      if cur.dbc = none then btreeRestoreCursorPosition ops w c false else (SQLITE_OK, w)
    if r.1 ≠ SQLITE_OK then (r.1, none, r.2)
    else if (r.2.cursors c).lastRes > 0 then
      (SQLITE_OK, some 0, r.2.setCursor c { r.2.cursors c with lastRes := 0 })
    else cursorGet r.2 c DB_NEXT

/-- `sqlite3BtreePrevious` (btree.c:2959). -/
def sqlite3BtreePrevious (ops : EnvOps) (w : World) (c : Nat) : Int × Option Int × World :=
  let cur := w.cursors c
  if cur.dbc ≠ none ∧ cur.eState = CURSOR_INVALID then (SQLITE_OK, some 1, w)
  else
    let r : Int × World :=
      if cur.dbc = none then btreeRestoreCursorPosition ops w c false else (SQLITE_OK, w)
    if r.1 ≠ SQLITE_OK then (r.1, none, r.2)
    else if (r.2.cursors c).lastRes < 0 then
      (SQLITE_OK, some 0, r.2.setCursor c { r.2.cursors c with lastRes := 0 })
    else cursorGet r.2 c DB_PREV

/-- `DBC->put` with `DB_KEYLAST` through a pointer that may be NULL. -/
def dbc_put_opt (w : World) (d : Option Nat) (key data : List Nat) : Int × World :=
  match d with
  | some c => dbc_put w c key data
  | none => (EINVAL, w)

/-- `insertData` (btree.c:2982). -/
def insertData (w : World) (c : Nat) (nZero nData : Int) : Int × World :=
  let cur := w.cursors c
  let r := dbc_put_opt w cur.dbc (cur.key.data.getD []) (cur.data.data.getD [])
  if r.1 = 0 ∧ nZero > 0 then
    match cur.dbc with
    | some d => dbc_put_current r.2 d (nData + nZero - 1).toNat [0]
    | none => (EINVAL, r.2)
  else r

/-- The macro `DB_MULTIPLE_KEY_WRITE_NEXT`: the record is appended when the
buffer has room for it; otherwise the write pointer becomes NULL. -/
def multipleKeyWriteNext (cap : Nat) (cur : BtCursor) (row : List Nat × List Nat) : BtCursor :=
  let recs := cur.multiData.getD []
  if (recs.map recordCost).sum + recordCost row + 4 ≤ cap then
    { cur with multiData := some (recs ++ [row]) }
  else { cur with multiPutPtr := none }

/-- The start of `sqlite3BtreeInsert` (btree.c:3036-3049): the key and data
`DBT`s of the cursor are set from the arguments.  `pKey`/`nKey` is the key
(only `nKey` for an integer-keyed table), `pData` the value of `nData`
bytes. -/
def sqlite3BtreeInsert_key (w : World) (c : Nat) (pKey : Option (List Nat)) (nKey : Int)
    (pData : List Nat) (nData : Int) : World :=
  let cur0 := w.cursors c
  let key1 : DBT :=
    if cur0.intKey then DBT.ofBytes (encKey nKey)
    else { DBT.zero with data := pKey.map (fun k => k.take nKey.toNat), size := nKey.toNat }
  let data1 : DBT := { DBT.zero with data := some (pData.take nData.toNat), size := nData.toNat }
  w.setCursor c { cur0 with multiGetPtr := none, key := key1, data := data1 }

/-- The write of `sqlite3BtreeInsert` on a handle that is not buffered
(btree.c:3036-3095): the key is set and `insertData` stores the row.  The
result is `ret` and the world in which the watchers are tripped. -/
def sqlite3BtreeInsert_put (w : World) (c : Nat) (pKey : Option (List Nat)) (nKey : Int)
    (pData : List Nat) (nData : Int) (nZero : Int) : Int × World :=
  let w1 := sqlite3BtreeInsert_key w c pKey nKey pData nData
  let cur1 := w1.cursors c
  let w2 :=
    if !cur1.intKey ∧ pKey ≠ none then
      w1.setCursor c { cur1 with key := { cur1.key with app_data := true } }
    else w1
  insertData w2 c nZero nData

/-- The write of `sqlite3BtreeInsert` to the bulk buffer of a buffered cursor
(btree.c:3053-3077): the buffer is opened for appending when the cursor has
none, and the record is appended when the buffer is open for appending; a
value with a zero tail closes the buffer for appending. -/
def sqlite3BtreeInsert_buffer (cap : Nat) (cur1 : BtCursor) (nZero : Int) : BtCursor :=
  if nZero = 0 then
    let opened : BtCursor :=
      if cur1.multiData = none then { cur1 with multiData := some [], multiPutPtr := some () }
      else cur1
    if opened.multiPutPtr ≠ none then
      multipleKeyWriteNext cap opened (cur1.key.data.getD [], cur1.data.data.getD [])
    else opened
  else { cur1 with multiPutPtr := none }

/-- `sqlite3BtreeInsert` (btree.c:3013). -/
def sqlite3BtreeInsert (ops : EnvOps) (w : World) (c : Nat) (pKey : Option (List Nat))
    (nKey : Int) (pData : List Nat) (nData : Int) (nZero : Int) : Int × World :=
  if !(w.cursors c).wrFlag then (SQLITE_READONLY, w)
  else
    let w1 := sqlite3BtreeInsert_key w c pKey nKey pData nData
    let cur1 := w1.cursors c
    if w1.isBuffer c then
      let cur2 : BtCursor := sqlite3BtreeInsert_buffer w1.multiBufsize cur1 nZero
      let w2 := w1.setCursor c cur2
      if cur2.multiPutPtr = none then
        let r := btreeLoadBufferIntoTable ops w2 c
        if r.1 ≠ SQLITE_OK then r
        else
          let i := insertData r.2 c nZero nData
          let cur3 := i.2.cursors c
          (MAP_ERR_LOCKED SQLITE_OK i.1,
            i.2.setCursor c { cur3 with key := { cur3.key with app_data := false } })
      else
        (MAP_ERR_LOCKED SQLITE_OK 0,
          w2.setCursor c { cur2 with key := { cur2.key with app_data := false } })
    else
      let i := sqlite3BtreeInsert_put w c pKey nKey pData nData nZero
      let t : Int × World :=
        if i.1 = 0 then
          let t := btreeTripWatchers i.2 c false
          if t.1 ≠ SQLITE_OK then t
          else (SQLITE_OK, t.2.setCursor c { t.2.cursors c with skipMulti := false })
        else (SQLITE_OK, i.2.setCursor c { i.2.cursors c with eState := CURSOR_INVALID })
      let cur3 := t.2.cursors c
      (MAP_ERR_LOCKED t.1 i.1,
        t.2.setCursor c { cur3 with key := { cur3.key with app_data := false } })

/-- `DBC->del` through a pointer that may be NULL. -/
def dbc_del_opt (w : World) (d : Option Nat) : Int × World :=
  match d with
  | some c => dbc_del w c
  | none => (EINVAL, w)

/-- The start of `sqlite3BtreeDelete` (btree.c:3129-3146): a buffered cursor is
moved to its key in the table, and a cursor that reads from a bulk buffer is
put on its row.  The result is the status of an early return (`none` when the
function goes on) and the world in which the watchers are tripped. -/
def sqlite3BtreeDelete_seek (ops : EnvOps) (w : World) (c : Nat) : Option Int × World :=
  let cur0 := w.cursors c
  let r0 : Int × World :=
    if w.isBuffer c then
      let m := btreeMoveto ops w c cur0.key.data cur0.key.size
      (m.1, m.2.2)
    else (SQLITE_OK, w)
  if r0.1 ≠ SQLITE_OK then (some r0.1, r0.2)
  else
    let w0 := r0.2
    let cur := w0.cursors c
    if cur.multiGetPtr ≠ none ∨ w0.isBuffer c then
      let w1 := w0.setCursor c { cur with multiGetPtr := none }
      let g := dbc_get_opt w1 cur.dbc DB_SET (cur.key.data.getD [])
      if g.1 ≠ 0 then (some (dberr2sqlitelocked g.1), g.2.2)
      else (none, g.2.2.setCursor c { g.2.2.cursors c with eState := CURSOR_VALID })
    else (none, w0)

/-- `sqlite3BtreeDelete` (btree.c:3117). -/
def sqlite3BtreeDelete (ops : EnvOps) (w : World) (c : Nat) : Int × World :=
  if !(w.cursors c).wrFlag then (SQLITE_READONLY, w)
  else
    let s := sqlite3BtreeDelete_seek ops w c
    match s.1 with
    | some rc => (rc, s.2)
    | none =>
      let t := btreeTripWatchers s.2 c false
      if t.1 ≠ SQLITE_OK then t
      else
        let d := dbc_del_opt t.2 (t.2.cursors c).dbc
        (if d.1 = 0 then SQLITE_OK else dberr2sqlitelocked d.1,
          d.2.setCursor c { d.2.cursors c with eState := CURSOR_INVALID })

/-! ## Sizes, incremental blobs and faults (`btree.c`) -/

/-- `sqlite3BtreeKeySize` (btree.c:2599).  The second component is the value
written to `*pSize`, if any. -/
def sqlite3BtreeKeySize (ops : EnvOps) (w : World) (c : Nat) : Int × Option Int × World :=
  let r : Int × World :=
    if (w.cursors c).eState ≠ CURSOR_VALID then btreeRestoreCursorPosition ops w c false
    else (SQLITE_OK, w)
  if r.1 ≠ SQLITE_OK then (r.1, none, r.2)
  else
    let cur := r.2.cursors c
    (SQLITE_OK,
      some (if cur.intKey then cur.savedIntKey
            else if cur.eState = CURSOR_VALID then (cur.key.size : Int) else 0),
      r.2)

/-- `sqlite3BtreeDataSize` (btree.c:2623).  The second component is the value
written to `*pSize`, if any. -/
def sqlite3BtreeDataSize (ops : EnvOps) (w : World) (c : Nat) : Int × Option Int × World :=
  let r : Int × World :=
    if (w.cursors c).eState ≠ CURSOR_VALID then btreeRestoreCursorPosition ops w c false
    else (SQLITE_OK, w)
  if r.1 ≠ SQLITE_OK then (r.1, none, r.2)
  else
    let cur := r.2.cursors c
    (SQLITE_OK, some (if cur.eState = CURSOR_VALID then (cur.data.size : Int) else 0), r.2)

/-- `DBC->put` with `DB_CURRENT` through a pointer that may be NULL. -/
def dbc_put_current_opt (w : World) (d : Option Nat) (doff : Nat) (bytes : List Nat) :
    Int × World :=
  match d with
  | some c => dbc_put_current w c doff bytes
  | none => (EINVAL, w)

/-- `sqlite3BtreePutData` (btree.c:3697), built without `SQLITE_OMIT_INCRBLOB`:
`amt` bytes of `z` overwrite the value of the cursor's row from `offset` on. -/
def sqlite3BtreePutData (ops : EnvOps) (w : World) (c : Nat) (offset amt : Nat) (z : List Nat) :
    Int × World :=
  if !(w.cursors c).wrFlag then (SQLITE_READONLY, w)
  else
    let r : Int × World :=
      if (w.cursors c).dbc = none then btreeRestoreCursorPosition ops w c false
      else (SQLITE_OK, w)
    if r.1 ≠ SQLITE_OK then r
    else if (r.2.cursors c).eState ≠ CURSOR_VALID then (SQLITE_ABORT, r.2)
    else
      let cur := r.2.cursors c
      let old := cur.data.data.getD []
      let bytes := z.take amt
      let w1 := r.2.setCursor c
        { cur with data := { cur.data with
            data := some (old.take offset ++ bytes ++ old.drop (offset + bytes.length)) } }
      let t := btreeTripWatchers w1 c true
      if t.1 ≠ SQLITE_OK then t
      else
        let u := dbc_put_current_opt t.2 (t.2.cursors c).dbc offset bytes
        (if u.1 ≠ 0 then dberr2sqlitelocked u.1 else SQLITE_OK, u.2)

/-- `sqlite3BtreeCacheOverflow` (btree.c:3749): marks an incremental-blob
cursor. -/
def sqlite3BtreeCacheOverflow (w : World) (c : Nat) : World :=
  w.setCursor c { w.cursors c with isIncrblobHandle := true }

/-- The loop of `sqlite3BtreeTripAllCursors` (btree.c:3787). -/
def sqlite3BtreeTripAllCursors_loop (errCode : Int) : World → List Nat → World
  | w, [] => w
  | w, c :: rest =>
    sqlite3BtreeTripAllCursors_loop errCode
      (w.setCursor c { w.cursors c with eState := CURSOR_FAULT, error := errCode }) rest

/-- `sqlite3BtreeTripAllCursors` (btree.c:3776): every cursor on the list of
the `BtShared` of `p` is put in `CURSOR_FAULT` with the error `errCode`. -/
def sqlite3BtreeTripAllCursors (w : World) (p : Nat) (errCode : Int) : World :=
  sqlite3BtreeTripAllCursors_loop errCode w (w.bt p).cursors

/-! ## Transactions and the schema lock (`btree.c`) -/

/-- The loop `while (x != NULL && x != txn) x = x->parent` of
`btreeCloseAllCursors` (btree.c:1241), followed by the test `x == txn`.  The
walk is bounded by the number of engine handles: parents are older handles. -/
def txnReaches (txns : Nat → DB_TXN) (txn : Nat) : Nat → Option Nat → Bool
  | _, none => false
  | 0, some x => x = txn
  | fuel + 1, some x => if x = txn then true else txnReaches txns txn fuel (txns x).parent

/-- `btreeLockSchema` (btree.c:3794). -/
def btreeLockSchema (ops : EnvOps) (w : World) (p : Nat) (lockMode : Int) : Int × World :=
  let b := w.btrees p
  if !b.connected then
    if lockMode = LOCKMODE_NONE ∨ lockMode > b.schemaLockMode then
      (SQLITE_OK, w.setBtree p { b with schemaLockMode := lockMode })
    else (SQLITE_OK, w)
  else
    let tmp := w.addrs
    let blank : BtCursor :=
      { pBtree := none, tableIndex := 0, wrFlag := false, eState := CURSOR_INVALID, error := 0,
        lastRes := 0, flags := 0, db := 0, dbc := none, txn := none, key := DBT.zero,
        data := DBT.zero, savedIntKey := 0, multiData := none, multiGetPtr := none,
        multiPutPtr := none, skipMulti := false, isIncrblobHandle := false }
    let r1 : Int × Bool × World :=
      if lockMode = LOCKMODE_NONE then (SQLITE_OK, false, w)
      else
        let w0 := { w with addrs := tmp + 1 }.setCursor tmp blank
        let o := sqlite3BtreeCursor ops w0 p MASTER_ROOT (lockMode = LOCKMODE_WRITE) tmp
        let opened : Bool := o.1 = SQLITE_OK
        let rc1 : Int := if (o.2.cursors tmp).eState = CURSOR_FAULT then (o.2.cursors tmp).error
                         else o.1
        if rc1 = SQLITE_OK then
          let l := sqlite3BtreeLast ops o.2 tmp
          (l.1, opened, l.2.2)
        else (rc1, opened, o.2)
    let w1 := r1.2.2
    let b1 := w1.btrees p
    let r2 : Int × World :=
      match b1.schemaLock with
      | some d =>
        let cl := dbc_close w1 d
        (if cl.1 ≠ 0 ∧ r1.1 = SQLITE_OK then dberr2sqlite cl.1 else r1.1,
          cl.2.setBtree p { cl.2.btrees p with schemaLock := none })
      | none => (r1.1, w1)
    let w2 := r2.2
    let b2 := w2.btrees p
    let w3 :=
      if r1.2.1 ∧ r2.1 = SQLITE_OK then
        (w2.setBtree p { b2 with schemaLockMode := lockMode,
                                 schemaLock := (w2.cursors tmp).dbc }).setCursor tmp
          { w2.cursors tmp with dbc := none }
      else w2.setBtree p { b2 with schemaLockMode := LOCKMODE_NONE }
    let w4 := if r1.2.1 then (sqlite3BtreeCloseCursor w3 (some tmp)).2 else w3
    (r2.1, w4)

/-- The test of `btreeCloseAllCursors` (btree.c:1234-1247) that keeps cursor
`c` on the list. -/
def closeAllKeeps (w : World) (p : Nat) (txn : Option Nat) (c : Nat) : Bool :=
  let cur := w.cursors c
  if cur.pBtree ≠ some p then true
  else
    match txn with
    | none => false
    | some t =>
      match cur.dbc with
      | none => true
      | some d =>
        let dbc_txn := txnReaches w.txns t w.handles (w.dbcs d).txn
        let db_txn := txnReaches w.txns t w.handles (w.dbhs (w.dbcs d).dbp).cur_txn
        !dbc_txn && !db_txn

/-- The second loop of `btreeCloseAllCursors` (btree.c:1264): closes the
detached cursors. -/
def closeFreeCursors : World → Int → List Nat → Int × World
  | w, rc, [] => (rc, w)
  | w, rc, c :: rest =>
    let r := btreeCloseCursor w c false
    closeFreeCursors r.2 (if r.1 ≠ SQLITE_OK ∧ rc = SQLITE_OK then r.1 else rc) rest

/-- `btreeCloseAllCursors` (btree.c:1216).  The first loop moves the cursors of
`p` that use `txn` (all cursors of `p` when `txn` is NULL) from the list of
the `BtShared` to a free list, each new one at its head; the second closes
them. -/
def btreeCloseAllCursors (ops : EnvOps) (w : World) (p : Nat) (txn : Option Nat) :
    Int × World :=
  let a := w.btAddr p
  let s := w.shared a
  let kept := s.cursors.filter (fun c => closeAllKeeps w p txn c)
  let free_cursors := (s.cursors.filter (fun c => !closeAllKeeps w p txn c)).reverse
  let w1 := w.setShared a { s with cursors := kept }
  let r := closeFreeCursors w1 SQLITE_OK free_cursors
  let b := r.2.btrees p
  match b.schemaLock, txn with
  | some d, some t =>
    if txnReaches r.2.txns t r.2.handles (r.2.dbcs d).txn then
      let l := btreeLockSchema ops r.2 p LOCKMODE_NONE
      (if l.1 ≠ SQLITE_OK ∧ r.1 = SQLITE_OK then l.1 else r.1, l.2)
    else r
  | _, _ => r

/-- The loop of `btreeCleanupCachedHandles` (btree.c:1298) over the cache. -/
def cleanupLoop (cleanup : cleanup_mode_t) :
    World → List (Int × CACHED_DB) → List (Int × CACHED_DB) × World
  | w, [] => ([], w)
  | w, (k, e) :: rest =>
    match e.dbp with
    | some h =>
      if cleanup ≠ CLEANUP_CLOSE ∧ (w.dbhs h).open_called then
        let r := cleanupLoop cleanup w rest
        ((k, e) :: r.1, r.2)
      else
        let cl := db_close w h
        let r := cleanupLoop cleanup cl.2 rest
        ((k, { e with dbp := none }) :: r.1, r.2)
    | none =>
      let r := cleanupLoop cleanup w rest
      ((k, { e with dbp := none }) :: r.1, r.2)

/-- `btreeCleanupCachedHandles` (btree.c:1283).  The status of `DB->close` is
only read in `if ((ret = close) == 0 && rc == SQLITE_OK) rc = dberr2sqlite(ret)`,
so the result is always `SQLITE_OK`.  With `CLEANUP_CLOSE` the entries are
freed; the caller clears the hash. -/
def btreeCleanupCachedHandles (w : World) (p : Nat) (cleanup : cleanup_mode_t) : Int × World :=
  let a := w.btAddr p
  let r := cleanupLoop cleanup w (w.shared a).db_cache
  (SQLITE_OK, r.2.setShared a { r.2.shared a with db_cache := r.1 })

/-- The loop of `sqlite3BtreeBeginStmt` (btree.c:1745):
`while (p->nSavepoint <= iStatement)`. -/
def beginStmt_loop (p : Nat) (iStatement : Int) : Nat → World → Int × World
  | 0, w => (SQLITE_OK, w)
  | fuel + 1, w =>
    let b := w.btrees p
    if b.nSavepoint ≤ iStatement then
      let r := txn_begin w b.savepoint_txn false
      if r.1 ≠ 0 then (dberr2sqlite r.1, r.2.2)
      else
        let b1 := r.2.2.btrees p
        beginStmt_loop p iStatement fuel
          (r.2.2.setBtree p
            { b1 with savepoint_txn := r.2.1, nSavepoint := wrap32 (b1.nSavepoint + 1) })
    else (SQLITE_OK, w)

/-- `sqlite3BtreeBeginStmt` (btree.c:1725).  The loop runs at most
`iStatement + 1 - nSavepoint` times, which is the fuel it is given. -/
def sqlite3BtreeBeginStmt (w : World) (p : Nat) (iStatement : Int) : Int × World :=
  if (w.bt p).transactional then
    let b := w.btrees p
    let r0 : Int × World :=
      if b.read_txn = none then
        let r := txn_begin w b.family_txn false
        if r.1 ≠ 0 then (r.1, r.2.2)
        else
          (0, r.2.2.setBtree p
            { r.2.2.btrees p with read_txn := r.2.1, savepoint_txn := r.2.1 })
      else (0, w)
    if r0.1 ≠ 0 then (dberr2sqlite r0.1, r0.2)
    else
      beginStmt_loop p iStatement (iStatement + 1 - (r0.2.btrees p).nSavepoint).toNat r0.2
  else (SQLITE_OK, w)

/-- The loop of `sqlite3BtreeSavepoint` (btree.c:4231):
`while (--p->nSavepoint > iSavepoint + 1 && txn->parent != NULL) txn = txn->parent`.
The result is the final `nSavepoint` and `txn`. -/
def savepoint_walk (txns : Nat → DB_TXN) (iSavepoint : Int) : Nat → Int → Nat → Int × Nat
  | 0, n, txn => (n, txn)
  | fuel + 1, n, txn =>
    if n - 1 > iSavepoint + 1 then
      match (txns txn).parent with
      | some q => savepoint_walk txns iSavepoint fuel (n - 1) q
      | none => (n - 1, txn)
    else (n - 1, txn)

/-- The end of `sqlite3BtreeSavepoint`, from `rc = btreeCloseAllCursors(p, txn)`
(btree.c:4267) on: the cursors of `txn` are closed, `txn` is committed or
aborted, and after an abort the stale cached handles are dropped. -/
def sqlite3BtreeSavepoint_end (ops : EnvOps) (w : World) (p : Nat) (op : Int) (txn : Nat) :
    Int × World :=
  let r := btreeCloseAllCursors ops w p (some txn)
  if r.1 ≠ SQLITE_OK then r
  else
    let e := if op = SAVEPOINT_RELEASE then txn_commit r.2 txn else txn_abort r.2 txn
    if e.1 ≠ 0 then (dberr2sqlite e.1, e.2)
    else if op = SAVEPOINT_ROLLBACK ∧ (e.2.btrees p).cached_dbs ≠ 0 then
      let cl := btreeCleanupCachedHandles e.2 p CLEANUP_ABORT
      if cl.1 ≠ SQLITE_OK then cl else (dberr2sqlite e.1, cl.2)
    else (dberr2sqlite e.1, e.2)

/-- `sqlite3BtreeSavepoint` (btree.c:4200), built without
`BDBSQL_SEMITXN_TRUNCATE`.  `p = none` is a NULL `Btree`.  The loop runs at
most `nSavepoint - iSavepoint` times, which is the fuel it is given.  A NULL
`pReadTxn` with a negative level is a NULL dereference in C; the embedding
returns `SQLITE_INTERNAL` then. -/
def sqlite3BtreeSavepoint (ops : EnvOps) (w : World) (p : Option Nat) (op : Int)
    (iSavepoint : Int) : Int × World :=
  match p with
  | none => (SQLITE_OK, w)
  | some pa =>
    let b := w.btrees pa
    match b.savepoint_txn with
    | none => (SQLITE_OK, w)
    | some sp =>
      if iSavepoint + 2 > b.nSavepoint then (SQLITE_OK, w)
      else
        let sel : Option (Int × Nat) :=
          if iSavepoint < 0 then b.read_txn.map (fun t => (b.nSavepoint, t))
          else some (savepoint_walk w.txns iSavepoint (b.nSavepoint - iSavepoint).toNat
                      b.nSavepoint sp)
        match sel with
        | none => (SQLITE_INTERNAL, w)
        | some (n1, txn) =>
          let b1 : Btree :=
            match (w.txns txn).parent with
            | none =>
              { b with read_txn := none, savepoint_txn := none, nSavepoint := 0,
                       inTrans := TRANS_NONE }
            | some q => { b with nSavepoint := n1, savepoint_txn := some q }
          sqlite3BtreeSavepoint_end ops (w.setBtree pa b1) pa op txn

/-- `sqlite3BtreeRollback` (btree.c:1692). -/
def sqlite3BtreeRollback (ops : EnvOps) (w : World) (p : Nat) : Int × World :=
  let r : Int × World :=
    if (w.btrees p).read_txn ≠ none then
      sqlite3BtreeSavepoint ops w (some p) SAVEPOINT_ROLLBACK (-1)
    else (SQLITE_OK, w)
  if (r.2.btrees p).schemaLockMode > LOCKMODE_NONE then
    let l := btreeLockSchema ops r.2 p LOCKMODE_NONE
    (if l.1 ≠ SQLITE_OK ∧ r.1 = SQLITE_OK then l.1 else r.1, l.2)
  else r

/-! ## Table ids (`btree.c`) -/

/-- The bytes of the string "table". -/
def tableBytes : List Nat := [116, 97, 98, 108, 101]

/-- The loop of `btreeTableNameToId` (btree.c:436) over the bytes that follow
"table"; `none` when a byte is not a decimal digit. -/
def tableNameDigits : List Nat → Int → Option Int
  | [], id => some id
  | c :: cs, id =>
    if c < 48 ∨ c > 57 then none
    else tableNameDigits cs (wrap32 (id * 10 + ((c : Int) - 48)))

/-- `btreeTableNameToId` (btree.c:428): the status and the value written to
`*pid`. -/
def btreeTableNameToId (subdb : List Nat) : Int × Option Int :=
  match tableNameDigits (subdb.drop 5) 0 with
  | some id => (0, some id)
  | none => (EINVAL, none)

/-- The start of `btreeCreateTable` (btree.c:3179-3205): the value of
`lastTable` that the new id is computed from.  On a named database it is read
from the last name of the tables database; otherwise it is `pBt->last_table`.
The result is `ret`, `lastTable`, the cursor `dbc` if it is still open, and
the world. -/
def btreeCreateTable_last (w : World) (p : Nat) : Int × Int × Option Nat × World :=
  let a := w.btAddr p
  let s := w.shared a
  if s.dbStorage = DB_STORE_NAMED then
    match s.tablesdb with
    | none => (EINVAL, 0, none, w)
    | some tdb =>
      let rc := db_cursor w tdb (w.btrees p).family_txn
      match rc.2.1 with
      | none => (if rc.1 = 0 then EINVAL else rc.1, 0, none, rc.2.2)
      | some dbc =>
        if rc.1 ≠ 0 then (rc.1, 0, none, rc.2.2)
        else
          let g := dbc_get rc.2.2 dbc DB_LAST []
          match g.2.1 with
          | none => (if g.1 = 0 then DB_NOTFOUND else g.1, 0, some dbc, g.2.2)
          | some row =>
            if g.1 ≠ 0 then (g.1, 0, some dbc, g.2.2)
            else
              let parsed : Int × Option Int :=
                if row.1.take 5 = tableBytes then btreeTableNameToId row.1 else (0, some 0)
              if parsed.1 ≠ 0 then (parsed.1, 0, some dbc, g.2.2)
              else
                let cl := dbc_close g.2.2 dbc
                (cl.1, parsed.2.getD 0, none, cl.2)
  else (0, s.last_table, none, w)

/-- `btreeCreateTable` (btree.c:3165): the status, the id written to
`*piTable`, and the world. -/
def btreeCreateTable (w : World) (p : Nat) (flags : Nat) : Int × Option Int × World :=
  let a := w.btAddr p
  let r0 := btreeCreateTable_last w p
  if r0.1 ≠ 0 then
    let w1 := match r0.2.2.1 with
      | some dbc => (dbc_close r0.2.2.2 dbc).2
      | none => r0.2.2.2
    (MAP_ERR SQLITE_OK r0.1, none, w1)
  else
    let w1 := r0.2.2.2
    let lastTable := r0.2.1
    let iTable0 := wrap32 (lastTable + 1)
    let iTable :=
      if flags &&& BTREE_INTKEY ≠ 0 then
        if iTable0 % 2 = 0 then wrap32 (iTable0 + 1) else iTable0
      else if iTable0 % 2 = 1 then wrap32 (iTable0 + 1) else iTable0
    let r := btreeCreateDataTable w1 p iTable false
    if r.1 = SQLITE_OK then
      (MAP_ERR r.1 0, some iTable, r.2.setShared a { r.2.shared a with last_table := iTable })
    else (MAP_ERR r.1 0, none, r.2)

/-- The start of `sqlite3BtreeCreateTable` (btree.c:3247-3273), up to the call
of `btreeCreateTable`: the status, whether the id 2 of an ephemeral table is
handed out, and the world. -/
def sqlite3BtreeCreateTable_ready (ops : EnvOps) (w : World) (p : Nat) (flags : Nat) :
    Int × Bool × World :=
  let a := w.btAddr p
  let r0 : Int × World :=
    if flags &&& BTREE_ZERODATA ≠ 0 then
      let w0 := w.setShared a { w.shared a with resultsBuffer := false }
      if (w0.shared a).dbenv = none then ops.btreePrepareEnvironment w0 p
      else (SQLITE_OK, w0)
    else (SQLITE_OK, w)
  if r0.1 ≠ SQLITE_OK then (r0.1, false, r0.2)
  else if (r0.2.shared a).resultsBuffer then (SQLITE_OK, true, r0.2)
  else if !(r0.2.btrees p).connected then
    let r1 := ops.btreeOpenEnvironment r0.2 p true
    (r1.1, false, r1.2)
  else (SQLITE_OK, false, r0.2)

/-- `sqlite3BtreeCreateTable` (btree.c:3233): the status, the id written to
`*piTable`, and the world. -/
def sqlite3BtreeCreateTable (ops : EnvOps) (w : World) (p : Nat) (flags : Nat) :
    Int × Option Int × World :=
  let r := sqlite3BtreeCreateTable_ready ops w p flags
  if r.1 ≠ SQLITE_OK then (r.1, none, r.2.2)
  else if r.2.1 then (SQLITE_OK, some 2, r.2.2)
  else btreeCreateTable r.2.2 p flags

/-! ## The registry of shared handles (`btree.c`) -/

/-- Modelled from the spec: `DB_ENV->txn_checkpoint(env, 0, 0, 0)`. -/
def txn_checkpoint (w : World) (e : Nat) : Int × World :=
  let r := w.engine 0
  (r.1, r.2.log (Event.env_checkpoint e))

/-- Modelled from the spec: `DB_ENV->close(env, 0)`. -/
def env_close (w : World) (e : Nat) : Int × World :=
  let r := w.engine 0
  (r.1, r.2.log (Event.env_close e))

/-- The inner loop of `btreeGetSharedBtree` (btree.c:935): whether some
attached database of the context `db` is a `Btree` whose `pBt` is `a`. -/
def attachedTo (w : World) (db : Nat) (a : Nat) : Bool :=
  (w.ctx db).aDb.any (fun e =>
    match e with
    | some q => (w.btrees q).pBt = some a
    | none => false)

/-- The loop of `btreeGetSharedBtree` (btree.c:925) over the registry list. -/
def btreeGetSharedBtree_loop (w : World) (zFilename : List Char) (db : Nat)
    (store : storage_mode_t) : List Nat → Int × Option Nat × World
  | [] => (SQLITE_OK, none, w)
  | a :: rest =>
    let s := w.shared a
    if (store ≠ DB_STORE_NAMED ∧ s.full_name = none) ∨
        (store = DB_STORE_NAMED ∧ s.orig_name = some zFilename) then
      if attachedTo w db a then (SQLITE_CONSTRAINT, none, w)
      else (SQLITE_OK, some a, w.setShared a { s with nRef := wrap32 (s.nRef + 1) })
    else btreeGetSharedBtree_loop w zFilename db store rest

/-- `btreeGetSharedBtree` (btree.c:902): the status, `*ppBt` and the world. -/
def btreeGetSharedBtree (w : World) (zFilename : List Char) (db : Nat)
    (store : storage_mode_t) : Int × Option Nat × World :=
  btreeGetSharedBtree_loop w zFilename db store w.g_shared_btrees

/-- Modelled from the spec: `SQLITE_MAX_PAGE_COUNT` of `sqliteLimit.h`, the
largest page count a database may be given. -/
def SQLITE_MAX_PAGE_COUNT : Int := 1073741823

/-- `btreeCreateSharedBtree` (btree.c:952); allocation succeeds.  The new
`BtShared` gets the next free address.  `sqlite3OsFullPathname` is not in
`btree.c`: the full name is taken to be the name itself. -/
def btreeCreateSharedBtree (w : World) (p : Nat) (zFilename : Option (List Char)) (flags : Nat)
    (store : storage_mode_t) : Int × World :=
  let a := w.addrs
  let transactional : Bool := store ≠ DB_STORE_TMP
  let new_bt : BtShared :=
    { nRef := 1, dbStorage := store, transactional := transactional,
      resultsBuffer := !transactional, env_opened := false, dbenv := none, metadb := none,
      tablesdb := none,
      orig_name := if store = DB_STORE_NAMED then zFilename else none,
      full_name := if store = DB_STORE_NAMED then zFilename else none,
      flags := flags,
      db_oflags := DB_THREAD ||| (if transactional then DB_READ_UNCOMMITTED else 0),
      pageSize := 0, pageSizeFixed := false, last_table := 0, uid := w.g_uid_next,
      cursors := [], db_cache := [], env_oflags := 0, pageCount := SQLITE_MAX_PAGE_COUNT,
      meta := fun _ => (false, 0) }
  let w1 := { w with addrs := a + 1, g_uid_next := w.g_uid_next + 1 }.setShared a new_bt
  (SQLITE_OK, w1.setBtree p { w1.btrees p with pBt := some a })

/-- The storage mode `sqlite3BtreeOpen` chooses (btree.c:1090-1118). -/
def openStore (zFilename : Option (List Char)) (flags vfsFlags : Nat) : storage_mode_t :=
  if vfsFlags &&& SQLITE_OPEN_TRANSIENT_DB ≠ 0 then DB_STORE_TMP
  else if zFilename = none ∨ zFilename = some [] ∨ zFilename = some ":memory:".toList ∨
      flags &&& BTREE_MEMORY ≠ 0 then DB_STORE_INMEM
  else DB_STORE_NAMED

/-- The name `zDBFilename` of a named database: `zFilename` without a leading
"./" or ".\" (btree.c:1114). -/
def stripDotSlash (zFilename : List Char) : List Char :=
  match zFilename with
  | '.' :: '/' :: rest => rest
  | '.' :: '\\' :: rest => rest
  | _ => zFilename

/-- The branch `pBt != NULL` of `sqlite3BtreeOpen` (btree.c:1132-1135): the
new `Btree` `p` joins the registered `BtShared` `a`. -/
def sqlite3BtreeOpen_shared (ops : EnvOps) (w : World) (p a : Nat) : Int × Option Nat × World :=
  let w1 := w.setBtree p { w.btrees p with pBt := some a }
  let o := ops.btreeOpenEnvironment w1 p false
  if o.1 ≠ SQLITE_OK then (o.1, none, o.2) else (SQLITE_OK, some p, o.2)

/-- The branch `pBt == NULL` of `sqlite3BtreeOpen` (btree.c:1136-1160): a new
`BtShared` is created for `p`, its environment prepared, and a named one is
put at the end of the registry list. -/
def sqlite3BtreeOpen_new (ops : EnvOps) (w : World) (p : Nat)
    (zDBFilename : Option (List Char)) (flags : Nat) (store : storage_mode_t) :
    Int × Option Nat × World :=
  let c := btreeCreateSharedBtree w p zDBFilename flags store
  if c.1 ≠ 0 then (c.1, none, c.2)
  else
    let a := c.2.btAddr p
    let e : Int × World :=
      if !(c.2.shared a).resultsBuffer then ops.btreePrepareEnvironment c.2 p
      else (0, c.2)
    if e.1 ≠ 0 then (e.1, none, e.2)
    else
      (SQLITE_OK, some p,
        if store = DB_STORE_NAMED then
          { e.2 with g_shared_btrees := e.2.g_shared_btrees ++ [a] }
        else e.2)

/-- `sqlite3BtreeOpen` (btree.c:1060); allocation succeeds.  The result is the
status, `*ppBtree` and the world.  The new `Btree` gets the next free
address. -/
def sqlite3BtreeOpen (ops : EnvOps) (w : World) (zFilename : Option (List Char)) (db : Nat)
    (flags vfsFlags : Nat) : Int × Option Nat × World :=
  let p := w.addrs
  let store := openStore zFilename flags vfsFlags
  let blank : Btree :=
    { pBt := none, db := db, connected := false,
      sharable := store = DB_STORE_NAMED ∧ vfsFlags &&& SQLITE_OPEN_SHAREDCACHE ≠ 0,
      vfsFlags := vfsFlags, inTrans := TRANS_NONE, nSavepoint := 0, family_txn := none,
      read_txn := none, savepoint_txn := none, schemaLock := none,
      schemaLockMode := LOCKMODE_NONE, cached_dbs := 0 }
  let w0 := { w with addrs := p + 1 }.setBtree p blank
  let zDBFilename : Option (List Char) :=
    if store = DB_STORE_NAMED then zFilename.map stripDotSlash else zFilename
  let g : Int × Option Nat × World :=
    if store = DB_STORE_NAMED then btreeGetSharedBtree w0 (zDBFilename.getD []) db store
    else (SQLITE_OK, none, w0)
  if g.1 ≠ SQLITE_OK then (g.1, none, g.2.2)
  else
    match g.2.1 with
    | some a => sqlite3BtreeOpen_shared ops g.2.2 p a
    | none => sqlite3BtreeOpen_new ops g.2.2 p zDBFilename flags store

/-- The part of `sqlite3BtreeClose` that closes the handles of a `BtShared`
(btree.c:1409-1421): the cached handles, the tables database and the metadata
database.  The result is `rc`, `ret` and the world. -/
def sqlite3BtreeClose_handles (w : World) (p a : Nat) (rc ret : Int) : Int × Int × World :=
  let cl := btreeCleanupCachedHandles w p CLEANUP_CLOSE
  let rc1 := if cl.1 ≠ SQLITE_OK ∧ rc = SQLITE_OK then cl.1 else rc
  let w2 := cl.2.setShared a { cl.2.shared a with db_cache := [] }
  let r3 : Int × World :=
    match (w2.shared a).tablesdb with
    | some h =>
      let c := db_close w2 h
      (if c.1 ≠ 0 ∧ ret = 0 then c.1 else ret, c.2)
    | none => (ret, w2)
  let r4 : Int × World :=
    match (r3.2.shared a).metadb with
    | some h =>
      let c := db_close r3.2 h
      (if c.1 ≠ 0 ∧ r3.1 = 0 then c.1 else r3.1, c.2)
    | none => r3
  (rc1, r4.1, r4.2.setShared a { r4.2.shared a with tablesdb := none, metadb := none })

/-- The part of `sqlite3BtreeClose` that closes the environment of a named
`BtShared` (btree.c:1424-1437).  The result is `ret` and the world. -/
def sqlite3BtreeClose_env (w : World) (a : Nat) (ret : Int) : Int × World :=
  match (w.shared a).dbenv with
  | some e =>
    if (w.shared a).dbStorage = DB_STORE_NAMED then
      let r6 : Int × World :=
        if (w.shared a).transactional ∧ (w.shared a).env_opened then
          let c := txn_checkpoint w e
          (if c.1 ≠ 0 ∧ ret = 0 then c.1 else ret, c.2)
        else (ret, w)
      let c := env_close r6.2 e
      (if c.1 ≠ 0 ∧ r6.1 = 0 then c.1 else r6.1, c.2)
    else (ret, w)
  | none => (ret, w)

/-- The body of `if (--pBt->nRef == 0)` in `sqlite3BtreeClose`
(btree.c:1394-1440): the last reference is gone.  The result is `rc`, `ret`
and the world. -/
def sqlite3BtreeClose_last (w : World) (p a : Nat) (rc ret : Int) : Int × Int × World :=
  let w1 :=
    if (w.shared a).dbStorage = DB_STORE_NAMED then
      { w with g_shared_btrees := w.g_shared_btrees.erase a }
    else w
  let h := sqlite3BtreeClose_handles w1 p a rc ret
  let e := sqlite3BtreeClose_env h.2.2 a h.2.1
  (h.1, e.1, e.2)

/-- The start of `sqlite3BtreeClose` (btree.c:1356-1371): the cursors of `p`
are closed, an open transaction is rolled back and the family transaction is
committed.  The result is `rc`, `ret` and the world. -/
def sqlite3BtreeClose_txns (ops : EnvOps) (w : World) (p : Nat) : Int × Int × World :=
  let r1 := btreeCloseAllCursors ops w p none
  let r2 : Int × World :=
    if (r1.2.btrees p).read_txn ≠ none then
      let t := sqlite3BtreeRollback ops r1.2 p
      (if t.1 ≠ SQLITE_OK ∧ r1.1 = SQLITE_OK then t.1 else r1.1, t.2)
    else r1
  match (r2.2.btrees p).family_txn with
  | some f =>
    let c := txn_commit r2.2 f
    let w3 := c.2.setBtree p { c.2.btrees p with family_txn := none, inTrans := TRANS_NONE }
    (if c.1 ≠ 0 ∧ r2.1 = SQLITE_OK then dberr2sqlite c.1 else r2.1, c.1, w3)
  | none => (r2.1, 0, r2.2)

/-- `sqlite3BtreeClose` (btree.c:1338).  The freed `Btree` and `BtShared` keep
their last contents. -/
def sqlite3BtreeClose (ops : EnvOps) (w : World) (p : Nat) : Int × World :=
  match (w.btrees p).pBt with
  | none => (MAP_ERR SQLITE_OK 0, w)
  | some a =>
    let r3 := sqlite3BtreeClose_txns ops w p
    let w3 := r3.2.2
    let n := wrap32 ((w3.shared a).nRef - 1)
    let w4 := w3.setShared a { w3.shared a with nRef := n }
    let r5 : Int × Int × World :=
      if n = 0 then sqlite3BtreeClose_last w4 p a r3.1 r3.2.1 else (r3.1, r3.2.1, w4)
    (MAP_ERR r5.1 r5.2.1, r5.2.2)

/-! ## Beginning and committing a transaction (`btree.c`) -/

/-- `sqlite3BtreeBeginTrans` (btree.c:1516). -/
def sqlite3BtreeBeginTrans (w : World) (p : Nat) (wrflag : Bool) : Int × World :=
  let b := w.btrees p
  if wrflag ∧ (w.bt p).db_oflags &&& DB_RDONLY ≠ 0 then (SQLITE_READONLY, w)
  else if !b.connected then
    (SQLITE_OK,
      w.setBtree p
        { b with inTrans := if wrflag ∨ b.inTrans = TRANS_WRITE then TRANS_WRITE else TRANS_READ })
  else if (w.bt p).transactional then
    let inTrans1 : Int :=
      if wrflag ∧ b.inTrans ≠ TRANS_WRITE then TRANS_WRITE
      else if b.inTrans = TRANS_NONE then TRANS_READ
      else b.inTrans
    let w1 := w.setBtree p { b with inTrans := inTrans1 }
    if b.read_txn = none ∨ b.nSavepoint ≤ (w.ctx b.db).nSavepoint then
      sqlite3BtreeBeginStmt w1 p (w.ctx b.db).nSavepoint
    else (SQLITE_OK, w1)
  else (SQLITE_OK, w)

/-- The branch of `sqlite3BtreeCommitPhaseTwo` that ends the read transaction
`rd` (btree.c:1610-1633): the cursors of `rd` are closed, `rd` is committed
whatever came of that, the transaction references are cleared, and a
checkpoint follows when all went well.  `pDbEnv` is `pBt->dbenv`;
dereferencing NULL is undefined in C, the embedding reads handle 0 then. -/
def sqlite3BtreeCommitPhaseTwo_read (ops : EnvOps) (w : World) (p rd : Nat) : Int × World :=
  let c := btreeCloseAllCursors ops w p (some rd)
  let e := txn_commit c.2 rd
  let rc : Int := if e.1 ≠ 0 ∧ c.1 = SQLITE_OK then dberr2sqlite e.1 else c.1
  let w2 := e.2.setBtree p
    { e.2.btrees p with savepoint_txn := none, read_txn := none, nSavepoint := 0 }
  if rc = SQLITE_OK then
    let k := txn_checkpoint w2 ((w2.bt p).dbenv.getD 0)
    (dberr2sqlite k.1, k.2)
  else (rc, w2)

/-- `sqlite3BtreeCommitPhaseTwo` (btree.c:1596), built without
`BDBSQL_SEMITXN_TRUNCATE`. -/
def sqlite3BtreeCommitPhaseTwo (ops : EnvOps) (w : World) (p : Nat) : Int × World :=
  let b := w.btrees p
  let r1 : Int × World :=
    if b.read_txn ≠ none ∧ (w.ctx b.db).activeVdbeCnt ≤ 1 then
      sqlite3BtreeCommitPhaseTwo_read ops w p (b.read_txn.getD 0)
    else if b.inTrans = TRANS_WRITE then
      sqlite3BtreeSavepoint ops w (some p) SAVEPOINT_RELEASE 0
    else (SQLITE_OK, w)
  let b1 := r1.2.btrees p
  if (r1.2.ctx b1.db).activeVdbeCnt > 1 then
    (r1.1, r1.2.setBtree p { b1 with inTrans := TRANS_READ })
  else
    let w3 := r1.2.setBtree p { b1 with inTrans := TRANS_NONE }
    if b1.schemaLockMode > LOCKMODE_NONE then btreeLockSchema ops w3 p LOCKMODE_NONE
    else (r1.1, w3)

/-! ## The environment of a database that is not named (`btree.c`) -/

/-- Modelled from the spec: `db_env_create(&env, 0)`: a new environment
handle; on failure the out parameter is left as it was. -/
def db_env_create (w : World) : Int × Option Nat × World :=
  let r := w.engine 0
  if r.1 ≠ 0 then (r.1, none, r.2)
  else (0, some r.2.handles, { r.2 with handles := r.2.handles + 1 })

/-- Modelled from the spec: `DB_ENV->open(env, home, flags, 0)`. -/
def env_open (w : World) (_e : Nat) : Int × World := w.engine 0

/-- `sqlite3BtreeLockTable` (btree.c:3853). -/
def sqlite3BtreeLockTable (ops : EnvOps) (w : World) (p : Nat) (iTable : Int)
    (isWriteLock : Bool) : Int × World :=
  let lockMode : Int := if isWriteLock then LOCKMODE_WRITE else LOCKMODE_READ
  if iTable ≠ MASTER_ROOT ∨ !(w.bt p).transactional ∨ (w.btrees p).schemaLockMode ≥ lockMode then
    (SQLITE_OK, w)
  else
    let r := btreeLockSchema ops w p lockMode
    if !(r.2.btrees p).connected ∧ r.1 ≠ SQLITE_NOMEM then
      (SQLITE_OK, r.2.setBtree p { r.2.btrees p with schemaLockMode := lockMode })
    else (if r.1 = SQLITE_BUSY then SQLITE_LOCKED else r.1, r.2)

/-- The first part of `btreeOpenEnvironment` on a database that is not named
(btree.c:776-815): the environment of the temporary databases is taken over
when there is one, and opened otherwise.  The result is `ret`, `newEnv` and
the world.  The exit for `ENOENT` needs `env_oflags` without `DB_CREATE`, which
`btreePrepareEnvironment` always sets for such a database.  `pDbEnv` is
`pBt->dbenv`; dereferencing NULL is undefined in C, the embedding reads handle
0 then. -/
def btreeOpenEnvironment_env (w : World) (p : Nat) : Int × Bool × World :=
  let a := w.btAddr p
  let r0 : Bool × World :=
    match w.g_tmp_env with
    | some g =>
      let w1 := match (w.shared a).dbenv with
        | some e => (env_close w e).2
        | none => w
      (true, w1.setShared a { w1.shared a with dbenv := some g, env_opened := true })
    | none => (false, w)
  if !(r0.2.shared a).env_opened then
    let o := env_open r0.2 ((r0.2.shared a).dbenv.getD 0)
    if o.1 ≠ 0 then (o.1, r0.1, o.2)
    else
      let s := o.2.shared a
      (0, true, ({ o.2 with g_tmp_env := s.dbenv }).setShared a { s with env_opened := true })
  else (0, r0.1, r0.2)

/-- The last part of `btreeOpenEnvironment` (btree.c:852-888): the
transactions that were asked for before the environment was open are begun,
and the schema lock that was asked for is taken.  The result is the status
and the world; `direct` tells that the function returned without passing its
label `err`. -/
def btreeOpenEnvironment_txn (ops : EnvOps) (w : World) (p : Nat) (newEnv : Bool) :
    Int × Bool × World :=
  let b := w.btrees p
  let writeLock : Bool :=
    b.schemaLockMode = LOCKMODE_WRITE ∨ (newEnv ∧ (w.bt p).db_oflags &&& DB_RDONLY = 0)
  let r1 : Int × Bool × World :=
    if (w.bt p).transactional then
      let txn_mode := b.inTrans
      let w1 := w.setBtree p { b with inTrans := TRANS_NONE }
      let f := txn_begin w1 none true
      if f.1 ≠ 0 then (dberr2sqlite f.1, true, f.2.2)
      else
        let w2 := f.2.2.setBtree p { f.2.2.btrees p with family_txn := f.2.1 }
        if writeLock ∨ txn_mode ≠ TRANS_NONE then
          let t := sqlite3BtreeBeginTrans w2 p (writeLock ∨ txn_mode = TRANS_WRITE)
          (t.1, false, t.2)
        else (SQLITE_OK, false, w2)
    else (SQLITE_OK, false, w)
  if r1.1 ≠ SQLITE_OK then r1
  else if (r1.2.2.btrees p).schemaLockMode ≠ LOCKMODE_NONE then
    let w3 := r1.2.2.setBtree p { r1.2.2.btrees p with schemaLockMode := LOCKMODE_NONE }
    let l := sqlite3BtreeLockTable ops w3 p MASTER_ROOT writeLock
    (l.1, false, l.2)
  else r1

/-- The middle part of `btreeOpenEnvironment` (btree.c:819-840): the
connection is marked connected, and the flags the tables are opened with are
set from the flags the database was opened with. -/
def btreeOpenEnvironment_flags (w : World) (p : Nat) : World :=
  let a := w.btAddr p
  let w2 := w.setBtree p { w.btrees p with connected := true }
  let b := w2.btrees p
  let of1 : Nat :=
    (w2.shared a).db_oflags |||
      (if b.vfsFlags &&& SQLITE_OPEN_READONLY ≠ 0 then DB_RDONLY else 0)
  let of2 : Nat :=
    if of1 &&& DB_RDONLY = 0 ∧ b.vfsFlags &&& SQLITE_OPEN_CREATE ≠ 0 then of1 ||| DB_CREATE
    else of1
  w2.setShared a { w2.shared a with db_oflags := of2 }

/-- `btreeOpenEnvironment` (btree.c:745) on a database that is not named; on a
named database it is the parameter `ops`, for which `EnvOps.named` below has
the function as `btree.c` has it (`btreeOpenEnvironment_named`).  The mutexes
are not modelled, so `needLock` is read on the named branch only. -/
def btreeOpenEnvironment (ops : EnvOps) (w : World) (p : Nat) (needLock : Bool) : Int × World :=
  if (w.bt p).dbStorage = DB_STORE_NAMED then ops.btreeOpenEnvironment w p needLock
  else
    let e := btreeOpenEnvironment_env w p
    if e.1 ≠ 0 then
      (MAP_ERR SQLITE_OK e.1, e.2.2.setBtree p { e.2.2.btrees p with connected := false })
    else
      let w3 := btreeOpenEnvironment_flags e.2.2 p
      let ct := btreeCreateTable w3 p (BTREE_INTKEY ||| BTREE_LEAFDATA)
      if ct.1 ≠ SQLITE_OK then
        (ct.1, ct.2.2.setBtree p { ct.2.2.btrees p with connected := false })
      else
        let t := btreeOpenEnvironment_txn ops ct.2.2 p e.2.1
        if t.2.1 then (t.1, t.2.2)
        else if t.1 ≠ SQLITE_OK then
          (t.1, t.2.2.setBtree p { t.2.2.btrees p with connected := false })
        else (SQLITE_OK, t.2.2)

/-- `btreePrepareEnvironment` (btree.c:516) on a database that is not named
(btree.c:712-737); on a named database it is the parameter `ops`. -/
def btreePrepareEnvironment (ops : EnvOps) (w : World) (p : Nat) : Int × World :=
  if (w.bt p).dbStorage = DB_STORE_NAMED then ops.btreePrepareEnvironment w p
  else if w.g_tmp_env = none then
    let a := w.btAddr p
    let r := db_env_create w
    match r.2.1 with
    | some e => (MAP_ERR SQLITE_OK r.1, r.2.2.setShared a { r.2.2.shared a with dbenv := some e })
    | none => (MAP_ERR SQLITE_OK (if r.1 = 0 then EINVAL else r.1), r.2.2)
  else btreeOpenEnvironment ops w p false

/-- The two environment functions as `btree.c` has them for a database that is
not named, and as the parameter `ops` gives them for a named one. -/
def EnvOps.tmp (ops : EnvOps) : EnvOps :=
  { btreeOpenEnvironment := fun w p needLock => BerkeleyDB.btreeOpenEnvironment ops w p needLock,
    btreePrepareEnvironment := fun w p => BerkeleyDB.btreePrepareEnvironment ops w p }

/-! ## The metadata tables of a named database (`btree.c`) -/

/-- The bound on the attempts to open a metadata table (btree.c:93). -/
def BUSY_RETRY_COUNT : Int := 100

/-- Modelled from the spec: `NUMMETA` of `btreeInt.h`, the number of metadata
slots a `BtShared` caches; btree.c:3464 names them meta[0] to meta[15]. -/
def NUMMETA : Nat := 16

/-- The bytes of the string "metadb". -/
def metadbBytes : List Nat := [109, 101, 116, 97, 100, 98]

/-- The engine name the metadata handle is opened on (btree.c:336): in the
file of a named database the database "metadb", for which the table id 0
stands (the tables of `GET_TABLENAME` have ids from 1 on); none otherwise. -/
def metaName (w : World) (a : Nat) : Option (Nat × Int) :=
  if (w.shared a).dbStorage = DB_STORE_NAMED then some (a, 0) else none

/-- The engine name the tables handle is opened on (btree.c:373): the file of
a named database without a database name, which is the list of the databases
in the file and for which the table id -1 stands; none otherwise. -/
def tablesName (w : World) (a : Nat) : Option (Nat × Int) :=
  if (w.shared a).dbStorage = DB_STORE_NAMED then some (a, -1) else none

/-- Modelled from the spec: `DB->put(dbp, txn, &key, &data, 0)`: the record is
stored, replacing the one with the same key. -/
def db_put (w : World) (h : Nat) (key data : List Nat) : Int × World :=
  let r := w.engine 0
  if r.1 ≠ 0 then (r.1, r.2)
  else
    let tid := (r.2.dbhs h).tid
    (0, { r.2 with tables := (Function.update r.2.tables tid
            (insertRow (r.2.keyLt h) (key, data) (r.2.tables tid))) })

/-- `sqlite3BtreeUpdateMeta` (btree.c:3531).  `pMetaDb` is `pBt->metadb`;
dereferencing NULL is undefined in C, the embedding reads handle 0 then. -/
def sqlite3BtreeUpdateMeta (w : World) (p : Nat) (idx : Nat) (iMeta : Int) : Int × World :=
  let a := w.btAddr p
  let s := w.shared a
  if s.db_oflags &&& DB_RDONLY ≠ 0 then (SQLITE_READONLY, w)
  else
    let w1 :=
      if idx < NUMMETA then w.setShared a { s with meta := Function.update s.meta idx (true, iMeta) }
      else w
    if !(w1.btrees p).connected ∨ s.dbStorage ≠ DB_STORE_NAMED then (SQLITE_OK, w1)
    else
      let r := db_put w1 ((w1.shared a).metadb.getD 0) (encKey idx) (encKey iMeta)
      (if r.1 = 0 then SQLITE_OK else dberr2sqlite r.1, r.2)

/-- What `sqlite3BtreeMaxPageCount` (btree.c:4004) does to the world.  Without
a metadata handle a positive `mxPage` is stored in `pBt->pageCount`.  With
one, the function reads and sets the maximum size of the memory pool file of
the engine, of which the world keeps nothing: what is left is the two engine
calls whose status is read, `get_last_pgno` (btree.c:4040) and `set_maxsize`
(btree.c:4066). -/
def sqlite3BtreeMaxPageCount_world (w : World) (p : Nat) (mxPage : Int) : World :=
  let a := w.btAddr p
  let s := w.shared a
  match s.metadb with
  | none => if mxPage > 0 then w.setShared a { s with pageCount := mxPage } else w
  | some _ =>
    if mxPage ≤ 0 ∨ s.db_oflags &&& DB_RDONLY ≠ 0 then w
    else
      let r := w.engine 0
      if r.1 ≠ 0 then r.2 else (r.2.engine 0).2

/-- Whether `strncmp(s, t, n) == 0`, for the `n` bytes `s` and the string `t`,
which a NUL byte follows: the comparison ends after `n` bytes or with a NUL
byte in both. -/
def strncmpEq : List Nat → List Nat → Bool
  | [], _ => true
  | c :: _, [] => c == 0
  | c :: cs, d :: ds => if c ≠ d then false else if c = 0 then true else strncmpEq cs ds

/-- The creation of the two handles in `btreeOpenMetaTables`
(btree.c:307-325): the handles are created, the metadata handle is made not
durable when the database is, and given the page size when one was set.  The
result is `ret` and the world.  A `db_create` that fails leaves its out
parameter as it was. -/
def btreeOpenMetaTables_create (w : World) (p : Nat) : Int × World :=
  let a := w.btAddr p
  let r1 := db_create w
  if r1.1 ≠ 0 then (r1.1, r1.2.2)
  else
    let w1 := r1.2.2.setShared a { r1.2.2.shared a with metadb := r1.2.1 }
    let r2 := db_create w1
    if r2.1 ≠ 0 then (r2.1, r2.2.2)
    else
      let w2 := r2.2.2.setShared a { r2.2.2.shared a with tablesdb := r2.2.1 }
      let r3 : Int × World := if !GET_DURABLE (w2.shared a) then w2.engine 0 else (0, w2)
      if r3.1 ≠ 0 then r3
      else if (r3.2.shared a).pageSize ≠ 0 then r3.2.engine 0
      else (0, r3.2)

/-- The loop `do { ret = DB->open(...); } while ((ret == DB_LOCK_DEADLOCK ||
ret == DB_LOCK_NOTGRANTED) && ++i < BUSY_RETRY_COUNT)` of
`btreeOpenMetaTables` (btree.c:333-341 and 371-377), on the handle `h`, from
the value `i` of the counter on and for at most `fuel` attempts.  The result
is `ret` and the world; without fuel no attempt is made and the result is
`EINVAL`. -/
def db_open_retry (h : Nat) (name : Option (Nat × Int)) (create : Bool) :
    Nat → Int → World → Int × World
  | 0, _, w => (EINVAL, w)
  | fuel + 1, i, w =>
    let r := db_open w h none name create
    if (r.1 = DB_LOCK_DEADLOCK ∨ r.1 = DB_LOCK_NOTGRANTED) ∧ i + 1 < BUSY_RETRY_COUNT then
      db_open_retry h name create fuel (i + 1) r.2
    else r

/-- The check whether the database is being created, in `btreeOpenMetaTables`
(btree.c:385-399): the last name in the tables database is read, and
`*pCreating` is set when it is "metadb".  The result is `ret`, `*pCreating`
and the world.  `pTablesDb` is `pBt->tablesdb`; dereferencing NULL is
undefined in C, the embedding reads handle 0 then. -/
def btreeOpenMetaTables_creating (w : World) (p : Nat) (creating : Bool) :
    Int × Bool × World :=
  let a := w.btAddr p
  let rc := db_cursor w ((w.shared a).tablesdb.getD 0) none
  match rc.2.1 with
  | none => (if rc.1 = 0 then EINVAL else rc.1, creating, rc.2.2)
  | some dbc =>
    if rc.1 ≠ 0 then (rc.1, creating, rc.2.2)
    else
      let g := dbc_get rc.2.2 dbc GetOp.DB_LAST []
      let creating1 : Bool :=
        if g.1 = 0 then strncmpEq ((g.2.1.getD ([], [])).1) metadbBytes else creating
      let cl := dbc_close g.2.2 dbc
      (if cl.1 ≠ 0 ∧ g.1 = 0 then cl.1 else g.1, creating1, cl.2)

/-- The loop of `btreeOpenMetaTables` over the metadata slots
(btree.c:405-411): every cached value is written with
`sqlite3BtreeUpdateMeta`, until one of the calls fails.  The result is `rc`
and the world. -/
def btreeOpenMetaTables_addmeta (p : Nat) : List Nat → World → Int × World
  | [], w => (SQLITE_OK, w)
  | idx :: rest, w =>
    if !((w.bt p).meta idx).1 then btreeOpenMetaTables_addmeta p rest w
    else
      let r := sqlite3BtreeUpdateMeta w p idx ((w.bt p).meta idx).2
      if r.1 ≠ SQLITE_OK then r else btreeOpenMetaTables_addmeta p rest r.2

/-- The exit `err` of `btreeOpenMetaTables` (btree.c:413-421): after a
failure the two handles are closed and their references reset. -/
def btreeOpenMetaTables_err (w : World) (p : Nat) (rc ret : Int) : Int × World :=
  let a := w.btAddr p
  if rc ≠ SQLITE_OK ∨ ret ≠ 0 then
    let w1 := match (w.shared a).tablesdb with
      | some h => (db_close w h).2
      | none => w
    let w2 := match (w1.shared a).metadb with
      | some h => (db_close w1 h).2
      | none => w1
    (MAP_ERR rc ret, w2.setShared a { w2.shared a with tablesdb := none, metadb := none })
  else (MAP_ERR rc ret, w)

/-- The part of `btreeOpenMetaTables` after the tables handle is open
(btree.c:382-421): the page count is set, it is checked whether the database
is being created, and the cached metadata is written.  The result is the
status, `*pCreating` and the world. -/
def btreeOpenMetaTables_opened (w : World) (p : Nat) (creating : Bool) : Int × Bool × World :=
  let w4 := sqlite3BtreeMaxPageCount_world w p (w.bt p).pageCount
  let k := btreeOpenMetaTables_creating w4 p creating
  if k.1 ≠ 0 then
    let e := btreeOpenMetaTables_err k.2.2 p SQLITE_OK k.1
    (e.1, k.2.1, e.2)
  else
    let m := btreeOpenMetaTables_addmeta p (List.range NUMMETA) k.2.2
    let e := btreeOpenMetaTables_err m.2 p m.1 0
    (e.1, k.2.1, e.2)

/-- The part of `btreeOpenMetaTables` from the opening of the tables handle on
(btree.c:370-421): the open is tried until it neither deadlocks nor is
refused a lock, `BUSY_RETRY_COUNT` times at most.  `pTablesDb` is
`pBt->tablesdb`; dereferencing NULL is undefined in C, the embedding reads
handle 0 then. -/
def btreeOpenMetaTables_tables (w : World) (p : Nat) (creating : Bool) : Int × Bool × World :=
  let a := w.btAddr p
  let t := db_open_retry ((w.shared a).tablesdb.getD 0) (tablesName w a) false
    BUSY_RETRY_COUNT.toNat 0 w
  if t.1 ≠ 0 then
    let e := btreeOpenMetaTables_err t.2 p SQLITE_OK t.1
    (e.1, creating, e.2)
  else btreeOpenMetaTables_opened t.2 p creating

/-- The part of `btreeOpenMetaTables` from the opening of the metadata handle
on (btree.c:326-421): the open is tried until it neither deadlocks nor is
refused a lock, `BUSY_RETRY_COUNT` times at most.  `pMetaDb` is `pBt->metadb`;
dereferencing NULL is undefined in C, the embedding reads handle 0 then. -/
def btreeOpenMetaTables_open (w : World) (p : Nat) (creating : Bool) : Int × Bool × World :=
  let a := w.btAddr p
  let s := w.shared a
  let o := db_open_retry (s.metadb.getD 0) (metaName w a) (s.db_oflags &&& DB_CREATE != 0)
    BUSY_RETRY_COUNT.toNat 0 w
  if o.1 ≠ 0 then
    let rc : Int :=
      if o.1 = EACCES ∧ s.db_oflags &&& DB_RDONLY ≠ 0 then SQLITE_READONLY else SQLITE_OK
    let e := btreeOpenMetaTables_err o.2 p rc o.1
    (e.1, creating, e.2)
  else btreeOpenMetaTables_tables o.2 p creating

/-- `btreeOpenMetaTables` (btree.c:294), built without
`BDBSQL_SPLIT_META_TABLE`.  `creating` is `*pCreating` on entry; the result is
the status, `*pCreating` and the world. -/
def btreeOpenMetaTables (w : World) (p : Nat) (creating : Bool) : Int × Bool × World :=
  let a := w.btAddr p
  if (w.shared a).metadb ≠ none then
    let m := btreeOpenMetaTables_addmeta p (List.range NUMMETA) w
    let e := btreeOpenMetaTables_err m.2 p m.1 0
    (e.1, false, e.2)
  else
    let c := btreeOpenMetaTables_create w p
    if c.1 ≠ 0 then
      let e := btreeOpenMetaTables_err c.2 p SQLITE_OK c.1
      (e.1, creating, e.2)
    else btreeOpenMetaTables_open c.2 p creating

/-- The first part of `btreeOpenEnvironment` on a named database
(btree.c:790-815): the environment is opened unless it is open.  The result
is `ret`, `newEnv` and the world.  `pDbEnv` is `pBt->dbenv`; dereferencing NULL
is undefined in C, the embedding reads handle 0 then. -/
def btreeOpenEnvironment_named_env (w : World) (p : Nat) : Int × Bool × World :=
  let a := w.btAddr p
  if !(w.shared a).env_opened then
    let o := env_open w ((w.shared a).dbenv.getD 0)
    if o.1 ≠ 0 then (o.1, false, o.2)
    else (0, true, o.2.setShared a { o.2.shared a with env_opened := true })
  else (0, false, w)

/-- `btreeOpenEnvironment` (btree.c:745) on a named database, built without
`BDBSQL_PRELOAD_HANDLES`.  The mutexes are not modelled, so `needLock` is not
read. -/
def btreeOpenEnvironment_named (ops : EnvOps) (w : World) (p : Nat) (_needLock : Bool) :
    Int × World :=
  let a := w.btAddr p
  let e := btreeOpenEnvironment_named_env w p
  if e.1 ≠ 0 then
    if e.1 = ENOENT ∧ (e.2.2.shared a).env_oflags &&& DB_CREATE = 0 then (SQLITE_OK, e.2.2)
    else (MAP_ERR SQLITE_OK e.1, e.2.2.setBtree p { e.2.2.btrees p with connected := false })
  else
    let w3 := btreeOpenEnvironment_flags e.2.2 p
    let m := btreeOpenMetaTables w3 p true
    if m.1 ≠ SQLITE_OK then
      (m.1, m.2.2.setBtree p { m.2.2.btrees p with connected := false })
    else
      let ct : Int × World :=
        if m.2.1 then
          let c := btreeCreateTable m.2.2 p (BTREE_INTKEY ||| BTREE_LEAFDATA)
          (c.1, c.2.2)
        else (SQLITE_OK, m.2.2)
      if ct.1 ≠ SQLITE_OK then
        (ct.1, ct.2.setBtree p { ct.2.btrees p with connected := false })
      else
        let t := btreeOpenEnvironment_txn ops ct.2 p e.2.1
        if t.2.1 then (t.1, t.2.2)
        else if t.1 ≠ SQLITE_OK then
          (t.1, t.2.2.setBtree p { t.2.2.btrees p with connected := false })
        else (SQLITE_OK, t.2.2)

/-- The environment functions with `btreeOpenEnvironment` as `btree.c` has it
for a named database; `btreePrepareEnvironment` stays the parameter. -/
def EnvOps.named (ops : EnvOps) : EnvOps :=
  { btreeOpenEnvironment := fun w p needLock => btreeOpenEnvironment_named ops w p needLock,
    btreePrepareEnvironment := ops.btreePrepareEnvironment }

/-! ## Observations on the engine call log -/

/-- Whether a logged call is a `txn_begin`. -/
def Event.isTxnBegin : Event → Bool
  | Event.txn_begin _ _ => true
  | _ => false

/-- Whether a logged call ends a transaction (`commit` or `abort`). -/
def Event.isTxnEnd : Event → Bool
  | Event.txn_commit _ => true
  | Event.txn_abort _ => true
  | _ => false

/-- Whether a logged call is a `DB_ENV->close`. -/
def Event.isEnvClose : Event → Bool
  | Event.env_close _ => true
  | _ => false

/-- A world for examples: nothing allocated, no faults scripted. -/
def World.empty : World :=
  { faults := [], events := [], handles := 1,
    txns := fun _ => { parent := none, family := false },
    dbhs := fun _ => { tid := 0, cur_txn := none, open_called := false, general := false },
    dbcs := fun _ => { dbp := 0, txn := none, pos := none },
    tables := fun _ => [], catalog := [],
    recordLt := bytesLt, multiBufsize := 4096,
    ctx := fun _ => { aDb := [], nSavepoint := 0, activeVdbeCnt := 0, flags := 0 },
    btrees := fun _ =>
      { pBt := none, db := 0, connected := false, sharable := false, vfsFlags := 0,
        inTrans := TRANS_NONE, nSavepoint := 0, family_txn := none, read_txn := none,
        savepoint_txn := none, schemaLock := none, schemaLockMode := LOCKMODE_NONE,
        cached_dbs := 0 },
    shared := fun _ =>
      { nRef := 0, dbStorage := DB_STORE_NAMED, transactional := false, resultsBuffer := false,
        env_opened := false, dbenv := none, metadb := none, tablesdb := none,
        orig_name := none, full_name := none, flags := 0, db_oflags := 0, pageSize := 0,
        pageSizeFixed := false, last_table := 0, uid := 0, cursors := [], db_cache := [],
        env_oflags := 0, pageCount := 0, meta := fun _ => (false, 0) },
    cursors := fun _ =>
      { pBtree := none, tableIndex := 0, wrFlag := false, eState := CURSOR_INVALID, error := 0,
        lastRes := 0, flags := 0, db := 0, dbc := none, txn := none, key := DBT.zero,
        data := DBT.zero, savedIntKey := 0, multiData := none, multiGetPtr := none,
        multiPutPtr := none, skipMulti := false, isIncrblobHandle := false },
    addrs := 1, g_shared_btrees := [], g_tmp_env := none, g_uid_next := 0 }

/-- A connected, transactional connection at address 1 on the `BtShared` at
address 1, with its family transaction (handle 1) begun and nothing else. -/
def World.connected1 : World :=
  { World.empty with
    handles := 2,
    addrs := 2,
    txns := (Function.update World.empty.txns 1 ({ parent := none, family := true } : DB_TXN)),
    btrees := (Function.update World.empty.btrees 1
      ({ World.empty.btrees 1 with pBt := some 1, connected := true, inTrans := TRANS_READ,
                                   family_txn := some 1 } : Btree)),
    shared := (Function.update World.empty.shared 1
      ({ World.empty.shared 1 with nRef := 1, transactional := true, env_opened := true,
                                   dbenv := some 0 } : BtShared)),
    g_shared_btrees := [1] }

/-- Operations for examples: the environment callees succeed and change nothing. -/
def EnvOps.idle : EnvOps :=
  { btreeOpenEnvironment := fun w _ _ => (SQLITE_OK, w),
    btreePrepareEnvironment := fun w _ => (SQLITE_OK, w) }

/-- The connection of `World.connected1` after `sqlite3BtreeBeginStmt (p, 0)`:
a read transaction and one nested transaction are open. -/
def World.stmt1 : World := (sqlite3BtreeBeginStmt World.connected1 1 0).2

/-- The transaction node reached from `t` by `j` parent steps, if the chain is
that long. -/
def parentSteps (txns : Nat → DB_TXN) : Nat → Nat → Option Nat
  | 0, t => some t
  | j + 1, t => (txns t).parent.bind (parentSteps txns j)

/-- What the transaction functions keep track of for connection `p`: its
nesting depth, its three transaction references and its transaction state;
the calls logged so far that ended a transaction; the parent links. -/
def World.txnView (w : World) (p : Nat) :
    (Int × Option Nat × Option Nat × Option Nat × Int) × List Event × (Nat → DB_TXN) :=
  (((w.btrees p).nSavepoint, (w.btrees p).savepoint_txn, (w.btrees p).read_txn,
      (w.btrees p).family_txn, (w.btrees p).inTrans),
    w.events.filter Event.isTxnEnd, w.txns)

/-- The connection of `World.connected1` after `sqlite3BtreeBeginStmt (p, 2)`:
the read transaction (handle 2) and three nested transactions (handles 3, 4
and 5) are open. -/
def World.stmt3 : World := (sqlite3BtreeBeginStmt World.connected1 1 2).2

/-- The world after opening a transient database from `World.empty`: the
`Btree` is at address 1, its `BtShared` at address 2. -/
def World.transient1 : World :=
  (sqlite3BtreeOpen EnvOps.idle World.empty none 0 0 SQLITE_OPEN_TRANSIENT_DB).2.2

/-- A connected connection at address 1 on an in-memory `BtShared` at address
1 whose environment is open and whose tables may be created. -/
def World.inmem1 : World :=
  { World.empty with
    addrs := 2,
    btrees := (Function.update World.empty.btrees 1
      ({ World.empty.btrees 1 with pBt := some 1, connected := true } : Btree)),
    shared := (Function.update World.empty.shared 1
      ({ World.empty.shared 1 with nRef := 1, dbStorage := DB_STORE_INMEM,
                                   transactional := true, env_opened := true, dbenv := some 0,
                                   db_oflags := DB_CREATE ||| DB_THREAD } : BtShared)) }

/-- What the registry is made of: the registry list; for every `BtShared` its
reference count, storage mode and name; for every `Btree` the `BtShared` it
points to. -/
def World.regView (w : World) :
    List Nat × (Nat → Int × storage_mode_t × Option (List Char)) × (Nat → Option Nat) :=
  (w.g_shared_btrees,
    fun a => ((w.shared a).nRef, (w.shared a).dbStorage, (w.shared a).orig_name),
    fun q => (w.btrees q).pBt)

/-- The registry together with the environment handle of every `BtShared` and
the calls logged so far that closed an environment. -/
def World.closeView (w : World) :
    (List Nat × (Nat → Int × storage_mode_t × Option (List Char)) × (Nat → Option Nat)) ×
      (Nat → Option Nat) × List Event :=
  (w.regView, fun a => (w.shared a).dbenv, w.events.filter Event.isEnvClose)

/-- The two environment functions leave the registry alone, and do not hand
out addresses that are already in use.  (`btreePrepareEnvironment` and
`btreeOpenEnvironment`, btree.c:516-900, write neither `g_shared_btrees`,
`pNextDb`, `nRef`, `dbStorage`, `orig_name` nor any `p->pBt`.) -/
def EnvOps.keepsRegistry (ops : EnvOps) : Prop :=
  (∀ (w : World) (p : Nat) (l : Bool),
    (ops.btreeOpenEnvironment w p l).2.regView = w.regView ∧
    w.addrs ≤ (ops.btreeOpenEnvironment w p l).2.addrs) ∧
  (∀ (w : World) (p : Nat),
    (ops.btreePrepareEnvironment w p).2.regView = w.regView ∧
    w.addrs ≤ (ops.btreePrepareEnvironment w p).2.addrs)

/-- Operations for examples: `btreePrepareEnvironment` creates the environment
handle and `btreeOpenEnvironment` marks the connection connected and the
environment open. -/
def EnvOps.simple : EnvOps :=
  { btreePrepareEnvironment := fun w p =>
      (SQLITE_OK,
        { w with handles := w.handles + 1 }.setShared (w.btAddr p)
          { w.shared (w.btAddr p) with dbenv := some w.handles })
    btreeOpenEnvironment := fun w p _ =>
      (SQLITE_OK,
        (w.setShared (w.btAddr p) { w.shared (w.btAddr p) with env_opened := true }).setBtree p
          { w.btrees p with connected := true }) }

/-- A world with one registered named database "t.db" (its `BtShared` at
address 1) that the `Btree` at address 1 is open on; this `Btree` is attached
to the database context 0. -/
def World.attached1 : World :=
  { World.connected1 with
    ctx := (Function.update World.connected1.ctx 0
      ({ aDb := [some 1], nSavepoint := 0, activeVdbeCnt := 0, flags := 0 } : sqlite3)),
    shared := (Function.update World.connected1.shared 1
      ({ World.connected1.shared 1 with orig_name := some ['t', '.', 'd', 'b'],
                                        full_name := some ['t', '.', 'd', 'b'] } : BtShared)) }

/-- The world after the named database "t.db" is opened from `World.empty` by
the database context 0: the `Btree` is at address 1, the `BtShared` at 2. -/
def World.open1 : World :=
  (sqlite3BtreeOpen EnvOps.simple World.empty (some ['t', '.', 'd', 'b']) 0 0 0).2.2

/-- The world after "t.db" is opened a second time, by the database context 1:
the second `Btree` is at address 3. -/
def World.open2 : World :=
  (sqlite3BtreeOpen EnvOps.simple World.open1 (some ['t', '.', 'd', 'b']) 1 0 0).2.2

/-- The conditions under which the cursor `c1` watches the row the write
cursor `c2` is on, in the world in which the watchers are tripped: `c1` is
another cursor on the cursor list of the `BtShared` of `c2`, of the same
`Btree`, on the same table, valid, not an incremental-blob cursor, and its
engine cursor compares equal to that of `c2`. -/
def World.watches (w : World) (c1 c2 : Nat) : Prop :=
  c1 ≠ c2 ∧
  c1 ∈ (w.shared (w.btAddr ((w.cursors c2).pBtree.getD 0))).cursors ∧
  (w.cursors c1).pBtree = (w.cursors c2).pBtree ∧
  (w.cursors c1).tableIndex = (w.cursors c2).tableIndex ∧
  (w.cursors c1).eState = CURSOR_VALID ∧
  (w.cursors c1).isIncrblobHandle = false ∧
  dbc_cmp_opt w (w.cursors c2).dbc (w.cursors c1).dbc = (0, 0)

/-- A world with two connections (the `Btree`s at addresses 1 and 2) on one
`BtShared` (address 1) that is not buffered, and two valid cursors on the
integer-keyed table 3, whose only row has the key bytes `[2]`: the read
cursor 10 of the connection `pb` and the write cursor 11 of the connection 2.
Both engine cursors (handles 20 and 21) rest on that row. -/
def World.watch (pb : Nat) : World :=
  { World.empty with
    handles := 30,
    addrs := 30,
    btrees := (Function.update (Function.update World.empty.btrees 1
      ({ World.empty.btrees 1 with pBt := some 1, connected := true } : Btree)) 2
      ({ World.empty.btrees 2 with pBt := some 1, connected := true } : Btree)),
    shared := (Function.update World.empty.shared 1
      ({ World.empty.shared 1 with
          nRef := 2, transactional := true, env_opened := true, dbenv := some 0,
          cursors := [10, 11],
          db_cache := [(3, ({ dbp := some 5, flags := BTREE_INTKEY,
                              created := true } : CACHED_DB))] } : BtShared)),
    dbhs := (Function.update World.empty.dbhs 5
      ({ tid := 7, cur_txn := none, open_called := true, general := false } : DB)),
    tables := (Function.update World.empty.tables 7 [([2], [97])]),
    dbcs := (Function.update (Function.update World.empty.dbcs 20
      ({ dbp := 5, txn := none, pos := some [2] } : DBC)) 21
      ({ dbp := 5, txn := none, pos := some [2] } : DBC)),
    cursors := (Function.update (Function.update World.empty.cursors 10
      ({ World.empty.cursors 10 with
          pBtree := some pb, tableIndex := 3, eState := CURSOR_VALID, flags := BTREE_INTKEY,
          db := 5, dbc := some 20, key := DBT.ofBytes [2], savedIntKey := 1 } : BtCursor)) 11
      ({ World.empty.cursors 11 with
          pBtree := some 2, tableIndex := 3, wrFlag := true, eState := CURSOR_VALID,
          flags := BTREE_INTKEY, db := 5, dbc := some 21, key := DBT.ofBytes [2],
          savedIntKey := 1 } : BtCursor)),
    g_shared_btrees := [1] }

/-- The cursor `c` is open, through the engine cursor `d`, on an
integer-keyed table of a handle that is not buffered; the keys of the table
are the encoded integers `ks`, in this order; no fault is scripted, so every
engine call gives the status the engine semantics gives. -/
def World.intCursor (w : World) (c d : Nat) (ks : List Int) : Prop :=
  w.faults = [] ∧ (w.cursors c).dbc = some d ∧ (w.cursors c).intKey = true ∧
  w.isBuffer c = false ∧ (w.dbhs (w.dbcs d).dbp).general = false ∧
  (w.tables (w.dbhs (w.dbcs d).dbp).tid).map Prod.fst = ks.map encKey

/-- The cursor `c` is valid on the row with the integer key `j`: its saved
key is `j`, its key buffer holds the bytes of `j`, and its engine cursor rests
on the row with these key bytes. -/
def World.validOn (w : World) (c : Nat) (j : Int) : Prop :=
  (w.cursors c).eState = CURSOR_VALID ∧ (w.cursors c).savedIntKey = j ∧
  (w.cursors c).key.data = some (encKey j) ∧
  ∃ d, (w.cursors c).dbc = some d ∧ (w.dbcs d).pos = some (encKey j)

/-- A world for examples: the world `World.watch 1` after the row with the
key 2 was deleted under the read cursor 10, which rested on it, and the
cursor was tripped.  The table holds the rows with the keys 1 and 3 (key
bytes `[2]` and `[4]`). -/
def World.tripped : World :=
  { World.watch 1 with
    tables := (Function.update World.empty.tables 7 [([2], [97]), ([4], [99])]),
    cursors := (Function.update (World.watch 1).cursors 10
      ({ (World.watch 1).cursors 10 with
          eState := CURSOR_REQUIRESEEK, dbc := none, savedIntKey := 2 } : BtCursor)) }

/-- A world for examples: `World.watch 1` after
`sqlite3BtreeTripAllCursors (p, SQLITE_ABORT)` on the connection 1, as after a
rollback: the cursors 10 and 11 are in `CURSOR_FAULT` with the error
`SQLITE_ABORT`, and their engine cursors are still open. -/
def World.faulted : World := sqlite3BtreeTripAllCursors (World.watch 1) 1 SQLITE_ABORT

/-- A world for examples: on the transient database of `World.transient1` the
write cursor 10 is opened on the master table, one row (key 5) is inserted,
which goes to the cursor's bulk buffer, and then the cursors of the
connection are closed as `sqlite3BtreeClose` does it,
`btreeCloseAllCursors (p, NULL)`. -/
def World.closedBuffered : World :=
  (btreeCloseAllCursors EnvOps.idle
    (sqlite3BtreeInsert EnvOps.idle
      (sqlite3BtreeCursor EnvOps.idle World.transient1 1 MASTER_ROOT true 10).2
      10 none 5 [97] 1 0).2 1 none).2

/-- The transaction `t` is the transaction `x` or an ancestor of it: some
number of parent steps lead from `x` to `t`.  A NULL `x` descends from
nothing. -/
def descends (txns : Nat → DB_TXN) (t : Nat) (x : Option Nat) : Prop :=
  ∃ y j, x = some y ∧ parentSteps txns j y = some t

/-- The engine handles of `w` are well formed: the parent of a transaction is
an older handle than the transaction, and the transaction of an engine cursor
held by an adapter cursor is a handle that was given out. -/
def World.txnsOlder (w : World) : Prop :=
  (∀ x q, (w.txns x).parent = some q → q < x) ∧
  (∀ c d x, (w.cursors c).dbc = some d → (w.dbcs d).txn = some x → x < w.handles)

/-- The cursors of the connection `p` in the world `W`, in which the
transaction `t` is about to be ended, `w` being the world before the cursors
were closed: no cursor of `p` on the list of its `BtShared` has an engine
cursor whose transaction is `t` or a descendant of `t`; every cursor of `p`
that had one is off the list and closed (`CURSOR_INVALID`, no engine cursor,
no owning connection); the cursors of the other connections are on the list
in the order they had, and are as they were. -/
def World.closedFor (w W : World) (p t : Nat) : Prop :=
  (∀ c ∈ (W.bt p).cursors, (W.cursors c).pBtree = some p →
    ∀ d, (W.cursors c).dbc = some d → ¬ descends W.txns t (W.dbcs d).txn) ∧
  (∀ c ∈ (w.bt p).cursors, (w.cursors c).pBtree = some p →
    ∀ d, (w.cursors c).dbc = some d → descends w.txns t (w.dbcs d).txn →
      c ∉ (W.bt p).cursors ∧ (W.cursors c).eState = CURSOR_INVALID ∧
      (W.cursors c).dbc = none ∧ (W.cursors c).pBtree = none) ∧
  (W.bt p).cursors.filter (fun c => decide ((w.cursors c).pBtree ≠ some p))
    = (w.bt p).cursors.filter (fun c => decide ((w.cursors c).pBtree ≠ some p)) ∧
  (∀ c, (w.cursors c).pBtree ≠ some p → W.cursors c = w.cursors c)

/-- A world for examples: `World.watch 1` with a write transaction open on
the connection 1: the read transaction 2 and, nested in it, the statement
transaction 3, under which the engine cursor 20 of the cursor 10 was opened.
The cursor 11 belongs to the connection 2 and uses no transaction. -/
def World.nested : World :=
  { World.watch 1 with
    txns := (Function.update (Function.update World.empty.txns 2
      ({ parent := none, family := false } : DB_TXN)) 3
      ({ parent := some 2, family := false } : DB_TXN)),
    btrees := (Function.update (World.watch 1).btrees 1
      ({ (World.watch 1).btrees 1 with
          inTrans := TRANS_WRITE, nSavepoint := 2, read_txn := some 2,
          savepoint_txn := some 3 } : Btree)),
    dbcs := (Function.update (World.watch 1).dbcs 20
      ({ dbp := 5, txn := some 3, pos := some [2] } : DBC)) }

/-! ## Loading and scanning an ephemeral table -/

/-- The rows `rows`, each a key and a value, inserted in this order through
the write cursor `c` by `sqlite3BtreeInsert (pCur, NULL, key, value, n, 0, 0, 0)`;
`none` when an insert fails. -/
def insertAll (ops : EnvOps) (c : Nat) : List (Int × List Nat) → World → Option World
  | [], w => some w
  | r :: rest, w =>
    let i := sqlite3BtreeInsert ops w c none r.1 r.2 r.2.length 0
    if i.1 = SQLITE_OK then insertAll ops c rest i.2 else none

/-- The row an integer-keyed cursor is on, as its callers read it: the key
`sqlite3BtreeKeySize` reports and the bytes `sqlite3BtreeData` copies. -/
def curRow (w : World) (c : Nat) : Int × List Nat :=
  ((w.cursors c).savedIntKey, (w.cursors c).data.data.getD [])

/-- The rows read by at most `fuel` calls of `sqlite3BtreeNext`, up to the
call that reports the end (`*pRes` = 1); `none` when a call fails or the end
is not reached. -/
def scanNext (ops : EnvOps) (c : Nat) : Nat → World → Option (List (Int × List Nat))
  | 0, _ => none
  | fuel + 1, w =>
    let r := sqlite3BtreeNext ops w c
    if r.1 ≠ SQLITE_OK then none
    else if r.2.1 = some 0 then (scanNext ops c fuel r.2.2).map (fun l => curRow r.2.2 c :: l)
    else if r.2.1 = some 1 then some []
    else none

/-- A scan: `sqlite3BtreeFirst`, then `sqlite3BtreeNext` until it reports the
end. -/
def scan (ops : EnvOps) (c : Nat) (fuel : Nat) (w : World) : Option (List (Int × List Nat)) :=
  let r := sqlite3BtreeFirst ops w c
  if r.1 ≠ SQLITE_OK then none
  else if r.2.1 = some 0 then (scanNext ops c fuel r.2.2).map (fun l => curRow r.2.2 c :: l)
  else if r.2.1 = some 1 then some []
  else none

/-- Inserting the rows and then scanning the table. -/
def loadAndScan (ops : EnvOps) (c : Nat) (fuel : Nat) (rows : List (Int × List Nat))
    (w : World) : Option (List (Int × List Nat)) :=
  (insertAll ops c rows w).bind (scan ops c fuel)

/-- The key is a signed 64-bit integer. -/
def keyOk (k : Int) : Prop := -9223372036854775808 ≤ k ∧ k ≤ 9223372036854775807

/-- The rows of an integer-keyed table as the engine stores them: the key
bytes `encodeI64` makes of the key, and the value. -/
def rowsOf (l : List (Int × List Nat)) : Rows := l.map (fun r => (encKey r.1, r.2))

/-- Storing a row in a table held in key order: the row goes to its place, a
row that has its key is replaced. -/
def insInt (r : Int × List Nat) : List (Int × List Nat) → List (Int × List Nat)
  | [] => [r]
  | x :: xs =>
    if r.1 < x.1 then r :: x :: xs
    else if x.1 < r.1 then x :: insInt r xs
    else r :: xs

/-- The table that holds the rows `rows`, stored one after the other in an
empty table. -/
def tableOf (rows : List (Int × List Nat)) : List (Int × List Nat) :=
  rows.foldl (fun acc r => insInt r acc) []

/-- The rows are in increasing order of their keys. -/
def keySorted (l : List (Int × List Nat)) : Prop := l.Pairwise (fun a b => a.1 < b.1)

/-- The cursor `c` is open, through the engine cursor `d`, on the physical
integer-keyed table with the rows `T`, of a handle that is not buffered; the
rows are in key order and their keys are 64-bit integers; no fault is
scripted, so every engine call gives the status the engine semantics gives. -/
def World.onTable (w : World) (c d : Nat) (T : List (Int × List Nat)) : Prop :=
  w.faults = [] ∧ (w.cursors c).dbc = some d ∧ (w.cursors c).intKey = true ∧
  w.isBuffer c = false ∧ (w.dbhs (w.dbcs d).dbp).general = false ∧
  w.tables (w.dbhs (w.dbcs d).dbp).tid = rowsOf T ∧ keySorted T ∧ ∀ x ∈ T, keyOk x.1

/-- The cursor `c` is in a scan of the physical table `T` and the rows `rest`
are still to be read: the cursor is valid; the rows `rem` at the head of
`rest` wait in its bulk buffer (none when it has no buffer to read from), and
the engine cursor rests on the key `kk`, the last one it has read, with the
rows `post` after it. -/
def World.scanAt (w : World) (c d : Nat) (T rest : List (Int × List Nat)) : Prop :=
  w.onTable c d T ∧ (w.cursors c).eState = CURSOR_VALID ∧ (w.cursors c).lastRes ≤ 0 ∧
  ∃ (done rem post : List (Int × List Nat)) (kk : Int),
    T = done ++ (rem ++ post) ∧ rest = rem ++ post ∧
    (w.dbcs d).pos = some (encKey kk) ∧ keyOk kk ∧
    (∀ r ∈ done ++ rem, r.1 ≤ kk) ∧ (∀ r ∈ post, kk < r.1) ∧
    (((w.cursors c).multiGetPtr = none ∧ rem = []) ∨
      ∃ i batch, (w.cursors c).multiGetPtr = some i ∧ (w.cursors c).multiData = some batch ∧
        batch.drop i = rowsOf rem)

/-- The write cursor `c` is the one cursor of its connection and is open on
the physical integer-keyed table with the rows `T` (the results buffer is
off); it is not appending to a bulk buffer. -/
def World.physical (w : World) (c : Nat) (T : List (Int × List Nat)) : Prop :=
  ∃ d p, w.onTable c d T ∧ (w.cursors c).wrFlag = true ∧ (w.cursors c).pBtree = some p ∧
    (w.bt p).cursors = [c] ∧ (w.cursors c).multiPutPtr = none ∧ (w.cursors c).lastRes ≤ 0

/-- The cursor `c` is the one cursor of the connection `p` to a temporary
database, and has no engine cursor: the connection is not connected to an
environment, the database may be created and written, and no table was
created in it yet.  No fault is scripted. -/
def World.loadable (w : World) (c p : Nat) : Prop :=
  w.faults = [] ∧ (w.cursors c).pBtree = some p ∧
  (w.bt p).dbStorage = DB_STORE_TMP ∧ (w.bt p).transactional = false ∧
  (w.bt p).db_oflags &&& DB_RDONLY = 0 ∧ (w.bt p).last_table = 0 ∧
  (w.bt p).cursors = [c] ∧
  (w.btrees p).connected = false ∧ (w.btrees p).schemaLockMode = LOCKMODE_NONE ∧
  (w.btrees p).vfsFlags &&& SQLITE_OPEN_READONLY = 0 ∧
  (w.btrees p).vfsFlags &&& SQLITE_OPEN_CREATE ≠ 0 ∧
  (w.cursors c).dbc = none

/-- The write cursor `c` is the one cursor of a connection to a temporary
database whose results buffer is on, and the rows `rows` that were inserted
through it are in its bulk buffer, in the order they came. -/
def World.buffered (w : World) (c : Nat) (rows : List (Int × List Nat)) : Prop :=
  ∃ p, w.loadable c p ∧ (w.bt p).resultsBuffer = true ∧
    (w.cursors c).wrFlag = true ∧ (w.cursors c).intKey = true ∧
    (w.dbhs (w.cursors c).db).general = false ∧ (w.cursors c).eState ≠ CURSOR_FAULT ∧
    ((rows = [] ∧ (w.cursors c).multiData = none ∧ (w.cursors c).multiPutPtr = none) ∨
      ((w.cursors c).multiData = some (rowsOf rows) ∧ (w.cursors c).multiPutPtr = some ()))

/-- The connection `p` is to a temporary database whose results buffer is
off and that is not connected to an environment yet: the database may be
created and written, and no table was created in it.  No fault is
scripted. -/
def World.tmpClosed (w : World) (p : Nat) : Prop :=
  w.faults = [] ∧ (w.bt p).dbStorage = DB_STORE_TMP ∧ (w.bt p).transactional = false ∧
  (w.bt p).resultsBuffer = false ∧ (w.bt p).db_oflags &&& DB_RDONLY = 0 ∧
  (w.bt p).last_table = 0 ∧ (w.btrees p).connected = false ∧
  (w.btrees p).schemaLockMode = LOCKMODE_NONE ∧
  (w.btrees p).vfsFlags &&& SQLITE_OPEN_READONLY = 0 ∧
  (w.btrees p).vfsFlags &&& SQLITE_OPEN_CREATE ≠ 0

/-- The connection `p` is connected, its results buffer is off, and the
handle `h`, cached for the master table, is open on an empty integer-keyed
table.  No fault is scripted. -/
def World.tmpOpen (w : World) (p h : Nat) : Prop :=
  w.faults = [] ∧ (w.btrees p).connected = true ∧ (w.bt p).resultsBuffer = false ∧
  (w.bt p).db_oflags &&& DB_RDONLY = 0 ∧
  cacheFind (w.bt p).db_cache MASTER_ROOT
    = some { dbp := some h, flags := BTREE_INTKEY, created := true } ∧
  (w.dbhs h).general = false ∧ w.tables (w.dbhs h).tid = []

/-- A world for examples: a temporary database that may be created, opened
from `World.empty`: the `Btree` is at address 1, its `BtShared` at address 2;
its results buffer is on. -/
def World.ephemeral1 : World :=
  (sqlite3BtreeOpen EnvOps.idle World.empty none 0 0
    (SQLITE_OPEN_TRANSIENT_DB ||| SQLITE_OPEN_CREATE)).2.2

/-- A world for examples: `World.ephemeral1` after the write cursor 10 was
opened on the master table; the cursor is buffered. -/
def World.buffered1 : World :=
  (sqlite3BtreeCursor (EnvOps.tmp EnvOps.idle) World.ephemeral1 1 MASTER_ROOT true 10).2

/-- A world for examples: `World.buffered1` after `sqlite3BtreeFirst` on the
cursor 10, which loaded the empty buffer into the master table and so turned
the results buffer off; the cursor is on the physical table, which is
empty. -/
def World.physical1 : World :=
  (sqlite3BtreeFirst (EnvOps.tmp EnvOps.idle) World.buffered1 10).2.2

/-! ## The page size (`btree.c`) -/

/-- `sqlite3BtreeSetPageSize` (btree.c:3939): the status and the world.
`(pageSize - 1) & pageSize` is evaluated only for `512 ≤ pageSize ≤ 65536`,
where both operands are non-negative; `nReserve` is not read. -/
def sqlite3BtreeSetPageSize (w : World) (p : Nat) (pageSize : Int) (_nReserve : Int)
    (iFix : Int) : Int × World :=
  if pageSize < 512 ∨ pageSize > 65536 ∨ (pageSize - 1).toNat &&& pageSize.toNat ≠ 0 then
    (SQLITE_OK, w)
  else
    let a := w.btAddr p
    let s := w.shared a
    if s.pageSizeFixed then (SQLITE_READONLY, w)
    else if s.metadb ≠ none then (SQLITE_OK, w)
    else
      (SQLITE_OK,
        w.setShared a
          { s with pageSize := pageSize,
                   pageSizeFixed := if iFix ≠ 0 then true else s.pageSizeFixed })

/-- A world for examples: `World.inmem1` after
`sqlite3BtreeSetPageSize (p, 4096, 0, 1)`, which fixed the page size. -/
def World.fixed1 : World := (sqlite3BtreeSetPageSize World.inmem1 1 4096 0 1).2

/-! ## The page set-flag routine of the buffer pool (`mp_fset.c`) -/

/-- The flag values `mp_fset.c` reads, which `db.h` and `mp.h` define: the
arguments `DB_MPOOL_CLEAN`, `DB_MPOOL_DIRTY` and `DB_MPOOL_DISCARD`, the
buffer header flags `BH_DIRTY`, `BH_DIRTY_CREATE` and `BH_DISCARD`, and the
file flag `MP_READONLY`. -/
structure MpFlags where
  DB_MPOOL_CLEAN : Nat
  DB_MPOOL_DIRTY : Nat
  DB_MPOOL_DISCARD : Nat
  BH_DIRTY : Nat
  BH_DIRTY_CREATE : Nat
  BH_DISCARD : Nat
  MP_READONLY : Nat

/-- The state `memp_fset` reads and writes: the flags of the file handle
`dbmfp`, the flags of the buffer header `bhp` (32 bits), the counters
`st_page_clean` and `st_page_dirty` of the cache `c_mp` (32 bits each), and
whether the environment has panicked. -/
structure MpState where
  mfp_flags : Nat
  bh_flags : Nat
  st_page_clean : Nat
  st_page_dirty : Nat
  panic : Bool
  deriving DecidableEq

/-- Modelled from the spec: `__db_ferr(dbenv, name, iscombo)` reports the
illegal flag and returns `EINVAL`. -/
def db_ferr : Int := EINVAL

/-- Modelled from the spec: `__db_fchk(dbenv, name, flags, ok_flags)` is
`__db_ferr` when a bit outside `ok_flags` is set, else 0. -/
def db_fchk (flags ok_flags : Nat) : Int :=
  if flags &&& (0xFFFFFFFF ^^^ ok_flags) ≠ 0 then db_ferr else 0

/-- Modelled from the spec: `__db_fcchk(dbenv, name, flags, flag1, flag2)` is
`__db_ferr` when bits of both `flag1` and `flag2` are set, else 0. -/
def db_fcchk (flags flag1 flag2 : Nat) : Int :=
  if flags &&& flag1 ≠ 0 ∧ flags &&& flag2 ≠ 0 then db_ferr else 0

/-- `memp_fset` (mp_fset.c:36), built without `HAVE_RPC` and without
diagnostics (`DB_ASSERT` is empty): the status and the state.  `PANIC_CHECK`
returns `DB_RUNRECOVERY` on a panicked environment.  `++` and `--` on the
`u_int32_t` counters wrap; `F_CLR (bhp, f)` is `flags &= ~f` on 32 bits. -/
def memp_fset (k : MpFlags) (s : MpState) (flags : Nat) : Int × MpState :=
  if s.panic then (DB_RUNRECOVERY, s)
  else if flags = 0 then (db_ferr, s)
  else if db_fchk flags (k.DB_MPOOL_DIRTY ||| k.DB_MPOOL_CLEAN ||| k.DB_MPOOL_DISCARD) ≠ 0 then
    (db_fchk flags (k.DB_MPOOL_DIRTY ||| k.DB_MPOOL_CLEAN ||| k.DB_MPOOL_DISCARD), s)
  else if db_fcchk flags k.DB_MPOOL_CLEAN k.DB_MPOOL_DIRTY ≠ 0 then
    (db_fcchk flags k.DB_MPOOL_CLEAN k.DB_MPOOL_DIRTY, s)
  else if flags &&& k.DB_MPOOL_DIRTY ≠ 0 ∧ s.mfp_flags &&& k.MP_READONLY ≠ 0 then (EACCES, s)
  else
    let s1 : MpState :=
      if flags &&& k.DB_MPOOL_CLEAN ≠ 0 ∧ s.bh_flags &&& k.BH_DIRTY ≠ 0 ∧
          ¬ (s.bh_flags &&& k.BH_DIRTY_CREATE ≠ 0) then
        { s with st_page_clean := (s.st_page_clean + 1) % 2 ^ 32,
                 st_page_dirty := (s.st_page_dirty + 2 ^ 32 - 1) % 2 ^ 32,
                 bh_flags := s.bh_flags &&& (0xFFFFFFFF ^^^ k.BH_DIRTY) }
      else s
    let s2 : MpState :=
      if flags &&& k.DB_MPOOL_DIRTY ≠ 0 ∧ ¬ (s1.bh_flags &&& k.BH_DIRTY ≠ 0) then
        { s1 with st_page_clean := (s1.st_page_clean + 2 ^ 32 - 1) % 2 ^ 32,
                  st_page_dirty := (s1.st_page_dirty + 1) % 2 ^ 32,
                  bh_flags := s1.bh_flags ||| k.BH_DIRTY }
      else s1
    let s3 : MpState :=
      if flags &&& k.DB_MPOOL_DISCARD ≠ 0 then { s2 with bh_flags := s2.bh_flags ||| k.BH_DISCARD }
      else s2
    (0, s3)

/-- Flag values for examples: every flag is one bit, and the flags of one
kind are distinct. -/
def MpFlags.bits : MpFlags :=
  { DB_MPOOL_CLEAN := 0x001, DB_MPOOL_DIRTY := 0x002, DB_MPOOL_DISCARD := 0x004,
    BH_DIRTY := 0x002, BH_DIRTY_CREATE := 0x004, BH_DISCARD := 0x008, MP_READONLY := 0x01 }

/-! ## Dropping a table (`btree.c`) -/

/-- Modelled from the spec: `DB_ENV->dbremove(env, txn, file, table, DB_NOSYNC)`:
the named table leaves the engine's catalog; `ENOENT` when there is no such
table. -/
def env_dbremove (w : World) (name : Option (Nat × Int)) : Int × World :=
  let sem : Int :=
    match name.bind (catalogFind w.catalog) with
    | some _ => 0
    | none => ENOENT
  let r := w.engine sem
  if r.1 ≠ 0 then (r.1, r.2)
  else (0, { r.2 with catalog := r.2.catalog.filter (fun e => some e.1 ≠ name) })

/-- The first part of `sqlite3BtreeDropTable` (btree.c:3431-3446): a cached
handle of the table is closed, and the entry of the table leaves the cache.
The result is `ret` and the world. -/
def sqlite3BtreeDropTable_close (w : World) (p : Nat) (iTable : Int) : Int × World :=
  let a := w.btAddr p
  let r0 : Int × World :=
    match cacheFind (w.shared a).db_cache iTable with
    | some e =>
      match e.dbp with
      | some h => db_close w h
      | none => (0, w)
    | none => (0, w)
  (r0.1, r0.2.setShared a
    { r0.2.shared a with db_cache := cacheInsert (r0.2.shared a).db_cache iTable none })

/-- `sqlite3BtreeDropTable` (btree.c:3414): the status, the value written to
`*piMoved`, and the world. -/
def sqlite3BtreeDropTable (w : World) (p : Nat) (iTable : Int) : Int × Int × World :=
  let a := w.btAddr p
  let c := sqlite3BtreeDropTable_close w p iTable
  if (c.2.shared a).dbStorage = DB_STORE_NAMED then
    let t := env_dbremove c.2 (GET_TABLENAME c.2 a iTable)
    let t_ret : Int := if t.1 = ENOENT ∨ t.1 = DB_NOTFOUND then 0 else t.1
    (dberr2sqlitelocked (if c.1 = 0 ∧ t_ret ≠ 0 then t_ret else c.1), 0, t.2)
  else (dberr2sqlitelocked c.1, 0, c.2)

/-- A world for examples: `World.attached1` (the named database "t.db") with
the integer-keyed table 3 in the engine's catalog and a handle of it in the
cache. -/
def World.table3 : World :=
  { World.attached1 with
    handles := 10,
    catalog := [((1, 3), 7)],
    dbhs := (Function.update World.attached1.dbhs 5
      ({ tid := 7, cur_txn := none, open_called := true, general := false } : DB)),
    shared := (Function.update World.attached1.shared 1
      ({ World.attached1.shared 1 with
          db_cache := [(3, ({ dbp := some 5, flags := BTREE_INTKEY,
                              created := true } : CACHED_DB))] } : BtShared)) }

/-! ## A contended open -/

/-- A world for examples: `World.inmem1` with an engine that fails the third
call made to it with `DB_LOCK_DEADLOCK` and no other call. -/
def World.contended1 : World := { World.inmem1 with faults := [0, 0, DB_LOCK_DEADLOCK] }

/-! ## The ids allocated on a handle -/

/-- The number a string of decimal digits writes. -/
def decimalValue (ds : List Nat) : Int :=
  ds.foldl (fun (acc : Int) (c : Nat) => acc * 10 + ((c : Int) - 48)) 0

/-- The last table id allocated on the handle of connection `p` is `L`, as the
state has it: on a handle that is not named `L` is `pBt->last_table`; on a
named one the last name of the tables database (the list of the databases in
the file, in byte order) is "table" followed by the decimal digits of `L`, or
it does not start with "table" and `L` is 0; `L` is 0 also where there is no
such name to read. -/
@[irreducible]
def World.lastId (w : World) (p : Nat) (L : Int) : Prop :=
  if (w.bt p).dbStorage = DB_STORE_NAMED then
    match (w.bt p).tablesdb with
    | none => L = 0
    | some tdb =>
      match (w.tables (w.dbhs tdb).tid).getLast? with
      | none => L = 0
      | some row =>
        if row.1.take 5 = tableBytes then
          (∀ c ∈ row.1.drop 5, 48 ≤ c ∧ c ≤ 57) ∧ decimalValue (row.1.drop 5) = L
        else L = 0
  else (w.bt p).last_table = L

/-- The five decimal digits `%05d` writes for a number below 100000. -/
def decimal5 (n : Nat) : List Nat :=
  [n / 10000 % 10 + 48, n / 1000 % 10 + 48, n / 100 % 10 + 48, n / 10 % 10 + 48, n % 10 + 48]

/-- The name `GET_TABLENAME` (btree.c:105) gives table `n` in the file of a
named database: "table%05d". -/
def tableName5 (n : Nat) : List Nat := tableBytes ++ decimal5 n

/-- A world for examples: the file "t.db" holds "metadb" (table 7), the tables
1, 2 and 5 (tables 9, 10 and 11), and the list of these databases (table 8);
its `BtShared` will be at address 2.  The file is opened from this world by
`sqlite3BtreeOpen` (the `Btree` is at address 1) and `sqlite3BtreeBeginTrans`
asks for a write transaction; the handle is not connected yet. -/
def World.fileOpen : World :=
  (sqlite3BtreeBeginTrans
    (sqlite3BtreeOpen (EnvOps.named EnvOps.simple)
      { World.empty with
        handles := 12,
        catalog := [((2, 0), 7), ((2, -1), 8), ((2, 1), 9), ((2, 2), 10), ((2, 5), 11)],
        tables := (Function.update World.empty.tables 8
          [(metadbBytes, []), (tableName5 1, []), (tableName5 2, []), (tableName5 5, [])]) }
      (some ['t', '.', 'd', 'b']) 0 0 SQLITE_OPEN_CREATE).2.2
    1 true).2

/-- A world for examples: `World.fileOpen` when `sqlite3BtreeCreateTable` with
`BTREE_INTKEY | BTREE_LEAFDATA` enters `btreeCreateTable`: `btreeOpenEnvironment`
has connected the handle, opened the metadata and the tables database and
begun the transactions. -/
def World.tablesFile : World :=
  (sqlite3BtreeCreateTable_ready (EnvOps.named EnvOps.simple) World.fileOpen 1
    (BTREE_INTKEY ||| BTREE_LEAFDATA)).2.2

/-- A world for examples: the in-memory database opened by `sqlite3BtreeOpen`
from `World.empty`, with a write transaction asked for by
`sqlite3BtreeBeginTrans`; the handle is not connected yet. -/
def World.memOpen : World :=
  (sqlite3BtreeBeginTrans
    (sqlite3BtreeOpen (EnvOps.tmp EnvOps.idle) World.empty none 0 0 SQLITE_OPEN_CREATE).2.2
    1 true).2

/-- A world for examples: `World.memOpen` after `sqlite3BtreeCreateTable` with
`BTREE_INTKEY | BTREE_LEAFDATA` connected the handle, which created the master
table 1, and created the table 3. -/
def World.memThree : World :=
  (sqlite3BtreeCreateTable (EnvOps.tmp EnvOps.idle) World.memOpen 1
    (BTREE_INTKEY ||| BTREE_LEAFDATA)).2.2

/-! ## A cursor after an insert -/

/-- A world for examples: `World.physical1` after the row with the key 1 was
inserted through the write cursor 10 and the cursor was moved to it by
`sqlite3BtreeMovetoUnpacked`: the cursor is valid on the key 1. -/
def World.onOne : World :=
  (sqlite3BtreeMovetoUnpacked (EnvOps.tmp EnvOps.idle)
    (sqlite3BtreeInsert (EnvOps.tmp EnvOps.idle) World.physical1 10 none 1 [97] 1 0).2
    10 none 1).2.2

/-- A world for examples: `World.onOne` after the row with the key 3 was
inserted through the cursor 10. -/
def World.afterInsert : World :=
  (sqlite3BtreeInsert (EnvOps.tmp EnvOps.idle) World.onOne 10 none 3 [98] 1 0).2

/-! ## A commit that fails under a schema lock -/

/-- A call of `sqlite3BtreeBeginStmt` or of `sqlite3BtreeSavepoint` on a
connection, with its arguments. -/
inductive TxnCall where
  | beginStmt (iStatement : Int)
  | savepoint (op : Int) (iSavepoint : Int)

/-- The call made on the connection `p`: the status and the world. -/
def TxnCall.run (ops : EnvOps) (p : Nat) (w : World) : TxnCall → Int × World
  | TxnCall.beginStmt iStatement => sqlite3BtreeBeginStmt w p iStatement
  | TxnCall.savepoint op iSavepoint => sqlite3BtreeSavepoint ops w (some p) op iSavepoint

/-- The world after the calls were made on the connection `p`, one after the
other, whatever they returned. -/
def runCalls (ops : EnvOps) (p : Nat) : List TxnCall → World → World
  | [], w => w
  | c :: cs, w => runCalls ops p cs (c.run ops p w).2

/-- The calls the chain of a connection is followed through: a statement
number whose successor is in the range of `int`, and a savepoint level that is
not negative. -/
def TxnCall.inRange : TxnCall → Prop
  | TxnCall.beginStmt iStatement => iStatement + 1 < 2147483648
  | TxnCall.savepoint _ iSavepoint => 0 ≤ iSavepoint

/-- The transaction chain of the connection `p` is linked: without a read
transaction `nSavepoint` is 0; with the read transaction `rd`, the innermost
savepoint node is `nSavepoint` parent steps below `rd`, and no smaller number
of steps leads from it to `rd`. -/
def World.chainLinked (w : World) (p : Nat) : Prop :=
  0 ≤ (w.btrees p).nSavepoint ∧
  match (w.btrees p).read_txn with
  | none => (w.btrees p).nSavepoint = 0
  | some rd =>
    ∃ sp, (w.btrees p).savepoint_txn = some sp ∧
      parentSteps w.txns (w.btrees p).nSavepoint.toNat sp = some rd ∧
      ∀ j, j < (w.btrees p).nSavepoint.toNat → parentSteps w.txns j sp ≠ some rd

/-- The nodes of the chain of the connection `p`, when it has a read
transaction, are handles that were given out, and none of them is a family
transaction. -/
def World.chainFresh (w : World) (p : Nat) : Prop :=
  (w.btrees p).read_txn ≠ none →
  ∀ sp, (w.btrees p).savepoint_txn = some sp →
    ∀ j x, j ≤ (w.btrees p).nSavepoint.toNat → parentSteps w.txns j sp = some x →
      x < w.handles ∧ (w.txns x).family = false

/-! ## Worlds for the metadata tables -/

/-- The named database of `World.connected1` whose file holds the database
"metadb" (table 7) and whose list of databases (table 8) names it. -/
def World.metaFile : World :=
  { World.connected1 with
    handles := 9,
    catalog := [((1, 0), 7), ((1, -1), 8)],
    tables := (Function.update World.connected1.tables 8 [(metadbBytes, [])]) }

/-- `World.metaFile` with an engine that lets the two handles be created, and
then fails one hundred calls with a deadlock. -/
def World.metaBusy : World :=
  { World.metaFile with faults := 0 :: 0 :: List.replicate 100 DB_LOCK_DEADLOCK }

/-- `World.metaFile` with an engine that lets the two handles be created,
fails the metadata open three times with a deadlock or a refused lock, lets
it succeed, and then fails the tables open twice. -/
def World.metaRetry : World :=
  { World.metaFile with
    faults := [0, 0, DB_LOCK_DEADLOCK, DB_LOCK_NOTGRANTED, DB_LOCK_DEADLOCK, 0,
      DB_LOCK_NOTGRANTED, DB_LOCK_DEADLOCK] }

/-! ## A second open that fails -/

/-- `World.open1` (the named database "t.db" opened once, its environment
prepared but not yet open) with an engine whose next call fails with
`EACCES`. -/
def World.secondFails : World := { World.open1 with faults := [EACCES] }

/-- The second `sqlite3BtreeOpen` of "t.db", by the database context 1, in
`World.secondFails`, with `btreeOpenEnvironment` as `btree.c` has it for a
named database. -/
def World.afterFailedOpen : Int × Option Nat × World :=
  sqlite3BtreeOpen (EnvOps.named EnvOps.simple) World.secondFails (some ['t', '.', 'd', 'b']) 1 0 0

/-! # Theorems -/

/-! ### The unsigned encoding: bit-level facts and the explicit forms -/

theorem or_val2 : ∀ b, b < 64 → b ||| 128 = b + 128 := by decide

theorem or_val3 : ∀ b, b < 32 → b ||| 192 = b + 192 := by decide

theorem or_val4 : ∀ b, b < 16 → b ||| 224 = b + 224 := by decide

theorem or_val5 : ∀ b, b < 8 → b ||| 240 = b + 240 := by decide

theorem and_mask2 : ∀ b, b < 64 → (b + 128) &&& 63 = b := by decide

theorem and_mask3 : ∀ b, b < 32 → (b + 192) &&& 31 = b := by decide

theorem and_mask4 : ∀ b, b < 16 → (b + 224) &&& 15 = b := by decide

theorem and_mask5 : ∀ b, b < 8 → (b + 240) &&& 7 = b := by decide

theorem dec_len1 (buf : Nat → Nat) (h : db_marshaled_int_size (buf 0) = 1) :
    dbsql_decompress_int buf = (buf 0, 1) := by
  simp [dbsql_decompress_int, h]

theorem dec_len2 (buf : Nat → Nat) (h : db_marshaled_int_size (buf 0) = 2) :
    dbsql_decompress_int buf =
      (((buf 0 &&& CMP_INT_2BYTE_MASK) * 256 + buf 1 + (CMP_INT_1BYTE_MAX + 1)) % 2 ^ 64, 2) := by
  simp [dbsql_decompress_int, h]

theorem dec_len3 (buf : Nat → Nat) (h : db_marshaled_int_size (buf 0) = 3) :
    dbsql_decompress_int buf =
      ((((buf 0 &&& CMP_INT_3BYTE_MASK) * 256 + buf 1) * 256 + buf 2 + (CMP_INT_2BYTE_MAX + 1)) % 2 ^ 64, 3) := by
  simp [dbsql_decompress_int, h]

theorem dec_len4 (buf : Nat → Nat) (h : db_marshaled_int_size (buf 0) = 4) :
    dbsql_decompress_int buf =
      (((((buf 0 &&& CMP_INT_4BYTE_MASK) * 256 + buf 1) * 256 + buf 2) * 256 + buf 3 + (CMP_INT_3BYTE_MAX + 1)) % 2 ^ 64, 4) := by
  simp [dbsql_decompress_int, h]

theorem dec_len5 (buf : Nat → Nat) (h : db_marshaled_int_size (buf 0) = 5) :
    dbsql_decompress_int buf =
      ((((((buf 0 &&& CMP_INT_5BYTE_MASK) * 256 + buf 1) * 256 + buf 2) * 256 + buf 3) * 256 + buf 4 + (CMP_INT_4BYTE_MAX + 1)) % 2 ^ 64, 5) := by
  simp [dbsql_decompress_int, h]

theorem dec_len6 (buf : Nat → Nat) (h : db_marshaled_int_size (buf 0) = 6) :
    dbsql_decompress_int buf =
      ((((((buf 1) * 256 + buf 2) * 256 + buf 3) * 256 + buf 4) * 256 + buf 5 + (CMP_INT_5BYTE_MAX + 1)) % 2 ^ 64, 6) := by
  simp [dbsql_decompress_int, h]

theorem dec_len7 (buf : Nat → Nat) (h : db_marshaled_int_size (buf 0) = 7) :
    dbsql_decompress_int buf =
      (((((((buf 1) * 256 + buf 2) * 256 + buf 3) * 256 + buf 4) * 256 + buf 5) * 256 + buf 6 + (CMP_INT_6BYTE_MAX + 1)) % 2 ^ 64, 7) := by
  simp [dbsql_decompress_int, h]

theorem dec_len8 (buf : Nat → Nat) (h : db_marshaled_int_size (buf 0) = 8) :
    dbsql_decompress_int buf =
      ((((((((buf 1) * 256 + buf 2) * 256 + buf 3) * 256 + buf 4) * 256 + buf 5) * 256 + buf 6) * 256 + buf 7 + (CMP_INT_7BYTE_MAX + 1)) % 2 ^ 64, 8) := by
  simp [dbsql_decompress_int, h]

theorem dec_len9 (buf : Nat → Nat) (h : db_marshaled_int_size (buf 0) = 9) :
    dbsql_decompress_int buf =
      (((((((((buf 1) * 256 + buf 2) * 256 + buf 3) * 256 + buf 4) * 256 + buf 5) * 256 + buf 6) * 256 + buf 7) * 256 + buf 8 + (CMP_INT_8BYTE_MAX + 1)) % 2 ^ 64, 9) := by
  simp [dbsql_decompress_int, h]

theorem compress_form1 (i : Nat) (h1 : i ≤ 127) : compressBytes i = [i] := by
  simp only [compressBytes, CMP_INT_1BYTE_MAX, h1, if_true]

theorem compress_form2 (i : Nat) (hlo : 127 < i) (hhi : i ≤ 16511) :
    compressBytes i = [(i - 128) / 256 + 128, (i - 128) % 256] := by
  have h1 : ¬ i ≤ 127 := by omega
  have hb : byteOf (i - 128) 1 < 64 := by
    simp only [byteOf]; norm_num; omega
  simp only [compressBytes, CMP_INT_1BYTE_MAX, CMP_INT_2BYTE_MAX, CMP_INT_3BYTE_MAX,
    CMP_INT_4BYTE_MAX, CMP_INT_5BYTE_MAX, CMP_INT_6BYTE_MAX, CMP_INT_7BYTE_MAX,
    CMP_INT_8BYTE_MAX,
    h1, hhi, if_true, if_false, CMP_INT_2BYTE_VAL, Nat.reduceAdd, or_val2 _ hb]
  simp only [byteOf]
  norm_num
  omega

theorem compress_form3 (i : Nat) (hlo : 16511 < i) (hhi : i ≤ 2113663) :
    compressBytes i = [(i - 16512) / 65536 + 192, (i - 16512) / 256 % 256, (i - 16512) % 256] := by
  have h1 : ¬ i ≤ 127 := by omega
  have h2 : ¬ i ≤ 16511 := by omega
  have hb : byteOf (i - 16512) 2 < 32 := by
    simp only [byteOf]; norm_num; omega
  simp only [compressBytes, CMP_INT_1BYTE_MAX, CMP_INT_2BYTE_MAX, CMP_INT_3BYTE_MAX,
    CMP_INT_4BYTE_MAX, CMP_INT_5BYTE_MAX, CMP_INT_6BYTE_MAX, CMP_INT_7BYTE_MAX,
    CMP_INT_8BYTE_MAX,
    h1, h2, hhi, if_true, if_false, CMP_INT_3BYTE_VAL, Nat.reduceAdd, or_val3 _ hb]
  simp only [byteOf]
  norm_num
  omega

theorem compress_form4 (i : Nat) (hlo : 2113663 < i) (hhi : i ≤ 270549119) :
    compressBytes i = [(i - 2113664) / 16777216 + 224, (i - 2113664) / 65536 % 256, (i - 2113664) / 256 % 256, (i - 2113664) % 256] := by
  have h1 : ¬ i ≤ 127 := by omega
  have h2 : ¬ i ≤ 16511 := by omega
  have h3 : ¬ i ≤ 2113663 := by omega
  have hb : byteOf (i - 2113664) 3 < 16 := by
    simp only [byteOf]; norm_num; omega
  simp only [compressBytes, CMP_INT_1BYTE_MAX, CMP_INT_2BYTE_MAX, CMP_INT_3BYTE_MAX,
    CMP_INT_4BYTE_MAX, CMP_INT_5BYTE_MAX, CMP_INT_6BYTE_MAX, CMP_INT_7BYTE_MAX,
    CMP_INT_8BYTE_MAX,
    h1, h2, h3, hhi, if_true, if_false, CMP_INT_4BYTE_VAL, Nat.reduceAdd, or_val4 _ hb]
  simp only [byteOf]
  norm_num
  omega

theorem compress_form5 (i : Nat) (hlo : 270549119 < i) (hhi : i ≤ 34630287487) :
    compressBytes i = [(i - 270549120) / 4294967296 + 240, (i - 270549120) / 16777216 % 256, (i - 270549120) / 65536 % 256, (i - 270549120) / 256 % 256, (i - 270549120) % 256] := by
  have h1 : ¬ i ≤ 127 := by omega
  have h2 : ¬ i ≤ 16511 := by omega
  have h3 : ¬ i ≤ 2113663 := by omega
  have h4 : ¬ i ≤ 270549119 := by omega
  have hb : byteOf (i - 270549120) 4 < 8 := by
    simp only [byteOf]; norm_num; omega
  simp only [compressBytes, CMP_INT_1BYTE_MAX, CMP_INT_2BYTE_MAX, CMP_INT_3BYTE_MAX,
    CMP_INT_4BYTE_MAX, CMP_INT_5BYTE_MAX, CMP_INT_6BYTE_MAX, CMP_INT_7BYTE_MAX,
    CMP_INT_8BYTE_MAX,
    h1, h2, h3, h4, hhi, if_true, if_false, CMP_INT_5BYTE_VAL, Nat.reduceAdd, or_val5 _ hb]
  simp only [byteOf]
  norm_num
  omega

theorem compress_form6 (i : Nat) (hlo : 34630287487 < i) (hhi : i ≤ 1134141915263) :
    compressBytes i = [248, (i - 34630287488) / 4294967296 % 256, (i - 34630287488) / 16777216 % 256, (i - 34630287488) / 65536 % 256, (i - 34630287488) / 256 % 256, (i - 34630287488) % 256] := by
  have h1 : ¬ i ≤ 127 := by omega
  have h2 : ¬ i ≤ 16511 := by omega
  have h3 : ¬ i ≤ 2113663 := by omega
  have h4 : ¬ i ≤ 270549119 := by omega
  have h5 : ¬ i ≤ 34630287487 := by omega
  simp only [compressBytes, CMP_INT_1BYTE_MAX, CMP_INT_2BYTE_MAX, CMP_INT_3BYTE_MAX,
    CMP_INT_4BYTE_MAX, CMP_INT_5BYTE_MAX, CMP_INT_6BYTE_MAX, CMP_INT_7BYTE_MAX,
    CMP_INT_8BYTE_MAX,
    h1, h2, h3, h4, h5, hhi, if_true, if_false, CMP_INT_6BYTE_VAL, Nat.reduceAdd]
  simp only [byteOf]
  norm_num

theorem compress_form7 (i : Nat) (hlo : 1134141915263 < i) (hhi : i ≤ 282609118625919) :
    compressBytes i = [249, (i - 1134141915264) / 1099511627776 % 256, (i - 1134141915264) / 4294967296 % 256, (i - 1134141915264) / 16777216 % 256, (i - 1134141915264) / 65536 % 256, (i - 1134141915264) / 256 % 256, (i - 1134141915264) % 256] := by
  have h1 : ¬ i ≤ 127 := by omega
  have h2 : ¬ i ≤ 16511 := by omega
  have h3 : ¬ i ≤ 2113663 := by omega
  have h4 : ¬ i ≤ 270549119 := by omega
  have h5 : ¬ i ≤ 34630287487 := by omega
  have h6 : ¬ i ≤ 1134141915263 := by omega
  simp only [compressBytes, CMP_INT_1BYTE_MAX, CMP_INT_2BYTE_MAX, CMP_INT_3BYTE_MAX,
    CMP_INT_4BYTE_MAX, CMP_INT_5BYTE_MAX, CMP_INT_6BYTE_MAX, CMP_INT_7BYTE_MAX,
    CMP_INT_8BYTE_MAX,
    h1, h2, h3, h4, h5, h6, hhi, if_true, if_false, CMP_INT_7BYTE_VAL, Nat.reduceAdd]
  simp only [byteOf]
  norm_num

theorem compress_form8 (i : Nat) (hlo : 282609118625919 < i) (hhi : i ≤ 72340203156553855) :
    compressBytes i = [250, (i - 282609118625920) / 281474976710656 % 256, (i - 282609118625920) / 1099511627776 % 256, (i - 282609118625920) / 4294967296 % 256, (i - 282609118625920) / 16777216 % 256, (i - 282609118625920) / 65536 % 256, (i - 282609118625920) / 256 % 256, (i - 282609118625920) % 256] := by
  have h1 : ¬ i ≤ 127 := by omega
  have h2 : ¬ i ≤ 16511 := by omega
  have h3 : ¬ i ≤ 2113663 := by omega
  have h4 : ¬ i ≤ 270549119 := by omega
  have h5 : ¬ i ≤ 34630287487 := by omega
  have h6 : ¬ i ≤ 1134141915263 := by omega
  have h7 : ¬ i ≤ 282609118625919 := by omega
  simp only [compressBytes, CMP_INT_1BYTE_MAX, CMP_INT_2BYTE_MAX, CMP_INT_3BYTE_MAX,
    CMP_INT_4BYTE_MAX, CMP_INT_5BYTE_MAX, CMP_INT_6BYTE_MAX, CMP_INT_7BYTE_MAX,
    CMP_INT_8BYTE_MAX,
    h1, h2, h3, h4, h5, h6, h7, hhi, if_true, if_false, CMP_INT_8BYTE_VAL, Nat.reduceAdd]
  simp only [byteOf]
  norm_num

theorem compress_form9 (i : Nat) (hlo : 72340203156553855 < i) :
    compressBytes i = [251, (i - 72340203156553856) / 72057594037927936 % 256, (i - 72340203156553856) / 281474976710656 % 256, (i - 72340203156553856) / 1099511627776 % 256, (i - 72340203156553856) / 4294967296 % 256, (i - 72340203156553856) / 16777216 % 256, (i - 72340203156553856) / 65536 % 256, (i - 72340203156553856) / 256 % 256, (i - 72340203156553856) % 256] := by
  have h1 : ¬ i ≤ 127 := by omega
  have h2 : ¬ i ≤ 16511 := by omega
  have h3 : ¬ i ≤ 2113663 := by omega
  have h4 : ¬ i ≤ 270549119 := by omega
  have h5 : ¬ i ≤ 34630287487 := by omega
  have h6 : ¬ i ≤ 1134141915263 := by omega
  have h7 : ¬ i ≤ 282609118625919 := by omega
  have h8 : ¬ i ≤ 72340203156553855 := by omega
  simp only [compressBytes, CMP_INT_1BYTE_MAX, CMP_INT_2BYTE_MAX, CMP_INT_3BYTE_MAX,
    CMP_INT_4BYTE_MAX, CMP_INT_5BYTE_MAX, CMP_INT_6BYTE_MAX, CMP_INT_7BYTE_MAX,
    CMP_INT_8BYTE_MAX,
    h1, h2, h3, h4, h5, h6, h7, h8, if_false, CMP_INT_9BYTE_VAL, Nat.reduceAdd]
  simp only [byteOf]
  norm_num

/-- Every encoding is nonempty and has at most nine bytes. -/
theorem compress_length (i : Nat) : 1 ≤ (compressBytes i).length ∧ (compressBytes i).length ≤ 9 := by
  unfold compressBytes
  split_ifs <;> simp

theorem decompress_compress1 (data : Nat → Nat) (i : Nat) (c1 : i ≤ 127)
    (hd : ∀ k x, (compressBytes i).get? k = some x → data k = x) :
    dbsql_decompress_int data = (i, ((compressBytes i).length : Int)) := by
  rw [compress_form1 i c1] at hd ⊢
  have d0 := hd 0 _ rfl
  have hlen : db_marshaled_int_size (data 0) = 1 := by
    rw [d0]; simp only [db_marshaled_int_size]; split_ifs <;> omega
  rw [dec_len1 _ hlen, d0]
  simp

theorem decompress_compress2 (data : Nat → Nat) (i : Nat) (hlo : 127 < i) (hhi : i ≤ 16511)
    (hd : ∀ k x, (compressBytes i).get? k = some x → data k = x) :
    dbsql_decompress_int data = (i, ((compressBytes i).length : Int)) := by
  rw [compress_form2 i hlo hhi] at hd ⊢
  have d0 := hd 0 _ rfl
  have d1 := hd 1 _ rfl
  clear hd
  have hb : (i - 128) / 256 < 64 := by omega
  have hlen : db_marshaled_int_size (data 0) = 2 := by
    rw [d0]; simp only [db_marshaled_int_size]; split_ifs <;> omega
  rw [dec_len2 _ hlen, d0, d1]
  simp only [CMP_INT_2BYTE_MASK, and_mask2 _ hb, CMP_INT_1BYTE_MAX]
  clear hlen d0 d1
  simp
  omega

theorem decompress_compress3 (data : Nat → Nat) (i : Nat) (hlo : 16511 < i) (hhi : i ≤ 2113663)
    (hd : ∀ k x, (compressBytes i).get? k = some x → data k = x) :
    dbsql_decompress_int data = (i, ((compressBytes i).length : Int)) := by
  rw [compress_form3 i hlo hhi] at hd ⊢
  have d0 := hd 0 _ rfl
  have d1 := hd 1 _ rfl
  have d2 := hd 2 _ rfl
  clear hd
  have hb : (i - 16512) / 65536 < 32 := by omega
  have hlen : db_marshaled_int_size (data 0) = 3 := by
    rw [d0]; simp only [db_marshaled_int_size]; split_ifs <;> omega
  rw [dec_len3 _ hlen, d0, d1, d2]
  simp only [CMP_INT_3BYTE_MASK, and_mask3 _ hb, CMP_INT_2BYTE_MAX]
  clear hlen d0 d1 d2
  simp
  omega

theorem decompress_compress4 (data : Nat → Nat) (i : Nat) (hlo : 2113663 < i) (hhi : i ≤ 270549119)
    (hd : ∀ k x, (compressBytes i).get? k = some x → data k = x) :
    dbsql_decompress_int data = (i, ((compressBytes i).length : Int)) := by
  rw [compress_form4 i hlo hhi] at hd ⊢
  have d0 := hd 0 _ rfl
  have d1 := hd 1 _ rfl
  have d2 := hd 2 _ rfl
  have d3 := hd 3 _ rfl
  clear hd
  have hb : (i - 2113664) / 16777216 < 16 := by omega
  have hlen : db_marshaled_int_size (data 0) = 4 := by
    rw [d0]; simp only [db_marshaled_int_size]; split_ifs <;> omega
  rw [dec_len4 _ hlen, d0, d1, d2, d3]
  simp only [CMP_INT_4BYTE_MASK, and_mask4 _ hb, CMP_INT_3BYTE_MAX]
  clear hlen d0 d1 d2 d3
  simp
  omega

theorem decompress_compress5 (data : Nat → Nat) (i : Nat) (hlo : 270549119 < i) (hhi : i ≤ 34630287487)
    (hd : ∀ k x, (compressBytes i).get? k = some x → data k = x) :
    dbsql_decompress_int data = (i, ((compressBytes i).length : Int)) := by
  rw [compress_form5 i hlo hhi] at hd ⊢
  have d0 := hd 0 _ rfl
  have d1 := hd 1 _ rfl
  have d2 := hd 2 _ rfl
  have d3 := hd 3 _ rfl
  have d4 := hd 4 _ rfl
  clear hd
  have hb : (i - 270549120) / 4294967296 < 8 := by omega
  have hlen : db_marshaled_int_size (data 0) = 5 := by
    rw [d0]; simp only [db_marshaled_int_size]; split_ifs <;> omega
  rw [dec_len5 _ hlen, d0, d1, d2, d3, d4]
  simp only [CMP_INT_5BYTE_MASK, and_mask5 _ hb, CMP_INT_4BYTE_MAX]
  clear hlen d0 d1 d2 d3 d4
  simp
  omega

theorem decompress_compress6 (data : Nat → Nat) (i : Nat) (hlo : 34630287487 < i) (hhi : i ≤ 1134141915263)
    (hd : ∀ k x, (compressBytes i).get? k = some x → data k = x) :
    dbsql_decompress_int data = (i, ((compressBytes i).length : Int)) := by
  rw [compress_form6 i hlo hhi] at hd ⊢
  have d0 := hd 0 _ rfl
  have d1 := hd 1 _ rfl
  have d2 := hd 2 _ rfl
  have d3 := hd 3 _ rfl
  have d4 := hd 4 _ rfl
  have d5 := hd 5 _ rfl
  clear hd
  have hlen : db_marshaled_int_size (data 0) = 6 := by
    rw [d0]; simp only [db_marshaled_int_size]; split_ifs <;> omega
  rw [dec_len6 _ hlen, d1, d2, d3, d4, d5]
  simp only [CMP_INT_5BYTE_MAX]
  clear hlen d0 d1 d2 d3 d4 d5
  simp
  omega

theorem decompress_compress7 (data : Nat → Nat) (i : Nat) (hlo : 1134141915263 < i) (hhi : i ≤ 282609118625919)
    (hd : ∀ k x, (compressBytes i).get? k = some x → data k = x) :
    dbsql_decompress_int data = (i, ((compressBytes i).length : Int)) := by
  rw [compress_form7 i hlo hhi] at hd ⊢
  have d0 := hd 0 _ rfl
  have d1 := hd 1 _ rfl
  have d2 := hd 2 _ rfl
  have d3 := hd 3 _ rfl
  have d4 := hd 4 _ rfl
  have d5 := hd 5 _ rfl
  have d6 := hd 6 _ rfl
  clear hd
  have hlen : db_marshaled_int_size (data 0) = 7 := by
    rw [d0]; simp only [db_marshaled_int_size]; split_ifs <;> omega
  rw [dec_len7 _ hlen, d1, d2, d3, d4, d5, d6]
  simp only [CMP_INT_6BYTE_MAX]
  clear hlen d0 d1 d2 d3 d4 d5 d6
  simp
  omega

theorem decompress_compress8 (data : Nat → Nat) (i : Nat) (hlo : 282609118625919 < i) (hhi : i ≤ 72340203156553855)
    (hd : ∀ k x, (compressBytes i).get? k = some x → data k = x) :
    dbsql_decompress_int data = (i, ((compressBytes i).length : Int)) := by
  rw [compress_form8 i hlo hhi] at hd ⊢
  have d0 := hd 0 _ rfl
  have d1 := hd 1 _ rfl
  have d2 := hd 2 _ rfl
  have d3 := hd 3 _ rfl
  have d4 := hd 4 _ rfl
  have d5 := hd 5 _ rfl
  have d6 := hd 6 _ rfl
  have d7 := hd 7 _ rfl
  clear hd
  have hlen : db_marshaled_int_size (data 0) = 8 := by
    rw [d0]; simp only [db_marshaled_int_size]; split_ifs <;> omega
  rw [dec_len8 _ hlen, d1, d2, d3, d4, d5, d6, d7]
  simp only [CMP_INT_7BYTE_MAX]
  clear hlen d0 d1 d2 d3 d4 d5 d6 d7
  simp
  omega

theorem decompress_compress9 (data : Nat → Nat) (i : Nat) (hlo : 72340203156553855 < i) (hi : i < 18446744073709551616)
    (hd : ∀ k x, (compressBytes i).get? k = some x → data k = x) :
    dbsql_decompress_int data = (i, ((compressBytes i).length : Int)) := by
  rw [compress_form9 i hlo] at hd ⊢
  have d0 := hd 0 _ rfl
  have d1 := hd 1 _ rfl
  have d2 := hd 2 _ rfl
  have d3 := hd 3 _ rfl
  have d4 := hd 4 _ rfl
  have d5 := hd 5 _ rfl
  have d6 := hd 6 _ rfl
  have d7 := hd 7 _ rfl
  have d8 := hd 8 _ rfl
  clear hd
  have hlen : db_marshaled_int_size (data 0) = 9 := by
    rw [d0]; simp only [db_marshaled_int_size]; split_ifs <;> omega
  rw [dec_len9 _ hlen, d1, d2, d3, d4, d5, d6, d7, d8]
  simp only [CMP_INT_8BYTE_MAX]
  clear hlen d0 d1 d2 d3 d4 d5 d6 d7 d8
  simp
  omega

/-- The decoder inverts the encoder on whatever memory holds the encoding:
the decoded value is `i` and the consumed length is the encoded length. -/
theorem decompress_compress (data : Nat → Nat) (i : Nat) (hi : i < 2 ^ 64)
    (hd : ∀ k x, (compressBytes i).get? k = some x → data k = x) :
    dbsql_decompress_int data = (i, ((compressBytes i).length : Int)) := by
  by_cases c1 : i ≤ 127
  · exact decompress_compress1 data i c1 hd
  by_cases c2 : i ≤ 16511
  · exact decompress_compress2 data i (by omega) c2 hd
  by_cases c3 : i ≤ 2113663
  · exact decompress_compress3 data i (by omega) c3 hd
  by_cases c4 : i ≤ 270549119
  · exact decompress_compress4 data i (by omega) c4 hd
  by_cases c5 : i ≤ 34630287487
  · exact decompress_compress5 data i (by omega) c5 hd
  by_cases c6 : i ≤ 1134141915263
  · exact decompress_compress6 data i (by omega) c6 hd
  by_cases c7 : i ≤ 282609118625919
  · exact decompress_compress7 data i (by omega) c7 hd
  by_cases c8 : i ≤ 72340203156553855
  · exact decompress_compress8 data i (by omega) c8 hd
  exact decompress_compress9 data i (by omega) (by norm_num at hi; exact hi) hd
/-! ### The unsigned encoding preserves order -/

theorem bytesLt_cons_lt (a b : Nat) (as bs : List Nat) (h : a < b) :
    bytesLt (a :: as) (b :: bs) = true := by
  simp [bytesLt, h]

theorem bytesLt_cons_same (a : Nat) (as bs : List Nat) :
    bytesLt (a :: as) (a :: bs) = bytesLt as bs := by
  simp [bytesLt]

theorem bytesLt_append_right (as bs cs : List Nat) (h : bytesLt as bs = true) :
    bytesLt as (bs ++ cs) = true := by
  induction as generalizing bs with
  | nil =>
    cases bs with
    | nil => simp [bytesLt] at h
    | cons b bs => simp [bytesLt]
  | cons a as ih =>
    cases bs with
    | nil => simp [bytesLt] at h
    | cons b bs =>
      simp only [List.cons_append, bytesLt, Bool.or_eq_true, Bool.and_eq_true,
        decide_eq_true_eq, beq_iff_eq] at h ⊢
      rcases h with h | ⟨h1, h2⟩
      · exact Or.inl h
      · exact Or.inr ⟨h1, ih bs h2⟩

theorem bytesLt_self_append (as : List Nat) (c : Nat) (cs : List Nat) :
    bytesLt as (as ++ c :: cs) = true := by
  induction as with
  | nil => simp [bytesLt]
  | cons a as ih => simp [bytesLt, ih]

theorem compress_lt_1 (i j : Nat) (hij : i < j) (hhi : j ≤ 127) :
    bytesLt (compressBytes i) (compressBytes j) = true := by
  rw [compress_form1 i (by omega), compress_form1 j hhi]
  exact bytesLt_cons_lt _ _ _ _ hij

theorem bytesLt_cons_of (a b : Nat) (as bs : List Nat)
    (h : a < b ∨ (a = b ∧ bytesLt as bs = true)) : bytesLt (a :: as) (b :: bs) = true := by
  rcases h with h | ⟨h1, h2⟩
  · exact bytesLt_cons_lt _ _ _ _ h
  · rw [h1, bytesLt_cons_same]; exact h2

theorem compress_lt_2 (i j : Nat) (hlo : 127 < i) (hij : i < j) (hhi : j ≤ 16511) :
    bytesLt (compressBytes i) (compressBytes j) = true := by
  rw [compress_form2 i hlo (by omega), compress_form2 j (by omega) hhi]
  obtain ⟨u, rfl⟩ : ∃ u, i = u + 128 := ⟨i - 128, by omega⟩
  obtain ⟨v, rfl⟩ : ∃ v, j = v + 128 := ⟨j - 128, by omega⟩
  simp only [Nat.add_sub_cancel]
  have h0 : u < v := by omega
  have hb : v < 16384 := by omega
  clear hlo hij hhi
  apply bytesLt_cons_of
  by_cases t : u / 256 < v / 256
  · exact Or.inl (by omega)
  refine Or.inr ⟨by omega, ?_⟩
  have h1 : u % 256 < v % 256 := by omega
  clear t h0 hb
  exact bytesLt_cons_lt _ _ _ _ h1

theorem compress_lt_3 (i j : Nat) (hlo : 16511 < i) (hij : i < j) (hhi : j ≤ 2113663) :
    bytesLt (compressBytes i) (compressBytes j) = true := by
  rw [compress_form3 i hlo (by omega), compress_form3 j (by omega) hhi]
  obtain ⟨u, rfl⟩ : ∃ u, i = u + 16512 := ⟨i - 16512, by omega⟩
  obtain ⟨v, rfl⟩ : ∃ v, j = v + 16512 := ⟨j - 16512, by omega⟩
  simp only [Nat.add_sub_cancel]
  have h0 : u < v := by omega
  have hb : v < 2097152 := by omega
  clear hlo hij hhi
  apply bytesLt_cons_of
  by_cases t : u / 65536 < v / 65536
  · exact Or.inl (by omega)
  refine Or.inr ⟨by omega, ?_⟩
  have h2 : u % 65536 < v % 65536 := by omega
  clear t h0 hb
  apply bytesLt_cons_of
  by_cases t : u / 256 % 256 < v / 256 % 256
  · exact Or.inl t
  refine Or.inr ⟨by omega, ?_⟩
  have h1 : u % 256 < v % 256 := by omega
  clear t h2
  exact bytesLt_cons_lt _ _ _ _ h1

theorem compress_lt_4 (i j : Nat) (hlo : 2113663 < i) (hij : i < j) (hhi : j ≤ 270549119) :
    bytesLt (compressBytes i) (compressBytes j) = true := by
  rw [compress_form4 i hlo (by omega), compress_form4 j (by omega) hhi]
  obtain ⟨u, rfl⟩ : ∃ u, i = u + 2113664 := ⟨i - 2113664, by omega⟩
  obtain ⟨v, rfl⟩ : ∃ v, j = v + 2113664 := ⟨j - 2113664, by omega⟩
  simp only [Nat.add_sub_cancel]
  have h0 : u < v := by omega
  have hb : v < 268435456 := by omega
  clear hlo hij hhi
  apply bytesLt_cons_of
  by_cases t : u / 16777216 < v / 16777216
  · exact Or.inl (by omega)
  refine Or.inr ⟨by omega, ?_⟩
  have h3 : u % 16777216 < v % 16777216 := by omega
  clear t h0 hb
  apply bytesLt_cons_of
  by_cases t : u / 65536 % 256 < v / 65536 % 256
  · exact Or.inl t
  refine Or.inr ⟨by omega, ?_⟩
  have h2 : u % 65536 < v % 65536 := by omega
  clear t h3
  apply bytesLt_cons_of
  by_cases t : u / 256 % 256 < v / 256 % 256
  · exact Or.inl t
  refine Or.inr ⟨by omega, ?_⟩
  have h1 : u % 256 < v % 256 := by omega
  clear t h2
  exact bytesLt_cons_lt _ _ _ _ h1

theorem compress_lt_5 (i j : Nat) (hlo : 270549119 < i) (hij : i < j) (hhi : j ≤ 34630287487) :
    bytesLt (compressBytes i) (compressBytes j) = true := by
  rw [compress_form5 i hlo (by omega), compress_form5 j (by omega) hhi]
  obtain ⟨u, rfl⟩ : ∃ u, i = u + 270549120 := ⟨i - 270549120, by omega⟩
  obtain ⟨v, rfl⟩ : ∃ v, j = v + 270549120 := ⟨j - 270549120, by omega⟩
  simp only [Nat.add_sub_cancel]
  have h0 : u < v := by omega
  have hb : v < 34359738368 := by omega
  clear hlo hij hhi
  apply bytesLt_cons_of
  by_cases t : u / 4294967296 < v / 4294967296
  · exact Or.inl (by omega)
  refine Or.inr ⟨by omega, ?_⟩
  have h4 : u % 4294967296 < v % 4294967296 := by omega
  clear t h0 hb
  apply bytesLt_cons_of
  by_cases t : u / 16777216 % 256 < v / 16777216 % 256
  · exact Or.inl t
  refine Or.inr ⟨by omega, ?_⟩
  have h3 : u % 16777216 < v % 16777216 := by omega
  clear t h4
  apply bytesLt_cons_of
  by_cases t : u / 65536 % 256 < v / 65536 % 256
  · exact Or.inl t
  refine Or.inr ⟨by omega, ?_⟩
  have h2 : u % 65536 < v % 65536 := by omega
  clear t h3
  apply bytesLt_cons_of
  by_cases t : u / 256 % 256 < v / 256 % 256
  · exact Or.inl t
  refine Or.inr ⟨by omega, ?_⟩
  have h1 : u % 256 < v % 256 := by omega
  clear t h2
  exact bytesLt_cons_lt _ _ _ _ h1

theorem compress_lt_6 (i j : Nat) (hlo : 34630287487 < i) (hij : i < j) (hhi : j ≤ 1134141915263) :
    bytesLt (compressBytes i) (compressBytes j) = true := by
  rw [compress_form6 i hlo (by omega), compress_form6 j (by omega) hhi]
  obtain ⟨u, rfl⟩ : ∃ u, i = u + 34630287488 := ⟨i - 34630287488, by omega⟩
  obtain ⟨v, rfl⟩ : ∃ v, j = v + 34630287488 := ⟨j - 34630287488, by omega⟩
  simp only [Nat.add_sub_cancel]
  have h5 : u % 1099511627776 < v % 1099511627776 := by omega
  clear hlo hij hhi
  rw [bytesLt_cons_same]
  apply bytesLt_cons_of
  by_cases t : u / 4294967296 % 256 < v / 4294967296 % 256
  · exact Or.inl t
  refine Or.inr ⟨by omega, ?_⟩
  have h4 : u % 4294967296 < v % 4294967296 := by omega
  clear t h5
  apply bytesLt_cons_of
  by_cases t : u / 16777216 % 256 < v / 16777216 % 256
  · exact Or.inl t
  refine Or.inr ⟨by omega, ?_⟩
  have h3 : u % 16777216 < v % 16777216 := by omega
  clear t h4
  apply bytesLt_cons_of
  by_cases t : u / 65536 % 256 < v / 65536 % 256
  · exact Or.inl t
  refine Or.inr ⟨by omega, ?_⟩
  have h2 : u % 65536 < v % 65536 := by omega
  clear t h3
  apply bytesLt_cons_of
  by_cases t : u / 256 % 256 < v / 256 % 256
  · exact Or.inl t
  refine Or.inr ⟨by omega, ?_⟩
  have h1 : u % 256 < v % 256 := by omega
  clear t h2
  exact bytesLt_cons_lt _ _ _ _ h1

theorem compress_lt_7 (i j : Nat) (hlo : 1134141915263 < i) (hij : i < j) (hhi : j ≤ 282609118625919) :
    bytesLt (compressBytes i) (compressBytes j) = true := by
  rw [compress_form7 i hlo (by omega), compress_form7 j (by omega) hhi]
  obtain ⟨u, rfl⟩ : ∃ u, i = u + 1134141915264 := ⟨i - 1134141915264, by omega⟩
  obtain ⟨v, rfl⟩ : ∃ v, j = v + 1134141915264 := ⟨j - 1134141915264, by omega⟩
  simp only [Nat.add_sub_cancel]
  have h6 : u % 281474976710656 < v % 281474976710656 := by omega
  clear hlo hij hhi
  rw [bytesLt_cons_same]
  apply bytesLt_cons_of
  by_cases t : u / 1099511627776 % 256 < v / 1099511627776 % 256
  · exact Or.inl t
  refine Or.inr ⟨by omega, ?_⟩
  have h5 : u % 1099511627776 < v % 1099511627776 := by omega
  clear t h6
  apply bytesLt_cons_of
  by_cases t : u / 4294967296 % 256 < v / 4294967296 % 256
  · exact Or.inl t
  refine Or.inr ⟨by omega, ?_⟩
  have h4 : u % 4294967296 < v % 4294967296 := by omega
  clear t h5
  apply bytesLt_cons_of
  by_cases t : u / 16777216 % 256 < v / 16777216 % 256
  · exact Or.inl t
  refine Or.inr ⟨by omega, ?_⟩
  have h3 : u % 16777216 < v % 16777216 := by omega
  clear t h4
  apply bytesLt_cons_of
  by_cases t : u / 65536 % 256 < v / 65536 % 256
  · exact Or.inl t
  refine Or.inr ⟨by omega, ?_⟩
  have h2 : u % 65536 < v % 65536 := by omega
  clear t h3
  apply bytesLt_cons_of
  by_cases t : u / 256 % 256 < v / 256 % 256
  · exact Or.inl t
  refine Or.inr ⟨by omega, ?_⟩
  have h1 : u % 256 < v % 256 := by omega
  clear t h2
  exact bytesLt_cons_lt _ _ _ _ h1

theorem compress_lt_8 (i j : Nat) (hlo : 282609118625919 < i) (hij : i < j) (hhi : j ≤ 72340203156553855) :
    bytesLt (compressBytes i) (compressBytes j) = true := by
  rw [compress_form8 i hlo (by omega), compress_form8 j (by omega) hhi]
  obtain ⟨u, rfl⟩ : ∃ u, i = u + 282609118625920 := ⟨i - 282609118625920, by omega⟩
  obtain ⟨v, rfl⟩ : ∃ v, j = v + 282609118625920 := ⟨j - 282609118625920, by omega⟩
  simp only [Nat.add_sub_cancel]
  have h7 : u % 72057594037927936 < v % 72057594037927936 := by omega
  clear hlo hij hhi
  rw [bytesLt_cons_same]
  apply bytesLt_cons_of
  by_cases t : u / 281474976710656 % 256 < v / 281474976710656 % 256
  · exact Or.inl t
  refine Or.inr ⟨by omega, ?_⟩
  have h6 : u % 281474976710656 < v % 281474976710656 := by omega
  clear t h7
  apply bytesLt_cons_of
  by_cases t : u / 1099511627776 % 256 < v / 1099511627776 % 256
  · exact Or.inl t
  refine Or.inr ⟨by omega, ?_⟩
  have h5 : u % 1099511627776 < v % 1099511627776 := by omega
  clear t h6
  apply bytesLt_cons_of
  by_cases t : u / 4294967296 % 256 < v / 4294967296 % 256
  · exact Or.inl t
  refine Or.inr ⟨by omega, ?_⟩
  have h4 : u % 4294967296 < v % 4294967296 := by omega
  clear t h5
  apply bytesLt_cons_of
  by_cases t : u / 16777216 % 256 < v / 16777216 % 256
  · exact Or.inl t
  refine Or.inr ⟨by omega, ?_⟩
  have h3 : u % 16777216 < v % 16777216 := by omega
  clear t h4
  apply bytesLt_cons_of
  by_cases t : u / 65536 % 256 < v / 65536 % 256
  · exact Or.inl t
  refine Or.inr ⟨by omega, ?_⟩
  have h2 : u % 65536 < v % 65536 := by omega
  clear t h3
  apply bytesLt_cons_of
  by_cases t : u / 256 % 256 < v / 256 % 256
  · exact Or.inl t
  refine Or.inr ⟨by omega, ?_⟩
  have h1 : u % 256 < v % 256 := by omega
  clear t h2
  exact bytesLt_cons_lt _ _ _ _ h1

theorem compress_lt_9 (i j : Nat) (hlo : 72340203156553855 < i) (hij : i < j) (hhi : j < 18446744073709551616) :
    bytesLt (compressBytes i) (compressBytes j) = true := by
  rw [compress_form9 i hlo, compress_form9 j (by omega)]
  obtain ⟨u, rfl⟩ : ∃ u, i = u + 72340203156553856 := ⟨i - 72340203156553856, by omega⟩
  obtain ⟨v, rfl⟩ : ∃ v, j = v + 72340203156553856 := ⟨j - 72340203156553856, by omega⟩
  simp only [Nat.add_sub_cancel]
  have h8 : u % 18446744073709551616 < v % 18446744073709551616 := by omega
  clear hlo hij hhi
  rw [bytesLt_cons_same]
  apply bytesLt_cons_of
  by_cases t : u / 72057594037927936 % 256 < v / 72057594037927936 % 256
  · exact Or.inl t
  refine Or.inr ⟨by omega, ?_⟩
  have h7 : u % 72057594037927936 < v % 72057594037927936 := by omega
  clear t h8
  apply bytesLt_cons_of
  by_cases t : u / 281474976710656 % 256 < v / 281474976710656 % 256
  · exact Or.inl t
  refine Or.inr ⟨by omega, ?_⟩
  have h6 : u % 281474976710656 < v % 281474976710656 := by omega
  clear t h7
  apply bytesLt_cons_of
  by_cases t : u / 1099511627776 % 256 < v / 1099511627776 % 256
  · exact Or.inl t
  refine Or.inr ⟨by omega, ?_⟩
  have h5 : u % 1099511627776 < v % 1099511627776 := by omega
  clear t h6
  apply bytesLt_cons_of
  by_cases t : u / 4294967296 % 256 < v / 4294967296 % 256
  · exact Or.inl t
  refine Or.inr ⟨by omega, ?_⟩
  have h4 : u % 4294967296 < v % 4294967296 := by omega
  clear t h5
  apply bytesLt_cons_of
  by_cases t : u / 16777216 % 256 < v / 16777216 % 256
  · exact Or.inl t
  refine Or.inr ⟨by omega, ?_⟩
  have h3 : u % 16777216 < v % 16777216 := by omega
  clear t h4
  apply bytesLt_cons_of
  by_cases t : u / 65536 % 256 < v / 65536 % 256
  · exact Or.inl t
  refine Or.inr ⟨by omega, ?_⟩
  have h2 : u % 65536 < v % 65536 := by omega
  clear t h3
  apply bytesLt_cons_of
  by_cases t : u / 256 % 256 < v / 256 % 256
  · exact Or.inl t
  refine Or.inr ⟨by omega, ?_⟩
  have h1 : u % 256 < v % 256 := by omega
  clear t h2
  exact bytesLt_cons_lt _ _ _ _ h1

/-- The first byte of an encoding identifies its length class. -/
theorem compress_head (i : Nat) :
    ∃ c rest, compressBytes i = c :: rest ∧ (i ≤ 127 → c = i) ∧
      ((i ≤ 127 ∧ 0 ≤ c ∧ c ≤ 127) ∨
      (127 < i ∧ i ≤ 16511 ∧ 128 ≤ c ∧ c ≤ 191) ∨
      (16511 < i ∧ i ≤ 2113663 ∧ 192 ≤ c ∧ c ≤ 223) ∨
      (2113663 < i ∧ i ≤ 270549119 ∧ 224 ≤ c ∧ c ≤ 239) ∨
      (270549119 < i ∧ i ≤ 34630287487 ∧ 240 ≤ c ∧ c ≤ 247) ∨
      (34630287487 < i ∧ i ≤ 1134141915263 ∧ 248 ≤ c ∧ c ≤ 248) ∨
      (1134141915263 < i ∧ i ≤ 282609118625919 ∧ 249 ≤ c ∧ c ≤ 249) ∨
      (282609118625919 < i ∧ i ≤ 72340203156553855 ∧ 250 ≤ c ∧ c ≤ 250) ∨
      (72340203156553855 < i ∧ 251 ≤ c ∧ c ≤ 251)) := by
  by_cases c1 : i ≤ 127
  · exact ⟨_, _, compress_form1 i c1, fun _ => rfl, by omega⟩
  by_cases c2 : i ≤ 16511
  · exact ⟨_, _, compress_form2 i (by omega) c2, fun h => absurd h (by omega), by omega⟩
  by_cases c3 : i ≤ 2113663
  · exact ⟨_, _, compress_form3 i (by omega) c3, fun h => absurd h (by omega), by omega⟩
  by_cases c4 : i ≤ 270549119
  · exact ⟨_, _, compress_form4 i (by omega) c4, fun h => absurd h (by omega), by omega⟩
  by_cases c5 : i ≤ 34630287487
  · exact ⟨_, _, compress_form5 i (by omega) c5, fun h => absurd h (by omega), by omega⟩
  by_cases c6 : i ≤ 1134141915263
  · exact ⟨_, _, compress_form6 i (by omega) c6, fun h => absurd h (by omega), by omega⟩
  by_cases c7 : i ≤ 282609118625919
  · exact ⟨_, _, compress_form7 i (by omega) c7, fun h => absurd h (by omega), by omega⟩
  by_cases c8 : i ≤ 72340203156553855
  · exact ⟨_, _, compress_form8 i (by omega) c8, fun h => absurd h (by omega), by omega⟩
  exact ⟨_, _, compress_form9 i (by omega), fun h => absurd h (by omega), by omega⟩

/-- The unsigned encoding is strictly increasing for the byte-lexicographic
order. -/
theorem compress_lt (i j : Nat) (hij : i < j) (hj64 : j < 18446744073709551616) :
    bytesLt (compressBytes i) (compressBytes j) = true := by
  obtain ⟨ci, ri, hci, -, hi⟩ := compress_head i
  obtain ⟨cj, rj, hcj, -, hj⟩ := compress_head j
  by_cases hc : ci < cj
  · rw [hci, hcj]; exact bytesLt_cons_lt _ _ _ _ hc
  · rcases hj with hj | hj | hj | hj | hj | hj | hj | hj | hj
    · exact compress_lt_1 i j hij (by omega)
    · exact compress_lt_2 i j (by omega) hij (by omega)
    · exact compress_lt_3 i j (by omega) hij (by omega)
    · exact compress_lt_4 i j (by omega) hij (by omega)
    · exact compress_lt_5 i j (by omega) hij (by omega)
    · exact compress_lt_6 i j (by omega) hij (by omega)
    · exact compress_lt_7 i j (by omega) hij (by omega)
    · exact compress_lt_8 i j (by omega) hij (by omega)
    · exact compress_lt_9 i j (by omega) hij hj64
/-! ### encodeI64 / decodeI64 -/

theorem store_read (buf : Nat → Nat) (off : Nat) (bs : List Nat) (k x : Nat)
    (h : bs.get? k = some x) : store buf off bs (k + off) = x := by
  obtain ⟨hk, hx⟩ := List.get?_eq_some.mp h
  have hlt : k + off < off + bs.length := by omega
  simp only [store, Nat.le_add_left, hlt, and_self, if_true, Nat.add_sub_cancel]
  rw [List.getD_eq_getElem _ _ hk]
  simpa using hx

theorem store_below (buf : Nat → Nat) (off : Nat) (bs : List Nat) (a : Nat) (h : a < off) :
    store buf off bs a = buf a := by
  have : ¬ (off ≤ a ∧ a < off + bs.length) := by omega
  simp only [store, this, if_false]

theorem store_above (buf : Nat → Nat) (off : Nat) (bs : List Nat) (a : Nat)
    (h : off + bs.length ≤ a) : store buf off bs a = buf a := by
  have : ¬ (off ≤ a ∧ a < off + bs.length) := by omega
  simp only [store, this, if_false]

theorem toU64_cast (x : Int) : ((toU64 x : Nat) : Int) = x % 18446744073709551616 := by
  unfold toU64
  norm_num
  exact Int.emod_nonneg _ (by norm_num)

theorem toU64_lt (x : Int) : toU64 x < 18446744073709551616 := by
  have h := toU64_cast x
  have := Int.emod_lt_of_pos x (show (0 : Int) < 18446744073709551616 by norm_num)
  omega

theorem toI64_of_lt (n : Nat) (h : n < 9223372036854775808) : toI64 n = n := by
  have h1 : n % 2 ^ 64 = n := Nat.mod_eq_of_lt (by norm_num; omega)
  unfold toI64
  rw [h1, if_pos (by norm_num; omega)]

theorem toI64_of_ge (n : Nat) (h : 9223372036854775808 ≤ n) (h2 : n < 18446744073709551616) :
    toI64 n = (n : Int) - 18446744073709551616 := by
  have h1 : n % 2 ^ 64 = n := Nat.mod_eq_of_lt (by norm_num; omega)
  unfold toI64
  rw [h1, if_neg (by norm_num; omega)]
  norm_num

/-- C1.  For every signed 64-bit integer `x` and whatever the caller's buffer
held before, `decodeI64` applied to the buffer and the size that
`encodeI64 (buf, x)` produces returns `x`; the boundary values `0`, `-1`,
`INT64_MIN`, `INT64_MAX - 1` and `INT64_MAX` are instances.  The unsigned
encoding is Berkeley DB's variable-length format. -/
theorem decodeI64_encodeI64 (buf : Nat → Nat) (x : Int)
    (hlo : -9223372036854775808 ≤ x) (hhi : x ≤ 9223372036854775807) :
    decodeI64 (encodeI64 buf x).1 (encodeI64 buf x).2 = x := by
  have hmax : INT64_MAX = 9223372036854775807 := by norm_num [INT64_MAX]
  unfold encodeI64
  rw [hmax]
  by_cases h1 : 0 ≤ x ∧ x < 9223372036854775807
  · rw [if_pos h1]
    have hc := toU64_cast (x + 1)
    have hl := toU64_lt (x + 1)
    generalize toU64 (x + 1) = n at hc hl
    have hn1 : (n : Int) = x + 1 := by omega
    simp only [dbsql_compress_int]
    have hdec := decompress_compress (store buf 0 (compressBytes n)) n (by norm_num; exact hl)
      (fun k y h => store_read buf 0 _ k y h)
    obtain ⟨c, rest, hcb, hsmall, hcls⟩ := compress_head n
    have hd0 : store buf 0 (compressBytes n) 0 = c :=
      store_read buf 0 _ 0 c (by rw [hcb]; rfl)
    have hcne : c ≠ 0 := by
      by_cases hs : n ≤ 127
      · have := hsmall hs; omega
      · omega
    unfold decodeI64
    rw [if_neg (by rw [hd0]; exact hcne)]
    simp only [hdec, add_zero, if_true]
    have h3 : (n + 2 ^ 64 - 1) % 2 ^ 64 = n - 1 := by
      norm_num
      omega
    rw [h3, toI64_of_lt _ (by omega)]
    omega
  · rw [if_neg h1]
    by_cases h2 : x = 9223372036854775807
    · rw [if_pos h2]
      subst h2
      have hc : toU64 9223372036854775807 = 9223372036854775807 := by decide
      rw [hc]
      simp only [dbsql_compress_int]
      have hdec := decompress_compress
        (store (Function.update buf 9 1) 0 (compressBytes 9223372036854775807))
        9223372036854775807 (by norm_num) (fun k y h => store_read _ 0 _ k y h)
      have hlen : (compressBytes 9223372036854775807).length = 9 := by decide
      have hd0 : store (Function.update buf 9 1) 0 (compressBytes 9223372036854775807) 0 = 251 :=
        store_read _ 0 _ 0 251 (by decide)
      unfold decodeI64
      rw [if_neg (by rw [hd0]; decide)]
      simp only [hdec, hlen]
      norm_num
      exact toI64_of_lt _ (by norm_num)
    · rw [if_neg h2]
      have hneg : x < 0 := by omega
      have hc := toU64_cast x
      have hl := toU64_lt x
      generalize toU64 x = n at hc hl
      have hn1 : (n : Int) = x + 18446744073709551616 := by omega
      simp only [dbsql_compress_int]
      have hdec := decompress_compress
        (fun k => store (Function.update buf 0 0) 1 (compressBytes n) (k + 1)) n
        (by norm_num; exact hl) (fun k y h => store_read _ 1 _ k y h)
      have hd0 : store (Function.update buf 0 0) 1 (compressBytes n) 0 = 0 := by
        rw [store_below _ _ _ _ (by omega)]
        simp
      unfold decodeI64
      rw [if_pos hd0]
      simp only [hdec]
      rw [toI64_of_ge _ (by omega) hl]
      omega

/-- C1, witness: the round trip at `INT64_MIN`. -/
theorem decodeI64_encodeI64_witness :
    (-9223372036854775808 : Int) ≤ -9223372036854775808 ∧
    (-9223372036854775808 : Int) ≤ 9223372036854775807 ∧
    decodeI64 (encodeI64 (fun _ => 0) (-9223372036854775808)).1
      (encodeI64 (fun _ => 0) (-9223372036854775808)).2 = -9223372036854775808 :=
  ⟨by decide, by decide, decodeI64_encodeI64 (fun _ => 0) (-9223372036854775808)
    (by decide) (by decide)⟩

theorem map_range_eq (f : Nat → Nat) (bs : List Nat)
    (h : ∀ k x, bs.get? k = some x → f k = x) : (List.range bs.length).map f = bs := by
  apply List.ext_getElem
  · simp
  · intro k h1 h2
    simp only [List.getElem_map, List.getElem_range]
    exact h k _ (by simp [h2])

theorem bytesOf_eq (f : Nat → Nat) (n : Int) (bs : List Nat) (hn : n = (bs.length : Int))
    (h : ∀ k x, bs.get? k = some x → f k = x) : bytesOf f n = bs := by
  subst hn
  unfold bytesOf
  rw [Int.toNat_ofNat]
  exact map_range_eq f bs h

theorem encoded_nonneg (buf : Nat → Nat) (x : Int) (h0 : 0 ≤ x) (h1 : x < 9223372036854775807) :
    bytesOf (encodeI64 buf x).1 (encodeI64 buf x).2 = compressBytes (toU64 (x + 1)) := by
  have hmax : INT64_MAX = 9223372036854775807 := by norm_num [INT64_MAX]
  unfold encodeI64
  rw [hmax, if_pos ⟨h0, h1⟩]
  simp only [dbsql_compress_int]
  exact bytesOf_eq _ _ _ (by simp) (fun k y h => store_read buf 0 _ k y h)

theorem compress_max : compressBytes 9223372036854775807
    = [251, 126, 254, 254, 247, 239, 223, 191, 127] := by decide

theorem encoded_max (buf : Nat → Nat) :
    bytesOf (encodeI64 buf 9223372036854775807).1 (encodeI64 buf 9223372036854775807).2
      = compressBytes 9223372036854775807 ++ [1] := by
  have hmax : INT64_MAX = 9223372036854775807 := by norm_num [INT64_MAX]
  have hc : toU64 9223372036854775807 = 9223372036854775807 := by decide
  unfold encodeI64
  rw [hmax, if_neg (by decide), if_pos rfl, hc]
  simp only [dbsql_compress_int]
  refine bytesOf_eq _ _ _ (by simp) ?_
  intro k y h
  by_cases hk : k < 9
  · have h2 : (compressBytes 9223372036854775807).get? k = some y := by
      rw [List.get?_eq_getElem?] at h ⊢
      rw [List.getElem?_append_left (by rw [compress_max]; simpa using hk)] at h
      exact h
    exact store_read _ 0 _ k y h2
  · have hlen : (compressBytes 9223372036854775807).length = 9 := by rw [compress_max]; rfl
    have hk9 : k = 9 := by
      obtain ⟨hk2, -⟩ := List.get?_eq_some.mp h
      simp [hlen] at hk2
      omega
    subst hk9
    rw [store_above _ _ _ _ (by omega)]
    rw [compress_max] at h
    simp at h
    simp [h]

theorem encoded_neg (buf : Nat → Nat) (x : Int) (h0 : x < 0) :
    bytesOf (encodeI64 buf x).1 (encodeI64 buf x).2 = 0 :: compressBytes (toU64 x) := by
  have hmax : INT64_MAX = 9223372036854775807 := by norm_num [INT64_MAX]
  unfold encodeI64
  rw [hmax, if_neg (by omega), if_neg (by omega)]
  simp only [dbsql_compress_int]
  refine bytesOf_eq _ _ _ (by simp) ?_
  intro k y h
  cases k with
  | zero =>
    rw [store_below _ _ _ _ (by omega)]
    simp at h
    simp [h]
  | succ k =>
    exact store_read _ 1 _ k y (by simpa using h)

/-- The bytes `encodeI64` produces are ordered as the integers are. -/
theorem encodeI64_bytesLt (bx bz : Nat → Nat) (x y : Int)
    (hlo : -9223372036854775808 ≤ x) (hxy : x < y) (hhi : y ≤ 9223372036854775807) :
    bytesLt (bytesOf (encodeI64 bx x).1 (encodeI64 bx x).2)
      (bytesOf (encodeI64 bz y).1 (encodeI64 bz y).2) = true := by
  by_cases hx : x < 0
  · rw [encoded_neg bx x hx]
    by_cases hy : y < 0
    · rw [encoded_neg bz y hy, bytesLt_cons_same]
      have h1 := toU64_cast x
      have h2 := toU64_cast y
      exact compress_lt _ _ (by omega) (toU64_lt y)
    · by_cases hy2 : y = 9223372036854775807
      · subst hy2
        rw [encoded_max, compress_max]
        exact bytesLt_cons_lt _ _ _ _ (by decide)
      · rw [encoded_nonneg bz y (by omega) (by omega)]
        obtain ⟨c, rest, hcb, hsmall, hcls⟩ := compress_head (toU64 (y + 1))
        have h2 := toU64_cast (y + 1)
        rw [hcb]
        refine bytesLt_cons_lt _ _ _ _ ?_
        by_cases hs : toU64 (y + 1) ≤ 127
        · have := hsmall hs; omega
        · omega
  · rw [encoded_nonneg bx x (by omega) (by omega)]
    have h1 := toU64_cast (x + 1)
    by_cases hy2 : y = 9223372036854775807
    · subst hy2
      rw [encoded_max]
      by_cases hx2 : x = 9223372036854775806
      · subst hx2
        have hc : toU64 (9223372036854775806 + 1) = 9223372036854775807 := by decide
        rw [hc]
        exact bytesLt_self_append _ _ _
      · exact bytesLt_append_right _ _ _ (compress_lt _ _ (by omega) (by norm_num))
    · rw [encoded_nonneg bz y (by omega) (by omega)]
      have h2 := toU64_cast (y + 1)
      exact compress_lt _ _ (by omega) (toU64_lt _)


/-- C2.  For signed 64-bit integers `x < y`, the bytes `encodeI64` produces for
`x` are strictly smaller than those it produces for `y` under plain
byte-lexicographic comparison (a proper prefix sorting first), whatever the
two buffers held before.  Negative against non-negative values and the pair
`INT64_MAX - 1`, `INT64_MAX` are instances. -/
theorem encodeI64_lt (bx bz : Nat → Nat) (x y : Int)
    (hlo : -9223372036854775808 ≤ x) (hxy : x < y) (hhi : y ≤ 9223372036854775807) :
    bytesLt (bytesOf (encodeI64 bx x).1 (encodeI64 bx x).2)
      (bytesOf (encodeI64 bz y).1 (encodeI64 bz y).2) = true :=
  encodeI64_bytesLt bx bz x y hlo hxy hhi

/-- C2, witness: `INT64_MAX - 1` against `INT64_MAX`. -/
theorem encodeI64_lt_witness :
    (-9223372036854775808 : Int) ≤ 9223372036854775806 ∧
    (9223372036854775806 : Int) < 9223372036854775807 ∧
    (9223372036854775807 : Int) ≤ 9223372036854775807 ∧
    bytesLt
      (bytesOf (encodeI64 (fun _ => 0) 9223372036854775806).1
        (encodeI64 (fun _ => 0) 9223372036854775806).2)
      (bytesOf (encodeI64 (fun _ => 0) 9223372036854775807).1
        (encodeI64 (fun _ => 0) 9223372036854775807).2) = true :=
  ⟨by decide, by decide, by decide,
    encodeI64_lt (fun _ => 0) (fun _ => 0) 9223372036854775806 9223372036854775807
      (by decide) (by decide) (by decide)⟩

/-! ## Frame lemmas for the heap updates -/

@[simp] theorem setBtree_faults (w : World) (p : Nat) (b : Btree) :
    (w.setBtree p b).faults = w.faults := rfl

@[simp] theorem setBtree_events (w : World) (p : Nat) (b : Btree) :
    (w.setBtree p b).events = w.events := rfl

@[simp] theorem setBtree_handles (w : World) (p : Nat) (b : Btree) :
    (w.setBtree p b).handles = w.handles := rfl

@[simp] theorem setBtree_txns (w : World) (p : Nat) (b : Btree) :
    (w.setBtree p b).txns = w.txns := rfl

@[simp] theorem setBtree_dbhs (w : World) (p : Nat) (b : Btree) :
    (w.setBtree p b).dbhs = w.dbhs := rfl

@[simp] theorem setBtree_dbcs (w : World) (p : Nat) (b : Btree) :
    (w.setBtree p b).dbcs = w.dbcs := rfl

@[simp] theorem setBtree_tables (w : World) (p : Nat) (b : Btree) :
    (w.setBtree p b).tables = w.tables := rfl

@[simp] theorem setBtree_catalog (w : World) (p : Nat) (b : Btree) :
    (w.setBtree p b).catalog = w.catalog := rfl

@[simp] theorem setBtree_recordLt (w : World) (p : Nat) (b : Btree) :
    (w.setBtree p b).recordLt = w.recordLt := rfl

@[simp] theorem setBtree_multiBufsize (w : World) (p : Nat) (b : Btree) :
    (w.setBtree p b).multiBufsize = w.multiBufsize := rfl

@[simp] theorem setBtree_btrees_same (w : World) (p : Nat) (b : Btree) :
    (w.setBtree p b).btrees p = b := by
  simp [World.setBtree]

@[simp] theorem setBtree_btrees_other (w : World) (p : Nat) (b : Btree) (q : Nat) (hq : q ≠ p) :
    (w.setBtree p b).btrees q = w.btrees q := by
  simp [World.setBtree, Function.update_noteq hq]

@[simp] theorem setBtree_shared (w : World) (p : Nat) (b : Btree) :
    (w.setBtree p b).shared = w.shared := rfl

@[simp] theorem setBtree_cursors (w : World) (p : Nat) (b : Btree) :
    (w.setBtree p b).cursors = w.cursors := rfl

@[simp] theorem setBtree_addrs (w : World) (p : Nat) (b : Btree) :
    (w.setBtree p b).addrs = w.addrs := rfl

@[simp] theorem setBtree_g_shared_btrees (w : World) (p : Nat) (b : Btree) :
    (w.setBtree p b).g_shared_btrees = w.g_shared_btrees := rfl

@[simp] theorem setBtree_g_tmp_env (w : World) (p : Nat) (b : Btree) :
    (w.setBtree p b).g_tmp_env = w.g_tmp_env := rfl

@[simp] theorem setBtree_g_uid_next (w : World) (p : Nat) (b : Btree) :
    (w.setBtree p b).g_uid_next = w.g_uid_next := rfl

@[simp] theorem setShared_faults (w : World) (a : Nat) (s : BtShared) :
    (w.setShared a s).faults = w.faults := rfl

@[simp] theorem setShared_events (w : World) (a : Nat) (s : BtShared) :
    (w.setShared a s).events = w.events := rfl

@[simp] theorem setShared_handles (w : World) (a : Nat) (s : BtShared) :
    (w.setShared a s).handles = w.handles := rfl

@[simp] theorem setShared_txns (w : World) (a : Nat) (s : BtShared) :
    (w.setShared a s).txns = w.txns := rfl

@[simp] theorem setShared_dbhs (w : World) (a : Nat) (s : BtShared) :
    (w.setShared a s).dbhs = w.dbhs := rfl

@[simp] theorem setShared_dbcs (w : World) (a : Nat) (s : BtShared) :
    (w.setShared a s).dbcs = w.dbcs := rfl

@[simp] theorem setShared_tables (w : World) (a : Nat) (s : BtShared) :
    (w.setShared a s).tables = w.tables := rfl

@[simp] theorem setShared_catalog (w : World) (a : Nat) (s : BtShared) :
    (w.setShared a s).catalog = w.catalog := rfl

@[simp] theorem setShared_recordLt (w : World) (a : Nat) (s : BtShared) :
    (w.setShared a s).recordLt = w.recordLt := rfl

@[simp] theorem setShared_multiBufsize (w : World) (a : Nat) (s : BtShared) :
    (w.setShared a s).multiBufsize = w.multiBufsize := rfl

@[simp] theorem setShared_ctx (w : World) (a : Nat) (s : BtShared) :
    (w.setShared a s).ctx = w.ctx := rfl

@[simp] theorem setShared_btrees (w : World) (a : Nat) (s : BtShared) :
    (w.setShared a s).btrees = w.btrees := rfl

@[simp] theorem setShared_shared_same (w : World) (a : Nat) (s : BtShared) :
    (w.setShared a s).shared a = s := by
  simp [World.setShared]

@[simp] theorem setShared_shared_other (w : World) (a : Nat) (s : BtShared) (q : Nat) (hq : q ≠ a) :
    (w.setShared a s).shared q = w.shared q := by
  simp [World.setShared, Function.update_noteq hq]

@[simp] theorem setShared_cursors (w : World) (a : Nat) (s : BtShared) :
    (w.setShared a s).cursors = w.cursors := rfl

@[simp] theorem setShared_addrs (w : World) (a : Nat) (s : BtShared) :
    (w.setShared a s).addrs = w.addrs := rfl

@[simp] theorem setShared_g_shared_btrees (w : World) (a : Nat) (s : BtShared) :
    (w.setShared a s).g_shared_btrees = w.g_shared_btrees := rfl

@[simp] theorem setShared_g_tmp_env (w : World) (a : Nat) (s : BtShared) :
    (w.setShared a s).g_tmp_env = w.g_tmp_env := rfl

@[simp] theorem setShared_g_uid_next (w : World) (a : Nat) (s : BtShared) :
    (w.setShared a s).g_uid_next = w.g_uid_next := rfl

@[simp] theorem setCursor_faults (w : World) (c : Nat) (cur : BtCursor) :
    (w.setCursor c cur).faults = w.faults := rfl

@[simp] theorem setCursor_events (w : World) (c : Nat) (cur : BtCursor) :
    (w.setCursor c cur).events = w.events := rfl

@[simp] theorem setCursor_handles (w : World) (c : Nat) (cur : BtCursor) :
    (w.setCursor c cur).handles = w.handles := rfl

@[simp] theorem setCursor_txns (w : World) (c : Nat) (cur : BtCursor) :
    (w.setCursor c cur).txns = w.txns := rfl

@[simp] theorem setCursor_dbhs (w : World) (c : Nat) (cur : BtCursor) :
    (w.setCursor c cur).dbhs = w.dbhs := rfl

@[simp] theorem setCursor_dbcs (w : World) (c : Nat) (cur : BtCursor) :
    (w.setCursor c cur).dbcs = w.dbcs := rfl

@[simp] theorem setCursor_tables (w : World) (c : Nat) (cur : BtCursor) :
    (w.setCursor c cur).tables = w.tables := rfl

@[simp] theorem setCursor_catalog (w : World) (c : Nat) (cur : BtCursor) :
    (w.setCursor c cur).catalog = w.catalog := rfl

@[simp] theorem setCursor_recordLt (w : World) (c : Nat) (cur : BtCursor) :
    (w.setCursor c cur).recordLt = w.recordLt := rfl

@[simp] theorem setCursor_multiBufsize (w : World) (c : Nat) (cur : BtCursor) :
    (w.setCursor c cur).multiBufsize = w.multiBufsize := rfl

@[simp] theorem setCursor_ctx (w : World) (c : Nat) (cur : BtCursor) :
    (w.setCursor c cur).ctx = w.ctx := rfl

@[simp] theorem setCursor_btrees (w : World) (c : Nat) (cur : BtCursor) :
    (w.setCursor c cur).btrees = w.btrees := rfl

@[simp] theorem setCursor_shared (w : World) (c : Nat) (cur : BtCursor) :
    (w.setCursor c cur).shared = w.shared := rfl

@[simp] theorem setCursor_cursors_same (w : World) (c : Nat) (cur : BtCursor) :
    (w.setCursor c cur).cursors c = cur := by
  simp [World.setCursor]

@[simp] theorem setCursor_cursors_other (w : World) (c : Nat) (cur : BtCursor) (q : Nat) (hq : q ≠ c) :
    (w.setCursor c cur).cursors q = w.cursors q := by
  simp [World.setCursor, Function.update_noteq hq]

@[simp] theorem setCursor_addrs (w : World) (c : Nat) (cur : BtCursor) :
    (w.setCursor c cur).addrs = w.addrs := rfl

@[simp] theorem setCursor_g_shared_btrees (w : World) (c : Nat) (cur : BtCursor) :
    (w.setCursor c cur).g_shared_btrees = w.g_shared_btrees := rfl

@[simp] theorem setCursor_g_tmp_env (w : World) (c : Nat) (cur : BtCursor) :
    (w.setCursor c cur).g_tmp_env = w.g_tmp_env := rfl

@[simp] theorem setCursor_g_uid_next (w : World) (c : Nat) (cur : BtCursor) :
    (w.setCursor c cur).g_uid_next = w.g_uid_next := rfl

@[simp] theorem setDbc_faults (w : World) (c : Nat) (d : DBC) :
    (w.setDbc c d).faults = w.faults := rfl

@[simp] theorem setDbc_events (w : World) (c : Nat) (d : DBC) :
    (w.setDbc c d).events = w.events := rfl

@[simp] theorem setDbc_handles (w : World) (c : Nat) (d : DBC) :
    (w.setDbc c d).handles = w.handles := rfl

@[simp] theorem setDbc_txns (w : World) (c : Nat) (d : DBC) :
    (w.setDbc c d).txns = w.txns := rfl

@[simp] theorem setDbc_dbhs (w : World) (c : Nat) (d : DBC) :
    (w.setDbc c d).dbhs = w.dbhs := rfl

@[simp] theorem setDbc_dbcs_same (w : World) (c : Nat) (d : DBC) :
    (w.setDbc c d).dbcs c = d := by
  simp [World.setDbc]

@[simp] theorem setDbc_dbcs_other (w : World) (c : Nat) (d : DBC) (q : Nat) (hq : q ≠ c) :
    (w.setDbc c d).dbcs q = w.dbcs q := by
  simp [World.setDbc, Function.update_noteq hq]

@[simp] theorem setDbc_tables (w : World) (c : Nat) (d : DBC) :
    (w.setDbc c d).tables = w.tables := rfl

@[simp] theorem setDbc_catalog (w : World) (c : Nat) (d : DBC) :
    (w.setDbc c d).catalog = w.catalog := rfl

@[simp] theorem setDbc_recordLt (w : World) (c : Nat) (d : DBC) :
    (w.setDbc c d).recordLt = w.recordLt := rfl

@[simp] theorem setDbc_multiBufsize (w : World) (c : Nat) (d : DBC) :
    (w.setDbc c d).multiBufsize = w.multiBufsize := rfl

@[simp] theorem setDbc_ctx (w : World) (c : Nat) (d : DBC) :
    (w.setDbc c d).ctx = w.ctx := rfl

@[simp] theorem setDbc_btrees (w : World) (c : Nat) (d : DBC) :
    (w.setDbc c d).btrees = w.btrees := rfl

@[simp] theorem setDbc_shared (w : World) (c : Nat) (d : DBC) :
    (w.setDbc c d).shared = w.shared := rfl

@[simp] theorem setDbc_cursors (w : World) (c : Nat) (d : DBC) :
    (w.setDbc c d).cursors = w.cursors := rfl

@[simp] theorem setDbc_addrs (w : World) (c : Nat) (d : DBC) :
    (w.setDbc c d).addrs = w.addrs := rfl

@[simp] theorem setDbc_g_shared_btrees (w : World) (c : Nat) (d : DBC) :
    (w.setDbc c d).g_shared_btrees = w.g_shared_btrees := rfl

@[simp] theorem setDbc_g_tmp_env (w : World) (c : Nat) (d : DBC) :
    (w.setDbc c d).g_tmp_env = w.g_tmp_env := rfl

@[simp] theorem setDbc_g_uid_next (w : World) (c : Nat) (d : DBC) :
    (w.setDbc c d).g_uid_next = w.g_uid_next := rfl

@[simp] theorem setDbh_faults (w : World) (h : Nat) (d : DB) :
    (w.setDbh h d).faults = w.faults := rfl

@[simp] theorem setDbh_events (w : World) (h : Nat) (d : DB) :
    (w.setDbh h d).events = w.events := rfl

@[simp] theorem setDbh_handles (w : World) (h : Nat) (d : DB) :
    (w.setDbh h d).handles = w.handles := rfl

@[simp] theorem setDbh_txns (w : World) (h : Nat) (d : DB) :
    (w.setDbh h d).txns = w.txns := rfl

@[simp] theorem setDbh_dbhs_same (w : World) (h : Nat) (d : DB) :
    (w.setDbh h d).dbhs h = d := by
  simp [World.setDbh]

@[simp] theorem setDbh_dbhs_other (w : World) (h : Nat) (d : DB) (q : Nat) (hq : q ≠ h) :
    (w.setDbh h d).dbhs q = w.dbhs q := by
  simp [World.setDbh, Function.update_noteq hq]

@[simp] theorem setDbh_dbcs (w : World) (h : Nat) (d : DB) :
    (w.setDbh h d).dbcs = w.dbcs := rfl

@[simp] theorem setDbh_tables (w : World) (h : Nat) (d : DB) :
    (w.setDbh h d).tables = w.tables := rfl

@[simp] theorem setDbh_catalog (w : World) (h : Nat) (d : DB) :
    (w.setDbh h d).catalog = w.catalog := rfl

@[simp] theorem setDbh_recordLt (w : World) (h : Nat) (d : DB) :
    (w.setDbh h d).recordLt = w.recordLt := rfl

@[simp] theorem setDbh_multiBufsize (w : World) (h : Nat) (d : DB) :
    (w.setDbh h d).multiBufsize = w.multiBufsize := rfl

@[simp] theorem setDbh_ctx (w : World) (h : Nat) (d : DB) :
    (w.setDbh h d).ctx = w.ctx := rfl

@[simp] theorem setDbh_btrees (w : World) (h : Nat) (d : DB) :
    (w.setDbh h d).btrees = w.btrees := rfl

@[simp] theorem setDbh_shared (w : World) (h : Nat) (d : DB) :
    (w.setDbh h d).shared = w.shared := rfl

@[simp] theorem setDbh_cursors (w : World) (h : Nat) (d : DB) :
    (w.setDbh h d).cursors = w.cursors := rfl

@[simp] theorem setDbh_addrs (w : World) (h : Nat) (d : DB) :
    (w.setDbh h d).addrs = w.addrs := rfl

@[simp] theorem setDbh_g_shared_btrees (w : World) (h : Nat) (d : DB) :
    (w.setDbh h d).g_shared_btrees = w.g_shared_btrees := rfl

@[simp] theorem setDbh_g_tmp_env (w : World) (h : Nat) (d : DB) :
    (w.setDbh h d).g_tmp_env = w.g_tmp_env := rfl

@[simp] theorem setDbh_g_uid_next (w : World) (h : Nat) (d : DB) :
    (w.setDbh h d).g_uid_next = w.g_uid_next := rfl

/-! ## Transactions -/

theorem dberr2sqlite_ok (e : Int) : dberr2sqlite e = SQLITE_OK ↔ e = 0 := by
  unfold dberr2sqlite
  constructor
  · intro h
    by_contra h0
    rw [if_neg h0] at h
    repeat' split at h
    all_goals revert h; decide
  · intro h; rw [if_pos h]

theorem wrap32_of_range (x : Int) (hlo : -2147483648 ≤ x) (hhi : x < 2147483648) :
    wrap32 x = x := by
  unfold wrap32
  norm_num
  omega

theorem txn_begin_ok (w : World) (parent : Option Nat) (family : Bool)
    (h : (txn_begin w parent family).1 = 0) :
    (txn_begin w parent family).2.1 = some w.handles ∧
    (txn_begin w parent family).2.2.btrees = w.btrees ∧
    (txn_begin w parent family).2.2.shared = w.shared ∧
    (txn_begin w parent family).2.2.events = w.events ++ [Event.txn_begin w.handles parent] := by
  unfold txn_begin at h ⊢
  unfold World.engine at h ⊢
  cases hf : w.faults with
  | nil => simp [hf]
  | cons f fs =>
    rw [hf] at h
    by_cases h0 : f = 0
    · simp [hf, h0]
    · simp [h0] at h

theorem beginStmt_loop_ok (p : Nat) (n : Int) (hn : n + 1 < 2147483648) :
    ∀ (fuel : Nat) (w : World), (n + 1 - (w.btrees p).nSavepoint).toNat ≤ fuel →
      -2147483648 ≤ (w.btrees p).nSavepoint →
      (beginStmt_loop p n fuel w).1 = SQLITE_OK →
      ((beginStmt_loop p n fuel w).2.btrees p).nSavepoint = max (w.btrees p).nSavepoint (n + 1) ∧
      ((beginStmt_loop p n fuel w).2.btrees p).read_txn = (w.btrees p).read_txn ∧
      ((beginStmt_loop p n fuel w).2.btrees p).family_txn = (w.btrees p).family_txn ∧
      ∃ begun : List Event,
        (beginStmt_loop p n fuel w).2.events = w.events ++ begun ∧
        (∀ e ∈ begun, e.isTxnBegin = true) ∧
        (begun.length : Int) = max (w.btrees p).nSavepoint (n + 1) - (w.btrees p).nSavepoint := by
  intro fuel
  induction fuel with
  | zero =>
    intro w hf _ _
    have h1 : n + 1 ≤ (w.btrees p).nSavepoint := by omega
    refine ⟨by simp [beginStmt_loop, max_eq_left h1], rfl, rfl, [], by simp [beginStmt_loop], ?_, ?_⟩
    · intro e he; simp at he
    · simp [max_eq_left h1]
  | succ k ih =>
    intro w hf hlo hok
    unfold beginStmt_loop at hok ⊢
    by_cases hc : (w.btrees p).nSavepoint ≤ n
    · simp only [hc, if_true] at hok ⊢
      by_cases hb : (txn_begin w (w.btrees p).savepoint_txn false).1 = 0
      · obtain ⟨_, hbt, _, hev⟩ := txn_begin_ok w _ _ hb
        simp only [hb, ne_eq, not_true_eq_false, if_false] at hok ⊢
        generalize (txn_begin w (w.btrees p).savepoint_txn false).2.2 = w1 at hok hbt hev ⊢
        generalize (txn_begin w (w.btrees p).savepoint_txn false).2.1 = t1 at hok ⊢
        rw [hbt] at hok ⊢
        rw [wrap32_of_range ((w.btrees p).nSavepoint + 1) (by omega) (by omega)] at hok ⊢
        have hnext := ih _ (by
          rw [setBtree_btrees_same]
          show (n + 1 - ((w.btrees p).nSavepoint + 1)).toNat ≤ k
          omega) (by
          rw [setBtree_btrees_same]
          show -2147483648 ≤ (w.btrees p).nSavepoint + 1
          omega) hok
        rw [setBtree_btrees_same, setBtree_events, hev] at hnext
        obtain ⟨h1, h2, h3, begun, h4, h5, h6⟩ := hnext
        replace h1 : _ = max ((w.btrees p).nSavepoint + 1) (n + 1) := h1
        replace h6 : _ = max ((w.btrees p).nSavepoint + 1) (n + 1) - ((w.btrees p).nSavepoint + 1) := h6
        refine ⟨?_, h2, h3, Event.txn_begin w.handles (w.btrees p).savepoint_txn :: begun,
          ?_, ?_, ?_⟩
        · rw [h1]; omega
        · rw [h4]; simp
        · intro e he
          rcases List.mem_cons.mp he with rfl | he
          · rfl
          · exact h5 e he
        · rw [List.length_cons]
          push_cast
          rw [h6]
          omega
      · simp only [hb, ne_eq, not_false_eq_true, if_true] at hok
        exact absurd ((dberr2sqlite_ok _).mp hok) hb
    · rw [if_neg hc]
      have h1 : n + 1 ≤ (w.btrees p).nSavepoint := by omega
      refine ⟨by simp [max_eq_left h1], rfl, rfl, [], by simp, ?_, ?_⟩
      · intro e he; simp at he
      · simp [max_eq_left h1]

/-- C10, counterexample: on a transactional connection whose read transaction
is open and whose nesting depth `nSavepoint` is 1, a successful
`sqlite3BtreeBeginStmt (p, 1)` begins one more nested transaction and leaves
`nSavepoint = 2`, where the claim gives `max (1, 1) = 1` and no transaction
begun. -/
theorem sqlite3BtreeBeginStmt_not_max :
    (World.stmt1.bt 1).transactional = true ∧
    (World.stmt1.btrees 1).read_txn = some 2 ∧
    (World.stmt1.btrees 1).nSavepoint = 1 ∧
    (sqlite3BtreeBeginStmt World.stmt1 1 1).1 = SQLITE_OK ∧
    ((sqlite3BtreeBeginStmt World.stmt1 1 1).2.btrees 1).nSavepoint = 2 ∧
    ((sqlite3BtreeBeginStmt World.stmt1 1 1).2.btrees 1).nSavepoint
      ≠ max (World.stmt1.btrees 1).nSavepoint 1 ∧
    (sqlite3BtreeBeginStmt World.stmt1 1 1).2.events
      = World.stmt1.events ++ [Event.txn_begin 4 (some 3)] := by
  refine ⟨rfl, rfl, rfl, rfl, rfl, by decide, rfl⟩

/-- C10, amended: on a transactional connection, with `n + 1` and the previous
`nSavepoint` in the range of `int`, a successful
`sqlite3BtreeBeginStmt (p, n)` leaves `nSavepoint = max (previous nSavepoint, n + 1)`;
the engine calls it makes are `txn_begin` calls only, one for the read
transaction when none was open and `max (0, n + 1 - previous nSavepoint)` for
nested transactions; the read and family references are otherwise kept. -/
theorem sqlite3BtreeBeginStmt_depth (w : World) (p : Nat) (n : Int)
    (htx : (w.bt p).transactional = true)
    (hlo : -2147483648 ≤ (w.btrees p).nSavepoint) (hn : n + 1 < 2147483648)
    (hok : (sqlite3BtreeBeginStmt w p n).1 = SQLITE_OK) :
    ((sqlite3BtreeBeginStmt w p n).2.btrees p).nSavepoint
      = max (w.btrees p).nSavepoint (n + 1) ∧
    ((sqlite3BtreeBeginStmt w p n).2.btrees p).family_txn = (w.btrees p).family_txn ∧
    ((w.btrees p).read_txn ≠ none →
      ((sqlite3BtreeBeginStmt w p n).2.btrees p).read_txn = (w.btrees p).read_txn) ∧
    ∃ begun : List Event,
      (sqlite3BtreeBeginStmt w p n).2.events = w.events ++ begun ∧
      (∀ e ∈ begun, e.isTxnBegin = true) ∧
      (begun.length : Int)
        = (if (w.btrees p).read_txn = none then 1 else 0)
          + (max (w.btrees p).nSavepoint (n + 1) - (w.btrees p).nSavepoint) := by
  unfold sqlite3BtreeBeginStmt at hok ⊢
  rw [if_pos htx] at hok ⊢
  by_cases hr : (w.btrees p).read_txn = none
  · simp only [hr, if_true] at hok ⊢
    by_cases hb : (txn_begin w (w.btrees p).family_txn false).1 = 0
    · obtain ⟨_, hbt, _, hev⟩ := txn_begin_ok w _ _ hb
      simp only [hb, ne_eq, not_true_eq_false, if_false] at hok ⊢
      generalize (txn_begin w (w.btrees p).family_txn false).2.2 = w1 at hok hbt hev ⊢
      generalize (txn_begin w (w.btrees p).family_txn false).2.1 = t1 at hok ⊢
      rw [hbt] at hok ⊢
      rw [setBtree_btrees_same] at hok ⊢
      have hl := beginStmt_loop_ok p n hn _ _ (by
        rw [setBtree_btrees_same]) (by
        rw [setBtree_btrees_same]; exact hlo) hok
      rw [setBtree_btrees_same, setBtree_events, hev] at hl
      obtain ⟨h1, _, h3, begun, h4, h5, h6⟩ := hl
      refine ⟨h1, h3, fun hne => False.elim hne,
        Event.txn_begin w.handles (w.btrees p).family_txn :: begun, ?_, ?_, ?_⟩
      · rw [h4]; simp
      · intro e he
        rcases List.mem_cons.mp he with rfl | he
        · rfl
        · exact h5 e he
      · rw [List.length_cons]
        push_cast
        rw [h6]
        show _ = 1 + (max (w.btrees p).nSavepoint (n + 1) - (w.btrees p).nSavepoint)
        ring
    · simp only [hb, ne_eq, not_false_eq_true, if_true] at hok
      exact absurd ((dberr2sqlite_ok _).mp hok) hb
  · simp only [hr, if_false, ne_eq, not_true_eq_false] at hok ⊢
    have hl := beginStmt_loop_ok p n hn _ _ (le_refl _) hlo hok
    obtain ⟨h1, h2, h3, begun, h4, h5, h6⟩ := hl
    exact ⟨h1, h3, fun _ => h2, begun, h4, h5, by rw [h6]; ring⟩

/-- C10, witness: `sqlite3BtreeBeginStmt (p, 2)` on the connection of
`World.connected1`, which has no read transaction and `nSavepoint = 0`. -/
theorem sqlite3BtreeBeginStmt_depth_witness :
    ((sqlite3BtreeBeginStmt World.connected1 1 2).2.btrees 1).nSavepoint
      = max (World.connected1.btrees 1).nSavepoint (2 + 1) ∧
    ((sqlite3BtreeBeginStmt World.connected1 1 2).2.btrees 1).family_txn
      = (World.connected1.btrees 1).family_txn ∧
    ((World.connected1.btrees 1).read_txn ≠ none →
      ((sqlite3BtreeBeginStmt World.connected1 1 2).2.btrees 1).read_txn
        = (World.connected1.btrees 1).read_txn) ∧
    ∃ begun : List Event,
      (sqlite3BtreeBeginStmt World.connected1 1 2).2.events = World.connected1.events ++ begun ∧
      (∀ e ∈ begun, e.isTxnBegin = true) ∧
      (begun.length : Int)
        = (if (World.connected1.btrees 1).read_txn = none then 1 else 0)
          + (max (World.connected1.btrees 1).nSavepoint (2 + 1)
              - (World.connected1.btrees 1).nSavepoint) :=
  sqlite3BtreeBeginStmt_depth World.connected1 1 2 rfl (by decide) (by decide) rfl

/-! ## What closing cursors and handles leaves alone -/

@[simp] theorem engine_btrees (w : World) (s : Int) : (w.engine s).2.btrees = w.btrees := by
  unfold World.engine; split <;> rfl

@[simp] theorem engine_events (w : World) (s : Int) : (w.engine s).2.events = w.events := by
  unfold World.engine; split <;> rfl

@[simp] theorem engine_txns (w : World) (s : Int) : (w.engine s).2.txns = w.txns := by
  unfold World.engine; split <;> rfl

@[simp] theorem engine_shared (w : World) (s : Int) : (w.engine s).2.shared = w.shared := by
  unfold World.engine; split <;> rfl

@[simp] theorem engine_registry (w : World) (s : Int) :
    (w.engine s).2.g_shared_btrees = w.g_shared_btrees := by
  unfold World.engine; split <;> rfl

@[simp] theorem engine_cursors (w : World) (s : Int) : (w.engine s).2.cursors = w.cursors := by
  unfold World.engine; split <;> rfl

@[simp] theorem engine_dbcs (w : World) (s : Int) : (w.engine s).2.dbcs = w.dbcs := by
  unfold World.engine; split <;> rfl

@[simp] theorem engine_dbhs (w : World) (s : Int) : (w.engine s).2.dbhs = w.dbhs := by
  unfold World.engine; split <;> rfl

@[simp] theorem engine_tables (w : World) (s : Int) : (w.engine s).2.tables = w.tables := by
  unfold World.engine; split <;> rfl

@[simp] theorem engine_recordLt (w : World) (s : Int) :
    (w.engine s).2.recordLt = w.recordLt := by
  unfold World.engine; split <;> rfl

@[simp] theorem engine_handles (w : World) (s : Int) : (w.engine s).2.handles = w.handles := by
  unfold World.engine; split <;> rfl

theorem dberr2sqlitelocked_ok (e : Int) : dberr2sqlitelocked e = SQLITE_OK ↔ e = 0 := by
  unfold dberr2sqlitelocked
  simp only []
  constructor
  · intro h
    split at h
    · exact absurd h (by decide)
    · exact (dberr2sqlite_ok e).mp h
  · intro h
    subst h
    decide

theorem dbc_close_txnView (w : World) (d p : Nat) :
    (dbc_close w d).2.txnView p = w.txnView p := by
  simp [dbc_close, World.txnView, Event.isTxnEnd, List.filter_append]

theorem db_close_txnView (w : World) (h p : Nat) :
    (db_close w h).2.txnView p = w.txnView p := by
  simp [db_close, World.txnView, Event.isTxnEnd, List.filter_append]

theorem setCursor_txnView (w : World) (c : Nat) (cur : BtCursor) (p : Nat) :
    (w.setCursor c cur).txnView p = w.txnView p := rfl

theorem setShared_txnView (w : World) (a : Nat) (s : BtShared) (p : Nat) :
    (w.setShared a s).txnView p = w.txnView p := rfl

theorem btreeCloseCursor_txnView (w : World) (c : Nat) (l : Bool) (p : Nat) :
    (btreeCloseCursor w c l).2.txnView p = w.txnView p := by
  unfold btreeCloseCursor
  simp only [setCursor_txnView]
  cases hd : (w.cursors c).dbc with
  | none =>
    cases l <;> simp [setCursor_txnView, setShared_txnView]
  | some d =>
    cases l <;> simp [setCursor_txnView, setShared_txnView, dbc_close_txnView]

theorem closeFreeCursors_txnView (p : Nat) :
    ∀ (cs : List Nat) (w : World) (rc : Int),
      (closeFreeCursors w rc cs).2.txnView p = w.txnView p := by
  intro cs
  induction cs with
  | nil => intro w rc; rfl
  | cons c rest ih =>
    intro w rc
    unfold closeFreeCursors
    simp only []
    rw [ih, btreeCloseCursor_txnView]

theorem setBtree_txnView (w : World) (p : Nat) (b : Btree)
    (h1 : b.nSavepoint = (w.btrees p).nSavepoint)
    (h2 : b.savepoint_txn = (w.btrees p).savepoint_txn)
    (h3 : b.read_txn = (w.btrees p).read_txn)
    (h4 : b.family_txn = (w.btrees p).family_txn)
    (h5 : b.inTrans = (w.btrees p).inTrans) :
    (w.setBtree p b).txnView p = w.txnView p := by
  simp [World.txnView, h1, h2, h3, h4, h5]

theorem btreeLockSchema_none_txnView (ops : EnvOps) (w : World) (p : Nat) :
    (btreeLockSchema ops w p LOCKMODE_NONE).2.txnView p = w.txnView p := by
  unfold btreeLockSchema
  by_cases hc : (w.btrees p).connected = true
  · simp only [hc, Bool.not_true, Bool.false_eq_true, if_false, if_true]
    cases hs : (w.btrees p).schemaLock with
    | none =>
      simp only [Bool.false_eq_true, false_and, if_false]
      exact setBtree_txnView _ _ _ rfl rfl rfl rfl rfl
    | some d =>
      simp only [Bool.false_eq_true, false_and, if_false]
      refine ((setBtree_txnView _ _ _ ?_ ?_ ?_ ?_ ?_).trans
        (setBtree_txnView _ _ _ ?_ ?_ ?_ ?_ ?_)).trans (dbc_close_txnView w d p)
      all_goals simp
  · simp only [hc, Bool.not_false, if_true, true_or]
    exact setBtree_txnView _ _ _ rfl rfl rfl rfl rfl

theorem btreeCloseAllCursors_txnView (ops : EnvOps) (w : World) (p : Nat) (txn : Option Nat) :
    (btreeCloseAllCursors ops w p txn).2.txnView p = w.txnView p := by
  unfold btreeCloseAllCursors
  simp only []
  split
  · split
    · exact (btreeLockSchema_none_txnView ops _ p).trans
        ((closeFreeCursors_txnView p _ _ _).trans (setShared_txnView _ _ _ _))
    · exact (closeFreeCursors_txnView p _ _ _).trans (setShared_txnView _ _ _ _)
  · exact (closeFreeCursors_txnView p _ _ _).trans (setShared_txnView _ _ _ _)

theorem cleanupLoop_txnView (m : cleanup_mode_t) (p : Nat) :
    ∀ (es : List (Int × CACHED_DB)) (w : World),
      (cleanupLoop m w es).2.txnView p = w.txnView p := by
  intro es
  induction es with
  | nil => intro w; rfl
  | cons e rest ih =>
    intro w
    obtain ⟨k, e⟩ := e
    unfold cleanupLoop
    cases hd : e.dbp with
    | none => simp only []; exact ih w
    | some h =>
      simp only []
      split
      · exact ih w
      · exact (ih _).trans (db_close_txnView w h p)

theorem btreeCleanupCachedHandles_txnView (w : World) (p : Nat) (m : cleanup_mode_t) :
    (btreeCleanupCachedHandles w p m).2.txnView p = w.txnView p := by
  unfold btreeCleanupCachedHandles
  exact (setShared_txnView _ _ _ _).trans (cleanupLoop_txnView m p _ w)

theorem btreeCleanupCachedHandles_rc (w : World) (p : Nat) (m : cleanup_mode_t) :
    (btreeCleanupCachedHandles w p m).1 = SQLITE_OK := rfl

theorem txn_abort_btrees (w : World) (t : Nat) : (txn_abort w t).2.btrees = w.btrees := by
  simp [txn_abort]

theorem txn_commit_ended (w : World) (t : Nat) :
    (txn_commit w t).2.events.filter Event.isTxnEnd
      = w.events.filter Event.isTxnEnd ++ [Event.txn_commit t] := by
  simp [txn_commit, List.filter_append, Event.isTxnEnd]

theorem txn_abort_ended (w : World) (t : Nat) :
    (txn_abort w t).2.events.filter Event.isTxnEnd
      = w.events.filter Event.isTxnEnd ++ [Event.txn_abort t] := by
  simp [txn_abort, List.filter_append, Event.isTxnEnd]

/-! ## `sqlite3BtreeSavepoint` -/

theorem txnView_fields (w w1 : World) (p : Nat) (h : (w1.txnView p).1 = (w.txnView p).1) :
    (w1.btrees p).nSavepoint = (w.btrees p).nSavepoint ∧
    (w1.btrees p).savepoint_txn = (w.btrees p).savepoint_txn ∧
    (w1.btrees p).read_txn = (w.btrees p).read_txn ∧
    (w1.btrees p).family_txn = (w.btrees p).family_txn ∧
    (w1.btrees p).inTrans = (w.btrees p).inTrans := by
  simp only [World.txnView, Prod.mk.injEq] at h
  exact h

theorem txn_commit_view (w : World) (t p : Nat) :
    ((txn_commit w t).2.txnView p).1 = (w.txnView p).1 := by
  simp [World.txnView, txn_commit]

theorem txn_abort_view (w : World) (t p : Nat) :
    ((txn_abort w t).2.txnView p).1 = (w.txnView p).1 := by
  simp [World.txnView, txn_abort]

theorem txnView_ended (w : World) (p : Nat) :
    (w.txnView p).2.1 = w.events.filter Event.isTxnEnd := rfl

/-- The end of `sqlite3BtreeSavepoint` keeps the transaction fields of `p`, and
when it succeeds it has ended `txn` and no other transaction. -/
theorem sqlite3BtreeSavepoint_end_spec (ops : EnvOps) (w : World) (p : Nat) (op : Int)
    (txn : Nat) :
    ((sqlite3BtreeSavepoint_end ops w p op txn).2.txnView p).1 = (w.txnView p).1 ∧
    ((sqlite3BtreeSavepoint_end ops w p op txn).1 = SQLITE_OK →
      (sqlite3BtreeSavepoint_end ops w p op txn).2.events.filter Event.isTxnEnd
        = w.events.filter Event.isTxnEnd
          ++ [if op = SAVEPOINT_RELEASE then Event.txn_commit txn else Event.txn_abort txn]) := by
  have hc := btreeCloseAllCursors_txnView ops w p (some txn)
  unfold sqlite3BtreeSavepoint_end
  simp only []
  by_cases h1 : (btreeCloseAllCursors ops w p (some txn)).1 = SQLITE_OK
  · rw [if_neg (not_not.mpr h1)]
    generalize (btreeCloseAllCursors ops w p (some txn)).2 = w1 at hc ⊢
    have hv : (w1.txnView p).1 = (w.txnView p).1 := by rw [hc]
    have he : w1.events.filter Event.isTxnEnd = w.events.filter Event.isTxnEnd := by
      rw [← txnView_ended w1 p, hc]; rfl
    by_cases hop : op = SAVEPOINT_RELEASE
    · subst hop
      have hop2 : ¬ SAVEPOINT_RELEASE = SAVEPOINT_ROLLBACK := by decide
      simp only [if_true, hop2, false_and, if_false]
      split
      · refine ⟨(txn_commit_view w1 txn p).trans hv, ?_⟩
        intro hok
        rw [txn_commit_ended, he]
      · refine ⟨(txn_commit_view w1 txn p).trans hv, ?_⟩
        intro hok
        rw [txn_commit_ended, he]
    · simp only [hop, if_false]
      split
      · refine ⟨(txn_abort_view w1 txn p).trans hv, ?_⟩
        intro hok
        rw [txn_abort_ended, he]
      · split
        · rw [if_neg (not_not.mpr (btreeCleanupCachedHandles_rc _ _ _))]
          have hcl := btreeCleanupCachedHandles_txnView (txn_abort w1 txn).2 p CLEANUP_ABORT
          refine ⟨?_, ?_⟩
          · show ((btreeCleanupCachedHandles (txn_abort w1 txn).2 p CLEANUP_ABORT).2.txnView p).1 = _
            rw [hcl]
            exact (txn_abort_view w1 txn p).trans hv
          · intro hok
            show (btreeCleanupCachedHandles (txn_abort w1 txn).2 p
              CLEANUP_ABORT).2.events.filter Event.isTxnEnd = _
            rw [← txnView_ended, hcl, txnView_ended, txn_abort_ended, he]
        · refine ⟨(txn_abort_view w1 txn p).trans hv, ?_⟩
          intro hok
          rw [txn_abort_ended, he]
  · rw [if_pos h1]
    refine ⟨by rw [hc], fun hok => absurd hok h1⟩

theorem savepoint_walk_spec (txns : Nat → DB_TXN) (k : Int) (node : Nat) :
    ∀ (j fuel : Nat) (n : Int) (sp : Nat), n = k + 2 + j → j + 1 ≤ fuel →
      parentSteps txns j sp = some node →
      savepoint_walk txns k fuel n sp = (k + 1, node) := by
  intro j
  induction j with
  | zero =>
    intro fuel n sp hn hf hp
    obtain ⟨f, rfl⟩ : ∃ f, fuel = f + 1 := ⟨fuel - 1, by omega⟩
    simp only [parentSteps, Option.some.injEq] at hp
    unfold savepoint_walk
    have h1 : ¬ (n - 1 > k + 1) := by simp at hn; omega
    rw [if_neg h1, hp]
    congr 1
    simp at hn; omega
  | succ j ih =>
    intro fuel n sp hn hf hp
    obtain ⟨f, rfl⟩ : ∃ f, fuel = f + 1 := ⟨fuel - 1, by omega⟩
    unfold savepoint_walk
    have h1 : n - 1 > k + 1 := by push_cast at hn; omega
    rw [if_pos h1]
    simp only [parentSteps] at hp
    cases hq : (txns sp).parent with
    | none => rw [hq] at hp; simp at hp
    | some q =>
      rw [hq] at hp
      simp only [Option.some_bind] at hp
      simp only []
      exact ih f (n - 1) q (by push_cast at hn ⊢; omega) (by omega) hp

/-- C8: for a level `k ≥ 0`: when `nSavepoint < k + 2`, `sqlite3BtreeSavepoint (p, op, k)`
returns `SQLITE_OK` and changes nothing; when `k + 2 ≤ nSavepoint` and the
chain of the innermost savepoint node `sp` reaches `node` after
`nSavepoint - k - 2` parent steps, `node` having parent `q`, the call leaves
`nSavepoint = k + 1` and the innermost-savepoint reference on `q`, keeps the
read and family references, and when it succeeds it has ended exactly one
transaction, `node`: committed when `op` is `SAVEPOINT_RELEASE`, aborted
otherwise. -/
theorem sqlite3BtreeSavepoint_level (ops : EnvOps) (w : World) (p : Nat) (op k : Int)
    (hk : 0 ≤ k) :
    ((w.btrees p).nSavepoint < k + 2 →
      sqlite3BtreeSavepoint ops w (some p) op k = (SQLITE_OK, w)) ∧
    (∀ sp node q : Nat,
      k + 2 ≤ (w.btrees p).nSavepoint →
      (w.btrees p).savepoint_txn = some sp →
      parentSteps w.txns ((w.btrees p).nSavepoint - k - 2).toNat sp = some node →
      (w.txns node).parent = some q →
      (((sqlite3BtreeSavepoint ops w (some p) op k).2.btrees p).nSavepoint = k + 1 ∧
       ((sqlite3BtreeSavepoint ops w (some p) op k).2.btrees p).savepoint_txn = some q ∧
       ((sqlite3BtreeSavepoint ops w (some p) op k).2.btrees p).read_txn
         = (w.btrees p).read_txn ∧
       ((sqlite3BtreeSavepoint ops w (some p) op k).2.btrees p).family_txn
         = (w.btrees p).family_txn ∧
       ((sqlite3BtreeSavepoint ops w (some p) op k).1 = SQLITE_OK →
         (sqlite3BtreeSavepoint ops w (some p) op k).2.events.filter Event.isTxnEnd
           = w.events.filter Event.isTxnEnd
             ++ [if op = SAVEPOINT_RELEASE then Event.txn_commit node
                 else Event.txn_abort node]))) := by
  constructor
  · intro hlt
    unfold sqlite3BtreeSavepoint
    simp only []
    cases (w.btrees p).savepoint_txn with
    | none => rfl
    | some sp =>
      simp only []
      rw [if_pos (by omega)]
  · intro sp node q hn hsp hnode hq
    have hwalk := savepoint_walk_spec w.txns k node ((w.btrees p).nSavepoint - k - 2).toNat
      ((w.btrees p).nSavepoint - k).toNat (w.btrees p).nSavepoint sp
      (by rw [Int.toNat_of_nonneg (by omega)]; ring) (by omega) hnode
    unfold sqlite3BtreeSavepoint
    simp only [hsp]
    rw [if_neg (by omega), if_neg (by omega)]
    simp only [hwalk, hq]
    obtain ⟨hv, he⟩ := sqlite3BtreeSavepoint_end_spec ops
      (w.setBtree p { w.btrees p with nSavepoint := k + 1, savepoint_txn := some q }) p op node
    obtain ⟨f1, f2, f3, f4, _⟩ := txnView_fields _ _ p hv
    rw [setBtree_btrees_same] at f1 f2 f3 f4
    exact ⟨f1, f2, f3, f4, he⟩

/-- C8, witness: releasing level 0 on the connection of `World.stmt3`, whose
chain is 2 (read), 3, 4, 5 with `nSavepoint = 3`: node 4 is committed and the
innermost savepoint is 3. -/
theorem sqlite3BtreeSavepoint_level_witness :
    (0 : Int) + 2 ≤ (World.stmt3.btrees 1).nSavepoint ∧
    (sqlite3BtreeSavepoint EnvOps.idle World.stmt3 (some 1) SAVEPOINT_RELEASE 0).1 = SQLITE_OK ∧
    ((sqlite3BtreeSavepoint EnvOps.idle World.stmt3 (some 1) SAVEPOINT_RELEASE 0).2.btrees
        1).nSavepoint = 0 + 1 ∧
    ((sqlite3BtreeSavepoint EnvOps.idle World.stmt3 (some 1) SAVEPOINT_RELEASE 0).2.btrees
        1).savepoint_txn = some 3 ∧
    ((sqlite3BtreeSavepoint EnvOps.idle World.stmt3 (some 1) SAVEPOINT_RELEASE 0).2.btrees
        1).read_txn = (World.stmt3.btrees 1).read_txn ∧
    ((sqlite3BtreeSavepoint EnvOps.idle World.stmt3 (some 1) SAVEPOINT_RELEASE 0).2.btrees
        1).family_txn = (World.stmt3.btrees 1).family_txn ∧
    ((sqlite3BtreeSavepoint EnvOps.idle World.stmt3 (some 1) SAVEPOINT_RELEASE 0).1 = SQLITE_OK →
      (sqlite3BtreeSavepoint EnvOps.idle World.stmt3 (some 1)
          SAVEPOINT_RELEASE 0).2.events.filter Event.isTxnEnd
        = World.stmt3.events.filter Event.isTxnEnd
          ++ [if SAVEPOINT_RELEASE = SAVEPOINT_RELEASE then Event.txn_commit 4
              else Event.txn_abort 4]) :=
  ⟨by decide, rfl,
    (sqlite3BtreeSavepoint_level EnvOps.idle World.stmt3 1 SAVEPOINT_RELEASE 0 (by decide)).2
      5 4 3 (by decide) rfl rfl rfl⟩

/-- C9: on a connection whose read transaction `rd` is a top-level transaction
of the engine (begun under the family transaction, its parent field is NULL)
and that has at least one nested savepoint node, `sqlite3BtreeSavepoint` with
a negative level empties the read and innermost-savepoint references, sets
`nSavepoint` to 0 and the transaction state to `TRANS_NONE`, keeps the family
reference, and when it succeeds it has ended exactly one transaction, the read
transaction itself. -/
theorem sqlite3BtreeSavepoint_negative (ops : EnvOps) (w : World) (p : Nat) (op k : Int)
    (rd sp : Nat) (hk : k < 0) (hn : 1 ≤ (w.btrees p).nSavepoint)
    (hrd : (w.btrees p).read_txn = some rd) (hsp : (w.btrees p).savepoint_txn = some sp)
    (hpar : (w.txns rd).parent = none) :
    ((sqlite3BtreeSavepoint ops w (some p) op k).2.btrees p).read_txn = none ∧
    ((sqlite3BtreeSavepoint ops w (some p) op k).2.btrees p).savepoint_txn = none ∧
    ((sqlite3BtreeSavepoint ops w (some p) op k).2.btrees p).nSavepoint = 0 ∧
    ((sqlite3BtreeSavepoint ops w (some p) op k).2.btrees p).inTrans = TRANS_NONE ∧
    ((sqlite3BtreeSavepoint ops w (some p) op k).2.btrees p).family_txn
      = (w.btrees p).family_txn ∧
    ((sqlite3BtreeSavepoint ops w (some p) op k).1 = SQLITE_OK →
      (sqlite3BtreeSavepoint ops w (some p) op k).2.events.filter Event.isTxnEnd
        = w.events.filter Event.isTxnEnd
          ++ [if op = SAVEPOINT_RELEASE then Event.txn_commit rd else Event.txn_abort rd]) := by
  unfold sqlite3BtreeSavepoint
  simp only [hsp]
  rw [if_neg (by omega), if_pos hk]
  simp only [hrd, Option.map_some', hpar]
  obtain ⟨hv, he⟩ := sqlite3BtreeSavepoint_end_spec ops
    (w.setBtree p { w.btrees p with read_txn := none, savepoint_txn := none, nSavepoint := 0,
                                    inTrans := TRANS_NONE }) p op rd
  obtain ⟨f1, f2, f3, f4, f5⟩ := txnView_fields _ _ p hv
  rw [setBtree_btrees_same] at f1 f2 f3 f4 f5
  exact ⟨f3, f2, f1, f5, f4, he⟩

/-- C9, witness: rolling back with level -1 on the connection of
`World.stmt3`, whose read transaction is 2: it is aborted and the references
are emptied. -/
theorem sqlite3BtreeSavepoint_negative_witness :
    (1 : Int) ≤ (World.stmt3.btrees 1).nSavepoint ∧
    (World.stmt3.txns 2).parent = none ∧
    (sqlite3BtreeSavepoint EnvOps.idle World.stmt3 (some 1) SAVEPOINT_ROLLBACK (-1)).1
      = SQLITE_OK ∧
    ((sqlite3BtreeSavepoint EnvOps.idle World.stmt3 (some 1) SAVEPOINT_ROLLBACK (-1)).2.btrees
        1).read_txn = none ∧
    ((sqlite3BtreeSavepoint EnvOps.idle World.stmt3 (some 1) SAVEPOINT_ROLLBACK (-1)).2.btrees
        1).savepoint_txn = none ∧
    ((sqlite3BtreeSavepoint EnvOps.idle World.stmt3 (some 1) SAVEPOINT_ROLLBACK (-1)).2.btrees
        1).nSavepoint = 0 ∧
    ((sqlite3BtreeSavepoint EnvOps.idle World.stmt3 (some 1) SAVEPOINT_ROLLBACK (-1)).2.btrees
        1).inTrans = TRANS_NONE ∧
    ((sqlite3BtreeSavepoint EnvOps.idle World.stmt3 (some 1) SAVEPOINT_ROLLBACK (-1)).2.btrees
        1).family_txn = (World.stmt3.btrees 1).family_txn ∧
    ((sqlite3BtreeSavepoint EnvOps.idle World.stmt3 (some 1) SAVEPOINT_ROLLBACK (-1)).1
        = SQLITE_OK →
      (sqlite3BtreeSavepoint EnvOps.idle World.stmt3 (some 1)
          SAVEPOINT_ROLLBACK (-1)).2.events.filter Event.isTxnEnd
        = World.stmt3.events.filter Event.isTxnEnd
          ++ [if SAVEPOINT_ROLLBACK = SAVEPOINT_RELEASE then Event.txn_commit 2
              else Event.txn_abort 2]) :=
  ⟨by decide, rfl, rfl,
    sqlite3BtreeSavepoint_negative EnvOps.idle World.stmt3 1 SAVEPOINT_ROLLBACK (-1) 2 5
      (by decide) (by decide) rfl rfl rfl⟩

/-! ## Table ids -/

theorem MAP_ERR_ok (rc ret : Int) : MAP_ERR rc ret = SQLITE_OK ↔ rc = SQLITE_OK ∧ ret = 0 := by
  unfold MAP_ERR
  by_cases h1 : rc = SQLITE_OK
  · by_cases h2 : ret = 0
    · simp [h1, h2]
    · simp only [h1, ne_eq, not_true_eq_false, if_false, h2, true_and]
      exact ⟨fun h => absurd ((dberr2sqlite_ok ret).mp h) h2, fun h => False.elim h⟩
  · simp [h1]

/-- The id `btreeCreateTable` hands out for an integer-keyed table is odd, and
it is `lastTable + 1` or `lastTable + 2`. -/
theorem btreeCreateTable_odd (w : World) (p : Nat) (flags : Nat)
    (hint : flags &&& BTREE_INTKEY ≠ 0)
    (hok : (btreeCreateTable w p flags).1 = SQLITE_OK)
    (hlo : -2147483648 ≤ (btreeCreateTable_last w p).2.1)
    (hhi : (btreeCreateTable_last w p).2.1 + 2 < 2147483648) :
    ∃ id : Int, (btreeCreateTable w p flags).2.1 = some id ∧ id % 2 = 1 ∧
      (btreeCreateTable_last w p).2.1 < id ∧ id ≤ (btreeCreateTable_last w p).2.1 + 2 ∧
      ((btreeCreateTable w p flags).2.2.shared (w.btAddr p)).last_table = id := by
  unfold btreeCreateTable at hok ⊢
  simp only [] at hok ⊢
  by_cases h0 : (btreeCreateTable_last w p).1 = 0
  · rw [if_neg (not_not.mpr h0)] at hok ⊢
    generalize (btreeCreateTable_last w p).2.1 = last at hok hlo hhi ⊢
    generalize (btreeCreateTable_last w p).2.2.2 = w1 at hok ⊢
    rw [if_pos hint] at hok ⊢
    rw [wrap32_of_range (last + 1) (by omega) (by omega)] at hok ⊢
    by_cases hpar : (last + 1) % 2 = 0
    · rw [if_pos hpar] at hok ⊢
      rw [wrap32_of_range (last + 1 + 1) (by omega) (by omega)] at hok ⊢
      by_cases hr : (btreeCreateDataTable w1 p (last + 1 + 1) false).1 = SQLITE_OK
      · rw [if_pos hr]
        exact ⟨last + 1 + 1, rfl, by omega, by omega, by omega, by simp⟩
      · rw [if_neg hr] at hok
        exact absurd ((MAP_ERR_ok _ _).mp hok).1 hr
    · rw [if_neg hpar] at hok ⊢
      by_cases hr : (btreeCreateDataTable w1 p (last + 1) false).1 = SQLITE_OK
      · rw [if_pos hr]
        exact ⟨last + 1, rfl, by omega, by omega, by omega, by simp⟩
      · rw [if_neg hr] at hok
        exact absurd ((MAP_ERR_ok _ _).mp hok).1 hr
  · rw [if_pos h0] at hok
    exact absurd ((MAP_ERR_ok SQLITE_OK _).mp hok).2 h0

theorem btreeGetSharedBtree_loop_constraint (w : World) (name : List Char) (db a : Nat)
    (hatt : attachedTo w db a = true) :
    ∀ l : List Nat,
      l.find? (fun x => decide ((w.shared x).orig_name = some name)) = some a →
      btreeGetSharedBtree_loop w name db DB_STORE_NAMED l = (SQLITE_CONSTRAINT, none, w) := by
  intro l
  induction l with
  | nil => intro h; simp at h
  | cons x rest ih =>
    intro h
    unfold btreeGetSharedBtree_loop
    by_cases hx : (w.shared x).orig_name = some name
    · have hxa : x = a := by
        rw [List.find?_cons_of_pos _ (by simpa using hx)] at h
        exact Option.some.inj h
      subst hxa
      simp [hx, hatt]
    · rw [List.find?_cons_of_neg _ (by simpa using hx)] at h
      simp only [ne_eq, not_true_eq_false, false_and, hx, and_false, or_self, if_false]
      exact ih h

theorem attachedTo_fresh (w : World) (db a p : Nat) (b : Btree) (n : Nat)
    (h : ∃ q, some q ∈ (w.ctx db).aDb ∧ q ≠ p ∧ (w.btrees q).pBt = some a) :
    attachedTo ({ w with addrs := n }.setBtree p b) db a = true := by
  obtain ⟨q, hq, hne, hp⟩ := h
  unfold attachedTo
  rw [List.any_eq_true]
  refine ⟨some q, hq, ?_⟩
  simp only [setBtree_btrees_other _ _ _ _ hne]
  simpa using hp

/-- C7: when the name passed to `sqlite3BtreeOpen` is that of a named database,
the first registry entry with this name is `a`, and the database context `db`
has among its attached databases an allocated `Btree` whose `pBt` is `a`, the
open fails with `SQLITE_CONSTRAINT`, writes no handle, and leaves the registry
list and every `BtShared` (its reference count included) as they were. -/
theorem sqlite3BtreeOpen_constraint (ops : EnvOps) (w : World) (zFilename : List Char)
    (db flags vfsFlags a : Nat)
    (hstore : openStore (some zFilename) flags vfsFlags = DB_STORE_NAMED)
    (hfind : w.g_shared_btrees.find?
      (fun x => decide ((w.shared x).orig_name = some (stripDotSlash zFilename))) = some a)
    (hatt : ∃ q, some q ∈ (w.ctx db).aDb ∧ q < w.addrs ∧ (w.btrees q).pBt = some a) :
    (sqlite3BtreeOpen ops w (some zFilename) db flags vfsFlags).1 = SQLITE_CONSTRAINT ∧
    (sqlite3BtreeOpen ops w (some zFilename) db flags vfsFlags).2.1 = none ∧
    (sqlite3BtreeOpen ops w (some zFilename) db flags vfsFlags).2.2.g_shared_btrees
      = w.g_shared_btrees ∧
    (sqlite3BtreeOpen ops w (some zFilename) db flags vfsFlags).2.2.shared = w.shared := by
  obtain ⟨q, hq, hlt, hp⟩ := hatt
  have hloop : ∀ b : Btree,
      btreeGetSharedBtree_loop ({ w with addrs := w.addrs + 1 }.setBtree w.addrs b)
        (stripDotSlash zFilename) db DB_STORE_NAMED
        ({ w with addrs := w.addrs + 1 }.setBtree w.addrs b).g_shared_btrees
      = (SQLITE_CONSTRAINT, none, { w with addrs := w.addrs + 1 }.setBtree w.addrs b) := by
    intro b
    exact btreeGetSharedBtree_loop_constraint _ (stripDotSlash zFilename) db a
      (attachedTo_fresh w db a w.addrs b (w.addrs + 1) ⟨q, hq, by omega, hp⟩)
      w.g_shared_btrees hfind
  have hc : SQLITE_CONSTRAINT ≠ SQLITE_OK := by decide
  unfold sqlite3BtreeOpen
  simp only [hstore, if_true, Option.map_some', Option.getD_some, btreeGetSharedBtree]
  rw [hloop]
  rw [if_pos hc]
  exact ⟨rfl, rfl, rfl, rfl⟩

/-- C7, witness: the database context 0 of `World.attached1` has "t.db"
attached and opens "./t.db". -/
theorem sqlite3BtreeOpen_constraint_witness :
    (sqlite3BtreeOpen EnvOps.simple World.attached1 (some ['.', '/', 't', '.', 'd', 'b'])
      0 0 0).1 = SQLITE_CONSTRAINT ∧
    (sqlite3BtreeOpen EnvOps.simple World.attached1 (some ['.', '/', 't', '.', 'd', 'b'])
      0 0 0).2.1 = none ∧
    (sqlite3BtreeOpen EnvOps.simple World.attached1 (some ['.', '/', 't', '.', 'd', 'b'])
      0 0 0).2.2.g_shared_btrees = World.attached1.g_shared_btrees ∧
    (sqlite3BtreeOpen EnvOps.simple World.attached1 (some ['.', '/', 't', '.', 'd', 'b'])
      0 0 0).2.2.shared = World.attached1.shared :=
  sqlite3BtreeOpen_constraint EnvOps.simple World.attached1 ['.', '/', 't', '.', 'd', 'b']
    0 0 0 1 (by decide) (by decide) ⟨1, by decide, by decide, rfl⟩

/-! ## What closing keeps of the registry -/

theorem closeView_of (w v : World) (h1 : v.g_shared_btrees = w.g_shared_btrees)
    (h2 : ∀ x, (v.shared x).nRef = (w.shared x).nRef ∧
      (v.shared x).dbStorage = (w.shared x).dbStorage ∧
      (v.shared x).orig_name = (w.shared x).orig_name ∧
      (v.shared x).dbenv = (w.shared x).dbenv)
    (h3 : ∀ q, (v.btrees q).pBt = (w.btrees q).pBt)
    (h4 : v.events.filter Event.isEnvClose = w.events.filter Event.isEnvClose) :
    v.closeView = w.closeView := by
  unfold World.closeView World.regView
  rw [h1, h4]
  have e1 : (fun a => ((v.shared a).nRef, (v.shared a).dbStorage, (v.shared a).orig_name))
      = (fun a => ((w.shared a).nRef, (w.shared a).dbStorage, (w.shared a).orig_name)) := by
    funext x
    rw [(h2 x).1, (h2 x).2.1, (h2 x).2.2.1]
  have e2 : (fun q => (v.btrees q).pBt) = (fun q => (w.btrees q).pBt) := by
    funext q; exact h3 q
  have e3 : (fun a => (v.shared a).dbenv) = (fun a => (w.shared a).dbenv) := by
    funext x; exact (h2 x).2.2.2
  rw [e1, e2, e3]

theorem closeView_fields (w v : World) (h : v.closeView = w.closeView) :
    v.g_shared_btrees = w.g_shared_btrees ∧
    (∀ x, (v.shared x).nRef = (w.shared x).nRef ∧
      (v.shared x).dbStorage = (w.shared x).dbStorage ∧
      (v.shared x).orig_name = (w.shared x).orig_name ∧
      (v.shared x).dbenv = (w.shared x).dbenv) ∧
    (∀ q, (v.btrees q).pBt = (w.btrees q).pBt) ∧
    v.events.filter Event.isEnvClose = w.events.filter Event.isEnvClose := by
  unfold World.closeView World.regView at h
  simp only [Prod.mk.injEq] at h
  obtain ⟨⟨h1, h2, h3⟩, h4, h5⟩ := h
  refine ⟨h1, ?_, ?_, h5⟩
  · intro x
    have a1 := congrFun h2 x
    have a2 := congrFun h4 x
    simp only [Prod.mk.injEq] at a1
    exact ⟨a1.1, a1.2.1, a1.2.2, a2⟩
  · intro q
    exact congrFun h3 q

theorem setShared_closeView (w : World) (a : Nat) (s : BtShared)
    (h1 : s.nRef = (w.shared a).nRef) (h2 : s.dbStorage = (w.shared a).dbStorage)
    (h3 : s.orig_name = (w.shared a).orig_name) (h4 : s.dbenv = (w.shared a).dbenv) :
    (w.setShared a s).closeView = w.closeView := by
  apply closeView_of
  · rfl
  · intro x
    by_cases hx : x = a
    · subst hx
      rw [setShared_shared_same]
      exact ⟨h1, h2, h3, h4⟩
    · rw [setShared_shared_other _ _ _ _ hx]
      exact ⟨rfl, rfl, rfl, rfl⟩
  · intro q; rfl
  · rfl

theorem setBtree_closeView (w : World) (p : Nat) (b : Btree) (h : b.pBt = (w.btrees p).pBt) :
    (w.setBtree p b).closeView = w.closeView := by
  apply closeView_of
  · rfl
  · intro x; exact ⟨rfl, rfl, rfl, rfl⟩
  · intro q
    by_cases hq : q = p
    · subst hq
      rw [setBtree_btrees_same]
      exact h
    · rw [setBtree_btrees_other _ _ _ _ hq]
  · rfl

theorem setCursor_closeView (w : World) (c : Nat) (cur : BtCursor) :
    (w.setCursor c cur).closeView = w.closeView := rfl

theorem dbc_close_closeView (w : World) (d : Nat) : (dbc_close w d).2.closeView = w.closeView := by
  simp [dbc_close, World.closeView, World.regView, Event.isEnvClose, List.filter_append]

theorem db_close_closeView (w : World) (h : Nat) : (db_close w h).2.closeView = w.closeView := by
  simp [db_close, World.closeView, World.regView, Event.isEnvClose, List.filter_append]

theorem txn_commit_closeView (w : World) (t : Nat) :
    (txn_commit w t).2.closeView = w.closeView := by
  simp [txn_commit, World.closeView, World.regView, Event.isEnvClose, List.filter_append]

theorem txn_abort_closeView (w : World) (t : Nat) :
    (txn_abort w t).2.closeView = w.closeView := by
  simp [txn_abort, World.closeView, World.regView, Event.isEnvClose, List.filter_append]

theorem txn_checkpoint_closeView (w : World) (e : Nat) :
    (txn_checkpoint w e).2.closeView = w.closeView := by
  simp [txn_checkpoint, World.log, World.closeView, World.regView, Event.isEnvClose,
    List.filter_append]

theorem btreeCloseCursor_closeView (w : World) (c : Nat) (l : Bool) :
    (btreeCloseCursor w c l).2.closeView = w.closeView := by
  unfold btreeCloseCursor
  simp only [setCursor_closeView]
  cases hd : (w.cursors c).dbc with
  | none =>
    cases l
    · simp [setCursor_closeView]
    · simp only [if_true]
      refine (setShared_closeView _ _ _ ?_ ?_ ?_ ?_).trans (setCursor_closeView _ _ _)
      all_goals rfl
  | some d =>
    cases l
    · simp only [Bool.false_eq_true, if_false]
      exact (setCursor_closeView _ _ _).trans (dbc_close_closeView _ d)
    · simp only [if_true]
      refine (setShared_closeView _ _ _ ?_ ?_ ?_ ?_).trans
        ((setCursor_closeView _ _ _).trans (dbc_close_closeView _ d))
      all_goals rfl

theorem closeFreeCursors_closeView :
    ∀ (cs : List Nat) (w : World) (rc : Int),
      (closeFreeCursors w rc cs).2.closeView = w.closeView := by
  intro cs
  induction cs with
  | nil => intro w rc; rfl
  | cons c rest ih =>
    intro w rc
    unfold closeFreeCursors
    simp only []
    rw [ih, btreeCloseCursor_closeView]

theorem btreeLockSchema_none_closeView (ops : EnvOps) (w : World) (p : Nat) :
    (btreeLockSchema ops w p LOCKMODE_NONE).2.closeView = w.closeView := by
  unfold btreeLockSchema
  by_cases hc : (w.btrees p).connected = true
  · simp only [hc, Bool.not_true, Bool.false_eq_true, if_false, if_true]
    cases hs : (w.btrees p).schemaLock with
    | none =>
      simp only [Bool.false_eq_true, false_and, if_false]
      refine setBtree_closeView _ _ _ ?_
      rfl
    | some d =>
      simp only [Bool.false_eq_true, false_and, if_false]
      refine ((setBtree_closeView _ _ _ ?_).trans
        (setBtree_closeView _ _ _ ?_)).trans (dbc_close_closeView w d)
      all_goals simp
  · simp only [hc, Bool.not_false, if_true, true_or]
    refine setBtree_closeView _ _ _ ?_
    rfl

theorem btreeCloseAllCursors_closeView (ops : EnvOps) (w : World) (p : Nat) (txn : Option Nat) :
    (btreeCloseAllCursors ops w p txn).2.closeView = w.closeView := by
  have hs : (w.setShared (w.btAddr p) { w.shared (w.btAddr p) with
      cursors := (w.shared (w.btAddr p)).cursors.filter
        (fun c => closeAllKeeps w p txn c) }).closeView = w.closeView := by
    refine setShared_closeView _ _ _ ?_ ?_ ?_ ?_
    all_goals rfl
  unfold btreeCloseAllCursors
  simp only []
  split
  · split
    · exact (btreeLockSchema_none_closeView ops _ p).trans
        ((closeFreeCursors_closeView _ _ _).trans hs)
    · exact (closeFreeCursors_closeView _ _ _).trans hs
  · exact (closeFreeCursors_closeView _ _ _).trans hs

theorem cleanupLoop_closeView (m : cleanup_mode_t) :
    ∀ (es : List (Int × CACHED_DB)) (w : World),
      (cleanupLoop m w es).2.closeView = w.closeView := by
  intro es
  induction es with
  | nil => intro w; rfl
  | cons e rest ih =>
    intro w
    obtain ⟨k, e⟩ := e
    unfold cleanupLoop
    cases hd : e.dbp with
    | none => simp only []; exact ih w
    | some h =>
      simp only []
      split
      · exact ih w
      · exact (ih _).trans (db_close_closeView w h)

theorem btreeCleanupCachedHandles_closeView (w : World) (p : Nat) (m : cleanup_mode_t) :
    (btreeCleanupCachedHandles w p m).2.closeView = w.closeView := by
  unfold btreeCleanupCachedHandles
  refine (setShared_closeView _ _ _ ?_ ?_ ?_ ?_).trans (cleanupLoop_closeView m _ w)
  all_goals rfl

theorem sqlite3BtreeSavepoint_end_closeView (ops : EnvOps) (w : World) (p : Nat) (op : Int)
    (txn : Nat) :
    (sqlite3BtreeSavepoint_end ops w p op txn).2.closeView = w.closeView := by
  have hc := btreeCloseAllCursors_closeView ops w p (some txn)
  unfold sqlite3BtreeSavepoint_end
  simp only []
  split
  · exact hc
  · generalize (btreeCloseAllCursors ops w p (some txn)).2 = w1 at hc ⊢
    have he : (if op = SAVEPOINT_RELEASE then txn_commit w1 txn
        else txn_abort w1 txn).2.closeView = w.closeView := by
      split
      · exact (txn_commit_closeView w1 txn).trans hc
      · exact (txn_abort_closeView w1 txn).trans hc
    generalize (if op = SAVEPOINT_RELEASE then txn_commit w1 txn else txn_abort w1 txn) = e
      at he ⊢
    split
    · exact he
    · split
      · split
        · exact (btreeCleanupCachedHandles_closeView _ _ _).trans he
        · exact (btreeCleanupCachedHandles_closeView _ _ _).trans he
      · exact he

theorem sqlite3BtreeSavepoint_closeView (ops : EnvOps) (w : World) (p : Option Nat)
    (op k : Int) :
    (sqlite3BtreeSavepoint ops w p op k).2.closeView = w.closeView := by
  unfold sqlite3BtreeSavepoint
  cases p with
  | none => rfl
  | some pa =>
    simp only []
    cases (w.btrees pa).savepoint_txn with
    | none => rfl
    | some sp =>
      simp only []
      split
      · rfl
      · split
        · rfl
        · refine (sqlite3BtreeSavepoint_end_closeView ops _ pa op _).trans
            (setBtree_closeView _ _ _ ?_)
          split <;> rfl

theorem sqlite3BtreeRollback_closeView (ops : EnvOps) (w : World) (p : Nat) :
    (sqlite3BtreeRollback ops w p).2.closeView = w.closeView := by
  unfold sqlite3BtreeRollback
  have h1 : (if (w.btrees p).read_txn ≠ none then
      sqlite3BtreeSavepoint ops w (some p) SAVEPOINT_ROLLBACK (-1)
      else (SQLITE_OK, w)).2.closeView = w.closeView := by
    split
    · exact sqlite3BtreeSavepoint_closeView ops w (some p) _ _
    · rfl
  simp only []
  generalize (if (w.btrees p).read_txn ≠ none then
      sqlite3BtreeSavepoint ops w (some p) SAVEPOINT_ROLLBACK (-1)
      else (SQLITE_OK, w)) = r at h1 ⊢
  split
  · exact (btreeLockSchema_none_closeView ops r.2 p).trans h1
  · exact h1

theorem sqlite3BtreeClose_txns_closeView (ops : EnvOps) (w : World) (p : Nat) :
    (sqlite3BtreeClose_txns ops w p).2.2.closeView = w.closeView := by
  have h1 := btreeCloseAllCursors_closeView ops w p none
  unfold sqlite3BtreeClose_txns
  simp only []
  generalize btreeCloseAllCursors ops w p none = r1 at h1 ⊢
  have h2 : (if (r1.2.btrees p).read_txn ≠ none then
      ((if (sqlite3BtreeRollback ops r1.2 p).1 ≠ SQLITE_OK ∧ r1.1 = SQLITE_OK
          then (sqlite3BtreeRollback ops r1.2 p).1 else r1.1),
        (sqlite3BtreeRollback ops r1.2 p).2)
      else r1).2.closeView = w.closeView := by
    split
    · exact (sqlite3BtreeRollback_closeView ops r1.2 p).trans h1
    · exact h1
  generalize (if (r1.2.btrees p).read_txn ≠ none then
      ((if (sqlite3BtreeRollback ops r1.2 p).1 ≠ SQLITE_OK ∧ r1.1 = SQLITE_OK
          then (sqlite3BtreeRollback ops r1.2 p).1 else r1.1),
        (sqlite3BtreeRollback ops r1.2 p).2)
      else r1) = r2 at h2 ⊢
  split
  · refine (setBtree_closeView _ _ _ ?_).trans ((txn_commit_closeView _ _).trans h2)
    rfl
  · exact h2

/-! ## `sqlite3BtreeClose` and the reference count -/

theorem env_close_envClosed (w : World) (e : Nat) :
    (env_close w e).2.events.filter Event.isEnvClose
      = w.events.filter Event.isEnvClose ++ [Event.env_close e] := by
  simp [env_close, World.log, List.filter_append, Event.isEnvClose]

theorem env_close_registry (w : World) (e : Nat) :
    (env_close w e).2.g_shared_btrees = w.g_shared_btrees := by
  simp [env_close, World.log]

theorem sqlite3BtreeClose_handles_closeView (w : World) (p a : Nat) (rc ret : Int) :
    (sqlite3BtreeClose_handles w p a rc ret).2.2.closeView = w.closeView := by
  unfold sqlite3BtreeClose_handles
  simp only []
  have h2 : ((btreeCleanupCachedHandles w p CLEANUP_CLOSE).2.setShared a
      { (btreeCleanupCachedHandles w p CLEANUP_CLOSE).2.shared a with
        db_cache := [] }).closeView = w.closeView := by
    refine (setShared_closeView _ _ _ ?_ ?_ ?_ ?_).trans
      (btreeCleanupCachedHandles_closeView w p CLEANUP_CLOSE)
    all_goals rfl
  generalize ((btreeCleanupCachedHandles w p CLEANUP_CLOSE).2.setShared a
      { (btreeCleanupCachedHandles w p CLEANUP_CLOSE).2.shared a with db_cache := [] }) = w2
    at h2 ⊢
  have h3 : (match (w2.shared a).tablesdb with
      | some h => ((if (db_close w2 h).1 ≠ 0 ∧ ret = 0 then (db_close w2 h).1 else ret),
          (db_close w2 h).2)
      | none => (ret, w2)).2.closeView = w.closeView := by
    split
    · exact (db_close_closeView w2 _).trans h2
    · exact h2
  generalize (match (w2.shared a).tablesdb with
      | some h => ((if (db_close w2 h).1 ≠ 0 ∧ ret = 0 then (db_close w2 h).1 else ret),
          (db_close w2 h).2)
      | none => (ret, w2)) = r3 at h3 ⊢
  have h4 : (match (r3.2.shared a).metadb with
      | some h => ((if (db_close r3.2 h).1 ≠ 0 ∧ r3.1 = 0 then (db_close r3.2 h).1 else r3.1),
          (db_close r3.2 h).2)
      | none => r3).2.closeView = w.closeView := by
    split
    · exact (db_close_closeView r3.2 _).trans h3
    · exact h3
  generalize (match (r3.2.shared a).metadb with
      | some h => ((if (db_close r3.2 h).1 ≠ 0 ∧ r3.1 = 0 then (db_close r3.2 h).1 else r3.1),
          (db_close r3.2 h).2)
      | none => r3) = r4 at h4 ⊢
  refine (setShared_closeView _ _ _ ?_ ?_ ?_ ?_).trans h4
  all_goals rfl

theorem sqlite3BtreeClose_env_spec (w : World) (a : Nat) (ret : Int) (e : Nat)
    (hst : (w.shared a).dbStorage = DB_STORE_NAMED) (henv : (w.shared a).dbenv = some e) :
    (sqlite3BtreeClose_env w a ret).2.g_shared_btrees = w.g_shared_btrees ∧
    (sqlite3BtreeClose_env w a ret).2.events.filter Event.isEnvClose
      = w.events.filter Event.isEnvClose ++ [Event.env_close e] := by
  unfold sqlite3BtreeClose_env
  rw [henv]
  simp only []
  rw [if_pos hst]
  have h6 : (if (w.shared a).transactional = true ∧ (w.shared a).env_opened = true then
      ((if (txn_checkpoint w e).1 ≠ 0 ∧ ret = 0 then (txn_checkpoint w e).1 else ret),
        (txn_checkpoint w e).2)
      else (ret, w)).2.closeView = w.closeView := by
    split
    · exact txn_checkpoint_closeView w e
    · rfl
  generalize (if (w.shared a).transactional = true ∧ (w.shared a).env_opened = true then
      ((if (txn_checkpoint w e).1 ≠ 0 ∧ ret = 0 then (txn_checkpoint w e).1 else ret),
        (txn_checkpoint w e).2)
      else (ret, w)) = r6 at h6 ⊢
  obtain ⟨k1, _, _, k4⟩ := closeView_fields _ _ h6
  refine ⟨?_, ?_⟩
  · show (env_close r6.2 e).2.g_shared_btrees = _
    rw [env_close_registry, k1]
  · show (env_close r6.2 e).2.events.filter Event.isEnvClose = _
    rw [env_close_envClosed, k4]

/-- When the last reference to a named `BtShared` with an environment goes,
the `BtShared` leaves the registry and its environment is closed, once. -/
theorem sqlite3BtreeClose_last_spec (w : World) (p a : Nat) (rc ret : Int) (e : Nat)
    (hst : (w.shared a).dbStorage = DB_STORE_NAMED) (henv : (w.shared a).dbenv = some e) :
    (sqlite3BtreeClose_last w p a rc ret).2.2.g_shared_btrees = w.g_shared_btrees.erase a ∧
    (sqlite3BtreeClose_last w p a rc ret).2.2.events.filter Event.isEnvClose
      = w.events.filter Event.isEnvClose ++ [Event.env_close e] := by
  unfold sqlite3BtreeClose_last
  simp only []
  rw [if_pos hst]
  have hh := sqlite3BtreeClose_handles_closeView
    { w with g_shared_btrees := w.g_shared_btrees.erase a } p a rc ret
  generalize sqlite3BtreeClose_handles
    { w with g_shared_btrees := w.g_shared_btrees.erase a } p a rc ret = h at hh ⊢
  obtain ⟨g1, g2, _, g4⟩ := closeView_fields _ _ hh
  obtain ⟨l1, l2⟩ := sqlite3BtreeClose_env_spec h.2.2 a h.2.1 e
    ((g2 a).2.1.trans hst) ((g2 a).2.2.2.trans henv)
  refine ⟨?_, ?_⟩
  · show (sqlite3BtreeClose_env h.2.2 a h.2.1).2.g_shared_btrees = _
    rw [l1, g1]
  · show (sqlite3BtreeClose_env h.2.2 a h.2.1).2.events.filter Event.isEnvClose = _
    rw [l2, g4]

/-- Closing a `Btree` whose `BtShared` keeps another reference leaves the
registry and the environments alone and takes one reference away. -/
theorem sqlite3BtreeClose_keep (ops : EnvOps) (w : World) (p a : Nat)
    (hp : (w.btrees p).pBt = some a) (hn : wrap32 ((w.shared a).nRef - 1) ≠ 0) :
    (sqlite3BtreeClose ops w p).2.g_shared_btrees = w.g_shared_btrees ∧
    ((sqlite3BtreeClose ops w p).2.shared a).nRef = wrap32 ((w.shared a).nRef - 1) ∧
    (∀ x, ((sqlite3BtreeClose ops w p).2.shared x).dbStorage = (w.shared x).dbStorage ∧
      ((sqlite3BtreeClose ops w p).2.shared x).dbenv = (w.shared x).dbenv) ∧
    (∀ q, ((sqlite3BtreeClose ops w p).2.btrees q).pBt = (w.btrees q).pBt) ∧
    (sqlite3BtreeClose ops w p).2.events.filter Event.isEnvClose
      = w.events.filter Event.isEnvClose := by
  have h3 := sqlite3BtreeClose_txns_closeView ops w p
  unfold sqlite3BtreeClose
  rw [hp]
  simp only []
  generalize sqlite3BtreeClose_txns ops w p = r3 at h3 ⊢
  obtain ⟨g1, g2, g3, g4⟩ := closeView_fields _ _ h3
  rw [(g2 a).1, if_neg hn]
  refine ⟨g1, by simp, ?_, g3, g4⟩
  intro x
  by_cases hx : x = a
  · subst hx
    simp only [setShared_shared_same]
    exact ⟨(g2 x).2.1, (g2 x).2.2.2⟩
  · simp only [setShared_shared_other _ _ _ _ hx]
    exact ⟨(g2 x).2.1, (g2 x).2.2.2⟩

/-- Closing the last `Btree` on a named `BtShared` that has an environment
takes the `BtShared` off the registry and closes the environment, once. -/
theorem sqlite3BtreeClose_final (ops : EnvOps) (w : World) (p a e : Nat)
    (hp : (w.btrees p).pBt = some a) (hn : wrap32 ((w.shared a).nRef - 1) = 0)
    (hst : (w.shared a).dbStorage = DB_STORE_NAMED) (henv : (w.shared a).dbenv = some e) :
    (sqlite3BtreeClose ops w p).2.g_shared_btrees = w.g_shared_btrees.erase a ∧
    (sqlite3BtreeClose ops w p).2.events.filter Event.isEnvClose
      = w.events.filter Event.isEnvClose ++ [Event.env_close e] := by
  have h3 := sqlite3BtreeClose_txns_closeView ops w p
  unfold sqlite3BtreeClose
  rw [hp]
  simp only []
  generalize sqlite3BtreeClose_txns ops w p = r3 at h3 ⊢
  obtain ⟨g1, g2, g3, g4⟩ := closeView_fields _ _ h3
  rw [(g2 a).1, if_pos hn]
  have hl := sqlite3BtreeClose_last_spec
    (r3.2.2.setShared a { r3.2.2.shared a with nRef := wrap32 ((w.shared a).nRef - 1) })
    p a r3.1 r3.2.1 e
    (by rw [setShared_shared_same]; exact (g2 a).2.1.trans hst)
    (by rw [setShared_shared_same]; exact (g2 a).2.2.2.trans henv)
  obtain ⟨l1, l2⟩ := hl
  refine ⟨?_, ?_⟩
  · rw [l1]; show r3.2.2.g_shared_btrees.erase a = _; rw [g1]
  · rw [l2]; show r3.2.2.events.filter Event.isEnvClose ++ _ = _; rw [g4]

/-! ## `sqlite3BtreeOpen` and the registry -/

theorem regView_fields (w v : World) (h : v.regView = w.regView) :
    v.g_shared_btrees = w.g_shared_btrees ∧
    (∀ x, (v.shared x).nRef = (w.shared x).nRef ∧
      (v.shared x).dbStorage = (w.shared x).dbStorage ∧
      (v.shared x).orig_name = (w.shared x).orig_name) ∧
    (∀ q, (v.btrees q).pBt = (w.btrees q).pBt) := by
  unfold World.regView at h
  simp only [Prod.mk.injEq] at h
  obtain ⟨h1, h2, h3⟩ := h
  refine ⟨h1, ?_, ?_⟩
  · intro x
    have a1 := congrFun h2 x
    simp only [Prod.mk.injEq] at a1
    exact a1
  · intro q
    exact congrFun h3 q

theorem btreeGetSharedBtree_loop_none (w : World) (name : List Char) (db : Nat) :
    ∀ l : List Nat, (∀ x ∈ l, (w.shared x).orig_name ≠ some name) →
      btreeGetSharedBtree_loop w name db DB_STORE_NAMED l = (SQLITE_OK, none, w) := by
  intro l
  induction l with
  | nil => intro _; rfl
  | cons x rest ih =>
    intro h
    unfold btreeGetSharedBtree_loop
    have hx := h x (List.mem_cons_self _ _)
    simp only [ne_eq, not_true_eq_false, false_and, hx, and_false, or_self, if_false]
    exact ih (fun y hy => h y (List.mem_cons_of_mem _ hy))

theorem btreeGetSharedBtree_loop_last (w : World) (name : List Char) (db a : Nat)
    (ha : (w.shared a).orig_name = some name) :
    ∀ l : List Nat, (∀ x ∈ l, (w.shared x).orig_name ≠ some name) →
      btreeGetSharedBtree_loop w name db DB_STORE_NAMED (l ++ [a])
        = if attachedTo w db a then (SQLITE_CONSTRAINT, none, w)
          else (SQLITE_OK, some a,
            w.setShared a { w.shared a with nRef := wrap32 ((w.shared a).nRef + 1) }) := by
  intro l
  induction l with
  | nil =>
    intro _
    simp only [List.nil_append]
    unfold btreeGetSharedBtree_loop
    simp [ha]
  | cons x rest ih =>
    intro h
    rw [List.cons_append]
    unfold btreeGetSharedBtree_loop
    have hx := h x (List.mem_cons_self _ _)
    simp only [ne_eq, not_true_eq_false, false_and, hx, and_false, or_self, if_false]
    exact ih (fun y hy => h y (List.mem_cons_of_mem _ hy))

theorem btreeCreateSharedBtree_named (w : World) (p : Nat) (z : List Char) (flags : Nat) :
    (btreeCreateSharedBtree w p (some z) flags DB_STORE_NAMED).1 = 0 ∧
    (btreeCreateSharedBtree w p (some z) flags DB_STORE_NAMED).2.g_shared_btrees
      = w.g_shared_btrees ∧
    ((btreeCreateSharedBtree w p (some z) flags DB_STORE_NAMED).2.shared w.addrs).nRef = 1 ∧
    ((btreeCreateSharedBtree w p (some z) flags DB_STORE_NAMED).2.shared w.addrs).dbStorage
      = DB_STORE_NAMED ∧
    ((btreeCreateSharedBtree w p (some z) flags DB_STORE_NAMED).2.shared w.addrs).orig_name
      = some z ∧
    ((btreeCreateSharedBtree w p (some z) flags DB_STORE_NAMED).2.shared w.addrs).resultsBuffer
      = false ∧
    (∀ x, x ≠ w.addrs →
      (btreeCreateSharedBtree w p (some z) flags DB_STORE_NAMED).2.shared x = w.shared x) ∧
    ((btreeCreateSharedBtree w p (some z) flags DB_STORE_NAMED).2.btrees p).pBt
      = some w.addrs ∧
    (∀ r, r ≠ p →
      (btreeCreateSharedBtree w p (some z) flags DB_STORE_NAMED).2.btrees r = w.btrees r) ∧
    (btreeCreateSharedBtree w p (some z) flags DB_STORE_NAMED).2.addrs = w.addrs + 1 := by
  unfold btreeCreateSharedBtree
  refine ⟨rfl, rfl, ?_, ?_, ?_, ?_, ?_, ?_, ?_, rfl⟩
  · simp
  · simp
  · simp
  · simp
  · intro x hx
    simp [setShared_shared_other _ _ _ _ hx]
  · simp
  · intro r hr
    simp [setBtree_btrees_other _ _ _ _ hr]

theorem sqlite3BtreeOpen_new_spec (ops : EnvOps) (hops : ops.keepsRegistry) (w : World)
    (p : Nat) (z : List Char) (flags : Nat) (q : Nat) (v : World)
    (ho : sqlite3BtreeOpen_new ops w p (some z) flags DB_STORE_NAMED = (SQLITE_OK, some q, v)) :
    q = p ∧
    v.g_shared_btrees = w.g_shared_btrees ++ [w.addrs] ∧
    (v.shared w.addrs).nRef = 1 ∧
    (v.shared w.addrs).dbStorage = DB_STORE_NAMED ∧
    (v.shared w.addrs).orig_name = some z ∧
    (∀ x, x ≠ w.addrs → (v.shared x).orig_name = (w.shared x).orig_name) ∧
    (v.btrees p).pBt = some w.addrs ∧
    w.addrs + 1 ≤ v.addrs := by
  obtain ⟨c1, c2, c3, c4, c5, c6, c7, c8, _, c10⟩ := btreeCreateSharedBtree_named w p z flags
  unfold sqlite3BtreeOpen_new at ho
  simp only [] at ho
  rw [if_neg (not_not.mpr c1)] at ho
  have ha : (btreeCreateSharedBtree w p (some z) flags DB_STORE_NAMED).2.btAddr p = w.addrs := by
    unfold World.btAddr
    rw [c8]
    rfl
  rw [ha, c6] at ho
  simp only [Bool.not_false, if_true] at ho
  obtain ⟨hv, hadd⟩ := hops.2 (btreeCreateSharedBtree w p (some z) flags DB_STORE_NAMED).2 p
  generalize btreeCreateSharedBtree w p (some z) flags DB_STORE_NAMED = c
    at c2 c3 c4 c5 c7 c8 c10 ho hv hadd
  obtain ⟨g1, g2, g3⟩ := regView_fields _ _ hv
  generalize ops.btreePrepareEnvironment c.2 p = e at ho g1 g2 g3 hadd
  by_cases he : e.1 = 0
  · rw [if_neg (not_not.mpr he)] at ho
    simp only [Prod.mk.injEq, Option.some.injEq, true_and] at ho
    obtain ⟨hq, hv2⟩ := ho
    subst hv2
    refine ⟨hq.symm, ?_, ?_, ?_, ?_, ?_, ?_, ?_⟩
    · show e.2.g_shared_btrees ++ [w.addrs] = _
      rw [g1, c2]
    · show (e.2.shared w.addrs).nRef = 1
      rw [(g2 _).1, c3]
    · show (e.2.shared w.addrs).dbStorage = _
      rw [(g2 _).2.1, c4]
    · show (e.2.shared w.addrs).orig_name = _
      rw [(g2 _).2.2, c5]
    · intro x hx
      show (e.2.shared x).orig_name = _
      rw [(g2 _).2.2, c7 x hx]
    · show (e.2.btrees p).pBt = _
      rw [g3, c8]
    · show w.addrs + 1 ≤ e.2.addrs
      omega
  · rw [if_pos he] at ho
    simp only [Prod.mk.injEq] at ho
    exact absurd ho.1 he

theorem sqlite3BtreeOpen_shared_spec (ops : EnvOps) (hops : ops.keepsRegistry) (w : World)
    (p a : Nat) (q : Nat) (v : World)
    (ho : sqlite3BtreeOpen_shared ops w p a = (SQLITE_OK, some q, v)) :
    q = p ∧
    v.g_shared_btrees = w.g_shared_btrees ∧
    (∀ x, (v.shared x).nRef = (w.shared x).nRef ∧
      (v.shared x).dbStorage = (w.shared x).dbStorage ∧
      (v.shared x).orig_name = (w.shared x).orig_name) ∧
    (v.btrees p).pBt = some a ∧
    (∀ r, r ≠ p → (v.btrees r).pBt = (w.btrees r).pBt) := by
  unfold sqlite3BtreeOpen_shared at ho
  simp only [] at ho
  obtain ⟨hv, _⟩ := hops.1 (w.setBtree p { w.btrees p with pBt := some a }) p false
  obtain ⟨g1, g2, g3⟩ := regView_fields _ _ hv
  generalize ops.btreeOpenEnvironment (w.setBtree p { w.btrees p with pBt := some a }) p false
    = o at ho g1 g2 g3
  by_cases h : o.1 = SQLITE_OK
  · rw [if_neg (not_not.mpr h)] at ho
    simp only [Prod.mk.injEq, Option.some.injEq, true_and] at ho
    obtain ⟨hq, hv2⟩ := ho
    subst hv2
    refine ⟨hq.symm, g1, g2, ?_, ?_⟩
    · rw [g3, setBtree_btrees_same]
    · intro r hr
      rw [g3, setBtree_btrees_other _ _ _ _ hr]
  · rw [if_pos h] at ho
    simp only [Prod.mk.injEq] at ho
    exact absurd ho.1 h

theorem sqlite3BtreeOpen_first (ops : EnvOps) (hops : ops.keepsRegistry) (w : World)
    (z : List Char) (db flags vfsFlags p : Nat) (v : World)
    (hs : openStore (some z) flags vfsFlags = DB_STORE_NAMED)
    (hnone : ∀ x ∈ w.g_shared_btrees, (w.shared x).orig_name ≠ some (stripDotSlash z))
    (ho : sqlite3BtreeOpen ops w (some z) db flags vfsFlags = (SQLITE_OK, some p, v)) :
    p = w.addrs ∧
    v.g_shared_btrees = w.g_shared_btrees ++ [w.addrs + 1] ∧
    (v.shared (w.addrs + 1)).nRef = 1 ∧
    (v.shared (w.addrs + 1)).dbStorage = DB_STORE_NAMED ∧
    (v.shared (w.addrs + 1)).orig_name = some (stripDotSlash z) ∧
    (∀ x, x ≠ w.addrs + 1 → (v.shared x).orig_name = (w.shared x).orig_name) ∧
    (v.btrees p).pBt = some (w.addrs + 1) ∧
    w.addrs + 2 ≤ v.addrs := by
  have hloop : ∀ b : Btree,
      btreeGetSharedBtree_loop ({ w with addrs := w.addrs + 1 }.setBtree w.addrs b)
        (stripDotSlash z) db DB_STORE_NAMED
        ({ w with addrs := w.addrs + 1 }.setBtree w.addrs b).g_shared_btrees
      = (SQLITE_OK, none, { w with addrs := w.addrs + 1 }.setBtree w.addrs b) := by
    intro b
    exact btreeGetSharedBtree_loop_none
      ({ w with addrs := w.addrs + 1 }.setBtree w.addrs b) (stripDotSlash z) db
      w.g_shared_btrees hnone
  unfold sqlite3BtreeOpen at ho
  simp only [hs, if_true, Option.map_some', Option.getD_some, btreeGetSharedBtree] at ho
  rw [hloop] at ho
  rw [if_neg (not_not.mpr rfl)] at ho
  simp only [] at ho
  obtain ⟨h1, h2, h3, h4, h5, h6, h7, h8⟩ := sqlite3BtreeOpen_new_spec ops hops _ _ _ _ _ _ ho
  subst h1
  exact ⟨rfl, h2, h3, h4, h5, h6, h7, by
    have : w.addrs + 1 + 1 ≤ v.addrs := h8
    omega⟩

theorem sqlite3BtreeOpen_second (ops : EnvOps) (hops : ops.keepsRegistry) (w : World)
    (z : List Char) (db flags vfsFlags p : Nat) (v : World) (a : Nat) (reg : List Nat)
    (hs : openStore (some z) flags vfsFlags = DB_STORE_NAMED)
    (hreg : w.g_shared_btrees = reg ++ [a])
    (hnone : ∀ x ∈ reg, (w.shared x).orig_name ≠ some (stripDotSlash z))
    (ha : (w.shared a).orig_name = some (stripDotSlash z))
    (ho : sqlite3BtreeOpen ops w (some z) db flags vfsFlags = (SQLITE_OK, some p, v)) :
    p = w.addrs ∧
    v.g_shared_btrees = w.g_shared_btrees ∧
    (v.shared a).nRef = wrap32 ((w.shared a).nRef + 1) ∧
    (v.shared a).dbStorage = (w.shared a).dbStorage ∧
    (v.btrees p).pBt = some a ∧
    (∀ r, r ≠ p → (v.btrees r).pBt = (w.btrees r).pBt) := by
  have hloop : ∀ b : Btree,
      btreeGetSharedBtree_loop ({ w with addrs := w.addrs + 1 }.setBtree w.addrs b)
        (stripDotSlash z) db DB_STORE_NAMED
        ({ w with addrs := w.addrs + 1 }.setBtree w.addrs b).g_shared_btrees
      = if attachedTo ({ w with addrs := w.addrs + 1 }.setBtree w.addrs b) db a then
          (SQLITE_CONSTRAINT, none, { w with addrs := w.addrs + 1 }.setBtree w.addrs b)
        else (SQLITE_OK, some a,
          ({ w with addrs := w.addrs + 1 }.setBtree w.addrs b).setShared a
            { w.shared a with nRef := wrap32 ((w.shared a).nRef + 1) }) := by
    intro b
    have h := btreeGetSharedBtree_loop_last
      ({ w with addrs := w.addrs + 1 }.setBtree w.addrs b) (stripDotSlash z) db a ha reg hnone
    rw [← hreg] at h
    exact h
  unfold sqlite3BtreeOpen at ho
  simp only [hs, if_true, Option.map_some', Option.getD_some, btreeGetSharedBtree] at ho
  rw [hloop] at ho
  have hc : SQLITE_CONSTRAINT ≠ SQLITE_OK := by decide
  generalize hatt : attachedTo _ db a = att at ho
  cases att
  · simp only [Bool.false_eq_true, if_false] at ho
    rw [if_neg (not_not.mpr rfl)] at ho
    obtain ⟨h1, h2, h3, h4, h5⟩ := sqlite3BtreeOpen_shared_spec ops hops _ _ _ _ _ ho
    subst h1
    refine ⟨rfl, h2, ?_, ?_, h4, ?_⟩
    · rw [(h3 a).1, setShared_shared_same]
    · rw [(h3 a).2.1, setShared_shared_same]
    · intro r hr
      rw [h5 r hr]
      show (({ w with addrs := w.addrs + 1 }.setBtree w.addrs _).btrees r).pBt = _
      rw [setBtree_btrees_other _ _ _ _ hr]
  · simp only [if_true] at ho
    rw [if_pos hc] at ho
    simp only [Prod.mk.injEq] at ho
    exact absurd ho.1 hc

theorem regView_of (w v : World) (h1 : v.g_shared_btrees = w.g_shared_btrees)
    (h2 : ∀ x, (v.shared x).nRef = (w.shared x).nRef ∧
      (v.shared x).dbStorage = (w.shared x).dbStorage ∧
      (v.shared x).orig_name = (w.shared x).orig_name)
    (h3 : ∀ q, (v.btrees q).pBt = (w.btrees q).pBt) :
    v.regView = w.regView := by
  unfold World.regView
  rw [h1]
  have e1 : (fun a => ((v.shared a).nRef, (v.shared a).dbStorage, (v.shared a).orig_name))
      = (fun a => ((w.shared a).nRef, (w.shared a).dbStorage, (w.shared a).orig_name)) := by
    funext x
    rw [(h2 x).1, (h2 x).2.1, (h2 x).2.2]
  have e2 : (fun q => (v.btrees q).pBt) = (fun q => (w.btrees q).pBt) := by
    funext q; exact h3 q
  rw [e1, e2]

theorem setShared_regView (w : World) (a : Nat) (s : BtShared)
    (h1 : s.nRef = (w.shared a).nRef) (h2 : s.dbStorage = (w.shared a).dbStorage)
    (h3 : s.orig_name = (w.shared a).orig_name) :
    (w.setShared a s).regView = w.regView := by
  apply regView_of
  · rfl
  · intro x
    by_cases hx : x = a
    · subst hx
      rw [setShared_shared_same]
      exact ⟨h1, h2, h3⟩
    · rw [setShared_shared_other _ _ _ _ hx]
      exact ⟨rfl, rfl, rfl⟩
  · intro q; rfl

theorem setBtree_regView (w : World) (p : Nat) (b : Btree) (h : b.pBt = (w.btrees p).pBt) :
    (w.setBtree p b).regView = w.regView := by
  apply regView_of
  · rfl
  · intro x; exact ⟨rfl, rfl, rfl⟩
  · intro q
    by_cases hq : q = p
    · subst hq
      rw [setBtree_btrees_same]
      exact h
    · rw [setBtree_btrees_other _ _ _ _ hq]

theorem EnvOps.simple_keepsRegistry : EnvOps.simple.keepsRegistry := by
  constructor
  · intro w p l
    refine ⟨?_, le_refl _⟩
    refine (setBtree_regView _ _ _ ?_).trans (setShared_regView _ _ _ ?_ ?_ ?_)
    all_goals rfl
  · intro w p
    refine ⟨?_, le_refl _⟩
    refine (setShared_regView { w with handles := w.handles + 1 } _ _ ?_ ?_ ?_).trans ?_
    all_goals rfl

/-- C6: when the environment functions leave the registry alone and the
registry (whose entries are allocated) has no entry named as the named file
`z`, two successful `sqlite3BtreeOpen` calls for `z` give two different `Btree`
handles whose `pBt` is the same `BtShared` `a`, which is once in the registry
list and has `nRef = 2`; `sqlite3BtreeClose` on the first handle leaves the
registry list as it is, `nRef = 1`, and closes no environment; when `a` has an
environment `e`, `sqlite3BtreeClose` on the second handle then takes `a` off
the registry list, which is back to what it was before the opens, and the
only environment closed by the two calls is `e`, once. -/
theorem sqlite3BtreeOpen_Close_refcount (ops : EnvOps) (hops : ops.keepsRegistry)
    (w0 w1 w2 : World) (z : List Char) (db1 db2 flags1 vfs1 flags2 vfs2 p1 p2 : Nat)
    (hs1 : openStore (some z) flags1 vfs1 = DB_STORE_NAMED)
    (hs2 : openStore (some z) flags2 vfs2 = DB_STORE_NAMED)
    (hnone : ∀ x ∈ w0.g_shared_btrees, (w0.shared x).orig_name ≠ some (stripDotSlash z))
    (hheap : ∀ x ∈ w0.g_shared_btrees, x < w0.addrs)
    (ho1 : sqlite3BtreeOpen ops w0 (some z) db1 flags1 vfs1 = (SQLITE_OK, some p1, w1))
    (ho2 : sqlite3BtreeOpen ops w1 (some z) db2 flags2 vfs2 = (SQLITE_OK, some p2, w2)) :
    ∃ a : Nat,
      p1 ≠ p2 ∧ (w2.btrees p1).pBt = some a ∧ (w2.btrees p2).pBt = some a ∧
      w2.g_shared_btrees.count a = 1 ∧ (w2.shared a).nRef = 2 ∧
      ((sqlite3BtreeClose ops w2 p1).2.g_shared_btrees = w2.g_shared_btrees ∧
        ((sqlite3BtreeClose ops w2 p1).2.shared a).nRef = 1 ∧
        (sqlite3BtreeClose ops w2 p1).2.events.filter Event.isEnvClose
          = w2.events.filter Event.isEnvClose) ∧
      (∀ e : Nat, (w2.shared a).dbenv = some e →
        a ∉ (sqlite3BtreeClose ops (sqlite3BtreeClose ops w2 p1).2 p2).2.g_shared_btrees ∧
        (sqlite3BtreeClose ops (sqlite3BtreeClose ops w2 p1).2 p2).2.g_shared_btrees
          = w0.g_shared_btrees ∧
        (sqlite3BtreeClose ops (sqlite3BtreeClose ops w2 p1).2 p2).2.events.filter
            Event.isEnvClose
          = w2.events.filter Event.isEnvClose ++ [Event.env_close e]) := by
  obtain ⟨f1, f2, f3, f4, f5, f6, f7, f8⟩ :=
    sqlite3BtreeOpen_first ops hops w0 z db1 flags1 vfs1 p1 w1 hs1 hnone ho1
  have hfresh : w0.addrs + 1 ∉ w0.g_shared_btrees := fun h => by
    have := hheap _ h
    omega
  have hnone1 : ∀ x ∈ w0.g_shared_btrees, (w1.shared x).orig_name ≠ some (stripDotSlash z) := by
    intro x hx
    have hlt := hheap x hx
    rw [f6 x (by omega)]
    exact hnone x hx
  obtain ⟨s1, s2, s3, s4, s5, s6⟩ :=
    sqlite3BtreeOpen_second ops hops w1 z db2 flags2 vfs2 p2 w2 (w0.addrs + 1)
      w0.g_shared_btrees hs2 f2 hnone1 f5 ho2
  have hne : p1 ≠ p2 := by omega
  have hp1 : (w2.btrees p1).pBt = some (w0.addrs + 1) := by rw [s6 p1 hne, f7]
  have hn2 : (w2.shared (w0.addrs + 1)).nRef = 2 := by
    rw [s3, f3]
    decide
  have hst2 : (w2.shared (w0.addrs + 1)).dbStorage = DB_STORE_NAMED := by rw [s4, f4]
  have hreg2 : w2.g_shared_btrees = w0.g_shared_btrees ++ [w0.addrs + 1] := by rw [s2, f2]
  obtain ⟨c1, c2, c3, c4, c5⟩ := sqlite3BtreeClose_keep ops w2 p1 (w0.addrs + 1) hp1
    (by rw [hn2]; decide)
  refine ⟨w0.addrs + 1, hne, hp1, s5, ?_, hn2, ⟨c1, ?_, c5⟩, ?_⟩
  · rw [hreg2, List.count_append, List.count_eq_zero_of_not_mem hfresh]
    simp
  · rw [c2, hn2]
    decide
  · intro e he
    obtain ⟨d1, d2⟩ := sqlite3BtreeClose_final ops (sqlite3BtreeClose ops w2 p1).2 p2
      (w0.addrs + 1) e (by rw [c4, s5]) (by rw [c2, hn2]; decide)
      (by rw [(c3 _).1, hst2]) (by rw [(c3 _).2, he])
    have hback : (sqlite3BtreeClose ops (sqlite3BtreeClose ops w2 p1).2 p2).2.g_shared_btrees
        = w0.g_shared_btrees := by
      rw [d1, c1, hreg2, List.erase_append_right _ hfresh]
      simp
    refine ⟨?_, hback, ?_⟩
    · rw [hback]; exact hfresh
    · rw [d2, c5]

/-- C6, witness: "t.db" opened from `World.empty` by the database contexts 0
and 1 (handles 1 and 3, `BtShared` 2, environment 1), then closed twice. -/
theorem sqlite3BtreeOpen_Close_refcount_witness :
    (World.open2.shared 2).dbenv = some 1 ∧
    ∃ a : Nat,
      (1 : Nat) ≠ 3 ∧ (World.open2.btrees 1).pBt = some a ∧
      (World.open2.btrees 3).pBt = some a ∧
      World.open2.g_shared_btrees.count a = 1 ∧ (World.open2.shared a).nRef = 2 ∧
      ((sqlite3BtreeClose EnvOps.simple World.open2 1).2.g_shared_btrees
          = World.open2.g_shared_btrees ∧
        ((sqlite3BtreeClose EnvOps.simple World.open2 1).2.shared a).nRef = 1 ∧
        (sqlite3BtreeClose EnvOps.simple World.open2 1).2.events.filter Event.isEnvClose
          = World.open2.events.filter Event.isEnvClose) ∧
      (∀ e : Nat, (World.open2.shared a).dbenv = some e →
        a ∉ (sqlite3BtreeClose EnvOps.simple
          (sqlite3BtreeClose EnvOps.simple World.open2 1).2 3).2.g_shared_btrees ∧
        (sqlite3BtreeClose EnvOps.simple
          (sqlite3BtreeClose EnvOps.simple World.open2 1).2 3).2.g_shared_btrees
          = World.empty.g_shared_btrees ∧
        (sqlite3BtreeClose EnvOps.simple
          (sqlite3BtreeClose EnvOps.simple World.open2 1).2 3).2.events.filter
            Event.isEnvClose
          = World.open2.events.filter Event.isEnvClose ++ [Event.env_close e]) :=
  ⟨rfl,
    sqlite3BtreeOpen_Close_refcount EnvOps.simple EnvOps.simple_keepsRegistry
      World.empty World.open1 World.open2 ['t', '.', 'd', 'b'] 0 1 0 0 0 0 1 3
      (by decide) (by decide) (fun x hx => absurd hx (List.not_mem_nil x))
      (fun x hx => absurd hx (List.not_mem_nil x)) rfl rfl⟩

/-! ## Tripping the watchers -/

theorem dbc_close_opt_frame (w : World) (d : Option Nat) :
    (dbc_close_opt w d).2.cursors = w.cursors ∧ (dbc_close_opt w d).2.dbcs = w.dbcs ∧
    (dbc_close_opt w d).2.dbhs = w.dbhs ∧ (dbc_close_opt w d).2.shared = w.shared ∧
    (dbc_close_opt w d).2.btrees = w.btrees := by
  cases d with
  | none => exact ⟨rfl, rfl, rfl, rfl, rfl⟩
  | some c =>
    unfold dbc_close_opt dbc_close World.engine
    cases w.faults <;> exact ⟨rfl, rfl, rfl, rfl, rfl⟩

/-- What `btreeTripCursor` does: only the cursor `pC` changes; it loses its
engine cursor, and it is left in `CURSOR_REQUIRESEEK` unless it is an
incremental-blob cursor tripped by another kind of update. -/
theorem btreeTripCursor_spec (w : World) (pC : Nat) (incr : Bool) :
    (∀ x, x ≠ pC → (btreeTripCursor w pC incr).2.cursors x = w.cursors x) ∧
    (btreeTripCursor w pC incr).2.dbcs = w.dbcs ∧
    (btreeTripCursor w pC incr).2.dbhs = w.dbhs ∧
    (btreeTripCursor w pC incr).2.shared = w.shared ∧
    (btreeTripCursor w pC incr).2.btrees = w.btrees ∧
    ((btreeTripCursor w pC incr).2.cursors pC).dbc = none ∧
    ((btreeTripCursor w pC incr).2.cursors pC).eState
      = (if (w.cursors pC).isIncrblobHandle ∧ !incr then CURSOR_INVALID
         else CURSOR_REQUIRESEEK) := by
  unfold btreeTripCursor
  simp only []
  generalize hw1 : w.setCursor pC _ = w1
  obtain ⟨f1, f2, f3, f4, f5⟩ := dbc_close_opt_frame w1 (w.cursors pC).dbc
  refine ⟨?_, ?_, ?_, ?_, ?_, ?_, ?_⟩
  · intro x hx
    rw [setCursor_cursors_other _ _ _ _ hx, f1, ← hw1, setCursor_cursors_other _ _ _ _ hx]
  · rw [setCursor_dbcs, f2, ← hw1]; rfl
  · rw [setCursor_dbhs, f3, ← hw1]; rfl
  · rw [setCursor_shared, f4, ← hw1]; rfl
  · rw [setCursor_btrees, f5, ← hw1]; rfl
  · rw [setCursor_cursors_same]
    show ((dbc_close_opt w1 (w.cursors pC).dbc).2.cursors pC).dbc = none
    rw [f1, ← hw1, setCursor_cursors_same]
  · rw [setCursor_cursors_same]
    show ((dbc_close_opt w1 (w.cursors pC).dbc).2.cursors pC).eState = _
    rw [f1, ← hw1, setCursor_cursors_same]

/-- A cursor that is no longer valid is left alone by the loop of
`btreeTripWatchers`. -/
theorem btreeTripWatchers_loop_keeps (c c1 : Nat) (incr : Bool) :
    ∀ (l : List Nat) (w : World), (w.cursors c1).eState ≠ CURSOR_VALID →
      (btreeTripWatchers_loop c incr w l).2.cursors c1 = w.cursors c1 := by
  intro l
  induction l with
  | nil => intro w _; rfl
  | cons pC rest ih =>
    intro w h
    unfold btreeTripWatchers_loop
    simp only []
    split
    · exact ih w h
    · rename_i hcond
      split
      · exact ih w h
      · have hne : c1 ≠ pC := by
          intro heq
          subst heq
          simp only [not_or, not_not] at hcond
          exact h hcond.2.2.2
        obtain ⟨t1, _, _, _, _, _, _⟩ := btreeTripCursor_spec w pC incr
        split
        · exact t1 c1 hne
        · rw [ih _ (by rw [t1 c1 hne]; exact h)]
          exact t1 c1 hne

/-- The loop of `btreeTripWatchers` over a list that holds a watching cursor
`c1`: when the loop succeeds, `c1` is in `CURSOR_REQUIRESEEK` without an
engine cursor. -/
theorem btreeTripWatchers_loop_trips (c c1 : Nat) :
    ∀ (l : List Nat) (w : World), c1 ∈ l → c1 ≠ c →
      (w.cursors c1).pBtree = (w.cursors c).pBtree →
      (w.cursors c1).tableIndex = (w.cursors c).tableIndex →
      (w.cursors c1).eState = CURSOR_VALID →
      (w.cursors c1).isIncrblobHandle = false →
      dbc_cmp_opt w (w.cursors c).dbc (w.cursors c1).dbc = (0, 0) →
      (btreeTripWatchers_loop c false w l).1 = SQLITE_OK →
      ((btreeTripWatchers_loop c false w l).2.cursors c1).eState = CURSOR_REQUIRESEEK ∧
      ((btreeTripWatchers_loop c false w l).2.cursors c1).dbc = none := by
  intro l
  induction l with
  | nil => intro w h; simp at h
  | cons pC rest ih =>
    intro w hmem hne hb ht hv hi hcmp hok
    unfold btreeTripWatchers_loop at hok ⊢
    simp only [] at hok ⊢
    obtain ⟨t1, t2, t3, _, _, t6, t7⟩ := btreeTripCursor_spec w pC false
    by_cases hpc : pC = c1
    · subst hpc
      have hc1 : ¬ (pC = c ∨ (w.cursors c).pBtree ≠ (w.cursors pC).pBtree ∨
          (w.cursors pC).tableIndex ≠ (w.cursors c).tableIndex ∨
          (w.cursors pC).eState ≠ CURSOR_VALID) := by
        simp only [not_or, not_not]
        exact ⟨hne, hb.symm, ht, hv⟩
      have hc2 : ¬ ((w.cursors pC).multiGetPtr = none ∧
          ((dbc_cmp_opt w (w.cursors c).dbc (w.cursors pC).dbc).1 ≠ 0 ∨
            (dbc_cmp_opt w (w.cursors c).dbc (w.cursors pC).dbc).2 ≠ 0)) := by
        rw [hcmp]
        simp
      rw [if_neg hc1, if_neg hc2] at hok ⊢
      by_cases hr : (btreeTripCursor w pC false).1 = SQLITE_OK
      · rw [if_neg (not_not.mpr hr)] at hok ⊢
        have hst : ((btreeTripCursor w pC false).2.cursors pC).eState = CURSOR_REQUIRESEEK := by
          rw [t7, hi]
          simp
        rw [btreeTripWatchers_loop_keeps c pC false rest _ (by rw [hst]; decide)]
        exact ⟨hst, t6⟩
      · rw [if_pos hr] at hok
        exact absurd hok hr
    · have hmem2 : c1 ∈ rest := by
        rcases List.mem_cons.mp hmem with h | h
        · exact absurd h.symm hpc
        · exact h
      split at hok
      · rename_i h1
        rw [if_pos h1]
        exact ih w hmem2 hne hb ht hv hi hcmp hok
      · rename_i h1
        rw [if_neg h1]
        split at hok
        · rename_i h2
          rw [if_pos h2]
          exact ih w hmem2 hne hb ht hv hi hcmp hok
        · rename_i h2
          rw [if_neg h2]
          have hpcc : pC ≠ c := fun h => h1 (Or.inl h)
          by_cases hr : (btreeTripCursor w pC false).1 = SQLITE_OK
          · rw [if_neg (not_not.mpr hr)] at hok ⊢
            have e1 := t1 c1 (fun h => hpc h.symm)
            have e2 := t1 c (fun h => hpcc h.symm)
            refine ih _ hmem2 hne ?_ ?_ ?_ ?_ ?_ hok
            · rw [e1, e2]; exact hb
            · rw [e1, e2]; exact ht
            · rw [e1]; exact hv
            · rw [e1]; exact hi
            · rw [e1, e2]
              have hsame : ∀ a b, dbc_cmp_opt (btreeTripCursor w pC false).2 a b
                  = dbc_cmp_opt w a b := by
                intro a b
                unfold dbc_cmp_opt dbc_cmp
                rw [t2, t3]
              rw [hsame]
              exact hcmp
          · rw [if_pos hr] at hok
            exact absurd hok hr

theorem btreeTripWatchers_trips (w : World) (c c1 : Nat) (hw : w.watches c1 c)
    (hok : (btreeTripWatchers w c false).1 = SQLITE_OK) :
    ((btreeTripWatchers w c false).2.cursors c1).eState = CURSOR_REQUIRESEEK ∧
    ((btreeTripWatchers w c false).2.cursors c1).dbc = none := by
  obtain ⟨h1, h2, h3, h4, h5, h6, h7⟩ := hw
  exact btreeTripWatchers_loop_trips c c1 _ w h2 h1 h3 h4 h5 h6 h7 hok

theorem dbc_del_opt_cursors (w : World) (d : Option Nat) :
    (dbc_del_opt w d).2.cursors = w.cursors := by
  cases d with
  | none => rfl
  | some c =>
    have key : ∀ (r : Int × World) (v : World), r.2.cursors = w.cursors →
        v.cursors = w.cursors →
        (if r.1 ≠ 0 then (r.1, r.2) else ((0 : Int), v)).2.cursors = w.cursors := by
      intro r v h1 h2
      split
      · exact h1
      · exact h2
    exact key (w.engine (if (w.dbcs c).pos.isSome then 0 else EINVAL)) _
      (engine_cursors w _) (engine_cursors w _)

theorem sqlite3BtreeDelete_seek_early (ops : EnvOps) (w : World) (c : Nat) (rc : Int)
    (h : (sqlite3BtreeDelete_seek ops w c).1 = some rc) : rc ≠ SQLITE_OK := by
  have key : ∀ (r0 : Int × World) (P : Prop) [Decidable P] (g1 : Int) (gw v1 v2 : World),
      (if r0.1 ≠ SQLITE_OK then (some r0.1, r0.2)
        else if P then
          (if g1 ≠ 0 then (some (dberr2sqlitelocked g1), gw) else (none, v1))
        else (none, v2)).1 = some rc → rc ≠ SQLITE_OK := by
    intro r0 P _ g1 gw v1 v2 h
    split at h
    · rename_i h0
      simp only [Option.some.injEq] at h
      rw [← h]
      exact h0
    · split at h
      · split at h
        · rename_i hg
          simp only [Option.some.injEq] at h
          rw [← h]
          exact fun hh => hg ((dberr2sqlitelocked_ok _).mp hh)
        · simp at h
      · simp at h
  unfold sqlite3BtreeDelete_seek at h
  simp only [] at h
  exact key _ _ _ _ _ _ h

/-- C4, counterexample: the read cursor 10 of one connection and the write
cursor 11 of another connection are on the cursor list of the same
`BtShared`, on the same table, both valid, neither an incremental-blob
cursor, and their engine cursors compare equal; `sqlite3BtreeDelete` and
`sqlite3BtreeInsert` through cursor 11 succeed and leave cursor 10 valid with
its engine cursor open. -/
theorem sqlite3BtreeDelete_other_connection :
    (10 : Nat) ∈ ((World.watch 1).shared
      ((World.watch 1).btAddr (((World.watch 1).cursors 11).pBtree.getD 0))).cursors ∧
    ((World.watch 1).cursors 11).wrFlag = true ∧
    ((World.watch 1).cursors 10).tableIndex = ((World.watch 1).cursors 11).tableIndex ∧
    ((World.watch 1).cursors 10).eState = CURSOR_VALID ∧
    ((World.watch 1).cursors 10).isIncrblobHandle = false ∧
    dbc_cmp_opt (World.watch 1) ((World.watch 1).cursors 11).dbc
      ((World.watch 1).cursors 10).dbc = (0, 0) ∧
    (sqlite3BtreeDelete EnvOps.idle (World.watch 1) 11).1 = SQLITE_OK ∧
    ((sqlite3BtreeDelete EnvOps.idle (World.watch 1) 11).2.cursors 10).eState = CURSOR_VALID ∧
    ((sqlite3BtreeDelete EnvOps.idle (World.watch 1) 11).2.cursors 10).dbc = some 20 ∧
    (sqlite3BtreeInsert EnvOps.idle (World.watch 1) 11 none 1 [98] 1 0).1 = SQLITE_OK ∧
    ((sqlite3BtreeInsert EnvOps.idle (World.watch 1) 11 none 1 [98] 1 0).2.cursors 10).eState
      = CURSOR_VALID ∧
    ((sqlite3BtreeInsert EnvOps.idle (World.watch 1) 11 none 1 [98] 1 0).2.cursors 10).dbc
      = some 20 := by
  refine ⟨by decide, rfl, rfl, rfl, rfl, rfl, rfl, rfl, rfl, rfl, rfl, rfl⟩

/-- C4, amended: let `c2` be a write cursor and `c1` a cursor that watches it
in the world in which the watchers are tripped (after the row is written for
an insert on a handle that is not buffered, after `c2` is put on its row for a
delete): `c1` is another cursor of the same connection on the cursor list, on
the same table, valid, not an incremental-blob cursor, and its engine cursor
compares equal to that of `c2`.  Then a successful `sqlite3BtreeInsert` or
`sqlite3BtreeDelete` through `c2` leaves `c1` in `CURSOR_REQUIRESEEK` with its
engine cursor closed (`dbc = NULL`). -/
theorem sqlite3BtreeInsert_Delete_trips (ops : EnvOps) (w : World) (c1 c2 : Nat)
    (hwr : (w.cursors c2).wrFlag = true) :
    (∀ (pKey : Option (List Nat)) (nKey : Int) (pData : List Nat) (nData nZero : Int),
      (sqlite3BtreeInsert_key w c2 pKey nKey pData nData).isBuffer c2 = false →
      (sqlite3BtreeInsert_put w c2 pKey nKey pData nData nZero).2.watches c1 c2 →
      (sqlite3BtreeInsert ops w c2 pKey nKey pData nData nZero).1 = SQLITE_OK →
      ((sqlite3BtreeInsert ops w c2 pKey nKey pData nData nZero).2.cursors c1).eState
        = CURSOR_REQUIRESEEK ∧
      ((sqlite3BtreeInsert ops w c2 pKey nKey pData nData nZero).2.cursors c1).dbc = none) ∧
    ((sqlite3BtreeDelete_seek ops w c2).2.watches c1 c2 →
      (sqlite3BtreeDelete ops w c2).1 = SQLITE_OK →
      ((sqlite3BtreeDelete ops w c2).2.cursors c1).eState = CURSOR_REQUIRESEEK ∧
      ((sqlite3BtreeDelete ops w c2).2.cursors c1).dbc = none) := by
  constructor
  · intro pKey nKey pData nData nZero hbuf hw hok
    have hne : c1 ≠ c2 := hw.1
    unfold sqlite3BtreeInsert at hok ⊢
    simp only [hwr, Bool.not_true, Bool.false_eq_true, if_false, hbuf] at hok ⊢
    generalize sqlite3BtreeInsert_put w c2 pKey nKey pData nData nZero = i at hw hok ⊢
    by_cases hi : i.1 = 0
    · simp only [hi, if_true] at hok ⊢
      by_cases ht : (btreeTripWatchers i.2 c2 false).1 = SQLITE_OK
      · obtain ⟨g1, g2⟩ := btreeTripWatchers_trips i.2 c2 c1 hw ht
        simp only [ht, ne_eq, not_true_eq_false, if_false] at hok ⊢
        rw [setCursor_cursors_other _ _ _ _ hne, setCursor_cursors_other _ _ _ _ hne]
        exact ⟨g1, g2⟩
      · simp only [ht, ne_eq, not_false_eq_true, if_true] at hok
        unfold MAP_ERR_LOCKED at hok
        rw [if_pos ht] at hok
        exact absurd hok ht
    · simp only [hi, if_false] at hok
      unfold MAP_ERR_LOCKED at hok
      simp only [ne_eq, not_true_eq_false, if_false, hi] at hok
      unfold dberr2sqlitelocked at hok
      simp only [] at hok
      split at hok
      · exact absurd hok (by decide)
      · exact absurd ((dberr2sqlite_ok _).mp hok) hi
  · intro hw hok
    have hne : c1 ≠ c2 := hw.1
    unfold sqlite3BtreeDelete at hok ⊢
    simp only [hwr, Bool.not_true, Bool.false_eq_true, if_false] at hok ⊢
    have hearly := sqlite3BtreeDelete_seek_early ops w c2
    generalize sqlite3BtreeDelete_seek ops w c2 = s at hw hok hearly ⊢
    obtain ⟨s1, s2⟩ := s
    cases s1 with
    | some rc =>
      simp only [] at hok
      exact absurd hok (hearly rc rfl)
    | none =>
      simp only [] at hok ⊢
      by_cases ht : (btreeTripWatchers s2 c2 false).1 = SQLITE_OK
      · obtain ⟨g1, g2⟩ := btreeTripWatchers_trips s2 c2 c1 hw ht
        simp only [ht, ne_eq, not_true_eq_false, if_false] at hok ⊢
        rw [setCursor_cursors_other _ _ _ _ hne, dbc_del_opt_cursors]
        exact ⟨g1, g2⟩
      · rw [if_pos ht] at hok
        exact absurd hok ht

/-- C4, witness: in `World.watch 2` the read cursor 10 and the write cursor 11
belong to the same connection and rest on the same row; an insert and a
delete through 11 trip 10. -/
theorem sqlite3BtreeInsert_Delete_trips_witness :
    (sqlite3BtreeInsert EnvOps.idle (World.watch 2) 11 none 1 [98] 1 0).1 = SQLITE_OK ∧
    (sqlite3BtreeDelete EnvOps.idle (World.watch 2) 11).1 = SQLITE_OK ∧
    (((sqlite3BtreeInsert EnvOps.idle (World.watch 2) 11 none 1 [98] 1 0).2.cursors 10).eState
        = CURSOR_REQUIRESEEK ∧
      ((sqlite3BtreeInsert EnvOps.idle (World.watch 2) 11 none 1 [98] 1 0).2.cursors 10).dbc
        = none) ∧
    (((sqlite3BtreeDelete EnvOps.idle (World.watch 2) 11).2.cursors 10).eState
        = CURSOR_REQUIRESEEK ∧
      ((sqlite3BtreeDelete EnvOps.idle (World.watch 2) 11).2.cursors 10).dbc = none) :=
  ⟨rfl, rfl,
    (sqlite3BtreeInsert_Delete_trips EnvOps.idle (World.watch 2) 10 11 rfl).1 none 1 [98] 1 0
      rfl ⟨by decide, by decide, rfl, rfl, rfl, rfl, rfl⟩ rfl,
    (sqlite3BtreeInsert_Delete_trips EnvOps.idle (World.watch 2) 10 11 rfl).2
      ⟨by decide, by decide, rfl, rfl, rfl, rfl, rfl⟩ rfl⟩

/-! ## Encoded integer keys in a table -/

theorem bytesLt_irrefl : ∀ a : List Nat, bytesLt a a = false := by
  intro a
  induction a with
  | nil => rfl
  | cons x xs ih => simp [bytesLt, ih]

theorem bytesLt_asymm : ∀ a b : List Nat, bytesLt a b = true → bytesLt b a = false := by
  intro a
  induction a with
  | nil =>
    intro b h
    cases b with
    | nil => rfl
    | cons y ys => rfl
  | cons x xs ih =>
    intro b h
    cases b with
    | nil => simp [bytesLt] at h
    | cons y ys =>
      simp only [bytesLt, Bool.or_eq_true, decide_eq_true_eq, Bool.and_eq_true,
        beq_iff_eq] at h
      rcases h with h | ⟨h1, h2⟩
      · have h3 : ¬ y < x := by omega
        have h4 : ¬ y = x := by omega
        simp [bytesLt, h3, h4]
      · subst h1
        simp [bytesLt, ih ys h2]

theorem encKey_lt (x y : Int) (hlo : -9223372036854775808 ≤ x) (hxy : x < y)
    (hhi : y ≤ 9223372036854775807) : bytesLt (encKey x) (encKey y) = true :=
  encodeI64_bytesLt _ _ x y hlo hxy hhi

/-- On 64-bit integers the byte order of the encoded keys is the order of
the integers. -/
theorem encKey_order (x y : Int) (hx1 : -9223372036854775808 ≤ x)
    (hx2 : x ≤ 9223372036854775807) (hy1 : -9223372036854775808 ≤ y)
    (hy2 : y ≤ 9223372036854775807) : bytesLt (encKey x) (encKey y) = decide (x < y) := by
  by_cases h : x < y
  · rw [encKey_lt x y hx1 h hy2]
    simp [h]
  · have hd : decide (x < y) = false := by simp [h]
    rw [hd]
    by_cases he : x = y
    · subst he
      exact bytesLt_irrefl _
    · exact bytesLt_asymm _ _ (encKey_lt y x hy1 (by omega) hx2)

/-- Decoding reads back `x` from any memory that holds the encoded key of `x`. -/
theorem decodeI64_of_bytes (data : Nat → Nat) (x : Int) (hlo : -9223372036854775808 ≤ x)
    (hhi : x ≤ 9223372036854775807)
    (hd : ∀ k y, (encKey x).get? k = some y → data k = y) :
    decodeI64 data ((encKey x).length : Int) = x := by
  unfold encKey at hd ⊢
  by_cases h1 : 0 ≤ x ∧ x < 9223372036854775807
  · rw [encoded_nonneg _ x h1.1 h1.2] at hd ⊢
    have hc := toU64_cast (x + 1)
    have hl := toU64_lt (x + 1)
    generalize toU64 (x + 1) = n at hc hl hd ⊢
    have hdec := decompress_compress data n (by norm_num; exact hl) hd
    obtain ⟨c, rest, hcb, hsmall, hcls⟩ := compress_head n
    have hd0 : data 0 = c := hd 0 c (by rw [hcb]; rfl)
    have hcne : c ≠ 0 := by
      by_cases hs : n ≤ 127
      · have := hsmall hs; omega
      · omega
    unfold decodeI64
    rw [if_neg (by rw [hd0]; exact hcne)]
    simp only [hdec, if_true]
    have h3 : (n + 2 ^ 64 - 1) % 2 ^ 64 = n - 1 := by
      norm_num
      omega
    rw [h3, toI64_of_lt _ (by omega)]
    omega
  · by_cases h2 : x = 9223372036854775807
    · subst h2
      rw [encoded_max] at hd ⊢
      have hdec := decompress_compress data 9223372036854775807 (by norm_num)
        (fun k y h => hd k y (by
          rw [List.get?_eq_getElem?] at h ⊢
          rw [List.getElem?_append_left (List.getElem?_eq_some.mp h).1]
          exact h))
      have hd0 : data 0 = 251 := hd 0 251 (by rw [compress_max]; rfl)
      unfold decodeI64
      rw [if_neg (by rw [hd0]; decide)]
      simp only [hdec]
      rw [compress_max]
      norm_num
      exact toI64_of_lt _ (by norm_num)
    · have hneg : x < 0 := by omega
      rw [encoded_neg _ x hneg] at hd ⊢
      have hc := toU64_cast x
      have hl := toU64_lt x
      generalize toU64 x = n at hc hl hd ⊢
      have hdec := decompress_compress (fun k => data (k + 1)) n (by norm_num; exact hl)
        (fun k y h => hd (k + 1) y (by simpa using h))
      have hd0 : data 0 = 0 := hd 0 0 rfl
      unfold decodeI64
      rw [if_pos hd0]
      simp only [hdec]
      rw [toI64_of_ge _ (by omega) hl]
      omega

theorem decodeKey_encKey (x : Int) (hlo : -9223372036854775808 ≤ x)
    (hhi : x ≤ 9223372036854775807) : decodeKey (DBT.ofBytes (encKey x)) = x := by
  unfold decodeKey DBT.ofBytes
  simp only [Option.getD_some]
  apply decodeI64_of_bytes _ x hlo hhi
  intro k y h
  unfold memOf
  rw [List.getD_eq_getElem?_getD, ← List.get?_eq_getElem?, h]
  rfl

/-! ## The engine `get` on an integer-keyed table -/

theorem engine_nofault (w : World) (h : w.faults = []) (s : Int) : w.engine s = (s, w) := by
  unfold World.engine
  rw [h]

theorem find_least (P : Int → Bool) :
    ∀ (ks : List Int), ks.Pairwise (· < ·) → ∀ j, j ∈ ks → P j = true →
      (∀ i ∈ ks, P i = true → j ≤ i) → ks.find? P = some j := by
  intro ks
  induction ks with
  | nil => intro _ j hj; simp at hj
  | cons a rest ih =>
    intro hs j hj hP hmin
    rw [List.pairwise_cons] at hs
    by_cases ha : P a = true
    · rw [List.find?_cons_of_pos _ ha]
      have h1 : j ≤ a := hmin a (List.mem_cons_self _ _) ha
      rcases List.mem_cons.mp hj with h | h
      · rw [h]
      · have := hs.1 j h
        omega
    · rw [List.find?_cons_of_neg _ ha]
      have hj2 : j ∈ rest := by
        rcases List.mem_cons.mp hj with h | h
        · rw [h] at hP; exact absurd hP ha
        · exact h
      exact ih hs.2 j hj2 hP (fun i hi => hmin i (List.mem_cons_of_mem _ hi))

theorem find_none (P : Int → Bool) (ks : List Int) (h : ∀ i ∈ ks, P i = false) :
    ks.find? P = none := by
  rw [List.find?_eq_none]
  intro i hi
  rw [h i hi]
  simp

theorem find_congr (P Q : Int → Bool) :
    ∀ (ks : List Int), (∀ i ∈ ks, P i = Q i) → ks.find? P = ks.find? Q := by
  intro ks
  induction ks with
  | nil => intro _; rfl
  | cons a rest ih =>
    intro h
    have ha := h a (List.mem_cons_self _ _)
    have hr := ih (fun i hi => h i (List.mem_cons_of_mem _ hi))
    by_cases hq : Q a = true
    · rw [List.find?_cons_of_pos _ hq, List.find?_cons_of_pos _ (by rw [ha]; exact hq)]
    · rw [List.find?_cons_of_neg _ hq, List.find?_cons_of_neg _ (by rw [ha]; exact hq), hr]

theorem getLast_max :
    ∀ (ks : List Int), ks.Pairwise (· < ·) → ∀ jl, ks.getLast? = some jl →
      jl ∈ ks ∧ ∀ i ∈ ks, i ≤ jl := by
  intro ks
  induction ks with
  | nil => intro _ jl h; simp at h
  | cons a rest ih =>
    intro hs jl h
    rw [List.pairwise_cons] at hs
    cases rest with
    | nil =>
      simp at h
      subst h
      simp
    | cons b rest2 =>
      rw [List.getLast?_cons_cons] at h
      obtain ⟨h1, h2⟩ := ih hs.2 jl h
      refine ⟨List.mem_cons_of_mem _ h1, ?_⟩
      intro i hi
      rcases List.mem_cons.mp hi with hia | hir
      · have := hs.1 jl h1
        omega
      · exact h2 i hir

/-- Finding a row by a condition on its key, when the keys are encoded
integers. -/
theorem rows_find (rows : Rows) (ks : List Int) (P : List Nat → Bool)
    (hrows : rows.map Prod.fst = ks.map encKey) :
    (rows.find? (fun r => P r.1)).map Prod.fst
      = (ks.find? (fun i => P (encKey i))).map encKey := by
  have h1 : (rows.map Prod.fst).find? P = (rows.find? (P ∘ Prod.fst)).map Prod.fst :=
    List.find?_map _ _
  have h2 : (ks.map encKey).find? P = (ks.find? (P ∘ encKey)).map encKey := List.find?_map _ _
  rw [hrows, h2] at h1
  exact h1.symm

theorem rows_find_some (rows : Rows) (ks : List Int) (P : List Nat → Bool)
    (hrows : rows.map Prod.fst = ks.map encKey) (j : Int)
    (h : ks.find? (fun i => P (encKey i)) = some j) :
    ∃ row, rows.find? (fun r => P r.1) = some row ∧ row.1 = encKey j := by
  have h1 := rows_find rows ks P hrows
  rw [h] at h1
  cases hf : rows.find? (fun r => P r.1) with
  | none => rw [hf] at h1; simp at h1
  | some row =>
    rw [hf] at h1
    simp only [Option.map_some', Option.some.injEq] at h1
    exact ⟨row, rfl, h1⟩

theorem rows_find_none (rows : Rows) (ks : List Int) (P : List Nat → Bool)
    (hrows : rows.map Prod.fst = ks.map encKey)
    (h : ks.find? (fun i => P (encKey i)) = none) :
    rows.find? (fun r => P r.1) = none := by
  have h1 := rows_find rows ks P hrows
  rw [h] at h1
  cases hf : rows.find? (fun r => P r.1) with
  | none => rfl
  | some row => rw [hf] at h1; simp at h1

theorem rows_getLast (rows : Rows) (ks : List Int)
    (hrows : rows.map Prod.fst = ks.map encKey) :
    (rows.getLast?).map Prod.fst = (ks.getLast?).map encKey := by
  rw [← List.getLast?_map, ← List.getLast?_map, hrows]

/-- What `DBC->get` gives on the engine cursor of an integer-keyed cursor when
no fault is scripted: the selected row and the cursor on it, or
`DB_NOTFOUND` and nothing changed. -/
theorem dbc_get_intCursor (w : World) (c d : Nat) (ks : List Int) (hw : w.intCursor c d ks)
    (op : GetOp) (key : List Nat) :
    dbc_get w d op key
      = match selectRow bytesLt (w.tables (w.dbhs (w.dbcs d).dbp).tid) (w.dbcs d).pos op key with
        | some row => (0, some row, w.setDbc d { w.dbcs d with pos := some row.1 })
        | none => (DB_NOTFOUND, none, w) := by
  obtain ⟨hf, _, _, _, hg, _⟩ := hw
  have hlt : w.keyLt (w.dbcs d).dbp = bytesLt := by
    unfold World.keyLt
    rw [hg]
    rfl
  unfold dbc_get
  simp only []
  rw [hlt, engine_nofault w hf]
  cases selectRow bytesLt (w.tables (w.dbhs (w.dbcs d).dbp).tid) (w.dbcs d).pos op key with
  | none =>
    have h : DB_NOTFOUND ≠ (0 : Int) := by decide
    simp [h]
  | some row => simp

theorem find_some_least (P : Int → Bool) :
    ∀ (ks : List Int), ks.Pairwise (· < ·) → ∀ j, ks.find? P = some j →
      ∀ i ∈ ks, P i = true → j ≤ i := by
  intro ks
  induction ks with
  | nil => intro _ j h; simp at h
  | cons a rest ih =>
    intro hs j h i hi hP
    rw [List.pairwise_cons] at hs
    by_cases ha : P a = true
    · rw [List.find?_cons_of_pos _ ha] at h
      have hja : a = j := Option.some.inj h
      rcases List.mem_cons.mp hi with h1 | h1
      · omega
      · have := hs.1 i h1
        omega
    · rw [List.find?_cons_of_neg _ ha] at h
      rcases List.mem_cons.mp hi with h1 | h1
      · rw [h1] at hP; exact absurd hP ha
      · exact ih hs.2 j h i h1 hP

theorem rows_getLast_some (rows : Rows) (ks : List Int)
    (hrows : rows.map Prod.fst = ks.map encKey) (j : Int) (h : ks.getLast? = some j) :
    ∃ row, rows.getLast? = some row ∧ row.1 = encKey j := by
  have h1 := rows_getLast rows ks hrows
  rw [h] at h1
  cases hf : rows.getLast? with
  | none => rw [hf] at h1; simp at h1
  | some row =>
    rw [hf] at h1
    simp only [Option.map_some', Option.some.injEq] at h1
    exact ⟨row, rfl, h1⟩

/-! ## `sqlite3BtreeNext` on a tripped cursor -/

theorem intCursor_setCursor (w : World) (c d : Nat) (ks : List Int) (cur : BtCursor)
    (h : w.intCursor c d ks) (h1 : cur.dbc = some d) (h2 : cur.flags = (w.cursors c).flags)
    (h3 : cur.pBtree = (w.cursors c).pBtree) : (w.setCursor c cur).intCursor c d ks := by
  obtain ⟨hf, _, hi, hb, hg, hr⟩ := h
  refine ⟨hf, ?_, ?_, ?_, hg, hr⟩
  · rw [setCursor_cursors_same]; exact h1
  · rw [setCursor_cursors_same]
    unfold BtCursor.intKey at hi ⊢
    rw [h2]; exact hi
  · unfold World.isBuffer World.bt at hb ⊢
    rw [setCursor_cursors_same, h3]
    exact hb

theorem intCursor_setDbc (w : World) (c d : Nat) (ks : List Int) (x : DBC)
    (h : w.intCursor c d ks) (hx : x.dbp = (w.dbcs d).dbp) :
    (w.setDbc d x).intCursor c d ks := by
  obtain ⟨hf, hd, hi, hb, hg, hr⟩ := h
  refine ⟨hf, hd, hi, hb, ?_, ?_⟩
  · rw [setDbc_dbcs_same, hx]; exact hg
  · rw [setDbc_dbcs_same, hx]; exact hr

/-- Reopening the engine cursor of a tripped cursor: the new engine cursor is
not positioned, and the cursor keeps its state and its saved key. -/
theorem btreeRestoreOpen_reopen (ops : EnvOps) (w : World) (c p : Nat) (ks : List Int)
    (hf : w.faults = []) (hst : (w.cursors c).eState = CURSOR_REQUIRESEEK)
    (hbt : (w.cursors c).pBtree = some p) (hint : (w.cursors c).intKey = true)
    (hbuf : w.isBuffer c = false) (hgen : (w.dbhs (w.cursors c).db).general = false)
    (hrows : (w.tables (w.dbhs (w.cursors c).db).tid).map Prod.fst = ks.map encKey) :
    (btreeRestoreOpen ops w c false).1 = none ∧
    (btreeRestoreOpen ops w c false).2.intCursor c w.handles ks ∧
    ((btreeRestoreOpen ops w c false).2.dbcs w.handles).pos = none ∧
    ((btreeRestoreOpen ops w c false).2.cursors c).eState = CURSOR_REQUIRESEEK ∧
    ((btreeRestoreOpen ops w c false).2.cursors c).savedIntKey = (w.cursors c).savedIntKey ∧
    (btreeRestoreOpen ops w c false).2.tables
        ((btreeRestoreOpen ops w c false).2.dbhs
          ((btreeRestoreOpen ops w c false).2.dbcs w.handles).dbp).tid
      = w.tables (w.dbhs (w.cursors c).db).tid := by
  have hr : ∃ t, btreeRestoreOpen ops w c false
      = (none, ({ (w.setCursor c { w.cursors c with txn := t }) with
                  handles := w.handles + 1,
                  dbcs := Function.update w.dbcs w.handles
                    ({ dbp := (w.cursors c).db, txn := t, pos := none } : DBC) } : World).setCursor c
                { w.cursors c with txn := t, dbc := some w.handles }) := by
    refine ⟨if (w.cursors c).wrFlag then (w.btrees p).savepoint_txn
      else (w.btrees p).read_txn, ?_⟩
    unfold btreeRestoreOpen db_cursor
    simp only []
    rw [engine_nofault _ (by rw [setCursor_faults]; exact hf)]
    simp [hst, hbt, hbuf, dberr2sqlite_ok, World.setCursor]
  obtain ⟨t, hr⟩ := hr
  rw [hr]
  refine ⟨rfl, ⟨hf, ?_, ?_, ?_, ?_, ?_⟩, ?_, ?_, ?_, ?_⟩
  · simp
  · simpa [BtCursor.intKey] using hint
  · simpa [World.isBuffer, World.bt, World.setCursor, hbt] using hbuf
  · simpa [World.setCursor] using hgen
  · simpa [World.setCursor] using hrows
  · simp [World.setCursor]
  · simpa using hst
  · simp
  · simp [World.setCursor]

theorem decodeKey_row (key : DBT) (b : List Nat) :
    decodeKey { key with data := some b, size := b.length } = decodeKey (DBT.ofBytes b) := rfl

theorem seek_some (w : World) (c d : Nat) (ks : List Int) (k : Int)
    (row : List Nat × List Nat) (hw : w.intCursor c d ks)
    (hsel : (w.tables (w.dbhs (w.dbcs d).dbp).tid).find? (fun r => !bytesLt r.1 (encKey k))
        = some row ∨
      ((w.tables (w.dbhs (w.dbcs d).dbp).tid).find? (fun r => !bytesLt r.1 (encKey k)) = none ∧
        (w.tables (w.dbhs (w.dbcs d).dbp).tid).getLast? = some row))
    (x : Option Nat) (hx : x = some d) :
    (if (dbc_get_opt w x DB_SET_RANGE (encKey k)).1 = DB_NOTFOUND then
        dbc_get_opt (dbc_get_opt w x DB_SET_RANGE (encKey k)).2.2 x DB_LAST (encKey k)
      else dbc_get_opt w x DB_SET_RANGE (encKey k))
      = (0, some row, w.setDbc d { w.dbcs d with pos := some row.1 }) := by
  subst hx
  have hg := dbc_get_intCursor _ c d ks hw DB_SET_RANGE (encKey k)
  have hl := dbc_get_intCursor _ c d ks hw DB_LAST (encKey k)
  simp only [selectRow] at hg hl
  have hnf : (0 : Int) ≠ DB_NOTFOUND := by decide
  simp only [dbc_get_opt]
  rcases hsel with h | ⟨h1, h2⟩
  · rw [h] at hg
    rw [hg]
    exact if_neg hnf
  · rw [h1] at hg
    rw [h2] at hl
    rw [hg]
    simp only [if_true]
    rw [hl]

theorem seek_none (w : World) (c d : Nat) (ks : List Int) (k : Int)
    (hw : w.intCursor c d ks) (hempty : w.tables (w.dbhs (w.dbcs d).dbp).tid = [])
    (x : Option Nat) (hx : x = some d) :
    (if (dbc_get_opt w x DB_SET_RANGE (encKey k)).1 = DB_NOTFOUND then
        dbc_get_opt (dbc_get_opt w x DB_SET_RANGE (encKey k)).2.2 x DB_LAST (encKey k)
      else dbc_get_opt w x DB_SET_RANGE (encKey k))
      = (DB_NOTFOUND, none, w) := by
  subst hx
  have hg := dbc_get_intCursor _ c d ks hw DB_SET_RANGE (encKey k)
  have hl := dbc_get_intCursor _ c d ks hw DB_LAST (encKey k)
  simp only [selectRow, hempty, List.find?_nil, List.getLast?_nil] at hg hl
  simp only [dbc_get_opt]
  rw [hg]
  simp only [if_true]
  rw [hl]

/-- The seek of `sqlite3BtreeMovetoUnpacked` on a table that is not empty:
the engine cursor rests on the first row not below the key, or on the last
row when every row is below it. -/
theorem sqlite3BtreeMovetoUnpacked_get_some (w : World) (c d : Nat) (ks : List Int)
    (k : Int) (row : List Nat × List Nat) (hw : w.intCursor c d ks)
    (hsel : (w.tables (w.dbhs (w.dbcs d).dbp).tid).find? (fun r => !bytesLt r.1 (encKey k))
        = some row ∨
      ((w.tables (w.dbhs (w.dbcs d).dbp).tid).find? (fun r => !bytesLt r.1 (encKey k)) = none ∧
        (w.tables (w.dbhs (w.dbcs d).dbp).tid).getLast? = some row)) :
    (sqlite3BtreeMovetoUnpacked_get w c none k).1 = 0 ∧
    (sqlite3BtreeMovetoUnpacked_get w c none k).2.1 = some row ∧
    (sqlite3BtreeMovetoUnpacked_get w c none k).2.2.tables
        ((sqlite3BtreeMovetoUnpacked_get w c none k).2.2.dbhs
          ((sqlite3BtreeMovetoUnpacked_get w c none k).2.2.dbcs d).dbp).tid
      = w.tables (w.dbhs (w.dbcs d).dbp).tid ∧
    (sqlite3BtreeMovetoUnpacked_get w c none k).2.2.intCursor c d ks ∧
    ((sqlite3BtreeMovetoUnpacked_get w c none k).2.2.dbcs d).pos = some row.1 ∧
    ((sqlite3BtreeMovetoUnpacked_get w c none k).2.2.cursors c).multiGetPtr = none := by
  have hdbc := hw.2.1
  have hint := hw.2.2.1
  have hw1 : (w.setCursor c { w.cursors c with multiGetPtr := none, multiPutPtr := none, key := DBT.ofBytes (encKey k), data := DBT.zero }).intCursor c d ks :=
    intCursor_setCursor w c d ks _ hw hdbc rfl rfl
  have hm : sqlite3BtreeMovetoUnpacked_get w c none k
      = (0, some row, (w.setCursor c { w.cursors c with multiGetPtr := none, multiPutPtr := none, key := DBT.ofBytes (encKey k), data := DBT.zero }).setDbc d { w.dbcs d with pos := some row.1 }) := by
    unfold sqlite3BtreeMovetoUnpacked_get
    simp only [hint, if_true]
    exact seek_some _ c d ks k row hw1 hsel _ hdbc
  rw [hm]
  refine ⟨rfl, rfl, ?_, intCursor_setDbc _ c d ks _ hw1 rfl, ?_, ?_⟩
  · simp
  · simp
  · simp

/-- The seek of `sqlite3BtreeMovetoUnpacked` on an empty table: both `get`
calls find nothing. -/
theorem sqlite3BtreeMovetoUnpacked_get_none (w : World) (c d : Nat) (ks : List Int)
    (k : Int) (hw : w.intCursor c d ks)
    (hempty : w.tables (w.dbhs (w.dbcs d).dbp).tid = []) :
    (sqlite3BtreeMovetoUnpacked_get w c none k).1 = DB_NOTFOUND ∧
    (sqlite3BtreeMovetoUnpacked_get w c none k).2.2.tables
        ((sqlite3BtreeMovetoUnpacked_get w c none k).2.2.dbhs
          ((sqlite3BtreeMovetoUnpacked_get w c none k).2.2.dbcs d).dbp).tid
      = w.tables (w.dbhs (w.dbcs d).dbp).tid ∧
    (sqlite3BtreeMovetoUnpacked_get w c none k).2.2.intCursor c d ks ∧
    ((sqlite3BtreeMovetoUnpacked_get w c none k).2.2.dbcs d).pos = (w.dbcs d).pos ∧
    ((sqlite3BtreeMovetoUnpacked_get w c none k).2.2.cursors c).multiGetPtr = none := by
  have hdbc := hw.2.1
  have hint := hw.2.2.1
  have hw1 : (w.setCursor c { w.cursors c with multiGetPtr := none, multiPutPtr := none, key := DBT.ofBytes (encKey k), data := DBT.zero }).intCursor c d ks :=
    intCursor_setCursor w c d ks _ hw hdbc rfl rfl
  have hm : sqlite3BtreeMovetoUnpacked_get w c none k
      = (DB_NOTFOUND, none, w.setCursor c { w.cursors c with multiGetPtr := none, multiPutPtr := none, key := DBT.ofBytes (encKey k), data := DBT.zero }) := by
    unfold sqlite3BtreeMovetoUnpacked_get
    simp only [hint, if_true]
    exact seek_none _ c d ks k hw1 hempty _ hdbc
  rw [hm]
  refine ⟨rfl, ?_, hw1, ?_, ?_⟩
  · simp
  · simp
  · simp

theorem sqlite3BtreeMovetoUnpacked_res_some (w : World) (c d : Nat) (ks : List Int) (k : Int)
    (row : List Nat × List Nat) (hw : w.intCursor c d ks) :
    sqlite3BtreeMovetoUnpacked_res w c none k 0 (some row)
      = (0, if decodeKey (DBT.ofBytes row.1) = k then 0
            else if decodeKey (DBT.ofBytes row.1) < k then -1 else 1,
          w.setCursor c { w.cursors c with key := DBT.ofBytes row.1, data := DBT.ofBytes row.2, savedIntKey := decodeKey (DBT.ofBytes row.1), eState := CURSOR_VALID }) := by
  unfold sqlite3BtreeMovetoUnpacked_res
  simp only [hw.2.2.1, if_true, Option.getD_some]

theorem sqlite3BtreeMovetoUnpacked_res_none (w : World) (c : Nat) (k : Int)
    (got : Option (List Nat × List Nat)) :
    sqlite3BtreeMovetoUnpacked_res w c none k DB_NOTFOUND got
      = (0, -1, w.setCursor c { w.cursors c with eState := CURSOR_INVALID }) := by
  unfold sqlite3BtreeMovetoUnpacked_res
  have hnf : DB_NOTFOUND ≠ (0 : Int) := by decide
  simp only [hnf, if_false, if_true]

/-- An integer-keyed cursor that is not already valid on the wanted key
seeks, on a table that is not empty, to the first row not below the key, or
to the last row when every row is below it; the result is the comparison of
that row's key with the wanted one. -/
theorem sqlite3BtreeMovetoUnpacked_some (ops : EnvOps) (w : World) (c d : Nat) (ks : List Int)
    (k : Int) (row : List Nat × List Nat) (hw : w.intCursor c d ks)
    (hv : ¬ ((w.cursors c).eState = CURSOR_VALID ∧ (w.cursors c).intKey = true ∧
      (w.cursors c).savedIntKey = k))
    (hsel : (w.tables (w.dbhs (w.dbcs d).dbp).tid).find? (fun r => !bytesLt r.1 (encKey k))
        = some row ∨
      ((w.tables (w.dbhs (w.dbcs d).dbp).tid).find? (fun r => !bytesLt r.1 (encKey k)) = none ∧
        (w.tables (w.dbhs (w.dbcs d).dbp).tid).getLast? = some row)) :
    (sqlite3BtreeMovetoUnpacked ops w c none k).1 = SQLITE_OK ∧
    (sqlite3BtreeMovetoUnpacked ops w c none k).2.2.tables
        ((sqlite3BtreeMovetoUnpacked ops w c none k).2.2.dbhs
          ((sqlite3BtreeMovetoUnpacked ops w c none k).2.2.dbcs d).dbp).tid
      = w.tables (w.dbhs (w.dbcs d).dbp).tid ∧
    (sqlite3BtreeMovetoUnpacked ops w c none k).2.1
      = some (if decodeKey (DBT.ofBytes row.1) = k then 0
              else if decodeKey (DBT.ofBytes row.1) < k then -1 else 1) ∧
    (sqlite3BtreeMovetoUnpacked ops w c none k).2.2.intCursor c d ks ∧
    ((sqlite3BtreeMovetoUnpacked ops w c none k).2.2.dbcs d).pos = some row.1 ∧
    ((sqlite3BtreeMovetoUnpacked ops w c none k).2.2.cursors c).eState = CURSOR_VALID ∧
    ((sqlite3BtreeMovetoUnpacked ops w c none k).2.2.cursors c).savedIntKey
      = decodeKey (DBT.ofBytes row.1) ∧
    ((sqlite3BtreeMovetoUnpacked ops w c none k).2.2.cursors c).skipMulti = true ∧
    ((sqlite3BtreeMovetoUnpacked ops w c none k).2.2.cursors c).multiGetPtr = none ∧
    ((sqlite3BtreeMovetoUnpacked ops w c none k).2.2.cursors c).key = DBT.ofBytes row.1 := by
  obtain ⟨g1, g2, g0, g3, g4, g5⟩ := sqlite3BtreeMovetoUnpacked_get_some w c d ks k row hw hsel
  have hdbc : (w.cursors c).dbc ≠ none := by rw [hw.2.1]; simp
  generalize hG : sqlite3BtreeMovetoUnpacked_get w c none k = G at g1 g2 g0 g3 g4 g5
  have hm : sqlite3BtreeMovetoUnpacked ops w c none k
      = (SQLITE_OK, some (if decodeKey (DBT.ofBytes row.1) = k then 0
              else if decodeKey (DBT.ofBytes row.1) < k then -1 else 1),
          (G.2.2.setCursor c { G.2.2.cursors c with key := DBT.ofBytes row.1, data := DBT.ofBytes row.2, savedIntKey := decodeKey (DBT.ofBytes row.1), eState := CURSOR_VALID }).setCursor c { G.2.2.cursors c with key := DBT.ofBytes row.1, data := DBT.ofBytes row.2, savedIntKey := decodeKey (DBT.ofBytes row.1), eState := CURSOR_VALID, skipMulti := true }) := by
    unfold sqlite3BtreeMovetoUnpacked
    simp only []
    rw [if_neg hdbc]
    simp only [ne_eq, not_true_eq_false, if_false]
    rw [if_neg hv, hG, g1, g2, sqlite3BtreeMovetoUnpacked_res_some _ c d ks k row g3]
    simp only [if_true, setCursor_cursors_same]
  rw [hm]
  refine ⟨rfl, ?_, rfl, ?_, ?_, ?_, ?_, ?_, ?_, ?_⟩
  · simpa using g0
  · exact intCursor_setCursor _ c d ks _ (intCursor_setCursor _ c d ks _ g3 g3.2.1 rfl rfl)
      (by simp [g3.2.1]) (by simp) (by simp)
  · simpa using g4
  · simp
  · simp
  · simp
  · simpa using g5
  · simp

/-- An integer-keyed cursor that is not already valid on the wanted key seeks
on an empty table: the result is -1 and the cursor is `CURSOR_INVALID`. -/
theorem sqlite3BtreeMovetoUnpacked_none (ops : EnvOps) (w : World) (c d : Nat) (ks : List Int)
    (k : Int) (hw : w.intCursor c d ks)
    (hv : ¬ ((w.cursors c).eState = CURSOR_VALID ∧ (w.cursors c).intKey = true ∧
      (w.cursors c).savedIntKey = k))
    (hempty : w.tables (w.dbhs (w.dbcs d).dbp).tid = []) :
    (sqlite3BtreeMovetoUnpacked ops w c none k).1 = SQLITE_OK ∧
    (sqlite3BtreeMovetoUnpacked ops w c none k).2.2.tables
        ((sqlite3BtreeMovetoUnpacked ops w c none k).2.2.dbhs
          ((sqlite3BtreeMovetoUnpacked ops w c none k).2.2.dbcs d).dbp).tid
      = w.tables (w.dbhs (w.dbcs d).dbp).tid ∧
    (sqlite3BtreeMovetoUnpacked ops w c none k).2.1 = some (-1) ∧
    (sqlite3BtreeMovetoUnpacked ops w c none k).2.2.intCursor c d ks ∧
    ((sqlite3BtreeMovetoUnpacked ops w c none k).2.2.dbcs d).pos = (w.dbcs d).pos ∧
    ((sqlite3BtreeMovetoUnpacked ops w c none k).2.2.cursors c).eState = CURSOR_INVALID ∧
    ((sqlite3BtreeMovetoUnpacked ops w c none k).2.2.cursors c).skipMulti = true ∧
    ((sqlite3BtreeMovetoUnpacked ops w c none k).2.2.cursors c).multiGetPtr = none := by
  obtain ⟨g1, g0, g3, g4, g5⟩ := sqlite3BtreeMovetoUnpacked_get_none w c d ks k hw hempty
  have hdbc : (w.cursors c).dbc ≠ none := by rw [hw.2.1]; simp
  generalize hG : sqlite3BtreeMovetoUnpacked_get w c none k = G at g1 g0 g3 g4 g5
  have hm : sqlite3BtreeMovetoUnpacked ops w c none k
      = (SQLITE_OK, some (-1),
          (G.2.2.setCursor c { G.2.2.cursors c with eState := CURSOR_INVALID }).setCursor c { G.2.2.cursors c with eState := CURSOR_INVALID, skipMulti := true }) := by
    unfold sqlite3BtreeMovetoUnpacked
    simp only []
    rw [if_neg hdbc]
    simp only [ne_eq, not_true_eq_false, if_false]
    rw [if_neg hv, hG, g1, sqlite3BtreeMovetoUnpacked_res_none]
    simp only [if_true, setCursor_cursors_same]
  rw [hm]
  refine ⟨rfl, ?_, rfl, ?_, ?_, ?_, ?_, ?_⟩
  · simpa using g0
  · exact intCursor_setCursor _ c d ks _ (intCursor_setCursor _ c d ks _ g3 g3.2.1 rfl rfl)
      (by simp [g3.2.1]) (by simp) (by simp)
  · simpa using g4
  · simp
  · simp
  · simpa using g5

theorem cursorGet_got_intKey (w : World) (c d : Nat) (ks : List Int)
    (row : List Nat × List Nat) (hw : w.intCursor c d ks) :
    (cursorGet_got w c row).1 = SQLITE_OK ∧
    (cursorGet_got w c row).2.1 = some 0 ∧
    ((cursorGet_got w c row).2.2.cursors c).eState = CURSOR_VALID ∧
    ((cursorGet_got w c row).2.2.cursors c).savedIntKey = decodeKey (DBT.ofBytes row.1) ∧
    ((cursorGet_got w c row).2.2.cursors c).key.data = some row.1 ∧
    ((cursorGet_got w c row).2.2.cursors c).dbc = some d ∧
    (cursorGet_got w c row).2.2.dbcs = w.dbcs ∧
    (cursorGet_got w c row).2.2.tables = w.tables := by
  have hint : BtCursor.intKey { w.cursors c with key := { (w.cursors c).key with data := some row.1, size := row.1.length }, data := { (w.cursors c).data with data := some row.2, size := row.2.length }, eState := CURSOR_VALID } = true := hw.2.2.1
  unfold cursorGet_got
  simp only [hint, if_true, setCursor_cursors_same, setCursor_dbcs, setCursor_tables]
  simp [hw.2.1, decodeKey_row]

/-- A plain `DB_NEXT` on an integer-keyed cursor when a row follows the
engine cursor's position: the cursor is valid on that row. -/
theorem cursorGet_single_some (w : World) (c d : Nat) (ks : List Int)
    (row : List Nat × List Nat) (hw : w.intCursor c d ks)
    (hsel : selectRow bytesLt (w.tables (w.dbhs (w.dbcs d).dbp).tid) (w.dbcs d).pos DB_NEXT
      ((w.cursors c).key.data.getD []) = some row) :
    (cursorGet_single w c DB_NEXT).1 = SQLITE_OK ∧
    (cursorGet_single w c DB_NEXT).2.1 = some 0 ∧
    ((cursorGet_single w c DB_NEXT).2.2.cursors c).eState = CURSOR_VALID ∧
    ((cursorGet_single w c DB_NEXT).2.2.cursors c).savedIntKey = decodeKey (DBT.ofBytes row.1) ∧
    ((cursorGet_single w c DB_NEXT).2.2.cursors c).key.data = some row.1 ∧
    ((cursorGet_single w c DB_NEXT).2.2.cursors c).dbc = some d ∧
    ((cursorGet_single w c DB_NEXT).2.2.dbcs d).pos = some row.1 ∧
    (cursorGet_single w c DB_NEXT).2.2.tables = w.tables := by
  have hdbc := hw.2.1
  have hw1 : (w.setCursor c { w.cursors c with lastRes := 0 }).intCursor c d ks :=
    intCursor_setCursor w c d ks _ hw hdbc rfl rfl
  have hg := dbc_get_intCursor _ c d ks hw1 DB_NEXT ((w.cursors c).key.data.getD [])
  simp only [setCursor_tables, setCursor_dbhs, setCursor_dbcs] at hg
  rw [hsel] at hg
  simp only [] at hg
  have hg2 : dbc_get_opt (w.setCursor c { w.cursors c with lastRes := 0 }) (w.cursors c).dbc DB_NEXT ((w.cursors c).key.data.getD []) = (0, some row, (w.setCursor c { w.cursors c with lastRes := 0 }).setDbc d { w.dbcs d with pos := some row.1 }) := by
    rw [hdbc]
    exact hg
  have hw2 := intCursor_setDbc _ c d ks { w.dbcs d with pos := some row.1 } hw1 rfl
  obtain ⟨r1, r2, r3, r4, r5, r6, r7, r8⟩ := cursorGet_got_intKey _ c d ks row hw2
  have hm : cursorGet_single w c DB_NEXT
      = cursorGet_got ((w.setCursor c { w.cursors c with lastRes := 0 }).setDbc d { w.dbcs d with pos := some row.1 }) c row := by
    unfold cursorGet_single
    simp only [setCursor_cursors_same]
    rw [hg2]
    simp only [if_true, Option.getD_some]
  rw [hm]
  refine ⟨r1, r2, r3, r4, r5, r6, ?_, ?_⟩
  · rw [r7]; simp
  · rw [r8]; simp

/-- A plain `DB_NEXT` on an integer-keyed cursor when no row follows the
engine cursor's position: the cursor is invalid and the result is 1. -/
theorem cursorGet_single_none (w : World) (c d : Nat) (ks : List Int)
    (hw : w.intCursor c d ks)
    (hsel : selectRow bytesLt (w.tables (w.dbhs (w.dbcs d).dbp).tid) (w.dbcs d).pos DB_NEXT
      ((w.cursors c).key.data.getD []) = none) :
    (cursorGet_single w c DB_NEXT).1 = SQLITE_OK ∧
    (cursorGet_single w c DB_NEXT).2.1 = some 1 ∧
    ((cursorGet_single w c DB_NEXT).2.2.cursors c).eState = CURSOR_INVALID ∧
    (cursorGet_single w c DB_NEXT).2.2.tables = w.tables := by
  have hdbc := hw.2.1
  have hw1 : (w.setCursor c { w.cursors c with lastRes := 0 }).intCursor c d ks :=
    intCursor_setCursor w c d ks _ hw hdbc rfl rfl
  have hg := dbc_get_intCursor _ c d ks hw1 DB_NEXT ((w.cursors c).key.data.getD [])
  simp only [setCursor_tables, setCursor_dbhs, setCursor_dbcs] at hg
  rw [hsel] at hg
  simp only [] at hg
  have hg2 : dbc_get_opt (w.setCursor c { w.cursors c with lastRes := 0 }) (w.cursors c).dbc DB_NEXT ((w.cursors c).key.data.getD []) = (DB_NOTFOUND, none, w.setCursor c { w.cursors c with lastRes := 0 }) := by
    rw [hdbc]
    exact hg
  have hnf : DB_NOTFOUND ≠ (0 : Int) := by decide
  have hm : cursorGet_single w c DB_NEXT
      = cursorGet_err (w.setCursor c { w.cursors c with lastRes := 0 }) c DB_NOTFOUND := by
    unfold cursorGet_single
    simp only [setCursor_cursors_same]
    rw [hg2]
    simp only [hnf, if_false]
  rw [hm]
  unfold cursorGet_err
  simp

theorem cursorGet_next (w : World) (c : Nat) (hmg : (w.cursors c).multiGetPtr = none)
    (hsk : (w.cursors c).skipMulti = true) (hbuf : w.isBuffer c = false) :
    cursorGet w c DB_NEXT
      = cursorGet_single ((w.setCursor c (w.cursors c)).setCursor c { w.cursors c with skipMulti := false }) c DB_NEXT := by
  have hb : (w.setCursor c (w.cursors c)).isBuffer c = false := by
    unfold World.isBuffer World.bt at hbuf ⊢
    rw [setCursor_cursors_same]
    exact hbuf
  unfold cursorGet cursorGet_engine
  simp [hmg, hsk, hb]

/-- The reseek of a tripped integer-keyed cursor on a table that is not
empty: the cursor is valid on the first row not below its saved key, or on
the last row when every row is below it, and `lastRes` compares that row's
key with the saved one. -/
theorem btreeRestoreCursorPosition_some (ops : EnvOps) (w : World) (c p : Nat) (ks : List Int)
    (row : List Nat × List Nat)
    (hf : w.faults = []) (hst : (w.cursors c).eState = CURSOR_REQUIRESEEK)
    (hbt : (w.cursors c).pBtree = some p) (hint : (w.cursors c).intKey = true)
    (hbuf : w.isBuffer c = false) (hgen : (w.dbhs (w.cursors c).db).general = false)
    (hrows : (w.tables (w.dbhs (w.cursors c).db).tid).map Prod.fst = ks.map encKey)
    (hsel : (w.tables (w.dbhs (w.cursors c).db).tid).find?
          (fun r => !bytesLt r.1 (encKey (w.cursors c).savedIntKey)) = some row ∨
      ((w.tables (w.dbhs (w.cursors c).db).tid).find?
          (fun r => !bytesLt r.1 (encKey (w.cursors c).savedIntKey)) = none ∧
        (w.tables (w.dbhs (w.cursors c).db).tid).getLast? = some row)) :
    (btreeRestoreCursorPosition ops w c false).1 = SQLITE_OK ∧
    (btreeRestoreCursorPosition ops w c false).2.intCursor c w.handles ks ∧
    ((btreeRestoreCursorPosition ops w c false).2.dbcs w.handles).pos = some row.1 ∧
    ((btreeRestoreCursorPosition ops w c false).2.cursors c).eState = CURSOR_VALID ∧
    ((btreeRestoreCursorPosition ops w c false).2.cursors c).savedIntKey
      = decodeKey (DBT.ofBytes row.1) ∧
    ((btreeRestoreCursorPosition ops w c false).2.cursors c).skipMulti = true ∧
    ((btreeRestoreCursorPosition ops w c false).2.cursors c).multiGetPtr = none ∧
    ((btreeRestoreCursorPosition ops w c false).2.cursors c).key = DBT.ofBytes row.1 ∧
    ((btreeRestoreCursorPosition ops w c false).2.cursors c).lastRes
      = (if decodeKey (DBT.ofBytes row.1) = (w.cursors c).savedIntKey then 0
         else if decodeKey (DBT.ofBytes row.1) < (w.cursors c).savedIntKey then -1 else 1) ∧
    (btreeRestoreCursorPosition ops w c false).2.tables
        ((btreeRestoreCursorPosition ops w c false).2.dbhs
          ((btreeRestoreCursorPosition ops w c false).2.dbcs w.handles).dbp).tid
      = w.tables (w.dbhs (w.cursors c).db).tid := by
  obtain ⟨o1, o2, _, o4, o5, o6⟩ :=
    btreeRestoreOpen_reopen ops w c p ks hf hst hbt hint hbuf hgen hrows
  generalize hR : btreeRestoreOpen ops w c false = R at o1 o2 o4 o5 o6
  rw [← o6, ← o5] at hsel
  obtain ⟨m1, hM, m2, m3, m4, m5, m6, m7, m8, m9⟩ :=
    sqlite3BtreeMovetoUnpacked_some ops R.2 c w.handles ks (R.2.cursors c).savedIntKey row
      o2 (by rw [o4]; intro h; exact absurd h.1 (by decide)) hsel
  generalize hMv : sqlite3BtreeMovetoUnpacked ops R.2 c none (R.2.cursors c).savedIntKey = M
    at m1 m2 m3 m4 m5 m6 m7 m8 m9 hM
  have hm : btreeRestoreCursorPosition ops w c false
      = (M.1, M.2.2.setCursor c { M.2.2.cursors c with lastRes := M.2.1.getD (M.2.2.cursors c).lastRes }) := by
    unfold btreeRestoreCursorPosition
    simp only []
    rw [hR]
    simp only [o1, o2.2.2.1, if_true, hMv]
  rw [hm]
  refine ⟨m1, ?_, ?_, ?_, ?_, ?_, ?_, ?_, ?_, ?_⟩
  · exact intCursor_setCursor _ c w.handles ks _ m3 m3.2.1 rfl rfl
  · simpa using m4
  · simpa using m5
  · simpa using m6
  · simpa using m7
  · simpa using m8
  · simpa using m9
  · simp [m2, o5]
  · simpa [o6] using hM

/-- The reseek of a tripped integer-keyed cursor on an empty table: the
cursor is invalid and `lastRes` is -1. -/
theorem btreeRestoreCursorPosition_none (ops : EnvOps) (w : World) (c p : Nat) (ks : List Int)
    (hf : w.faults = []) (hst : (w.cursors c).eState = CURSOR_REQUIRESEEK)
    (hbt : (w.cursors c).pBtree = some p) (hint : (w.cursors c).intKey = true)
    (hbuf : w.isBuffer c = false) (hgen : (w.dbhs (w.cursors c).db).general = false)
    (hrows : (w.tables (w.dbhs (w.cursors c).db).tid).map Prod.fst = ks.map encKey)
    (hempty : w.tables (w.dbhs (w.cursors c).db).tid = []) :
    (btreeRestoreCursorPosition ops w c false).1 = SQLITE_OK ∧
    (btreeRestoreCursorPosition ops w c false).2.intCursor c w.handles ks ∧
    ((btreeRestoreCursorPosition ops w c false).2.dbcs w.handles).pos = none ∧
    ((btreeRestoreCursorPosition ops w c false).2.cursors c).eState = CURSOR_INVALID ∧
    ((btreeRestoreCursorPosition ops w c false).2.cursors c).skipMulti = true ∧
    ((btreeRestoreCursorPosition ops w c false).2.cursors c).multiGetPtr = none ∧
    ((btreeRestoreCursorPosition ops w c false).2.cursors c).lastRes = -1 ∧
    (btreeRestoreCursorPosition ops w c false).2.tables
        ((btreeRestoreCursorPosition ops w c false).2.dbhs
          ((btreeRestoreCursorPosition ops w c false).2.dbcs w.handles).dbp).tid
      = w.tables (w.dbhs (w.cursors c).db).tid := by
  obtain ⟨o1, o2, o3, o4, _, o6⟩ :=
    btreeRestoreOpen_reopen ops w c p ks hf hst hbt hint hbuf hgen hrows
  generalize hR : btreeRestoreOpen ops w c false = R at o1 o2 o3 o4 o6
  rw [← o6] at hempty
  obtain ⟨m1, hM, m2, m3, m4, m5, m6, m7⟩ :=
    sqlite3BtreeMovetoUnpacked_none ops R.2 c w.handles ks (R.2.cursors c).savedIntKey
      o2 (by rw [o4]; intro h; exact absurd h.1 (by decide)) hempty
  generalize hMv : sqlite3BtreeMovetoUnpacked ops R.2 c none (R.2.cursors c).savedIntKey = M
    at m1 m2 m3 m4 m5 m6 m7 hM
  have hm : btreeRestoreCursorPosition ops w c false
      = (M.1, M.2.2.setCursor c { M.2.2.cursors c with lastRes := M.2.1.getD (M.2.2.cursors c).lastRes }) := by
    unfold btreeRestoreCursorPosition
    simp only []
    rw [hR]
    simp only [o1, o2.2.2.1, if_true, hMv]
  rw [hm]
  refine ⟨m1, ?_, ?_, ?_, ?_, ?_, ?_, ?_⟩
  · exact intCursor_setCursor _ c w.handles ks _ m3 m3.2.1 rfl rfl
  · simpa [o3] using m4
  · simpa using m5
  · simpa using m6
  · simpa using m7
  · simp [m2]
  · simpa [o6] using hM

theorem sqlite3BtreeNext_tripped (ops : EnvOps) (w : World) (c : Nat)
    (hdbc : (w.cursors c).dbc = none) :
    sqlite3BtreeNext ops w c
      = if (btreeRestoreCursorPosition ops w c false).1 ≠ SQLITE_OK then
          ((btreeRestoreCursorPosition ops w c false).1, none,
            (btreeRestoreCursorPosition ops w c false).2)
        else if ((btreeRestoreCursorPosition ops w c false).2.cursors c).lastRes > 0 then
          (SQLITE_OK, some 0, (btreeRestoreCursorPosition ops w c false).2.setCursor c { (btreeRestoreCursorPosition ops w c false).2.cursors c with lastRes := 0 })
        else cursorGet (btreeRestoreCursorPosition ops w c false).2 c DB_NEXT := by
  unfold sqlite3BtreeNext
  simp [hdbc]

theorem cmp_ahead (x k : Int) (h : k < x) :
    (if x = k then (0 : Int) else if x < k then -1 else 1) = 1 := by
  rw [if_neg (by omega), if_neg (by omega)]

theorem cmp_behind (x k : Int) (h : x ≤ k) :
    ¬ (if x = k then (0 : Int) else if x < k then -1 else 1) > 0 := by
  by_cases h1 : x = k
  · rw [if_pos h1]; decide
  · rw [if_neg h1, if_pos (by omega)]; decide

/-- `sqlite3BtreeNext` on a tripped cursor whose reseek lands on a row above
the saved key: that row is the result. -/
theorem sqlite3BtreeNext_ahead (ops : EnvOps) (w : World) (c p : Nat) (ks : List Int)
    (row : List Nat × List Nat)
    (hf : w.faults = []) (hst : (w.cursors c).eState = CURSOR_REQUIRESEEK)
    (hdbc : (w.cursors c).dbc = none)
    (hbt : (w.cursors c).pBtree = some p) (hint : (w.cursors c).intKey = true)
    (hbuf : w.isBuffer c = false) (hgen : (w.dbhs (w.cursors c).db).general = false)
    (hrows : (w.tables (w.dbhs (w.cursors c).db).tid).map Prod.fst = ks.map encKey)
    (hsel : (w.tables (w.dbhs (w.cursors c).db).tid).find?
          (fun r => !bytesLt r.1 (encKey (w.cursors c).savedIntKey)) = some row)
    (hgt : (w.cursors c).savedIntKey < decodeKey (DBT.ofBytes row.1)) :
    (sqlite3BtreeNext ops w c).1 = SQLITE_OK ∧
    (sqlite3BtreeNext ops w c).2.1 = some 0 ∧
    ((sqlite3BtreeNext ops w c).2.2.cursors c).eState = CURSOR_VALID ∧
    ((sqlite3BtreeNext ops w c).2.2.cursors c).savedIntKey = decodeKey (DBT.ofBytes row.1) ∧
    ((sqlite3BtreeNext ops w c).2.2.cursors c).key.data = some row.1 ∧
    ((sqlite3BtreeNext ops w c).2.2.cursors c).dbc = some w.handles ∧
    ((sqlite3BtreeNext ops w c).2.2.dbcs w.handles).pos = some row.1 := by
  obtain ⟨r1, r2, r3, r4, r5, _, _, r8, r9, _⟩ :=
    btreeRestoreCursorPosition_some ops w c p ks row hf hst hbt hint hbuf hgen hrows
      (Or.inl hsel)
  rw [sqlite3BtreeNext_tripped ops w c hdbc]
  generalize btreeRestoreCursorPosition ops w c false = R at r1 r2 r3 r4 r5 r8 r9
  rw [cmp_ahead _ _ hgt] at r9
  rw [if_neg (by rw [r1]; simp), if_pos (by rw [r9]; decide)]
  refine ⟨rfl, rfl, ?_, ?_, ?_, ?_, ?_⟩
  · simpa using r4
  · simpa using r5
  · simp [r8, DBT.ofBytes]
  · simpa using r2.2.1
  · simpa using r3

/-- `sqlite3BtreeNext` on a tripped cursor whose reseek lands on a row not
above the saved key, when a row follows that one: the following row is the
result. -/
theorem sqlite3BtreeNext_step (ops : EnvOps) (w : World) (c p : Nat) (ks : List Int)
    (row next : List Nat × List Nat)
    (hf : w.faults = []) (hst : (w.cursors c).eState = CURSOR_REQUIRESEEK)
    (hdbc : (w.cursors c).dbc = none)
    (hbt : (w.cursors c).pBtree = some p) (hint : (w.cursors c).intKey = true)
    (hbuf : w.isBuffer c = false) (hgen : (w.dbhs (w.cursors c).db).general = false)
    (hrows : (w.tables (w.dbhs (w.cursors c).db).tid).map Prod.fst = ks.map encKey)
    (hsel : (w.tables (w.dbhs (w.cursors c).db).tid).find?
          (fun r => !bytesLt r.1 (encKey (w.cursors c).savedIntKey)) = some row ∨
      ((w.tables (w.dbhs (w.cursors c).db).tid).find?
          (fun r => !bytesLt r.1 (encKey (w.cursors c).savedIntKey)) = none ∧
        (w.tables (w.dbhs (w.cursors c).db).tid).getLast? = some row))
    (hle : decodeKey (DBT.ofBytes row.1) ≤ (w.cursors c).savedIntKey)
    (hnext : (w.tables (w.dbhs (w.cursors c).db).tid).find? (fun r => bytesLt row.1 r.1)
      = some next) :
    (sqlite3BtreeNext ops w c).1 = SQLITE_OK ∧
    (sqlite3BtreeNext ops w c).2.1 = some 0 ∧
    ((sqlite3BtreeNext ops w c).2.2.cursors c).eState = CURSOR_VALID ∧
    ((sqlite3BtreeNext ops w c).2.2.cursors c).savedIntKey = decodeKey (DBT.ofBytes next.1) ∧
    ((sqlite3BtreeNext ops w c).2.2.cursors c).key.data = some next.1 ∧
    ((sqlite3BtreeNext ops w c).2.2.cursors c).dbc = some w.handles ∧
    ((sqlite3BtreeNext ops w c).2.2.dbcs w.handles).pos = some next.1 := by
  obtain ⟨r1, r2, r3, _, _, r6, r7, _, r9, r10⟩ :=
    btreeRestoreCursorPosition_some ops w c p ks row hf hst hbt hint hbuf hgen hrows hsel
  rw [sqlite3BtreeNext_tripped ops w c hdbc]
  generalize btreeRestoreCursorPosition ops w c false = R at r1 r2 r3 r6 r7 r9 r10
  rw [if_neg (by rw [r1]; simp), if_neg (by rw [r9]; exact cmp_behind _ _ hle),
    cursorGet_next R.2 c r7 r6 r2.2.2.2.1]
  have hW := intCursor_setCursor _ c w.handles ks { R.2.cursors c with skipMulti := false }
    (intCursor_setCursor _ c w.handles ks (R.2.cursors c) r2 r2.2.1 rfl rfl)
    (by simpa using r2.2.1) (by simp) (by simp)
  obtain ⟨s1, s2, s3, s4, s5, s6, s7, _⟩ :=
    cursorGet_single_some _ c w.handles ks next hW
      (by simp only [setCursor_tables, setCursor_dbhs, setCursor_dbcs, r3, r10, selectRow]
          exact hnext)
  exact ⟨s1, s2, s3, s4, s5, s6, s7⟩

/-- `sqlite3BtreeNext` on a tripped cursor whose reseek lands on a row not
above the saved key, when no row follows that one: the result is 1 and the
cursor is invalid. -/
theorem sqlite3BtreeNext_end (ops : EnvOps) (w : World) (c p : Nat) (ks : List Int)
    (row : List Nat × List Nat)
    (hf : w.faults = []) (hst : (w.cursors c).eState = CURSOR_REQUIRESEEK)
    (hdbc : (w.cursors c).dbc = none)
    (hbt : (w.cursors c).pBtree = some p) (hint : (w.cursors c).intKey = true)
    (hbuf : w.isBuffer c = false) (hgen : (w.dbhs (w.cursors c).db).general = false)
    (hrows : (w.tables (w.dbhs (w.cursors c).db).tid).map Prod.fst = ks.map encKey)
    (hsel : (w.tables (w.dbhs (w.cursors c).db).tid).find?
          (fun r => !bytesLt r.1 (encKey (w.cursors c).savedIntKey)) = some row ∨
      ((w.tables (w.dbhs (w.cursors c).db).tid).find?
          (fun r => !bytesLt r.1 (encKey (w.cursors c).savedIntKey)) = none ∧
        (w.tables (w.dbhs (w.cursors c).db).tid).getLast? = some row))
    (hle : decodeKey (DBT.ofBytes row.1) ≤ (w.cursors c).savedIntKey)
    (hnext : (w.tables (w.dbhs (w.cursors c).db).tid).find? (fun r => bytesLt row.1 r.1)
      = none) :
    (sqlite3BtreeNext ops w c).1 = SQLITE_OK ∧
    (sqlite3BtreeNext ops w c).2.1 = some 1 ∧
    ((sqlite3BtreeNext ops w c).2.2.cursors c).eState = CURSOR_INVALID := by
  obtain ⟨r1, r2, r3, _, _, r6, r7, _, r9, r10⟩ :=
    btreeRestoreCursorPosition_some ops w c p ks row hf hst hbt hint hbuf hgen hrows hsel
  rw [sqlite3BtreeNext_tripped ops w c hdbc]
  generalize btreeRestoreCursorPosition ops w c false = R at r1 r2 r3 r6 r7 r9 r10
  rw [if_neg (by rw [r1]; simp), if_neg (by rw [r9]; exact cmp_behind _ _ hle),
    cursorGet_next R.2 c r7 r6 r2.2.2.2.1]
  have hW := intCursor_setCursor _ c w.handles ks { R.2.cursors c with skipMulti := false }
    (intCursor_setCursor _ c w.handles ks (R.2.cursors c) r2 r2.2.1 rfl rfl)
    (by simpa using r2.2.1) (by simp) (by simp)
  obtain ⟨s1, s2, s3, _⟩ :=
    cursorGet_single_none _ c w.handles ks hW
      (by simp only [setCursor_tables, setCursor_dbhs, setCursor_dbcs, r3, r10, selectRow]
          exact hnext)
  exact ⟨s1, s2, s3⟩

/-- `sqlite3BtreeNext` on a tripped cursor of an empty table: the result is 1
and the cursor is invalid. -/
theorem sqlite3BtreeNext_empty (ops : EnvOps) (w : World) (c p : Nat) (ks : List Int)
    (hf : w.faults = []) (hst : (w.cursors c).eState = CURSOR_REQUIRESEEK)
    (hdbc : (w.cursors c).dbc = none)
    (hbt : (w.cursors c).pBtree = some p) (hint : (w.cursors c).intKey = true)
    (hbuf : w.isBuffer c = false) (hgen : (w.dbhs (w.cursors c).db).general = false)
    (hrows : (w.tables (w.dbhs (w.cursors c).db).tid).map Prod.fst = ks.map encKey)
    (hempty : w.tables (w.dbhs (w.cursors c).db).tid = []) :
    (sqlite3BtreeNext ops w c).1 = SQLITE_OK ∧
    (sqlite3BtreeNext ops w c).2.1 = some 1 ∧
    ((sqlite3BtreeNext ops w c).2.2.cursors c).eState = CURSOR_INVALID := by
  obtain ⟨r1, r2, r3, _, r6, r7, r9, r10⟩ :=
    btreeRestoreCursorPosition_none ops w c p ks hf hst hbt hint hbuf hgen hrows hempty
  rw [sqlite3BtreeNext_tripped ops w c hdbc]
  generalize btreeRestoreCursorPosition ops w c false = R at r1 r2 r3 r6 r7 r9 r10
  rw [if_neg (by rw [r1]; simp), if_neg (by rw [r9]; decide),
    cursorGet_next R.2 c r7 r6 r2.2.2.2.1]
  have hW := intCursor_setCursor _ c w.handles ks { R.2.cursors c with skipMulti := false }
    (intCursor_setCursor _ c w.handles ks (R.2.cursors c) r2 r2.2.1 rfl rfl)
    (by simpa using r2.2.1) (by simp) (by simp)
  obtain ⟨s1, s2, s3, _⟩ :=
    cursorGet_single_none _ c w.handles ks hW
      (by simp only [setCursor_tables, setCursor_dbhs, setCursor_dbcs, r3, r10, selectRow,
            hempty, List.head?_nil])
  exact ⟨s1, s2, s3⟩

/-- C5.  `sqlite3BtreeNext` on a tripped cursor (`CURSOR_REQUIRESEEK`, engine
cursor closed) of an integer-keyed table that is not buffered, every engine
call doing what the engine semantics says: with `k` the cursor's saved key
and `ks` the keys of the table in increasing order, the call succeeds; when
`j` is the smallest key of the table above `k`, `*pRes` is 0 and the cursor is
valid on `j`; when no key of the table is above `k`, `*pRes` is 1 and the
cursor is invalid.  So `k` is not returned again and no key is skipped. -/
theorem sqlite3BtreeNext_reseek (ops : EnvOps) (w : World) (c p : Nat) (ks : List Int) (k : Int)
    (hf : w.faults = []) (hst : (w.cursors c).eState = CURSOR_REQUIRESEEK)
    (hdbc : (w.cursors c).dbc = none)
    (hbt : (w.cursors c).pBtree = some p) (hint : (w.cursors c).intKey = true)
    (hbuf : w.isBuffer c = false) (hgen : (w.dbhs (w.cursors c).db).general = false)
    (hrows : (w.tables (w.dbhs (w.cursors c).db).tid).map Prod.fst = ks.map encKey)
    (hsorted : ks.Pairwise (· < ·))
    (hrange : ∀ i ∈ ks, -9223372036854775808 ≤ i ∧ i ≤ 9223372036854775807)
    (hk : (w.cursors c).savedIntKey = k)
    (hk1 : -9223372036854775808 ≤ k) (hk2 : k ≤ 9223372036854775807) :
    (sqlite3BtreeNext ops w c).1 = SQLITE_OK ∧
    (∀ j, j ∈ ks → k < j → (∀ i ∈ ks, k < i → j ≤ i) →
      (sqlite3BtreeNext ops w c).2.1 = some 0 ∧ (sqlite3BtreeNext ops w c).2.2.validOn c j) ∧
    ((∀ i ∈ ks, i ≤ k) →
      (sqlite3BtreeNext ops w c).2.1 = some 1 ∧
      ((sqlite3BtreeNext ops w c).2.2.cursors c).eState = CURSOR_INVALID) := by
  subst hk
  have hP : ∀ i ∈ ks, (!bytesLt (encKey i) (encKey (w.cursors c).savedIntKey))
      = decide ((w.cursors c).savedIntKey ≤ i) := by
    intro i hi
    rw [encKey_order i _ (hrange i hi).1 (hrange i hi).2 hk1 hk2]
    by_cases h : i < (w.cursors c).savedIntKey
    · simp [h]
    · simp [h]; omega
  have hQ : ∀ x, x ∈ ks → ∀ i ∈ ks, bytesLt (encKey x) (encKey i) = decide (x < i) := by
    intro x hx i hi
    exact encKey_order x i (hrange x hx).1 (hrange x hx).2 (hrange i hi).1 (hrange i hi).2
  cases h0 : ks.find? (fun i => decide ((w.cursors c).savedIntKey ≤ i)) with
  | some j0 =>
    have hj0mem : j0 ∈ ks := List.mem_of_find?_eq_some h0
    have hj0 : (w.cursors c).savedIntKey ≤ j0 := by simpa using List.find?_some h0
    have hj0min := find_some_least _ ks hsorted j0 h0
    obtain ⟨row, hrow, hrow1⟩ := rows_find_some _ ks
      (fun b => !bytesLt b (encKey (w.cursors c).savedIntKey)) hrows j0
      (by rw [find_congr _ _ ks hP]; exact h0)
    have hdk : decodeKey (DBT.ofBytes row.1) = j0 := by
      rw [hrow1]
      exact decodeKey_encKey j0 (hrange j0 hj0mem).1 (hrange j0 hj0mem).2
    by_cases hjk : (w.cursors c).savedIntKey < j0
    · obtain ⟨a1, a2, a3, a4, a5, a6, a7⟩ :=
        sqlite3BtreeNext_ahead ops w c p ks row hf hst hdbc hbt hint hbuf hgen hrows hrow
          (by rw [hdk]; exact hjk)
      refine ⟨a1, ?_, ?_⟩
      · intro j hj hkj hmin
        have h1 := hmin j0 hj0mem hjk
        have h2 := hj0min j hj (by simpa using le_of_lt hkj)
        have hjj : j = j0 := le_antisymm h1 h2
        subst hjj
        exact ⟨a2, a3, a4.trans hdk, by rw [a5, hrow1], w.handles, a6, by rw [a7, hrow1]⟩
      · intro hall
        have := hall j0 hj0mem
        omega
    · have hj0k : j0 = (w.cursors c).savedIntKey := by omega
      cases h1 : ks.find? (fun i => decide (j0 < i)) with
      | some j1 =>
        have hj1mem : j1 ∈ ks := List.mem_of_find?_eq_some h1
        have hj1 : j0 < j1 := by simpa using List.find?_some h1
        have hj1min := find_some_least _ ks hsorted j1 h1
        obtain ⟨next, hnext, hnext1⟩ := rows_find_some _ ks (fun b => bytesLt row.1 b) hrows j1
          (by rw [hrow1, find_congr _ _ ks (hQ j0 hj0mem)]; exact h1)
        have hdn : decodeKey (DBT.ofBytes next.1) = j1 := by
          rw [hnext1]
          exact decodeKey_encKey j1 (hrange j1 hj1mem).1 (hrange j1 hj1mem).2
        obtain ⟨a1, a2, a3, a4, a5, a6, a7⟩ :=
          sqlite3BtreeNext_step ops w c p ks row next hf hst hdbc hbt hint hbuf hgen hrows
            (Or.inl hrow) (by rw [hdk]; omega) hnext
        refine ⟨a1, ?_, ?_⟩
        · intro j hj hkj hmin
          have h2 := hmin j1 hj1mem (by omega)
          have h3 := hj1min j hj (by simpa using (by omega : j0 < j))
          have hjj : j = j1 := le_antisymm h2 h3
          subst hjj
          exact ⟨a2, a3, a4.trans hdn, by rw [a5, hnext1], w.handles, a6, by rw [a7, hnext1]⟩
        · intro hall
          have := hall j1 hj1mem
          omega
      | none =>
        have hnone := List.find?_eq_none.mp h1
        obtain ⟨a1, a2, a3⟩ :=
          sqlite3BtreeNext_end ops w c p ks row hf hst hdbc hbt hint hbuf hgen hrows
            (Or.inl hrow) (by rw [hdk]; omega)
            (rows_find_none _ ks (fun b => bytesLt row.1 b) hrows
              (by rw [hrow1, find_congr _ _ ks (hQ j0 hj0mem)]; exact h1))
        refine ⟨a1, ?_, ?_⟩
        · intro j hj hkj _
          have := hnone j hj
          simp at this
          omega
        · intro _
          exact ⟨a2, a3⟩
  | none =>
    have hnone := List.find?_eq_none.mp h0
    have hfind := rows_find_none _ ks
      (fun b => !bytesLt b (encKey (w.cursors c).savedIntKey)) hrows
      (by rw [find_congr _ _ ks hP]; exact h0)
    cases h2 : ks.getLast? with
    | some jl =>
      obtain ⟨hjlmem, hjlmax⟩ := getLast_max ks hsorted jl h2
      obtain ⟨row, hrow, hrow1⟩ := rows_getLast_some _ ks hrows jl h2
      have hdk : decodeKey (DBT.ofBytes row.1) = jl := by
        rw [hrow1]
        exact decodeKey_encKey jl (hrange jl hjlmem).1 (hrange jl hjlmem).2
      have hjl := hnone jl hjlmem
      simp at hjl
      obtain ⟨a1, a2, a3⟩ :=
        sqlite3BtreeNext_end ops w c p ks row hf hst hdbc hbt hint hbuf hgen hrows
          (Or.inr ⟨hfind, hrow⟩) (by rw [hdk]; omega)
          (rows_find_none _ ks (fun b => bytesLt row.1 b) hrows
            (by
              rw [hrow1, find_congr _ _ ks (hQ jl hjlmem)]
              apply find_none
              intro i hi
              have := hjlmax i hi
              simp
              omega))
      refine ⟨a1, ?_, ?_⟩
      · intro j hj hkj _
        have := hnone j hj
        simp at this
        omega
      · intro _
        exact ⟨a2, a3⟩
    | none =>
      have hks : ks = [] := List.getLast?_eq_none_iff.mp h2
      have hempty : w.tables (w.dbhs (w.cursors c).db).tid = [] := by
        rw [hks] at hrows
        exact List.map_eq_nil_iff.mp hrows
      obtain ⟨a1, a2, a3⟩ :=
        sqlite3BtreeNext_empty ops w c p ks hf hst hdbc hbt hint hbuf hgen hrows hempty
      refine ⟨a1, ?_, ?_⟩
      · intro j hj _ _
        rw [hks] at hj
        simp at hj
      · intro _
        exact ⟨a2, a3⟩

/-- C5, witness: the cursor 10 of `World.tripped` was on the deleted key 2;
the table holds the keys 1 and 3; `sqlite3BtreeNext` puts it on 3. -/
theorem sqlite3BtreeNext_reseek_witness :
    (sqlite3BtreeNext EnvOps.idle World.tripped 10).1 = SQLITE_OK ∧
    (sqlite3BtreeNext EnvOps.idle World.tripped 10).2.1 = some 0 ∧
    (sqlite3BtreeNext EnvOps.idle World.tripped 10).2.2.validOn 10 3 :=
  have h := sqlite3BtreeNext_reseek EnvOps.idle World.tripped 10 1 [1, 3] 2 rfl rfl rfl rfl
    (by decide) (by decide) rfl (by decide) (by decide) (by decide) rfl (by decide) (by decide)
  ⟨h.1, h.2.1 3 (by decide) (by decide) (by decide)⟩

/-! ## The status mapping -/

theorem dberr2sqlite_busy (e : Int) :
    dberr2sqlite e = SQLITE_BUSY ↔ (e = DB_LOCK_DEADLOCK ∨ e = DB_LOCK_NOTGRANTED) := by
  unfold dberr2sqlite
  constructor
  · intro h
    by_cases h1 : e = DB_LOCK_DEADLOCK
    · exact Or.inl h1
    · by_cases h2 : e = DB_LOCK_NOTGRANTED
      · exact Or.inr h2
      · exfalso
        rw [if_neg h1, if_neg h2] at h
        repeat' split at h
        all_goals revert h; decide
  · intro h
    rcases h with h | h
    · subst h; decide
    · subst h; decide

theorem dberr2sqlite_corrupt (e : Int) :
    dberr2sqlite e = SQLITE_CORRUPT ↔ e = DB_RUNRECOVERY := by
  unfold dberr2sqlite
  constructor
  · intro h
    by_contra h1
    rw [if_neg h1] at h
    repeat' split at h
    all_goals revert h; decide
  · intro h
    subst h
    decide

/-- C15.  For every engine status `err`: `dberr2sqlite err` is `SQLITE_OK`
exactly when `err = 0`, `SQLITE_BUSY` exactly when `err` is `DB_LOCK_DEADLOCK`
or `DB_LOCK_NOTGRANTED`, and `SQLITE_CORRUPT` exactly when `err` is
`DB_RUNRECOVERY`; `dberr2sqlitelocked err` is `SQLITE_LOCKED` when
`dberr2sqlite err` is `SQLITE_BUSY` and `dberr2sqlite err` otherwise, and it is
never `SQLITE_BUSY`. -/
theorem dberr2sqlite_classes (err : Int) :
    (dberr2sqlite err = SQLITE_OK ↔ err = 0) ∧
    (dberr2sqlite err = SQLITE_BUSY ↔ (err = DB_LOCK_DEADLOCK ∨ err = DB_LOCK_NOTGRANTED)) ∧
    (dberr2sqlite err = SQLITE_CORRUPT ↔ err = DB_RUNRECOVERY) ∧
    (dberr2sqlite err = SQLITE_BUSY → dberr2sqlitelocked err = SQLITE_LOCKED) ∧
    (dberr2sqlite err ≠ SQLITE_BUSY → dberr2sqlitelocked err = dberr2sqlite err) ∧
    dberr2sqlitelocked err ≠ SQLITE_BUSY := by
  refine ⟨dberr2sqlite_ok err, dberr2sqlite_busy err, dberr2sqlite_corrupt err, ?_, ?_, ?_⟩
  · intro h
    unfold dberr2sqlitelocked
    simp only [h, if_true]
  · intro h
    unfold dberr2sqlitelocked
    simp only [h, if_false]
  · unfold dberr2sqlitelocked
    simp only []
    by_cases h : dberr2sqlite err = SQLITE_BUSY
    · rw [if_pos h]; decide
    · rw [if_neg h]; exact h

/-! ## Tripping an incremental-blob cursor -/

/-- C18, counterexample: cursor 10 of `World.watch 2`, marked as an
incremental-blob cursor by `sqlite3BtreeCacheOverflow`, is tripped.  With
`incrBlobUpdate` set it is left in `CURSOR_REQUIRESEEK`, where the claim gives
`CURSOR_INVALID`; with `incrBlobUpdate` clear it is left in `CURSOR_INVALID`,
where the claim gives `CURSOR_REQUIRESEEK`. -/
theorem btreeTripCursor_incrblob_inverted :
    ((sqlite3BtreeCacheOverflow (World.watch 2) 10).cursors 10).isIncrblobHandle = true ∧
    ((btreeTripCursor (sqlite3BtreeCacheOverflow (World.watch 2) 10) 10 true).2.cursors
      10).eState = CURSOR_REQUIRESEEK ∧
    ((btreeTripCursor (sqlite3BtreeCacheOverflow (World.watch 2) 10) 10 false).2.cursors
      10).eState = CURSOR_INVALID := by
  refine ⟨rfl, ?_, ?_⟩
  · rw [(btreeTripCursor_spec _ 10 true).2.2.2.2.2.2]
    decide
  · rw [(btreeTripCursor_spec _ 10 false).2.2.2.2.2.2]
    decide

/-- C18, amended: `btreeTripCursor` leaves a cursor flagged as an
incremental-blob handle in `CURSOR_INVALID` when the triggering write is not
an incremental-blob update (`incrBlobUpdate` zero) and in `CURSOR_REQUIRESEEK`
when it is one; a cursor that is not an incremental-blob handle always becomes
`CURSOR_REQUIRESEEK`.  In every case the cursor loses its engine cursor. -/
theorem btreeTripCursor_state (w : World) (c : Nat) (incrBlobUpdate : Bool) :
    ((btreeTripCursor w c incrBlobUpdate).2.cursors c).eState
      = (if (w.cursors c).isIncrblobHandle = true then
          (if incrBlobUpdate = true then CURSOR_REQUIRESEEK else CURSOR_INVALID)
         else CURSOR_REQUIRESEEK) ∧
    ((btreeTripCursor w c incrBlobUpdate).2.cursors c).dbc = none := by
  obtain ⟨_, _, _, _, _, h6, h7⟩ := btreeTripCursor_spec w c incrBlobUpdate
  refine ⟨?_, h6⟩
  rw [h7]
  cases (w.cursors c).isIncrblobHandle <;> cases incrBlobUpdate <;> simp

/-! ## Writing through a read cursor -/

/-- C16.  On a cursor opened with `wrFlag = 0`, whatever its state,
`sqlite3BtreeInsert`, `sqlite3BtreeDelete` and `sqlite3BtreePutData` return
`SQLITE_READONLY` and leave the world as it is: the cursor's fields, the
cursor list of the `BtShared`, every other cursor and the engine. -/
theorem sqlite3BtreeInsert_Delete_PutData_readonly (ops : EnvOps) (w : World) (c : Nat)
    (hrd : (w.cursors c).wrFlag = false) :
    (∀ (pKey : Option (List Nat)) (nKey : Int) (pData : List Nat) (nData nZero : Int),
      sqlite3BtreeInsert ops w c pKey nKey pData nData nZero = (SQLITE_READONLY, w)) ∧
    sqlite3BtreeDelete ops w c = (SQLITE_READONLY, w) ∧
    (∀ (offset amt : Nat) (z : List Nat),
      sqlite3BtreePutData ops w c offset amt z = (SQLITE_READONLY, w)) := by
  refine ⟨?_, ?_, ?_⟩
  · intro pKey nKey pData nData nZero
    unfold sqlite3BtreeInsert
    rw [hrd]
    rfl
  · unfold sqlite3BtreeDelete
    rw [hrd]
    rfl
  · intro offset amt z
    unfold sqlite3BtreePutData
    rw [hrd]
    rfl

/-- C16, witness: the read cursor 10 of `World.watch 1`. -/
theorem sqlite3BtreeInsert_Delete_PutData_readonly_witness :
    ((World.watch 1).cursors 10).wrFlag = false ∧
    sqlite3BtreeInsert EnvOps.idle (World.watch 1) 10 none 1 [98] 1 0
      = (SQLITE_READONLY, World.watch 1) ∧
    sqlite3BtreeDelete EnvOps.idle (World.watch 1) 10 = (SQLITE_READONLY, World.watch 1) ∧
    sqlite3BtreePutData EnvOps.idle (World.watch 1) 10 0 1 [98]
      = (SQLITE_READONLY, World.watch 1) :=
  have h := sqlite3BtreeInsert_Delete_PutData_readonly EnvOps.idle (World.watch 1) 10 rfl
  ⟨rfl, h.1 none 1 [98] 1 0, h.2.1, h.2.2 0 1 [98]⟩

/-! ## The transaction state of a connection -/

theorem txn_begin_btrees (w : World) (parent : Option Nat) (family : Bool) :
    (txn_begin w parent family).2.2.btrees = w.btrees := by
  unfold txn_begin
  simp only []
  split
  · exact engine_btrees w 0
  · exact engine_btrees w 0

theorem beginStmt_loop_inTrans (p : Nat) (n : Int) :
    ∀ (fuel : Nat) (w : World),
      ((beginStmt_loop p n fuel w).2.btrees p).inTrans = (w.btrees p).inTrans := by
  intro fuel
  induction fuel with
  | zero => intro w; rfl
  | succ k ih =>
    intro w
    unfold beginStmt_loop
    simp only []
    by_cases hc : (w.btrees p).nSavepoint ≤ n
    · rw [if_pos hc]
      by_cases hb : (txn_begin w (w.btrees p).savepoint_txn false).1 ≠ 0
      · rw [if_pos hb]
        show ((txn_begin w (w.btrees p).savepoint_txn false).2.2.btrees p).inTrans = _
        rw [txn_begin_btrees]
      · rw [if_neg hb, ih, setBtree_btrees_same]
        show ((txn_begin w (w.btrees p).savepoint_txn false).2.2.btrees p).inTrans = _
        rw [txn_begin_btrees]
    · rw [if_neg hc]

theorem sqlite3BtreeBeginStmt_inTrans (w : World) (p : Nat) (n : Int) :
    ((sqlite3BtreeBeginStmt w p n).2.btrees p).inTrans = (w.btrees p).inTrans := by
  unfold sqlite3BtreeBeginStmt
  by_cases ht : (w.bt p).transactional = true
  · rw [if_pos ht]
    simp only []
    by_cases hr : (w.btrees p).read_txn = none
    · rw [if_pos hr]
      by_cases hb : (txn_begin w (w.btrees p).family_txn false).1 ≠ 0
      · rw [if_pos hb]
        simp only [hb, if_true, ne_eq, not_false_eq_true]
        rw [txn_begin_btrees]
      · rw [if_neg hb]
        simp only [ne_eq, not_true_eq_false, if_false]
        rw [beginStmt_loop_inTrans, setBtree_btrees_same]
        show ((txn_begin w (w.btrees p).family_txn false).2.2.btrees p).inTrans = _
        rw [txn_begin_btrees]
    · rw [if_neg hr]
      simp only [ne_eq, not_true_eq_false, if_false]
      rw [beginStmt_loop_inTrans]
  · rw [if_neg ht]

/-- C11.  For a connection whose transaction state is `TRANS_NONE`,
`TRANS_READ` or `TRANS_WRITE` (0 < 1 < 2) and every `wrflag`,
`sqlite3BtreeBeginTrans` does not lower the state; a connection in
`TRANS_WRITE` stays there; a connection in `TRANS_READ` for which a write is
requested on a database that is not read-only becomes `TRANS_WRITE` when the
handle is not yet connected or is connected and transactional; and a write
request on a read-only database returns `SQLITE_READONLY` and changes
nothing. -/
theorem sqlite3BtreeBeginTrans_monotone (w : World) (p : Nat) (wrflag : Bool)
    (hstate : (w.btrees p).inTrans = TRANS_NONE ∨ (w.btrees p).inTrans = TRANS_READ ∨
      (w.btrees p).inTrans = TRANS_WRITE) :
    (w.btrees p).inTrans ≤ ((sqlite3BtreeBeginTrans w p wrflag).2.btrees p).inTrans ∧
    ((w.btrees p).inTrans = TRANS_WRITE →
      ((sqlite3BtreeBeginTrans w p wrflag).2.btrees p).inTrans = TRANS_WRITE) ∧
    ((w.btrees p).inTrans = TRANS_READ → wrflag = true →
      (w.bt p).db_oflags &&& DB_RDONLY = 0 →
      ((w.btrees p).connected = false ∨ (w.bt p).transactional = true) →
      ((sqlite3BtreeBeginTrans w p wrflag).2.btrees p).inTrans = TRANS_WRITE) ∧
    (wrflag = true → (w.bt p).db_oflags &&& DB_RDONLY ≠ 0 →
      sqlite3BtreeBeginTrans w p wrflag = (SQLITE_READONLY, w)) := by
  have key : ((sqlite3BtreeBeginTrans w p wrflag).2.btrees p).inTrans
      = (if wrflag = true ∧ (w.bt p).db_oflags &&& DB_RDONLY ≠ 0 then (w.btrees p).inTrans
         else if (w.btrees p).connected = false then
           (if wrflag = true ∨ (w.btrees p).inTrans = TRANS_WRITE then TRANS_WRITE
            else TRANS_READ)
         else if (w.bt p).transactional = true then
           (if wrflag = true ∧ (w.btrees p).inTrans ≠ TRANS_WRITE then TRANS_WRITE
            else if (w.btrees p).inTrans = TRANS_NONE then TRANS_READ
            else (w.btrees p).inTrans)
         else (w.btrees p).inTrans) := by
    unfold sqlite3BtreeBeginTrans
    simp only []
    by_cases h1 : wrflag = true ∧ (w.bt p).db_oflags &&& DB_RDONLY ≠ 0
    · rw [if_pos h1, if_pos h1]
    · rw [if_neg h1, if_neg h1]
      by_cases h2 : (w.btrees p).connected = false
      · simp only [h2, Bool.not_false, if_true]
        rw [setBtree_btrees_same]
      · have h2b : (w.btrees p).connected = true := by
          cases hc : (w.btrees p).connected
          · exact absurd hc h2
          · rfl
        simp only [h2b, Bool.not_true, Bool.false_eq_true, Bool.true_eq_false, if_false]
        by_cases h3 : (w.bt p).transactional = true
        · rw [if_pos h3, if_pos h3]
          split
          · rw [sqlite3BtreeBeginStmt_inTrans, setBtree_btrees_same]
          · rw [setBtree_btrees_same]
        · rw [if_neg h3, if_neg h3]
  refine ⟨?_, ?_, ?_, ?_⟩
  · rw [key]
    unfold TRANS_NONE TRANS_READ TRANS_WRITE at *
    split_ifs <;> omega
  · intro hw
    rw [key, hw]
    unfold TRANS_NONE TRANS_READ TRANS_WRITE
    split_ifs <;> simp_all
  · intro hr hwr hro hconn
    rw [key, hr]
    unfold TRANS_NONE TRANS_READ TRANS_WRITE
    rcases hconn with hc | ht
    · simp [hwr, hro, hc]
    · cases hc : (w.btrees p).connected
      · simp [hwr, hro]
      · simp [hwr, hro, ht]
  · intro hwr hro
    unfold sqlite3BtreeBeginTrans
    simp only []
    rw [if_pos ⟨hwr, hro⟩]

/-- C11, witness: a write is requested on the connection of
`World.connected1`, which is connected, transactional and in `TRANS_READ`: it
becomes `TRANS_WRITE`. -/
theorem sqlite3BtreeBeginTrans_monotone_witness :
    (World.connected1.btrees 1).inTrans = TRANS_READ ∧
    (World.connected1.btrees 1).inTrans
      ≤ ((sqlite3BtreeBeginTrans World.connected1 1 true).2.btrees 1).inTrans ∧
    ((sqlite3BtreeBeginTrans World.connected1 1 true).2.btrees 1).inTrans = TRANS_WRITE :=
  have h := sqlite3BtreeBeginTrans_monotone World.connected1 1 true (Or.inr (Or.inl rfl))
  ⟨rfl, h.1, h.2.2.1 rfl rfl (by decide) (Or.inr rfl)⟩

/-! ## Opening temporary and in-memory databases -/

theorem btreeCreateSharedBtree_spec (w : World) (p : Nat) (z : Option (List Char)) (flags : Nat)
    (store : storage_mode_t) :
    (btreeCreateSharedBtree w p z flags store).1 = 0 ∧
    (btreeCreateSharedBtree w p z flags store).2.g_shared_btrees = w.g_shared_btrees ∧
    ((btreeCreateSharedBtree w p z flags store).2.shared w.addrs).nRef = 1 ∧
    (∀ x, x ≠ w.addrs → (btreeCreateSharedBtree w p z flags store).2.shared x = w.shared x) ∧
    ((btreeCreateSharedBtree w p z flags store).2.btrees p).pBt = some w.addrs ∧
    (∀ r, r ≠ p → (btreeCreateSharedBtree w p z flags store).2.btrees r = w.btrees r) ∧
    (btreeCreateSharedBtree w p z flags store).2.addrs = w.addrs + 1 := by
  unfold btreeCreateSharedBtree
  refine ⟨rfl, rfl, ?_, ?_, ?_, ?_, rfl⟩
  · simp
  · intro x hx
    simp [setShared_shared_other _ _ _ _ hx]
  · simp
  · intro r hr
    simp [setBtree_btrees_other _ _ _ _ hr]

theorem sqlite3BtreeOpen_new_private (ops : EnvOps) (hops : ops.keepsRegistry) (w : World)
    (p : Nat) (z : Option (List Char)) (flags : Nat) (store : storage_mode_t) (q : Nat)
    (v : World) (hs : store ≠ DB_STORE_NAMED)
    (ho : sqlite3BtreeOpen_new ops w p z flags store = (SQLITE_OK, some q, v)) :
    q = p ∧
    v.g_shared_btrees = w.g_shared_btrees ∧
    (v.shared w.addrs).nRef = 1 ∧
    (∀ x, x ≠ w.addrs → (v.shared x).nRef = (w.shared x).nRef) ∧
    (v.btrees p).pBt = some w.addrs ∧
    (∀ r, r ≠ p → (v.btrees r).pBt = (w.btrees r).pBt) ∧
    w.addrs + 1 ≤ v.addrs := by
  obtain ⟨c1, c2, c3, c4, c5, c6, c7⟩ := btreeCreateSharedBtree_spec w p z flags store
  unfold sqlite3BtreeOpen_new at ho
  simp only [] at ho
  rw [if_neg (not_not.mpr c1), if_neg hs] at ho
  obtain ⟨hv, hadd⟩ := hops.2 (btreeCreateSharedBtree w p z flags store).2 p
  generalize btreeCreateSharedBtree w p z flags store = c at c2 c3 c4 c5 c6 c7 ho hv hadd
  have key : ∀ e : Int × World, e.2.regView = c.2.regView → c.2.addrs ≤ e.2.addrs →
      (if e.1 ≠ 0 then (e.1, (none : Option Nat), e.2) else (SQLITE_OK, some p, e.2))
        = (SQLITE_OK, some q, v) →
      q = p ∧ v.g_shared_btrees = w.g_shared_btrees ∧ (v.shared w.addrs).nRef = 1 ∧
      (∀ x, x ≠ w.addrs → (v.shared x).nRef = (w.shared x).nRef) ∧
      (v.btrees p).pBt = some w.addrs ∧
      (∀ r, r ≠ p → (v.btrees r).pBt = (w.btrees r).pBt) ∧
      w.addrs + 1 ≤ v.addrs := by
    intro e hview hle h
    obtain ⟨g1, g2, g3⟩ := regView_fields _ _ hview
    by_cases he : e.1 = 0
    · rw [if_neg (not_not.mpr he)] at h
      simp only [Prod.mk.injEq, Option.some.injEq, true_and] at h
      obtain ⟨hq, hv2⟩ := h
      subst hv2
      refine ⟨hq.symm, by rw [g1, c2], by rw [(g2 _).1, c3], ?_, by rw [g3, c5], ?_, by omega⟩
      · intro x hx
        rw [(g2 _).1, c4 x hx]
      · intro r hr
        rw [g3, c6 r hr]
    · rw [if_pos he] at h
      simp only [Prod.mk.injEq] at h
      exact absurd h.1 he
  by_cases hb : (c.2.shared (c.2.btAddr p)).resultsBuffer = true
  · simp only [hb, Bool.not_true, Bool.false_eq_true, if_false] at ho
    exact key (0, c.2) rfl (le_refl _) ho
  · have hb2 : (c.2.shared (c.2.btAddr p)).resultsBuffer = false := by
      cases h : (c.2.shared (c.2.btAddr p)).resultsBuffer
      · rfl
      · exact absurd h hb
    simp only [hb2, Bool.not_false, if_true] at ho
    exact key _ hv hadd ho

/-- Opening a database that is not a named file: the new `Btree` gets a
`BtShared` of its own, with one reference, and the registry is not touched. -/
theorem sqlite3BtreeOpen_fresh (ops : EnvOps) (hops : ops.keepsRegistry) (w : World)
    (z : Option (List Char)) (db flags vfsFlags p : Nat) (v : World)
    (hs : openStore z flags vfsFlags ≠ DB_STORE_NAMED)
    (ho : sqlite3BtreeOpen ops w z db flags vfsFlags = (SQLITE_OK, some p, v)) :
    p = w.addrs ∧
    v.g_shared_btrees = w.g_shared_btrees ∧
    (v.shared (w.addrs + 1)).nRef = 1 ∧
    (∀ x, x ≠ w.addrs + 1 → (v.shared x).nRef = (w.shared x).nRef) ∧
    (v.btrees p).pBt = some (w.addrs + 1) ∧
    (∀ r, r ≠ p → (v.btrees r).pBt = (w.btrees r).pBt) ∧
    w.addrs + 2 ≤ v.addrs := by
  unfold sqlite3BtreeOpen at ho
  simp only [] at ho
  rw [if_neg hs, if_neg hs] at ho
  rw [if_neg (not_not.mpr rfl)] at ho
  simp only [] at ho
  obtain ⟨h1, h2, h3, h4, h5, h6, h7⟩ :=
    sqlite3BtreeOpen_new_private ops hops _ _ _ _ _ _ _ hs ho
  subst h1
  refine ⟨rfl, h2, h3, h4, h5, ?_, ?_⟩
  · intro r hr
    rw [h6 r hr]
    show ((({ w with addrs := w.addrs + 1 } : World).setBtree w.addrs _).btrees r).pBt = _
    rw [setBtree_btrees_other _ _ _ _ hr]
  · have : w.addrs + 1 + 1 ≤ v.addrs := h7
    omega

/-- C19, counterexample: two connections opened on a temporary database (no
file name) from `World.empty`, and two opened with the transient-database
flag: the handles 1 and 3 point to two different `BtShared`, 2 and 4, each
with the reference count 1, where the claim gives one `BtShared` with the
count 2. -/
theorem sqlite3BtreeOpen_temp_not_shared :
    openStore none 0 0 = DB_STORE_INMEM ∧
    (sqlite3BtreeOpen EnvOps.simple World.empty none 0 0 0).1 = SQLITE_OK ∧
    (sqlite3BtreeOpen EnvOps.simple World.empty none 0 0 0).2.1 = some 1 ∧
    (sqlite3BtreeOpen EnvOps.simple
      (sqlite3BtreeOpen EnvOps.simple World.empty none 0 0 0).2.2 none 1 0 0).1 = SQLITE_OK ∧
    (sqlite3BtreeOpen EnvOps.simple
      (sqlite3BtreeOpen EnvOps.simple World.empty none 0 0 0).2.2 none 1 0 0).2.1 = some 3 ∧
    ((sqlite3BtreeOpen EnvOps.simple
      (sqlite3BtreeOpen EnvOps.simple World.empty none 0 0 0).2.2 none 1 0 0).2.2.btrees 1).pBt
      = some 2 ∧
    ((sqlite3BtreeOpen EnvOps.simple
      (sqlite3BtreeOpen EnvOps.simple World.empty none 0 0 0).2.2 none 1 0 0).2.2.btrees 3).pBt
      = some 4 ∧
    ((sqlite3BtreeOpen EnvOps.simple
      (sqlite3BtreeOpen EnvOps.simple World.empty none 0 0 0).2.2 none 1 0 0).2.2.shared 2).nRef
      = 1 ∧
    ((sqlite3BtreeOpen EnvOps.simple
      (sqlite3BtreeOpen EnvOps.simple World.empty none 0 0 0).2.2 none 1 0 0).2.2.shared 4).nRef
      = 1 ∧
    ((sqlite3BtreeOpen EnvOps.simple
      (sqlite3BtreeOpen EnvOps.simple World.empty none 0 0 SQLITE_OPEN_TRANSIENT_DB).2.2
      none 1 0 SQLITE_OPEN_TRANSIENT_DB).2.2.btrees 1).pBt = some 2 ∧
    ((sqlite3BtreeOpen EnvOps.simple
      (sqlite3BtreeOpen EnvOps.simple World.empty none 0 0 SQLITE_OPEN_TRANSIENT_DB).2.2
      none 1 0 SQLITE_OPEN_TRANSIENT_DB).2.2.btrees 3).pBt = some 4 := by
  refine ⟨by decide, rfl, rfl, rfl, rfl, rfl, rfl, rfl, rfl, rfl, rfl⟩

/-- C19, amended: every connection opened on a temporary or in-memory database
(no file name, an empty name, ":memory:", the `BTREE_MEMORY` flag or the
transient-database flag) gets a `BtShared` of its own: two such successful
`sqlite3BtreeOpen` calls yield two `Btree` handles that point to two different
`BtShared`, each with the reference count 1, and the registry list is left as
it was.  (The environment functions are assumed to leave the registry
alone.) -/
theorem sqlite3BtreeOpen_private (ops : EnvOps) (hops : ops.keepsRegistry)
    (w0 w1 w2 : World) (z1 z2 : Option (List Char))
    (db1 db2 flags1 vfs1 flags2 vfs2 p1 p2 : Nat)
    (hs1 : openStore z1 flags1 vfs1 ≠ DB_STORE_NAMED)
    (hs2 : openStore z2 flags2 vfs2 ≠ DB_STORE_NAMED)
    (ho1 : sqlite3BtreeOpen ops w0 z1 db1 flags1 vfs1 = (SQLITE_OK, some p1, w1))
    (ho2 : sqlite3BtreeOpen ops w1 z2 db2 flags2 vfs2 = (SQLITE_OK, some p2, w2)) :
    ∃ a1 a2 : Nat, a1 ≠ a2 ∧ p1 ≠ p2 ∧
      (w2.btrees p1).pBt = some a1 ∧ (w2.btrees p2).pBt = some a2 ∧
      (w2.shared a1).nRef = 1 ∧ (w2.shared a2).nRef = 1 ∧
      w2.g_shared_btrees = w0.g_shared_btrees := by
  obtain ⟨f1, f2, f3, _, f5, _, f7⟩ :=
    sqlite3BtreeOpen_fresh ops hops w0 z1 db1 flags1 vfs1 p1 w1 hs1 ho1
  obtain ⟨s1, s2, s3, s4, s5, s6, _⟩ :=
    sqlite3BtreeOpen_fresh ops hops w1 z2 db2 flags2 vfs2 p2 w2 hs2 ho2
  have hp : p1 ≠ p2 := by omega
  have ha : w0.addrs + 1 ≠ w1.addrs + 1 := by omega
  refine ⟨w0.addrs + 1, w1.addrs + 1, ha, hp, ?_, s5, ?_, s3, ?_⟩
  · rw [s6 p1 hp, f5]
  · rw [s4 _ ha, f3]
  · rw [s2, f2]

/-- C19, witness: the in-memory database opened twice from `World.empty`. -/
theorem sqlite3BtreeOpen_private_witness :
    ∃ a1 a2 : Nat, a1 ≠ a2 ∧ (1 : Nat) ≠ 3 ∧
      ((sqlite3BtreeOpen EnvOps.simple
        (sqlite3BtreeOpen EnvOps.simple World.empty none 0 0 0).2.2 none 1 0 0).2.2.btrees
          1).pBt = some a1 ∧
      ((sqlite3BtreeOpen EnvOps.simple
        (sqlite3BtreeOpen EnvOps.simple World.empty none 0 0 0).2.2 none 1 0 0).2.2.btrees
          3).pBt = some a2 ∧
      ((sqlite3BtreeOpen EnvOps.simple
        (sqlite3BtreeOpen EnvOps.simple World.empty none 0 0 0).2.2 none 1 0 0).2.2.shared
          a1).nRef = 1 ∧
      ((sqlite3BtreeOpen EnvOps.simple
        (sqlite3BtreeOpen EnvOps.simple World.empty none 0 0 0).2.2 none 1 0 0).2.2.shared
          a2).nRef = 1 ∧
      (sqlite3BtreeOpen EnvOps.simple
        (sqlite3BtreeOpen EnvOps.simple World.empty none 0 0 0).2.2 none 1 0 0).2.2.g_shared_btrees
        = World.empty.g_shared_btrees :=
  sqlite3BtreeOpen_private EnvOps.simple EnvOps.simple_keepsRegistry World.empty
    (sqlite3BtreeOpen EnvOps.simple World.empty none 0 0 0).2.2
    (sqlite3BtreeOpen EnvOps.simple
      (sqlite3BtreeOpen EnvOps.simple World.empty none 0 0 0).2.2 none 1 0 0).2.2
    none none 0 1 0 0 0 0 1 3 (by decide) (by decide) rfl rfl

/-! ## A cursor in `CURSOR_FAULT` -/

theorem btreeRestoreOpen_fault (ops : EnvOps) (w : World) (c : Nat) (skip : Bool)
    (hst : (w.cursors c).eState = CURSOR_FAULT) :
    btreeRestoreOpen ops w c skip = (some (w.cursors c).error, w) := by
  unfold btreeRestoreOpen
  simp only []
  rw [if_pos hst]

theorem btreeRestoreCursorPosition_fault (ops : EnvOps) (w : World) (c : Nat) (skip : Bool)
    (hst : (w.cursors c).eState = CURSOR_FAULT) :
    btreeRestoreCursorPosition ops w c skip = ((w.cursors c).error, w) := by
  unfold btreeRestoreCursorPosition
  simp only []
  rw [btreeRestoreOpen_fault ops w c skip hst]

/-- The calls that do return the cached error of a cursor in `CURSOR_FAULT`:
`sqlite3BtreeLast`, `sqlite3BtreeKeySize` and `sqlite3BtreeDataSize` always,
and `sqlite3BtreeMovetoUnpacked`, `sqlite3BtreeFirst`, `sqlite3BtreeNext` and
`sqlite3BtreePrevious` when the cursor has no engine cursor.  The cursor stays
in `CURSOR_FAULT` with the same error. -/
theorem fault_sticky (ops : EnvOps) (w : World) (c : Nat) (e : Int)
    (hst : (w.cursors c).eState = CURSOR_FAULT) (herr : (w.cursors c).error = e)
    (he : e ≠ SQLITE_OK) :
    sqlite3BtreeLast ops w c = (e, none, w) ∧
    sqlite3BtreeKeySize ops w c = (e, none, w) ∧
    sqlite3BtreeDataSize ops w c = (e, none, w) ∧
    ((w.cursors c).dbc = none →
      (∀ (pUnKey : Option (List Nat)) (nKey : Int),
        sqlite3BtreeMovetoUnpacked ops w c pUnKey nKey = (e, none, w)) ∧
      (sqlite3BtreeFirst ops w c).1 = e ∧
      ((sqlite3BtreeFirst ops w c).2.2.cursors c).eState = CURSOR_FAULT ∧
      ((sqlite3BtreeFirst ops w c).2.2.cursors c).error = e ∧
      sqlite3BtreeNext ops w c = (e, none, w) ∧
      sqlite3BtreePrevious ops w c = (e, none, w)) := by
  have hne : (w.cursors c).eState ≠ CURSOR_VALID := by rw [hst]; decide
  have hni : (w.cursors c).eState ≠ CURSOR_INVALID := by rw [hst]; decide
  have hr := btreeRestoreCursorPosition_fault ops w c false hst
  have hr1 := btreeRestoreOpen_fault ops w c true hst
  rw [herr] at hr hr1
  refine ⟨?_, ?_, ?_, ?_⟩
  · unfold sqlite3BtreeLast
    simp only []
    rw [if_pos hst, herr]
  · unfold sqlite3BtreeKeySize
    simp only []
    rw [if_pos hne, hr]
    simp only []
    rw [if_pos he]
  · unfold sqlite3BtreeDataSize
    simp only []
    rw [if_pos hne, hr]
    simp only []
    rw [if_pos he]
  · intro hdbc
    refine ⟨?_, ?_, ?_, ?_, ?_, ?_⟩
    · intro pUnKey nKey
      unfold sqlite3BtreeMovetoUnpacked
      simp only []
      rw [if_pos hdbc, hr1]
      simp only []
      rw [if_pos (by intro h; exact he (Option.some.inj h))]
      rfl
    · unfold sqlite3BtreeFirst
      simp only []
      by_cases hm : (w.cursors c).multiPutPtr ≠ none
      · rw [if_pos hm, if_pos hst, herr]
      · rw [if_neg hm, if_pos hdbc,
          btreeRestoreCursorPosition_fault ops _ c true (by rw [setCursor_cursors_same]; exact hst)]
        simp only [setCursor_cursors_same]
        rw [if_pos (by rw [herr]; exact he)]
        exact herr
    · unfold sqlite3BtreeFirst
      simp only []
      by_cases hm : (w.cursors c).multiPutPtr ≠ none
      · rw [if_pos hm, if_pos hst]
        exact hst
      · rw [if_neg hm, if_pos hdbc,
          btreeRestoreCursorPosition_fault ops _ c true (by rw [setCursor_cursors_same]; exact hst)]
        simp only [setCursor_cursors_same]
        rw [if_pos (by rw [herr]; exact he)]
        simp only [setCursor_cursors_same]
        exact hst
    · unfold sqlite3BtreeFirst
      simp only []
      by_cases hm : (w.cursors c).multiPutPtr ≠ none
      · rw [if_pos hm, if_pos hst]
        exact herr
      · rw [if_neg hm, if_pos hdbc,
          btreeRestoreCursorPosition_fault ops _ c true (by rw [setCursor_cursors_same]; exact hst)]
        simp only [setCursor_cursors_same]
        rw [if_pos (by rw [herr]; exact he)]
        simp only [setCursor_cursors_same]
        exact herr
    · unfold sqlite3BtreeNext
      simp only []
      rw [if_neg (by intro h; exact hni h.2), if_pos hdbc, hr]
      simp only []
      rw [if_pos he]
    · unfold sqlite3BtreePrevious
      simp only []
      rw [if_neg (by intro h; exact hni h.2), if_pos hdbc, hr]
      simp only []
      rw [if_pos he]

/-- C13, the failing input: in `World.faulted` the read cursor 10 is in
`CURSOR_FAULT` with the cached error `SQLITE_ABORT` and its engine cursor is
open.  `sqlite3BtreeLast`, `sqlite3BtreeKeySize` and `sqlite3BtreeDataSize`
return `SQLITE_ABORT`; `sqlite3BtreeMovetoUnpacked`, `sqlite3BtreeFirst`,
`sqlite3BtreeNext` and `sqlite3BtreePrevious` go to the engine, return
`SQLITE_OK` and take the cursor out of `CURSOR_FAULT`. -/
theorem fault_not_sticky_with_dbc :
    (World.faulted.cursors 10).eState = CURSOR_FAULT ∧
    (World.faulted.cursors 10).error = SQLITE_ABORT ∧
    (World.faulted.cursors 10).dbc = some 20 ∧
    (sqlite3BtreeLast EnvOps.idle World.faulted 10).1 = SQLITE_ABORT ∧
    (sqlite3BtreeKeySize EnvOps.idle World.faulted 10).1 = SQLITE_ABORT ∧
    (sqlite3BtreeDataSize EnvOps.idle World.faulted 10).1 = SQLITE_ABORT ∧
    (sqlite3BtreeMovetoUnpacked EnvOps.idle World.faulted 10 none 1).1 = SQLITE_OK ∧
    ((sqlite3BtreeMovetoUnpacked EnvOps.idle World.faulted 10 none 1).2.2.cursors 10).eState
      = CURSOR_VALID ∧
    (sqlite3BtreeFirst EnvOps.idle World.faulted 10).1 = SQLITE_OK ∧
    ((sqlite3BtreeFirst EnvOps.idle World.faulted 10).2.2.cursors 10).eState = CURSOR_VALID ∧
    (sqlite3BtreeNext EnvOps.idle World.faulted 10).1 = SQLITE_OK ∧
    ((sqlite3BtreeNext EnvOps.idle World.faulted 10).2.2.cursors 10).eState = CURSOR_INVALID ∧
    (sqlite3BtreePrevious EnvOps.idle World.faulted 10).1 = SQLITE_OK ∧
    ((sqlite3BtreePrevious EnvOps.idle World.faulted 10).2.2.cursors 10).eState
      = CURSOR_INVALID := by
  refine ⟨rfl, rfl, rfl, rfl, rfl, rfl, rfl, rfl, rfl, rfl, rfl, rfl, rfl, rfl⟩

/-! ## A cursor closed with its transaction or connection -/

theorem btreeRestoreOpen_closed (ops : EnvOps) (w : World) (c : Nat) (skip : Bool)
    (hst : (w.cursors c).eState ≠ CURSOR_FAULT) (hbt : (w.cursors c).pBtree = none) :
    btreeRestoreOpen ops w c skip = (some SQLITE_ABORT, w) := by
  unfold btreeRestoreOpen
  simp only []
  rw [if_neg hst, if_pos (Or.inl hbt)]

theorem btreeRestoreCursorPosition_closed (ops : EnvOps) (w : World) (c : Nat) (skip : Bool)
    (hst : (w.cursors c).eState ≠ CURSOR_FAULT) (hbt : (w.cursors c).pBtree = none) :
    btreeRestoreCursorPosition ops w c skip = (SQLITE_ABORT, w) := by
  unfold btreeRestoreCursorPosition
  simp only []
  rw [btreeRestoreOpen_closed ops w c skip hst hbt]

/-- What holds of C14: on a cursor as `btreeCloseCursor` leaves it (state
`CURSOR_INVALID`, no engine cursor, no owning connection),
`sqlite3BtreeMovetoUnpacked`, `sqlite3BtreeLast`, `sqlite3BtreeNext`,
`sqlite3BtreePrevious`, `sqlite3BtreeKeySize` and `sqlite3BtreeDataSize`
return `SQLITE_ABORT` and leave the world, the engine included, as it is;
`sqlite3BtreeCloseCursor` returns `SQLITE_OK`; `sqlite3BtreeFirst` returns
`SQLITE_ABORT` without an engine call when the cursor has no bulk-insert
buffer pending (`multiPutPtr` is NULL). -/
theorem closed_cursor_abort (ops : EnvOps) (w : World) (c : Nat)
    (hst : (w.cursors c).eState = CURSOR_INVALID) (hdbc : (w.cursors c).dbc = none)
    (hbt : (w.cursors c).pBtree = none) :
    (∀ (pUnKey : Option (List Nat)) (nKey : Int),
      sqlite3BtreeMovetoUnpacked ops w c pUnKey nKey = (SQLITE_ABORT, none, w)) ∧
    sqlite3BtreeLast ops w c = (SQLITE_ABORT, none, w) ∧
    sqlite3BtreeNext ops w c = (SQLITE_ABORT, none, w) ∧
    sqlite3BtreePrevious ops w c = (SQLITE_ABORT, none, w) ∧
    sqlite3BtreeKeySize ops w c = (SQLITE_ABORT, none, w) ∧
    sqlite3BtreeDataSize ops w c = (SQLITE_ABORT, none, w) ∧
    sqlite3BtreeCloseCursor w (some c) = (SQLITE_OK, w) ∧
    ((w.cursors c).multiPutPtr = none →
      (sqlite3BtreeFirst ops w c).1 = SQLITE_ABORT ∧
      (sqlite3BtreeFirst ops w c).2.1 = none ∧
      (sqlite3BtreeFirst ops w c).2.2.events = w.events ∧
      (sqlite3BtreeFirst ops w c).2.2.tables = w.tables ∧
      (sqlite3BtreeFirst ops w c).2.2.dbcs = w.dbcs) := by
  have hnf : (w.cursors c).eState ≠ CURSOR_FAULT := by rw [hst]; decide
  have hnv : (w.cursors c).eState ≠ CURSOR_VALID := by rw [hst]; decide
  have ha : SQLITE_ABORT ≠ SQLITE_OK := by decide
  have hr := btreeRestoreCursorPosition_closed ops w c false hnf hbt
  have hr1 := btreeRestoreCursorPosition_closed ops w c true hnf hbt
  have ho1 := btreeRestoreOpen_closed ops w c true hnf hbt
  refine ⟨?_, ?_, ?_, ?_, ?_, ?_, ?_, ?_⟩
  · intro pUnKey nKey
    unfold sqlite3BtreeMovetoUnpacked
    simp only []
    rw [if_pos hdbc, ho1]
    simp only []
    rw [if_pos (by intro h; exact ha (Option.some.inj h))]
    rfl
  · unfold sqlite3BtreeLast
    simp only []
    rw [if_neg hnf, if_neg (by intro h; exact h.1 hbt), if_pos hdbc, hr1]
    simp only []
    rw [if_pos ha]
  · unfold sqlite3BtreeNext
    simp only []
    rw [if_neg (by intro h; exact h.1 hdbc), if_pos hdbc, hr]
    simp only []
    rw [if_pos ha]
  · unfold sqlite3BtreePrevious
    simp only []
    rw [if_neg (by intro h; exact h.1 hdbc), if_pos hdbc, hr]
    simp only []
    rw [if_pos ha]
  · unfold sqlite3BtreeKeySize
    simp only []
    rw [if_pos hnv, hr]
    simp only []
    rw [if_pos ha]
  · unfold sqlite3BtreeDataSize
    simp only []
    rw [if_pos hnv, hr]
    simp only []
    rw [if_pos ha]
  · unfold sqlite3BtreeCloseCursor
    simp [hbt]
  · intro hm
    have hF : sqlite3BtreeFirst ops w c
        = (SQLITE_ABORT, none, w.setCursor c { w.cursors c with multiGetPtr := none }) := by
      unfold sqlite3BtreeFirst
      simp only []
      rw [if_neg (by intro h; exact h hm), if_pos hdbc,
        btreeRestoreCursorPosition_closed ops _ c true
          (by rw [setCursor_cursors_same]; exact hnf) (by rw [setCursor_cursors_same]; exact hbt)]
      simp only []
      rw [if_pos ha]
    rw [hF]
    exact ⟨rfl, rfl, rfl, rfl, rfl⟩

/-- C14, the failing input: the write cursor 10 of `World.closedBuffered` was
closed by `btreeCloseAllCursors (p, NULL)` while it held a buffered row, so it
is `CURSOR_INVALID` with no engine cursor and no owning connection, but its
`multiPutPtr` is still set.  `sqlite3BtreeLast`, `sqlite3BtreeNext` and
`sqlite3BtreeMovetoUnpacked` return `SQLITE_ABORT` on it and
`sqlite3BtreeCloseCursor` returns `SQLITE_OK`; `sqlite3BtreeFirst` takes the
bulk-buffer branch, marks the cursor valid and goes on to `cursorGet`, and
does not return `SQLITE_ABORT`. -/
theorem sqlite3BtreeFirst_closed_buffered :
    (World.closedBuffered.cursors 10).eState = CURSOR_INVALID ∧
    (World.closedBuffered.cursors 10).dbc = none ∧
    (World.closedBuffered.cursors 10).pBtree = none ∧
    (10 : Nat) ∉ (World.closedBuffered.shared 2).cursors ∧
    (World.closedBuffered.cursors 10).multiPutPtr ≠ none ∧
    (sqlite3BtreeLast EnvOps.idle World.closedBuffered 10).1 = SQLITE_ABORT ∧
    (sqlite3BtreeNext EnvOps.idle World.closedBuffered 10).1 = SQLITE_ABORT ∧
    (sqlite3BtreeMovetoUnpacked EnvOps.idle World.closedBuffered 10 none 5).1 = SQLITE_ABORT ∧
    (sqlite3BtreeCloseCursor World.closedBuffered (some 10)).1 = SQLITE_OK ∧
    sqlite3BtreeFirst EnvOps.idle World.closedBuffered 10
      = cursorGet
          (World.closedBuffered.setCursor 10
            { World.closedBuffered.cursors 10 with
                multiData := some [], multiGetPtr := some 0, multiPutPtr := none,
                eState := CURSOR_VALID })
          10 DB_NEXT ∧
    (sqlite3BtreeFirst EnvOps.idle World.closedBuffered 10).1 ≠ SQLITE_ABORT := by
  refine ⟨rfl, rfl, rfl, by decide, by decide, rfl, rfl, rfl, rfl, rfl, by decide⟩

/-! ## The sign reported by a seek -/

theorem sqlite3BtreeMovetoUnpacked_already (ops : EnvOps) (w : World) (c d : Nat) (k : Int)
    (hdbc : (w.cursors c).dbc = some d)
    (hv : (w.cursors c).eState = CURSOR_VALID ∧ (w.cursors c).intKey = true ∧
      (w.cursors c).savedIntKey = k) :
    sqlite3BtreeMovetoUnpacked ops w c none k = (SQLITE_OK, some 0, w) := by
  have hd : (w.cursors c).dbc ≠ none := by rw [hdbc]; simp
  unfold sqlite3BtreeMovetoUnpacked
  simp only []
  rw [if_neg hd]
  simp only [ne_eq, not_true_eq_false, if_false]
  rw [if_pos hv]

theorem validOn_key (w : World) (c : Nat) (i j : Int) (hi : w.validOn c i) (hj : w.validOn c j) :
    i = j := by
  rw [← hi.2.1, ← hj.2.1]

/-- The sign of a seek where the saved key is not stale.
`sqlite3BtreeMovetoUnpacked` for the integer key `k` on a cursor with
a live engine cursor on an integer-keyed table that is not buffered, every
engine call doing what the engine semantics says; `ks` are the keys of the
table in increasing order, and a cursor that is already valid with the saved
key `k` rests on the row `k` (`hrest`, which `sqlite3BtreeInsert` breaks).
The call returns `SQLITE_OK` and leaves the
table as it is; `*pRes` is 0 exactly when the cursor ends valid on the row
with the key `k`; it is positive exactly when `k` is absent and the cursor
ends valid on the smallest key above `k`; it is negative exactly when no key
of the table is `k` or more, and then the cursor is valid on the largest key
or, the table being empty, `CURSOR_INVALID`. -/
theorem sqlite3BtreeMovetoUnpacked_sign (ops : EnvOps) (w : World) (c d : Nat) (ks : List Int)
    (k : Int) (hw : w.intCursor c d ks) (hsorted : ks.Pairwise (· < ·))
    (hrange : ∀ i ∈ ks, -9223372036854775808 ≤ i ∧ i ≤ 9223372036854775807)
    (hk1 : -9223372036854775808 ≤ k) (hk2 : k ≤ 9223372036854775807)
    (hrest : (w.cursors c).eState = CURSOR_VALID → (w.cursors c).savedIntKey = k →
      k ∈ ks ∧ w.validOn c k) :
    (sqlite3BtreeMovetoUnpacked ops w c none k).1 = SQLITE_OK ∧
    (sqlite3BtreeMovetoUnpacked ops w c none k).2.2.intCursor c d ks ∧
    ∃ res : Int, (sqlite3BtreeMovetoUnpacked ops w c none k).2.1 = some res ∧
      (res = 0 ↔ k ∈ ks ∧ (sqlite3BtreeMovetoUnpacked ops w c none k).2.2.validOn c k) ∧
      (0 < res ↔ ∃ j ∈ ks, k < j ∧ (∀ i ∈ ks, k ≤ i → j ≤ i) ∧
        (sqlite3BtreeMovetoUnpacked ops w c none k).2.2.validOn c j) ∧
      (res < 0 ↔ ∀ i ∈ ks, i < k) ∧
      (res < 0 →
        (∀ j, ks.getLast? = some j →
          (sqlite3BtreeMovetoUnpacked ops w c none k).2.2.validOn c j) ∧
        (ks = [] →
          ((sqlite3BtreeMovetoUnpacked ops w c none k).2.2.cursors c).eState
            = CURSOR_INVALID)) := by
  by_cases hv : (w.cursors c).eState = CURSOR_VALID ∧ (w.cursors c).intKey = true ∧
      (w.cursors c).savedIntKey = k
  · obtain ⟨hmem, hon⟩ := hrest hv.1 hv.2.2
    rw [sqlite3BtreeMovetoUnpacked_already ops w c d k hw.2.1 hv]
    refine ⟨rfl, hw, 0, rfl, ?_, ?_, ?_, ?_⟩
    · exact ⟨fun _ => ⟨hmem, hon⟩, fun _ => rfl⟩
    · constructor
      · intro h; exact absurd h (by decide)
      · rintro ⟨j, _, hkj, hmin, _⟩
        have := hmin k hmem (le_refl k)
        omega
    · constructor
      · intro h; exact absurd h (by decide)
      · intro h
        have := h k hmem
        omega
    · intro h; exact absurd h (by decide)
  · have hP : ∀ i ∈ ks, (!bytesLt (encKey i) (encKey k)) = decide (k ≤ i) := by
      intro i hi
      rw [encKey_order i _ (hrange i hi).1 (hrange i hi).2 hk1 hk2]
      by_cases h : i < k
      · simp [h]
      · simp [h]; omega
    cases h0 : ks.find? (fun i => decide (k ≤ i)) with
    | some j0 =>
      have hj0mem : j0 ∈ ks := List.mem_of_find?_eq_some h0
      have hj0 : k ≤ j0 := by simpa using List.find?_some h0
      have hj0min := find_some_least _ ks hsorted j0 h0
      obtain ⟨row, hrow, hrow1⟩ := rows_find_some _ ks
        (fun b => !bytesLt b (encKey k)) hw.2.2.2.2.2 j0
        (by rw [find_congr _ _ ks hP]; exact h0)
      have hdk : decodeKey (DBT.ofBytes row.1) = j0 := by
        rw [hrow1]
        exact decodeKey_encKey j0 (hrange j0 hj0mem).1 (hrange j0 hj0mem).2
      obtain ⟨m1, _, m2, m3, m4, m5, m6, _, _, m9⟩ :=
        sqlite3BtreeMovetoUnpacked_some ops w c d ks k row hw hv (Or.inl hrow)
      generalize sqlite3BtreeMovetoUnpacked ops w c none k = M at m1 m2 m3 m4 m5 m6 m9
      rw [hdk] at m2 m6
      have hon : M.2.2.validOn c j0 :=
        ⟨m5, m6, by rw [m9, hrow1]; rfl, d, m3.2.1, by rw [m4, hrow1]⟩
      refine ⟨m1, m3, _, m2, ?_, ?_, ?_, ?_⟩
      · constructor
        · intro h
          have hjk : j0 = k := by
            by_contra hne
            rw [if_neg hne, if_neg (by omega)] at h
            exact absurd h (by decide)
          rw [← hjk]
          exact ⟨hj0mem, hon⟩
        · rintro ⟨_, hk⟩
          rw [if_pos (validOn_key _ c _ _ hon hk)]
      · constructor
        · intro h
          have hjk : k < j0 := by
            by_contra hne
            rw [if_pos (by omega)] at h
            exact absurd h (by decide)
          exact ⟨j0, hj0mem, hjk, fun i hi hki => hj0min i hi (by simpa using hki), hon⟩
        · rintro ⟨j, _, hkj, _, hj⟩
          have hjj : j0 = j := validOn_key _ c _ _ hon hj
          rw [if_neg (by omega), if_neg (by omega)]
          decide
      · constructor
        · intro h
          exfalso
          by_cases hjk : j0 = k
          · rw [if_pos hjk] at h
            exact absurd h (by decide)
          · rw [if_neg hjk, if_neg (by omega)] at h
            exact absurd h (by decide)
        · intro h
          have := h j0 hj0mem
          omega
      · intro h
        exfalso
        by_cases hjk : j0 = k
        · rw [if_pos hjk] at h
          exact absurd h (by decide)
        · rw [if_neg hjk, if_neg (by omega)] at h
          exact absurd h (by decide)
    | none =>
      have hnone := List.find?_eq_none.mp h0
      have hall : ∀ i ∈ ks, i < k := by
        intro i hi
        have := hnone i hi
        simp at this
        exact this
      have hfind := rows_find_none _ ks (fun b => !bytesLt b (encKey k)) hw.2.2.2.2.2
        (by rw [find_congr _ _ ks hP]; exact h0)
      cases h2 : ks.getLast? with
      | some jl =>
        obtain ⟨hjlmem, _⟩ := getLast_max ks hsorted jl h2
        obtain ⟨row, hrow, hrow1⟩ := rows_getLast_some _ ks hw.2.2.2.2.2 jl h2
        have hdk : decodeKey (DBT.ofBytes row.1) = jl := by
          rw [hrow1]
          exact decodeKey_encKey jl (hrange jl hjlmem).1 (hrange jl hjlmem).2
        have hjl := hall jl hjlmem
        obtain ⟨m1, _, m2, m3, m4, m5, m6, _, _, m9⟩ :=
          sqlite3BtreeMovetoUnpacked_some ops w c d ks k row hw hv (Or.inr ⟨hfind, hrow⟩)
        generalize sqlite3BtreeMovetoUnpacked ops w c none k = M at m1 m2 m3 m4 m5 m6 m9
        rw [hdk, if_neg (by omega), if_pos hjl] at m2
        rw [hdk] at m6
        have hon : M.2.2.validOn c jl :=
          ⟨m5, m6, by rw [m9, hrow1]; rfl, d, m3.2.1, by rw [m4, hrow1]⟩
        refine ⟨m1, m3, _, m2, ?_, ?_, ?_, ?_⟩
        · constructor
          · intro h; exact absurd h (by decide)
          · rintro ⟨hk, _⟩
            have := hall k hk
            omega
        · constructor
          · intro h; exact absurd h (by decide)
          · rintro ⟨j, hj, hkj, _, _⟩
            have := hall j hj
            omega
        · exact ⟨fun _ => hall, fun _ => by decide⟩
        · intro _
          refine ⟨?_, ?_⟩
          · intro j hj
            have : jl = j := Option.some.inj hj
            rw [← this]
            exact hon
          · intro he
            rw [he] at hjlmem
            simp at hjlmem
      | none =>
        have hks : ks = [] := List.getLast?_eq_none_iff.mp h2
        have hempty : w.tables (w.dbhs (w.dbcs d).dbp).tid = [] := by
          have h3 := hw.2.2.2.2.2
          rw [hks] at h3
          simpa using h3
        obtain ⟨m1, _, m2, m3, _, m5, _, _⟩ :=
          sqlite3BtreeMovetoUnpacked_none ops w c d ks k hw hv hempty
        generalize sqlite3BtreeMovetoUnpacked ops w c none k = M at m1 m2 m3 m5
        refine ⟨m1, m3, _, m2, ?_, ?_, ?_, ?_⟩
        · constructor
          · intro h; exact absurd h (by decide)
          · rintro ⟨hk, _⟩
            rw [hks] at hk
            simp at hk
        · constructor
          · intro h; exact absurd h (by decide)
          · rintro ⟨j, hj, _⟩
            rw [hks] at hj
            simp at hj
        · exact ⟨fun _ => hall, fun _ => by decide⟩
        · intro _
          refine ⟨?_, fun _ => m5⟩
          intro j hj
          exact absurd hj (by simp)

/-- The cursor 10 of `World.watch 1` is on a table whose only key is 1; a seek for the key 0 succeeds, reports 1 and leaves the cursor valid on
the key 1, the smallest key above 0. -/
theorem sqlite3BtreeMovetoUnpacked_sign_witness :
    (sqlite3BtreeMovetoUnpacked EnvOps.idle (World.watch 1) 10 none 0).1 = SQLITE_OK ∧
    (sqlite3BtreeMovetoUnpacked EnvOps.idle (World.watch 1) 10 none 0).2.1 = some 1 ∧
    (sqlite3BtreeMovetoUnpacked EnvOps.idle (World.watch 1) 10 none 0).2.2.validOn 10 1 := by
  obtain ⟨h1, _, res, hres, _, hpos, _⟩ :=
    sqlite3BtreeMovetoUnpacked_sign EnvOps.idle (World.watch 1) 10 20 [1] 0
      ⟨rfl, rfl, rfl, rfl, rfl, rfl⟩ (by simp) (by decide) (by decide) (by decide)
      (fun _ h => absurd h (by decide))
  have hr : (sqlite3BtreeMovetoUnpacked EnvOps.idle (World.watch 1) 10 none 0).2.1 = some 1 :=
    rfl
  have h1r : res = 1 := by
    rw [hr] at hres
    exact (Option.some.inj hres).symm
  obtain ⟨j, hj, _, _, hon⟩ := hpos.mp (by rw [h1r]; decide)
  have hj1 : j = 1 := by simpa using hj
  rw [hj1] at hon
  exact ⟨h1, hr, hon⟩

/-- C17, the failing input: in `World.afterInsert` the cursor 10 is an
integer-keyed cursor with the live engine cursor 5 on a table whose keys are
1 and 3, and no engine fault is scripted; it is `CURSOR_VALID` with the saved
key 1, left by the seek before the insert of the row 3, while its engine
cursor and cached key are on the row 3.  `sqlite3BtreeMovetoUnpacked` for the
key 1, which is in the table, returns `SQLITE_OK` with `*pRes = 0` through the
shortcut (btree.c:2288-2292) without a seek: the cursor does not end on the
entry with the key 1 but stays on the row 3.  The same call for the key 3
seeks and ends valid on the row 3 with `*pRes = 0`. -/
theorem sqlite3BtreeMovetoUnpacked_stale_zero :
    World.afterInsert.intCursor 10 5 [1, 3] ∧
    (World.afterInsert.cursors 10).eState = CURSOR_VALID ∧
    (World.afterInsert.cursors 10).savedIntKey = 1 ∧
    sqlite3BtreeMovetoUnpacked (EnvOps.tmp EnvOps.idle) World.afterInsert 10 none 1
      = (SQLITE_OK, some 0, World.afterInsert) ∧
    ¬ World.afterInsert.validOn 10 1 ∧
    (World.afterInsert.cursors 10).key.data = some (encKey 3) ∧
    (World.afterInsert.dbcs 5).pos = some (encKey 3) ∧
    (sqlite3BtreeMovetoUnpacked (EnvOps.tmp EnvOps.idle) World.afterInsert 10 none 3).1
      = SQLITE_OK ∧
    (sqlite3BtreeMovetoUnpacked (EnvOps.tmp EnvOps.idle) World.afterInsert 10 none 3).2.1
      = some 0 ∧
    (sqlite3BtreeMovetoUnpacked (EnvOps.tmp EnvOps.idle) World.afterInsert 10 none 3).2.2.validOn
      10 3 := by
  have hkey : (World.afterInsert.cursors 10).key.data = some (encKey 3) := by decide!
  refine ⟨⟨by decide!, by decide!, by decide!, by decide!, by decide!, by decide!⟩,
    by decide!, by decide!, ?_, ?_, hkey, by decide!, by decide!, by decide!, ?_⟩
  · exact sqlite3BtreeMovetoUnpacked_already _ _ 10 5 1 (by decide!)
      ⟨by decide!, by decide!, by decide!⟩
  · intro h
    have h1 := h.2.2.1
    rw [hkey] at h1
    exact absurd h1 (by decide)
  · exact ⟨by decide!, by decide!, by decide!, 5, by decide!, by decide!⟩

/-! ## The cursors of a transaction are closed before it is ended -/

theorem parentSteps_le (txns : Nat → DB_TXN) (hpar : ∀ x q, (txns x).parent = some q → q < x)
    (t : Nat) : ∀ (j x : Nat), parentSteps txns j x = some t → t + j ≤ x := by
  intro j
  induction j with
  | zero =>
    intro x h
    have : x = t := Option.some.inj h
    omega
  | succ j ih =>
    intro x h
    unfold parentSteps at h
    cases hp : (txns x).parent with
    | none => rw [hp] at h; simp at h
    | some q =>
      rw [hp] at h
      have h1 := ih q h
      have h2 := hpar x q hp
      omega

theorem txnReaches_iff (txns : Nat → DB_TXN) (t : Nat) :
    ∀ (fuel x : Nat), txnReaches txns t fuel (some x) = true
      ↔ ∃ j, j ≤ fuel ∧ parentSteps txns j x = some t := by
  intro fuel
  induction fuel with
  | zero =>
    intro x
    unfold txnReaches
    constructor
    · intro h
      exact ⟨0, le_refl 0, by simpa [parentSteps] using h⟩
    · rintro ⟨j, hj, h⟩
      have hj0 : j = 0 := by omega
      subst hj0
      simpa [parentSteps] using h
  | succ fuel ih =>
    intro x
    unfold txnReaches
    by_cases hx : x = t
    · rw [if_pos hx]
      exact ⟨fun _ => ⟨0, Nat.zero_le _, by simp [parentSteps, hx]⟩, fun _ => rfl⟩
    · rw [if_neg hx]
      cases hp : (txns x).parent with
      | none =>
        constructor
        · intro h
          unfold txnReaches at h
          exact absurd h (by simp)
        · rintro ⟨j, _, h⟩
          cases j with
          | zero => exact absurd (Option.some.inj h) hx
          | succ j =>
            unfold parentSteps at h
            rw [hp] at h
            simp at h
      | some q =>
        rw [ih q]
        constructor
        · rintro ⟨j, hj, h⟩
          refine ⟨j + 1, by omega, ?_⟩
          unfold parentSteps
          rw [hp]
          exact h
        · rintro ⟨j, hj, h⟩
          cases j with
          | zero => exact absurd (Option.some.inj h) hx
          | succ j =>
            unfold parentSteps at h
            rw [hp] at h
            exact ⟨j, by omega, h⟩

/-- The bounded walk of `btreeCloseAllCursors` up the parent links finds `t`
exactly when the transaction descends from `t`, the handles being well
formed. -/
theorem txnReaches_descends (txns : Nat → DB_TXN)
    (hpar : ∀ x q, (txns x).parent = some q → q < x) (t fuel : Nat) (y : Option Nat)
    (hy : ∀ x, y = some x → x < fuel) :
    txnReaches txns t fuel y = true ↔ descends txns t y := by
  cases y with
  | none =>
    constructor
    · intro h
      unfold txnReaches at h
      exact absurd h (by simp)
    · rintro ⟨x, _, h, _⟩
      exact absurd h (by simp)
  | some x =>
    rw [txnReaches_iff]
    constructor
    · rintro ⟨j, _, h⟩
      exact ⟨x, j, rfl, h⟩
    · rintro ⟨x1, j, h1, h⟩
      have hx : x = x1 := Option.some.inj h1
      subst hx
      have h2 := parentSteps_le txns hpar t j x h
      have h3 := hy x rfl
      exact ⟨j, by omega, h⟩

theorem closeAllKeeps_other (w : World) (p : Nat) (txn : Option Nat) (c : Nat)
    (h : (w.cursors c).pBtree ≠ some p) : closeAllKeeps w p txn c = true := by
  unfold closeAllKeeps
  simp only []
  rw [if_pos h]

theorem closeAllKeeps_own (w : World) (p t c d : Nat) (h : (w.cursors c).pBtree = some p)
    (hd : (w.cursors c).dbc = some d) :
    closeAllKeeps w p (some t) c
      = (!txnReaches w.txns t w.handles (w.dbcs d).txn &&
          !txnReaches w.txns t w.handles (w.dbhs (w.dbcs d).dbp).cur_txn) := by
  unfold closeAllKeeps
  simp only []
  rw [if_neg (not_not.mpr h), hd]

theorem closeAllKeeps_false (w : World) (p : Nat) (txn : Option Nat) (c : Nat)
    (h : closeAllKeeps w p txn c = false) : (w.cursors c).pBtree = some p := by
  by_contra hne
  rw [closeAllKeeps_other w p txn c hne] at h
  exact absurd h (by decide)

theorem dbc_close_frame (w : World) (d : Nat) :
    (dbc_close w d).2.cursors = w.cursors ∧ (dbc_close w d).2.shared = w.shared ∧
    (dbc_close w d).2.btrees = w.btrees ∧ (dbc_close w d).2.dbcs = w.dbcs ∧
    (dbc_close w d).2.txns = w.txns ∧ (dbc_close w d).2.dbhs = w.dbhs ∧
    (dbc_close w d).2.handles = w.handles := by
  unfold dbc_close World.engine
  cases w.faults <;> exact ⟨rfl, rfl, rfl, rfl, rfl, rfl, rfl⟩

/-- What `btreeCloseCursor (pCur, 0)` changes: the cursor itself, which ends
closed; the list, the other cursors and the engine handles stay. -/
theorem btreeCloseCursor_frame (w : World) (c : Nat) :
    (btreeCloseCursor w c false).2.shared = w.shared ∧
    (btreeCloseCursor w c false).2.btrees = w.btrees ∧
    (btreeCloseCursor w c false).2.dbcs = w.dbcs ∧
    (btreeCloseCursor w c false).2.txns = w.txns ∧
    (btreeCloseCursor w c false).2.dbhs = w.dbhs ∧
    (btreeCloseCursor w c false).2.handles = w.handles ∧
    (∀ x, x ≠ c → (btreeCloseCursor w c false).2.cursors x = w.cursors x) ∧
    ((btreeCloseCursor w c false).2.cursors c).eState = CURSOR_INVALID ∧
    ((btreeCloseCursor w c false).2.cursors c).dbc = none ∧
    ((btreeCloseCursor w c false).2.cursors c).pBtree = none := by
  cases hd : (w.cursors c).dbc with
  | none =>
    unfold btreeCloseCursor
    simp only [hd, Bool.false_eq_true, if_false, setCursor_cursors_same]
    refine ⟨rfl, rfl, rfl, rfl, rfl, rfl, ?_, ?_, trivial, trivial⟩
    · intro x hx
      simp [hx]
    · simp
  | some d =>
    obtain ⟨f1, f2, f3, f4, f5, f6, f7⟩ :=
      dbc_close_frame (w.setCursor c { w.cursors c with eState := CURSOR_INVALID }) d
    unfold btreeCloseCursor
    simp only [hd, Bool.false_eq_true, if_false, setCursor_cursors_same]
    simp only [hd] at f1 f2 f3 f4 f5 f6 f7
    refine ⟨?_, ?_, ?_, ?_, ?_, ?_, ?_, ?_, trivial, trivial⟩
    · simp [f2]
    · simp [f3]
    · simp [f4]
    · simp [f5]
    · simp [f6]
    · simp [f7]
    · intro x hx
      simp [hx, f1]
    · simp [f1]

/-- The second loop of `btreeCloseAllCursors` closes the cursors of the free
list and changes nothing else. -/
theorem closeFreeCursors_frame :
    ∀ (cs : List Nat) (w : World) (rc : Int),
      (closeFreeCursors w rc cs).2.shared = w.shared ∧
      (closeFreeCursors w rc cs).2.btrees = w.btrees ∧
      (closeFreeCursors w rc cs).2.dbcs = w.dbcs ∧
      (closeFreeCursors w rc cs).2.txns = w.txns ∧
      (closeFreeCursors w rc cs).2.dbhs = w.dbhs ∧
      (closeFreeCursors w rc cs).2.handles = w.handles ∧
      (∀ x, x ∉ cs → (closeFreeCursors w rc cs).2.cursors x = w.cursors x) ∧
      (∀ x, x ∈ cs →
        ((closeFreeCursors w rc cs).2.cursors x).eState = CURSOR_INVALID ∧
        ((closeFreeCursors w rc cs).2.cursors x).dbc = none ∧
        ((closeFreeCursors w rc cs).2.cursors x).pBtree = none) := by
  intro cs
  induction cs with
  | nil =>
    intro w rc
    refine ⟨rfl, rfl, rfl, rfl, rfl, rfl, fun _ _ => rfl, ?_⟩
    intro x hx
    simp at hx
  | cons c rest ih =>
    intro w rc
    obtain ⟨b1, b2, b3, b4, b5, b6, b7, b8, b9, b10⟩ := btreeCloseCursor_frame w c
    unfold closeFreeCursors
    simp only []
    generalize btreeCloseCursor w c false = R at b1 b2 b3 b4 b5 b6 b7 b8 b9 b10
    obtain ⟨i1, i2, i3, i4, i5, i6, i7, i8⟩ :=
      ih R.2 (if R.1 ≠ SQLITE_OK ∧ rc = SQLITE_OK then R.1 else rc)
    refine ⟨i1.trans b1, i2.trans b2, i3.trans b3, i4.trans b4, i5.trans b5, i6.trans b6,
      ?_, ?_⟩
    · intro x hx
      rw [List.mem_cons, not_or] at hx
      rw [i7 x hx.2, b7 x hx.1]
    · intro x hx
      by_cases hr : x ∈ rest
      · exact i8 x hr
      · have hxc : x = c := by
          rcases List.mem_cons.mp hx with h | h
          · exact h
          · exact absurd h hr
        rw [i7 x hr, hxc]
        exact ⟨b8, b9, b10⟩

theorem btreeLockSchema_none_frame (ops : EnvOps) (w : World) (p : Nat) :
    (btreeLockSchema ops w p LOCKMODE_NONE).2.shared = w.shared ∧
    (btreeLockSchema ops w p LOCKMODE_NONE).2.cursors = w.cursors ∧
    (btreeLockSchema ops w p LOCKMODE_NONE).2.dbcs = w.dbcs ∧
    (btreeLockSchema ops w p LOCKMODE_NONE).2.txns = w.txns ∧
    (∀ q, ((btreeLockSchema ops w p LOCKMODE_NONE).2.btrees q).pBt = (w.btrees q).pBt) := by
  unfold btreeLockSchema
  by_cases hc : (w.btrees p).connected = true
  · simp only [hc, Bool.not_true, Bool.false_eq_true, if_false, if_true]
    cases hs : (w.btrees p).schemaLock with
    | none =>
      simp only [Bool.false_eq_true, false_and, if_false]
      refine ⟨rfl, rfl, rfl, rfl, ?_⟩
      intro q
      by_cases hq : q = p
      · subst hq; simp
      · simp [hq]
    | some d =>
      obtain ⟨f1, f2, f3, f4, f5, _, _⟩ := dbc_close_frame w d
      simp only [Bool.false_eq_true, false_and, if_false]
      refine ⟨?_, ?_, ?_, ?_, ?_⟩
      · simp [f2]
      · simp [f1]
      · simp [f4]
      · simp [f5]
      · intro q
        by_cases hq : q = p
        · subst hq; simp [f3]
        · simp [hq, f3]
  · simp only [hc, Bool.not_false, if_true, true_or]
    refine ⟨rfl, rfl, rfl, rfl, ?_⟩
    intro q
    by_cases hq : q = p
    · subst hq; simp
    · simp [hq]

theorem btreeCloseAllCursors_world (ops : EnvOps) (w : World) (p : Nat) (txn : Option Nat) :
    (btreeCloseAllCursors ops w p txn).2.shared
      = (closeFreeCursors (w.setShared (w.btAddr p) { w.shared (w.btAddr p) with cursors := (w.shared (w.btAddr p)).cursors.filter (fun c => closeAllKeeps w p txn c) }) SQLITE_OK ((w.shared (w.btAddr p)).cursors.filter (fun c => !closeAllKeeps w p txn c)).reverse).2.shared ∧
    (btreeCloseAllCursors ops w p txn).2.cursors
      = (closeFreeCursors (w.setShared (w.btAddr p) { w.shared (w.btAddr p) with cursors := (w.shared (w.btAddr p)).cursors.filter (fun c => closeAllKeeps w p txn c) }) SQLITE_OK ((w.shared (w.btAddr p)).cursors.filter (fun c => !closeAllKeeps w p txn c)).reverse).2.cursors ∧
    (btreeCloseAllCursors ops w p txn).2.dbcs = w.dbcs ∧
    (btreeCloseAllCursors ops w p txn).2.txns = w.txns ∧
    (∀ q, ((btreeCloseAllCursors ops w p txn).2.btrees q).pBt = (w.btrees q).pBt) := by
  obtain ⟨c1, c2, c3, c4, _, _, _, _⟩ := closeFreeCursors_frame
    ((w.shared (w.btAddr p)).cursors.filter (fun c => !closeAllKeeps w p txn c)).reverse
    (w.setShared (w.btAddr p) { w.shared (w.btAddr p) with cursors := (w.shared (w.btAddr p)).cursors.filter (fun c => closeAllKeeps w p txn c) })
    SQLITE_OK
  unfold btreeCloseAllCursors
  simp only []
  generalize closeFreeCursors (w.setShared (w.btAddr p) { w.shared (w.btAddr p) with cursors := (w.shared (w.btAddr p)).cursors.filter (fun c => closeAllKeeps w p txn c) }) SQLITE_OK ((w.shared (w.btAddr p)).cursors.filter (fun c => !closeAllKeeps w p txn c)).reverse = R at c1 c2 c3 c4
  have hR : R.2.dbcs = w.dbcs ∧ R.2.txns = w.txns ∧ ∀ q, (R.2.btrees q).pBt = (w.btrees q).pBt :=
    ⟨c3, c4, fun q => by rw [c2]; rfl⟩
  split
  · split
    · obtain ⟨l1, l2, l3, l4, l5⟩ := btreeLockSchema_none_frame ops R.2 p
      exact ⟨l1, l2, l3.trans hR.1, l4.trans hR.2.1, fun q => (l5 q).trans (hR.2.2 q)⟩
    · exact ⟨rfl, rfl, hR⟩
  · exact ⟨rfl, rfl, hR⟩

/-- What `btreeCloseAllCursors (p, t)` does to the cursors: the list keeps the
cursors the test keeps, in their order; these and the cursors off the list
are as they were; the others are closed. -/
theorem btreeCloseAllCursors_spec (ops : EnvOps) (w : World) (p : Nat) (txn : Option Nat) :
    ((btreeCloseAllCursors ops w p txn).2.bt p).cursors
      = (w.bt p).cursors.filter (fun c => closeAllKeeps w p txn c) ∧
    (btreeCloseAllCursors ops w p txn).2.dbcs = w.dbcs ∧
    (btreeCloseAllCursors ops w p txn).2.txns = w.txns ∧
    (∀ c, (c ∉ (w.bt p).cursors ∨ closeAllKeeps w p txn c = true) →
      (btreeCloseAllCursors ops w p txn).2.cursors c = w.cursors c) ∧
    (∀ c ∈ (w.bt p).cursors, closeAllKeeps w p txn c = false →
      ((btreeCloseAllCursors ops w p txn).2.cursors c).eState = CURSOR_INVALID ∧
      ((btreeCloseAllCursors ops w p txn).2.cursors c).dbc = none ∧
      ((btreeCloseAllCursors ops w p txn).2.cursors c).pBtree = none) := by
  obtain ⟨a1, a2, a3, a4, a5⟩ := btreeCloseAllCursors_world ops w p txn
  obtain ⟨c1, _, _, _, _, _, c7, c8⟩ := closeFreeCursors_frame
    ((w.shared (w.btAddr p)).cursors.filter (fun c => !closeAllKeeps w p txn c)).reverse
    (w.setShared (w.btAddr p) { w.shared (w.btAddr p) with cursors := (w.shared (w.btAddr p)).cursors.filter (fun c => closeAllKeeps w p txn c) })
    SQLITE_OK
  have hmem : ∀ c, c ∈ ((w.shared (w.btAddr p)).cursors.filter
      (fun c => !closeAllKeeps w p txn c)).reverse
      ↔ c ∈ (w.bt p).cursors ∧ closeAllKeeps w p txn c = false := by
    intro c
    simp [World.bt, World.btAddr]
  refine ⟨?_, a3, a4, ?_, ?_⟩
  · unfold World.bt
    rw [a5 p, a1, c1]
    simp [World.btAddr]
  · intro c hc
    rw [a2, c7 c]
    · rfl
    · rw [hmem]
      rintro ⟨h1, h2⟩
      rcases hc with h | h
      · exact h h1
      · rw [h] at h2
        exact absurd h2 (by decide)
  · intro c hc hk
    rw [a2]
    exact c8 c ((hmem c).mpr ⟨hc, hk⟩)

/-- The state `btreeCloseAllCursors (p, t)` leaves is the one C12 asks for. -/
theorem btreeCloseAllCursors_closedFor (ops : EnvOps) (w : World) (p t : Nat)
    (hw : w.txnsOlder) :
    w.closedFor (btreeCloseAllCursors ops w p (some t)).2 p t := by
  obtain ⟨s1, s2, s3, s4, s5⟩ := btreeCloseAllCursors_spec ops w p (some t)
  generalize (btreeCloseAllCursors ops w p (some t)).2 = W at s1 s2 s3 s4 s5
  refine ⟨?_, ?_, ?_, ?_⟩
  · intro c hc hp d hd
    rw [s1, List.mem_filter] at hc
    have hcur := s4 c (Or.inr hc.2)
    rw [hcur] at hp hd
    rw [s2, s3]
    have hk := hc.2
    rw [closeAllKeeps_own w p t c d hp hd] at hk
    simp only [Bool.and_eq_true, Bool.not_eq_true'] at hk
    intro hdesc
    have := (txnReaches_descends w.txns hw.1 t w.handles (w.dbcs d).txn
      (fun x hx => hw.2 c d x hd hx)).mpr hdesc
    rw [hk.1] at this
    exact absurd this (by decide)
  · intro c hc hp d hd hdesc
    have hr := (txnReaches_descends w.txns hw.1 t w.handles (w.dbcs d).txn
      (fun x hx => hw.2 c d x hd hx)).mpr hdesc
    have hk : closeAllKeeps w p (some t) c = false := by
      rw [closeAllKeeps_own w p t c d hp hd, hr]
      rfl
    refine ⟨?_, s5 c hc hk⟩
    rw [s1, List.mem_filter]
    rintro ⟨_, h⟩
    rw [hk] at h
    exact absurd h (by decide)
  · rw [s1, List.filter_filter]
    apply List.filter_congr
    intro c _
    by_cases h : (w.cursors c).pBtree = some p
    · simp [h]
    · simp [h, closeAllKeeps_other w p (some t) c h]
  · intro c hc
    exact s4 c (Or.inr (closeAllKeeps_other w p (some t) c hc))

theorem db_close_events (w : World) (h : Nat) : w.events <+: (db_close w h).2.events := by
  unfold db_close
  simp only [engine_events]
  exact List.prefix_append _ _

theorem dbc_close_events (w : World) (d : Nat) : w.events <+: (dbc_close w d).2.events := by
  unfold dbc_close
  simp only [engine_events]
  exact List.prefix_append _ _

theorem txn_checkpoint_events (w : World) (e : Nat) :
    w.events <+: (txn_checkpoint w e).2.events := by
  unfold txn_checkpoint World.log
  simp only [engine_events]
  exact List.prefix_append _ _

theorem txn_checkpoint_events_of (w0 w : World) (e : Nat) (h : w.events = w0.events) :
    w0.events <+: (txn_checkpoint w e).2.events := by
  rw [← h]
  exact txn_checkpoint_events w e

theorem txn_checkpoint_ended (w : World) (e : Nat) :
    (txn_checkpoint w e).2.events.filter Event.isTxnEnd = w.events.filter Event.isTxnEnd := by
  unfold txn_checkpoint World.log
  simp [engine_events, List.filter_append, Event.isTxnEnd]

theorem cleanupLoop_events (m : cleanup_mode_t) :
    ∀ (es : List (Int × CACHED_DB)) (w : World), w.events <+: (cleanupLoop m w es).2.events := by
  intro es
  induction es with
  | nil => intro w; exact List.prefix_refl _
  | cons e rest ih =>
    intro w
    obtain ⟨k, e⟩ := e
    unfold cleanupLoop
    cases hd : e.dbp with
    | none => simp only []; exact ih w
    | some h =>
      simp only []
      split
      · exact ih w
      · exact (db_close_events w h).trans (ih _)

theorem btreeCleanupCachedHandles_events (w : World) (p : Nat) (m : cleanup_mode_t) :
    w.events <+: (btreeCleanupCachedHandles w p m).2.events := by
  unfold btreeCleanupCachedHandles
  exact cleanupLoop_events m _ w

theorem btreeLockSchema_none_events (ops : EnvOps) (w : World) (p : Nat) :
    w.events <+: (btreeLockSchema ops w p LOCKMODE_NONE).2.events := by
  unfold btreeLockSchema
  by_cases hc : (w.btrees p).connected = true
  · simp only [hc, Bool.not_true, Bool.false_eq_true, if_false, if_true]
    cases hs : (w.btrees p).schemaLock with
    | none =>
      simp only [Bool.false_eq_true, false_and, if_false]
      exact List.prefix_refl _
    | some d =>
      simp only [Bool.false_eq_true, false_and, if_false]
      exact dbc_close_events w d
  · simp only [hc, Bool.not_false, if_true, true_or]
    exact List.prefix_refl _

theorem btreeLockSchema_none_events_of (ops : EnvOps) (w0 w : World) (p : Nat)
    (h : w.events = w0.events) :
    w0.events <+: (btreeLockSchema ops w p LOCKMODE_NONE).2.events := by
  rw [← h]
  exact btreeLockSchema_none_events ops w p

theorem setBtree_self (w : World) (p : Nat) : w.setBtree p (w.btrees p) = w := by
  unfold World.setBtree
  rw [Function.update_eq_self]

theorem closedFor_setBtree (w W : World) (p t : Nat) (b1 : Btree)
    (hb : b1.pBt = (w.btrees p).pBt) (h : (w.setBtree p b1).closedFor W p t) :
    w.closedFor W p t := by
  have hbt : (w.setBtree p b1).bt p = w.bt p := by
    simp [World.bt, hb]
  unfold World.closedFor at h ⊢
  rw [hbt] at h
  exact h

theorem txnsOlder_setBtree (w : World) (p : Nat) (b1 : Btree) (h : w.txnsOlder) :
    (w.setBtree p b1).txnsOlder := h

/-- The end of `sqlite3BtreeSavepoint`: either closing the cursors failed and
no transaction was ended, or `txn` was ended in the world the closing left,
and no other transaction was. -/
theorem sqlite3BtreeSavepoint_end_moment (ops : EnvOps) (w : World) (p : Nat) (op : Int)
    (txn : Nat) :
    (sqlite3BtreeSavepoint_end ops w p op txn).2.events.filter Event.isTxnEnd
        = w.events.filter Event.isTxnEnd ∨
    ((if op = SAVEPOINT_RELEASE then txn_commit (btreeCloseAllCursors ops w p (some txn)).2 txn
        else txn_abort (btreeCloseAllCursors ops w p (some txn)).2 txn).2.events
        <+: (sqlite3BtreeSavepoint_end ops w p op txn).2.events ∧
      (sqlite3BtreeSavepoint_end ops w p op txn).2.events.filter Event.isTxnEnd
        = w.events.filter Event.isTxnEnd
          ++ [if op = SAVEPOINT_RELEASE then Event.txn_commit txn else Event.txn_abort txn]) := by
  have hc := btreeCloseAllCursors_txnView ops w p (some txn)
  unfold sqlite3BtreeSavepoint_end
  simp only []
  by_cases h1 : (btreeCloseAllCursors ops w p (some txn)).1 = SQLITE_OK
  · right
    rw [if_neg (not_not.mpr h1)]
    generalize (btreeCloseAllCursors ops w p (some txn)).2 = w1 at hc ⊢
    have he : w1.events.filter Event.isTxnEnd = w.events.filter Event.isTxnEnd := by
      rw [← txnView_ended w1 p, hc]; rfl
    by_cases hop : op = SAVEPOINT_RELEASE
    · subst hop
      have hop2 : ¬ SAVEPOINT_RELEASE = SAVEPOINT_ROLLBACK := by decide
      simp only [if_true, hop2, false_and, if_false]
      split
      · exact ⟨List.prefix_refl _, by rw [txn_commit_ended, he]⟩
      · exact ⟨List.prefix_refl _, by rw [txn_commit_ended, he]⟩
    · simp only [hop, if_false]
      split
      · exact ⟨List.prefix_refl _, by rw [txn_abort_ended, he]⟩
      · split
        · rw [if_neg (not_not.mpr (btreeCleanupCachedHandles_rc _ _ _))]
          have hcl := btreeCleanupCachedHandles_txnView (txn_abort w1 txn).2 p CLEANUP_ABORT
          refine ⟨btreeCleanupCachedHandles_events _ _ _, ?_⟩
          show (btreeCleanupCachedHandles (txn_abort w1 txn).2 p
            CLEANUP_ABORT).2.events.filter Event.isTxnEnd = _
          rw [← txnView_ended, hcl, txnView_ended, txn_abort_ended, he]
        · exact ⟨List.prefix_refl _, by rw [txn_abort_ended, he]⟩
  · left
    rw [if_pos h1, ← txnView_ended _ p, hc]
    rfl

/-- The statement of C12 for `sqlite3BtreeSavepoint`. -/
theorem sqlite3BtreeSavepoint_moment (ops : EnvOps) (w : World) (p : Nat) (hw : w.txnsOlder)
    (op k : Int) :
    (sqlite3BtreeSavepoint ops w (some p) op k).2.events.filter Event.isTxnEnd
        = w.events.filter Event.isTxnEnd ∨
    ∃ (t : Nat) (b1 : Btree) (W : World),
      b1.pBt = (w.btrees p).pBt ∧
      W = (btreeCloseAllCursors ops (w.setBtree p b1) p (some t)).2 ∧
      w.closedFor W p t ∧
      (if op = SAVEPOINT_RELEASE then txn_commit W t else txn_abort W t).2.events
        <+: (sqlite3BtreeSavepoint ops w (some p) op k).2.events ∧
      (sqlite3BtreeSavepoint ops w (some p) op k).2.events.filter Event.isTxnEnd
        = w.events.filter Event.isTxnEnd
          ++ [if op = SAVEPOINT_RELEASE then Event.txn_commit t else Event.txn_abort t] := by
  have key : ∀ (b1 : Btree) (t : Nat), b1.pBt = (w.btrees p).pBt →
      ((sqlite3BtreeSavepoint_end ops (w.setBtree p b1) p op t).2.events.filter Event.isTxnEnd
          = w.events.filter Event.isTxnEnd ∨
      ∃ (t0 : Nat) (b0 : Btree) (W : World),
        b0.pBt = (w.btrees p).pBt ∧
        W = (btreeCloseAllCursors ops (w.setBtree p b0) p (some t0)).2 ∧
        w.closedFor W p t0 ∧
        (if op = SAVEPOINT_RELEASE then txn_commit W t0 else txn_abort W t0).2.events
          <+: (sqlite3BtreeSavepoint_end ops (w.setBtree p b1) p op t).2.events ∧
        (sqlite3BtreeSavepoint_end ops (w.setBtree p b1) p op t).2.events.filter Event.isTxnEnd
          = w.events.filter Event.isTxnEnd
            ++ [if op = SAVEPOINT_RELEASE then Event.txn_commit t0 else Event.txn_abort t0]) := by
    intro b1 t hb
    rcases sqlite3BtreeSavepoint_end_moment ops (w.setBtree p b1) p op t with h | ⟨h1, h2⟩
    · exact Or.inl h
    · exact Or.inr ⟨t, b1, _, hb, rfl,
        closedFor_setBtree w _ p t b1 hb
          (btreeCloseAllCursors_closedFor ops _ p t (txnsOlder_setBtree w p b1 hw)), h1, h2⟩
  unfold sqlite3BtreeSavepoint
  simp only []
  cases (w.btrees p).savepoint_txn with
  | none => exact Or.inl rfl
  | some sp =>
    simp only []
    split
    · exact Or.inl rfl
    · split
      · exact Or.inl rfl
      · apply key
        split <;> rfl

theorem sqlite3BtreeCommitPhaseTwo_read_moment (ops : EnvOps) (w : World) (p rd : Nat) :
    (txn_commit (btreeCloseAllCursors ops w p (some rd)).2 rd).2.events
      <+: (sqlite3BtreeCommitPhaseTwo_read ops w p rd).2.events ∧
    (sqlite3BtreeCommitPhaseTwo_read ops w p rd).2.events.filter Event.isTxnEnd
      = w.events.filter Event.isTxnEnd ++ [Event.txn_commit rd] := by
  have hc := btreeCloseAllCursors_txnView ops w p (some rd)
  unfold sqlite3BtreeCommitPhaseTwo_read
  simp only []
  generalize (btreeCloseAllCursors ops w p (some rd)) = C at hc ⊢
  have he : C.2.events.filter Event.isTxnEnd = w.events.filter Event.isTxnEnd := by
    rw [← txnView_ended C.2 p, hc]; rfl
  generalize (if (txn_commit C.2 rd).1 ≠ 0 ∧ C.1 = SQLITE_OK
    then dberr2sqlite (txn_commit C.2 rd).1 else C.1) = rc
  by_cases hrc : rc = SQLITE_OK
  · rw [if_pos hrc]
    refine ⟨txn_checkpoint_events_of _ _ _ rfl, ?_⟩
    rw [txn_checkpoint_ended]
    show (txn_commit C.2 rd).2.events.filter Event.isTxnEnd = _
    rw [txn_commit_ended, he]
  · rw [if_neg hrc]
    refine ⟨List.prefix_refl _, ?_⟩
    show (txn_commit C.2 rd).2.events.filter Event.isTxnEnd = _
    rw [txn_commit_ended, he]

/-- C12.  In a world whose engine handles are well formed, for a connection
`p`: a call of `sqlite3BtreeSavepoint` or of `sqlite3BtreeCommitPhaseTwo`
either ends no transaction, or it ends exactly one, `t`, by the engine call
`commit` or `abort` made in the world `W` that `btreeCloseAllCursors (p, t)`
has just returned (`b1` being the transaction fields of `p` the call had set
by then), and the log of the call goes on from there.  In `W` no cursor of
`p` on the cursor list of its `BtShared` has an engine cursor whose
transaction is `t` or a descendant of `t`; every cursor of `p` that had one
is off the list and closed; the cursors of the other connections are on the
list in their order, unchanged (`World.closedFor`). -/
theorem cursors_closed_before_txn_end (ops : EnvOps) (w : World) (p : Nat)
    (hw : w.txnsOlder) :
    (∀ (op k : Int),
      (sqlite3BtreeSavepoint ops w (some p) op k).2.events.filter Event.isTxnEnd
          = w.events.filter Event.isTxnEnd ∨
      ∃ (t : Nat) (b1 : Btree) (W : World),
        b1.pBt = (w.btrees p).pBt ∧
        W = (btreeCloseAllCursors ops (w.setBtree p b1) p (some t)).2 ∧
        w.closedFor W p t ∧
        (if op = SAVEPOINT_RELEASE then txn_commit W t else txn_abort W t).2.events
          <+: (sqlite3BtreeSavepoint ops w (some p) op k).2.events ∧
        (sqlite3BtreeSavepoint ops w (some p) op k).2.events.filter Event.isTxnEnd
          = w.events.filter Event.isTxnEnd
            ++ [if op = SAVEPOINT_RELEASE then Event.txn_commit t else Event.txn_abort t]) ∧
    ((sqlite3BtreeCommitPhaseTwo ops w p).2.events.filter Event.isTxnEnd
        = w.events.filter Event.isTxnEnd ∨
      ∃ (t : Nat) (b1 : Btree) (W : World),
        b1.pBt = (w.btrees p).pBt ∧
        W = (btreeCloseAllCursors ops (w.setBtree p b1) p (some t)).2 ∧
        w.closedFor W p t ∧
        (txn_commit W t).2.events <+: (sqlite3BtreeCommitPhaseTwo ops w p).2.events ∧
        (sqlite3BtreeCommitPhaseTwo ops w p).2.events.filter Event.isTxnEnd
          = w.events.filter Event.isTxnEnd ++ [Event.txn_commit t]) := by
  refine ⟨fun op k => sqlite3BtreeSavepoint_moment ops w p hw op k, ?_⟩
  have hpost : ∀ r1 : Int × World,
      r1.2.events <+: (if ((r1.2.ctx (r1.2.btrees p).db).activeVdbeCnt > 1) then
          (r1.1, r1.2.setBtree p { r1.2.btrees p with inTrans := TRANS_READ })
        else if (r1.2.btrees p).schemaLockMode > LOCKMODE_NONE then
          btreeLockSchema ops (r1.2.setBtree p { r1.2.btrees p with inTrans := TRANS_NONE }) p
            LOCKMODE_NONE
        else (r1.1, r1.2.setBtree p { r1.2.btrees p with inTrans := TRANS_NONE })).2.events ∧
      (if ((r1.2.ctx (r1.2.btrees p).db).activeVdbeCnt > 1) then
          (r1.1, r1.2.setBtree p { r1.2.btrees p with inTrans := TRANS_READ })
        else if (r1.2.btrees p).schemaLockMode > LOCKMODE_NONE then
          btreeLockSchema ops (r1.2.setBtree p { r1.2.btrees p with inTrans := TRANS_NONE }) p
            LOCKMODE_NONE
        else (r1.1, r1.2.setBtree p { r1.2.btrees p with inTrans := TRANS_NONE })).2.events.filter
          Event.isTxnEnd = r1.2.events.filter Event.isTxnEnd := by
    intro r1
    split
    · exact ⟨List.prefix_refl _, rfl⟩
    · split
      · refine ⟨btreeLockSchema_none_events_of ops _ _ p rfl, ?_⟩
        rw [← txnView_ended _ p, btreeLockSchema_none_txnView]
        rfl
      · exact ⟨List.prefix_refl _, rfl⟩
  have hF : sqlite3BtreeCommitPhaseTwo ops w p
      = (fun r1 : Int × World =>
          if ((r1.2.ctx (r1.2.btrees p).db).activeVdbeCnt > 1) then
            (r1.1, r1.2.setBtree p { r1.2.btrees p with inTrans := TRANS_READ })
          else if (r1.2.btrees p).schemaLockMode > LOCKMODE_NONE then
            btreeLockSchema ops (r1.2.setBtree p { r1.2.btrees p with inTrans := TRANS_NONE }) p
              LOCKMODE_NONE
          else (r1.1, r1.2.setBtree p { r1.2.btrees p with inTrans := TRANS_NONE }))
        (if (w.btrees p).read_txn ≠ none ∧ (w.ctx (w.btrees p).db).activeVdbeCnt ≤ 1 then
          sqlite3BtreeCommitPhaseTwo_read ops w p ((w.btrees p).read_txn.getD 0)
        else if (w.btrees p).inTrans = TRANS_WRITE then
          sqlite3BtreeSavepoint ops w (some p) SAVEPOINT_RELEASE 0
        else (SQLITE_OK, w)) := rfl
  rw [hF]
  simp only []
  split
  · obtain ⟨m1, m2⟩ :=
      sqlite3BtreeCommitPhaseTwo_read_moment ops w p ((w.btrees p).read_txn.getD 0)
    obtain ⟨q1, q2⟩ :=
      hpost (sqlite3BtreeCommitPhaseTwo_read ops w p ((w.btrees p).read_txn.getD 0))
    refine Or.inr ⟨(w.btrees p).read_txn.getD 0, w.btrees p, _, rfl, rfl, ?_, ?_, ?_⟩
    · rw [setBtree_self]
      exact btreeCloseAllCursors_closedFor ops w p _ hw
    · rw [setBtree_self]
      exact m1.trans q1
    · rw [q2, m2]
  · split
    · obtain ⟨q1, q2⟩ := hpost (sqlite3BtreeSavepoint ops w (some p) SAVEPOINT_RELEASE 0)
      rcases sqlite3BtreeSavepoint_moment ops w p hw SAVEPOINT_RELEASE 0 with h | h
      · exact Or.inl (q2.trans h)
      · obtain ⟨t, b1, W, h1, h2, h3, h4, h5⟩ := h
        rw [if_pos rfl] at h4 h5
        exact Or.inr ⟨t, b1, W, h1, h2, h3, h4.trans q1, q2.trans h5⟩
    · obtain ⟨_, q2⟩ := hpost (SQLITE_OK, w)
      exact Or.inl q2

theorem nested_txnsOlder : World.nested.txnsOlder := by
  constructor
  · intro x q h
    have h3 : x = 3 ∧ q = 2 := by
      by_cases hx3 : x = 3
      · subst hx3
        exact ⟨rfl, (Option.some.inj h).symm⟩
      · by_cases hx2 : x = 2
        · subst hx2
          have hn : (World.nested.txns 2).parent = none := rfl
          rw [hn] at h
          exact absurd h (by simp)
        · have : (World.nested.txns x).parent = none := by
            simp [World.nested, Function.update, hx3, hx2, World.empty]
          rw [this] at h
          exact absurd h (by simp)
    omega
  · intro c d x hd hx
    have hx3 : x ≤ 3 := by
      by_cases hd20 : d = 20
      · subst hd20
        have : x = 3 := (Option.some.inj hx).symm
        omega
      · by_cases hd21 : d = 21
        · subst hd21
          have hn : (World.nested.dbcs 21).txn = none := rfl
          rw [hn] at hx
          exact absurd hx (by simp)
        · have : (World.nested.dbcs d).txn = none := by
            simp [World.nested, World.watch, Function.update, hd20, hd21, World.empty]
          rw [this] at hx
          exact absurd hx (by simp)
    have : World.nested.handles = 30 := rfl
    omega

/-- C12, witness: in `World.nested` the cursor 10 of the connection 1 was
opened under the statement transaction 3; rolling the savepoint 0 back ends
the transaction 3, and by then the cursor 10 is closed and only the cursor 11
of the other connection is on the list. -/
theorem cursors_closed_before_txn_end_witness :
    World.nested.txnsOlder ∧
    (∃ (t : Nat) (b1 : Btree) (W : World),
      b1.pBt = (World.nested.btrees 1).pBt ∧
      W = (btreeCloseAllCursors EnvOps.idle (World.nested.setBtree 1 b1) 1 (some t)).2 ∧
      World.nested.closedFor W 1 t ∧
      (if SAVEPOINT_ROLLBACK = SAVEPOINT_RELEASE then txn_commit W t else txn_abort W t).2.events
        <+: (sqlite3BtreeSavepoint EnvOps.idle World.nested (some 1)
              SAVEPOINT_ROLLBACK 0).2.events ∧
      (sqlite3BtreeSavepoint EnvOps.idle World.nested (some 1)
          SAVEPOINT_ROLLBACK 0).2.events.filter Event.isTxnEnd
        = World.nested.events.filter Event.isTxnEnd
          ++ [if SAVEPOINT_ROLLBACK = SAVEPOINT_RELEASE then Event.txn_commit t
              else Event.txn_abort t]) ∧
    ((sqlite3BtreeSavepoint EnvOps.idle World.nested (some 1) SAVEPOINT_ROLLBACK 0).2.shared
      1).cursors = [11] :=
  ⟨nested_txnsOlder,
    ((cursors_closed_before_txn_end EnvOps.idle World.nested 1 nested_txnsOlder).1
      SAVEPOINT_ROLLBACK 0).resolve_left (by decide),
    rfl⟩

/-! ## Tables as sorted lists of rows -/

theorem insInt_mem (r : Int × List Nat) :
    ∀ (l : List (Int × List Nat)) (x : Int × List Nat), x ∈ insInt r l → x = r ∨ x ∈ l := by
  intro l
  induction l with
  | nil =>
    intro x hx
    simp [insInt] at hx
    exact Or.inl hx
  | cons a rest ih =>
    intro x hx
    unfold insInt at hx
    split at hx
    · rcases List.mem_cons.mp hx with h | h
      · exact Or.inl h
      · exact Or.inr h
    · split at hx
      · rcases List.mem_cons.mp hx with h | h
        · exact Or.inr (by rw [h]; exact List.mem_cons_self _ _)
        · rcases ih x h with h1 | h1
          · exact Or.inl h1
          · exact Or.inr (List.mem_cons_of_mem _ h1)
      · rcases List.mem_cons.mp hx with h | h
        · exact Or.inl h
        · exact Or.inr (List.mem_cons_of_mem _ h)

theorem insInt_keyOk (r : Int × List Nat) (l : List (Int × List Nat)) (hr : keyOk r.1)
    (hl : ∀ x ∈ l, keyOk x.1) : ∀ x ∈ insInt r l, keyOk x.1 := by
  intro x hx
  rcases insInt_mem r l x hx with h | h
  · rw [h]; exact hr
  · exact hl x h

theorem insInt_sorted (r : Int × List Nat) :
    ∀ (l : List (Int × List Nat)), keySorted l → keySorted (insInt r l) := by
  intro l
  induction l with
  | nil => intro _; simp [insInt, keySorted]
  | cons a rest ih =>
    intro hs
    unfold keySorted at hs ih ⊢
    rw [List.pairwise_cons] at hs
    unfold insInt
    split
    · rename_i h
      rw [List.pairwise_cons]
      refine ⟨?_, List.pairwise_cons.mpr hs⟩
      intro x hx
      rcases List.mem_cons.mp hx with h1 | h1
      · rw [h1]; exact h
      · exact lt_trans h (hs.1 x h1)
    · split
      · rename_i h1 h2
        rw [List.pairwise_cons]
        refine ⟨?_, ih hs.2⟩
        intro x hx
        rcases insInt_mem r rest x hx with h3 | h3
        · rw [h3]; exact h2
        · exact hs.1 x h3
      · rename_i h1 h2
        have hk : r.1 = a.1 := by omega
        rw [List.pairwise_cons]
        refine ⟨?_, hs.2⟩
        intro x hx
        rw [hk]
        exact hs.1 x hx

theorem insInt_perm (r : Int × List Nat) :
    ∀ (l : List (Int × List Nat)), r.1 ∉ l.map Prod.fst → (insInt r l).Perm (r :: l) := by
  intro l
  induction l with
  | nil => intro _; exact List.Perm.refl _
  | cons a rest ih =>
    intro hn
    simp only [List.map_cons, List.mem_cons, not_or] at hn
    unfold insInt
    split
    · exact List.Perm.refl _
    · split
      · exact ((ih hn.2).cons a).trans (List.Perm.swap r a rest)
      · rename_i h1 h2
        exact absurd (by omega : r.1 = a.1) hn.1

theorem insInt_last (r : Int × List Nat) :
    ∀ (l : List (Int × List Nat)), (∀ x ∈ l, x.1 < r.1) → insInt r l = l ++ [r] := by
  intro l
  induction l with
  | nil => intro _; rfl
  | cons a rest ih =>
    intro h
    have ha := h a (List.mem_cons_self _ _)
    unfold insInt
    rw [if_neg (by omega), if_pos ha, ih (fun x hx => h x (List.mem_cons_of_mem _ hx))]
    rfl

theorem foldl_insInt_mem :
    ∀ (l acc : List (Int × List Nat)) (x : Int × List Nat),
      x ∈ l.foldl (fun acc r => insInt r acc) acc → x ∈ l ∨ x ∈ acc := by
  intro l
  induction l with
  | nil => intro acc x hx; exact Or.inr hx
  | cons a rest ih =>
    intro acc x hx
    rw [List.foldl_cons] at hx
    rcases ih _ x hx with h | h
    · exact Or.inl (List.mem_cons_of_mem _ h)
    · rcases insInt_mem a acc x h with h1 | h1
      · exact Or.inl (by rw [h1]; exact List.mem_cons_self _ _)
      · exact Or.inr h1

theorem foldl_insInt_sorted :
    ∀ (l acc : List (Int × List Nat)), keySorted acc →
      keySorted (l.foldl (fun acc r => insInt r acc) acc) := by
  intro l
  induction l with
  | nil => intro acc h; exact h
  | cons a rest ih =>
    intro acc h
    rw [List.foldl_cons]
    exact ih _ (insInt_sorted a acc h)

theorem foldl_insInt_perm :
    ∀ (l acc : List (Int × List Nat)), ((acc ++ l).map Prod.fst).Nodup →
      (l.foldl (fun acc r => insInt r acc) acc).Perm (acc ++ l) := by
  intro l
  induction l with
  | nil => intro acc _; simp
  | cons a rest ih =>
    intro acc hn
    rw [List.foldl_cons]
    have hna : a.1 ∉ acc.map Prod.fst := by
      intro hmem
      rw [List.map_append, List.map_cons] at hn
      have := (List.nodup_append.mp hn).2.2
      exact this hmem (List.mem_cons_self _ _)
    have hp := insInt_perm a acc hna
    have hn2 : ((insInt a acc ++ rest).map Prod.fst).Nodup := by
      have hperm : ((insInt a acc ++ rest).map Prod.fst).Perm ((acc ++ a :: rest).map Prod.fst) := by
        apply List.Perm.map
        have h1 : (insInt a acc ++ rest).Perm ((a :: acc) ++ rest) := hp.append_right rest
        have h2 : ((a :: acc) ++ rest).Perm (acc ++ a :: rest) := by
          simpa using (@List.perm_middle _ a acc rest).symm
        exact h1.trans h2
      exact hperm.nodup_iff.mpr hn
    refine (ih _ hn2).trans ?_
    have h1 : (insInt a acc ++ rest).Perm ((a :: acc) ++ rest) := hp.append_right rest
    have h2 : ((a :: acc) ++ rest).Perm (acc ++ a :: rest) := by
      simpa using (@List.perm_middle _ a acc rest).symm
    exact h1.trans h2

theorem foldl_insInt_sorted_self :
    ∀ (l acc : List (Int × List Nat)), keySorted (acc ++ l) →
      l.foldl (fun acc r => insInt r acc) acc = acc ++ l := by
  intro l
  induction l with
  | nil => intro acc _; simp
  | cons a rest ih =>
    intro acc hs
    rw [List.foldl_cons]
    have hlast : insInt a acc = acc ++ [a] := by
      apply insInt_last
      intro x hx
      unfold keySorted at hs
      rw [List.pairwise_append] at hs
      exact hs.2.2 x hx a (List.mem_cons_self _ _)
    rw [hlast, ih (acc ++ [a]) (by simpa using hs)]
    simp

theorem tableOf_sorted (rows : List (Int × List Nat)) : keySorted (tableOf rows) :=
  foldl_insInt_sorted rows [] List.Pairwise.nil

theorem tableOf_perm (rows : List (Int × List Nat)) (h : (rows.map Prod.fst).Nodup) :
    (tableOf rows).Perm rows := by
  have := foldl_insInt_perm rows [] (by simpa using h)
  simpa [tableOf] using this

theorem tableOf_self (l : List (Int × List Nat)) (h : keySorted l) : tableOf l = l := by
  have := foldl_insInt_sorted_self l [] (by simpa using h)
  simpa [tableOf] using this

theorem tableOf_append (l : List (Int × List Nat)) (r : Int × List Nat) :
    tableOf (l ++ [r]) = insInt r (tableOf l) := by
  simp [tableOf, List.foldl_append]

theorem tableOf_keyOk (rows : List (Int × List Nat)) (h : ∀ r ∈ rows, keyOk r.1) :
    ∀ x ∈ tableOf rows, keyOk x.1 := by
  intro x hx
  rcases foldl_insInt_mem rows [] x hx with h1 | h1
  · exact h x h1
  · simp at h1

theorem tableOf_keys (rows : List (Int × List Nat)) (k : Int)
    (h : k ∈ (tableOf rows).map Prod.fst) : k ∈ rows.map Prod.fst := by
  obtain ⟨x, hx, hk⟩ := List.mem_map.mp h
  rcases foldl_insInt_mem rows [] x hx with h1 | h1
  · exact List.mem_map.mpr ⟨x, h1, hk⟩
  · simp at h1

theorem insertRow_rowsOf (k : Int) (v : List Nat) (hk : keyOk k) :
    ∀ (l : List (Int × List Nat)), (∀ x ∈ l, keyOk x.1) →
      insertRow bytesLt (encKey k, v) (rowsOf l) = rowsOf (insInt (k, v) l) := by
  intro l
  induction l with
  | nil => intro _; rfl
  | cons a rest ih =>
    intro hl
    have ha := hl a (List.mem_cons_self _ _)
    have h1 := encKey_order k a.1 hk.1 hk.2 ha.1 ha.2
    have h2 := encKey_order a.1 k ha.1 ha.2 hk.1 hk.2
    have hr := ih (fun x hx => hl x (List.mem_cons_of_mem _ hx))
    unfold rowsOf at hr ⊢
    simp only [List.map_cons, insertRow, insInt, h1, h2, decide_eq_true_eq]
    by_cases c1 : k < a.1
    · simp [c1]
    · by_cases c2 : a.1 < k
      · simp [c1, c2, hr]
      · simp [c1, c2]

theorem orderedInsertRow_rowsOf (k : Int) (v : List Nat) (hk : keyOk k) :
    ∀ (l : List (Int × List Nat)), (∀ x ∈ l, keyOk x.1) → k ∉ l.map Prod.fst →
      orderedInsertRow bytesLt (encKey k, v) (rowsOf l) = rowsOf (insInt (k, v) l) := by
  intro l
  induction l with
  | nil => intro _ _; rfl
  | cons a rest ih =>
    intro hl hn
    simp only [List.map_cons, List.mem_cons, not_or] at hn
    have ha := hl a (List.mem_cons_self _ _)
    have h1 := encKey_order k a.1 hk.1 hk.2 ha.1 ha.2
    have hr := ih (fun x hx => hl x (List.mem_cons_of_mem _ hx)) hn.2
    unfold rowsOf at hr ⊢
    simp only [List.map_cons, orderedInsertRow, insInt, h1, decide_eq_true_eq]
    by_cases c1 : k < a.1
    · simp [c1]
    · have c2 : a.1 < k := by omega
      simp [c1, c2, hr]

theorem foldl_insertRow_rowsOf :
    ∀ (l acc : List (Int × List Nat)), (∀ x ∈ l, keyOk x.1) → (∀ x ∈ acc, keyOk x.1) →
      (rowsOf l).foldl (fun acc row => insertRow bytesLt row acc) (rowsOf acc)
        = rowsOf (l.foldl (fun acc r => insInt r acc) acc) := by
  intro l
  induction l with
  | nil => intro acc _ _; rfl
  | cons a rest ih =>
    intro acc hl hacc
    have ha := hl a (List.mem_cons_self _ _)
    have h1 := insertRow_rowsOf a.1 a.2 ha acc hacc
    show (rowsOf rest).foldl _ (insertRow bytesLt (encKey a.1, a.2) (rowsOf acc)) = _
    rw [h1, List.foldl_cons]
    exact ih _ (fun x hx => hl x (List.mem_cons_of_mem _ hx)) (insInt_keyOk _ _ ha hacc)

theorem foldl_orderedInsertRow_rowsOf :
    ∀ (l acc : List (Int × List Nat)), (∀ x ∈ l, keyOk x.1) → (∀ x ∈ acc, keyOk x.1) →
      ((acc ++ l).map Prod.fst).Nodup →
      (rowsOf l).foldl (fun acc row => orderedInsertRow bytesLt row acc) (rowsOf acc)
        = rowsOf (l.foldl (fun acc r => insInt r acc) acc) := by
  intro l
  induction l with
  | nil => intro acc _ _ _; rfl
  | cons a rest ih =>
    intro acc hl hacc hn
    have ha := hl a (List.mem_cons_self _ _)
    have hna : a.1 ∉ acc.map Prod.fst := by
      intro hmem
      rw [List.map_append, List.map_cons] at hn
      exact (List.nodup_append.mp hn).2.2 hmem (List.mem_cons_self _ _)
    have h1 := orderedInsertRow_rowsOf a.1 a.2 ha acc hacc hna
    show (rowsOf rest).foldl _ (orderedInsertRow bytesLt (encKey a.1, a.2) (rowsOf acc)) = _
    rw [h1, List.foldl_cons]
    refine ih _ (fun x hx => hl x (List.mem_cons_of_mem _ hx)) (insInt_keyOk _ _ ha hacc) ?_
    have hp := insInt_perm a acc hna
    have hperm : ((insInt a acc ++ rest).map Prod.fst).Perm ((acc ++ a :: rest).map Prod.fst) := by
      apply List.Perm.map
      have h1 : (insInt a acc ++ rest).Perm ((a :: acc) ++ rest) := hp.append_right rest
      have h2 : ((a :: acc) ++ rest).Perm (acc ++ a :: rest) := by
        simpa using (@List.perm_middle _ a acc rest).symm
      exact h1.trans h2
    exact hperm.nodup_iff.mpr hn

/-- Sorting a buffer of rows with distinct keys gives the table of the rows. -/
theorem sortRows_rowsOf (l : List (Int × List Nat)) (hl : ∀ x ∈ l, keyOk x.1)
    (hn : (l.map Prod.fst).Nodup) : sortRows bytesLt (rowsOf l) = rowsOf (tableOf l) := by
  have := foldl_orderedInsertRow_rowsOf l [] hl (by simp) (by simpa using hn)
  simpa [sortRows, tableOf, rowsOf] using this

/-- Storing the rows of a buffer in an empty table gives the table of the
rows. -/
theorem putRows_rowsOf (l : List (Int × List Nat)) (hl : ∀ x ∈ l, keyOk x.1) :
    (rowsOf l).foldl (fun acc row => insertRow bytesLt row acc) [] = rowsOf (tableOf l) := by
  have := foldl_insertRow_rowsOf l [] hl (by simp)
  simpa [tableOf, rowsOf] using this

/-! ## Scanning a physical table -/

theorem onTable_intCursor (w : World) (c d : Nat) (T : List (Int × List Nat))
    (h : w.onTable c d T) : w.intCursor c d (T.map Prod.fst) := by
  obtain ⟨hf, hd, hi, hb, hg, hr, _, _⟩ := h
  refine ⟨hf, hd, hi, hb, hg, ?_⟩
  rw [hr]
  simp [rowsOf, List.map_map, Function.comp_def]

theorem onTable_setCursor (w : World) (c d : Nat) (T : List (Int × List Nat)) (cur : BtCursor)
    (h : w.onTable c d T) (h1 : cur.dbc = some d) (h2 : cur.flags = (w.cursors c).flags)
    (h3 : cur.pBtree = (w.cursors c).pBtree) : (w.setCursor c cur).onTable c d T := by
  obtain ⟨hf, _, hi, hb, hg, hr, hs, hk⟩ := h
  refine ⟨hf, ?_, ?_, ?_, hg, hr, hs, hk⟩
  · rw [setCursor_cursors_same]; exact h1
  · rw [setCursor_cursors_same]
    unfold BtCursor.intKey at hi ⊢
    rw [h2]; exact hi
  · unfold World.isBuffer World.bt at hb ⊢
    rw [setCursor_cursors_same, h3]
    exact hb

theorem onTable_setDbc (w : World) (c d : Nat) (T : List (Int × List Nat)) (x : DBC)
    (h : w.onTable c d T) (hx : x.dbp = (w.dbcs d).dbp) : (w.setDbc d x).onTable c d T := by
  obtain ⟨hf, hd, hi, hb, hg, hr, hs, hk⟩ := h
  refine ⟨hf, hd, hi, hb, ?_, ?_, hs, hk⟩
  · rw [setDbc_dbcs_same, hx]; exact hg
  · rw [setDbc_dbcs_same, hx]; exact hr

theorem onTable_keyLt (w : World) (c d : Nat) (T : List (Int × List Nat))
    (h : w.onTable c d T) : w.keyLt (w.dbcs d).dbp = bytesLt := by
  unfold World.keyLt
  rw [h.2.2.2.2.1]
  rfl

theorem onTable_flags (w : World) (c d : Nat) (T : List (Int × List Nat))
    (h : w.onTable c d T) : ¬ ((w.cursors c).flags &&& BTREE_INTKEY = 0) := by
  have := h.2.2.1
  unfold BtCursor.intKey at this
  simpa using this

theorem ite_intKey {α : Type} (cur : BtCursor) (a b : α)
    (h : ¬ (cur.flags &&& BTREE_INTKEY = 0)) : (if cur.intKey then a else b) = a := by
  unfold BtCursor.intKey
  simp [h]

theorem isBuffer_setCursor (w : World) (c : Nat) (cur : BtCursor)
    (h : cur.pBtree = (w.cursors c).pBtree) : (w.setCursor c cur).isBuffer c = w.isBuffer c := by
  unfold World.isBuffer World.bt
  rw [setCursor_cursors_same, h]
  rfl

theorem keySorted_split (done post : List (Int × List Nat)) (x : Int × List Nat)
    (h : keySorted (done ++ x :: post)) :
    (∀ r ∈ done, r.1 < x.1) ∧ (∀ r ∈ post, x.1 < r.1) := by
  unfold keySorted at h
  rw [List.pairwise_append, List.pairwise_cons] at h
  obtain ⟨_, ⟨h2, _⟩, h3⟩ := h
  exact ⟨fun r hr => h3 r hr x (List.mem_cons_self _ _), h2⟩

theorem rowsOf_append (a b : List (Int × List Nat)) : rowsOf (a ++ b) = rowsOf a ++ rowsOf b := by
  simp [rowsOf]

theorem rowsOf_cons (x : Int × List Nat) (b : List (Int × List Nat)) :
    rowsOf (x :: b) = (encKey x.1, x.2) :: rowsOf b := rfl

theorem rowsOf_filter_after (done post : List (Int × List Nat)) (kk : Int) (hk : keyOk kk)
    (hok : ∀ x ∈ done ++ post, keyOk x.1) (h1 : ∀ r ∈ done, r.1 ≤ kk)
    (h2 : ∀ r ∈ post, kk < r.1) :
    (rowsOf (done ++ post)).filter (fun r => bytesLt (encKey kk) r.1) = rowsOf post := by
  rw [rowsOf_append, List.filter_append]
  have e1 : (rowsOf done).filter (fun r => bytesLt (encKey kk) r.1) = [] := by
    rw [List.filter_eq_nil_iff]
    intro a ha
    obtain ⟨r, hr, rfl⟩ := List.mem_map.mp ha
    have hrk := hok r (List.mem_append_left _ hr)
    simp only []
    rw [encKey_order kk r.1 hk.1 hk.2 hrk.1 hrk.2]
    have := h1 r hr
    simp
    omega
  have e2 : (rowsOf post).filter (fun r => bytesLt (encKey kk) r.1) = rowsOf post := by
    rw [List.filter_eq_self]
    intro a ha
    obtain ⟨r, hr, rfl⟩ := List.mem_map.mp ha
    have hrk := hok r (List.mem_append_right _ hr)
    simp only []
    rw [encKey_order kk r.1 hk.1 hk.2 hrk.1 hrk.2]
    have := h2 r hr
    simpa using this
  rw [e1, e2]
  rfl

theorem find_head_filter (P : List Nat × List Nat → Bool) :
    ∀ (l : Rows), l.find? P = (l.filter P).head? := by
  intro l
  induction l with
  | nil => rfl
  | cons a rest ih =>
    by_cases h : P a = true
    · rw [List.find?_cons_of_pos _ h, List.filter_cons_of_pos h]
      rfl
    · rw [List.find?_cons_of_neg _ h, List.filter_cons_of_neg h]
      exact ih

theorem rowsOf_find_after (done post : List (Int × List Nat)) (kk : Int) (hk : keyOk kk)
    (hok : ∀ x ∈ done ++ post, keyOk x.1) (h1 : ∀ r ∈ done, r.1 ≤ kk)
    (h2 : ∀ r ∈ post, kk < r.1) :
    (rowsOf (done ++ post)).find? (fun r => bytesLt (encKey kk) r.1) = (rowsOf post).head? := by
  rw [← rowsOf_filter_after done post kk hk hok h1 h2]
  exact find_head_filter _ _

theorem fitPrefix_rowsOf :
    ∀ (l : List (Int × List Nat)) (cap : Nat), ∃ n, fitPrefix cap (rowsOf l) = rowsOf (l.take n) := by
  intro l
  induction l with
  | nil => intro cap; exact ⟨0, rfl⟩
  | cons a rest ih =>
    intro cap
    rw [rowsOf_cons]
    unfold fitPrefix
    split
    · obtain ⟨n, hn⟩ := ih (cap - recordCost (encKey a.1, a.2))
      exact ⟨n + 1, by rw [hn]; rfl⟩
    · exact ⟨0, rfl⟩

/-- What a bulk `DBC->get` gives on the engine cursor of a cursor on a
physical table when no fault is scripted. -/
theorem dbc_get_multiple_onTable (w : World) (c d : Nat) (T : List (Int × List Nat))
    (hw : w.onTable c d T) (op : GetOp) (F : Rows)
    (hF : (match op, (w.dbcs d).pos with
      | GetOp.DB_NEXT, some k => (rowsOf T).filter (fun r => bytesLt k r.1)
      | _, _ => rowsOf T) = F) :
    dbc_get_multiple w d op
      = if F = [] then (DB_NOTFOUND, [], w)
        else match (fitPrefix (w.multiBufsize - 4) F).getLast? with
          | some row => (0, fitPrefix (w.multiBufsize - 4) F,
              w.setDbc d { w.dbcs d with pos := some row.1 })
          | none => (DB_BUFFER_SMALL, [], w) := by
  have hlt := onTable_keyLt w c d T hw
  have hrows := hw.2.2.2.2.2.1
  have hf := hw.1
  unfold dbc_get_multiple
  simp only []
  rw [hlt, hrows, hF, engine_nofault w hf]
  by_cases hF0 : F = []
  · have h : DB_NOTFOUND ≠ (0 : Int) := by decide
    simp [hF0, h, fitPrefix]
  · rw [if_neg hF0]
    have hne : F.isEmpty = false := by
      cases F with
      | nil => exact absurd rfl hF0
      | cons a b => rfl
    cases hb : (fitPrefix (w.multiBufsize - 4) F).getLast? with
    | none =>
      have hbe : fitPrefix (w.multiBufsize - 4) F = [] := List.getLast?_eq_none_iff.mp hb
      have h : DB_BUFFER_SMALL ≠ (0 : Int) := by decide
      simp [hne, hbe, h]
    | some row =>
      have hbe : (fitPrefix (w.multiBufsize - 4) F).isEmpty = false := by
        cases hfp : fitPrefix (w.multiBufsize - 4) F with
        | nil => rw [hfp] at hb; simp at hb
        | cons a b => rfl
      simp [hne, hbe]

/-- A plain `get` on a cursor on a physical table when no row is selected:
the result is 1. -/
theorem cursorGet_single_end (w : World) (c d : Nat) (T : List (Int × List Nat)) (op : GetOp)
    (hw : w.onTable c d T)
    (hsel : selectRow bytesLt (rowsOf T) (w.dbcs d).pos op ((w.cursors c).key.data.getD [])
      = none) :
    (cursorGet_single w c op).1 = SQLITE_OK ∧ (cursorGet_single w c op).2.1 = some 1 := by
  have hdbc := hw.2.1
  have hw1 : (w.setCursor c { w.cursors c with lastRes := 0 }).onTable c d T :=
    onTable_setCursor w c d T _ hw hdbc rfl rfl
  have hg := dbc_get_intCursor _ c d _ (onTable_intCursor _ c d T hw1) op
    ((w.cursors c).key.data.getD [])
  simp only [setCursor_tables, setCursor_dbhs, setCursor_dbcs] at hg
  rw [hw.2.2.2.2.2.1, hsel] at hg
  simp only [] at hg
  have hg2 : dbc_get_opt (w.setCursor c { w.cursors c with lastRes := 0 }) (w.cursors c).dbc op
      ((w.cursors c).key.data.getD [])
      = (DB_NOTFOUND, none, w.setCursor c { w.cursors c with lastRes := 0 }) := by
    rw [hdbc]
    exact hg
  have hnf : DB_NOTFOUND ≠ (0 : Int) := by decide
  have hm : cursorGet_single w c op
      = cursorGet_err (w.setCursor c { w.cursors c with lastRes := 0 }) c DB_NOTFOUND := by
    unfold cursorGet_single
    simp only [setCursor_cursors_same]
    rw [hg2]
    simp only [hnf, if_false]
  rw [hm]
  unfold cursorGet_err
  simp

/-- A plain `get` on a cursor on a physical table that selects the row `x`:
the cursor is valid on `x`, and the scan goes on after it. -/
theorem cursorGet_single_row (w : World) (c d : Nat) (T : List (Int × List Nat)) (op : GetOp)
    (x : Int × List Nat) (done post : List (Int × List Nat)) (hw : w.onTable c d T)
    (hmg : (w.cursors c).multiGetPtr = none) (hT : T = done ++ x :: post)
    (hsel : selectRow bytesLt (rowsOf T) (w.dbcs d).pos op ((w.cursors c).key.data.getD [])
      = some (encKey x.1, x.2)) :
    (cursorGet_single w c op).1 = SQLITE_OK ∧ (cursorGet_single w c op).2.1 = some 0 ∧
    curRow (cursorGet_single w c op).2.2 c = x ∧
    (cursorGet_single w c op).2.2.scanAt c d T post := by
  have hdbc := hw.2.1
  have hw1 : (w.setCursor c { w.cursors c with lastRes := 0 }).onTable c d T :=
    onTable_setCursor w c d T _ hw hdbc rfl rfl
  have hg := dbc_get_intCursor _ c d _ (onTable_intCursor _ c d T hw1) op
    ((w.cursors c).key.data.getD [])
  simp only [setCursor_tables, setCursor_dbhs, setCursor_dbcs] at hg
  rw [hw.2.2.2.2.2.1, hsel] at hg
  simp only [] at hg
  have hg2 : dbc_get_opt (w.setCursor c { w.cursors c with lastRes := 0 }) (w.cursors c).dbc op
      ((w.cursors c).key.data.getD [])
      = (0, some (encKey x.1, x.2), (w.setCursor c { w.cursors c with lastRes := 0 }).setDbc d
          { w.dbcs d with pos := some (encKey x.1) }) := by
    rw [hdbc]
    exact hg
  have hw2 := onTable_setDbc _ c d T { w.dbcs d with pos := some (encKey x.1) } hw1 rfl
  have hm : cursorGet_single w c op
      = cursorGet_got ((w.setCursor c { w.cursors c with lastRes := 0 }).setDbc d
          { w.dbcs d with pos := some (encKey x.1) }) c (encKey x.1, x.2) := by
    unfold cursorGet_single
    simp only [setCursor_cursors_same]
    rw [hg2]
    simp only [if_true, Option.getD_some]
  have hxT : x ∈ T := by rw [hT]; simp
  have hxk : keyOk x.1 := hw.2.2.2.2.2.2.2 x hxT
  have hsp := keySorted_split done post x (by rw [← hT]; exact hw.2.2.2.2.2.2.1)
  have hint : BtCursor.intKey { w.cursors c with lastRes := 0, key := { (w.cursors c).key with data := some (encKey x.1), size := (encKey x.1).length }, data := { (w.cursors c).data with data := some x.2, size := x.2.length }, eState := CURSOR_VALID } = true := hw.2.2.1
  rw [hm]
  unfold cursorGet_got
  simp only [setDbc_cursors, setCursor_cursors_same, hint, if_true]
  refine ⟨trivial, trivial, ?_, ?_, ?_, ?_, done ++ [x], [], post, x.1, ?_, ?_, ?_, hxk, ?_, ?_, ?_⟩
  · unfold curRow
    simp [decodeKey_row, decodeKey_encKey x.1 hxk.1 hxk.2]
  · exact onTable_setCursor _ c d T _ hw2 (by simpa using hdbc) (by simp) (by simp)
  · simp
  · simp
  · rw [hT]; simp
  · simp
  · simp
  · intro r hr
    simp only [List.append_nil, List.mem_append, List.mem_singleton] at hr
    rcases hr with h | h
    · exact le_of_lt (hsp.1 r h)
    · rw [h]
  · exact hsp.2
  · left
    simp [hmg]

theorem concat_of_ne_nil (l : List (Int × List Nat)) (h : l ≠ []) :
    ∃ init z, l = init ++ [z] :=
  ⟨l.dropLast, l.getLast h, (List.dropLast_append_getLast h).symm⟩

theorem rowsOf_getLast (init : List (Int × List Nat)) (z : Int × List Nat) :
    (rowsOf (init ++ [z])).getLast? = some (encKey z.1, z.2) := by
  simp [rowsOf]

/-- A bulk `get` on a cursor on a physical table: the result is 1 when no
row is left; otherwise the cursor is valid on the first row that is left and
the scan goes on after it, from the cursor's buffer first. -/
theorem cursorGet_multiple_scan (w : World) (c d : Nat) (T : List (Int × List Nat)) (op : GetOp)
    (done post : List (Int × List Nat)) (hw : w.onTable c d T)
    (hmg : (w.cursors c).multiGetPtr = none) (hlr : (w.cursors c).lastRes ≤ 0)
    (hT : T = done ++ post)
    (hF : (match op, (w.dbcs d).pos with
      | GetOp.DB_NEXT, some k => (rowsOf T).filter (fun r => bytesLt k r.1)
      | _, _ => rowsOf T) = rowsOf post)
    (hsel : ∀ key, selectRow bytesLt (rowsOf T) (w.dbcs d).pos op key = (rowsOf post).head?) :
    (post = [] → (cursorGet_multiple w c op).1 = SQLITE_OK ∧
      (cursorGet_multiple w c op).2.1 = some 1) ∧
    (∀ x post', post = x :: post' →
      (cursorGet_multiple w c op).1 = SQLITE_OK ∧ (cursorGet_multiple w c op).2.1 = some 0 ∧
      curRow (cursorGet_multiple w c op).2.2 c = x ∧
      (cursorGet_multiple w c op).2.2.scanAt c d T post') := by
  have hdbc := hw.2.1
  have hgm := dbc_get_multiple_onTable w c d T hw op (rowsOf post) hF
  have hnf : DB_NOTFOUND ≠ (0 : Int) := by decide
  have hnb : DB_NOTFOUND ≠ DB_BUFFER_SMALL := by decide
  have hbs : DB_BUFFER_SMALL ≠ (0 : Int) := by decide
  constructor
  · intro hp
    subst hp
    have hg : dbc_get_multiple w d op = (DB_NOTFOUND, [], w) := by
      rw [hgm]; simp [rowsOf]
    unfold cursorGet_multiple
    simp only [hdbc, hg, hnf, hnb, if_false]
    unfold cursorGet_err
    simp
  · intro x post' hp
    subst hp
    have hne : rowsOf (x :: post') ≠ [] := by simp [rowsOf]
    rw [if_neg hne] at hgm
    obtain ⟨n, hn⟩ := fitPrefix_rowsOf (x :: post') (w.multiBufsize - 4)
    rw [hn] at hgm
    cases n with
    | zero =>
      have hg : dbc_get_multiple w d op = (DB_BUFFER_SMALL, [], w) := by
        rw [hgm]; simp [rowsOf]
      have hm : cursorGet_multiple w c op
          = cursorGet_single (w.setCursor c
              { w.cursors c with multiData := some ((w.cursors c).multiData.getD []) }) c op := by
        unfold cursorGet_multiple
        simp only [hdbc, hg, hbs, if_false, if_true]
      rw [hm]
      exact cursorGet_single_row _ c d T op x done post'
        (onTable_setCursor w c d T _ hw hdbc rfl rfl) (by simpa using hmg) hT
        (by simpa [rowsOf] using hsel ((w.cursors c).key.data.getD []))
    | succ m =>
      obtain ⟨init, z, hz⟩ := concat_of_ne_nil ((x :: post').take (m + 1)) (by simp)
      have hz2 : x :: post'.take m = init ++ [z] := by simpa using hz
      have hsplit : post' = post'.take m ++ post'.drop m := (List.take_append_drop m post').symm
      have hT2 : T = (done ++ init) ++ z :: post'.drop m := by
        rw [hT]
        nth_rewrite 1 [hsplit]
        rw [← List.cons_append, hz2]
        simp
      have hsp := keySorted_split (done ++ init) (post'.drop m) z
        (by rw [← hT2]; exact hw.2.2.2.2.2.2.1)
      have hzT : z ∈ T := by rw [hT2]; simp
      have hzk : keyOk z.1 := hw.2.2.2.2.2.2.2 z hzT
      have hxT : x ∈ T := by rw [hT]; simp
      have hxk : keyOk x.1 := hw.2.2.2.2.2.2.2 x hxT
      have hg : dbc_get_multiple w d op
          = (0, (encKey x.1, x.2) :: rowsOf (post'.take m),
              w.setDbc d { w.dbcs d with pos := some (encKey z.1) }) := by
        rw [hgm, hz, rowsOf_getLast]
        simp only []
        rw [← hz]
        rfl
      have hw2 := onTable_setDbc w c d T { w.dbcs d with pos := some (encKey z.1) } hw rfl
      have hint := onTable_flags w c d T hw
      unfold cursorGet_multiple
      simp only [hdbc, hg, if_true, setDbc_cursors, multipleKeyNext, List.get?_cons_zero,
        ite_intKey, hint, not_false_eq_true]
      refine ⟨trivial, trivial, ?_, ?_, ?_, ?_, done ++ [x], post'.take m, post'.drop m, z.1,
        ?_, ?_, ?_, hzk, ?_, ?_, ?_⟩
      · unfold curRow
        simp [BtCursor.intKey, hint, decodeKey_row, decodeKey_encKey x.1 hxk.1 hxk.2]
      · exact onTable_setCursor _ c d T _ hw2 (by simp [BtCursor.intKey, hint, hdbc])
          (by simp [BtCursor.intKey, hint]) (by simp [BtCursor.intKey, hint])
      · simp [BtCursor.intKey, hint]
      · simpa [BtCursor.intKey, hint] using hlr
      · rw [hT]
        nth_rewrite 1 [hsplit]
        simp
      · exact hsplit
      · simp
      · intro r hr
        have hr2 : r ∈ (done ++ init) ++ [z] := by
          have : (done ++ [x]) ++ post'.take m = (done ++ init) ++ [z] := by
            rw [List.append_assoc, List.append_assoc, ← hz2]
            rfl
          rw [← this]
          exact hr
        rcases List.mem_append.mp hr2 with h | h
        · exact le_of_lt (hsp.1 r h)
        · rw [List.mem_singleton.mp h]
      · exact hsp.2
      · right
        exact ⟨1, (encKey x.1, x.2) :: rowsOf (post'.take m), by simp [BtCursor.intKey, hint],
          by simp [BtCursor.intKey, hint], by simp⟩

/-- The part of `cursorGet` that goes to the engine, on a cursor on a
physical table: the result is 1 when no row is left; otherwise the cursor is
valid on the first row that is left and the scan goes on after it. -/
theorem cursorGet_engine_scan (w : World) (c d : Nat) (T : List (Int × List Nat)) (op : GetOp)
    (done post : List (Int × List Nat)) (hw : w.onTable c d T)
    (hmg : (w.cursors c).multiGetPtr = none) (hlr : (w.cursors c).lastRes ≤ 0)
    (hT : T = done ++ post)
    (hF : (match op, (w.dbcs d).pos with
      | GetOp.DB_NEXT, some k => (rowsOf T).filter (fun r => bytesLt k r.1)
      | _, _ => rowsOf T) = rowsOf post)
    (hsel : ∀ key, selectRow bytesLt (rowsOf T) (w.dbcs d).pos op key = (rowsOf post).head?) :
    (post = [] → (cursorGet_engine w c op).1 = SQLITE_OK ∧
      (cursorGet_engine w c op).2.1 = some 1) ∧
    (∀ x post', post = x :: post' →
      (cursorGet_engine w c op).1 = SQLITE_OK ∧ (cursorGet_engine w c op).2.1 = some 0 ∧
      curRow (cursorGet_engine w c op).2.2 c = x ∧
      (cursorGet_engine w c op).2.2.scanAt c d T post') := by
  have hdbc := hw.2.1
  unfold cursorGet_engine
  by_cases hc : op = DB_FIRST ∨ (op = DB_NEXT ∧ (!(w.cursors c).skipMulti) = true)
  · rw [if_pos hc]
    exact cursorGet_multiple_scan w c d T op done post hw hmg hlr hT hF hsel
  · rw [if_neg hc]
    simp only []
    generalize hW : (if op = DB_NEXT then w.setCursor c { w.cursors c with skipMulti := false }
      else w) = W
    have hWon : W.onTable c d T := by
      rw [← hW]
      split
      · exact onTable_setCursor w c d T _ hw hdbc rfl rfl
      · exact hw
    have hWmg : (W.cursors c).multiGetPtr = none := by
      rw [← hW]
      split
      · simpa using hmg
      · exact hmg
    have hWd : W.dbcs = w.dbcs := by
      rw [← hW]
      split
      · simp
      · rfl
    constructor
    · intro hp
      subst hp
      exact cursorGet_single_end W c d T op hWon (by rw [hWd]; simpa [rowsOf] using hsel _)
    · intro x post' hp
      subst hp
      exact cursorGet_single_row W c d T op x done post' hWon hWmg hT
        (by rw [hWd]; simpa [rowsOf] using hsel _)

theorem drop_cons_get {α : Type} :
    ∀ (l : List α) (i : Nat) (a : α) (t : List α), l.drop i = a :: t →
      l[i]? = some a ∧ l.drop (i + 1) = t := by
  intro l
  induction l with
  | nil => intro i a t h; simp at h
  | cons b rest ih =>
    intro i a t h
    cases i with
    | zero =>
      simp only [List.drop_zero, List.cons.injEq] at h
      obtain ⟨h1, h2⟩ := h
      subst h1
      subst h2
      simp
    | succ j =>
      simp only [List.drop_succ_cons] at h
      have := ih j a t h
      simpa using this

theorem drop_nil_get {α : Type} :
    ∀ (l : List α) (i : Nat), l.drop i = [] → l[i]? = none := by
  intro l i h
  rw [List.getElem?_eq_none_iff]
  exact List.drop_eq_nil_iff.mp h

/-- One `DB_NEXT` of `cursorGet` in a scan of a physical table: the result is
1 when no row is left; otherwise the cursor is valid on the next row, and the
scan goes on after it. -/
theorem cursorGet_next_scan (w : World) (c d : Nat) (T rest : List (Int × List Nat))
    (h : w.scanAt c d T rest) :
    (rest = [] → (cursorGet w c DB_NEXT).1 = SQLITE_OK ∧ (cursorGet w c DB_NEXT).2.1 = some 1) ∧
    (∀ x rest', rest = x :: rest' →
      (cursorGet w c DB_NEXT).1 = SQLITE_OK ∧ (cursorGet w c DB_NEXT).2.1 = some 0 ∧
      curRow (cursorGet w c DB_NEXT).2.2 c = x ∧
      (cursorGet w c DB_NEXT).2.2.scanAt c d T rest') := by
  obtain ⟨hw, hv, hlr, done, rem, post, kk, hT, hrest, hpos, hkk, h1, h2, hbuf⟩ := h
  have hdbc := hw.2.1
  have hbf := hw.2.2.2.1
  have hint := onTable_flags w c d T hw
  have hok := hw.2.2.2.2.2.2.2
  -- what the engine gives when the buffer has nothing more
  have hengine : ∀ (W : World), W.onTable c d T → (W.cursors c).multiGetPtr = none →
      (W.cursors c).lastRes ≤ 0 → W.dbcs = w.dbcs → rem = [] →
      (rest = [] → (cursorGet_engine W c DB_NEXT).1 = SQLITE_OK ∧
        (cursorGet_engine W c DB_NEXT).2.1 = some 1) ∧
      (∀ x rest', rest = x :: rest' →
        (cursorGet_engine W c DB_NEXT).1 = SQLITE_OK ∧
        (cursorGet_engine W c DB_NEXT).2.1 = some 0 ∧
        curRow (cursorGet_engine W c DB_NEXT).2.2 c = x ∧
        (cursorGet_engine W c DB_NEXT).2.2.scanAt c d T rest') := by
    intro W hWon hWmg hWlr hWd hrem
    subst hrem
    simp only [List.nil_append, List.append_nil] at hT hrest h1
    subst hrest
    have hokT : ∀ x ∈ done ++ rest, keyOk x.1 := by rw [← hT]; exact hok
    refine cursorGet_engine_scan W c d T DB_NEXT done rest hWon hWmg hWlr hT ?_ ?_
    · rw [hWd, hpos]
      simp only []
      rw [hT]
      exact rowsOf_filter_after done rest kk hkk hokT h1 h2
    · intro key
      rw [hWd, hpos]
      simp only [selectRow]
      rw [hT]
      exact rowsOf_find_after done rest kk hkk hokT h1 h2
  rcases hbuf with ⟨hmg, hrem⟩ | ⟨i, batch, hmg, hmd, hdrop⟩
  · have hb : (w.setCursor c (w.cursors c)).isBuffer c = false := by
      unfold World.isBuffer World.bt at hbf ⊢
      rw [setCursor_cursors_same]
      exact hbf
    have hm : cursorGet w c DB_NEXT = cursorGet_engine (w.setCursor c (w.cursors c)) c DB_NEXT := by
      unfold cursorGet
      simp [hmg, hb]
    rw [hm]
    exact hengine _ (onTable_setCursor w c d T _ hw hdbc rfl rfl) (by simpa using hmg)
      (by simpa using hlr) (by simp) hrem
  · cases rem with
    | nil =>
      have hget : batch[i]? = none := drop_nil_get batch i (by simpa [rowsOf] using hdrop)
      have hb : (w.setCursor c { w.cursors c with
          key := { (w.cursors c).key with data := none },
          data := { (w.cursors c).data with data := none },
          multiGetPtr := none }).isBuffer c = false := by
        unfold World.isBuffer World.bt at hbf ⊢
        rw [setCursor_cursors_same]
        exact hbf
      have hm : cursorGet w c DB_NEXT = cursorGet_engine (w.setCursor c { w.cursors c with
          key := { (w.cursors c).key with data := none },
          data := { (w.cursors c).data with data := none },
          multiGetPtr := none }) c DB_NEXT := by
        unfold cursorGet
        simp [hmg, hmd, hget, multipleKeyNext, isBuffer_setCursor, hbf]
      rw [hm]
      exact hengine _ (onTable_setCursor w c d T _ hw hdbc rfl rfl) (by simp)
        (by simpa using hlr) (by simp) rfl
    | cons x rem' =>
      obtain ⟨hget, hdrop'⟩ := drop_cons_get batch i (encKey x.1, x.2) (rowsOf rem')
        (by simpa [rowsOf] using hdrop)
      have hxT : x ∈ T := by rw [hT]; simp
      have hxk : keyOk x.1 := hok x hxT
      constructor
      · intro hr
        rw [hrest] at hr
        simp at hr
      · intro y rest' hr
        rw [hrest] at hr
        simp only [List.cons_append, List.cons.injEq] at hr
        obtain ⟨hxy, hr'⟩ := hr
        subst hxy
        unfold cursorGet
        simp only [hmg, hmd, multipleKeyNext, List.get?_eq_getElem?, hget, Option.getD_some, ne_eq, not_false_eq_true,
          and_self, and_true, if_true, setCursor_cursors_same, true_and, reduceCtorEq]
        refine ⟨?_, ?_, ?_, ?_, done ++ [x], rem', post, kk, ?_, ?_, ?_, hkk,
          ?_, h2, ?_⟩
        · unfold curRow
          simp [BtCursor.intKey, hint, decodeKey_row, decodeKey_encKey x.1 hxk.1 hxk.2]
        · exact onTable_setCursor _ c d T _
            (onTable_setCursor w c d T _ hw (by simp [hdbc]) (by simp) (by simp))
            (by simp [BtCursor.intKey, hint, hdbc]) (by simp [BtCursor.intKey, hint])
            (by simp [BtCursor.intKey, hint])
        · simp [BtCursor.intKey, hint, hv]
        · simpa [BtCursor.intKey, hint] using hlr
        · rw [hT]; simp
        · exact hr'.symm
        · simpa using hpos
        · intro r hr2
          apply h1
          simp only [List.mem_append, List.mem_cons, List.mem_singleton] at hr2 ⊢
          tauto
        · right
          exact ⟨i + 1, batch, by simp [BtCursor.intKey, hint], by simp [BtCursor.intKey, hint, hmd],
            hdrop'⟩

theorem sqlite3BtreeNext_scan (ops : EnvOps) (w : World) (c d : Nat)
    (T rest : List (Int × List Nat)) (h : w.scanAt c d T rest) :
    sqlite3BtreeNext ops w c = cursorGet w c DB_NEXT := by
  obtain ⟨hw, hv, hlr, _⟩ := h
  have hl : ¬ ((w.cursors c).lastRes > 0) := by omega
  unfold sqlite3BtreeNext
  simp [hw.2.1, hv, hl]

/-- In a scan of a physical table, `sqlite3BtreeNext` reads the rows that are
left, in their order, and then reports the end; as many calls as there are
rows left, and one more, are enough. -/
theorem scanNext_scan (ops : EnvOps) (c d : Nat) (T : List (Int × List Nat)) :
    ∀ (rest : List (Int × List Nat)) (w : World) (fuel : Nat), w.scanAt c d T rest →
      rest.length < fuel → scanNext ops c fuel w = some rest := by
  intro rest
  induction rest with
  | nil =>
    intro w fuel h hf
    cases fuel with
    | zero => simp at hf
    | succ n =>
      obtain ⟨h1, h2⟩ := (cursorGet_next_scan w c d T [] h).1 rfl
      unfold scanNext
      rw [sqlite3BtreeNext_scan ops w c d T [] h]
      simp [h1, h2]
  | cons x rest' ih =>
    intro w fuel h hf
    cases fuel with
    | zero => simp at hf
    | succ n =>
      obtain ⟨h1, h2, h3, h4⟩ := (cursorGet_next_scan w c d T (x :: rest') h).2 x rest' rfl
      have hn : rest'.length < n := by
        simp only [List.length_cons] at hf
        omega
      unfold scanNext
      rw [sqlite3BtreeNext_scan ops w c d T (x :: rest') h]
      simp only [h1, h2, ne_eq, not_true_eq_false, if_false, if_true]
      rw [ih _ n h4 hn, h3]
      rfl

/-- A `DB_FIRST` of `cursorGet` on a cursor on a physical table: the result
is 1 when the table is empty; otherwise the cursor is valid on the first row
and the scan goes on after it. -/
theorem cursorGet_first_scan (w : World) (c d : Nat) (T : List (Int × List Nat))
    (hw : w.onTable c d T) (hmg : (w.cursors c).multiGetPtr = none)
    (hlr : (w.cursors c).lastRes ≤ 0) :
    (T = [] → (cursorGet w c DB_FIRST).1 = SQLITE_OK ∧ (cursorGet w c DB_FIRST).2.1 = some 1) ∧
    (∀ x rest, T = x :: rest →
      (cursorGet w c DB_FIRST).1 = SQLITE_OK ∧ (cursorGet w c DB_FIRST).2.1 = some 0 ∧
      curRow (cursorGet w c DB_FIRST).2.2 c = x ∧
      (cursorGet w c DB_FIRST).2.2.scanAt c d T rest) := by
  have hdbc := hw.2.1
  have hbf := hw.2.2.2.1
  have hm : cursorGet w c DB_FIRST = cursorGet_engine (w.setCursor c (w.cursors c)) c DB_FIRST := by
    unfold cursorGet
    simp [isBuffer_setCursor, hbf]
  rw [hm]
  exact cursorGet_engine_scan _ c d T DB_FIRST [] T
    (onTable_setCursor w c d T _ hw hdbc rfl rfl) (by simpa using hmg) (by simpa using hlr)
    rfl rfl (fun _ => rfl)

/-- The function `sqlite3BtreeFirst` on the cursor of a physical table: the
result is 1 when the table is empty; otherwise the cursor is valid on the
first row and the scan goes on after it. -/
theorem sqlite3BtreeFirst_physical (ops : EnvOps) (w : World) (c d : Nat)
    (T : List (Int × List Nat)) (hw : w.onTable c d T)
    (hmp : (w.cursors c).multiPutPtr = none) (hlr : (w.cursors c).lastRes ≤ 0) :
    (T = [] → (sqlite3BtreeFirst ops w c).1 = SQLITE_OK ∧
      (sqlite3BtreeFirst ops w c).2.1 = some 1) ∧
    (∀ x rest, T = x :: rest →
      (sqlite3BtreeFirst ops w c).1 = SQLITE_OK ∧ (sqlite3BtreeFirst ops w c).2.1 = some 0 ∧
      curRow (sqlite3BtreeFirst ops w c).2.2 c = x ∧
      (sqlite3BtreeFirst ops w c).2.2.scanAt c d T rest) := by
  have hdbc := hw.2.1
  have hm : sqlite3BtreeFirst ops w c
      = cursorGet (w.setCursor c { w.cursors c with multiGetPtr := none }) c DB_FIRST := by
    unfold sqlite3BtreeFirst
    simp [hmp, hdbc]
  rw [hm]
  exact cursorGet_first_scan _ c d T (onTable_setCursor w c d T _ hw hdbc rfl rfl) (by simp)
    (by simpa using hlr)

/-- A scan of a physical table reads its rows, in their order. -/
theorem scan_onTable (ops : EnvOps) (w : World) (c d : Nat) (T : List (Int × List Nat))
    (fuel : Nat) (hw : w.onTable c d T) (hmp : (w.cursors c).multiPutPtr = none)
    (hlr : (w.cursors c).lastRes ≤ 0) (hf : T.length < fuel) : scan ops c fuel w = some T := by
  have hF := sqlite3BtreeFirst_physical ops w c d T hw hmp hlr
  cases T with
  | nil =>
    obtain ⟨h1, h2⟩ := hF.1 rfl
    unfold scan
    simp [h1, h2]
  | cons x rest =>
    obtain ⟨h1, h2, h3, h4⟩ := hF.2 x rest rfl
    have hn : rest.length < fuel := by
      simp only [List.length_cons] at hf
      omega
    unfold scan
    simp only [h1, h2, ne_eq, not_true_eq_false, if_false, if_true]
    rw [scanNext_scan ops c d (x :: rest) rest _ fuel h4 hn, h3]
    rfl

/-! ## Inserting into a physical table -/

theorem sqlite3BtreeInsert_key_int (w : World) (c : Nat) (k : Int) (v : List Nat)
    (hint : (w.cursors c).intKey = true) :
    sqlite3BtreeInsert_key w c none k v v.length
      = w.setCursor c { w.cursors c with
          multiGetPtr := none, key := DBT.ofBytes (encKey k),
          data := { DBT.zero with data := some v, size := v.length } } := by
  unfold sqlite3BtreeInsert_key
  simp [hint]

/-- What `DBC->put` does on the engine cursor of a cursor on a physical table
when no fault is scripted: the row is stored at its place. -/
theorem dbc_put_onTable (w : World) (c d : Nat) (T : List (Int × List Nat)) (k : Int)
    (v : List Nat) (hw : w.onTable c d T) (hk : keyOk k) :
    (dbc_put w d (encKey k) v).1 = 0 ∧
    (dbc_put w d (encKey k) v).2.onTable c d (insInt (k, v) T) ∧
    (dbc_put w d (encKey k) v).2.cursors = w.cursors ∧
    (dbc_put w d (encKey k) v).2.shared = w.shared ∧
    (dbc_put w d (encKey k) v).2.btrees = w.btrees := by
  obtain ⟨hf, hd, hi, hb, hg, hr, hs, hok⟩ := hw
  have hlt : w.keyLt (w.dbcs d).dbp = bytesLt := by
    unfold World.keyLt
    rw [hg]
    rfl
  unfold dbc_put
  simp only []
  rw [engine_nofault w hf, hlt, hr, insertRow_rowsOf k v hk T hok]
  simp only [ne_eq, not_true_eq_false, if_false]
  refine ⟨trivial, ⟨hf, hd, hi, hb, ?_, ?_, insInt_sorted _ T hs, insInt_keyOk _ T hk hok⟩,
    trivial, trivial, trivial⟩
  · simpa using hg
  · show Function.update w.tables (w.dbhs (w.dbcs d).dbp).tid _
      (w.dbhs (Function.update w.dbcs d _ d).dbp).tid = _
    rw [Function.update_same, Function.update_same]

theorem btreeTripWatchers_alone (w : World) (c : Nat) (b : Bool)
    (h : (w.shared (w.btAddr ((w.cursors c).pBtree.getD 0))).cursors = [c]) :
    btreeTripWatchers w c b = (SQLITE_OK, w) := by
  unfold btreeTripWatchers
  simp only []
  rw [h]
  simp [btreeTripWatchers_loop]

/-- Inserting a row through the write cursor of a physical table stores the
row at its place in the table. -/
theorem sqlite3BtreeInsert_physical (ops : EnvOps) (w : World) (c : Nat)
    (T : List (Int × List Nat)) (k : Int) (v : List Nat) (h : w.physical c T) (hk : keyOk k) :
    (sqlite3BtreeInsert ops w c none k v v.length 0).1 = SQLITE_OK ∧
    (sqlite3BtreeInsert ops w c none k v v.length 0).2.physical c (insInt (k, v) T) := by
  obtain ⟨d, p, hw, hwr, hp, hl, hmp, hlr⟩ := h
  have hdbc := hw.2.1
  have hint := hw.2.2.1
  have hbf := hw.2.2.2.1
  have hkey := sqlite3BtreeInsert_key_int w c k v hint
  generalize hw1 : w.setCursor c { w.cursors c with
          multiGetPtr := none, key := DBT.ofBytes (encKey k),
          data := { DBT.zero with data := some v, size := v.length } } = w1 at hkey
  have hc1 : w1.cursors c = { w.cursors c with
          multiGetPtr := none, key := DBT.ofBytes (encKey k),
          data := { DBT.zero with data := some v, size := v.length } } := by
    rw [← hw1]; simp
  have hon1 : w1.onTable c d T := by
    rw [← hw1]
    exact onTable_setCursor w c d T _ hw hdbc rfl rfl
  have hs1 : w1.shared = w.shared := by rw [← hw1]; simp
  have hb1 : w1.btrees = w.btrees := by rw [← hw1]; simp
  obtain ⟨p1, p2, p3, p4, p5⟩ := dbc_put_onTable w1 c d T k v hon1 hk
  generalize hW : dbc_put w1 d (encKey k) v = W at p1 p2 p3 p4 p5
  have hput : sqlite3BtreeInsert_put w c none k v v.length 0 = W := by
    unfold sqlite3BtreeInsert_put
    rw [hkey]
    simp only [ne_eq, not_true_eq_false, and_false, if_false]
    unfold insertData
    simp only [hc1, dbc_put_opt, hdbc, DBT.ofBytes, DBT.zero, Option.getD_some, hW]
    simp
  have hbuf1 : w1.isBuffer c = false := hon1.2.2.2.1
  have htrip : btreeTripWatchers W.2 c false = (SQLITE_OK, W.2) := by
    apply btreeTripWatchers_alone
    rw [p3, p4, hc1]
    simp only [Option.getD_some, hp]
    have : W.2.btAddr p = w.btAddr p := by
      unfold World.btAddr
      rw [p5, hb1]
    rw [this, hs1]
    exact hl
  unfold sqlite3BtreeInsert
  rw [hkey]
  simp only [hwr, hbuf1, hput, p1, htrip]
  simp only [Bool.not_true, Bool.false_eq_true, if_false, if_true, ne_eq, not_true_eq_false,
    setCursor_cursors_same]
  refine ⟨by decide, d, p, ?_, ?_, ?_, ?_, ?_, ?_⟩
  · exact onTable_setCursor _ c d _ _
      (onTable_setCursor _ c d _ _ p2 (by rw [p3, hc1]; exact hdbc) (by rw [p3, hc1])
        (by rw [p3, hc1]))
      (by simp [p3, hc1, hdbc]) (by simp [p3, hc1]) (by simp [p3, hc1])
  · simp [p3, hc1, hwr]
  · simp [p3, hc1, hp]
  · unfold World.bt
    simp only [setCursor_btrees, setCursor_shared, p4, p5, hs1, hb1]
    exact hl
  · simp [p3, hc1, hmp]
  · simpa [p3, hc1] using hlr

/-! ## Connecting a temporary database -/

theorem cacheFind_map (k : Int) (v : CACHED_DB) :
    ∀ (cache : List (Int × CACHED_DB)), (cache.find? (fun x => x.1 = k)).isSome = true →
      (cache.map (fun x => if x.1 = k then (k, v) else x)).find? (fun e => e.1 = k)
        = some (k, v) := by
  intro cache
  induction cache with
  | nil => intro h; simp at h
  | cons x rest ih =>
    intro h
    by_cases hx : x.1 = k
    · simp [hx]
    · have h2 : (rest.find? (fun x => x.1 = k)).isSome = true := by
        simpa [List.find?, hx] using h
      simp only [List.map_cons, hx, if_false]
      rw [List.find?_cons_of_neg _ (by simpa using hx)]
      exact ih h2

theorem cacheFind_cacheInsert (cache : List (Int × CACHED_DB)) (k : Int) (v : CACHED_DB) :
    cacheFind (cacheInsert cache k (some v)) k = some v := by
  unfold cacheFind cacheInsert
  simp only []
  split
  · rename_i h
    rw [cacheFind_map k v cache h]
    rfl
  · rename_i h
    have hn : cache.find? (fun x => decide (x.1 = k)) = none := by
      cases hc : cache.find? (fun x => decide (x.1 = k)) with
      | none => rfl
      | some y => rw [hc] at h; simp at h
    rw [List.find?_append, hn]
    simp

theorem or_create_rdonly (x : Nat) (h : x &&& DB_RDONLY = 0) :
    (x ||| DB_CREATE) &&& DB_RDONLY = 0 := by
  rw [Nat.and_distrib_right, h]
  rfl

theorem or_create_create (x : Nat) : (x ||| DB_CREATE) &&& DB_CREATE ≠ 0 := by
  rw [Nat.and_distrib_right]
  intro h
  have := congrArg (fun n => Nat.testBit n 0) h
  simp [DB_CREATE] at this

/-- The environment part of `btreeOpenEnvironment` on a database that is not
named succeeds when no fault is scripted, and writes only the environment
fields. -/
theorem btreeOpenEnvironment_env_ok (w : World) (p : Nat) (hf : w.faults = []) :
    (btreeOpenEnvironment_env w p).1 = 0 ∧
    (btreeOpenEnvironment_env w p).2.2.faults = [] ∧
    (btreeOpenEnvironment_env w p).2.2.btrees = w.btrees ∧
    (btreeOpenEnvironment_env w p).2.2.cursors = w.cursors ∧
    (btreeOpenEnvironment_env w p).2.2.dbhs = w.dbhs ∧
    (btreeOpenEnvironment_env w p).2.2.tables = w.tables ∧
    ∃ de eo, (btreeOpenEnvironment_env w p).2.2.shared (w.btAddr p)
      = { w.shared (w.btAddr p) with dbenv := de, env_opened := eo } := by
  unfold btreeOpenEnvironment_env
  cases hg : w.g_tmp_env with
  | some g =>
    cases hd : (w.shared (w.btAddr p)).dbenv with
    | some e =>
      simp only [hd, env_close, engine_nofault w hf, World.log]
      simp [World.setShared, hf]
    | none =>
      simp only [hd]
      simp [World.setShared, hf]
  | none =>
    cases heo : (w.shared (w.btAddr p)).env_opened with
    | true =>
      simp only [heo, Bool.not_true, Bool.false_eq_true, if_false]
      exact ⟨trivial, hf, trivial, trivial, trivial, trivial, (w.shared (w.btAddr p)).dbenv, true,
        by rw [← heo]⟩
    | false =>
      simp only [heo, env_open, engine_nofault w hf]
      simp [World.setShared, hf]

/-- Creating the handle of the master table of a temporary database whose
results buffer is off: a new handle is opened on a new, empty table, and
takes the place of the cache entry of the table. -/
theorem btreeCreateDataTable_tmp (v : World) (p : Nat) (hf : v.faults = [])
    (hst : (v.shared (v.btAddr p)).dbStorage = DB_STORE_TMP)
    (hrb : (v.shared (v.btAddr p)).resultsBuffer = false)
    (hcr : (v.shared (v.btAddr p)).db_oflags &&& DB_CREATE ≠ 0) :
    (btreeCreateDataTable v p 1 false).1 = SQLITE_OK ∧
    (btreeCreateDataTable v p 1 false).2.faults = [] ∧
    (btreeCreateDataTable v p 1 false).2.cursors = v.cursors ∧
    (btreeCreateDataTable v p 1 false).2.btrees p
      = { v.btrees p with cached_dbs := (v.btrees p).cached_dbs + 1 } ∧
    (btreeCreateDataTable v p 1 false).2.shared (v.btAddr p)
      = { v.shared (v.btAddr p) with
          db_cache := cacheInsert (v.shared (v.btAddr p)).db_cache 1
            (some { dbp := some v.handles, flags := BTREE_INTKEY, created := true }) } ∧
    ((btreeCreateDataTable v p 1 false).2.dbhs v.handles).general = false ∧
    (btreeCreateDataTable v p 1 false).2.tables
      ((btreeCreateDataTable v p 1 false).2.dbhs v.handles).tid = [] := by
  have hbk : ¬ (BTREE_INTKEY = 0) := by decide
  have hst2 : (v.shared ((v.btrees p).pBt.getD 0)).dbStorage = DB_STORE_TMP := hst
  have hrb2 : (v.shared ((v.btrees p).pBt.getD 0)).resultsBuffer = false := hrb
  have hcr2 : (v.shared ((v.btrees p).pBt.getD 0)).db_oflags &&& DB_CREATE ≠ 0 := hcr
  unfold btreeCreateDataTable btreeCreateDataTable_handle btreeCreateDataTable_open
  simp [db_create, World.engine, hf, db_open, GET_TABLENAME, hst2, hrb2, hcr2, hbk, World.btAddr,
    btreeCreateDataTable_err, GET_DURABLE, World.setShared, World.setBtree, World.setDbh]

theorem btreeCreateTable_iTable :
    (if (BTREE_INTKEY ||| BTREE_LEAFDATA) &&& BTREE_INTKEY ≠ 0 then
        if wrap32 (0 + 1) % 2 = 0 then wrap32 (wrap32 (0 + 1) + 1) else wrap32 (0 + 1)
      else if wrap32 (0 + 1) % 2 = 1 then wrap32 (wrap32 (0 + 1) + 1) else wrap32 (0 + 1))
      = 1 := by decide

/-- Creating the first table of a temporary database whose results buffer is
off: it is the master table, on a new handle that is open on a new, empty
table. -/
theorem btreeCreateTable_tmp (v : World) (p : Nat) (hf : v.faults = [])
    (hst : (v.shared (v.btAddr p)).dbStorage = DB_STORE_TMP)
    (hrb : (v.shared (v.btAddr p)).resultsBuffer = false)
    (hcr : (v.shared (v.btAddr p)).db_oflags &&& DB_CREATE ≠ 0)
    (hlt : (v.shared (v.btAddr p)).last_table = 0) :
    (btreeCreateTable v p (BTREE_INTKEY ||| BTREE_LEAFDATA)).1 = SQLITE_OK ∧
    (btreeCreateTable v p (BTREE_INTKEY ||| BTREE_LEAFDATA)).2.2.faults = [] ∧
    (btreeCreateTable v p (BTREE_INTKEY ||| BTREE_LEAFDATA)).2.2.cursors = v.cursors ∧
    (btreeCreateTable v p (BTREE_INTKEY ||| BTREE_LEAFDATA)).2.2.btrees p
      = { v.btrees p with cached_dbs := (v.btrees p).cached_dbs + 1 } ∧
    (btreeCreateTable v p (BTREE_INTKEY ||| BTREE_LEAFDATA)).2.2.shared (v.btAddr p)
      = { v.shared (v.btAddr p) with
          db_cache := cacheInsert (v.shared (v.btAddr p)).db_cache 1
            (some { dbp := some v.handles, flags := BTREE_INTKEY, created := true }),
          last_table := 1 } ∧
    ((btreeCreateTable v p (BTREE_INTKEY ||| BTREE_LEAFDATA)).2.2.dbhs v.handles).general
      = false ∧
    (btreeCreateTable v p (BTREE_INTKEY ||| BTREE_LEAFDATA)).2.2.tables
      ((btreeCreateTable v p (BTREE_INTKEY ||| BTREE_LEAFDATA)).2.2.dbhs v.handles).tid = [] := by
  obtain ⟨c1, c2, c3, c4, c5, c6, c7⟩ := btreeCreateDataTable_tmp v p hf hst hrb hcr
  have hnn : (v.shared (v.btAddr p)).dbStorage ≠ DB_STORE_NAMED := by rw [hst]; decide
  have hm : btreeCreateTable v p (BTREE_INTKEY ||| BTREE_LEAFDATA)
      = (SQLITE_OK, some 1, (btreeCreateDataTable v p 1 false).2.setShared (v.btAddr p)
          { (btreeCreateDataTable v p 1 false).2.shared (v.btAddr p) with last_table := 1 }) := by
    unfold btreeCreateTable btreeCreateTable_last
    simp only [hnn, if_false, hlt, ne_eq, not_true_eq_false]
    rw [btreeCreateTable_iTable]
    simp only [c1, if_true]
    rfl
  rw [hm]
  generalize btreeCreateDataTable v p 1 false = R at c1 c2 c3 c4 c5 c6 c7
  refine ⟨rfl, ?_, ?_, ?_, ?_, ?_, ?_⟩
  · simpa using c2
  · simpa using c3
  · simpa using c4
  · simp [c5]
  · simpa using c6
  · simpa using c7

theorem btreeOpenEnvironment_flags_tmp (v : World) (p : Nat)
    (hro : (v.shared (v.btAddr p)).db_oflags &&& DB_RDONLY = 0)
    (hvr : (v.btrees p).vfsFlags &&& SQLITE_OPEN_READONLY = 0)
    (hvc : (v.btrees p).vfsFlags &&& SQLITE_OPEN_CREATE ≠ 0) :
    btreeOpenEnvironment_flags v p
      = (v.setBtree p { v.btrees p with connected := true }).setShared (v.btAddr p)
          { v.shared (v.btAddr p) with
            db_oflags := (v.shared (v.btAddr p)).db_oflags ||| DB_CREATE } := by
  unfold btreeOpenEnvironment_flags
  simp [hro, hvr, hvc]

/-- Opening the environment of a temporary database whose results buffer is
off: the connection is connected, and the master table is created, empty, on
a new handle. -/
theorem btreeOpenEnvironment_tmp (ops : EnvOps) (w : World) (p : Nat) (nl : Bool)
    (h : w.tmpClosed p) :
    ∃ hd, (btreeOpenEnvironment ops w p nl).1 = SQLITE_OK ∧
      (btreeOpenEnvironment ops w p nl).2.tmpOpen p hd ∧
      (btreeOpenEnvironment ops w p nl).2.cursors = w.cursors ∧
      ((btreeOpenEnvironment ops w p nl).2.bt p).cursors = (w.bt p).cursors ∧
      ((btreeOpenEnvironment ops w p nl).2.btrees p).pBt = (w.btrees p).pBt := by
  obtain ⟨hf, hst, htr, hrb, hro, hlt, hcn, hsl, hvr, hvc⟩ := h
  have hnn : ¬ ((w.bt p).dbStorage = DB_STORE_NAMED) := by rw [hst]; decide
  obtain ⟨e1, e2, e3, e4, e5, e6, de, eo, e7⟩ := btreeOpenEnvironment_env_ok w p hf
  generalize hE : btreeOpenEnvironment_env w p = E at e1 e2 e3 e4 e5 e6 e7
  have ha : E.2.2.btAddr p = w.btAddr p := by
    unfold World.btAddr
    rw [e3]
  have hfl := btreeOpenEnvironment_flags_tmp E.2.2 p
    (by rw [ha, e7]; exact hro) (by rw [e3]; exact hvr) (by rw [e3]; exact hvc)
  rw [ha, e3, e7] at hfl
  generalize hv : btreeOpenEnvironment_flags E.2.2 p = v at hfl
  have hva : v.btAddr p = w.btAddr p := by
    rw [hfl]
    unfold World.btAddr
    simp
  have hvs : v.shared (w.btAddr p) = { w.shared (w.btAddr p) with
      dbenv := de, env_opened := eo,
      db_oflags := (w.shared (w.btAddr p)).db_oflags ||| DB_CREATE } := by
    rw [hfl]
    simp
  have hvb : v.btrees p = { w.btrees p with connected := true } := by
    rw [hfl]
    simp
  have hvf : v.faults = [] := by rw [hfl]; simpa using e2
  have hvc2 : v.cursors = w.cursors := by rw [hfl]; simpa using e4
  obtain ⟨c1, c2, c3, c4, c5, c6, c7⟩ := btreeCreateTable_tmp v p hvf
    (by rw [hva, hvs]; exact hst) (by rw [hva, hvs]; exact hrb)
    (by rw [hva, hvs]; exact or_create_create _) (by rw [hva, hvs]; exact hlt)
  rw [hva, hvs] at c5
  rw [hvb] at c4
  generalize hC : btreeCreateTable v p (BTREE_INTKEY ||| BTREE_LEAFDATA) = C at c1 c2 c3 c4 c5 c6 c7
  have htx : btreeOpenEnvironment_txn ops C.2.2 p E.2.1 = (SQLITE_OK, false, C.2.2) := by
    unfold btreeOpenEnvironment_txn
    have h1 : (C.2.2.bt p).transactional = false := by
      unfold World.bt
      rw [c4]
      simp only []
      rw [show (w.btrees p).pBt.getD 0 = w.btAddr p from rfl, c5]
      exact htr
    have h2 : (C.2.2.btrees p).schemaLockMode = LOCKMODE_NONE := by
      rw [c4]
      exact hsl
    simp [h1, h2]
  have hm : btreeOpenEnvironment ops w p nl = (SQLITE_OK, C.2.2) := by
    unfold btreeOpenEnvironment
    rw [if_neg hnn]
    simp only [hE, e1, hv, hC, c1, htx, ne_eq, not_true_eq_false, if_false, Bool.false_eq_true]
  rw [hm]
  refine ⟨v.handles, rfl, ⟨c2, ?_, ?_, ?_, ?_, c6, c7⟩, ?_, ?_, ?_⟩
  · rw [c4]
  · unfold World.bt
    rw [c4]
    simp only []
    rw [show (w.btrees p).pBt.getD 0 = w.btAddr p from rfl, c5]
    exact hrb
  · unfold World.bt
    rw [c4]
    simp only []
    rw [show (w.btrees p).pBt.getD 0 = w.btAddr p from rfl, c5]
    exact or_create_rdonly _ hro
  · unfold World.bt
    rw [c4]
    simp only []
    rw [show (w.btrees p).pBt.getD 0 = w.btAddr p from rfl, c5]
    exact cacheFind_cacheInsert _ _ _
  · simp only []
    rw [c3, hvc2]
  · unfold World.bt
    simp only []
    rw [c4]
    simp only []
    rw [show (w.btrees p).pBt.getD 0 = w.btAddr p from rfl, c5]
  · simp only []
    rw [c4]

/-- Preparing the environment of a temporary database whose results buffer
is off: the environment handle is created, or, when the process has an
environment for its temporary databases already, the database is connected
to it. -/
theorem btreePrepareEnvironment_tmp (ops : EnvOps) (w : World) (p : Nat) (h : w.tmpClosed p) :
    (btreePrepareEnvironment ops w p).1 = SQLITE_OK ∧
    (btreePrepareEnvironment ops w p).2.cursors = w.cursors ∧
    ((btreePrepareEnvironment ops w p).2.bt p).cursors = (w.bt p).cursors ∧
    ((btreePrepareEnvironment ops w p).2.btrees p).pBt = (w.btrees p).pBt ∧
    ((btreePrepareEnvironment ops w p).2.tmpClosed p ∨
      ∃ hd, (btreePrepareEnvironment ops w p).2.tmpOpen p hd) := by
  have hnn : ¬ ((w.bt p).dbStorage = DB_STORE_NAMED) := by rw [h.2.1]; decide
  unfold btreePrepareEnvironment
  rw [if_neg hnn]
  cases hg : w.g_tmp_env with
  | none =>
    obtain ⟨hf, hst, htr, hrb, hro, hlt, hcn, hsl, hvr, hvc⟩ := h
    simp only [if_true, db_env_create, engine_nofault w hf, ne_eq, not_true_eq_false, if_false]
    refine ⟨by decide, by simp, ?_, by simp, Or.inl ⟨by simpa using hf, ?_, ?_, ?_, ?_, ?_,
      by simpa using hcn, by simpa using hsl, by simpa using hvr, by simpa using hvc⟩⟩
    · unfold World.bt World.btAddr
      simp
    · unfold World.bt at hst ⊢
      unfold World.btAddr
      simpa using hst
    · unfold World.bt at htr ⊢
      unfold World.btAddr
      simpa using htr
    · unfold World.bt at hrb ⊢
      unfold World.btAddr
      simpa using hrb
    · unfold World.bt at hro ⊢
      unfold World.btAddr
      simpa using hro
    · unfold World.bt at hlt ⊢
      unfold World.btAddr
      simpa using hlt
  | some g =>
    obtain ⟨hd, o1, o2, o3, o4, o5⟩ := btreeOpenEnvironment_tmp ops w p false h
    simp only [reduceCtorEq, if_false]
    exact ⟨o1, o3, o4, o5, Or.inr ⟨hd, o2⟩⟩

/-- Opening the write cursor `c` on the master table of a connected temporary
database whose results buffer is off: the cursor is on the empty table of the
cached handle, through a new engine cursor. -/
theorem sqlite3BtreeCursor_tmpOpen (ops : EnvOps) (w : World) (p hd c : Nat)
    (h : w.tmpOpen p hd) :
    (sqlite3BtreeCursor ops w p MASTER_ROOT true c).1 = SQLITE_OK ∧
    ∃ d, (sqlite3BtreeCursor ops w p MASTER_ROOT true c).2.onTable c d [] ∧
      ((sqlite3BtreeCursor ops w p MASTER_ROOT true c).2.dbcs d).dbp
        = ((sqlite3BtreeCursor ops w p MASTER_ROOT true c).2.cursors c).db ∧
      ((sqlite3BtreeCursor ops w p MASTER_ROOT true c).2.bt p).cursors = c :: (w.bt p).cursors ∧
      (sqlite3BtreeCursor ops w p MASTER_ROOT true c).2.cursors c
        = { w.cursors c with
            pBtree := some p, tableIndex := MASTER_ROOT, db := hd, flags := BTREE_INTKEY,
            txn := (w.btrees p).savepoint_txn, dbc := some d, skipMulti := true,
            multiData := none, wrFlag := true, eState := CURSOR_INVALID, lastRes := 0 } := by
  obtain ⟨hf, hcn, hrb, hro, hca, hg, ht⟩ := h
  unfold World.bt at hrb hro hca
  have hm : sqlite3BtreeCursor ops w p MASTER_ROOT true c
      = (SQLITE_OK,
          (({ w.setCursor c { w.cursors c with
                pBtree := some p, tableIndex := MASTER_ROOT, db := hd, flags := BTREE_INTKEY,
                txn := (w.btrees p).savepoint_txn } with
              handles := w.handles + 1,
              dbcs := Function.update w.dbcs w.handles
                ({ dbp := hd, txn := (w.btrees p).savepoint_txn, pos := none } : DBC) }
            : World).setCursor c { w.cursors c with
              pBtree := some p, tableIndex := MASTER_ROOT, db := hd, flags := BTREE_INTKEY,
              txn := (w.btrees p).savepoint_txn, dbc := some w.handles, skipMulti := true,
              multiData := none, wrFlag := true, eState := CURSOR_INVALID,
              lastRes := 0 }).setShared ((w.btrees p).pBt.getD 0)
            { w.shared ((w.btrees p).pBt.getD 0) with
              cursors := c :: (w.shared ((w.btrees p).pBt.getD 0)).cursors }) := by
    unfold sqlite3BtreeCursor sqlite3BtreeCursor_open
    simp [World.bt, World.btAddr, hcn, hrb, hro, hca, db_cursor, World.engine, hf,
      World.setCursor, World.setShared]
  rw [hm]
  refine ⟨rfl, w.handles, ⟨?_, ?_, ?_, ?_, ?_, ?_, List.Pairwise.nil, by simp⟩, ?_, ?_, ?_⟩
  · simp [hf]
  · simp
  · simp [BtCursor.intKey, BTREE_INTKEY]
  · unfold World.isBuffer World.bt
    simp [hrb]
  · simp [hg]
  · simp [ht, rowsOf]
  · simp
  · unfold World.bt
    simp
  · simp

/-- Opening a cursor on a temporary database that is not connected yet (its
results buffer being off) opens the environment first, and then goes on as on
the connected database. -/
theorem sqlite3BtreeCursor_tmpClosed (ops : EnvOps) (w : World) (p c : Nat)
    (h : w.tmpClosed p) :
    sqlite3BtreeCursor (EnvOps.tmp ops) w p MASTER_ROOT true c
      = sqlite3BtreeCursor (EnvOps.tmp ops) (btreeOpenEnvironment ops w p true).2 p
          MASTER_ROOT true c := by
  obtain ⟨hd, o1, o2, o3, o4, o5⟩ := btreeOpenEnvironment_tmp ops w p true h
  obtain ⟨hf, hst, htr, hrb, hro, hlt, hcn, hsl, hvr, hvc⟩ := h
  have hcB := o2.2.1
  have hst2 : ¬ (w.bt p).dbStorage ≠ DB_STORE_TMP := by rw [hst]; simp
  unfold sqlite3BtreeCursor
  simp only [EnvOps.tmp]
  generalize btreeOpenEnvironment ops w p true = B at o1 hcB
  simp only [hcn, hrb, hcB, hst2, o1, Bool.not_false, Bool.not_true, Bool.false_eq_true,
    false_and, and_false, and_true, true_and, and_self, if_false, if_true, ne_eq,
    not_true_eq_false, not_false_eq_true]

/-! ## Loading the bulk buffer into a table -/

theorem btreeCloseCursor_nodbc (v : World) (c p : Nat) (hd : (v.cursors c).dbc = none)
    (hp : (v.cursors c).pBtree = some p) :
    (btreeCloseCursor v c true).1 = SQLITE_OK ∧
    (btreeCloseCursor v c true).2.faults = v.faults ∧
    (btreeCloseCursor v c true).2.btrees = v.btrees ∧
    (btreeCloseCursor v c true).2.shared (v.btAddr p)
      = { v.shared (v.btAddr p) with cursors := (v.shared (v.btAddr p)).cursors.erase c } ∧
    (btreeCloseCursor v c true).2.cursors c
      = { v.cursors c with
          eState := CURSOR_INVALID,
          key := if (v.cursors c).key.appmalloc
            then { (v.cursors c).key with data := none, appmalloc := false }
            else (v.cursors c).key,
          multiData := none, pBtree := none } := by
  unfold btreeCloseCursor
  simp [hd, hp]

theorem db_put_multiple_empty (v : World) (h : Nat) (l : List (Int × List Nat))
    (hf : v.faults = []) (hg : (v.dbhs h).general = false) (ht : v.tables (v.dbhs h).tid = [])
    (hok : ∀ x ∈ l, keyOk x.1) :
    (db_put_multiple v h (rowsOf l)).1 = 0 ∧
    (db_put_multiple v h (rowsOf l)).2.faults = [] ∧
    (db_put_multiple v h (rowsOf l)).2.cursors = v.cursors ∧
    (db_put_multiple v h (rowsOf l)).2.shared = v.shared ∧
    (db_put_multiple v h (rowsOf l)).2.btrees = v.btrees ∧
    (db_put_multiple v h (rowsOf l)).2.dbhs = v.dbhs ∧
    (db_put_multiple v h (rowsOf l)).2.dbcs = v.dbcs ∧
    (db_put_multiple v h (rowsOf l)).2.tables (v.dbhs h).tid = rowsOf (tableOf l) := by
  have hlt : v.keyLt h = bytesLt := by
    unfold World.keyLt
    rw [hg]
    rfl
  unfold db_put_multiple
  simp only [engine_nofault v hf, ne_eq, not_true_eq_false, if_false, hlt, ht]
  refine ⟨trivial, hf, trivial, trivial, trivial, trivial, trivial, ?_⟩
  simp only [Function.update_same]
  exact putRows_rowsOf l hok

theorem tableOf_nodup (l : List (Int × List Nat)) : ((tableOf l).map Prod.fst).Nodup := by
  have hs := tableOf_sorted l
  unfold keySorted at hs
  rw [List.Nodup, List.pairwise_map]
  exact hs.imp (fun h => ne_of_lt h)

theorem tableOf_tableOf (l : List (Int × List Nat)) : tableOf (tableOf l) = tableOf l :=
  tableOf_self _ (tableOf_sorted l)

/-- Loading the buffer of the cursor of a temporary database into a table:
the environment is opened, the master table is created, the cursor is
reopened on it through a new engine cursor, and the rows of the buffer are
stored in the table.  The cursor keeps its saved key, its data and its bulk
pointers. -/
theorem btreeLoadBufferIntoTable_tmp (ops : EnvOps) (w : World) (c p : Nat)
    (l : List (Int × List Nat)) (h : w.loadable c p)
    (hmd : ((w.cursors c).multiData = none ∧ l = []) ∨
      (w.cursors c).multiData = some (rowsOf l))
    (hok : ∀ x ∈ l, keyOk x.1) (hnd : (l.map Prod.fst).Nodup) :
    (btreeLoadBufferIntoTable (EnvOps.tmp ops) w c).1 = SQLITE_OK ∧
    ∃ d, (btreeLoadBufferIntoTable (EnvOps.tmp ops) w c).2.onTable c d (tableOf l) ∧
      ((btreeLoadBufferIntoTable (EnvOps.tmp ops) w c).2.cursors c).wrFlag = true ∧
      ((btreeLoadBufferIntoTable (EnvOps.tmp ops) w c).2.cursors c).pBtree = some p ∧
      ((btreeLoadBufferIntoTable (EnvOps.tmp ops) w c).2.bt p).cursors = [c] ∧
      ((btreeLoadBufferIntoTable (EnvOps.tmp ops) w c).2.cursors c).lastRes = 0 ∧
      ((btreeLoadBufferIntoTable (EnvOps.tmp ops) w c).2.cursors c).eState = CURSOR_INVALID ∧
      ((btreeLoadBufferIntoTable (EnvOps.tmp ops) w c).2.cursors c).multiGetPtr
        = (w.cursors c).multiGetPtr ∧
      ((btreeLoadBufferIntoTable (EnvOps.tmp ops) w c).2.cursors c).multiPutPtr
        = (w.cursors c).multiPutPtr ∧
      ((btreeLoadBufferIntoTable (EnvOps.tmp ops) w c).2.cursors c).savedIntKey
        = (w.cursors c).savedIntKey ∧
      ((btreeLoadBufferIntoTable (EnvOps.tmp ops) w c).2.cursors c).data = (w.cursors c).data ∧
      ((w.cursors c).key.appmalloc = false →
        ((btreeLoadBufferIntoTable (EnvOps.tmp ops) w c).2.cursors c).key
          = (w.cursors c).key) := by
  obtain ⟨hf, hp, hst, htr, hro, hlt, hl, hcn, hsl, hvr, hvc, hdbc⟩ := h
  unfold World.bt at hst htr hro hlt hl
  rw [show (w.btrees p).pBt.getD 0 = w.btAddr p from rfl] at hst htr hro hlt hl
  -- the cursor is closed
  generalize hw1 : (w.setCursor c { w.cursors c with multiData := none }).setShared (w.btAddr p)
    { w.shared (w.btAddr p) with resultsBuffer := false } = w1
  have h1c : w1.cursors c = { w.cursors c with multiData := none } := by rw [← hw1]; simp
  have h1s : w1.shared (w.btAddr p) = { w.shared (w.btAddr p) with resultsBuffer := false } := by
    rw [← hw1]; simp
  have h1b : w1.btrees = w.btrees := by rw [← hw1]; simp
  have h1f : w1.faults = [] := by rw [← hw1]; simpa using hf
  have h1a : w1.btAddr p = w.btAddr p := by unfold World.btAddr; rw [h1b]
  obtain ⟨k1, k2, k3, k4, k5⟩ := btreeCloseCursor_nodbc w1 c p (by rw [h1c]; exact hdbc)
    (by rw [h1c]; exact hp)
  rw [h1a, h1s] at k4
  rw [h1c] at k5
  rw [h1f] at k2
  rw [h1b] at k3
  generalize hR1 : btreeCloseCursor w1 c true = R1 at k1 k2 k3 k4 k5
  have hR1a : R1.2.btAddr p = w.btAddr p := by unfold World.btAddr; rw [k3]
  have hR1closed : R1.2.tmpClosed p := by
    unfold World.tmpClosed World.bt
    rw [show (R1.2.btrees p).pBt.getD 0 = R1.2.btAddr p from rfl, hR1a, k4, k3]
    exact ⟨k2, hst, htr, rfl, hro, hlt, hcn, hsl, hvr, hvc⟩
  have hR1l : (R1.2.bt p).cursors = [] := by
    unfold World.bt
    rw [show (R1.2.btrees p).pBt.getD 0 = R1.2.btAddr p from rfl, hR1a, k4]
    simp [hl]
  -- the environment is prepared
  have hprep : ∃ R2, (if (R1.2.shared (w.btAddr p)).dbenv = none
        then (EnvOps.tmp ops).btreePrepareEnvironment R1.2 p else (SQLITE_OK, R1.2)) = R2 ∧
      R2.1 = SQLITE_OK ∧ R2.2.cursors = R1.2.cursors ∧ (R2.2.bt p).cursors = [] ∧
      (R2.2.tmpClosed p ∨ ∃ hd, R2.2.tmpOpen p hd) := by
    by_cases he : (R1.2.shared (w.btAddr p)).dbenv = none
    · rw [if_pos he]
      obtain ⟨a1, a2, a3, a4, a5⟩ := btreePrepareEnvironment_tmp ops R1.2 p hR1closed
      exact ⟨_, rfl, a1, a2, by rw [← hR1l]; exact a3, a5⟩
    · rw [if_neg he]
      exact ⟨_, rfl, rfl, rfl, hR1l, Or.inl hR1closed⟩
  obtain ⟨R2, hR2, q1, q2, q3, q4⟩ := hprep
  -- the cursor is opened again
  have hopen : ∃ V hd, V.tmpOpen p hd ∧ V.cursors = R2.2.cursors ∧ (V.bt p).cursors = [] ∧
      sqlite3BtreeCursor (EnvOps.tmp ops) R2.2 p MASTER_ROOT true c
        = sqlite3BtreeCursor (EnvOps.tmp ops) V p MASTER_ROOT true c := by
    rcases q4 with hc | ⟨hd, ho⟩
    · obtain ⟨hd, o1, o2, o3, o4, o5⟩ := btreeOpenEnvironment_tmp ops R2.2 p true hc
      exact ⟨_, hd, o2, o3, by rw [o4]; exact q3, sqlite3BtreeCursor_tmpClosed ops R2.2 p c hc⟩
    · exact ⟨R2.2, hd, ho, rfl, q3, rfl⟩
  obtain ⟨V, hd, hV, hVc, hVl, hVeq⟩ := hopen
  obtain ⟨r1, d, r2, r3, r4, r5⟩ := sqlite3BtreeCursor_tmpOpen (EnvOps.tmp ops) V p hd c hV
  rw [← hVeq] at r1 r2 r3 r4 r5
  rw [hVl] at r4
  rw [hVc, q2, k5] at r5
  generalize hR3 : sqlite3BtreeCursor (EnvOps.tmp ops) R2.2 p MASTER_ROOT true c = R3
    at r1 r2 r3 r4 r5
  have hR3e : (R3.2.cursors c).eState ≠ CURSOR_FAULT := by rw [r5]; simp
  have hR3b : (R3.2.cursors c).pBtree = some p := by rw [r5]
  have hR3bf : R3.2.isBuffer c = false := r2.2.2.2.1
  have hpp : (w.cursors c).pBtree.getD 0 = p := by rw [hp]; rfl
  unfold btreeLoadBufferIntoTable
  simp only [hpp, hw1, hR1, k1, hR2, q1, hR3, r1, hR3e, ne_eq,
    not_true_eq_false, if_false]
  rcases hmd with ⟨hmd, hl0⟩ | hmd
  · subst hl0
    simp only [hmd]
    refine ⟨by decide, d, ?_, ?_, ?_, ?_, ?_, ?_, ?_, ?_, ?_, ?_, ?_⟩
    · exact onTable_setCursor _ c d _ _ r2 (by simp [r5]) (by simp) (by simp)
    · simp [r5]
    · simp [r5]
    · unfold World.bt
      simpa [World.bt] using r4
    · simp [r5]
    · simp [r5]
    · simp [r5]
    · simp [r5]
    · simp [r5]
    · simp [r5]
    · intro hap
      simp [r5, hap]
  · simp only [hmd]
    generalize hw3 : R3.2.setCursor c { R3.2.cursors c with multiData := some (rowsOf l) } = w3
    have f3 : w3.faults = [] := by rw [← hw3]; simpa using r2.1
    simp only [engine_nofault w3 f3, ne_eq, not_true_eq_false, if_false]
    have hdb : (w3.cursors c).db = (R3.2.dbcs d).dbp := by rw [← hw3, r3]; simp
    have hg3 : (w3.dbhs (w3.cursors c).db).general = false := by
      rw [hdb, ← hw3]
      simpa using r2.2.2.2.2.1
    have hkl : w3.keyLt (w3.cursors c).db = bytesLt := by
      unfold World.keyLt
      rw [hg3]
      rfl
    simp only [hkl, sortRows_rowsOf l hok hnd]
    generalize hw4 : w3.setCursor c { w3.cursors c with multiData := some (rowsOf (tableOf l)) }
      = w4
    have f4 : w4.faults = [] := by rw [← hw4]; simpa using f3
    have hd4 : w4.dbhs = R3.2.dbhs := by rw [← hw4, ← hw3]; simp
    have ht4 : w4.tables = R3.2.tables := by rw [← hw4, ← hw3]; simp
    have hdc4 : w4.dbcs = R3.2.dbcs := by rw [← hw4, ← hw3]; simp
    have hs4 : w4.shared = R3.2.shared := by rw [← hw4, ← hw3]; simp
    have hb4 : w4.btrees = R3.2.btrees := by rw [← hw4, ← hw3]; simp
    have hc4 : w4.cursors c = { R3.2.cursors c with multiData := some (rowsOf (tableOf l)) } := by
      rw [← hw4, ← hw3]; simp
    have g4 : (w4.dbhs (w3.cursors c).db).general = false := by
      rw [hd4, hdb]
      exact r2.2.2.2.2.1
    have t4 : w4.tables (w4.dbhs (w3.cursors c).db).tid = [] := by
      rw [hd4, ht4, hdb]
      exact r2.2.2.2.2.2.1
    obtain ⟨m1, m2, m3, m4, m5, m6, m7, m8⟩ := db_put_multiple_empty w4 (w3.cursors c).db
      (tableOf l) f4 g4 t4 (tableOf_keyOk l hok)
    generalize db_put_multiple w4 (w3.cursors c).db (rowsOf (tableOf l)) = R5
      at m1 m2 m3 m4 m5 m6 m7 m8
    rw [tableOf_tableOf, hd4, hdb] at m8
    have hc5 : R5.2.cursors c = { R3.2.cursors c with multiData := some (rowsOf (tableOf l)) } := by
      rw [m3, hc4]
    rw [m1]
    refine ⟨by decide, d, ⟨m2, ?_, ?_, ?_, ?_, ?_, tableOf_sorted l, tableOf_keyOk l hok⟩,
      ?_, ?_, ?_, ?_, ?_, ?_, ?_, ?_, ?_, ?_⟩
    · simp [hc5, r5]
    · simp [hc5, r5, BtCursor.intKey, BTREE_INTKEY]
    · unfold World.isBuffer World.bt at hR3bf ⊢
      simp only [hc5, m4, hs4, m5, hb4]
      exact hR3bf
    · simp only [m6, m7, hd4, hdc4]
      exact r2.2.2.2.2.1
    · simp only [m6, m7, hd4, hdc4]
      exact m8
    · simp [hc5, r5]
    · simp [hc5, r5]
    · unfold World.bt at r4 ⊢
      simp only [m4, hs4, m5, hb4]
      exact r4
    · simp [hc5, r5]
    · simp [hc5, r5]
    · simp [hc5, r5]
    · simp [hc5, r5]
    · simp [hc5, r5]
    · simp [hc5, r5]
    · intro hap
      simp [hc5, r5, hap]

/-! ## Inserting through a buffered cursor -/

theorem loadable_setCursor (w : World) (c p : Nat) (cur : BtCursor) (h : w.loadable c p)
    (h1 : cur.pBtree = (w.cursors c).pBtree) (h2 : cur.dbc = (w.cursors c).dbc) :
    (w.setCursor c cur).loadable c p := by
  obtain ⟨hf, hp, hst, htr, hro, hlt, hl, hcn, hsl, hvr, hvc, hdbc⟩ := h
  refine ⟨hf, ?_, hst, htr, hro, hlt, hl, hcn, hsl, hvr, hvc, ?_⟩
  · rw [setCursor_cursors_same, h1]; exact hp
  · rw [setCursor_cursors_same, h2]; exact hdbc

theorem rowsOf_snoc (rows0 : List (Int × List Nat)) (k : Int) (v : List Nat) :
    rowsOf (rows0 ++ [(k, v)]) = rowsOf rows0 ++ [(encKey k, v)] := by
  simp [rowsOf]

/-- What the buffered write of `sqlite3BtreeInsert` does to the cursor whose
buffer holds the rows `rows0`: the new row is appended when it fits, and the
buffer is closed for appending when it does not. -/
theorem sqlite3BtreeInsert_buffer_rows (cap : Nat) (cur1 : BtCursor)
    (rows0 : List (Int × List Nat)) (k : Int) (v : List Nat)
    (hk : cur1.key.data = some (encKey k)) (hv : cur1.data.data = some v)
    (hmd : (rows0 = [] ∧ cur1.multiData = none ∧ cur1.multiPutPtr = none) ∨
      (cur1.multiData = some (rowsOf rows0) ∧ cur1.multiPutPtr = some ())) :
    sqlite3BtreeInsert_buffer cap cur1 0
        = { cur1 with multiData := some (rowsOf (rows0 ++ [(k, v)])), multiPutPtr := some () } ∨
    sqlite3BtreeInsert_buffer cap cur1 0
        = { cur1 with multiData := some (rowsOf rows0), multiPutPtr := none } := by
  unfold sqlite3BtreeInsert_buffer multipleKeyWriteNext
  rcases hmd with ⟨h0, h1, h2⟩ | ⟨h1, h2⟩
  · subst h0
    by_cases hfit : recordCost (encKey k, v) + 4 ≤ cap
    · left
      simp [h1, hk, hv, hfit, rowsOf]
    · right
      simp [h1, hk, hv, hfit, rowsOf]
  · by_cases hfit : ((rowsOf rows0).map recordCost).sum + recordCost (encKey k, v) + 4 ≤ cap
    · left
      simp [h1, h2, hk, hv, hfit, rowsOf_snoc]
    · right
      simp [h1, h2, hk, hv, hfit]

/-- Inserting a row through the buffered cursor of a temporary database: the
row is appended to the buffer when it fits; when it does not, the buffer is
loaded into the master table and the row is stored in the table. -/
theorem sqlite3BtreeInsert_buffered (ops : EnvOps) (w : World) (c : Nat)
    (rows0 : List (Int × List Nat)) (k : Int) (v : List Nat) (h : w.buffered c rows0)
    (hk : keyOk k) (hok : ∀ x ∈ rows0, keyOk x.1) (hnd : (rows0.map Prod.fst).Nodup) :
    (sqlite3BtreeInsert (EnvOps.tmp ops) w c none k v v.length 0).1 = SQLITE_OK ∧
    ((sqlite3BtreeInsert (EnvOps.tmp ops) w c none k v v.length 0).2.buffered c
        (rows0 ++ [(k, v)]) ∨
      (sqlite3BtreeInsert (EnvOps.tmp ops) w c none k v v.length 0).2.physical c
        (tableOf (rows0 ++ [(k, v)]))) := by
  obtain ⟨p, hload, hrb, hwr, hint, hgen, hes, hmd⟩ := h
  have hp := hload.2.1
  have hkey := sqlite3BtreeInsert_key_int w c k v hint
  generalize hw1 : w.setCursor c { w.cursors c with
          multiGetPtr := none, key := DBT.ofBytes (encKey k),
          data := { DBT.zero with data := some v, size := v.length } } = w1 at hkey
  have hc1 : w1.cursors c = { w.cursors c with
          multiGetPtr := none, key := DBT.ofBytes (encKey k),
          data := { DBT.zero with data := some v, size := v.length } } := by
    rw [← hw1]; simp
  have hl1 : w1.loadable c p := by
    rw [← hw1]
    exact loadable_setCursor w c p _ hload rfl rfl
  have hbuf1 : w1.isBuffer c = true := by
    rw [← hw1]
    unfold World.isBuffer
    simp only [setCursor_cursors_same, hp, Option.getD_some]
    exact hrb
  have hrb1 : (w1.bt p).resultsBuffer = true := by rw [← hw1]; exact hrb
  have hd1 : w1.dbhs = w.dbhs := by rw [← hw1]; simp
  rcases sqlite3BtreeInsert_buffer_rows w1.multiBufsize (w1.cursors c) rows0 k v
    (by rw [hc1]; rfl) (by rw [hc1]) (by rw [hc1]; exact hmd) with hb | hb
  · -- the row fits
    unfold sqlite3BtreeInsert
    rw [hkey]
    simp only [hwr, hbuf1, hb, Bool.not_true, Bool.false_eq_true, if_false, if_true,
      reduceCtorEq]
    refine ⟨by decide, Or.inl ⟨p, ?_, ?_, ?_, ?_, ?_, ?_, Or.inr ⟨?_, ?_⟩⟩⟩
    · exact loadable_setCursor _ c p _ (loadable_setCursor w1 c p _ hl1 rfl rfl) (by simp)
        (by simp)
    · exact hrb1
    · simp [hc1, hwr]
    · have := hint
      unfold BtCursor.intKey at this ⊢
      simpa [hc1] using this
    · simpa [hc1, hd1] using hgen
    · simpa [hc1] using hes
    · simp
    · simp
  · -- the row does not fit
    generalize hw2 : w1.setCursor c { w1.cursors c with
      multiData := some (rowsOf rows0), multiPutPtr := none } = w2
    have hc2 : w2.cursors c = { w1.cursors c with
        multiData := some (rowsOf rows0), multiPutPtr := none } := by
      rw [← hw2]; simp
    have hl2 : w2.loadable c p := by
      rw [← hw2]
      exact loadable_setCursor w1 c p _ hl1 rfl rfl
    obtain ⟨l1, d, l2, l3, l4, l5, l6, l7, l8, l9, l10, l11, l12⟩ :=
      btreeLoadBufferIntoTable_tmp ops w2 c p rows0 hl2 (Or.inr (by rw [hc2])) hok hnd
    have hkey2 : ((btreeLoadBufferIntoTable (EnvOps.tmp ops) w2 c).2.cursors c).key
        = DBT.ofBytes (encKey k) := by
      rw [l12 (by rw [hc2, hc1]; rfl), hc2, hc1]
    have hdata2 : ((btreeLoadBufferIntoTable (EnvOps.tmp ops) w2 c).2.cursors c).data
        = { DBT.zero with data := some v, size := v.length } := by
      rw [l11, hc2, hc1]
    have hput2 : ((btreeLoadBufferIntoTable (EnvOps.tmp ops) w2 c).2.cursors c).multiPutPtr
        = none := by
      rw [l9, hc2]
    generalize hL : btreeLoadBufferIntoTable (EnvOps.tmp ops) w2 c = L
      at l1 l2 l3 l4 l5 l6 l7 l8 l9 l10 l11 l12 hkey2 hdata2 hput2
    obtain ⟨p1, p2, p3, p4, p5⟩ := dbc_put_onTable L.2 c d (tableOf rows0) k v l2 hk
    have hins : insertData L.2 c 0 v.length = dbc_put L.2 d (encKey k) v := by
      unfold insertData
      simp only [dbc_put_opt, l2.2.1, hkey2, hdata2, DBT.ofBytes, DBT.zero, Option.getD_some]
      simp
    generalize hW : dbc_put L.2 d (encKey k) v = W at p1 p2 p3 p4 p5 hins
    unfold sqlite3BtreeInsert
    rw [hkey]
    simp only [hwr, hbuf1, hb, hw2, hL, l1, hins, p1, Bool.not_true, Bool.false_eq_true,
      if_false, if_true, ne_eq, not_true_eq_false]
    rw [tableOf_append]
    refine ⟨by decide, Or.inr ⟨d, p, ?_, ?_, ?_, ?_, ?_, ?_⟩⟩
    · exact onTable_setCursor _ c d _ _ p2 (by simp [p2.2.1]) (by simp) (by simp)
    · simp [p3, l3]
    · simp [p3, l4]
    · unfold World.bt at l5 ⊢
      simp only [setCursor_btrees, setCursor_shared, p4, p5]
      exact l5
    · simp [p3, hput2]
    · simp [p3, l6]

/-! ## Inserting a sequence of rows -/

/-- Inserting rows one at a time through the write cursor of a physical table
stores each row at its place; every insert succeeds. -/
theorem insertAll_physical (ops : EnvOps) (c : Nat) :
    ∀ (rest T : List (Int × List Nat)) (w : World), w.physical c T →
      (∀ x ∈ rest, keyOk x.1) →
      ∃ W, insertAll ops c rest w = some W ∧
        W.physical c (rest.foldl (fun acc r => insInt r acc) T) := by
  intro rest
  induction rest with
  | nil => intro T w h _; exact ⟨w, rfl, h⟩
  | cons r rest ih =>
    intro T w h hok
    obtain ⟨i1, i2⟩ := sqlite3BtreeInsert_physical ops w c T r.1 r.2 h
      (hok r (List.mem_cons_self _ _))
    obtain ⟨W, hW, hWp⟩ := ih (insInt r T) _ i2 (fun x hx => hok x (List.mem_cons_of_mem _ hx))
    refine ⟨W, ?_, hWp⟩
    unfold insertAll
    simp only [i1, if_true]
    exact hW

/-- Inserting rows with pairwise distinct keys through the buffered cursor of
a temporary database: every insert succeeds, and afterwards the rows are in
the cursor's buffer, in the order they came, or, when the buffer overflowed,
in the physical table, in key order. -/
theorem insertAll_buffered (ops : EnvOps) (c : Nat) :
    ∀ (rest rows0 : List (Int × List Nat)) (w : World),
      (w.buffered c rows0 ∨ w.physical c (tableOf rows0)) →
      (∀ x ∈ rows0 ++ rest, keyOk x.1) → ((rows0 ++ rest).map Prod.fst).Nodup →
      ∃ W, insertAll (EnvOps.tmp ops) c rest w = some W ∧
        (W.buffered c (rows0 ++ rest) ∨ W.physical c (tableOf (rows0 ++ rest))) := by
  intro rest
  induction rest with
  | nil =>
    intro rows0 w h _ _
    exact ⟨w, rfl, by simpa using h⟩
  | cons r rest ih =>
    intro rows0 w h hok hnd
    have hrk : keyOk r.1 := hok r (by simp)
    have hok0 : ∀ x ∈ rows0, keyOk x.1 := fun x hx => hok x (List.mem_append_left _ hx)
    have hnd0 : (rows0.map Prod.fst).Nodup := by
      rw [List.map_append] at hnd
      exact (List.nodup_append.mp hnd).1
    have hstep : (sqlite3BtreeInsert (EnvOps.tmp ops) w c none r.1 r.2 r.2.length 0).1
          = SQLITE_OK ∧
        ((sqlite3BtreeInsert (EnvOps.tmp ops) w c none r.1 r.2 r.2.length 0).2.buffered c
            (rows0 ++ [r]) ∨
          (sqlite3BtreeInsert (EnvOps.tmp ops) w c none r.1 r.2 r.2.length 0).2.physical c
            (tableOf (rows0 ++ [r]))) := by
      rcases h with hb | hp
      · exact sqlite3BtreeInsert_buffered ops w c rows0 r.1 r.2 hb hrk hok0 hnd0
      · obtain ⟨i1, i2⟩ := sqlite3BtreeInsert_physical (EnvOps.tmp ops) w c (tableOf rows0)
          r.1 r.2 hp hrk
        refine ⟨i1, Or.inr ?_⟩
        rw [tableOf_append]
        exact i2
    obtain ⟨i1, i2⟩ := hstep
    obtain ⟨W, hW, hWp⟩ := ih (rows0 ++ [r]) _ i2 (by simpa using hok) (by simpa using hnd)
    refine ⟨W, ?_, by simpa using hWp⟩
    unfold insertAll
    simp only [i1, if_true]
    exact hW

/-! ## Scanning through a buffered cursor -/

/-- The first part of `btreeRestoreCursorPosition` on a buffered cursor: the
buffer is loaded into a table. -/
theorem btreeRestoreOpen_buffered (ops : EnvOps) (w : World) (c : Nat) (skip : Bool)
    (hes : (w.cursors c).eState ≠ CURSOR_FAULT) (hp : (w.cursors c).pBtree ≠ none)
    (hinv : skip = true ∨ (w.cursors c).eState ≠ CURSOR_INVALID) (hbuf : w.isBuffer c = true)
    (hL : (btreeLoadBufferIntoTable ops w c).1 = SQLITE_OK) :
    btreeRestoreOpen ops w c skip
      = if skip then
          (some SQLITE_OK, (btreeLoadBufferIntoTable ops w c).2.setCursor c
            { (btreeLoadBufferIntoTable ops w c).2.cursors c with
              key := if ((btreeLoadBufferIntoTable ops w c).2.cursors c).key.appmalloc
                then { ((btreeLoadBufferIntoTable ops w c).2.cursors c).key with
                       data := none, appmalloc := false }
                else ((btreeLoadBufferIntoTable ops w c).2.cursors c).key,
              eState := CURSOR_INVALID })
        else (none, (btreeLoadBufferIntoTable ops w c).2) := by
  unfold btreeRestoreOpen
  have h2 : ¬ ((w.cursors c).pBtree = none ∨
      ((w.cursors c).eState = CURSOR_INVALID ∧ (!skip) = true)) := by
    intro h
    rcases h with h | ⟨h1, h2⟩
    · exact hp h
    · rcases hinv with h3 | h3
      · rw [h3] at h2
        simp at h2
      · exact h3 h1
  simp only [hes, if_false, h2, hbuf, if_true, hL, ne_eq, not_true_eq_false]

/-- The first `sqlite3BtreeNext` after a scan was started on the rows of the
buffer: the buffer is loaded into the master table, the cursor seeks its
saved key there, and the scan goes on in the table after it. -/
theorem sqlite3BtreeNext_buffered (ops : EnvOps) (w : World) (c p : Nat)
    (T rest : List (Int × List Nat)) (x : Int × List Nat) (hl : w.loadable c p)
    (hrb : (w.bt p).resultsBuffer = true) (hv : (w.cursors c).eState = CURSOR_VALID)
    (hsk : (w.cursors c).savedIntKey = x.1) (hmd : (w.cursors c).multiData = some (rowsOf T))
    (hT : T = x :: rest) (hs : keySorted T) (hok : ∀ y ∈ T, keyOk y.1) :
    ∃ W2 d, W2.scanAt c d T rest ∧
      sqlite3BtreeNext (EnvOps.tmp ops) w c = cursorGet W2 c DB_NEXT := by
  have hp := hl.2.1
  have hdbc := hl.2.2.2.2.2.2.2.2.2.2.2
  have hnd : (T.map Prod.fst).Nodup := by
    rw [← tableOf_self T hs]
    exact tableOf_nodup T
  obtain ⟨l1, d, l2, l3, l4, l5, l6, l7, l8, l9, l10, l11, l12⟩ :=
    btreeLoadBufferIntoTable_tmp ops w c p T hl (Or.inr hmd) hok hnd
  rw [tableOf_self T hs] at l2
  have hbuf : w.isBuffer c = true := by
    unfold World.isBuffer
    rw [hp]
    exact hrb
  have hro := btreeRestoreOpen_buffered (EnvOps.tmp ops) w c false
    (by rw [hv]; decide) (by rw [hp]; simp) (Or.inr (by rw [hv]; decide)) hbuf l1
  simp only [Bool.false_eq_true, if_false] at hro
  rw [hsk] at l10
  generalize hL : btreeLoadBufferIntoTable (EnvOps.tmp ops) w c = L
    at l1 l2 l3 l4 l5 l6 l7 l8 l9 l10 l11 l12 hro
  have hxk : keyOk x.1 := hok x (by rw [hT]; simp)
  have hint := onTable_intCursor L.2 c d T l2
  have hsel : (L.2.tables (L.2.dbhs (L.2.dbcs d).dbp).tid).find?
      (fun r => !bytesLt r.1 (encKey x.1)) = some (encKey x.1, x.2) := by
    rw [l2.2.2.2.2.2.1, hT, rowsOf_cons]
    simp [bytesLt_irrefl]
  obtain ⟨m1, m2, m3, m4, m5, m6, m7, m8, m9, m10⟩ :=
    sqlite3BtreeMovetoUnpacked_some (EnvOps.tmp ops) L.2 c d (T.map Prod.fst) x.1
      (encKey x.1, x.2) hint (by rw [l7]; intro h; exact absurd h.1 (by decide)) (Or.inl hsel)
  simp only [decodeKey_encKey x.1 hxk.1 hxk.2, if_true] at m3 m7
  generalize hM : sqlite3BtreeMovetoUnpacked (EnvOps.tmp ops) L.2 c none x.1 = M
    at m1 m2 m3 m4 m5 m6 m7 m8 m9 m10
  have hsp := keySorted_split [] rest x (by rw [← hT] at *; simpa using hs)
  refine ⟨M.2.2.setCursor c { M.2.2.cursors c with lastRes := 0 }, d, ?_, ?_⟩
  · refine ⟨onTable_setCursor _ c d T _
        ⟨m4.1, m4.2.1, m4.2.2.1, m4.2.2.2.1, m4.2.2.2.2.1, ?_, hs, hok⟩ m4.2.1 rfl rfl,
      by simpa using m6, by simp, [x], [], rest, x.1, by simpa using hT, by simp,
      by simpa using m5, hxk, ?_, hsp.2, Or.inl ⟨by simpa using m9, rfl⟩⟩
    · rw [m2]
      exact l2.2.2.2.2.2.1
    · intro r hr
      simp only [List.append_nil, List.mem_singleton] at hr
      rw [hr]
  · have hik : (L.2.cursors c).intKey = true := l2.2.2.1
    have hrest : btreeRestoreCursorPosition (EnvOps.tmp ops) w c false
        = (SQLITE_OK, M.2.2.setCursor c { M.2.2.cursors c with lastRes := 0 }) := by
      unfold btreeRestoreCursorPosition
      simp only [hro, hik, if_true, l10, hM, m1, m3, Option.getD_some]
    unfold sqlite3BtreeNext
    simp only [hdbc, ne_eq, not_true_eq_false, false_and, if_false, if_true, hrest,
      setCursor_cursors_same, gt_iff_lt, lt_self_iff_false]

/-- A scan through a buffered cursor that nothing was inserted through: the
empty table is created, and the scan reads nothing. -/
theorem scan_buffered_empty (ops : EnvOps) (w : World) (c p : Nat) (fuel : Nat)
    (hl : w.loadable c p) (hrb : (w.bt p).resultsBuffer = true)
    (hes : (w.cursors c).eState ≠ CURSOR_FAULT) (hmd : (w.cursors c).multiData = none)
    (hmp : (w.cursors c).multiPutPtr = none) :
    scan (EnvOps.tmp ops) c fuel w = some [] := by
  have hp := hl.2.1
  have hdbc := hl.2.2.2.2.2.2.2.2.2.2.2
  generalize hw1 : w.setCursor c { w.cursors c with multiGetPtr := none } = w1
  have hc1 : w1.cursors c = { w.cursors c with multiGetPtr := none } := by rw [← hw1]; simp
  have hl1 : w1.loadable c p := by
    rw [← hw1]
    exact loadable_setCursor w c p _ hl rfl rfl
  have hbuf1 : w1.isBuffer c = true := by
    rw [← hw1]
    unfold World.isBuffer
    simp only [setCursor_cursors_same, hp, Option.getD_some]
    exact hrb
  obtain ⟨l1, d, l2, l3, l4, l5, l6, l7, l8, l9, l10, l11, l12⟩ :=
    btreeLoadBufferIntoTable_tmp ops w1 c p [] hl1 (Or.inl ⟨by rw [hc1]; exact hmd, rfl⟩)
      (by simp) (by simp)
  have hro := btreeRestoreOpen_buffered (EnvOps.tmp ops) w1 c true
    (by rw [hc1]; exact hes) (by rw [hc1]; simp [hp]) (Or.inl rfl) hbuf1 l1
  simp only [if_true] at hro
  rw [hc1] at l8 l9
  generalize hL : btreeLoadBufferIntoTable (EnvOps.tmp ops) w1 c = L
    at l1 l2 l3 l4 l5 l6 l7 l8 l9 l10 l11 l12 hro
  have hrest : btreeRestoreCursorPosition (EnvOps.tmp ops) w1 c true
      = (SQLITE_OK, L.2.setCursor c { L.2.cursors c with
          key := if (L.2.cursors c).key.appmalloc
            then { (L.2.cursors c).key with data := none, appmalloc := false }
            else (L.2.cursors c).key,
          eState := CURSOR_INVALID }) := by
    unfold btreeRestoreCursorPosition
    simp only [hro]
  have hfirst := cursorGet_first_scan (L.2.setCursor c { L.2.cursors c with
          key := if (L.2.cursors c).key.appmalloc
            then { (L.2.cursors c).key with data := none, appmalloc := false }
            else (L.2.cursors c).key,
          eState := CURSOR_INVALID }) c d []
    (onTable_setCursor L.2 c d [] _ l2 l2.2.1 rfl rfl) (by simpa using l8)
    (by simp [l6])
  obtain ⟨f1, f2⟩ := hfirst.1 rfl
  have hm : sqlite3BtreeFirst (EnvOps.tmp ops) w c
      = cursorGet (L.2.setCursor c { L.2.cursors c with
          key := if (L.2.cursors c).key.appmalloc
            then { (L.2.cursors c).key with data := none, appmalloc := false }
            else (L.2.cursors c).key,
          eState := CURSOR_INVALID }) c DB_FIRST := by
    unfold sqlite3BtreeFirst
    simp only [hw1]
    simp only [hmp, ne_eq, not_true_eq_false, if_false, hdbc, if_true, hrest]
  unfold scan
  rw [hm]
  simp [f1, f2]

/-- The function `sqlite3BtreeFirst` on a buffered cursor whose buffer is
open for appending: the buffer is sorted, and the cursor reads from it. -/
theorem sqlite3BtreeFirst_buffered (ops : EnvOps) (w : World) (c : Nat)
    (rows : List (Int × List Nat)) (hes : (w.cursors c).eState ≠ CURSOR_FAULT)
    (hgen : (w.dbhs (w.cursors c).db).general = false)
    (hmd : (w.cursors c).multiData = some (rowsOf rows))
    (hmp : (w.cursors c).multiPutPtr = some ()) (hok : ∀ x ∈ rows, keyOk x.1)
    (hnd : (rows.map Prod.fst).Nodup) :
    sqlite3BtreeFirst ops w c
      = cursorGet (w.setCursor c { w.cursors c with
          multiData := some (rowsOf (tableOf rows)), multiGetPtr := some 0,
          multiPutPtr := none, eState := CURSOR_VALID }) c DB_NEXT := by
  have hkl : w.keyLt (w.cursors c).db = bytesLt := by
    unfold World.keyLt
    rw [hgen]
    rfl
  unfold sqlite3BtreeFirst
  simp only [hmp, ne_eq, reduceCtorEq, not_false_eq_true, if_true, hes, if_false, hkl, hmd,
    Option.getD_some, sortRows_rowsOf rows hok hnd]

/-- A scan through a buffered cursor, the rows having pairwise distinct keys,
reads the rows in key order. -/
theorem scan_buffered (ops : EnvOps) (w : World) (c : Nat) (rows : List (Int × List Nat))
    (fuel : Nat) (h : w.buffered c rows) (hok : ∀ x ∈ rows, keyOk x.1)
    (hnd : (rows.map Prod.fst).Nodup) (hf : rows.length < fuel) :
    scan (EnvOps.tmp ops) c fuel w = some (tableOf rows) := by
  obtain ⟨p, hl, hrb, hwr, hint, hgen, hes, hmd⟩ := h
  have hp := hl.2.1
  rcases hmd with ⟨h0, h1, h2⟩ | ⟨h1, h2⟩
  · subst h0
    exact scan_buffered_empty ops w c p fuel hl hrb hes h1 h2
  · have hfirst := sqlite3BtreeFirst_buffered (EnvOps.tmp ops) w c rows hes hgen h1 h2 hok hnd
    generalize hw0 : w.setCursor c { w.cursors c with
          multiData := some (rowsOf (tableOf rows)), multiGetPtr := some 0,
          multiPutPtr := none, eState := CURSOR_VALID } = w0 at hfirst
    have hc0 : w0.cursors c = { w.cursors c with
          multiData := some (rowsOf (tableOf rows)), multiGetPtr := some 0,
          multiPutPtr := none, eState := CURSOR_VALID } := by rw [← hw0]; simp
    have hl0 : w0.loadable c p := by
      rw [← hw0]
      exact loadable_setCursor w c p _ hl rfl rfl
    have hbuf0 : w0.isBuffer c = true := by
      rw [← hw0]
      unfold World.isBuffer
      simp only [setCursor_cursors_same, hp, Option.getD_some]
      exact hrb
    have hflags : ¬ ((w.cursors c).flags &&& BTREE_INTKEY = 0) := by
      unfold BtCursor.intKey at hint
      simpa using hint
    have hlen : (tableOf rows).length = rows.length := (tableOf_perm rows hnd).length_eq
    have hsT := tableOf_sorted rows
    have hokT := tableOf_keyOk rows hok
    unfold scan
    rw [hfirst]
    cases hT : tableOf rows with
    | nil =>
      have hm : cursorGet w0 c DB_NEXT = (SQLITE_OK, some 1, w0.setCursor c { w0.cursors c with
          key := { (w0.cursors c).key with data := none },
          data := { (w0.cursors c).data with data := none }, multiGetPtr := none }) := by
        unfold cursorGet
        simp [hc0, hT, rowsOf, multipleKeyNext, isBuffer_setCursor, hbuf0]
      rw [hm]
      simp
    | cons x rest =>
      have hxk : keyOk x.1 := hokT x (by rw [hT]; simp)
      have hm : cursorGet w0 c DB_NEXT = (SQLITE_OK, some 0, (w0.setCursor c { w0.cursors c with
          key := { (w0.cursors c).key with data := some (encKey x.1), size := (encKey x.1).length },
          data := { (w0.cursors c).data with data := some x.2, size := x.2.length },
          multiGetPtr := some 1 }).setCursor c { w0.cursors c with
          key := { (w0.cursors c).key with data := some (encKey x.1), size := (encKey x.1).length },
          data := { (w0.cursors c).data with data := some x.2, size := x.2.length },
          multiGetPtr := some 1, savedIntKey := x.1 }) := by
        unfold cursorGet
        simp [hc0, hT, rowsOf, multipleKeyNext, BtCursor.intKey, hflags, decodeKey_row,
          decodeKey_encKey x.1 hxk.1 hxk.2]
      rw [hm]
      generalize hw1 : (w0.setCursor c { w0.cursors c with
          key := { (w0.cursors c).key with data := some (encKey x.1), size := (encKey x.1).length },
          data := { (w0.cursors c).data with data := some x.2, size := x.2.length },
          multiGetPtr := some 1 }).setCursor c { w0.cursors c with
          key := { (w0.cursors c).key with data := some (encKey x.1), size := (encKey x.1).length },
          data := { (w0.cursors c).data with data := some x.2, size := x.2.length },
          multiGetPtr := some 1, savedIntKey := x.1 } = w1
      have hc1 : w1.cursors c = { w0.cursors c with
          key := { (w0.cursors c).key with data := some (encKey x.1), size := (encKey x.1).length },
          data := { (w0.cursors c).data with data := some x.2, size := x.2.length },
          multiGetPtr := some 1, savedIntKey := x.1 } := by rw [← hw1]; simp
      have hl1 : w1.loadable c p := by
        rw [← hw1]
        exact loadable_setCursor _ c p _ (loadable_setCursor w0 c p _ hl0 rfl rfl) (by simp)
          (by simp)
      have hrb1 : (w1.bt p).resultsBuffer = true := by
        rw [← hw1, ← hw0]
        exact hrb
      obtain ⟨W2, d, hscan, hnext⟩ := sqlite3BtreeNext_buffered ops w1 c p (x :: rest) rest x
        hl1 hrb1 (by rw [hc1, hc0]) (by rw [hc1]) (by rw [hc1, hc0, hT]) rfl
        (by rw [← hT]; exact hsT) (by rw [← hT]; exact hokT)
      have hcr : curRow w1 c = x := by
        unfold curRow
        rw [hc1]
        simp
      have hfuel : rest.length < fuel := by
        rw [hT] at hlen
        simp only [List.length_cons] at hlen
        omega
      cases fuel with
      | zero => simp at hfuel
      | succ n =>
        have hn : sqlite3BtreeNext (EnvOps.tmp ops) w1 c = sqlite3BtreeNext (EnvOps.tmp ops) W2 c := by
          rw [hnext, sqlite3BtreeNext_scan (EnvOps.tmp ops) W2 c d (x :: rest) rest hscan]
        have hsn : scanNext (EnvOps.tmp ops) c (n + 1) w1
            = scanNext (EnvOps.tmp ops) c (n + 1) W2 := by
          rw [scanNext, scanNext, hn]
        simp only [ne_eq, not_true_eq_false, if_false, if_true]
        rw [hsn, scanNext_scan (EnvOps.tmp ops) c d (x :: rest) rest W2 (n + 1) hscan hfuel, hcr]
        rfl

/-! ## The two ways to fill an ephemeral table -/

theorem buffered1_buffered : World.buffered1.buffered 10 [] :=
  ⟨1, ⟨by decide!, by decide!, by decide!, by decide!, by decide!, by decide!, by decide!,
      by decide!, by decide!, by decide!, by decide!, by decide!⟩,
    by decide!, by decide!, by decide!, by decide!, by decide!,
    Or.inl ⟨rfl, by decide!, by decide!⟩⟩

theorem physical1_physical : World.physical1.physical 10 [] :=
  ⟨5, 1, ⟨by decide!, by decide!, by decide!, by decide!, by decide!, by decide!,
      List.Pairwise.nil, fun x hx => absurd hx (List.not_mem_nil x)⟩,
    by decide!, by decide!, by decide!, by decide!, by decide!⟩

/-- C20, counterexample: two rows with the same key, (1, "a") and then
(1, "b"), are inserted through the write cursor 10 and scanned.  Through the
buffered cursor of `World.buffered1` the scan reads the row (1, "a"): both
rows stay in the bulk buffer, `sqlite3BtreeFirst` reads the first of them, and
the first `sqlite3BtreeNext` loads the buffer into the table, where the second
row replaces the first, and finds nothing after the key 1.  Through the cursor
of `World.physical1`, which is on the physical table, the scan reads the row
(1, "b"). -/
theorem buffered_scan_duplicate_keys :
    loadAndScan (EnvOps.tmp EnvOps.idle) 10 3 [(1, [97]), (1, [98])] World.buffered1
      = some [(1, [97])] ∧
    loadAndScan (EnvOps.tmp EnvOps.idle) 10 3 [(1, [97]), (1, [98])] World.physical1
      = some [(1, [98])] := by
  decide!

/-- C20 (amended): rows whose keys are pairwise distinct 64-bit integers are
inserted, in any order, through the write cursor of an ephemeral table and
then scanned with `sqlite3BtreeFirst` and repeated `sqlite3BtreeNext`, which
is given one call more than there are rows.  Through a buffered cursor (the
results buffer on, nothing inserted yet) and through a cursor on the empty
physical table (the buffer off) every call succeeds and the scan yields the
same sequence of key/value pairs: the rows in increasing key order. -/
theorem ephemeral_scan_same (ops : EnvOps) (wb wp : World) (cb cp : Nat)
    (rows : List (Int × List Nat)) (fuel : Nat) (hb : wb.buffered cb [])
    (hp : wp.physical cp []) (hok : ∀ r ∈ rows, keyOk r.1)
    (hnd : (rows.map Prod.fst).Nodup) (hf : rows.length < fuel) :
    loadAndScan (EnvOps.tmp ops) cb fuel rows wb
      = loadAndScan (EnvOps.tmp ops) cp fuel rows wp ∧
    loadAndScan (EnvOps.tmp ops) cp fuel rows wp = some (tableOf rows) ∧
    keySorted (tableOf rows) ∧ (tableOf rows).Perm rows := by
  have hlen : (tableOf rows).length = rows.length := (tableOf_perm rows hnd).length_eq
  have hphys : ∀ (W : World) (c : Nat), W.physical c (tableOf rows) →
      scan (EnvOps.tmp ops) c fuel W = some (tableOf rows) := by
    intro W c hW
    obtain ⟨d, p, hon, _, _, _, hmp, hlr⟩ := hW
    exact scan_onTable (EnvOps.tmp ops) W c d (tableOf rows) fuel hon hmp hlr
      (by rw [hlen]; exact hf)
  have h1 : loadAndScan (EnvOps.tmp ops) cb fuel rows wb = some (tableOf rows) := by
    obtain ⟨W, hW, hWs⟩ := insertAll_buffered ops cb rows [] wb (Or.inl hb)
      (by simpa using hok) (by simpa using hnd)
    simp only [List.nil_append] at hWs
    unfold loadAndScan
    rw [hW]
    simp only [Option.some_bind]
    rcases hWs with hWb | hWp
    · exact scan_buffered ops W cb rows fuel hWb hok hnd hf
    · exact hphys W cb hWp
  have h2 : loadAndScan (EnvOps.tmp ops) cp fuel rows wp = some (tableOf rows) := by
    obtain ⟨W, hW, hWp⟩ := insertAll_physical (EnvOps.tmp ops) cp rows [] wp hp hok
    unfold loadAndScan
    rw [hW]
    simp only [Option.some_bind]
    exact hphys W cp hWp
  exact ⟨by rw [h1, h2], h2, tableOf_sorted rows, tableOf_perm rows hnd⟩

/-- C20, witness: the rows (3, [1]), (1, [2]), (2, [3]) inserted through the
cursor 10 of `World.buffered1` (buffered) and of `World.physical1` (on the
physical table), and scanned with four calls of `sqlite3BtreeNext` at most:
both scans read (1, [2]), (2, [3]), (3, [1]). -/
theorem ephemeral_scan_same_witness :
    World.buffered1.buffered 10 [] ∧ World.physical1.physical 10 [] ∧
    tableOf [(3, [1]), (1, [2]), (2, [3])] = [(1, [2]), (2, [3]), (3, [1])] ∧
    (loadAndScan (EnvOps.tmp EnvOps.idle) 10 4 [(3, [1]), (1, [2]), (2, [3])] World.buffered1
      = loadAndScan (EnvOps.tmp EnvOps.idle) 10 4 [(3, [1]), (1, [2]), (2, [3])]
          World.physical1 ∧
    loadAndScan (EnvOps.tmp EnvOps.idle) 10 4 [(3, [1]), (1, [2]), (2, [3])] World.physical1
      = some (tableOf [(3, [1]), (1, [2]), (2, [3])]) ∧
    keySorted (tableOf [(3, [1]), (1, [2]), (2, [3])]) ∧
    (tableOf [(3, [1]), (1, [2]), (2, [3])]).Perm [(3, [1]), (1, [2]), (2, [3])]) :=
  ⟨buffered1_buffered, physical1_physical, by decide,
    ephemeral_scan_same EnvOps.idle World.buffered1 World.physical1 10 10
      [(3, [1]), (1, [2]), (2, [3])] 4 buffered1_buffered physical1_physical
      (by
        intro r hr
        simp only [List.mem_cons, List.mem_singleton, List.not_mem_nil, or_false] at hr
        rcases hr with h | h | h <;> (rw [h]; unfold keyOk; decide))
      (by decide) (by decide)⟩

/-! ## The counters of `memp_fset` -/

theorem and_clear_bits (f d : Nat) (hd : d < 2 ^ 32) :
    (f &&& (0xFFFFFFFF ^^^ d)) &&& d = 0 := by
  apply Nat.eq_of_testBit_eq
  intro i
  have hm : (0xFFFFFFFF : Nat) = 2 ^ 32 - 1 := by norm_num
  rw [hm]
  simp only [Nat.testBit_and, Nat.testBit_xor, Nat.testBit_two_pow_sub_one, Nat.zero_testBit]
  by_cases hi : i < 32
  · simp [hi]
  · have : d.testBit i = false := by
      apply Nat.testBit_lt_two_pow
      calc d < 2 ^ 32 := hd
        _ ≤ 2 ^ i := Nat.pow_le_pow_right (by norm_num) (by omega)
    simp [this]

theorem or_set_bits (f d : Nat) : (f ||| d) &&& d = d := by
  apply Nat.eq_of_testBit_eq
  intro i
  simp only [Nat.testBit_and, Nat.testBit_or]
  cases f.testBit i <;> cases d.testBit i <;> rfl

theorem or_other_bits (f x d : Nat) (h : x &&& d = 0) : (f ||| x) &&& d = f &&& d := by
  apply Nat.eq_of_testBit_eq
  intro i
  have hx : (x &&& d).testBit i = false := by rw [h]; exact Nat.zero_testBit i
  simp only [Nat.testBit_and, Nat.testBit_or] at hx ⊢
  cases hf : f.testBit i <;> cases hxx : x.testBit i <;> cases hdd : d.testBit i <;>
    simp_all

theorem memp_fset_err (k : MpFlags) (s : MpState) (flags : Nat)
    (h : s.panic = true ∨ flags = 0 ∨
      db_fchk flags (k.DB_MPOOL_DIRTY ||| k.DB_MPOOL_CLEAN ||| k.DB_MPOOL_DISCARD) ≠ 0 ∨
      db_fcchk flags k.DB_MPOOL_CLEAN k.DB_MPOOL_DIRTY ≠ 0 ∨
      (flags &&& k.DB_MPOOL_DIRTY ≠ 0 ∧ s.mfp_flags &&& k.MP_READONLY ≠ 0)) :
    (memp_fset k s flags).1 ≠ 0 ∧ (memp_fset k s flags).2 = s := by
  have hEINVAL : db_ferr ≠ 0 := by decide
  have hRUN : DB_RUNRECOVERY ≠ 0 := by decide
  have hEACCES : EACCES ≠ 0 := by decide
  unfold memp_fset
  simp only []
  by_cases hp : s.panic = true
  · rw [if_pos hp]; exact ⟨hRUN, rfl⟩
  · rw [if_neg hp]
    by_cases h0 : flags = 0
    · rw [if_pos h0]; exact ⟨hEINVAL, rfl⟩
    · rw [if_neg h0]
      by_cases h1 : db_fchk flags (k.DB_MPOOL_DIRTY ||| k.DB_MPOOL_CLEAN ||| k.DB_MPOOL_DISCARD) ≠ 0
      · rw [if_pos h1]; exact ⟨h1, rfl⟩
      · rw [if_neg h1]
        by_cases h2 : db_fcchk flags k.DB_MPOOL_CLEAN k.DB_MPOOL_DIRTY ≠ 0
        · rw [if_pos h2]; exact ⟨h2, rfl⟩
        · rw [if_neg h2]
          by_cases h3 : flags &&& k.DB_MPOOL_DIRTY ≠ 0 ∧ s.mfp_flags &&& k.MP_READONLY ≠ 0
          · rw [if_pos h3]; exact ⟨hEACCES, rfl⟩
          · rcases h with h | h | h | h | h
            · exact absurd h hp
            · exact absurd h h0
            · exact absurd h h1
            · exact absurd h h2
            · exact absurd h h3

/-- What `memp_fset` does to the `BH_DIRTY` bit and the counters: nothing, or
the bit is cleared and a page moves to the clean counter, or the bit is set
and a page moves to the dirty counter. -/
theorem memp_fset_cases (k : MpFlags) (s : MpState) (flags : Nat)
    (hD : k.BH_DIRTY ≠ 0) (hD32 : k.BH_DIRTY < 2 ^ 32)
    (hX : k.BH_DISCARD &&& k.BH_DIRTY = 0) :
    ((memp_fset k s flags).2.bh_flags &&& k.BH_DIRTY = s.bh_flags &&& k.BH_DIRTY ∧
      (memp_fset k s flags).2.st_page_clean = s.st_page_clean ∧
      (memp_fset k s flags).2.st_page_dirty = s.st_page_dirty) ∨
    (s.bh_flags &&& k.BH_DIRTY ≠ 0 ∧ (memp_fset k s flags).2.bh_flags &&& k.BH_DIRTY = 0 ∧
      (memp_fset k s flags).2.st_page_clean = (s.st_page_clean + 1) % 2 ^ 32 ∧
      (memp_fset k s flags).2.st_page_dirty = (s.st_page_dirty + 2 ^ 32 - 1) % 2 ^ 32) ∨
    (s.bh_flags &&& k.BH_DIRTY = 0 ∧ (memp_fset k s flags).2.bh_flags &&& k.BH_DIRTY ≠ 0 ∧
      (memp_fset k s flags).2.st_page_clean = (s.st_page_clean + 2 ^ 32 - 1) % 2 ^ 32 ∧
      (memp_fset k s flags).2.st_page_dirty = (s.st_page_dirty + 1) % 2 ^ 32) := by
  have hclr := and_clear_bits s.bh_flags k.BH_DIRTY hD32
  have hset := or_set_bits s.bh_flags k.BH_DIRTY
  by_cases he : s.panic = true ∨ flags = 0 ∨
      db_fchk flags (k.DB_MPOOL_DIRTY ||| k.DB_MPOOL_CLEAN ||| k.DB_MPOOL_DISCARD) ≠ 0 ∨
      db_fcchk flags k.DB_MPOOL_CLEAN k.DB_MPOOL_DIRTY ≠ 0 ∨
      (flags &&& k.DB_MPOOL_DIRTY ≠ 0 ∧ s.mfp_flags &&& k.MP_READONLY ≠ 0)
  · rw [(memp_fset_err k s flags he).2]
    exact Or.inl ⟨rfl, rfl, rfl⟩
  · simp only [not_or] at he
    obtain ⟨hp, h0, h1, h2, h3⟩ := he
    unfold memp_fset
    simp only []
    rw [if_neg hp, if_neg h0, if_neg h1, if_neg h2, if_neg h3]
    have hcc : ¬ (flags &&& k.DB_MPOOL_CLEAN ≠ 0 ∧ flags &&& k.DB_MPOOL_DIRTY ≠ 0) := by
      intro hh
      apply h2
      unfold db_fcchk
      rw [if_pos hh]
      decide
    by_cases ha : flags &&& k.DB_MPOOL_CLEAN ≠ 0 ∧ s.bh_flags &&& k.BH_DIRTY ≠ 0 ∧
        ¬ (s.bh_flags &&& k.BH_DIRTY_CREATE ≠ 0)
    · have hB : ¬ (flags &&& k.DB_MPOOL_DIRTY ≠ 0 ∧
          ¬ (s.bh_flags &&& (0xFFFFFFFF ^^^ k.BH_DIRTY) &&& k.BH_DIRTY ≠ 0)) :=
        fun hh => hcc ⟨ha.1, hh.1⟩
      rw [if_pos ha]
      simp only []
      rw [if_neg hB]
      by_cases hx : flags &&& k.DB_MPOOL_DISCARD ≠ 0
      · rw [if_pos hx]
        exact Or.inr (Or.inl ⟨ha.2.1, by
          show (s.bh_flags &&& (0xFFFFFFFF ^^^ k.BH_DIRTY) ||| k.BH_DISCARD) &&& k.BH_DIRTY = 0
          rw [or_other_bits _ _ _ hX]; exact hclr, rfl, rfl⟩)
      · rw [if_neg hx]
        exact Or.inr (Or.inl ⟨ha.2.1, hclr, rfl, rfl⟩)
    · rw [if_neg ha]
      by_cases hb : flags &&& k.DB_MPOOL_DIRTY ≠ 0 ∧ ¬ (s.bh_flags &&& k.BH_DIRTY ≠ 0)
      · rw [if_pos hb]
        by_cases hx : flags &&& k.DB_MPOOL_DISCARD ≠ 0
        · rw [if_pos hx]
          exact Or.inr (Or.inr ⟨not_not.mp hb.2, by
            show (s.bh_flags ||| k.BH_DIRTY ||| k.BH_DISCARD) &&& k.BH_DIRTY ≠ 0
            rw [or_other_bits _ _ _ hX, hset]; exact hD, rfl, rfl⟩)
        · rw [if_neg hx]
          exact Or.inr (Or.inr ⟨not_not.mp hb.2, by
            show (s.bh_flags ||| k.BH_DIRTY) &&& k.BH_DIRTY ≠ 0
            rw [hset]; exact hD, rfl, rfl⟩)
      · rw [if_neg hb]
        by_cases hx : flags &&& k.DB_MPOOL_DISCARD ≠ 0
        · rw [if_pos hx]
          exact Or.inl ⟨or_other_bits _ _ _ hX, rfl, rfl⟩
        · rw [if_neg hx]
          exact Or.inl ⟨rfl, rfl, rfl⟩

/-- C30: for every state whose counters are 32-bit values and every flag
argument, `memp_fset` leaves the sum `st_page_clean + st_page_dirty`, as the
32-bit counters give it, unchanged; when the `BH_DIRTY` bit of the buffer goes
from set to clear one page moves from the dirty to the clean counter, when it
goes from clear to set one page moves from the clean to the dirty counter, and
when it does not change neither counter changes.  Where the counters count
buffers (the sum fits in 32 bits, a dirty buffer is counted as dirty and a
clean one as clean, which is what the source's `DB_ASSERT`s state), nothing
wraps and the sum is unchanged as a number.  A call with `flags = 0`, with
both `DB_MPOOL_CLEAN` and `DB_MPOOL_DIRTY`, or with `DB_MPOOL_DIRTY` on a
read-only file returns an error and changes nothing; the last one returns
`EACCES` when the earlier checks pass. -/
theorem memp_fset_counters (k : MpFlags) (s : MpState) (flags : Nat)
    (hD : k.BH_DIRTY ≠ 0) (hD32 : k.BH_DIRTY < 2 ^ 32)
    (hX : k.BH_DISCARD &&& k.BH_DIRTY = 0)
    (hc : s.st_page_clean < 2 ^ 32) (hd : s.st_page_dirty < 2 ^ 32) :
    ((memp_fset k s flags).2.st_page_clean + (memp_fset k s flags).2.st_page_dirty) % 2 ^ 32
      = (s.st_page_clean + s.st_page_dirty) % 2 ^ 32 ∧
    (s.bh_flags &&& k.BH_DIRTY ≠ 0 → (memp_fset k s flags).2.bh_flags &&& k.BH_DIRTY = 0 →
      (memp_fset k s flags).2.st_page_clean = (s.st_page_clean + 1) % 2 ^ 32 ∧
      (memp_fset k s flags).2.st_page_dirty = (s.st_page_dirty + 2 ^ 32 - 1) % 2 ^ 32) ∧
    (s.bh_flags &&& k.BH_DIRTY = 0 → (memp_fset k s flags).2.bh_flags &&& k.BH_DIRTY ≠ 0 →
      (memp_fset k s flags).2.st_page_clean = (s.st_page_clean + 2 ^ 32 - 1) % 2 ^ 32 ∧
      (memp_fset k s flags).2.st_page_dirty = (s.st_page_dirty + 1) % 2 ^ 32) ∧
    ((s.bh_flags &&& k.BH_DIRTY = 0 ↔ (memp_fset k s flags).2.bh_flags &&& k.BH_DIRTY = 0) →
      (memp_fset k s flags).2.st_page_clean = s.st_page_clean ∧
      (memp_fset k s flags).2.st_page_dirty = s.st_page_dirty) ∧
    (s.st_page_clean + s.st_page_dirty < 2 ^ 32 →
      (s.bh_flags &&& k.BH_DIRTY ≠ 0 → s.st_page_dirty ≠ 0) →
      (s.bh_flags &&& k.BH_DIRTY = 0 → s.st_page_clean ≠ 0) →
      (memp_fset k s flags).2.st_page_clean + (memp_fset k s flags).2.st_page_dirty
        = s.st_page_clean + s.st_page_dirty) ∧
    (flags = 0 ∨ (flags &&& k.DB_MPOOL_CLEAN ≠ 0 ∧ flags &&& k.DB_MPOOL_DIRTY ≠ 0) ∨
        (flags &&& k.DB_MPOOL_DIRTY ≠ 0 ∧ s.mfp_flags &&& k.MP_READONLY ≠ 0) →
      (memp_fset k s flags).1 ≠ 0 ∧ (memp_fset k s flags).2 = s) ∧
    (s.panic = false →
      flags &&& (0xFFFFFFFF ^^^ (k.DB_MPOOL_DIRTY ||| k.DB_MPOOL_CLEAN ||| k.DB_MPOOL_DISCARD)) = 0 →
      flags &&& k.DB_MPOOL_CLEAN = 0 →
      flags &&& k.DB_MPOOL_DIRTY ≠ 0 → s.mfp_flags &&& k.MP_READONLY ≠ 0 →
      memp_fset k s flags = (EACCES, s)) := by
  have hcases := memp_fset_cases k s flags hD hD32 hX
  refine ⟨?_, ?_, ?_, ?_, ?_, ?_, ?_⟩
  · rcases hcases with ⟨_, h2, h3⟩ | ⟨_, _, h2, h3⟩ | ⟨_, _, h2, h3⟩
    · rw [h2, h3]
    · rw [h2, h3]; omega
    · rw [h2, h3]; omega
  · intro hs hr
    rcases hcases with ⟨h1, _, _⟩ | ⟨_, _, h2, h3⟩ | ⟨h1, _, _, _⟩
    · rw [h1] at hr; exact absurd hr hs
    · exact ⟨h2, h3⟩
    · exact absurd h1 hs
  · intro hs hr
    rcases hcases with ⟨h1, _, _⟩ | ⟨h1, _, _, _⟩ | ⟨_, _, h2, h3⟩
    · rw [h1] at hr; exact absurd hs hr
    · exact absurd hs h1
    · exact ⟨h2, h3⟩
  · intro hiff
    rcases hcases with ⟨_, h2, h3⟩ | ⟨h1, h1b, _, _⟩ | ⟨h1, h1b, _, _⟩
    · exact ⟨h2, h3⟩
    · exact absurd (hiff.mpr h1b) h1
    · exact absurd (hiff.mp h1) h1b
  · intro hsum hdirty hclean
    rcases hcases with ⟨_, h2, h3⟩ | ⟨h1, _, h2, h3⟩ | ⟨h1, _, h2, h3⟩
    · rw [h2, h3]
    · have := hdirty h1
      rw [h2, h3]; omega
    · have := hclean h1
      rw [h2, h3]; omega
  · intro h
    apply memp_fset_err
    rcases h with h | h | h
    · exact Or.inr (Or.inl h)
    · refine Or.inr (Or.inr (Or.inr (Or.inl ?_)))
      unfold db_fcchk
      rw [if_pos h]
      decide
    · exact Or.inr (Or.inr (Or.inr (Or.inr h)))
  · intro hp hk hcl hdi hro
    unfold memp_fset
    simp only []
    have h1 : ¬ db_fchk flags (k.DB_MPOOL_DIRTY ||| k.DB_MPOOL_CLEAN ||| k.DB_MPOOL_DISCARD) ≠ 0 := by
      unfold db_fchk
      rw [if_neg (not_not.mpr hk)]
      decide
    have h2 : ¬ db_fcchk flags k.DB_MPOOL_CLEAN k.DB_MPOOL_DIRTY ≠ 0 := by
      unfold db_fcchk
      rw [if_neg (fun hh => hh.1 hcl)]
      decide
    have h0 : ¬ flags = 0 := by
      intro hh
      rw [hh] at hdi
      simp at hdi
    rw [if_neg (by rw [hp]; decide), if_neg h0, if_neg h1, if_neg h2, if_pos ⟨hdi, hro⟩]

/-- C30, witness: cleaning a dirty buffer with the counters at 3 clean and 2
dirty pages. -/
theorem memp_fset_counters_witness :
    (memp_fset MpFlags.bits
        { mfp_flags := 0, bh_flags := 2, st_page_clean := 3, st_page_dirty := 2, panic := false }
        1).2
      = { mfp_flags := 0, bh_flags := 0, st_page_clean := 4, st_page_dirty := 1, panic := false } ∧
    ((memp_fset MpFlags.bits
        { mfp_flags := 0, bh_flags := 2, st_page_clean := 3, st_page_dirty := 2, panic := false }
        1).2.st_page_clean +
      (memp_fset MpFlags.bits
        { mfp_flags := 0, bh_flags := 2, st_page_clean := 3, st_page_dirty := 2, panic := false }
        1).2.st_page_dirty) % 2 ^ 32 = (3 + 2) % 2 ^ 32 :=
  ⟨by decide,
    (memp_fset_counters MpFlags.bits
      { mfp_flags := 0, bh_flags := 2, st_page_clean := 3, st_page_dirty := 2, panic := false }
      1 (by decide) (by decide) (by decide) (by decide) (by decide)).1⟩

/-! ## The page size -/

theorem two_pow_and_pred (k : Nat) : (2 ^ k - 1) &&& 2 ^ k = 0 := by
  apply Nat.eq_of_testBit_eq
  intro i
  rw [Nat.testBit_and, Nat.testBit_two_pow_sub_one, Nat.testBit_two_pow, Nat.zero_testBit]
  by_cases h : k = i
  · subst h
    simp
  · simp [h]

theorem two_pow_of_and_pred (n : Nat) (hn : 0 < n) (h : (n - 1) &&& n = 0) :
    ∃ k : Nat, n = 2 ^ k := by
  induction n using Nat.strong_induction_on with
  | _ n ih =>
    by_cases h1 : n = 1
    · exact ⟨0, by rw [h1]; rfl⟩
    · have hd : (n - 1) / 2 &&& n / 2 = 0 := by
        rw [← Nat.and_div_two, h]
      rcases Nat.even_or_odd n with he | ho
      · obtain ⟨m, hm⟩ := he
        have hm1 : (n - 1) / 2 = m - 1 := by omega
        have hm2 : n / 2 = m := by omega
        rw [hm1, hm2] at hd
        obtain ⟨k, hk⟩ := ih m (by omega) (by omega) hd
        exact ⟨k + 1, by rw [pow_succ, ← hk]; omega⟩
      · obtain ⟨m, hm⟩ := ho
        have hm1 : (n - 1) / 2 = m := by omega
        have hm2 : n / 2 = m := by omega
        rw [hm1, hm2, Nat.and_self] at hd
        omega

/-- The test of `sqlite3BtreeSetPageSize` lets exactly the powers of two from
512 to 65536 through. -/
theorem pageSize_test (pageSize : Int) :
    ¬ (pageSize < 512 ∨ pageSize > 65536 ∨ (pageSize - 1).toNat &&& pageSize.toNat ≠ 0) ↔
    (512 ≤ pageSize ∧ pageSize ≤ 65536 ∧ ∃ k : Nat, pageSize = 2 ^ k) := by
  constructor
  · intro h
    simp only [not_or, not_lt, not_not] at h
    obtain ⟨h1, h2, h3⟩ := h
    refine ⟨h1, by omega, ?_⟩
    have e1 : (pageSize - 1).toNat = pageSize.toNat - 1 := by omega
    rw [e1] at h3
    obtain ⟨k, hk⟩ := two_pow_of_and_pred pageSize.toNat (by omega) h3
    refine ⟨k, ?_⟩
    have : pageSize = (pageSize.toNat : Int) := by omega
    rw [this, hk]
    push_cast
    rfl
  · rintro ⟨h1, h2, k, hk⟩
    simp only [not_or, not_lt, not_not]
    refine ⟨h1, by omega, ?_⟩
    have e1 : (pageSize - 1).toNat = pageSize.toNat - 1 := by omega
    have e2 : pageSize.toNat = 2 ^ k := by
      rw [hk]
      have : ((2 : Int) ^ k) = ((2 ^ k : Nat) : Int) := by push_cast; rfl
      rw [this, Int.toNat_ofNat]
    rw [e1, e2]
    exact two_pow_and_pred k

/-- C25, the failing input: the page size of the handle of `World.fixed1` is
fixed at 4096, and `sqlite3BtreeSetPageSize` with the page size 0, or 1000,
returns `SQLITE_OK`, where the comment of the function (btree.c:3920-3923)
and the claim have `SQLITE_READONLY`; with 8192 it returns `SQLITE_READONLY`.
Nothing is changed by any of the three calls. -/
theorem sqlite3BtreeSetPageSize_fixed_invalid :
    (World.fixed1.bt 1).pageSizeFixed = true ∧
    (World.fixed1.bt 1).pageSize = 4096 ∧
    sqlite3BtreeSetPageSize World.fixed1 1 0 0 0 = (SQLITE_OK, World.fixed1) ∧
    sqlite3BtreeSetPageSize World.fixed1 1 1000 0 0 = (SQLITE_OK, World.fixed1) ∧
    sqlite3BtreeSetPageSize World.fixed1 1 8192 0 0 = (SQLITE_READONLY, World.fixed1) ∧
    SQLITE_OK ≠ SQLITE_READONLY := by
  refine ⟨rfl, rfl, rfl, rfl, rfl, by decide⟩

/-- What `sqlite3BtreeSetPageSize` does on every input the validity test
decides: if the page size of a shared handle is fixed, it changes nothing, and
it returns `SQLITE_READONLY` for every requested page size that is a power of
two from 512 to 65536 and `SQLITE_OK` for every other one; and for every
handle, a requested page size that is not a power of two from 512 to 65536
changes nothing (the stored page size included) and returns `SQLITE_OK`. -/
theorem sqlite3BtreeSetPageSize_fixed (w : World) (p : Nat) (pageSize nReserve iFix : Int) :
    ((w.bt p).pageSizeFixed = true →
      (sqlite3BtreeSetPageSize w p pageSize nReserve iFix).2 = w ∧
      ((512 ≤ pageSize ∧ pageSize ≤ 65536 ∧ ∃ k : Nat, pageSize = 2 ^ k) →
        (sqlite3BtreeSetPageSize w p pageSize nReserve iFix).1 = SQLITE_READONLY) ∧
      (¬ (512 ≤ pageSize ∧ pageSize ≤ 65536 ∧ ∃ k : Nat, pageSize = 2 ^ k) →
        (sqlite3BtreeSetPageSize w p pageSize nReserve iFix).1 = SQLITE_OK)) ∧
    (¬ (512 ≤ pageSize ∧ pageSize ≤ 65536 ∧ ∃ k : Nat, pageSize = 2 ^ k) →
      sqlite3BtreeSetPageSize w p pageSize nReserve iFix = (SQLITE_OK, w) ∧
      ((sqlite3BtreeSetPageSize w p pageSize nReserve iFix).2.bt p).pageSize
        = (w.bt p).pageSize) := by
  have hbad : ¬ (512 ≤ pageSize ∧ pageSize ≤ 65536 ∧ ∃ k : Nat, pageSize = 2 ^ k) →
      sqlite3BtreeSetPageSize w p pageSize nReserve iFix = (SQLITE_OK, w) := by
    intro hv
    have ht := (not_congr (pageSize_test pageSize)).mpr hv
    unfold sqlite3BtreeSetPageSize
    rw [if_pos (not_not.mp ht)]
  refine ⟨?_, ?_⟩
  · intro hfix
    have hfix2 : (w.shared (w.btAddr p)).pageSizeFixed = true := hfix
    by_cases hv : 512 ≤ pageSize ∧ pageSize ≤ 65536 ∧ ∃ k : Nat, pageSize = 2 ^ k
    · have ht := (pageSize_test pageSize).mpr hv
      have hr : sqlite3BtreeSetPageSize w p pageSize nReserve iFix = (SQLITE_READONLY, w) := by
        unfold sqlite3BtreeSetPageSize
        rw [if_neg ht]
        simp only []
        rw [if_pos hfix2]
      rw [hr]
      exact ⟨rfl, fun _ => rfl, fun h => absurd hv h⟩
    · rw [hbad hv]
      exact ⟨rfl, fun h => absurd h hv, fun _ => rfl⟩
  · intro hv
    rw [hbad hv]
    exact ⟨rfl, rfl⟩

/-- The fixed handle of `World.fixed1` and the page sizes 8192 and 1000. -/
theorem sqlite3BtreeSetPageSize_fixed_witness :
    (sqlite3BtreeSetPageSize World.fixed1 1 8192 0 0).1 = SQLITE_READONLY ∧
    sqlite3BtreeSetPageSize World.fixed1 1 1000 0 0 = (SQLITE_OK, World.fixed1) :=
  ⟨((sqlite3BtreeSetPageSize_fixed World.fixed1 1 8192 0 0).1 rfl).2.1
      ⟨by decide, by decide, 13, by decide⟩,
    ((sqlite3BtreeSetPageSize_fixed World.fixed1 1 1000 0 0).2
      (by rw [← pageSize_test]; decide)).1⟩

/-! ## Dropping a table -/

theorem cacheFind_remove (cache : List (Int × CACHED_DB)) (iTable : Int) :
    cacheFind (cacheInsert cache iTable none) iTable = none := by
  unfold cacheFind cacheInsert
  simp only []
  rw [Option.map_eq_none', List.find?_eq_none]
  intro x hx
  have := (List.mem_filter.mp hx).2
  simpa using this

theorem db_close_frame (w : World) (h : Nat) :
    (db_close w h).2.shared = w.shared ∧ (db_close w h).2.btrees = w.btrees ∧
    (db_close w h).2.catalog = w.catalog ∧ (db_close w h).2.cursors = w.cursors := by
  unfold db_close World.engine
  cases w.faults <;> exact ⟨rfl, rfl, rfl, rfl⟩

theorem sqlite3BtreeDropTable_close_cache (w : World) (p : Nat) (iTable : Int) :
    cacheFind ((sqlite3BtreeDropTable_close w p iTable).2.shared (w.btAddr p)).db_cache iTable
      = none ∧
    (sqlite3BtreeDropTable_close w p iTable).2.btAddr p = w.btAddr p := by
  unfold sqlite3BtreeDropTable_close
  simp only []
  constructor
  · rw [setShared_shared_same]
    exact cacheFind_remove _ _
  · unfold World.btAddr
    rw [setShared_btrees]
    cases hcf : cacheFind (w.shared ((w.btrees p).pBt.getD 0)).db_cache iTable with
    | none => rfl
    | some e =>
      dsimp only
      cases hd : e.dbp with
      | none => rfl
      | some h =>
        dsimp only
        rw [(db_close_frame w h).2.1]

theorem env_dbremove_shared (w : World) (name : Option (Nat × Int)) :
    (env_dbremove w name).2.shared = w.shared ∧ (env_dbremove w name).2.btrees = w.btrees := by
  unfold env_dbremove
  simp only []
  split_ifs <;> exact ⟨engine_shared _ _, engine_btrees _ _⟩

theorem env_dbremove_nofault (w : World) (name : Option (Nat × Int)) (hf : w.faults = []) :
    (env_dbremove w name).1 = 0 ∨ (env_dbremove w name).1 = ENOENT := by
  unfold env_dbremove
  simp only [engine_nofault w hf]
  cases name.bind (catalogFind w.catalog) with
  | none => right; simp [ENOENT]
  | some t => left; simp

theorem sqlite3BtreeDropTable_close_nocache (v : World) (p : Nat) (iTable : Int)
    (h : cacheFind (v.bt p).db_cache iTable = none) :
    (sqlite3BtreeDropTable_close v p iTable).1 = 0 ∧
    (sqlite3BtreeDropTable_close v p iTable).2.faults = v.faults := by
  have h2 : cacheFind (v.shared (v.btAddr p)).db_cache iTable = none := h
  unfold sqlite3BtreeDropTable_close
  simp only [h2]
  constructor <;> first | rfl | trivial

/-- C22: when closing the cached handle did not fail and the engine's removal
of the table of a named database reports `ENOENT` or `DB_NOTFOUND`,
`sqlite3BtreeDropTable` returns `SQLITE_OK`; after every call the handle
cache has no entry for the table id and `*piMoved` is 0; and when no engine
failure is scripted for it, a second drop of the same id on the world the
first one left returns `SQLITE_OK`, whatever the first one returned. -/
theorem sqlite3BtreeDropTable_idempotent (w : World) (p : Nat) (iTable : Int) :
    (((sqlite3BtreeDropTable_close w p iTable).2.bt p).dbStorage = DB_STORE_NAMED →
      (sqlite3BtreeDropTable_close w p iTable).1 = 0 →
      ((env_dbremove (sqlite3BtreeDropTable_close w p iTable).2
          (GET_TABLENAME (sqlite3BtreeDropTable_close w p iTable).2 (w.btAddr p) iTable)).1
          = ENOENT ∨
        (env_dbremove (sqlite3BtreeDropTable_close w p iTable).2
          (GET_TABLENAME (sqlite3BtreeDropTable_close w p iTable).2 (w.btAddr p) iTable)).1
          = DB_NOTFOUND) →
      (sqlite3BtreeDropTable w p iTable).1 = SQLITE_OK) ∧
    cacheFind ((sqlite3BtreeDropTable w p iTable).2.2.bt p).db_cache iTable = none ∧
    (sqlite3BtreeDropTable w p iTable).2.1 = 0 ∧
    ((sqlite3BtreeDropTable w p iTable).2.2.faults = [] →
      (sqlite3BtreeDropTable (sqlite3BtreeDropTable w p iTable).2.2 p iTable).1 = SQLITE_OK) := by
  have hcache : cacheFind ((sqlite3BtreeDropTable w p iTable).2.2.bt p).db_cache iTable = none ∧
      (sqlite3BtreeDropTable w p iTable).2.2.btAddr p = w.btAddr p := by
    obtain ⟨h1, h2⟩ := sqlite3BtreeDropTable_close_cache w p iTable
    have h3 : ((sqlite3BtreeDropTable_close w p iTable).2.btrees p).pBt.getD 0 = w.btAddr p := h2
    by_cases hs : ((sqlite3BtreeDropTable_close w p iTable).2.shared (w.btAddr p)).dbStorage
        = DB_STORE_NAMED
    · have hw : (sqlite3BtreeDropTable w p iTable).2.2
          = (env_dbremove (sqlite3BtreeDropTable_close w p iTable).2
              (GET_TABLENAME (sqlite3BtreeDropTable_close w p iTable).2 (w.btAddr p) iTable)).2 := by
        unfold sqlite3BtreeDropTable
        simp only []
        rw [if_pos hs]
      rw [hw]
      unfold World.bt World.btAddr
      rw [(env_dbremove_shared _ _).1, (env_dbremove_shared _ _).2, h3]
      exact ⟨h1, rfl⟩
    · have hw : (sqlite3BtreeDropTable w p iTable).2.2
          = (sqlite3BtreeDropTable_close w p iTable).2 := by
        unfold sqlite3BtreeDropTable
        simp only []
        rw [if_neg hs]
      rw [hw]
      unfold World.bt World.btAddr
      rw [h3]
      exact ⟨h1, rfl⟩
  refine ⟨?_, hcache.1, ?_, ?_⟩
  · intro hn hc ht
    have hn2 : ((sqlite3BtreeDropTable_close w p iTable).2.shared (w.btAddr p)).dbStorage
        = DB_STORE_NAMED := by
      rw [← (sqlite3BtreeDropTable_close_cache w p iTable).2]
      exact hn
    unfold sqlite3BtreeDropTable
    simp only []
    rw [if_pos hn2, if_pos ht, hc]
    rfl
  · unfold sqlite3BtreeDropTable
    simp only []
    split_ifs <;> rfl
  · intro hf
    generalize (sqlite3BtreeDropTable w p iTable).2.2 = v at hcache hf
    obtain ⟨hc1, hc2⟩ := sqlite3BtreeDropTable_close_nocache v p iTable hcache.1
    rw [hf] at hc2
    unfold sqlite3BtreeDropTable
    simp only []
    generalize sqlite3BtreeDropTable_close v p iTable = C at hc1 hc2
    by_cases hs : (C.2.shared (v.btAddr p)).dbStorage = DB_STORE_NAMED
    · rw [if_pos hs, hc1]
      rcases env_dbremove_nofault C.2 (GET_TABLENAME C.2 (v.btAddr p) iTable) hc2 with h | h
      · rw [h]; rfl
      · rw [h]; rfl
    · rw [if_neg hs, hc1]
      rfl

/-- C22, witness: on `World.table3` the first drop of table 3 closes the
cached handle, removes the table and returns `SQLITE_OK`; the second drop
finds the table missing and returns `SQLITE_OK` too. -/
theorem sqlite3BtreeDropTable_idempotent_witness :
    (sqlite3BtreeDropTable World.table3 1 3).1 = SQLITE_OK ∧
    (sqlite3BtreeDropTable World.table3 1 3).2.2.catalog = [] ∧
    (env_dbremove (sqlite3BtreeDropTable_close (sqlite3BtreeDropTable World.table3 1 3).2.2 1 3).2
      (GET_TABLENAME (sqlite3BtreeDropTable_close (sqlite3BtreeDropTable World.table3 1 3).2.2 1 3).2
        ((sqlite3BtreeDropTable World.table3 1 3).2.2.btAddr 1) 3)).1 = ENOENT ∧
    (sqlite3BtreeDropTable (sqlite3BtreeDropTable World.table3 1 3).2.2 1 3).1 = SQLITE_OK :=
  ⟨by decide, by decide, by decide,
    (sqlite3BtreeDropTable_idempotent (sqlite3BtreeDropTable World.table3 1 3).2.2 1 3).1
      (by decide) (by decide) (Or.inl (by decide))⟩

/-! ## Opening a data table under contention -/

theorem db_open_frame (w : World) (h : Nat) (txn : Option Nat) (name : Option (Nat × Int))
    (create : Bool) :
    (db_open w h txn name create).2.shared = w.shared ∧
    (db_open w h txn name create).2.btrees = w.btrees ∧
    (db_open w h txn name create).2.cursors = w.cursors := by
  unfold db_open World.engine
  cases name with
  | none =>
    cases w.faults <;> dsimp only [Option.bind] <;> split_ifs <;> exact ⟨rfl, rfl, rfl⟩
  | some n =>
    cases hn : catalogFind w.catalog n <;> cases w.faults <;>
      simp only [Option.bind, hn] <;> split_ifs <;> exact ⟨rfl, rfl, rfl⟩

theorem db_open_fault (w : World) (h : Nat) (txn : Option Nat) (name : Option (Nat × Int))
    (create : Bool) (d : Int) (rest : List Int) (hf : w.faults = d :: rest) (hd : d ≠ 0) :
    db_open w h txn name create = (d, { w with faults := rest }) := by
  unfold db_open World.engine
  simp only [hf, hd, if_false, ne_eq, not_false_eq_true, if_true]

theorem btreeCreateDataTable_open_frame (w : World) (p h : Nat) (iTable : Int) :
    (btreeCreateDataTable_open w p h iTable).2.shared = w.shared ∧
    (btreeCreateDataTable_open w p h iTable).2.btrees = w.btrees ∧
    (btreeCreateDataTable_open w p h iTable).2.cursors = w.cursors := by
  unfold btreeCreateDataTable_open
  simp only []
  split_ifs
  · obtain ⟨a1, a2, a3⟩ := db_open_frame w h (w.btrees p).family_txn
      (GET_TABLENAME w (w.btAddr p) iTable) false
    obtain ⟨b1, b2, b3⟩ := db_open_frame
      (db_open w h (w.btrees p).family_txn (GET_TABLENAME w (w.btAddr p) iTable) false).2 h
      (((db_open w h (w.btrees p).family_txn (GET_TABLENAME w (w.btAddr p) iTable) false).2.btrees
        p).savepoint_txn) (GET_TABLENAME w (w.btAddr p) iTable)
      ((w.shared (w.btAddr p)).db_oflags &&& DB_CREATE != 0)
    exact ⟨b1.trans a1, b2.trans a2, b3.trans a3⟩
  · exact db_open_frame _ _ _ _ _
  · exact db_open_frame _ _ _ _ _
  · exact ⟨rfl, rfl, rfl⟩
  · exact ⟨rfl, rfl, rfl⟩

theorem btreeCreateDataTable_handle_frame (w : World) (p : Nat) (iTable : Int) :
    (btreeCreateDataTable_handle w p iTable).2.2.shared = w.shared ∧
    (btreeCreateDataTable_handle w p iTable).2.2.btrees = w.btrees ∧
    (btreeCreateDataTable_handle w p iTable).2.2.cursors = w.cursors := by
  have hc : (db_create w).2.2.shared = w.shared ∧ (db_create w).2.2.btrees = w.btrees ∧
      (db_create w).2.2.cursors = w.cursors := by
    unfold db_create
    simp only []
    split_ifs <;> exact ⟨engine_shared _ _, engine_btrees _ _, engine_cursors _ _⟩
  unfold btreeCreateDataTable_handle
  simp only []
  cases (db_create w).2.1 with
  | none => exact hc
  | some h =>
    dsimp only
    split_ifs <;>
      simp only [engine_shared, engine_btrees, engine_cursors, setDbh_shared, setDbh_btrees,
        setDbh_cursors] <;> exact hc

theorem db_close_frame2 (w : World) (h : Nat) :
    (db_close w h).2.shared = w.shared ∧ (db_close w h).2.btrees = w.btrees ∧
    (db_close w h).2.cursors = w.cursors := by
  unfold db_close World.engine
  cases w.faults <;> exact ⟨rfl, rfl, rfl⟩

/-- C24, counterexample: in `World.contended1` the engine fails the open of
the data table once with `DB_LOCK_DEADLOCK` and nothing after that, so that a
next attempt succeeds (a second `btreeCreateDataTable` returns `SQLITE_OK`).
`btreeCreateDataTable` returns `SQLITE_BUSY`, and so does
`sqlite3BtreeCreateTable`; `sqlite3BtreeCursor` returns `SQLITE_OK` and leaves
the cursor in `CURSOR_FAULT` with the error `SQLITE_BUSY`. -/
theorem btreeCreateDataTable_deadlock_once :
    (btreeCreateDataTable_handle World.contended1 1 3).1 = 0 ∧
    (btreeCreateDataTable_handle World.contended1 1 3).2.2.faults = [DB_LOCK_DEADLOCK] ∧
    (btreeCreateDataTable World.contended1 1 3 false).1 = SQLITE_BUSY ∧
    (btreeCreateDataTable World.contended1 1 3 false).2.faults = [] ∧
    (btreeCreateDataTable (btreeCreateDataTable World.contended1 1 3 false).2 1 3 false).1
      = SQLITE_OK ∧
    (sqlite3BtreeCreateTable EnvOps.idle World.contended1 1 BTREE_INTKEY).1 = SQLITE_BUSY ∧
    (sqlite3BtreeCursor EnvOps.idle World.contended1 1 3 false 10).1 = SQLITE_OK ∧
    ((sqlite3BtreeCursor EnvOps.idle World.contended1 1 3 false 10).2.cursors 10).eState
      = CURSOR_FAULT ∧
    ((sqlite3BtreeCursor EnvOps.idle World.contended1 1 3 false 10).2.cursors 10).error
      = SQLITE_BUSY := by
  refine ⟨by decide, by decide, by decide, by decide, by decide, by decide, by decide,
    by decide, by decide⟩

/-- C24, amended: `btreeCreateDataTable` does not retry.  When the new handle
`h` is set up (in the world `w2`) and the opening of the table returns
`DB_LOCK_DEADLOCK` or `DB_LOCK_NOTGRANTED`, `btreeCreateDataTable` closes `h`
and returns `SQLITE_BUSY`, leaving the handle cache and the connection as they
were; and when the first engine call of the opening is scripted to fail so,
the opening consists of that one call, whatever the engine would answer
next. -/
theorem btreeCreateDataTable_no_retry (w : World) (p : Nat) (iTable : Int) (haveCached : Bool)
    (h : Nat) (w2 : World)
    (hh : btreeCreateDataTable_handle w p iTable = (0, some h, w2))
    (hd : (btreeCreateDataTable_open w2 p h iTable).1 = DB_LOCK_DEADLOCK ∨
      (btreeCreateDataTable_open w2 p h iTable).1 = DB_LOCK_NOTGRANTED) :
    btreeCreateDataTable w p iTable haveCached
      = (SQLITE_BUSY, (db_close (btreeCreateDataTable_open w2 p h iTable).2 h).2) ∧
    (btreeCreateDataTable w p iTable haveCached).2.shared = w.shared ∧
    (btreeCreateDataTable w p iTable haveCached).2.btrees = w.btrees ∧
    (∀ (d : Int) (rest : List Int), w2.faults = d :: rest →
      (d = DB_LOCK_DEADLOCK ∨ d = DB_LOCK_NOTGRANTED) → (w2.bt p).resultsBuffer = false →
      btreeCreateDataTable_open w2 p h iTable = (d, { w2 with faults := rest })) := by
  have hne : (btreeCreateDataTable_open w2 p h iTable).1 ≠ 0 := by
    rcases hd with e | e <;> rw [e] <;> decide
  have hbusy : dberr2sqlite (btreeCreateDataTable_open w2 p h iTable).1 = SQLITE_BUSY := by
    rcases hd with e | e <;> rw [e] <;> decide
  have hmain : btreeCreateDataTable w p iTable haveCached
      = (SQLITE_BUSY, (db_close (btreeCreateDataTable_open w2 p h iTable).2 h).2) := by
    unfold btreeCreateDataTable
    simp only [hh]
    rw [if_neg (by decide), if_pos hne]
    unfold btreeCreateDataTable_err
    simp only [if_neg hne, hbusy]
  have hfr := btreeCreateDataTable_handle_frame w p iTable
  rw [hh] at hfr
  obtain ⟨o1, o2, _⟩ := btreeCreateDataTable_open_frame w2 p h iTable
  obtain ⟨c1, c2, _⟩ := db_close_frame2 (btreeCreateDataTable_open w2 p h iTable).2 h
  refine ⟨hmain, ?_, ?_, ?_⟩
  · rw [hmain]
    exact c1.trans (o1.trans hfr.1)
  · rw [hmain]
    exact c2.trans (o2.trans hfr.2.1)
  · intro d rest hf hdd hrb
    have hd0 : d ≠ 0 := by rcases hdd with e | e <;> rw [e] <;> decide
    have hdE : d ≠ ENOENT := by rcases hdd with e | e <;> rw [e] <;> decide
    have hrb2 : (w2.shared (w2.btAddr p)).resultsBuffer = false := hrb
    unfold btreeCreateDataTable_open
    simp only [hrb2]
    by_cases hn : (w2.shared (w2.btAddr p)).dbStorage = DB_STORE_NAMED ∧
        (w2.shared (w2.btAddr p)).db_oflags &&& DB_CREATE ≠ 0
    · simp only [if_pos hn, db_open_fault w2 h _ _ _ d rest hf hd0, if_neg hdE,
        Bool.not_false, if_true]
    · simp only [if_neg hn, db_open_fault w2 h _ _ _ d rest hf hd0,
        Bool.not_false, if_true]

/-- C24, witness: the contended open of `World.contended1`. -/
theorem btreeCreateDataTable_no_retry_witness :
    (btreeCreateDataTable World.contended1 1 3 false).1 = SQLITE_BUSY ∧
    (btreeCreateDataTable World.contended1 1 3 false).2.shared = World.contended1.shared :=
  ⟨congrArg Prod.fst (btreeCreateDataTable_no_retry World.contended1 1 3 false 1
      (btreeCreateDataTable_handle World.contended1 1 3).2.2 rfl (Or.inl (by decide))).1,
    (btreeCreateDataTable_no_retry World.contended1 1 3 false 1
      (btreeCreateDataTable_handle World.contended1 1 3).2.2 rfl (Or.inl (by decide))).2.1⟩

/-! ## Reading the last table id -/

theorem decimal_foldl_ge : ∀ (ds : List Nat) (acc : Int), 0 ≤ acc →
    (∀ c ∈ ds, 48 ≤ c ∧ c ≤ 57) →
    acc ≤ ds.foldl (fun (a : Int) (c : Nat) => a * 10 + ((c : Int) - 48)) acc := by
  intro ds
  induction ds with
  | nil =>
    intro acc _ _
    exact le_refl _
  | cons c cs ih =>
    intro acc h0 hd
    have hc := hd c (List.mem_cons_self _ _)
    have h1 : 0 ≤ acc * 10 + ((c : Int) - 48) := by omega
    have := ih (acc * 10 + ((c : Int) - 48)) h1 (fun x hx => hd x (List.mem_cons_of_mem _ hx))
    simp only [List.foldl_cons]
    omega

/-- The loop of `btreeTableNameToId` over decimal digits gives the number they
write, as long as that number is in the range of `int`. -/
theorem tableNameDigits_value : ∀ (ds : List Nat) (acc : Int), 0 ≤ acc →
    (∀ c ∈ ds, 48 ≤ c ∧ c ≤ 57) →
    ds.foldl (fun (a : Int) (c : Nat) => a * 10 + ((c : Int) - 48)) acc < 2147483648 →
    tableNameDigits ds acc = some (ds.foldl (fun (a : Int) (c : Nat) => a * 10 + ((c : Int) - 48)) acc) := by
  intro ds
  induction ds with
  | nil =>
    intro acc _ _ _
    rfl
  | cons c cs ih =>
    intro acc h0 hd hlt
    have hc := hd c (List.mem_cons_self _ _)
    have hrest : ∀ x ∈ cs, 48 ≤ x ∧ x ≤ 57 := fun x hx => hd x (List.mem_cons_of_mem _ hx)
    have h1 : 0 ≤ acc * 10 + ((c : Int) - 48) := by omega
    have hge := decimal_foldl_ge cs _ h1 hrest
    simp only [List.foldl_cons] at hlt ⊢
    unfold tableNameDigits
    rw [if_neg (by omega), wrap32_of_range _ (by omega) (by omega)]
    exact ih _ h1 hrest hlt

theorem db_cursor_spec (w : World) (h : Nat) (t : Option Nat) :
    ((db_cursor w h t).2.1 = none ∧ (db_cursor w h t).1 ≠ 0) ∨
    ∃ c : Nat, (db_cursor w h t).2.1 = some c ∧ (db_cursor w h t).1 = 0 ∧
      ((db_cursor w h t).2.2.dbcs c).dbp = h ∧
      (db_cursor w h t).2.2.tables = w.tables ∧ (db_cursor w h t).2.2.dbhs = w.dbhs := by
  have e1 : (w.engine 0).2.tables = w.tables := by
    unfold World.engine
    cases w.faults <;> rfl
  have e2 : (w.engine 0).2.dbhs = w.dbhs := by
    unfold World.engine
    cases w.faults <;> rfl
  unfold db_cursor
  simp only []
  by_cases hr : (w.engine 0).1 ≠ 0
  · rw [if_pos hr]
    exact Or.inl ⟨rfl, hr⟩
  · rw [if_neg hr]
    exact Or.inr ⟨(w.engine 0).2.handles, rfl, rfl, by simp, e1, e2⟩

theorem dbc_get_last (v : World) (c : Nat) (key : List Nat) (row : List Nat × List Nat)
    (h : (dbc_get v c GetOp.DB_LAST key).2.1 = some row) :
    (v.tables (v.dbhs (v.dbcs c).dbp).tid).getLast? = some row := by
  cases hs : (v.tables (v.dbhs (v.dbcs c).dbp).tid).getLast? with
  | none =>
    have e : (dbc_get v c GetOp.DB_LAST key).2.1 = none := by
      simp only [dbc_get, selectRow, hs]
      split_ifs <;> rfl
    rw [e] at h
    exact absurd h (by simp)
  | some r =>
    have e : (dbc_get v c GetOp.DB_LAST key).2.1 = none ∨
        (dbc_get v c GetOp.DB_LAST key).2.1 = some r := by
      simp only [dbc_get, selectRow, hs]
      split_ifs <;> first | exact Or.inl rfl | exact Or.inr rfl
    rcases e with e | e
    · rw [e] at h
      exact absurd h (by simp)
    · rw [e] at h
      exact h

/-- What `btreeCreateTable` reads as `lastTable` is the last id the state
has, whenever the reading succeeds. -/
theorem btreeCreateTable_last_read (w : World) (p : Nat) (L : Int) (hL : w.lastId p L)
    (hhi : L < 2147483648) (h0 : (btreeCreateTable_last w p).1 = 0) :
    (btreeCreateTable_last w p).2.1 = L := by
  unfold World.lastId at hL
  unfold btreeCreateTable_last at h0 ⊢
  simp only [] at h0 ⊢
  by_cases hn : (w.bt p).dbStorage = DB_STORE_NAMED
  · have hn2 : (w.shared (w.btAddr p)).dbStorage = DB_STORE_NAMED := hn
    rw [if_pos hn] at hL
    rw [if_pos hn2] at h0 ⊢
    have ht : (w.shared (w.btAddr p)).tablesdb = (w.bt p).tablesdb := rfl
    rw [ht] at h0 ⊢
    generalize (w.bt p).tablesdb = T at hL h0 ⊢
    cases T with
    | none =>
      dsimp only at h0
      exact absurd h0 (by decide)
    | some tdb =>
      dsimp only at hL h0 ⊢
      obtain hc | ⟨c, hc1, hc2, hc3, hc4, hc5⟩ := db_cursor_spec w tdb (w.btrees p).family_txn
      · rw [hc.1] at h0
        dsimp only at h0
        rw [if_neg hc.2] at h0
        exact absurd h0 hc.2
      · have hlast := dbc_get_last (db_cursor w tdb (w.btrees p).family_txn).2.2 c []
        rw [hc3, hc4, hc5] at hlast
        rw [hc1] at h0 ⊢
        dsimp only at h0 ⊢
        rw [if_neg (not_not.mpr hc2)] at h0 ⊢
        generalize dbc_get (db_cursor w tdb (w.btrees p).family_txn).2.2 c GetOp.DB_LAST [] = G
          at hlast h0 ⊢
        obtain ⟨g1, g2, g3⟩ := G
        cases g2 with
        | none =>
          dsimp only at h0
          by_cases hg : g1 = 0
          · rw [if_pos hg] at h0
            exact absurd h0 (by decide)
          · rw [if_neg hg] at h0
            exact absurd h0 hg
        | some row =>
          have hrow := hlast row rfl
          rw [hrow] at hL
          dsimp only at hL h0 ⊢
          by_cases hg : g1 ≠ 0
          · rw [if_pos hg] at h0
            exact absurd h0 hg
          · rw [if_neg hg] at h0 ⊢
            by_cases h5 : List.take 5 row.1 = tableBytes
            · rw [if_pos h5] at hL h0 ⊢
              have hv := tableNameDigits_value (List.drop 5 row.1) 0 (le_refl 0) hL.1
                (by
                  have := hL.2
                  unfold decimalValue at this
                  rw [this]
                  exact hhi)
              have hid : btreeTableNameToId row.1 = (0, some L) := by
                unfold btreeTableNameToId
                rw [hv]
                have := hL.2
                unfold decimalValue at this
                rw [this]
              rw [hid] at h0 ⊢
              simp
            · rw [if_neg h5] at hL h0 ⊢
              simp [hL]
  · have hn2 : ¬ (w.shared (w.btAddr p)).dbStorage = DB_STORE_NAMED := hn
    rw [if_neg hn] at hL
    rw [if_neg hn2]
    exact hL

/-! ## The names of the tables database -/

theorem tableName5_take (j : Nat) : (tableName5 j).take 5 = tableBytes := rfl

theorem tableName5_drop (j : Nat) : (tableName5 j).drop 5 = decimal5 j := rfl

theorem decimal5_digits (j : Nat) : ∀ c ∈ decimal5 j, 48 ≤ c ∧ c ≤ 57 := by
  intro c hc
  simp only [decimal5, List.mem_cons, List.mem_singleton, List.not_mem_nil, or_false] at hc
  omega

theorem decimal5_value (j : Nat) (hj : j < 100000) : decimalValue (decimal5 j) = (j : Int) := by
  unfold decimalValue decimal5
  simp only [List.foldl]
  push_cast
  omega

theorem db_cursor_shared (v : World) (h : Nat) (t : Option Nat) :
    (db_cursor v h t).2.2.shared = v.shared := by
  unfold db_cursor
  simp only []
  split <;> simp

theorem dbc_get_shared (v : World) (c : Nat) (op : GetOp) (key : List Nat) :
    (dbc_get v c op key).2.2.shared = v.shared := by
  unfold dbc_get
  simp only []
  repeat' split
  all_goals simp [setDbc_shared]

theorem btreeCreateTable_last_shared (w : World) (p : Nat) :
    (btreeCreateTable_last w p).2.2.2.shared = w.shared := by
  unfold btreeCreateTable_last
  simp only []
  repeat' split
  all_goals
    simp only [(dbc_close_frame _ _).2.1, dbc_get_shared, db_cursor_shared]

theorem db_cursor_btrees (v : World) (h : Nat) (t : Option Nat) :
    (db_cursor v h t).2.2.btrees = v.btrees := by
  unfold db_cursor
  simp only []
  split <;> simp

theorem dbc_get_btrees (v : World) (c : Nat) (op : GetOp) (key : List Nat) :
    (dbc_get v c op key).2.2.btrees = v.btrees := by
  unfold dbc_get
  simp only []
  repeat' split
  all_goals simp [setDbc_btrees]

theorem btreeCreateTable_last_btrees (w : World) (p : Nat) :
    (btreeCreateTable_last w p).2.2.2.btrees = w.btrees := by
  unfold btreeCreateTable_last
  simp only []
  repeat' split
  all_goals
    simp only [(dbc_close_frame _ _).2.2.1, dbc_get_btrees, db_cursor_btrees]

theorem btreeCreateDataTable_handle_none (w : World) (p : Nat) (iTable : Int)
    (h : (btreeCreateDataTable_handle w p iTable).2.1 = none) :
    (btreeCreateDataTable_handle w p iTable).1 ≠ 0 := by
  unfold btreeCreateDataTable_handle db_create at h ⊢
  simp only [] at h ⊢
  by_cases hr : (w.engine 0).1 ≠ 0
  · simp only [if_pos hr] at h ⊢
    exact hr
  · simp only [if_neg hr] at h
    split_ifs at h

/-- What `btreeCreateDataTable` leaves in the `BtShared`s: nothing new when it
fails; when it succeeds with no entry handed in, the entry of the table in
the cache of the connection's `BtShared`, marked integer-keyed exactly for an
odd id. -/
theorem btreeCreateDataTable_shared (w : World) (p : Nat) (iTable : Int) :
    ((btreeCreateDataTable w p iTable false).1 ≠ SQLITE_OK →
      (btreeCreateDataTable w p iTable false).2.shared = w.shared) ∧
    ((btreeCreateDataTable w p iTable false).1 = SQLITE_OK →
      ∃ h : Nat, (btreeCreateDataTable w p iTable false).2.shared
        = Function.update w.shared (w.btAddr p)
            { w.shared (w.btAddr p) with
              db_cache := cacheInsert (w.shared (w.btAddr p)).db_cache iTable
                (some { dbp := some h, flags := if iTable % 2 ≠ 0 then BTREE_INTKEY else 0,
                        created := true }) }) ∧
    (btreeCreateDataTable w p iTable false).2.btAddr p = w.btAddr p := by
  obtain ⟨f1, f2, _⟩ := btreeCreateDataTable_handle_frame w p iTable
  have hnone := btreeCreateDataTable_handle_none w p iTable
  unfold btreeCreateDataTable
  simp only []
  generalize btreeCreateDataTable_handle w p iTable = H at f1 f2 hnone
  obtain ⟨ret, oh, w2⟩ := H
  cases oh with
  | none =>
    have hr : ret ≠ 0 := hnone rfl
    dsimp only
    unfold btreeCreateDataTable_err
    simp only [if_neg hr]
    exact ⟨fun _ => f1, fun hok => absurd ((dberr2sqlite_ok ret).mp hok) hr,
      by unfold World.btAddr; rw [f2]⟩
  | some h =>
    dsimp only at f1 f2 ⊢
    by_cases hr : ret ≠ 0
    · rw [if_pos hr]
      unfold btreeCreateDataTable_err
      simp only [if_neg hr]
      exact ⟨fun _ => (db_close_frame2 w2 h).1.trans f1,
        fun hok => absurd ((dberr2sqlite_ok ret).mp hok) hr,
        by unfold World.btAddr; rw [(db_close_frame2 w2 h).2.1, f2]⟩
    · rw [if_neg hr]
      obtain ⟨o1, o2, _⟩ := btreeCreateDataTable_open_frame w2 p h iTable
      generalize btreeCreateDataTable_open w2 p h iTable = O at o1 o2
      obtain ⟨oret, w3⟩ := O
      dsimp only at o1 o2 ⊢
      by_cases ho : oret ≠ 0
      · rw [if_pos ho]
        unfold btreeCreateDataTable_err
        simp only [if_neg ho]
        exact ⟨fun _ => (db_close_frame2 w3 h).1.trans (o1.trans f1),
          fun hok => absurd ((dberr2sqlite_ok oret).mp hok) ho,
          by unfold World.btAddr; rw [(db_close_frame2 w3 h).2.1, o2, f2]⟩
      · rw [if_neg ho]
        refine ⟨fun hne => absurd rfl hne, fun _ => ⟨h, ?_⟩, ?_⟩
        · simp only [Bool.false_eq_true, if_false]
          rw [setBtree_shared]
          unfold World.setShared
          simp only [o1, f1]
        · simp only [Bool.false_eq_true, if_false]
          unfold World.btAddr
          rw [setBtree_btrees_same]
          simp only [setShared_btrees, o2, f2]

/-- The id `btreeCreateTable` computes from the value `lastTable` it has read,
where `0 ≤ lastTable` and `lastTable + 2` is in the range of `int`: on success
it writes to `*piTable` the smallest id above `lastTable` that is odd exactly
when `BTREE_INTKEY` is set in `flags`; the id is `lastTable + 1` or
`lastTable + 2` and is the new `last_table`, the storage mode is as it was,
and the handle cached for the id is marked integer-keyed exactly when
`BTREE_INTKEY` was requested.  When `lastTable` was read and creating the data
table fails, `*piTable` is not written and `last_table` is as it was. -/
theorem btreeCreateTable_next_read (w : World) (p : Nat) (flags : Nat)
    (hlo : 0 ≤ (btreeCreateTable_last w p).2.1)
    (hhi : (btreeCreateTable_last w p).2.1 + 2 < 2147483648) :
    ((btreeCreateTable w p flags).1 = SQLITE_OK →
      ∃ i : Int, (btreeCreateTable w p flags).2.1 = some i ∧
        (btreeCreateTable_last w p).2.1 < i ∧
        (i % 2 = 1 ↔ flags &&& BTREE_INTKEY ≠ 0) ∧
        (∀ j : Int, (btreeCreateTable_last w p).2.1 < j →
          (j % 2 = 1 ↔ flags &&& BTREE_INTKEY ≠ 0) → i ≤ j) ∧
        (i = (btreeCreateTable_last w p).2.1 + 1 ∨ i = (btreeCreateTable_last w p).2.1 + 2) ∧
        ((btreeCreateTable w p flags).2.2.bt p).last_table = i ∧
        ((btreeCreateTable w p flags).2.2.bt p).dbStorage = (w.bt p).dbStorage ∧
        ∃ e : CACHED_DB,
          cacheFind ((btreeCreateTable w p flags).2.2.bt p).db_cache i = some e ∧
          (e.flags &&& BTREE_INTKEY ≠ 0 ↔ flags &&& BTREE_INTKEY ≠ 0)) ∧
    ((btreeCreateTable_last w p).1 = 0 → (btreeCreateTable w p flags).1 ≠ SQLITE_OK →
      (btreeCreateTable w p flags).2.1 = none ∧
      ((btreeCreateTable w p flags).2.2.bt p).last_table = (w.bt p).last_table) := by
  have hls := btreeCreateTable_last_shared w p
  have hlb : (btreeCreateTable_last w p).2.2.2.btAddr p = w.btAddr p := by
    unfold World.btAddr
    rw [btreeCreateTable_last_btrees]
  have key : ∀ i : Int, (i = (btreeCreateTable_last w p).2.1 + 1
        ∨ i = (btreeCreateTable_last w p).2.1 + 2) →
      (i % 2 = 1 ↔ flags &&& BTREE_INTKEY ≠ 0) →
      (i = (btreeCreateTable_last w p).2.1 + 2 →
        ¬ (((btreeCreateTable_last w p).2.1 + 1) % 2 = 1 ↔ flags &&& BTREE_INTKEY ≠ 0)) →
      btreeCreateTable w p flags
        = (if (btreeCreateDataTable (btreeCreateTable_last w p).2.2.2 p i false).1 = SQLITE_OK then
            (MAP_ERR (btreeCreateDataTable (btreeCreateTable_last w p).2.2.2 p i false).1 0,
              some i,
              (btreeCreateDataTable (btreeCreateTable_last w p).2.2.2 p i false).2.setShared
                (w.btAddr p)
                { (btreeCreateDataTable (btreeCreateTable_last w p).2.2.2 p i false).2.shared
                    (w.btAddr p) with last_table := i })
          else
            (MAP_ERR (btreeCreateDataTable (btreeCreateTable_last w p).2.2.2 p i false).1 0,
              none, (btreeCreateDataTable (btreeCreateTable_last w p).2.2.2 p i false).2)) →
      (((btreeCreateTable w p flags).1 = SQLITE_OK →
        ∃ i : Int, (btreeCreateTable w p flags).2.1 = some i ∧
          (btreeCreateTable_last w p).2.1 < i ∧
          (i % 2 = 1 ↔ flags &&& BTREE_INTKEY ≠ 0) ∧
          (∀ j : Int, (btreeCreateTable_last w p).2.1 < j →
            (j % 2 = 1 ↔ flags &&& BTREE_INTKEY ≠ 0) → i ≤ j) ∧
          (i = (btreeCreateTable_last w p).2.1 + 1 ∨ i = (btreeCreateTable_last w p).2.1 + 2) ∧
          ((btreeCreateTable w p flags).2.2.bt p).last_table = i ∧
          ((btreeCreateTable w p flags).2.2.bt p).dbStorage = (w.bt p).dbStorage ∧
          ∃ e : CACHED_DB,
            cacheFind ((btreeCreateTable w p flags).2.2.bt p).db_cache i = some e ∧
            (e.flags &&& BTREE_INTKEY ≠ 0 ↔ flags &&& BTREE_INTKEY ≠ 0)) ∧
      ((btreeCreateTable_last w p).1 = 0 → (btreeCreateTable w p flags).1 ≠ SQLITE_OK →
        (btreeCreateTable w p flags).2.1 = none ∧
        ((btreeCreateTable w p flags).2.2.bt p).last_table = (w.bt p).last_table)) := by
    intro i hi hpar hmin heq
    rw [heq]
    obtain ⟨d1, d2, d3⟩ := btreeCreateDataTable_shared (btreeCreateTable_last w p).2.2.2 p i
    rw [hlb] at d2 d3
    rw [hls] at d1 d2
    have d3b : ((btreeCreateDataTable (btreeCreateTable_last w p).2.2.2 p i false).2.btrees
        p).pBt.getD 0 = w.btAddr p := d3
    generalize btreeCreateDataTable (btreeCreateTable_last w p).2.2.2 p i false = R
      at d1 d2 d3b
    by_cases hr : R.1 = SQLITE_OK
    · rw [if_pos hr]
      obtain ⟨h, hsh⟩ := d2 hr
      have hbt : (R.2.setShared (w.btAddr p)
          { R.2.shared (w.btAddr p) with last_table := i }).bt p
          = { R.2.shared (w.btAddr p) with last_table := i } := by
        unfold World.bt
        rw [setShared_btrees, d3b, setShared_shared_same]
      refine ⟨fun _ => ⟨i, rfl, ?_, hpar, ?_, hi, ?_, ?_, ?_⟩, fun _ hne => ?_⟩
      · rcases hi with e | e <;> omega
      · intro j hj hjp
        rcases hi with e | e
        · omega
        · have := hmin e
          by_contra hcon
          have hj1 : j = (btreeCreateTable_last w p).2.1 + 1 := by omega
          rw [hj1] at hjp
          exact this hjp
      · show ((R.2.setShared (w.btAddr p)
          { R.2.shared (w.btAddr p) with last_table := i }).bt p).last_table = i
        rw [hbt]
      · show ((R.2.setShared (w.btAddr p)
          { R.2.shared (w.btAddr p) with last_table := i }).bt p).dbStorage = _
        rw [hbt]
        show (R.2.shared (w.btAddr p)).dbStorage = _
        rw [hsh, Function.update_same]
        rfl
      · show ∃ e : CACHED_DB, cacheFind ((R.2.setShared (w.btAddr p)
          { R.2.shared (w.btAddr p) with last_table := i }).bt p).db_cache i = some e ∧ _
        rw [hbt]
        refine ⟨{ dbp := some h, flags := if i % 2 ≠ 0 then BTREE_INTKEY else 0,
                  created := true }, ?_, ?_⟩
        · show cacheFind (R.2.shared (w.btAddr p)).db_cache i = _
          rw [hsh, Function.update_same]
          exact cacheFind_cacheInsert _ _ _
        · show (if i % 2 ≠ 0 then BTREE_INTKEY else 0) &&& BTREE_INTKEY ≠ 0 ↔ _
          rw [← hpar]
          by_cases hp2 : i % 2 ≠ 0
          · rw [if_pos hp2]
            constructor
            · intro _; omega
            · intro _; decide
          · rw [if_neg hp2]
            constructor
            · intro hh; exact absurd rfl hh
            · intro hh; omega
      · exfalso
        apply hne
        show MAP_ERR R.1 0 = SQLITE_OK
        rw [hr]
        rfl
    · rw [if_neg hr]
      refine ⟨fun hok => ?_, fun _ _ => ⟨rfl, ?_⟩⟩
      · exfalso
        apply hr
        exact ((MAP_ERR_ok _ _).mp hok).1
      · show (R.2.bt p).last_table = (w.bt p).last_table
        unfold World.bt
        rw [d3b, d1 hr]
        rfl
  by_cases h0 : (btreeCreateTable_last w p).1 = 0
  · have hl1 := wrap32_of_range ((btreeCreateTable_last w p).2.1 + 1) (by omega) (by omega)
    have hl2 := wrap32_of_range ((btreeCreateTable_last w p).2.1 + 1 + 1) (by omega) (by omega)
    by_cases hint : flags &&& BTREE_INTKEY ≠ 0
    · by_cases hpar : ((btreeCreateTable_last w p).2.1 + 1) % 2 = 0
      · refine key ((btreeCreateTable_last w p).2.1 + 1 + 1) (Or.inr (by omega)) ?_ ?_ ?_
        · constructor
          · intro _; exact hint
          · intro _; omega
        · intro _ hiff
          have := hiff.mpr hint
          omega
        · unfold btreeCreateTable
          simp only []
          rw [if_neg (not_not.mpr h0), if_pos hint, hl1, if_pos hpar, hl2]
      · refine key ((btreeCreateTable_last w p).2.1 + 1) (Or.inl rfl) ?_ ?_ ?_
        · constructor
          · intro _; exact hint
          · intro _; omega
        · intro hh; omega
        · unfold btreeCreateTable
          simp only []
          rw [if_neg (not_not.mpr h0), if_pos hint, hl1, if_neg hpar]
    · by_cases hpar : ((btreeCreateTable_last w p).2.1 + 1) % 2 = 1
      · refine key ((btreeCreateTable_last w p).2.1 + 1 + 1) (Or.inr (by omega)) ?_ ?_ ?_
        · constructor
          · intro hh; omega
          · intro hh; exact absurd hh hint
        · intro _ hiff
          exact hint (hiff.mp hpar)
        · unfold btreeCreateTable
          simp only []
          rw [if_neg (not_not.mpr h0), if_neg hint, hl1, if_pos hpar, hl2]
      · refine key ((btreeCreateTable_last w p).2.1 + 1) (Or.inl rfl) ?_ ?_ ?_
        · constructor
          · intro hh; exact absurd hh hpar
          · intro hh; exact absurd hh hint
        · intro hh; omega
        · unfold btreeCreateTable
          simp only []
          rw [if_neg (not_not.mpr h0), if_neg hint, hl1, if_neg hpar]
  · have hst : (btreeCreateTable w p flags).1 ≠ SQLITE_OK := by
      unfold btreeCreateTable
      simp only []
      rw [if_pos h0]
      intro hok
      exact h0 ((MAP_ERR_ok SQLITE_OK _).mp hok).2
    exact ⟨fun hok => absurd hok hst, fun hh => absurd hh h0⟩

/-- C26: let `L`, with `0 ≤ L` and `L + 2` in the range of `int`, be the last
id allocated on the handle, as the state has it (`World.lastId`:
`pBt->last_table`, or on a named handle the number in the last name of the
tables database).  A successful `btreeCreateTable` writes to `*piTable` the
smallest id `i > L` that is odd exactly when `BTREE_INTKEY` is set in `flags`;
`i` is `L + 1` or `L + 2` and is the new `last_table`, and the handle cached
for `i` is marked integer-keyed exactly when `BTREE_INTKEY` was requested.
When `btreeCreateTable` fails, `*piTable` is not written and `last_table` is
as it was. -/
theorem btreeCreateTable_next_id (w : World) (p : Nat) (flags : Nat) (L : Int)
    (hL : w.lastId p L) (hlo : 0 ≤ L) (hhi : L + 2 < 2147483648) :
    ((btreeCreateTable w p flags).1 = SQLITE_OK →
      ∃ i : Int, (btreeCreateTable w p flags).2.1 = some i ∧
        L < i ∧
        (i % 2 = 1 ↔ flags &&& BTREE_INTKEY ≠ 0) ∧
        (∀ j : Int, L < j → (j % 2 = 1 ↔ flags &&& BTREE_INTKEY ≠ 0) → i ≤ j) ∧
        (i = L + 1 ∨ i = L + 2) ∧
        ((btreeCreateTable w p flags).2.2.bt p).last_table = i ∧
        ∃ e : CACHED_DB,
          cacheFind ((btreeCreateTable w p flags).2.2.bt p).db_cache i = some e ∧
          (e.flags &&& BTREE_INTKEY ≠ 0 ↔ flags &&& BTREE_INTKEY ≠ 0)) ∧
    ((btreeCreateTable w p flags).1 ≠ SQLITE_OK →
      (btreeCreateTable w p flags).2.1 = none ∧
      ((btreeCreateTable w p flags).2.2.bt p).last_table = (w.bt p).last_table) := by
  by_cases h0 : (btreeCreateTable_last w p).1 = 0
  · have hv := btreeCreateTable_last_read w p L hL (by omega) h0
    have key := btreeCreateTable_next_read w p flags (by rw [hv]; exact hlo)
      (by rw [hv]; exact hhi)
    rw [hv] at key
    refine ⟨fun hok => ?_, fun hne => key.2 h0 hne⟩
    obtain ⟨i, k1, k2, k3, k4, k5, k6, _, k8⟩ := key.1 hok
    exact ⟨i, k1, k2, k3, k4, k5, k6, k8⟩
  · have heq : btreeCreateTable w p flags
        = (MAP_ERR SQLITE_OK (btreeCreateTable_last w p).1, none,
            match (btreeCreateTable_last w p).2.2.1 with
            | some dbc => (dbc_close (btreeCreateTable_last w p).2.2.2 dbc).2
            | none => (btreeCreateTable_last w p).2.2.2) := by
      unfold btreeCreateTable
      simp only []
      rw [if_pos h0]
    have hst : (btreeCreateTable w p flags).1 ≠ SQLITE_OK := by
      rw [heq]
      intro hok
      exact h0 ((MAP_ERR_ok SQLITE_OK _).mp hok).2
    refine ⟨fun hok => absurd hok hst, fun _ => ?_⟩
    rw [heq]
    refine ⟨rfl, ?_⟩
    have hls := btreeCreateTable_last_shared w p
    have hlb := btreeCreateTable_last_btrees w p
    dsimp only
    unfold World.bt
    cases (btreeCreateTable_last w p).2.2.1 with
    | none =>
      dsimp only
      rw [hls, hlb]
    | some dbc =>
      dsimp only
      rw [(dbc_close_frame _ dbc).2.1, (dbc_close_frame _ dbc).2.2.1, hls, hlb]

/-- On the named handle of `World.tablesFile` the last name of the tables
database is "table00005": the last id is 5. -/
theorem tablesFile_lastId : World.tablesFile.lastId 1 5 := by
  have e1 : (World.tablesFile.bt 1).dbStorage = DB_STORE_NAMED := by decide!
  have e2 : (World.tablesFile.bt 1).tablesdb = some 14 := by decide!
  have e3 : (World.tablesFile.tables (World.tablesFile.dbhs 14).tid).getLast?
      = some (tableName5 5, []) := by decide!
  unfold World.lastId
  rw [if_pos e1, e2]
  dsimp only
  rw [e3]
  dsimp only
  rw [if_pos (tableName5_take 5), tableName5_drop]
  exact ⟨decimal5_digits 5, decimal5_value 5 (by decide)⟩

/-- On the in-memory handle of `World.memThree` the last id is
`pBt->last_table`, 3. -/
theorem memThree_lastId : World.memThree.lastId 1 3 := by
  have e1 : ¬ (World.memThree.bt 1).dbStorage = DB_STORE_NAMED := by decide!
  have e2 : (World.memThree.bt 1).last_table = 3 := by decide!
  unfold World.lastId
  rw [if_neg e1]
  exact e2

theorem tablesFile_create :
    (btreeCreateTable World.tablesFile 1 BTREE_ZERODATA).1 = SQLITE_OK ∧
    (btreeCreateTable World.tablesFile 1 (BTREE_INTKEY ||| BTREE_LEAFDATA)).1 = SQLITE_OK ∧
    (btreeCreateTable World.tablesFile 1 (BTREE_INTKEY ||| BTREE_LEAFDATA)).2.1 = some 7 ∧
    (btreeCreateTable World.tablesFile 1 BTREE_ZERODATA).2.1 = some 6 := by
  refine ⟨?_, ?_, ?_, ?_⟩ <;> decide!

theorem memThree_create :
    (btreeCreateTable World.memThree 1 (BTREE_INTKEY ||| BTREE_LEAFDATA)).2.1 = some 5 ∧
    (btreeCreateTable World.memThree 1 BTREE_ZERODATA).2.1 = some 4 := by
  refine ⟨?_, ?_⟩ <;> decide!

/-- C26, witness: on the named handle of `World.tablesFile` the last name of
the tables database is "table00005", so the last id is 5: an integer-keyed
table gets the id 7 and a table with general keys the id 6.  On the in-memory
handle of `World.memThree`, where `sqlite3BtreeCreateTable` created the table
3, the last id is `pBt->last_table`, 3: an integer-keyed table gets the id 5
and a table with general keys the id 4. -/
theorem btreeCreateTable_next_id_witness :
    World.tablesFile.lastId 1 5 ∧
    (btreeCreateTable World.tablesFile 1 (BTREE_INTKEY ||| BTREE_LEAFDATA)).2.1 = some 7 ∧
    (btreeCreateTable World.tablesFile 1 BTREE_ZERODATA).2.1 = some 6 ∧
    (∃ i : Int, (btreeCreateTable World.tablesFile 1 BTREE_ZERODATA).2.1 = some i ∧
      5 < i ∧
      (i % 2 = 1 ↔ BTREE_ZERODATA &&& BTREE_INTKEY ≠ 0) ∧
      (∀ j : Int, 5 < j → (j % 2 = 1 ↔ BTREE_ZERODATA &&& BTREE_INTKEY ≠ 0) → i ≤ j) ∧
      (i = 5 + 1 ∨ i = 5 + 2) ∧
      ((btreeCreateTable World.tablesFile 1 BTREE_ZERODATA).2.2.bt 1).last_table = i ∧
      ∃ e : CACHED_DB,
        cacheFind ((btreeCreateTable World.tablesFile 1 BTREE_ZERODATA).2.2.bt 1).db_cache i
          = some e ∧
        (e.flags &&& BTREE_INTKEY ≠ 0 ↔ BTREE_ZERODATA &&& BTREE_INTKEY ≠ 0)) ∧
    (∃ i : Int,
      (btreeCreateTable World.tablesFile 1 (BTREE_INTKEY ||| BTREE_LEAFDATA)).2.1 = some i ∧
      5 < i ∧
      (i % 2 = 1 ↔ (BTREE_INTKEY ||| BTREE_LEAFDATA) &&& BTREE_INTKEY ≠ 0) ∧
      (∀ j : Int, 5 < j →
        (j % 2 = 1 ↔ (BTREE_INTKEY ||| BTREE_LEAFDATA) &&& BTREE_INTKEY ≠ 0) → i ≤ j) ∧
      (i = 5 + 1 ∨ i = 5 + 2) ∧
      ((btreeCreateTable World.tablesFile 1
        (BTREE_INTKEY ||| BTREE_LEAFDATA)).2.2.bt 1).last_table = i ∧
      ∃ e : CACHED_DB,
        cacheFind ((btreeCreateTable World.tablesFile 1
          (BTREE_INTKEY ||| BTREE_LEAFDATA)).2.2.bt 1).db_cache i = some e ∧
        (e.flags &&& BTREE_INTKEY ≠ 0 ↔
          (BTREE_INTKEY ||| BTREE_LEAFDATA) &&& BTREE_INTKEY ≠ 0)) ∧
    World.memThree.lastId 1 3 ∧
    (btreeCreateTable World.memThree 1 (BTREE_INTKEY ||| BTREE_LEAFDATA)).2.1 = some 5 ∧
    (btreeCreateTable World.memThree 1 BTREE_ZERODATA).2.1 = some 4 :=
  ⟨tablesFile_lastId, tablesFile_create.2.2.1, tablesFile_create.2.2.2,
    (btreeCreateTable_next_id World.tablesFile 1 BTREE_ZERODATA 5 tablesFile_lastId
      (by decide) (by decide)).1 tablesFile_create.1,
    (btreeCreateTable_next_id World.tablesFile 1 (BTREE_INTKEY ||| BTREE_LEAFDATA) 5
      tablesFile_lastId (by decide) (by decide)).1 tablesFile_create.2.1,
    memThree_lastId, memThree_create.1, memThree_create.2⟩

/-! ## An integer-keyed table gets an odd id above the ids handed out -/

/-- When `sqlite3BtreeCreateTable` is called on a connected handle whose
results buffer is off, without `BTREE_ZERODATA` in its flags, it enters
`btreeCreateTable` in the world it was called in. -/
theorem sqlite3BtreeCreateTable_ready_connected (ops : EnvOps) (w : World) (p : Nat)
    (flags : Nat) (hz : flags &&& BTREE_ZERODATA = 0) (hb : (w.bt p).resultsBuffer = false)
    (hc : (w.btrees p).connected = true) :
    sqlite3BtreeCreateTable_ready ops w p flags = (SQLITE_OK, false, w) := by
  have hb2 : (w.shared (w.btAddr p)).resultsBuffer = false := hb
  unfold sqlite3BtreeCreateTable_ready
  simp [hz, hb2, hc]

/-- C27, the failing input: in `World.onOne` the write cursor 10 of an
integer-keyed table is valid on the key 1, its saved key is 1 and its engine
cursor rests on the row 1.  `sqlite3BtreeInsert` of the key 3 succeeds and
leaves the cursor valid, with the engine cursor and the cached key on the new
row 3, but the saved key still 1.  `sqlite3BtreeMovetoUnpacked` to the key 1
then takes the shortcut: it returns `SQLITE_OK` with `*pRes = 0` and
the engine cursor stays on the row 3; and `sqlite3BtreeDelete`, which deletes
the row the engine cursor is on, deletes the row 3 and keeps the row 1. -/
theorem sqlite3BtreeInsert_stale_key :
    (World.onOne.cursors 10).eState = CURSOR_VALID ∧
    (World.onOne.cursors 10).intKey = true ∧
    (World.onOne.cursors 10).savedIntKey = 1 ∧
    decodeKey (World.onOne.cursors 10).key = 1 ∧
    (World.onOne.cursors 10).dbc = some 5 ∧
    (World.onOne.dbcs 5).pos = some (encKey 1) ∧
    (sqlite3BtreeInsert (EnvOps.tmp EnvOps.idle) World.onOne 10 none 3 [98] 1 0).1 = SQLITE_OK ∧
    (World.afterInsert.cursors 10).eState = CURSOR_VALID ∧
    (World.afterInsert.cursors 10).intKey = true ∧
    (World.afterInsert.cursors 10).savedIntKey = 1 ∧
    decodeKey (World.afterInsert.cursors 10).key = 3 ∧
    (World.afterInsert.cursors 10).dbc = some 5 ∧
    (World.afterInsert.dbcs 5).pos = some (encKey 3) ∧
    World.afterInsert.tables (World.afterInsert.dbhs (World.afterInsert.dbcs 5).dbp).tid
      = [(encKey 1, [97]), (encKey 3, [98])] ∧
    (sqlite3BtreeMovetoUnpacked (EnvOps.tmp EnvOps.idle) World.afterInsert 10 none 1).1
      = SQLITE_OK ∧
    (sqlite3BtreeMovetoUnpacked (EnvOps.tmp EnvOps.idle) World.afterInsert 10 none 1).2.1
      = some 0 ∧
    ((sqlite3BtreeMovetoUnpacked (EnvOps.tmp EnvOps.idle) World.afterInsert 10 none 1).2.2.dbcs
      5).pos = some (encKey 3) ∧
    (sqlite3BtreeDelete (EnvOps.tmp EnvOps.idle) World.afterInsert 10).1 = SQLITE_OK ∧
    (sqlite3BtreeDelete (EnvOps.tmp EnvOps.idle) World.afterInsert 10).2.tables
        (World.afterInsert.dbhs (World.afterInsert.dbcs 5).dbp).tid
      = [(encKey 1, [97])] := by
  refine ⟨by decide!, by decide!, by decide!, by decide!, by decide!, by decide!, by decide!,
    by decide!, by decide!, by decide!, by decide!, by decide!, by decide!, by decide!,
    by decide!, by decide!, by decide!, by decide!, by decide!⟩

/-! ## A failed commit of the read transaction -/

theorem parentSteps_add (txns : Nat → DB_TXN) :
    ∀ (a b s : Nat), parentSteps txns (a + b) s
      = (parentSteps txns a s).bind (parentSteps txns b) := by
  intro a
  induction a with
  | zero =>
    intro b s
    rw [Nat.zero_add]
    rfl
  | succ a ih =>
    intro b s
    have e : a + 1 + b = (a + b) + 1 := by omega
    rw [e]
    show (txns s).parent.bind (parentSteps txns (a + b))
      = ((txns s).parent.bind (parentSteps txns a)).bind (parentSteps txns b)
    cases (txns s).parent with
    | none => rfl
    | some q =>
      simp only [Option.some_bind]
      exact ih b q

theorem parentSteps_update (txns : Nat → DB_TXN) (t : Nat) (v : DB_TXN) :
    ∀ (j s : Nat), (∀ i x, i < j → parentSteps txns i s = some x → x ≠ t) →
      parentSteps (Function.update txns t v) j s = parentSteps txns j s := by
  intro j
  induction j with
  | zero => intro s _; rfl
  | succ j ih =>
    intro s h
    have hs : s ≠ t := h 0 s (by omega) rfl
    unfold parentSteps
    rw [Function.update_noteq hs]
    cases hp : (txns s).parent with
    | none => rfl
    | some q =>
      simp only [Option.some_bind]
      apply ih
      intro i x hi hx
      apply h (i + 1) x (by omega)
      unfold parentSteps
      rw [hp]
      exact hx

theorem parentSteps_prefix (txns : Nat → DB_TXN) (n s r : Nat)
    (h : parentSteps txns n s = some r) (m : Nat) (hm : m ≤ n) :
    ∃ x, parentSteps txns m s = some x ∧ parentSteps txns (n - m) x = some r := by
  have e : n = m + (n - m) := by omega
  rw [e, parentSteps_add] at h
  cases hx : parentSteps txns m s with
  | none => rw [hx] at h; simp at h
  | some x =>
    rw [hx] at h
    exact ⟨x, rfl, h⟩

/-- What `txn_begin` does to the transaction handles: on success the next
handle is given out and linked to its parent, unless the parent is a family
transaction; on failure nothing changes. -/
theorem txn_begin_chain (w : World) (parent : Option Nat) (family : Bool) :
    (txn_begin w parent family).2.2.btrees = w.btrees ∧
    ((txn_begin w parent family).1 ≠ 0 →
      (txn_begin w parent family).2.2.txns = w.txns ∧
      (txn_begin w parent family).2.2.handles = w.handles) ∧
    ((txn_begin w parent family).1 = 0 →
      (txn_begin w parent family).2.1 = some w.handles ∧
      (txn_begin w parent family).2.2.handles = w.handles + 1 ∧
      (txn_begin w parent family).2.2.txns
        = Function.update w.txns w.handles
            { parent := match parent with
                | none => none
                | some q => if (w.txns q).family then none else some q,
              family := family }) := by
  unfold txn_begin World.engine
  cases hf : w.faults with
  | nil => simp
  | cons f fs =>
    by_cases h0 : f = 0
    · simp [h0]
    · simp [h0]

/-- The chain is linked and its nodes are fresh. -/
theorem chain_start (w : World) (p : Nat) (t : Nat) (par : Option Nat)
    (hn : (w.btrees p).nSavepoint = 0)
    (W : World) (hb : W.btrees p = { w.btrees p with read_txn := some t, savepoint_txn := some t })
    (ht : W.txns = Function.update w.txns t { parent := par, family := false })
    (hh : W.handles = t + 1) :
    W.chainLinked p ∧ W.chainFresh p := by
  unfold World.chainLinked World.chainFresh
  rw [hb]
  simp only [hn, Int.toNat_zero, le_refl, true_and]
  refine ⟨⟨t, rfl, rfl, fun j hj => absurd hj (by omega)⟩, ?_⟩
  intro _ sp hsp j x hj hx
  have hj0 : j = 0 := by omega
  subst hj0
  have hsp2 : t = sp := Option.some.inj hsp
  have hx2 : sp = x := Option.some.inj hx
  subst hsp2 hx2
  rw [hh, ht, Function.update_same]
  exact ⟨by omega, rfl⟩

/-- One more nested transaction below the innermost savepoint keeps the chain
linked and fresh. -/
theorem chain_push (w : World) (p : Nat) (rd sp : Nat)
    (hl : w.chainLinked p) (hf : w.chainFresh p)
    (hr : (w.btrees p).read_txn = some rd) (hs : (w.btrees p).savepoint_txn = some sp)
    (W : World)
    (hb : W.btrees p = { w.btrees p with savepoint_txn := some w.handles,
                                         nSavepoint := (w.btrees p).nSavepoint + 1 })
    (ht : W.txns = Function.update w.txns w.handles
      { parent := if (w.txns sp).family then none else some sp, family := false })
    (hh : W.handles = w.handles + 1) :
    W.chainLinked p ∧ W.chainFresh p := by
  obtain ⟨hn0, hl2⟩ := hl
  rw [hr] at hl2
  obtain ⟨sp2, hsp2, hsteps, hexact⟩ := hl2
  rw [hs] at hsp2
  have hsp3 : sp = sp2 := Option.some.inj hsp2
  subst hsp3
  have hfr := hf (by rw [hr]; exact Option.some_ne_none rd) sp hs
  have hfam : (w.txns sp).family = false := (hfr 0 sp (by omega) rfl).2
  have hrd : rd < w.handles := (hfr _ rd (le_refl _) hsteps).1
  have hne : ∀ (j : Nat), j ≤ (w.btrees p).nSavepoint.toNat →
      ∀ i x, i < j → parentSteps w.txns i sp = some x → x ≠ w.handles := by
    intro j hj i x hi hx
    have := (hfr i x (by omega) hx).1
    omega
  have hup : ∀ (j : Nat), j ≤ (w.btrees p).nSavepoint.toNat →
      parentSteps W.txns j sp = parentSteps w.txns j sp := by
    intro j hj
    rw [ht]
    exact parentSteps_update _ _ _ j sp (hne j hj)
  have hstep : ∀ (j : Nat), parentSteps W.txns (j + 1) w.handles = parentSteps W.txns j sp := by
    intro j
    show (W.txns w.handles).parent.bind (parentSteps W.txns j) = _
    rw [ht, Function.update_same]
    simp only [hfam, Bool.false_eq_true, if_false, Option.some_bind]
  have hnat : ((w.btrees p).nSavepoint + 1).toNat = (w.btrees p).nSavepoint.toNat + 1 := by
    omega
  unfold World.chainLinked World.chainFresh
  rw [hb]
  simp only [hr, hnat]
  refine ⟨⟨by omega, w.handles, rfl, ?_, ?_⟩, ?_⟩
  · rw [hstep, hup _ (le_refl _)]
    exact hsteps
  · intro j hj
    cases j with
    | zero =>
      intro h
      have : w.handles = rd := Option.some.inj h
      omega
    | succ j =>
      rw [hstep, hup j (by omega)]
      exact hexact j (by omega)
  · intro _ s hs2 j x hj hx
    have hs3 : w.handles = s := Option.some.inj hs2
    subst hs3
    rw [hh, ht]
    cases j with
    | zero =>
      have : w.handles = x := Option.some.inj hx
      subst this
      rw [Function.update_same]
      exact ⟨by omega, rfl⟩
    | succ j =>
      rw [hstep, hup j (by omega)] at hx
      obtain ⟨h1, h2⟩ := hfr j x (by omega) hx
      rw [Function.update_noteq (by omega)]
      exact ⟨by omega, h2⟩

/-- A world with the same transaction references, the same parent links and
no fewer handles has the same chain. -/
theorem chain_frame (w W : World) (p : Nat)
    (h1 : (W.btrees p).nSavepoint = (w.btrees p).nSavepoint)
    (h2 : (W.btrees p).savepoint_txn = (w.btrees p).savepoint_txn)
    (h3 : (W.btrees p).read_txn = (w.btrees p).read_txn)
    (ht : W.txns = w.txns) (hh : w.handles ≤ W.handles)
    (hl : w.chainLinked p) (hf : w.chainFresh p) :
    W.chainLinked p ∧ W.chainFresh p := by
  unfold World.chainLinked at hl ⊢
  unfold World.chainFresh at hf ⊢
  rw [h1, h2, h3, ht]
  refine ⟨hl, ?_⟩
  intro hrn sp hs j x hj hx
  obtain ⟨a, b⟩ := hf hrn sp hs j x hj hx
  exact ⟨by omega, b⟩

theorem beginStmt_loop_chain (p : Nat) (n : Int) (hn : n + 1 < 2147483648) (rd : Nat) :
    ∀ (fuel : Nat) (w : World), w.chainLinked p → w.chainFresh p →
      (w.btrees p).read_txn = some rd →
      (beginStmt_loop p n fuel w).2.chainLinked p ∧ (beginStmt_loop p n fuel w).2.chainFresh p ∧
      ((beginStmt_loop p n fuel w).2.btrees p).read_txn = some rd := by
  intro fuel
  induction fuel with
  | zero => intro w hl hf hr; exact ⟨hl, hf, hr⟩
  | succ k ih =>
    intro w hl hf hr
    unfold beginStmt_loop
    simp only []
    by_cases hc : (w.btrees p).nSavepoint ≤ n
    · rw [if_pos hc]
      have hl0 := hl
      obtain ⟨hn0, hl2⟩ := hl0
      rw [hr] at hl2
      obtain ⟨sp, hsp, _, _⟩ := hl2
      obtain ⟨b1, b2, b3⟩ := txn_begin_chain w (w.btrees p).savepoint_txn false
      by_cases hb : (txn_begin w (w.btrees p).savepoint_txn false).1 = 0
      · rw [if_neg (not_not.mpr hb)]
        obtain ⟨c1, c2, c3⟩ := b3 hb
        have hpush := chain_push w p rd sp hl hf hr hsp
          ((txn_begin w (w.btrees p).savepoint_txn false).2.2.setBtree p
            { (txn_begin w (w.btrees p).savepoint_txn false).2.2.btrees p with
              savepoint_txn := (txn_begin w (w.btrees p).savepoint_txn false).2.1,
              nSavepoint := wrap32
                (((txn_begin w (w.btrees p).savepoint_txn false).2.2.btrees p).nSavepoint + 1) })
          (by
            rw [setBtree_btrees_same, b1, c1,
              wrap32_of_range ((w.btrees p).nSavepoint + 1) (by omega) (by omega)])
          (by rw [setBtree_txns, c3, hsp])
          (by rw [setBtree_handles]; exact c2)
        apply ih _ hpush.1 hpush.2
        rw [setBtree_btrees_same, b1]
        exact hr
      · rw [if_pos hb]
        obtain ⟨c1, c2⟩ := b2 hb
        have hfr := chain_frame w (txn_begin w (w.btrees p).savepoint_txn false).2.2 p
          (by rw [b1]) (by rw [b1]) (by rw [b1]) c1 (by rw [c2]) hl hf
        exact ⟨hfr.1, hfr.2, by rw [b1]; exact hr⟩
    · rw [if_neg hc]
      exact ⟨hl, hf, hr⟩

/-- `sqlite3BtreeBeginStmt` keeps the chain linked and fresh, whether it
succeeds or not. -/
theorem sqlite3BtreeBeginStmt_chain (w : World) (p : Nat) (n : Int) (hn : n + 1 < 2147483648)
    (hl : w.chainLinked p) (hf : w.chainFresh p) :
    (sqlite3BtreeBeginStmt w p n).2.chainLinked p ∧
    (sqlite3BtreeBeginStmt w p n).2.chainFresh p := by
  unfold sqlite3BtreeBeginStmt
  by_cases htx : (w.bt p).transactional = true
  · rw [if_pos htx]
    simp only []
    cases hr : (w.btrees p).read_txn with
    | none =>
      simp only [if_true]
      obtain ⟨b1, b2, b3⟩ := txn_begin_chain w (w.btrees p).family_txn false
      by_cases hb : (txn_begin w (w.btrees p).family_txn false).1 = 0
      · simp only [hb, ne_eq, not_true_eq_false, if_false]
        obtain ⟨c1, c2, c3⟩ := b3 hb
        have hn0 : (w.btrees p).nSavepoint = 0 := by
          have := hl.2
          rw [hr] at this
          exact this
        have hst := chain_start w p w.handles _ hn0
          ((txn_begin w (w.btrees p).family_txn false).2.2.setBtree p
            { (txn_begin w (w.btrees p).family_txn false).2.2.btrees p with
              read_txn := (txn_begin w (w.btrees p).family_txn false).2.1,
              savepoint_txn := (txn_begin w (w.btrees p).family_txn false).2.1 })
          (by rw [setBtree_btrees_same, b1, c1])
          (by rw [setBtree_txns]; exact c3)
          (by rw [setBtree_handles]; exact c2)
        have := beginStmt_loop_chain p n hn w.handles
          (n + 1 - (((txn_begin w (w.btrees p).family_txn false).2.2.setBtree p
            { (txn_begin w (w.btrees p).family_txn false).2.2.btrees p with
              read_txn := (txn_begin w (w.btrees p).family_txn false).2.1,
              savepoint_txn := (txn_begin w (w.btrees p).family_txn false).2.1 }).btrees
            p).nSavepoint).toNat _ hst.1 hst.2
          (by rw [setBtree_btrees_same, c1])
        exact ⟨this.1, this.2.1⟩
      · simp only [hb, ne_eq, not_false_eq_true, if_true]
        obtain ⟨c1, c2⟩ := b2 hb
        exact chain_frame w _ p (by rw [b1]) (by rw [b1]) (by rw [b1]) c1 (by rw [c2]) hl hf
    | some rd =>
      simp only [reduceCtorEq, if_false, ne_eq, not_true_eq_false]
      have := beginStmt_loop_chain p n hn rd (n + 1 - (w.btrees p).nSavepoint).toNat w hl hf hr
      exact ⟨this.1, this.2.1⟩
  · rw [if_neg htx]
    exact ⟨hl, hf⟩

theorem dbc_close_heap (w : World) (d : Nat) :
    (dbc_close w d).2.txns = w.txns ∧ (dbc_close w d).2.handles = w.handles :=
  ⟨(dbc_close_frame w d).2.2.2.2.1, (dbc_close_frame w d).2.2.2.2.2.2⟩

theorem btreeLockSchema_none_handles (ops : EnvOps) (w : World) (p : Nat) :
    (btreeLockSchema ops w p LOCKMODE_NONE).2.handles = w.handles := by
  unfold btreeLockSchema
  by_cases hc : (w.btrees p).connected = true
  · simp only [hc, Bool.not_true, Bool.false_eq_true, if_false, if_true]
    cases hs : (w.btrees p).schemaLock with
    | none =>
      simp only [Bool.false_eq_true, false_and, if_false]
      rfl
    | some d =>
      simp only [Bool.false_eq_true, false_and, if_false]
      simp only [setBtree_handles]
      exact (dbc_close_heap w d).2
  · simp only [hc, Bool.not_false, if_true, true_or]
    rfl

theorem btreeCloseAllCursors_handles (ops : EnvOps) (w : World) (p : Nat) (txn : Option Nat) :
    (btreeCloseAllCursors ops w p txn).2.handles = w.handles := by
  unfold btreeCloseAllCursors
  simp only []
  split
  · split
    · rw [btreeLockSchema_none_handles, (closeFreeCursors_frame _ _ _).2.2.2.2.2.1]
      rfl
    · rw [(closeFreeCursors_frame _ _ _).2.2.2.2.2.1]
      rfl
  · rw [(closeFreeCursors_frame _ _ _).2.2.2.2.2.1]
    rfl

theorem db_close_handles (w : World) (h : Nat) : (db_close w h).2.handles = w.handles := by
  unfold db_close World.engine
  cases w.faults <;> rfl

theorem cleanupLoop_handles (m : cleanup_mode_t) :
    ∀ (es : List (Int × CACHED_DB)) (w : World), (cleanupLoop m w es).2.handles = w.handles := by
  intro es
  induction es with
  | nil => intro w; rfl
  | cons e rest ih =>
    intro w
    obtain ⟨k, e⟩ := e
    unfold cleanupLoop
    cases hd : e.dbp with
    | none => simp only []; exact ih w
    | some h =>
      simp only []
      split
      · exact ih w
      · exact (ih _).trans (db_close_handles w h)

theorem btreeCleanupCachedHandles_handles (w : World) (p : Nat) (m : cleanup_mode_t) :
    (btreeCleanupCachedHandles w p m).2.handles = w.handles := by
  unfold btreeCleanupCachedHandles
  exact (setShared_handles _ _ _).trans (cleanupLoop_handles m _ w)

/-- The end of `sqlite3BtreeSavepoint` keeps the parent links and gives out no
handle. -/
theorem sqlite3BtreeSavepoint_end_heap (ops : EnvOps) (w : World) (p : Nat) (op : Int)
    (txn : Nat) :
    (sqlite3BtreeSavepoint_end ops w p op txn).2.txns = w.txns ∧
    (sqlite3BtreeSavepoint_end ops w p op txn).2.handles = w.handles := by
  have hc1 : (btreeCloseAllCursors ops w p (some txn)).2.txns = w.txns :=
    (btreeCloseAllCursors_world ops w p (some txn)).2.2.2.1
  have hc2 := btreeCloseAllCursors_handles ops w p (some txn)
  have hcm : ∀ v : World, (txn_commit v txn).2.txns = v.txns ∧
      (txn_commit v txn).2.handles = v.handles := by
    intro v; simp [txn_commit]
  have hab : ∀ v : World, (txn_abort v txn).2.txns = v.txns ∧
      (txn_abort v txn).2.handles = v.handles := by
    intro v; simp [txn_abort]
  have hcl : ∀ v : World, (btreeCleanupCachedHandles v p CLEANUP_ABORT).2.txns = v.txns ∧
      (btreeCleanupCachedHandles v p CLEANUP_ABORT).2.handles = v.handles := by
    intro v
    refine ⟨?_, btreeCleanupCachedHandles_handles v p _⟩
    have := btreeCleanupCachedHandles_txnView v p CLEANUP_ABORT
    exact congrArg (fun x => x.2.2) this
  unfold sqlite3BtreeSavepoint_end
  simp only []
  generalize btreeCloseAllCursors ops w p (some txn) = R at hc1 hc2
  split
  · exact ⟨hc1, hc2⟩
  · by_cases hop : op = SAVEPOINT_RELEASE
    · simp only [hop, if_true]
      repeat' split
      all_goals
        first
        | exact ⟨(hcm R.2).1.trans hc1, (hcm R.2).2.trans hc2⟩
        | exact ⟨(hcl _).1.trans ((hcm R.2).1.trans hc1), (hcl _).2.trans ((hcm R.2).2.trans hc2)⟩
    · simp only [hop, if_false]
      repeat' split
      all_goals
        first
        | exact ⟨(hab R.2).1.trans hc1, (hab R.2).2.trans hc2⟩
        | exact ⟨(hcl _).1.trans ((hab R.2).1.trans hc1), (hcl _).2.trans ((hab R.2).2.trans hc2)⟩

/-- `sqlite3BtreeSavepoint` with a level that is not negative keeps the chain
linked and fresh, whether it succeeds or not. -/
theorem sqlite3BtreeSavepoint_chain (ops : EnvOps) (w : World) (p : Nat) (op k : Int)
    (hk : 0 ≤ k) (hl : w.chainLinked p) (hf : w.chainFresh p) :
    (sqlite3BtreeSavepoint ops w (some p) op k).2.chainLinked p ∧
    (sqlite3BtreeSavepoint ops w (some p) op k).2.chainFresh p := by
  unfold sqlite3BtreeSavepoint
  simp only []
  cases hsp : (w.btrees p).savepoint_txn with
  | none => exact ⟨hl, hf⟩
  | some sp =>
    simp only []
    by_cases hlt : k + 2 > (w.btrees p).nSavepoint
    · rw [if_pos hlt]
      exact ⟨hl, hf⟩
    · rw [if_neg hlt, if_neg (by omega)]
      have hl0 := hl
      obtain ⟨hn0, hl2⟩ := hl0
      have hrd : ∃ rd, (w.btrees p).read_txn = some rd := by
        cases hr0 : (w.btrees p).read_txn with
        | none =>
          rw [hr0] at hl2
          have hl3 : (w.btrees p).nSavepoint = 0 := hl2
          omega
        | some rd => exact ⟨rd, rfl⟩
      obtain ⟨rd, hr⟩ := hrd
      · rw [hr] at hl2
        obtain ⟨sp2, hsp2, hsteps, hexact⟩ := hl2
        rw [hsp] at hsp2
        have hsp3 : sp = sp2 := Option.some.inj hsp2
        subst hsp3
        have hfr := hf (by rw [hr]; exact Option.some_ne_none rd) sp hsp
        obtain ⟨node, hnode, hrest⟩ := parentSteps_prefix w.txns _ sp rd hsteps
          ((w.btrees p).nSavepoint - k - 2).toNat (by omega)
        have e1 : (w.btrees p).nSavepoint.toNat - ((w.btrees p).nSavepoint - k - 2).toNat
            = (k + 1).toNat + 1 := by omega
        rw [e1] at hrest
        have hq : ∃ q, (w.txns node).parent = some q ∧
            parentSteps w.txns (k + 1).toNat q = some rd := by
          have hrest2 : (w.txns node).parent.bind (parentSteps w.txns (k + 1).toNat) = some rd :=
            hrest
          cases hpq : (w.txns node).parent with
          | none => rw [hpq] at hrest2; simp at hrest2
          | some q =>
            rw [hpq] at hrest2
            exact ⟨q, rfl, hrest2⟩
        obtain ⟨q, hq1, hq2⟩ := hq
        have hstepq : parentSteps w.txns (((w.btrees p).nSavepoint - k - 2).toNat + 1) sp
            = some q := by
          rw [parentSteps_add, hnode]
          show (w.txns node).parent.bind (parentSteps w.txns 0) = some q
          rw [hq1]
          rfl
        have hshift : ∀ i, parentSteps w.txns i q
            = parentSteps w.txns (((w.btrees p).nSavepoint - k - 2).toNat + 1 + i) sp := by
          intro i
          rw [parentSteps_add, hstepq]
          rfl
        have hwalk := savepoint_walk_spec w.txns k node ((w.btrees p).nSavepoint - k - 2).toNat
          ((w.btrees p).nSavepoint - k).toNat (w.btrees p).nSavepoint sp
          (by rw [Int.toNat_of_nonneg (by omega)]; ring) (by omega) hnode
        simp only [hwalk, hq1]
        obtain ⟨hv, _⟩ := sqlite3BtreeSavepoint_end_spec ops
          (w.setBtree p { w.btrees p with nSavepoint := k + 1, savepoint_txn := some q }) p op node
        obtain ⟨f1, f2, f3, _, _⟩ := txnView_fields _ _ p hv
        obtain ⟨g1, g2⟩ := sqlite3BtreeSavepoint_end_heap ops
          (w.setBtree p { w.btrees p with nSavepoint := k + 1, savepoint_txn := some q }) p op node
        apply chain_frame
          (w.setBtree p { w.btrees p with nSavepoint := k + 1, savepoint_txn := some q })
          _ p f1 f2 f3 g1 (by rw [g2])
        · unfold World.chainLinked
          rw [setBtree_btrees_same, setBtree_txns]
          simp only [hr]
          refine ⟨by omega, q, rfl, hq2, ?_⟩
          intro i hi
          rw [hshift]
          exact hexact _ (by omega)
        · unfold World.chainFresh
          rw [setBtree_btrees_same, setBtree_txns, setBtree_handles]
          intro _ s hs i x hi hx
          have hs2 : q = s := Option.some.inj hs
          subst hs2
          rw [hshift] at hx
          have hi2 : i ≤ (k + 1).toNat := hi
          exact hfr _ x (by omega) hx

theorem runCalls_chain (ops : EnvOps) (p : Nat) :
    ∀ (calls : List TxnCall) (w : World), (∀ c ∈ calls, c.inRange) →
      w.chainLinked p → w.chainFresh p →
      (runCalls ops p calls w).chainLinked p ∧ (runCalls ops p calls w).chainFresh p := by
  intro calls
  induction calls with
  | nil => intro w _ hl hf; exact ⟨hl, hf⟩
  | cons c cs ih =>
    intro w hin hl hf
    unfold runCalls
    have hc := hin c (List.mem_cons_self c cs)
    have hstep : (c.run ops p w).2.chainLinked p ∧ (c.run ops p w).2.chainFresh p := by
      cases c with
      | beginStmt n => exact sqlite3BtreeBeginStmt_chain w p n hc hl hf
      | savepoint op k => exact sqlite3BtreeSavepoint_chain ops w p op k hc hl hf
    exact ih _ (fun x hx => hin x (List.mem_cons_of_mem c hx)) hstep.1 hstep.2

/-- C29: from a connection with no read transaction (and so with
`nSavepoint = 0`), after any sequence of
`sqlite3BtreeBeginStmt` calls (with `iStatement + 1` in the range of `int`)
and `sqlite3BtreeSavepoint` calls with a level that is not negative, whether
they succeed or fail, the chain is linked: `nSavepoint` is not negative; when
there is a read transaction, the innermost savepoint node is `nSavepoint`
parent steps below it and no fewer, so that with `nSavepoint = 0` the two
references are the same node; when there is none, `nSavepoint` is 0. -/
theorem txn_chain_linked (ops : EnvOps) (p : Nat) (calls : List TxnCall) (w : World)
    (hr : (w.btrees p).read_txn = none) (hn : (w.btrees p).nSavepoint = 0)
    (hin : ∀ c ∈ calls, c.inRange) :
    (runCalls ops p calls w).chainLinked p ∧
    (∀ rd sp, ((runCalls ops p calls w).btrees p).read_txn = some rd →
      ((runCalls ops p calls w).btrees p).savepoint_txn = some sp →
      ((runCalls ops p calls w).btrees p).nSavepoint = 0 → sp = rd) := by
  have hl : w.chainLinked p := by
    unfold World.chainLinked
    rw [hr, hn]
    exact ⟨le_refl 0, rfl⟩
  have hf : w.chainFresh p := fun h => absurd hr h
  obtain ⟨h1, _⟩ := runCalls_chain ops p calls w hin hl hf
  refine ⟨h1, ?_⟩
  intro rd sp hrd hsp hn0
  unfold World.chainLinked at h1
  rw [hrd, hsp, hn0] at h1
  obtain ⟨_, sp2, hsp2, hsteps, _⟩ := h1
  have e : sp = sp2 := Option.some.inj hsp2
  subst e
  exact Option.some.inj hsteps

/-- C29, witness: on `World.connected1`, `sqlite3BtreeBeginStmt (p, 2)`, then
a release of level 0, then `sqlite3BtreeBeginStmt (p, 1)`: the read
transaction is the handle 2, the innermost savepoint the handle 6, and
`nSavepoint = 2` parent steps (6, 3, 2) lead from it to the read
transaction. -/
theorem txn_chain_linked_witness :
    ((runCalls EnvOps.idle 1
        [TxnCall.beginStmt 2, TxnCall.savepoint SAVEPOINT_RELEASE 0, TxnCall.beginStmt 1]
        World.connected1).btrees 1).read_txn = some 2 ∧
    ((runCalls EnvOps.idle 1
        [TxnCall.beginStmt 2, TxnCall.savepoint SAVEPOINT_RELEASE 0, TxnCall.beginStmt 1]
        World.connected1).btrees 1).savepoint_txn = some 6 ∧
    ((runCalls EnvOps.idle 1
        [TxnCall.beginStmt 2, TxnCall.savepoint SAVEPOINT_RELEASE 0, TxnCall.beginStmt 1]
        World.connected1).btrees 1).nSavepoint = 2 ∧
    (runCalls EnvOps.idle 1
        [TxnCall.beginStmt 2, TxnCall.savepoint SAVEPOINT_RELEASE 0, TxnCall.beginStmt 1]
        World.connected1).chainLinked 1 :=
  ⟨by decide, by decide, by decide,
    (txn_chain_linked EnvOps.idle 1
      [TxnCall.beginStmt 2, TxnCall.savepoint SAVEPOINT_RELEASE 0, TxnCall.beginStmt 1]
      World.connected1 rfl rfl (by
        intro c hc
        simp only [List.mem_cons, List.mem_singleton, List.not_mem_nil, or_false] at hc
        rcases hc with rfl | rfl | rfl <;> simp [TxnCall.inRange])).1⟩

/-! ### The retry loops of `btreeOpenMetaTables` -/

/-- The status of `DB->open` is neither a deadlock nor a refused lock unless
the fault script says so. -/
theorem db_open_decisive (w : World) (h : Nat) (txn : Option Nat) (name : Option (Nat × Int))
    (create : Bool)
    (hd : ∀ d, w.faults.head? = some d → ¬ (d = DB_LOCK_DEADLOCK ∨ d = DB_LOCK_NOTGRANTED)) :
    ¬ ((db_open w h txn name create).1 = DB_LOCK_DEADLOCK ∨
       (db_open w h txn name create).1 = DB_LOCK_NOTGRANTED) := by
  have hsem : ∀ (x : Int), (x = 0 ∨ x = ENOENT ∨ x = EINVAL) →
      ¬ (x = DB_LOCK_DEADLOCK ∨ x = DB_LOCK_NOTGRANTED) := by
    intro x hx
    rcases hx with rfl | rfl | rfl <;> decide
  have key : ∀ (sem : Int), (sem = 0 ∨ sem = ENOENT ∨ sem = EINVAL) →
      ¬ ((w.engine sem).1 = DB_LOCK_DEADLOCK ∨ (w.engine sem).1 = DB_LOCK_NOTGRANTED) := by
    intro sem hs
    unfold World.engine
    cases hf : w.faults with
    | nil => exact hsem sem hs
    | cons f fs =>
      simp only []
      by_cases h0 : f = 0
      · rw [if_pos h0]
        exact hsem sem hs
      · rw [if_neg h0]
        exact hd f (by rw [hf]; rfl)
  have hz : ¬ ((0 : Int) = DB_LOCK_DEADLOCK ∨ (0 : Int) = DB_LOCK_NOTGRANTED) := by decide
  unfold db_open
  simp only []
  generalize name.bind (catalogFind w.catalog) = fd
  cases name <;> cases fd <;> cases create <;>
    simp only [Bool.false_eq_true, if_false, if_true] <;>
    split_ifs with h1 <;>
    first
      | exact key _ (by decide)
      | exact hz

/-- A world is the world with its own fault script. -/
theorem World.faults_eta (w : World) (l : List Int) (h : w.faults = l) :
    ({ w with faults := l } : World) = w := by
  subst h
  rfl

/-- Attempts that deadlock or are refused a lock, fewer than the loop still
allows, and a decisive attempt after them: the loop returns what the decisive
attempt returns. -/
theorem db_open_retry_skip (h : Nat) (name : Option (Nat × Int)) (create : Bool) :
    ∀ (ds : List Int) (fuel : Nat) (i : Int) (w : World) (rest : List Int),
      w.faults = ds ++ rest →
      (∀ d ∈ ds, d = DB_LOCK_DEADLOCK ∨ d = DB_LOCK_NOTGRANTED) →
      (∀ d, rest.head? = some d → ¬ (d = DB_LOCK_DEADLOCK ∨ d = DB_LOCK_NOTGRANTED)) →
      i + ds.length < BUSY_RETRY_COUNT → ds.length < fuel →
      db_open_retry h name create fuel i w
        = db_open { w with faults := rest } h none name create := by
  intro ds
  induction ds with
  | nil =>
    intro fuel i w rest hw _ hr _ hfu
    obtain ⟨f, rfl⟩ : ∃ f, fuel = f + 1 := ⟨fuel - 1, by simp at hfu; omega⟩
    rw [World.faults_eta w rest (by simpa using hw)]
    unfold db_open_retry
    simp only []
    have hdec := db_open_decisive w h none name create (by
      intro d hd
      rw [show w.faults = rest by simpa using hw] at hd
      exact hr d hd)
    rw [if_neg (fun hh => hdec hh.1)]
  | cons d ds ih =>
    intro fuel i w rest hw hds hr hi hfu
    obtain ⟨f, rfl⟩ : ∃ f, fuel = f + 1 := ⟨fuel - 1, by simp at hfu; omega⟩
    have hd := hds d (List.mem_cons_self d ds)
    have hd0 : d ≠ 0 := by
      rcases hd with rfl | rfl <;> decide
    have ho := db_open_fault w h none name create d (ds ++ rest) (by simpa using hw) hd0
    unfold db_open_retry
    simp only []
    rw [ho]
    simp only [List.length_cons, Nat.cast_add, Nat.cast_one] at hi
    have hc : (d = DB_LOCK_DEADLOCK ∨ d = DB_LOCK_NOTGRANTED) ∧ i + 1 < BUSY_RETRY_COUNT :=
      ⟨hd, by omega⟩
    rw [if_pos hc]
    exact ih f (i + 1) { w with faults := ds ++ rest } rest rfl
      (fun x hx => hds x (List.mem_cons_of_mem d hx)) hr (by omega)
      (by simp only [List.length_cons] at hfu; omega)

/-- As many attempts that deadlock or are refused a lock as the loop still
allows: the loop gives up and returns the status of the last of them. -/
theorem db_open_retry_exhaust (h : Nat) (name : Option (Nat × Int)) (create : Bool) :
    ∀ (ds : List Int) (fuel : Nat) (i : Int) (w : World) (rest : List Int),
      w.faults = ds ++ rest →
      (∀ d ∈ ds, d = DB_LOCK_DEADLOCK ∨ d = DB_LOCK_NOTGRANTED) →
      ds ≠ [] → i + ds.length = BUSY_RETRY_COUNT → ds.length ≤ fuel →
      (db_open_retry h name create fuel i w).2 = { w with faults := rest } ∧
      ((db_open_retry h name create fuel i w).1 = DB_LOCK_DEADLOCK ∨
        (db_open_retry h name create fuel i w).1 = DB_LOCK_NOTGRANTED) ∧
      ((∀ d ∈ ds, d = DB_LOCK_DEADLOCK) →
        (db_open_retry h name create fuel i w).1 = DB_LOCK_DEADLOCK) := by
  intro ds
  induction ds with
  | nil => intro _ _ _ _ _ _ hne; exact absurd rfl hne
  | cons d ds ih =>
    intro fuel i w rest hw hds _ hi hfu
    obtain ⟨f, rfl⟩ : ∃ f, fuel = f + 1 :=
      ⟨fuel - 1, by simp only [List.length_cons] at hfu; omega⟩
    have hd := hds d (List.mem_cons_self d ds)
    have hd0 : d ≠ 0 := by
      rcases hd with rfl | rfl <;> decide
    have ho := db_open_fault w h none name create d (ds ++ rest) (by simpa using hw) hd0
    unfold db_open_retry
    simp only []
    rw [ho]
    simp only [List.length_cons, Nat.cast_add, Nat.cast_one] at hi
    cases ds with
    | nil =>
      simp only [List.length_nil, Nat.cast_zero, add_zero] at hi
      have hc : ¬ ((d = DB_LOCK_DEADLOCK ∨ d = DB_LOCK_NOTGRANTED) ∧ i + 1 < BUSY_RETRY_COUNT) :=
        fun hh => by omega
      rw [if_neg hc]
      exact ⟨rfl, hd, fun hall => hall d (List.mem_cons_self d [])⟩
    | cons e es =>
      have hc : (d = DB_LOCK_DEADLOCK ∨ d = DB_LOCK_NOTGRANTED) ∧ i + 1 < BUSY_RETRY_COUNT := by
        refine ⟨hd, ?_⟩
        simp only [List.length_cons, Nat.cast_add, Nat.cast_one] at hi
        omega
      rw [if_pos hc]
      obtain ⟨a1, a2, a3⟩ := ih f (i + 1) { w with faults := (e :: es) ++ rest } rest rfl
        (fun x hx => hds x (List.mem_cons_of_mem d hx)) (by simp) (by omega)
        (by simp only [List.length_cons] at hfu ⊢; omega)
      exact ⟨a1, a2, fun hall => a3 (fun x hx => hall x (List.mem_cons_of_mem d hx))⟩

/-- The loop ends within the attempts that `BUSY_RETRY_COUNT` leaves: its
result is that of one attempt, before which fewer than
`BUSY_RETRY_COUNT - i` attempts were made, each of which deadlocked or was
refused a lock. -/
theorem db_open_retry_bound (h : Nat) (name : Option (Nat × Int)) (create : Bool) :
    ∀ (fuel : Nat) (i : Int) (w : World), 0 ≤ i → i < BUSY_RETRY_COUNT →
      (BUSY_RETRY_COUNT - i).toNat ≤ fuel →
      ∃ n : Nat, i + n < BUSY_RETRY_COUNT ∧
        (∀ j, j < n → ∃ d, w.faults.get? j = some d ∧
          (d = DB_LOCK_DEADLOCK ∨ d = DB_LOCK_NOTGRANTED)) ∧
        db_open_retry h name create fuel i w
          = db_open { w with faults := w.faults.drop n } h none name create := by
  intro fuel
  induction fuel with
  | zero =>
    intro i w h0 h1 hfu
    unfold BUSY_RETRY_COUNT at h1 hfu
    omega
  | succ f ih =>
    intro i w h0 h1 hfu
    unfold db_open_retry
    simp only []
    by_cases hc : ((db_open w h none name create).1 = DB_LOCK_DEADLOCK ∨
        (db_open w h none name create).1 = DB_LOCK_NOTGRANTED) ∧ i + 1 < BUSY_RETRY_COUNT
    · rw [if_pos hc]
      have hnd : ¬ ∀ d, w.faults.head? = some d →
          ¬ (d = DB_LOCK_DEADLOCK ∨ d = DB_LOCK_NOTGRANTED) :=
        fun hh => db_open_decisive w h none name create hh hc.1
      push_neg at hnd
      obtain ⟨d, hd1, hd2⟩ := hnd
      obtain ⟨fs, hfs⟩ : ∃ fs, w.faults = d :: fs := by
        cases hf : w.faults with
        | nil => rw [hf] at hd1; simp at hd1
        | cons x xs =>
          rw [hf] at hd1
          simp only [List.head?_cons, Option.some.injEq] at hd1
          exact ⟨xs, by rw [hd1]⟩
      have hd0 : d ≠ 0 := by
        rcases hd2 with rfl | rfl <;> decide
      have ho := db_open_fault w h none name create d fs hfs hd0
      rw [ho]
      obtain ⟨n, b1, b2, b3⟩ := ih (i + 1) { w with faults := fs } (by omega) hc.2 (by
        unfold BUSY_RETRY_COUNT at hfu h1 ⊢
        omega)
      refine ⟨n + 1, by push_cast; omega, ?_, ?_⟩
      · intro j hj
        cases j with
        | zero => exact ⟨d, by rw [hfs]; rfl, hd2⟩
        | succ j =>
          obtain ⟨x, hx1, hx2⟩ := b2 j (by omega)
          exact ⟨x, by rw [hfs]; exact hx1, hx2⟩
      · rw [b3, hfs]
        rfl
    · rw [if_neg hc]
      refine ⟨0, by simpa using h1, fun j hj => absurd hj (by omega), ?_⟩
      rw [World.faults_eta w _ (by simp)]

/-- What `DB->close` leaves alone, and what it logs. -/
theorem db_close_view (w : World) (h : Nat) :
    (db_close w h).2.shared = w.shared ∧ (db_close w h).2.btrees = w.btrees ∧
    (db_close w h).2.events = w.events ++ [Event.db_close h] := by
  unfold db_close World.engine
  cases w.faults <;> exact ⟨rfl, rfl, rfl⟩

/-- The exit `err` of `btreeOpenMetaTables` after a failure, with both handles
created: both are closed, the tables handle first, and both references are
reset. -/
theorem btreeOpenMetaTables_err_fail (w : World) (p : Nat) (rc ret : Int) (m t : Nat)
    (hm : (w.bt p).metadb = some m) (ht : (w.bt p).tablesdb = some t)
    (hf : rc ≠ SQLITE_OK ∨ ret ≠ 0) :
    (btreeOpenMetaTables_err w p rc ret).1 = MAP_ERR rc ret ∧
    ((btreeOpenMetaTables_err w p rc ret).2.bt p).metadb = none ∧
    ((btreeOpenMetaTables_err w p rc ret).2.bt p).tablesdb = none ∧
    (btreeOpenMetaTables_err w p rc ret).2.events
      = w.events ++ [Event.db_close t, Event.db_close m] := by
  have ht2 : (w.shared (w.btAddr p)).tablesdb = some t := ht
  have hm2 : (w.shared (w.btAddr p)).metadb = some m := hm
  obtain ⟨a1, a2, a3⟩ := db_close_view w t
  obtain ⟨b1, b2, b3⟩ := db_close_view (db_close w t).2 m
  unfold btreeOpenMetaTables_err
  simp only []
  rw [if_pos hf]
  simp only [ht2, a1, hm2]
  refine ⟨trivial, ?_, ?_, ?_⟩
  · simp [World.bt, World.btAddr, b2, a2]
  · simp [World.bt, World.btAddr, b2, a2]
  · rw [setShared_events, b3, a3]
    simp

/-- What `db_create` leaves alone, and the handle it gives on success. -/
theorem db_create_view (w : World) :
    (db_create w).2.2.shared = w.shared ∧ (db_create w).2.2.btrees = w.btrees ∧
    ((db_create w).1 = 0 → ∃ h, (db_create w).2.1 = some h) := by
  unfold db_create
  simp only []
  split_ifs with h1
  · exact ⟨engine_shared w 0, engine_btrees w 0, fun h => absurd h h1⟩
  · exact ⟨engine_shared w 0, engine_btrees w 0, fun _ => ⟨_, rfl⟩⟩

/-- After the creation of the two handles succeeded, both references are
set, and the connection is on the same `BtShared`. -/
theorem btreeOpenMetaTables_create_ok (w : World) (p : Nat)
    (hc : (btreeOpenMetaTables_create w p).1 = 0) :
    (∃ m, ((btreeOpenMetaTables_create w p).2.bt p).metadb = some m) ∧
    (∃ t, ((btreeOpenMetaTables_create w p).2.bt p).tablesdb = some t) ∧
    (btreeOpenMetaTables_create w p).2.btrees = w.btrees := by
  obtain ⟨a1, a2, a3⟩ := db_create_view w
  unfold btreeOpenMetaTables_create at hc ⊢
  simp only [] at hc ⊢
  by_cases h1 : (db_create w).1 ≠ 0
  · rw [if_pos h1] at hc
    exact absurd hc h1
  · rw [if_neg h1] at hc ⊢
    obtain ⟨m, hm⟩ := a3 (not_not.mp h1)
    obtain ⟨b1, b2, b3⟩ := db_create_view
      ((db_create w).2.2.setShared (w.btAddr p)
        { (db_create w).2.2.shared (w.btAddr p) with metadb := (db_create w).2.1 })
    by_cases h2 : (db_create ((db_create w).2.2.setShared (w.btAddr p)
        { (db_create w).2.2.shared (w.btAddr p) with metadb := (db_create w).2.1 })).1 ≠ 0
    · rw [if_pos h2] at hc
      exact absurd hc h2
    · rw [if_neg h2] at hc ⊢
      obtain ⟨t, ht⟩ := b3 (not_not.mp h2)
      have key : ∀ (v : World), v.btrees = w.btrees →
          (v.shared (w.btAddr p)).metadb = some m → (v.shared (w.btAddr p)).tablesdb = some t →
          (∃ m, (v.bt p).metadb = some m) ∧ (∃ t, (v.bt p).tablesdb = some t) ∧
          v.btrees = w.btrees := by
        intro v hv h3 h4
        have : v.bt p = v.shared (w.btAddr p) := by
          unfold World.bt World.btAddr
          rw [hv]
        rw [this]
        exact ⟨⟨m, h3⟩, ⟨t, h4⟩, hv⟩
      have hbt : ((db_create ((db_create w).2.2.setShared (w.btAddr p)
            { (db_create w).2.2.shared (w.btAddr p) with metadb := (db_create w).2.1 })).2.2.setShared
          (w.btAddr p)
          { (db_create ((db_create w).2.2.setShared (w.btAddr p)
              { (db_create w).2.2.shared (w.btAddr p) with metadb := (db_create w).2.1 })).2.2.shared
              (w.btAddr p) with
            tablesdb := (db_create ((db_create w).2.2.setShared (w.btAddr p)
              { (db_create w).2.2.shared (w.btAddr p) with
                metadb := (db_create w).2.1 })).2.1 }).btrees = w.btrees := by
        rw [setShared_btrees, b2, setShared_btrees, a2]
      have hk2 : (((db_create ((db_create w).2.2.setShared (w.btAddr p)
            { (db_create w).2.2.shared (w.btAddr p) with metadb := (db_create w).2.1 })).2.2.setShared
          (w.btAddr p)
          { (db_create ((db_create w).2.2.setShared (w.btAddr p)
              { (db_create w).2.2.shared (w.btAddr p) with metadb := (db_create w).2.1 })).2.2.shared
              (w.btAddr p) with
            tablesdb := (db_create ((db_create w).2.2.setShared (w.btAddr p)
              { (db_create w).2.2.shared (w.btAddr p) with
                metadb := (db_create w).2.1 })).2.1 }).shared (w.btAddr p)).tablesdb = some t := by
        rw [setShared_shared_same]
        exact ht
      have hk1 : (((db_create ((db_create w).2.2.setShared (w.btAddr p)
            { (db_create w).2.2.shared (w.btAddr p) with metadb := (db_create w).2.1 })).2.2.setShared
          (w.btAddr p)
          { (db_create ((db_create w).2.2.setShared (w.btAddr p)
              { (db_create w).2.2.shared (w.btAddr p) with metadb := (db_create w).2.1 })).2.2.shared
              (w.btAddr p) with
            tablesdb := (db_create ((db_create w).2.2.setShared (w.btAddr p)
              { (db_create w).2.2.shared (w.btAddr p) with
                metadb := (db_create w).2.1 })).2.1 }).shared (w.btAddr p)).metadb = some m := by
        rw [setShared_shared_same]
        show ((db_create ((db_create w).2.2.setShared (w.btAddr p)
            { (db_create w).2.2.shared (w.btAddr p) with
              metadb := (db_create w).2.1 })).2.2.shared (w.btAddr p)).metadb = some m
        rw [b1, setShared_shared_same]
        exact hm
      generalize ((db_create ((db_create w).2.2.setShared (w.btAddr p)
            { (db_create w).2.2.shared (w.btAddr p) with metadb := (db_create w).2.1 })).2.2.setShared
          (w.btAddr p)
          { (db_create ((db_create w).2.2.setShared (w.btAddr p)
              { (db_create w).2.2.shared (w.btAddr p) with metadb := (db_create w).2.1 })).2.2.shared
              (w.btAddr p) with
            tablesdb := (db_create ((db_create w).2.2.setShared (w.btAddr p)
              { (db_create w).2.2.shared (w.btAddr p) with
                metadb := (db_create w).2.1 })).2.1 }) = w2 at hbt hk1 hk2 hc ⊢
      repeat' split
      all_goals
        first
          | exact key _ hbt hk1 hk2
          | exact key _ (by simp [hbt]) (by simp [hk1]) (by simp [hk2])

theorem BUSY_RETRY_COUNT_toNat : BUSY_RETRY_COUNT.toNat = 100 := by decide

/-- A status that is a deadlock or a refused lock maps to `SQLITE_BUSY`, and
it is not `EACCES`. -/
theorem busy_status (r : Int) (h : r = DB_LOCK_DEADLOCK ∨ r = DB_LOCK_NOTGRANTED) :
    r ≠ 0 ∧ r ≠ EACCES ∧ MAP_ERR SQLITE_OK r = SQLITE_BUSY := by
  rcases h with rfl | rfl <;> decide

/-- The metadata open fails `BUSY_RETRY_COUNT` times with a deadlock or a
refused lock: the function gives up with `SQLITE_BUSY`, closes both handles
and resets both references. -/
theorem btreeOpenMetaTables_open_exhaust (w : World) (p : Nat) (creating : Bool)
    (ds rest : List Int) (m t : Nat)
    (hm : (w.bt p).metadb = some m) (ht : (w.bt p).tablesdb = some t)
    (hw : w.faults = ds ++ rest)
    (hds : ∀ d ∈ ds, d = DB_LOCK_DEADLOCK ∨ d = DB_LOCK_NOTGRANTED)
    (hlen : ds.length = 100) :
    (btreeOpenMetaTables_open w p creating).1 = SQLITE_BUSY ∧
    ((btreeOpenMetaTables_open w p creating).2.2.bt p).metadb = none ∧
    ((btreeOpenMetaTables_open w p creating).2.2.bt p).tablesdb = none ∧
    (btreeOpenMetaTables_open w p creating).2.2.events
      = w.events ++ [Event.db_close t, Event.db_close m] := by
  have hne : ds ≠ [] := by
    intro h
    rw [h] at hlen
    simp at hlen
  unfold btreeOpenMetaTables_open
  simp only []
  obtain ⟨e1, e2, _⟩ := db_open_retry_exhaust ((w.shared (w.btAddr p)).metadb.getD 0)
    (metaName w (w.btAddr p)) ((w.shared (w.btAddr p)).db_oflags &&& DB_CREATE != 0)
    ds BUSY_RETRY_COUNT.toNat 0 w rest hw hds hne
    (by rw [hlen]; decide) (by rw [hlen, BUSY_RETRY_COUNT_toNat])
  generalize db_open_retry ((w.shared (w.btAddr p)).metadb.getD 0)
    (metaName w (w.btAddr p)) ((w.shared (w.btAddr p)).db_oflags &&& DB_CREATE != 0)
    BUSY_RETRY_COUNT.toNat 0 w = o at e1 e2
  obtain ⟨b1, b2, b3⟩ := busy_status o.1 e2
  rw [if_pos b1]
  have hrc : ¬ (o.1 = EACCES ∧ (w.shared (w.btAddr p)).db_oflags &&& DB_RDONLY ≠ 0) :=
    fun hh => b2 hh.1
  rw [if_neg hrc]
  obtain ⟨c1, c2, c3, c4⟩ := btreeOpenMetaTables_err_fail o.2 p SQLITE_OK o.1 m t
    (by rw [e1]; exact hm) (by rw [e1]; exact ht) (Or.inr b1)
  refine ⟨by rw [c1, b3], c2, c3, ?_⟩
  rw [c4, e1]

/-- The tables open fails `BUSY_RETRY_COUNT` times with a deadlock or a
refused lock: the function gives up with `SQLITE_BUSY`, closes both handles
and resets both references. -/
theorem btreeOpenMetaTables_tables_exhaust (w : World) (p : Nat) (creating : Bool)
    (ds rest : List Int) (m t : Nat)
    (hm : (w.bt p).metadb = some m) (ht : (w.bt p).tablesdb = some t)
    (hw : w.faults = ds ++ rest)
    (hds : ∀ d ∈ ds, d = DB_LOCK_DEADLOCK ∨ d = DB_LOCK_NOTGRANTED)
    (hlen : ds.length = 100) :
    (btreeOpenMetaTables_tables w p creating).1 = SQLITE_BUSY ∧
    ((btreeOpenMetaTables_tables w p creating).2.2.bt p).metadb = none ∧
    ((btreeOpenMetaTables_tables w p creating).2.2.bt p).tablesdb = none ∧
    (btreeOpenMetaTables_tables w p creating).2.2.events
      = w.events ++ [Event.db_close t, Event.db_close m] := by
  have hne : ds ≠ [] := by
    intro h
    rw [h] at hlen
    simp at hlen
  unfold btreeOpenMetaTables_tables
  simp only []
  obtain ⟨e1, e2, _⟩ := db_open_retry_exhaust ((w.shared (w.btAddr p)).tablesdb.getD 0)
    (tablesName w (w.btAddr p)) false
    ds BUSY_RETRY_COUNT.toNat 0 w rest hw hds hne
    (by rw [hlen]; decide) (by rw [hlen, BUSY_RETRY_COUNT_toNat])
  generalize db_open_retry ((w.shared (w.btAddr p)).tablesdb.getD 0)
    (tablesName w (w.btAddr p)) false BUSY_RETRY_COUNT.toNat 0 w = o at e1 e2
  obtain ⟨b1, b2, b3⟩ := busy_status o.1 e2
  rw [if_pos b1]
  obtain ⟨c1, c2, c3, c4⟩ := btreeOpenMetaTables_err_fail o.2 p SQLITE_OK o.1 m t
    (by rw [e1]; exact hm) (by rw [e1]; exact ht) (Or.inr b1)
  refine ⟨by rw [c1, b3], c2, c3, ?_⟩
  rw [c4, e1]

/-- Fewer than `BUSY_RETRY_COUNT` failures of the tables open with a deadlock
or a refused lock, before an attempt that is neither, change nothing but the
fault script. -/
theorem btreeOpenMetaTables_tables_skip (w : World) (p : Nat) (creating : Bool)
    (ds rest : List Int) (hw : w.faults = ds ++ rest)
    (hds : ∀ d ∈ ds, d = DB_LOCK_DEADLOCK ∨ d = DB_LOCK_NOTGRANTED)
    (hr : ∀ d, rest.head? = some d → ¬ (d = DB_LOCK_DEADLOCK ∨ d = DB_LOCK_NOTGRANTED))
    (hlen : ds.length < 100) :
    btreeOpenMetaTables_tables w p creating
      = btreeOpenMetaTables_tables { w with faults := rest } p creating := by
  have e1 := db_open_retry_skip ((w.shared (w.btAddr p)).tablesdb.getD 0)
    (tablesName w (w.btAddr p)) false ds BUSY_RETRY_COUNT.toNat 0 w rest hw hds hr
    (by unfold BUSY_RETRY_COUNT; omega) (by rw [BUSY_RETRY_COUNT_toNat]; exact hlen)
  have e2 := db_open_retry_skip ((w.shared (w.btAddr p)).tablesdb.getD 0)
    (tablesName w (w.btAddr p)) false [] BUSY_RETRY_COUNT.toNat 0 { w with faults := rest } rest
    rfl (fun d hd => absurd hd (List.not_mem_nil d)) hr (by decide) (by decide)
  unfold btreeOpenMetaTables_tables
  simp only []
  rw [e1]
  have e3 : db_open_retry
      ((({ w with faults := rest } : World).shared
        (({ w with faults := rest } : World).btAddr p)).tablesdb.getD 0)
      (tablesName { w with faults := rest } (({ w with faults := rest } : World).btAddr p)) false
      BUSY_RETRY_COUNT.toNat 0 { w with faults := rest }
      = db_open { w with faults := rest } ((w.shared (w.btAddr p)).tablesdb.getD 0) none
          (tablesName w (w.btAddr p)) false := e2
  rw [e3]

/-- Fewer than `BUSY_RETRY_COUNT` failures of the metadata open with a
deadlock or a refused lock, before an attempt that is neither, change nothing
but the fault script. -/
theorem btreeOpenMetaTables_open_skip (w : World) (p : Nat) (creating : Bool)
    (ds rest : List Int) (hw : w.faults = ds ++ rest)
    (hds : ∀ d ∈ ds, d = DB_LOCK_DEADLOCK ∨ d = DB_LOCK_NOTGRANTED)
    (hr : ∀ d, rest.head? = some d → ¬ (d = DB_LOCK_DEADLOCK ∨ d = DB_LOCK_NOTGRANTED))
    (hlen : ds.length < 100) :
    btreeOpenMetaTables_open w p creating
      = btreeOpenMetaTables_open { w with faults := rest } p creating := by
  have e1 := db_open_retry_skip ((w.shared (w.btAddr p)).metadb.getD 0)
    (metaName w (w.btAddr p)) ((w.shared (w.btAddr p)).db_oflags &&& DB_CREATE != 0)
    ds BUSY_RETRY_COUNT.toNat 0 w rest hw hds hr
    (by unfold BUSY_RETRY_COUNT; omega) (by rw [BUSY_RETRY_COUNT_toNat]; exact hlen)
  have e2 := db_open_retry_skip ((w.shared (w.btAddr p)).metadb.getD 0)
    (metaName w (w.btAddr p)) ((w.shared (w.btAddr p)).db_oflags &&& DB_CREATE != 0)
    [] BUSY_RETRY_COUNT.toNat 0 { w with faults := rest } rest
    rfl (fun d hd => absurd hd (List.not_mem_nil d)) hr (by decide) (by decide)
  unfold btreeOpenMetaTables_open
  simp only []
  rw [e1]
  have e3 : db_open_retry
      ((({ w with faults := rest } : World).shared
        (({ w with faults := rest } : World).btAddr p)).metadb.getD 0)
      (metaName { w with faults := rest } (({ w with faults := rest } : World).btAddr p))
      ((({ w with faults := rest } : World).shared
        (({ w with faults := rest } : World).btAddr p)).db_oflags &&& DB_CREATE != 0)
      BUSY_RETRY_COUNT.toNat 0 { w with faults := rest }
      = db_open { w with faults := rest } ((w.shared (w.btAddr p)).metadb.getD 0) none
          (metaName w (w.btAddr p)) ((w.shared (w.btAddr p)).db_oflags &&& DB_CREATE != 0) := e2
  rw [e3]
  rfl

/-- What `DB->open` leaves alone. -/
theorem db_open_view (w : World) (h : Nat) (txn : Option Nat) (name : Option (Nat × Int))
    (create : Bool) :
    (db_open w h txn name create).2.shared = w.shared ∧
    (db_open w h txn name create).2.btrees = w.btrees ∧
    (db_open w h txn name create).2.events = w.events := by
  unfold db_open World.engine
  cases name with
  | none =>
    cases w.faults <;> simp only [Option.bind] <;> split_ifs <;> exact ⟨rfl, rfl, rfl⟩
  | some n =>
    cases hn : catalogFind w.catalog n <;> cases w.faults <;>
      simp only [Option.bind, hn] <;> split_ifs <;> exact ⟨rfl, rfl, rfl⟩

/-- What the retry loop leaves alone. -/
theorem db_open_retry_view (h : Nat) (name : Option (Nat × Int)) (create : Bool) :
    ∀ (fuel : Nat) (i : Int) (w : World),
      (db_open_retry h name create fuel i w).2.shared = w.shared ∧
      (db_open_retry h name create fuel i w).2.btrees = w.btrees ∧
      (db_open_retry h name create fuel i w).2.events = w.events := by
  intro fuel
  induction fuel with
  | zero => intro i w; exact ⟨rfl, rfl, rfl⟩
  | succ f ih =>
    intro i w
    obtain ⟨a1, a2, a3⟩ := db_open_view w h none name create
    unfold db_open_retry
    simp only []
    split_ifs
    · obtain ⟨b1, b2, b3⟩ := ih (i + 1) (db_open w h none name create).2
      exact ⟨b1.trans a1, b2.trans a2, b3.trans a3⟩
    · exact ⟨a1, a2, a3⟩

/-- C23: the retry loops of `btreeOpenMetaTables` (btree.c:333-341 and
371-377), for a connection whose metadata handle is not yet open and after
the two handles were created, which leaves the world `w`.
(1) Each loop ends within `BUSY_RETRY_COUNT` = 100 attempts: its result is
that of one call of `DB->open`, before which fewer than 100 calls were made,
every one of which returned a deadlock or a refused lock.
(2) When fewer than 100 attempts return a deadlock or a refused lock and the
next succeeds, the loop returns success, with the world of that attempt.
(3) and (4) For the function, such failures of the metadata open, and of the
tables open, are as if they had not happened: the function does what it does
when the engine answers the first attempt with the decisive answer.
(5) and (6) When the metadata open, or the tables open, returns a deadlock
(or a refused lock) on all 100 attempts, the function returns `SQLITE_BUSY`,
both handles are closed (`DB->close` on the tables handle, then on the
metadata handle) and both references are empty. -/
theorem btreeOpenMetaTables_retry (w0 w : World) (p : Nat) (creating : Bool)
    (hm : (w0.bt p).metadb = none)
    (hc : btreeOpenMetaTables_create w0 p = (0, w)) :
    (∀ (h : Nat) (name : Option (Nat × Int)) (create : Bool) (v : World),
      ∃ n : Nat, n < 100 ∧
        (∀ j, j < n → ∃ d, v.faults.get? j = some d ∧
          (d = DB_LOCK_DEADLOCK ∨ d = DB_LOCK_NOTGRANTED)) ∧
        db_open_retry h name create BUSY_RETRY_COUNT.toNat 0 v
          = db_open { v with faults := v.faults.drop n } h none name create) ∧
    (∀ (h : Nat) (name : Option (Nat × Int)) (create : Bool) (v : World) (ds rest : List Int),
      v.faults = ds ++ rest →
      (∀ d ∈ ds, d = DB_LOCK_DEADLOCK ∨ d = DB_LOCK_NOTGRANTED) → ds.length < 100 →
      (db_open { v with faults := rest } h none name create).1 = 0 →
      (db_open_retry h name create BUSY_RETRY_COUNT.toNat 0 v).1 = 0 ∧
      db_open_retry h name create BUSY_RETRY_COUNT.toNat 0 v
        = db_open { v with faults := rest } h none name create) ∧
    (∀ (ds rest : List Int), w.faults = ds ++ rest →
      (∀ d ∈ ds, d = DB_LOCK_DEADLOCK ∨ d = DB_LOCK_NOTGRANTED) → ds.length < 100 →
      (∀ d, rest.head? = some d → ¬ (d = DB_LOCK_DEADLOCK ∨ d = DB_LOCK_NOTGRANTED)) →
      btreeOpenMetaTables w0 p creating
        = btreeOpenMetaTables_open { w with faults := rest } p creating) ∧
    (∀ (v : World) (ds rest : List Int),
      db_open_retry ((w.bt p).metadb.getD 0) (metaName w (w.btAddr p))
        ((w.bt p).db_oflags &&& DB_CREATE != 0) BUSY_RETRY_COUNT.toNat 0 w = (0, v) →
      v.faults = ds ++ rest →
      (∀ d ∈ ds, d = DB_LOCK_DEADLOCK ∨ d = DB_LOCK_NOTGRANTED) → ds.length < 100 →
      (∀ d, rest.head? = some d → ¬ (d = DB_LOCK_DEADLOCK ∨ d = DB_LOCK_NOTGRANTED)) →
      btreeOpenMetaTables w0 p creating
        = btreeOpenMetaTables_tables { v with faults := rest } p creating) ∧
    (∀ (ds rest : List Int), w.faults = ds ++ rest →
      (∀ d ∈ ds, d = DB_LOCK_DEADLOCK ∨ d = DB_LOCK_NOTGRANTED) → ds.length = 100 →
      (btreeOpenMetaTables w0 p creating).1 = SQLITE_BUSY ∧
      ((btreeOpenMetaTables w0 p creating).2.2.bt p).metadb = none ∧
      ((btreeOpenMetaTables w0 p creating).2.2.bt p).tablesdb = none ∧
      (w.bt p).metadb ≠ none ∧ (w.bt p).tablesdb ≠ none ∧
      (btreeOpenMetaTables w0 p creating).2.2.events
        = w.events ++ [Event.db_close ((w.bt p).tablesdb.getD 0),
                       Event.db_close ((w.bt p).metadb.getD 0)]) ∧
    (∀ (v : World) (ds rest : List Int),
      db_open_retry ((w.bt p).metadb.getD 0) (metaName w (w.btAddr p))
        ((w.bt p).db_oflags &&& DB_CREATE != 0) BUSY_RETRY_COUNT.toNat 0 w = (0, v) →
      v.faults = ds ++ rest →
      (∀ d ∈ ds, d = DB_LOCK_DEADLOCK ∨ d = DB_LOCK_NOTGRANTED) → ds.length = 100 →
      (btreeOpenMetaTables w0 p creating).1 = SQLITE_BUSY ∧
      ((btreeOpenMetaTables w0 p creating).2.2.bt p).metadb = none ∧
      ((btreeOpenMetaTables w0 p creating).2.2.bt p).tablesdb = none ∧
      (btreeOpenMetaTables w0 p creating).2.2.events
        = v.events ++ [Event.db_close ((w.bt p).tablesdb.getD 0),
                       Event.db_close ((w.bt p).metadb.getD 0)]) := by
  have hc1 : (btreeOpenMetaTables_create w0 p).1 = 0 := by rw [hc]
  have hc2 : (btreeOpenMetaTables_create w0 p).2 = w := by rw [hc]
  obtain ⟨⟨m, hmw⟩, ⟨t, htw⟩, _⟩ := btreeOpenMetaTables_create_ok w0 p hc1
  rw [hc2] at hmw htw
  have hwhole : btreeOpenMetaTables w0 p creating = btreeOpenMetaTables_open w p creating := by
    unfold btreeOpenMetaTables
    simp only []
    have hm2 : ¬ ((w0.shared (w0.btAddr p)).metadb ≠ none) := not_not.mpr hm
    rw [if_neg hm2, if_neg (not_not.mpr hc1), hc2]
  have htab : ∀ v,
      db_open_retry ((w.bt p).metadb.getD 0) (metaName w (w.btAddr p))
        ((w.bt p).db_oflags &&& DB_CREATE != 0) BUSY_RETRY_COUNT.toNat 0 w = (0, v) →
      btreeOpenMetaTables_open w p creating = btreeOpenMetaTables_tables v p creating ∧
      (v.bt p).metadb = some m ∧ (v.bt p).tablesdb = some t := by
    intro v hv
    obtain ⟨f1, f2, _⟩ := db_open_retry_view ((w.bt p).metadb.getD 0) (metaName w (w.btAddr p))
      ((w.bt p).db_oflags &&& DB_CREATE != 0) BUSY_RETRY_COUNT.toNat 0 w
    rw [hv] at f1 f2
    have hv2 : db_open_retry ((w.shared (w.btAddr p)).metadb.getD 0) (metaName w (w.btAddr p))
        ((w.shared (w.btAddr p)).db_oflags &&& DB_CREATE != 0) BUSY_RETRY_COUNT.toNat 0 w
        = (0, v) := hv
    have hb : v.bt p = w.bt p := by
      unfold World.bt
      rw [f1, f2]
    refine ⟨?_, by rw [hb]; exact hmw, by rw [hb]; exact htw⟩
    unfold btreeOpenMetaTables_open
    simp only []
    rw [hv2]
    simp
  refine ⟨?_, ?_, ?_, ?_, ?_, ?_⟩
  · intro h name create v
    obtain ⟨n, b1, b2, b3⟩ := db_open_retry_bound h name create BUSY_RETRY_COUNT.toNat 0 v
      (le_refl 0) (by decide) (by decide)
    exact ⟨n, by unfold BUSY_RETRY_COUNT at b1; omega, b2, b3⟩
  · intro h name create v ds rest hv hds hlen hok
    have hr : ∀ d, rest.head? = some d → ¬ (d = DB_LOCK_DEADLOCK ∨ d = DB_LOCK_NOTGRANTED) := by
      intro d hd hbusy
      obtain ⟨tl, htl⟩ : ∃ tl, rest = d :: tl := by
        cases rest with
        | nil => simp at hd
        | cons x xs =>
          simp only [List.head?_cons, Option.some.injEq] at hd
          exact ⟨xs, by rw [hd]⟩
      have hd0 := (busy_status d hbusy).1
      rw [db_open_fault { v with faults := rest } h none name create d tl htl hd0] at hok
      exact hd0 hok
    have e := db_open_retry_skip h name create ds BUSY_RETRY_COUNT.toNat 0 v rest hv hds hr
      (by unfold BUSY_RETRY_COUNT; omega) (by rw [BUSY_RETRY_COUNT_toNat]; exact hlen)
    exact ⟨by rw [e]; exact hok, e⟩
  · intro ds rest hw hds hlen hr
    rw [hwhole]
    exact btreeOpenMetaTables_open_skip w p creating ds rest hw hds hr hlen
  · intro v ds rest hv hw hds hlen hr
    rw [hwhole, (htab v hv).1]
    exact btreeOpenMetaTables_tables_skip v p creating ds rest hw hds hr hlen
  · intro ds rest hw hds hlen
    rw [hwhole]
    obtain ⟨c1, c2, c3, c4⟩ :=
      btreeOpenMetaTables_open_exhaust w p creating ds rest m t hmw htw hw hds hlen
    refine ⟨c1, c2, c3, by rw [hmw]; simp, by rw [htw]; simp, ?_⟩
    rw [c4, hmw, htw]
    rfl
  · intro v ds rest hv hw hds hlen
    obtain ⟨g1, g2, g3⟩ := htab v hv
    rw [hwhole, g1]
    obtain ⟨c1, c2, c3, c4⟩ :=
      btreeOpenMetaTables_tables_exhaust v p creating ds rest m t g2 g3 hw hds hlen
    refine ⟨c1, c2, c3, ?_⟩
    rw [c4, hmw, htw]
    rfl

/-- C23, witness: in `World.metaBusy` the two handles (9 and 10) are created
and the metadata open deadlocks one hundred times: `btreeOpenMetaTables`
returns `SQLITE_BUSY`, has closed the handles 10 and 9 and left both
references empty.  In `World.metaRetry` the metadata open fails three times
before it succeeds: the function does what it does when the open succeeds at
once. -/
theorem btreeOpenMetaTables_retry_witness :
    (World.metaBusy.bt 1).metadb = none ∧
    btreeOpenMetaTables_create World.metaBusy 1
      = (0, (btreeOpenMetaTables_create World.metaBusy 1).2) ∧
    (btreeOpenMetaTables_create World.metaBusy 1).2.faults
      = List.replicate 100 DB_LOCK_DEADLOCK ++ [] ∧
    (btreeOpenMetaTables World.metaBusy 1 true).1 = SQLITE_BUSY ∧
    ((btreeOpenMetaTables World.metaBusy 1 true).2.2.bt 1).metadb = none ∧
    ((btreeOpenMetaTables World.metaBusy 1 true).2.2.bt 1).tablesdb = none ∧
    (btreeOpenMetaTables World.metaBusy 1 true).2.2.events
      = [Event.db_close 10, Event.db_close 9] ∧
    btreeOpenMetaTables World.metaRetry 1 true
      = btreeOpenMetaTables_open
          { (btreeOpenMetaTables_create World.metaRetry 1).2 with
            faults := [0, DB_LOCK_NOTGRANTED, DB_LOCK_DEADLOCK] } 1 true := by
  have hm : (World.metaBusy.bt 1).metadb = none := by decide
  have hc : btreeOpenMetaTables_create World.metaBusy 1
      = (0, (btreeOpenMetaTables_create World.metaBusy 1).2) := Prod.ext (by decide) rfl
  have hf : (btreeOpenMetaTables_create World.metaBusy 1).2.faults
      = List.replicate 100 DB_LOCK_DEADLOCK ++ [] := by decide
  obtain ⟨c1, c2, c3, _, _, c6⟩ :=
    (btreeOpenMetaTables_retry World.metaBusy _ 1 true hm hc).2.2.2.2.1
      (List.replicate 100 DB_LOCK_DEADLOCK) [] hf
      (fun d hd => Or.inl (List.eq_of_mem_replicate hd)) (by simp)
  have hm2 : (World.metaRetry.bt 1).metadb = none := by decide
  have hc2 : btreeOpenMetaTables_create World.metaRetry 1
      = (0, (btreeOpenMetaTables_create World.metaRetry 1).2) := Prod.ext (by decide) rfl
  have r := (btreeOpenMetaTables_retry World.metaRetry _ 1 true hm2 hc2).2.2.1
    [DB_LOCK_DEADLOCK, DB_LOCK_NOTGRANTED, DB_LOCK_DEADLOCK]
    [0, DB_LOCK_NOTGRANTED, DB_LOCK_DEADLOCK] (by decide) (by decide) (by decide) (by decide)
  exact ⟨hm, hc, hf, c1, c2, c3, c6.trans (by decide), r⟩

/-! ### A reference that is not given back -/

/-- C28, failing input: "t.db" is open once (`World.open1`: the `Btree` 1 on
the registered `BtShared` 2, `nRef = 1`), and a second `sqlite3BtreeOpen` of
it, by another database context, fails because the engine refuses to open
the environment (`EACCES`).  `btreeGetSharedBtree` has counted the new
reference before `btreeOpenEnvironment` fails, and the exit `err` of
`sqlite3BtreeOpen` frees the new `Btree` without taking the count back: the
call returns `SQLITE_READONLY` and no handle, and leaves `nRef = 2` with one
live handle.  When that handle is closed, `nRef` falls to 1, not 0: the
`BtShared` stays in the registry with no handle on it and its environment is
never closed, where a close of the only handle of `World.open1` empties the
registry and closes the environment. -/
theorem sqlite3BtreeOpen_failed_nRef :
    (World.open1.shared 2).nRef = 1 ∧ World.open1.g_shared_btrees = [2] ∧
    (World.open1.btrees 1).pBt = some 2 ∧
    World.afterFailedOpen.1 = SQLITE_READONLY ∧ World.afterFailedOpen.2.1 = none ∧
    (World.afterFailedOpen.2.2.shared 2).nRef = 2 ∧
    World.afterFailedOpen.2.2.g_shared_btrees = [2] ∧
    (sqlite3BtreeClose (EnvOps.named EnvOps.simple) World.afterFailedOpen.2.2 1).1 = SQLITE_OK ∧
    ((sqlite3BtreeClose (EnvOps.named EnvOps.simple) World.afterFailedOpen.2.2 1).2.shared 2).nRef
      = 1 ∧
    (sqlite3BtreeClose (EnvOps.named EnvOps.simple) World.afterFailedOpen.2.2 1).2.g_shared_btrees
      = [2] ∧
    (sqlite3BtreeClose (EnvOps.named EnvOps.simple) World.afterFailedOpen.2.2
      1).2.events.filter Event.isEnvClose = [] ∧
    (sqlite3BtreeClose (EnvOps.named EnvOps.simple) World.open1 1).2.g_shared_btrees = [] ∧
    (sqlite3BtreeClose (EnvOps.named EnvOps.simple) World.open1 1).2.events.filter Event.isEnvClose
      = [Event.env_close 1] := by
  refine ⟨?_, ?_, ?_, ?_, ?_, ?_, ?_, ?_, ?_, ?_, ?_, ?_, ?_⟩ <;> decide!

end BerkeleyDB
